import Mathlib

/-!
# Outbound mail transfer core: a shallow embedding of `smtpd/mta.c`

The relay scheduler of the mail transfer agent is embedded as pure functions
over an explicit program state.

Conventions of the embedding.

* Every interned entity lives in a heap that is a total function from its
  pointer to its record.  A pointer is the key under which the entity is
  interned in its splay tree (each tree holds at most one entity per key, so
  pointer identity and key identity coincide): a host pointer is its socket
  address, a source pointer is its optional socket address, a route pointer is
  the pair `(src, dst)`, a connector pointer is the pair `(relay, source)`.
  Relays and domains are addressed by natural numbers.  The fields `src`,
  `dst`, `relay`, `source` and `sa` of the C records are therefore the
  components of the pointer.
* The splay trees are lists of pointers.  `free` leaves the heap cell as it is.
* `time(NULL)` is the parameter `now` of every entry point: the clock does not
  advance inside one handler.
* `time_t` and `int` values are integers, `size_t` values are naturals.  The
  `unsigned long long` product of `mta_route_disable` wraps modulo `2 ^ 64`
  and the `int` product of `mta_route_unref` wraps to 32 bits.
* Calls that leave the process (sessions, lookup and resolver requests, queue
  outcomes, statistics) are appended to the event list `out`.  Debug and
  information logging is not modelled, except for the per-MX debug lines of
  `mta_find_route`, which are returned as a list of verdicts.
-/

namespace Mta

/-! ## Bit masks -/

/-- C test `f & m`. -/
def has_flag (f m : Nat) : Bool := (f &&& m) != 0

/-- C statement `f |= m`. -/
def set_flag (f m : Nat) : Nat := f ||| m

/-- C statement `f &= ~m`. -/
def clr_flag (f m : Nat) : Nat := f ^^^ (f &&& m)

/-! ## Constants of `mta.c` -/

def MAXERROR_PER_HOST : Nat := 4
def DELAY_CHECK_SOURCE : Int := 1
def DELAY_CHECK_SOURCE_SLOW : Int := 10
def DELAY_CHECK_SOURCE_FAST : Int := 0
def DELAY_CHECK_LIMIT : Int := 5
def DELAY_ROUTE_BASE : Int := 200
def DELAY_ROUTE_MAX : Int := 3600 * 4
def HOSTSTAT_EXPIRE_DELAY : Int := 4 * 3600

/-! ## Constants of `smtpd.h`

The header is not among the sources.  The flag names and their composites are
those the specification lists; each named flag is given a bit of its own. -/

/-- Modelled from the spec: `smtpd.h` is missing; route flag `NEW` (never validated). -/
def ROUTE_NEW : Nat := 0x01
/-- Modelled from the spec: `smtpd.h` is missing; route flag `RUNQ` (scheduled on timer). -/
def ROUTE_RUNQ : Nat := 0x02
/-- Modelled from the spec: `smtpd.h` is missing; route flag `KEEPALIVE`. -/
def ROUTE_KEEPALIVE : Nat := 0x04
/-- Modelled from the spec: `smtpd.h` is missing; route flag `DISABLED_NET`. -/
def ROUTE_DISABLED_NET : Nat := 0x10
/-- Modelled from the spec: `smtpd.h` is missing; route flag `DISABLED_SMTP`. -/
def ROUTE_DISABLED_SMTP : Nat := 0x20
/-- Modelled from the spec: `smtpd.h` is missing; composite `DISABLED` of the two disable bits. -/
def ROUTE_DISABLED : Nat := ROUTE_DISABLED_NET ||| ROUTE_DISABLED_SMTP

/-- Modelled from the spec: `smtpd.h` is missing; connector error bit `ERROR_FAMILY`. -/
def CONNECTOR_ERROR_FAMILY : Nat := 0x0001
/-- Modelled from the spec: `smtpd.h` is missing; connector error bit `ERROR_SOURCE`. -/
def CONNECTOR_ERROR_SOURCE : Nat := 0x0002
/-- Modelled from the spec: `smtpd.h` is missing; connector error bit `ERROR_MX`. -/
def CONNECTOR_ERROR_MX : Nat := 0x0004
/-- Modelled from the spec: `smtpd.h` is missing; connector error bit `ERROR_ROUTE_NET`. -/
def CONNECTOR_ERROR_ROUTE_NET : Nat := 0x0008
/-- Modelled from the spec: `smtpd.h` is missing; connector error bit `ERROR_ROUTE_SMTP`. -/
def CONNECTOR_ERROR_ROUTE_SMTP : Nat := 0x0010
/-- Modelled from the spec: `smtpd.h` is missing; composite `ERROR_ROUTE = NET|SMTP`. -/
def CONNECTOR_ERROR_ROUTE : Nat := CONNECTOR_ERROR_ROUTE_NET ||| CONNECTOR_ERROR_ROUTE_SMTP
/-- Modelled from the spec: `smtpd.h` is missing; aggregate `ERROR = SOURCE|MX|FAMILY|ROUTE`. -/
def CONNECTOR_ERROR : Nat :=
  CONNECTOR_ERROR_SOURCE ||| CONNECTOR_ERROR_MX ||| CONNECTOR_ERROR_FAMILY ||| CONNECTOR_ERROR_ROUTE
/-- Modelled from the spec: `smtpd.h` is missing; limit class reported by the selector. -/
def CONNECTOR_LIMIT_HOST : Nat := 0x0100
/-- Modelled from the spec: `smtpd.h` is missing; limit class reported by the selector. -/
def CONNECTOR_LIMIT_ROUTE : Nat := 0x0200
/-- Modelled from the spec: `smtpd.h` is missing; limit class of the connect loop. -/
def CONNECTOR_LIMIT_SOURCE : Nat := 0x0400
/-- Modelled from the spec: `smtpd.h` is missing; limit class of the connect loop. -/
def CONNECTOR_LIMIT_RELAY : Nat := 0x0800
/-- Modelled from the spec: `smtpd.h` is missing; limit class of the connect loop. -/
def CONNECTOR_LIMIT_CONN : Nat := 0x1000
/-- Modelled from the spec: `smtpd.h` is missing; limit class of the connect loop. -/
def CONNECTOR_LIMIT_DOMAIN : Nat := 0x2000
/-- Modelled from the spec: `smtpd.h` is missing; connector flag `NEW`. -/
def CONNECTOR_NEW : Nat := 0x10000
/-- Modelled from the spec: `smtpd.h` is missing; connector flag `WAIT`. -/
def CONNECTOR_WAIT : Nat := 0x20000

/-- Modelled from the spec: `smtpd.h` is missing; host flag `IGNORE`. -/
def HOST_IGNORE : Nat := 0x01

/-- Modelled from the spec: `smtpd.h` is missing; relay status bit `WAIT_MX`. -/
def RELAY_WAIT_MX : Nat := 0x01
/-- Modelled from the spec: `smtpd.h` is missing; relay status bit `WAIT_PREFERENCE`. -/
def RELAY_WAIT_PREFERENCE : Nat := 0x02
/-- Modelled from the spec: `smtpd.h` is missing; relay status bit `WAIT_SECRET`. -/
def RELAY_WAIT_SECRET : Nat := 0x04
/-- Modelled from the spec: `smtpd.h` is missing; relay status bit tested by `mta_query_limits`. -/
def RELAY_WAIT_LIMITS : Nat := 0x08
/-- Modelled from the spec: `smtpd.h` is missing; relay status bit `WAIT_SOURCE`. -/
def RELAY_WAIT_SOURCE : Nat := 0x10
/-- Modelled from the spec: `smtpd.h` is missing; relay status bit `WAIT_CONNECTOR`. -/
def RELAY_WAIT_CONNECTOR : Nat := 0x20
/-- Modelled from the spec: `smtpd.h` is missing; the union of the relay status bits. -/
def RELAY_WAITMASK : Nat :=
  RELAY_WAIT_MX ||| RELAY_WAIT_PREFERENCE ||| RELAY_WAIT_SECRET ||| RELAY_WAIT_LIMITS |||
    RELAY_WAIT_SOURCE ||| RELAY_WAIT_CONNECTOR

/-- Modelled from the spec: `smtpd.h` is missing; relay flag `AUTH`. -/
def RELAY_AUTH : Nat := 0x08

/-- Modelled from the spec: `smtpd.h` is missing; delivery code `ok` (a non-zero message type). -/
def IMSG_DELIVERY_OK : Nat := 1
/-- Modelled from the spec: `smtpd.h` is missing; delivery code `tempfail`. -/
def IMSG_DELIVERY_TEMPFAIL : Nat := 2
/-- Modelled from the spec: `smtpd.h` is missing; delivery code `permfail`. -/
def IMSG_DELIVERY_PERMFAIL : Nat := 3
/-- Modelled from the spec: `smtpd.h` is missing; delivery code `loop`. -/
def IMSG_DELIVERY_LOOP : Nat := 4

/-- Modelled from the spec: `smtpd.h` is missing; size of a host name buffer. -/
def SMTPD_MAXHOSTNAMELEN : Nat := 256

/-- Modelled from the spec: `smtpd.h` is missing; MX lookup status `OK` (the
source tests it as zero). -/
def DNS_OK : Nat := 0
/-- Modelled from the spec: `smtpd.h` is missing; MX lookup status `RETRY`. -/
def DNS_RETRY : Nat := 1
/-- Modelled from the spec: `smtpd.h` is missing; MX lookup status `EINVAL`. -/
def DNS_EINVAL : Nat := 2
/-- Modelled from the spec: `smtpd.h` is missing; MX lookup status `ENONAME`. -/
def DNS_ENONAME : Nat := 3
/-- Modelled from the spec: `smtpd.h` is missing; MX lookup status `ENOTFOUND`. -/
def DNS_ENOTFOUND : Nat := 4

/-! ## Records -/

/-- Socket address: length, family and the remaining bytes. -/
structure sockaddr where
  sa_len : Nat
  sa_family : Nat
  sa_data : List Nat
deriving DecidableEq, Repr

abbrev host_ptr := sockaddr
abbrev source_ptr := Option sockaddr
abbrev route_ptr := source_ptr × host_ptr
abbrev relay_ptr := Nat
abbrev domain_ptr := Nat
abbrev connector_ptr := relay_ptr × source_ptr

/-- Limits profile (`struct mta_limits`). -/
structure mta_limits where
  maxconn_per_host : Nat
  maxconn_per_route : Nat
  maxconn_per_source : Nat
  maxconn_per_connector : Nat
  maxconn_per_relay : Nat
  maxconn_per_domain : Nat
  conndelay_host : Int
  conndelay_route : Int
  conndelay_source : Int
  conndelay_connector : Int
  conndelay_relay : Int
  conndelay_domain : Int
  discdelay_route : Int
  family : Nat
deriving DecidableEq, Repr

/-- Host record (`struct mta_host`); its `sa` is the pointer. -/
structure struct_mta_host where
  refcount : Int
  nconn : Nat
  lastconn : Int
  flags : Nat
  nerror : Nat
deriving DecidableEq, Repr

/-- Source record (`struct mta_source`); its `sa` is the pointer. -/
structure struct_mta_source where
  refcount : Int
  nconn : Nat
  lastconn : Int
deriving DecidableEq, Repr

/-- MX entry (`struct mta_mx`). -/
structure mta_mx where
  host : host_ptr
  preference : Int
deriving DecidableEq, Repr

/-- Domain record (`struct mta_domain`).  `waitq` is the list of relays waiting
on the MX list of the domain. -/
structure struct_mta_domain where
  name : String
  flags : Nat
  mxs : List mta_mx
  mxstatus : Nat
  refcount : Int
  nconn : Nat
  lastconn : Int
  lastmxquery : Int
  waitq : List relay_ptr
deriving DecidableEq, Repr

/-- Route record (`struct mta_route`); `src` and `dst` are the pointer. -/
structure struct_mta_route where
  id : Nat
  flags : Nat
  penalty : Int
  refcount : Int
  nconn : Nat
  lastconn : Int
  lastdisc : Int
  lastpenalty : Int
deriving DecidableEq, Repr

/-- Connector record (`struct mta_connector`); `relay` and `source` are the pointer. -/
structure struct_mta_connector where
  flags : Nat
  nconn : Nat
  lastconn : Int
deriving DecidableEq, Repr

/-- Envelope held by a task (`struct mta_envelope`). -/
structure mta_envelope where
  id : Nat
  creation : Int
  dest : String
  rcpt : Option String
  session : Nat
deriving DecidableEq, Repr

/-- Task of a relay (`struct mta_task`). -/
structure mta_task where
  msgid : Nat
  sender : String
  envelopes : List mta_envelope
deriving DecidableEq, Repr

/-- Relay record (`struct mta_relay`).  `connectors` is the tree of the relay,
keyed by source pointer. -/
structure struct_mta_relay where
  id : Nat
  domain : domain_ptr
  flags : Nat
  port : Nat
  cert : Option String
  backupname : Option String
  backuppref : Int
  sourcetable : Option String
  authtable : Option String
  authlabel : Option String
  secret : Option String
  limits : Option mta_limits
  status : Nat
  refcount : Int
  ntask : Nat
  tasks : List mta_task
  connectors : List source_ptr
  sourceloop : Nat
  lastsource : Int
  nextsource : Int
  nconn : Nat
  nconn_ready : Nat
  lastconn : Int
  fail : Nat
  failstr : String
deriving DecidableEq, Repr

/-- Host status entry (`struct hoststat`); its name is the key of the dictionary. -/
structure hoststat where
  tm : Int
  error : String
  deferred : List Nat
deriving DecidableEq, Repr

/-- Calls that leave the scheduler. -/
inductive mta_event where
  | session (relay : relay_ptr) (route : route_ptr)
  | lka_source (id : Nat) (table : String)
  | lka_secret (id : Nat) (table : Option String) (label : Option String)
  | dns_query_host (id : Nat) (name : String)
  | dns_query_mx (id : Nat) (name : String)
  | dns_query_mx_preference (id : Nat) (name : String) (backup : Option String)
  | queue_ok (evpid : Nat)
  | queue_tempfail (evpid : Nat) (penalty : Nat) (status : String)
  | queue_permfail (evpid : Nat) (status : String)
  | queue_loop (evpid : Nat)
  | queue_schedule (evpid : Nat)
  | stat_increment (name : String) (n : Nat)
  | stat_decrement (name : String) (n : Nat)
deriving DecidableEq, Repr

/-- The program state: heaps, trees, wait trees, run-queues and globals. -/
structure mta_state where
  relays : relay_ptr → struct_mta_relay
  domains : domain_ptr → struct_mta_domain
  hosts : host_ptr → struct_mta_host
  sources : source_ptr → struct_mta_source
  connectors : connector_ptr → struct_mta_connector
  routes : route_ptr → struct_mta_route
  relays_tree : List relay_ptr
  domains_tree : List domain_ptr
  hosts_tree : List host_ptr
  sources_tree : List source_ptr
  routes_tree : List route_ptr
  wait_mx : List (Nat × domain_ptr)
  wait_preference : List (Nat × relay_ptr)
  wait_secret : List (Nat × relay_ptr)
  wait_source : List (Nat × relay_ptr)
  runq_relay : List (Int × relay_ptr)
  runq_connector : List (Int × connector_ptr)
  runq_route : List (Int × route_ptr)
  runq_hoststat : List (Int × String)
  max_seen_conndelay_route : Int
  max_seen_discdelay_route : Int
  rid : Nat
  uid : Nat
  hoststat : List (String × hoststat)
  sc_limits_dict : String → Option mta_limits
  out : List mta_event

/-! ## Zeroed records and the initial state -/

/-- A zeroed relay record (`xcalloc`). -/
def calloc_relay : struct_mta_relay :=
  { id := 0, domain := 0, flags := 0, port := 0, cert := none, backupname := none, backuppref := 0,
    sourcetable := none, authtable := none, authlabel := none, secret := none, limits := none,
    status := 0,
    refcount := 0, ntask := 0, tasks := [], connectors := [], sourceloop := 0, lastsource := 0,
    nextsource := 0, nconn := 0, nconn_ready := 0, lastconn := 0, fail := 0, failstr := "" }

/-- A zeroed domain record (`xcalloc`). -/
def calloc_domain : struct_mta_domain :=
  { name := "", flags := 0, mxs := [], mxstatus := 0, refcount := 0, nconn := 0, lastconn := 0,
    lastmxquery := 0, waitq := [] }

/-- A zeroed host record (`xcalloc`). -/
def calloc_host : struct_mta_host :=
  { refcount := 0, nconn := 0, lastconn := 0, flags := 0, nerror := 0 }

/-- A zeroed source record (`xcalloc`). -/
def calloc_source : struct_mta_source := { refcount := 0, nconn := 0, lastconn := 0 }

/-- A zeroed connector record (`xcalloc`). -/
def calloc_connector : struct_mta_connector := { flags := 0, nconn := 0, lastconn := 0 }

/-- A zeroed route record (`xcalloc`). -/
def calloc_route : struct_mta_route :=
  { id := 0, flags := 0, penalty := 0, refcount := 0, nconn := 0, lastconn := 0, lastdisc := 0,
    lastpenalty := 0 }

/-- The state set up by `mta()`: empty trees, wait trees, run-queues and
dictionary; `dict` is the configured table of limits. -/
def mta_init (dict : String → Option mta_limits) : mta_state :=
  { relays := fun _ => calloc_relay
    domains := fun _ => calloc_domain
    hosts := fun _ => calloc_host
    sources := fun _ => calloc_source
    connectors := fun _ => calloc_connector
    routes := fun _ => calloc_route
    relays_tree := []
    domains_tree := []
    hosts_tree := []
    sources_tree := []
    routes_tree := []
    wait_mx := []
    wait_preference := []
    wait_secret := []
    wait_source := []
    runq_relay := []
    runq_connector := []
    runq_route := []
    runq_hoststat := []
    max_seen_conndelay_route := 0
    max_seen_discdelay_route := 0
    rid := 0
    uid := 0
    hoststat := []
    sc_limits_dict := dict
    out := [] }

/-! ## Run-queues -/

/-- Modelled from the spec: `runq.c` is missing; `schedule(deadline, tag, opaque)`
inserts an entry, after the entries already pending.  At most one entry is
pending per `(tag, opaque)`: an entry that is already pending for `arg` is
replaced by the new one. -/
def runq_schedule {α : Type} [DecidableEq α] (q : List (Int × α)) (tm : Int) (arg : α) :
    List (Int × α) :=
  q.filter (fun e => !decide (e.2 = arg)) ++ [(tm, arg)]

/-- Modelled from the spec: `runq.c` is missing; `cancel(tag, opaque)` removes the
pending entry of `arg` if there is one. -/
def runq_cancel {α : Type} [DecidableEq α] (q : List (Int × α)) (arg : α) : List (Int × α) :=
  q.eraseP (fun e => decide (e.2 = arg))

/-- Modelled from the spec: `runq.c` is missing; `pending(tag, opaque)` is the
deadline of the pending entry of `arg`. -/
def runq_pending {α : Type} [DecidableEq α] (q : List (Int × α)) (arg : α) : Option Int :=
  (q.find? (fun e => decide (e.2 = arg))).map Prod.fst

/-! ## Machine arithmetic -/

/-- Value of an `int` expression after wrapping to 32 bits. -/
def wrap_int (x : Int) : Int := (x + 2 ^ 31) % 2 ^ 32 - 2 ^ 31

/-- Value of an `unsigned long long` expression: reduction modulo `2 ^ 64`. -/
def wrap_ull (x : Int) : Int := x % 2 ^ 64

/-! ## Sources and hosts: reference counting -/

/-- Embeds `mta_source_ref`. -/
def mta_source_ref (S : mta_state) (s : source_ptr) : mta_state :=
  let s1 : struct_mta_source := { S.sources s with refcount := (S.sources s).refcount + 1 }
  { S with sources := Function.update S.sources s s1 }

/-- Embeds `mta_source_unref`. -/
def mta_source_unref (S : mta_state) (s : source_ptr) : mta_state :=
  let rc := (S.sources s).refcount - 1
  let S1 := { S with sources := Function.update S.sources s { S.sources s with refcount := rc } }
  if rc ≠ 0 then S1
  else
    { S1 with
      sources_tree := S1.sources_tree.erase s
      out := S1.out ++ [mta_event.stat_decrement "mta.source" 1] }

/-- Embeds `mta_host_ref`. -/
def mta_host_ref (S : mta_state) (h : host_ptr) : mta_state :=
  let h1 : struct_mta_host := { S.hosts h with refcount := (S.hosts h).refcount + 1 }
  { S with hosts := Function.update S.hosts h h1 }

/-- Embeds `mta_host_unref`. -/
def mta_host_unref (S : mta_state) (h : host_ptr) : mta_state :=
  let rc := (S.hosts h).refcount - 1
  let S1 := { S with hosts := Function.update S.hosts h { S.hosts h with refcount := rc } }
  if rc ≠ 0 then S1
  else
    { S1 with
      hosts_tree := S1.hosts_tree.erase h
      out := S1.out ++ [mta_event.stat_decrement "mta.host" 1] }

/-! ## Routes -/

/-- Embeds `mta_route(src, dst)`: the interned route is `(src, dst)`; the
function returns the state after interning. -/
def mta_route (S : mta_state) (src : source_ptr) (dst : host_ptr) : mta_state :=
  let k : route_ptr := (src, dst)
  if k ∈ S.routes_tree then
    let r := S.routes k
    if has_flag r.flags ROUTE_RUNQ then
      let r1 := { r with
        flags := clr_flag r.flags (ROUTE_RUNQ ||| ROUTE_KEEPALIVE)
        refcount := r.refcount - 1 }
      let r2 : struct_mta_route := { r1 with refcount := r1.refcount + 1 }
      { S with
        routes := Function.update S.routes k r2
        runq_route := runq_cancel S.runq_route k }
    else
      let r1 : struct_mta_route := { r with refcount := r.refcount + 1 }
      { S with routes := Function.update S.routes k r1 }
  else
    let r : struct_mta_route :=
      { id := S.rid + 1, flags := set_flag 0 ROUTE_NEW, penalty := 0, refcount := 0, nconn := 0,
        lastconn := 0, lastdisc := 0, lastpenalty := 0 }
    let S1 := { S with
      rid := S.rid + 1
      routes := Function.update S.routes k r
      routes_tree := k :: S.routes_tree }
    let S2 := mta_source_ref S1 src
    let S3 := mta_host_ref S2 dst
    let S4 := { S3 with out := S3.out ++ [mta_event.stat_increment "mta.route" 1] }
    let r1 : struct_mta_route := { S4.routes k with refcount := (S4.routes k).refcount + 1 }
    { S4 with routes := Function.update S4.routes k r1 }

/-- Embeds `mta_route_ref`. -/
def mta_route_ref (S : mta_state) (k : route_ptr) : mta_state :=
  let r1 : struct_mta_route := { S.routes k with refcount := (S.routes k).refcount + 1 }
  { S with routes := Function.update S.routes k r1 }

/-- The deadline `sched` computed by `mta_route_unref` once the last reference
is gone (`0` when the route is not to be kept). -/
def mta_route_unref_sched (now : Int) (S : mta_state) (r : struct_mta_route) : Int :=
  if r.penalty ≠ 0 then
    let delay := wrap_int (wrap_int (DELAY_ROUTE_BASE * r.penalty) * r.penalty)
    let delay := if delay > DELAY_ROUTE_MAX then DELAY_ROUTE_MAX else delay
    r.lastpenalty + delay
  else if ¬ (has_flag r.flags ROUTE_KEEPALIVE = true) then
    let sched : Int :=
      if r.lastconn + S.max_seen_conndelay_route > now then
        r.lastconn + S.max_seen_conndelay_route
      else 0
    if r.lastdisc + S.max_seen_discdelay_route > now ∧
        r.lastdisc + S.max_seen_discdelay_route < sched then
      r.lastdisc + S.max_seen_discdelay_route
    else sched
  else 0

/-- Embeds `mta_route_unref`. -/
def mta_route_unref (now : Int) (S : mta_state) (k : route_ptr) : mta_state :=
  let r := { S.routes k with refcount := (S.routes k).refcount - 1 }
  let S1 := { S with routes := Function.update S.routes k r }
  if r.refcount ≠ 0 then S1
  else
    let sched := mta_route_unref_sched now S1 r
    if sched > now then
      let r1 : struct_mta_route :=
        { r with flags := set_flag r.flags ROUTE_RUNQ, refcount := r.refcount + 1 }
      { S1 with
        routes := Function.update S1.routes k r1
        runq_route := runq_schedule S1.runq_route sched k }
    else
      let S2 := { S1 with routes_tree := S1.routes_tree.erase k }
      let S3 := mta_source_unref S2 k.1
      let S4 := mta_host_unref S3 k.2
      { S4 with out := S4.out ++ [mta_event.stat_decrement "mta.route" 1] }

/-- The suspension delay computed by `mta_route_disable` for a penalty. -/
def mta_route_disable_delay (penalty : Int) : Int :=
  let delay := wrap_ull (wrap_ull (wrap_ull DELAY_ROUTE_BASE * wrap_ull penalty) * wrap_ull penalty)
  if delay > DELAY_ROUTE_MAX then DELAY_ROUTE_MAX else delay

/-- Embeds `mta_route_disable`. -/
def mta_route_disable (now : Int) (S : mta_state) (k : route_ptr) (penalty : Int)
    (reason : Nat) : mta_state :=
  let r := S.routes k
  let r1 := { r with penalty := r.penalty + penalty, lastpenalty := now }
  let delay := mta_route_disable_delay r1.penalty
  let S1 := { S with routes := Function.update S.routes k r1 }
  let S2 :=
    if has_flag r1.flags ROUTE_DISABLED then
      mta_route_unref now { S1 with runq_route := runq_cancel S1.runq_route k } k
    else S1
  let r2 := S2.routes k
  let r3 : struct_mta_route := { r2 with flags := set_flag r2.flags (reason &&& ROUTE_DISABLED) }
  let S3 := { S2 with
    routes := Function.update S2.routes k r3
    runq_route := runq_schedule S2.runq_route (now + delay) k }
  mta_route_ref S3 k

/-- Embeds `mta_route_enable` (built with `DELAY_QUADRATIC`). -/
def mta_route_enable (now : Int) (S : mta_state) (k : route_ptr) : mta_state :=
  let r := S.routes k
  let r1 :=
    if has_flag r.flags ROUTE_DISABLED then
      { r with flags := set_flag (clr_flag r.flags ROUTE_DISABLED) ROUTE_NEW }
    else r
  let r2 :=
    if r1.penalty ≠ 0 then { r1 with penalty := r1.penalty - 1, lastpenalty := now }
    else r1
  { S with routes := Function.update S.routes k r2 }

/-! ## Route selection: `mta_find_route` -/

/-- The limits profile behind the pointer `relay->limits`.  Dereferencing a
null pointer is undefined in C; the embedding reads a zeroed profile. -/
def deref_limits (l : Option mta_limits) : mta_limits :=
  l.getD
    { maxconn_per_host := 0, maxconn_per_route := 0, maxconn_per_source := 0,
      maxconn_per_connector := 0, maxconn_per_relay := 0, maxconn_per_domain := 0,
      conndelay_host := 0, conndelay_route := 0, conndelay_source := 0, conndelay_connector := 0,
      conndelay_relay := 0, conndelay_domain := 0, discdelay_route := 0, family := 0 }

/-- What the loop of `mta_find_route` did with one MX entry: one constructor per
`continue` of the loop body (each but the first has a debug line in the
source), and `selected` for the entry that became the candidate. -/
inductive mx_verdict where
  | ignored
  | af_mismatch
  | host_limit
  | host_delay
  | suspended
  | not_validated
  | route_limit
  | conn_delay
  | disc_delay
  | worse
  | selected
deriving DecidableEq, Repr

/-- The three `break` statements of the loop of `mta_find_route`. -/
inductive loop_break where
  | best
  | blocked
  | backup
deriving DecidableEq, Repr

/-- The local variables of `mta_find_route`. -/
structure find_route_vars where
  tm : Int
  limit_host : Bool
  limit_route : Bool
  suspended_route : Nat
  family_mismatch : Bool
  level : Int
  best : Option route_ptr
  seen : Nat
deriving DecidableEq, Repr

/-- The test `c->relay->backuppref >= 0 && mx->preference >= c->relay->backuppref`. -/
def backup_excluded (backuppref preference : Int) : Bool :=
  decide (backuppref ≥ 0) && decide (preference ≥ backuppref)

/-- The block `if (mx->preference > level)` at the head of the loop body:
either one of the three `break`s, or the variables with the new level. -/
def mta_find_route_level (backuppref : Int) (mx : mta_mx) (v : find_route_vars) :
    Except loop_break find_route_vars :=
  if mx.preference > v.level then
    if v.best.isSome then Except.error loop_break.best
    else if v.limit_host || v.limit_route || decide (v.tm ≠ 0) then Except.error loop_break.blocked
    else if backup_excluded backuppref mx.preference then Except.error loop_break.backup
    else Except.ok { v with level := mx.preference }
  else Except.ok v

/-- The update `if (tm == 0 || t < tm) tm = t`. -/
def tm_min (tm t : Int) : Int := if tm = 0 ∨ t < tm then t else tm

/-- The address family test of the loop body: the source has an address of
another family than the host, or the limits impose another family. -/
def af_mismatch (src : source_ptr) (l : mta_limits) (h : host_ptr) : Bool :=
  (match src with
    | some sa => decide (sa.sa_family ≠ h.sa_family)
    | none => false) || (decide (l.family ≠ 0) && decide (l.family ≠ h.sa_family))

/-- The rest of the loop body of `mta_find_route` for one MX entry. -/
def mta_find_route_mx (now : Int) (l : mta_limits) (c : connector_ptr) (mx : mta_mx)
    (v : find_route_vars) (S : mta_state) : find_route_vars × mta_state × mx_verdict :=
  let h := S.hosts mx.host
  if has_flag h.flags HOST_IGNORE then (v, S, mx_verdict.ignored)
  else
    let v := { v with seen := v.seen + 1 }
    if af_mismatch c.2 l mx.host then
      ({ v with family_mismatch := true }, S, mx_verdict.af_mismatch)
    else if h.nconn ≥ l.maxconn_per_host then
      ({ v with limit_host := true }, S, mx_verdict.host_limit)
    else if h.lastconn + l.conndelay_host > now then
      ({ v with tm := tm_min v.tm (h.lastconn + l.conndelay_host) }, S, mx_verdict.host_delay)
    else
      let k : route_ptr := (c.2, mx.host)
      let S1 := mta_route S c.2 mx.host
      let r := S1.routes k
      if has_flag r.flags ROUTE_DISABLED then
        ({ v with suspended_route := v.suspended_route ||| (r.flags &&& ROUTE_DISABLED) },
          mta_route_unref now S1 k, mx_verdict.suspended)
      else if r.nconn ≠ 0 ∧ has_flag r.flags ROUTE_NEW = true then
        ({ v with limit_route := true }, mta_route_unref now S1 k, mx_verdict.not_validated)
      else if r.nconn ≥ l.maxconn_per_route then
        ({ v with limit_route := true }, mta_route_unref now S1 k, mx_verdict.route_limit)
      else if r.lastconn + l.conndelay_route > now then
        ({ v with tm := tm_min v.tm (r.lastconn + l.conndelay_route) },
          mta_route_unref now S1 k, mx_verdict.conn_delay)
      else if r.lastdisc + l.discdelay_route > now then
        ({ v with tm := tm_min v.tm (r.lastdisc + l.discdelay_route) },
          mta_route_unref now S1 k, mx_verdict.disc_delay)
      else
        match v.best with
        | some b =>
          if r.nconn ≥ (S1.routes b).nconn then (v, mta_route_unref now S1 k, mx_verdict.worse)
          else ({ v with best := some k }, mta_route_unref now S1 b, mx_verdict.selected)
        | none => ({ v with best := some k }, S1, mx_verdict.selected)

/-- Result of the loop of `mta_find_route`: the variables and the state at the
exit, the verdicts on the entries that went through the loop body, in list
order, and the `break` that ended the loop (`none` at the end of the list). -/
structure find_route_loop_result where
  vars : find_route_vars
  state : mta_state
  log : List (mta_mx × mx_verdict)
  brk : Option loop_break

/-- The loop `TAILQ_FOREACH(mx, &c->relay->domain->mxs, entry)` of `mta_find_route`. -/
def mta_find_route_loop (now : Int) (l : mta_limits) (c : connector_ptr) :
    List mta_mx → find_route_vars → mta_state → find_route_loop_result
  | [], v, S => { vars := v, state := S, log := [], brk := none }
  | mx :: rest, v, S =>
    match mta_find_route_level (S.relays c.1).backuppref mx v with
    | Except.error b => { vars := v, state := S, log := [], brk := some b }
    | Except.ok v1 =>
      let R := mta_find_route_loop now l c rest
        (mta_find_route_mx now l c mx v1 S).1 (mta_find_route_mx now l c mx v1 S).2.1
      { R with log := (mx, (mta_find_route_mx now l c mx v1 S).2.2) :: R.log }

/-- Result of `mta_find_route`: the returned route, the state, the two output
parameters, and the verdicts and exit of the loop. -/
structure find_route_result where
  route : Option route_ptr
  state : mta_state
  limits : Nat
  nextconn : Int
  log : List (mta_mx × mx_verdict)
  brk : Option loop_break

/-- The initial values of the local variables of `mta_find_route`. -/
def find_route_vars_init : find_route_vars :=
  { tm := 0, limit_host := false, limit_route := false, suspended_route := 0,
    family_mismatch := false, level := -1, best := none, seen := 0 }

/-- The statements of `mta_find_route` after the loop, when there is no best
route: the first matching case sets a connector error, a limit bit or
`*nextconn`. -/
def mta_find_route_none (S : mta_state) (c : connector_ptr) (v : find_route_vars)
    (limits : Nat) (nextconn : Int) : mta_state × Nat × Int :=
  let setc (m : Nat) (S : mta_state) : mta_state :=
    let c1 : struct_mta_connector :=
      { S.connectors c with flags := set_flag (S.connectors c).flags m }
    { S with connectors := Function.update S.connectors c c1 }
  if v.seen = 0 then (setc CONNECTOR_ERROR_MX S, limits, nextconn)
  else if v.limit_route then (S, set_flag limits CONNECTOR_LIMIT_ROUTE, nextconn)
  else if v.limit_host then (S, set_flag limits CONNECTOR_LIMIT_HOST, nextconn)
  else if v.tm ≠ 0 then (S, limits, if v.tm > nextconn then v.tm else nextconn)
  else if v.family_mismatch then (setc CONNECTOR_ERROR_FAMILY S, limits, nextconn)
  else if v.suspended_route ≠ 0 then
    let S1 := if has_flag v.suspended_route ROUTE_DISABLED_NET then
      setc CONNECTOR_ERROR_ROUTE_NET S else S
    let S2 := if has_flag v.suspended_route ROUTE_DISABLED_SMTP then
      setc CONNECTOR_ERROR_ROUTE_SMTP S1 else S1
    (S2, limits, nextconn)
  else (S, limits, nextconn)

/-- Embeds `mta_find_route(c, now, &limits, &nextconn)`. -/
def mta_find_route (S : mta_state) (c : connector_ptr) (now : Int) (limits : Nat)
    (nextconn : Int) : find_route_result :=
  let l := deref_limits (S.relays c.1).limits
  let R := mta_find_route_loop now l c (S.domains (S.relays c.1).domain).mxs
    find_route_vars_init S
  match R.vars.best with
  | some k =>
    { route := some k, state := R.state, limits := limits, nextconn := nextconn, log := R.log,
      brk := R.brk }
  | none =>
    let out := mta_find_route_none R.state c R.vars limits nextconn
    { route := none, state := out.1, limits := out.2.1, nextconn := out.2.2, log := R.log,
      brk := R.brk }

/-! ## The connect loop: `mta_connect` -/

/-- Embeds `mta_relay_ref`. -/
def mta_relay_ref (S : mta_state) (r : relay_ptr) : mta_state :=
  let r1 : struct_mta_relay := { S.relays r with refcount := (S.relays r).refcount + 1 }
  { S with relays := Function.update S.relays r r1 }

/-- The value of `nextconn` and `limits` computed by `mta_connect` before the
search for a route: the latest of the four `lastconn + conndelay` deadlines
that lie after `now`, and the limit bits of the counters at their cap. -/
def mta_connect_gates (now : Int) (S : mta_state) (c : connector_ptr) : Nat × Int :=
  let l := deref_limits (S.relays c.1).limits
  let relay := S.relays c.1
  let domain := S.domains relay.domain
  let source := S.sources c.2
  let conn := S.connectors c
  let limits : Nat := 0
  let nextconn : Int := now
  let nextconn := if domain.lastconn + l.conndelay_domain > nextconn then
    domain.lastconn + l.conndelay_domain else nextconn
  let limits := if domain.nconn ≥ l.maxconn_per_domain then
    set_flag limits CONNECTOR_LIMIT_DOMAIN else limits
  let nextconn := if source.lastconn + l.conndelay_source > nextconn then
    source.lastconn + l.conndelay_source else nextconn
  let limits := if source.nconn ≥ l.maxconn_per_source then
    set_flag limits CONNECTOR_LIMIT_SOURCE else limits
  let nextconn := if conn.lastconn + l.conndelay_connector > nextconn then
    conn.lastconn + l.conndelay_connector else nextconn
  let limits := if conn.nconn ≥ l.maxconn_per_connector then
    set_flag limits CONNECTOR_LIMIT_CONN else limits
  let nextconn := if relay.lastconn + l.conndelay_relay > nextconn then
    relay.lastconn + l.conndelay_relay else nextconn
  let limits := if relay.nconn ≥ l.maxconn_per_relay then
    set_flag limits CONNECTOR_LIMIT_RELAY else limits
  (limits, nextconn)

/-- Outcome of one pass of `mta_connect` up to the point where a route is
known: the function returns (`stop`), or a route was found (`route`) and the
pass goes on to spawn a session. -/
inductive connect_select where
  | stop (S : mta_state)
  | route (k : route_ptr) (S : mta_state)

/-- One pass of `mta_connect` from the label `again` down to the test
`route == NULL`. -/
def mta_connect_select (now : Int) (S : mta_state) (c : connector_ptr) : connect_select :=
  if has_flag (S.connectors c).flags CONNECTOR_ERROR then connect_select.stop S
  else
    let S0 := if has_flag (S.connectors c).flags CONNECTOR_WAIT then
      { S with runq_connector := runq_cancel S.runq_connector c } else S
    let relay := S0.relays c.1
    if relay.ntask = 0 then connect_select.stop S0
    else if relay.nconn_ready ≥ relay.ntask ∨ (relay.nconn > 2 ∧ relay.nconn ≥ relay.ntask / 2) then
      connect_select.stop S0
    else
      let g := mta_connect_gates now S0 c
      let limits := g.1
      let nextconn := g.2
      let F : find_route_result :=
        if limits = 0 ∧ nextconn ≤ now then mta_find_route S0 c now limits nextconn
        else { route := none, state := S0, limits := limits, nextconn := nextconn, log := [],
               brk := none }
      match F.route with
      | none =>
        let S1 := F.state
        if has_flag (S1.connectors c).flags CONNECTOR_ERROR then connect_select.stop S1
        else
          let nextconn := if F.limits ≠ 0 then now + DELAY_CHECK_LIMIT else F.nextconn
          let c1 : struct_mta_connector :=
            { S1.connectors c with flags := set_flag (S1.connectors c).flags CONNECTOR_WAIT }
          connect_select.stop
            { S1 with
              connectors := Function.update S1.connectors c c1
              runq_connector := runq_schedule S1.runq_connector nextconn c }
      | some k => connect_select.route k F.state

/-- The statements of `mta_connect` that spawn a session on `route`: the six
counters and time stamps, the call of `mta_session` and the relay reference. -/
def mta_connect_spawn (now : Int) (S : mta_state) (c : connector_ptr) (k : route_ptr) :
    mta_state :=
  let c1 : struct_mta_connector :=
    { S.connectors c with nconn := (S.connectors c).nconn + 1, lastconn := now }
  let S1 := { S with connectors := Function.update S.connectors c c1 }
  let r1 : struct_mta_relay :=
    { S1.relays c.1 with nconn := (S1.relays c.1).nconn + 1, lastconn := now }
  let S2 := { S1 with relays := Function.update S1.relays c.1 r1 }
  let d := (S2.relays c.1).domain
  let d1 : struct_mta_domain :=
    { S2.domains d with nconn := (S2.domains d).nconn + 1, lastconn := now }
  let S3 := { S2 with domains := Function.update S2.domains d d1 }
  let k1 : struct_mta_route :=
    { S3.routes k with nconn := (S3.routes k).nconn + 1, lastconn := now }
  let S4 := { S3 with routes := Function.update S3.routes k k1 }
  let s1 : struct_mta_source :=
    { S4.sources k.1 with nconn := (S4.sources k.1).nconn + 1, lastconn := now }
  let S5 := { S4 with sources := Function.update S4.sources k.1 s1 }
  let h1 : struct_mta_host :=
    { S5.hosts k.2 with nconn := (S5.hosts k.2).nconn + 1, lastconn := now }
  let S6 := { S5 with hosts := Function.update S5.hosts k.2 h1 }
  let S7 := { S6 with out := S6.out ++ [mta_event.session c.1 k] }
  mta_relay_ref S7 c.1

/-- Embeds `mta_connect`: the passes of the loop closed by `goto again`.  The
result is `none` when `fuel` passes do not reach a `return`. -/
def mta_connect : Nat → Int → mta_state → connector_ptr → Option mta_state
  | 0, _, _, _ => none
  | fuel + 1, now, S, c =>
    match mta_connect_select now S c with
    | connect_select.stop S1 => some S1
    | connect_select.route k S1 => mta_connect fuel now (mta_connect_spawn now S1 c k) c

/-! ## Relays, connectors, domains: construction and release -/

/-- Outcome of a handler: it returns with a new state, the process exits on a
fatal error (`errx`, `fatalx`), or the embedding ran out of `fuel`. -/
inductive mta_result where
  | done (S : mta_state)
  | fatal (msg : String)
  | fuel

/-- Sequencing of handlers. -/
def mta_result.bind (x : mta_result) (f : mta_state → mta_result) : mta_result :=
  match x with
  | mta_result.done S => f S
  | mta_result.fatal msg => mta_result.fatal msg
  | mta_result.fuel => mta_result.fuel

/-- Modelled from the spec: `generate_uid` is missing; it yields an identifier
that was not handed out before. -/
def generate_uid (S : mta_state) : Nat × mta_state := (S.uid + 1, { S with uid := S.uid + 1 })

/-- Embeds `mta_source(sa)`: the interned source is `sa`; the function returns
the state after interning. -/
def mta_source (S : mta_state) (sa : source_ptr) : mta_state :=
  let S1 :=
    if sa ∈ S.sources_tree then S
    else
      { S with
        sources := Function.update S.sources sa calloc_source
        sources_tree := sa :: S.sources_tree
        out := S.out ++ [mta_event.stat_increment "mta.source" 1] }
  mta_source_ref S1 sa

/-- Embeds `mta_connector(relay, source)`: the connector is `(relay, source)`;
the function returns the state after the lookup. -/
def mta_connector (S : mta_state) (r : relay_ptr) (s : source_ptr) : mta_state :=
  if s ∈ (S.relays r).connectors then S
  else
    let c1 : struct_mta_connector := { flags := set_flag 0 CONNECTOR_NEW, nconn := 0, lastconn := 0 }
    let S1 := { S with connectors := Function.update S.connectors (r, s) c1 }
    let S2 := mta_source_ref S1 s
    let r1 : struct_mta_relay :=
      { S2.relays r with connectors := (S2.relays r).connectors ++ [s] }
    { S2 with
      relays := Function.update S2.relays r r1
      out := S2.out ++ [mta_event.stat_increment "mta.connector" 1] }

/-- Embeds `mta_connector_free`. -/
def mta_connector_free (S : mta_state) (c : connector_ptr) : mta_state :=
  let S1 := if has_flag (S.connectors c).flags CONNECTOR_WAIT then
    { S with runq_connector := runq_cancel S.runq_connector c } else S
  let S2 := mta_source_unref S1 c.2
  { S2 with out := S2.out ++ [mta_event.stat_decrement "mta.connector" 1] }

/-- Embeds `mta_domain_unref`. -/
def mta_domain_unref (S : mta_state) (d : domain_ptr) : mta_state :=
  let d1 : struct_mta_domain := { S.domains d with refcount := (S.domains d).refcount - 1 }
  let S1 := { S with domains := Function.update S.domains d d1 }
  if d1.refcount ≠ 0 then S1
  else
    let S2 := d1.mxs.foldl (fun T mx => mta_host_unref T mx.host) S1
    let d2 : struct_mta_domain := { S2.domains d with mxs := [] }
    { S2 with
      domains := Function.update S2.domains d d2
      domains_tree := S2.domains_tree.erase d
      out := S2.out ++ [mta_event.stat_decrement "mta.domain" 1] }

/-- Embeds `mta_relay_unref`. -/
def mta_relay_unref (S : mta_state) (r : relay_ptr) : mta_state :=
  let r1 : struct_mta_relay := { S.relays r with refcount := (S.relays r).refcount - 1 }
  let S1 := { S with relays := Function.update S.relays r r1 }
  if r1.refcount ≠ 0 then S1
  else
    let S2 := { S1 with relays_tree := S1.relays_tree.erase r }
    let S3 := r1.connectors.foldl (fun T s => mta_connector_free T (r, s)) S2
    let r2 : struct_mta_relay := { S3.relays r with connectors := [] }
    let S4 := { S3 with relays := Function.update S3.relays r r2 }
    let S5 := mta_domain_unref S4 r2.domain
    { S5 with out := S5.out ++ [mta_event.stat_decrement "mta.relay" 1] }

/-! ## Host status cache -/

/-- Modelled from the spec: `lowercase` of `util.c` is missing; it copies the
name in lower case into a buffer of `len` bytes and fails when it does not fit. -/
def lowercase (s : String) (len : Nat) : Option String :=
  if s.data.length < len then some (String.mk (s.data.map Char.toLower)) else none

/-- Modelled from the spec: `dict.c` is missing; `dict_get` on the host status
dictionary. -/
def hoststat_get (d : List (String × hoststat)) (name : String) : Option hoststat :=
  (d.find? (fun e => decide (e.1 = name))).map Prod.snd

/-- Modelled from the spec: `dict.c` is missing; `dict_set` on the host status
dictionary. -/
def hoststat_set (d : List (String × hoststat)) (name : String) (hs : hoststat) :
    List (String × hoststat) :=
  if (d.find? (fun e => decide (e.1 = name))).isSome then
    d.map (fun e => if e.1 = name then (name, hs) else e)
  else d ++ [(name, hs)]

/-- Embeds `mta_hoststat_cache`. -/
def mta_hoststat_cache (S : mta_state) (host : String) (evpid : Nat) : mta_state :=
  match lowercase host SMTPD_MAXHOSTNAMELEN with
  | none => S
  | some buf =>
    match hoststat_get S.hoststat buf with
    | none => S
    | some hs =>
      let hs1 : hoststat :=
        { hs with deferred := if evpid ∈ hs.deferred then hs.deferred else hs.deferred ++ [evpid] }
      { S with hoststat := hoststat_set S.hoststat buf hs1 }

/-! ## Flushing a relay -/

/-- Embeds `mta_delivery_notify`: the message to the queue, or `none` for the
fatal error `bad delivery`. -/
def mta_delivery_notify (e : mta_envelope) (delivery : Nat) (status : String) (penalty : Nat) :
    Option mta_event :=
  if delivery = IMSG_DELIVERY_OK then some (mta_event.queue_ok e.id)
  else if delivery = IMSG_DELIVERY_TEMPFAIL then some (mta_event.queue_tempfail e.id penalty status)
  else if delivery = IMSG_DELIVERY_PERMFAIL then some (mta_event.queue_permfail e.id status)
  else if delivery = IMSG_DELIVERY_LOOP then some (mta_event.queue_loop e.id)
  else none

/-- The text after the first `@` of a destination (`strchr(e->dest, '@') + 1`),
when there is one. -/
def dest_domain (dest : String) : Option String :=
  match dest.data.dropWhile (fun ch => ch != '@') with
  | [] => none
  | _ :: rest => some (String.mk rest)

/-- The body of the inner loop of `mta_flush` for one envelope. -/
def mta_flush_envelope (r : relay_ptr) (fail : Nat) (error : String) (S : mta_state)
    (e : mta_envelope) : mta_result :=
  match mta_delivery_notify e fail error 0 with
  | none => mta_result.fatal "bad delivery"
  | some ev =>
    let S1 := { S with out := S.out ++ [ev] }
    match dest_domain e.dest with
    | some domain =>
      if fail = IMSG_DELIVERY_TEMPFAIL then
        let n := ((S1.relays r).connectors.filter
          (fun s => has_flag (S1.connectors (r, s)).flags CONNECTOR_ERROR_ROUTE)).length
        if (S1.relays r).connectors.length = n then
          mta_result.done (mta_hoststat_cache S1 domain e.id)
        else mta_result.done S1
      else mta_result.done S1
    | none => mta_result.done S1

/-- The loops of `mta_flush` over the envelopes of the tasks, in list order. -/
def mta_flush_envelopes (r : relay_ptr) (fail : Nat) (error : String) :
    List mta_envelope → mta_state → mta_result
  | [], S => mta_result.done S
  | e :: es, S => (mta_flush_envelope r fail error S e).bind (mta_flush_envelopes r fail error es)

/-- Embeds `mta_flush`. -/
def mta_flush (S : mta_state) (r : relay_ptr) (fail : Nat) (error : String) : mta_result :=
  if fail ≠ IMSG_DELIVERY_TEMPFAIL ∧ fail ≠ IMSG_DELIVERY_PERMFAIL then
    mta_result.fatal "unexpected delivery status"
  else
    let envs := ((S.relays r).tasks.map (fun t => t.envelopes)).flatten
    let r0 : struct_mta_relay := { S.relays r with tasks := [] }
    let S0 := { S with relays := Function.update S.relays r r0 }
    (mta_flush_envelopes r fail error envs S0).bind (fun S1 =>
      let r1 : struct_mta_relay := { S1.relays r with ntask := 0 }
      mta_result.done
        { S1 with
          relays := Function.update S1.relays r r1
          out := S1.out ++ [mta_event.stat_decrement "mta.task" (S1.relays r).ntask,
            mta_event.stat_decrement "mta.envelope" envs.length] })

/-! ## Query drivers -/

/-- Embeds `mta_query_secret`. -/
def mta_query_secret (S : mta_state) (r : relay_ptr) : mta_state :=
  if has_flag (S.relays r).status RELAY_WAIT_SECRET then S
  else
    let r1 : struct_mta_relay :=
      { S.relays r with status := set_flag (S.relays r).status RELAY_WAIT_SECRET }
    let S1 := { S with
      wait_secret := S.wait_secret ++ [((S.relays r).id, r)]
      relays := Function.update S.relays r r1
      out := S.out ++
        [mta_event.lka_secret (S.relays r).id (S.relays r).authtable (S.relays r).authlabel] }
    mta_relay_ref S1 r

/-- Embeds `mta_query_preference`. -/
def mta_query_preference (S : mta_state) (r : relay_ptr) : mta_state :=
  if has_flag (S.relays r).status RELAY_WAIT_PREFERENCE then S
  else
    let r1 : struct_mta_relay :=
      { S.relays r with status := set_flag (S.relays r).status RELAY_WAIT_PREFERENCE }
    let S1 := { S with
      wait_preference := S.wait_preference ++ [((S.relays r).id, r)]
      relays := Function.update S.relays r r1
      out := S.out ++
        [mta_event.dns_query_mx_preference (S.relays r).id (S.domains (S.relays r).domain).name
          (S.relays r).backupname] }
    mta_relay_ref S1 r

/-- Embeds `mta_query_mx`.  `waitq_wait` is modelled from the spec: the relay is
added to the waiters of the MX list of the domain, and the call tells whether
it is the first waiter. -/
def mta_query_mx (now : Int) (S : mta_state) (r : relay_ptr) : mta_state :=
  if has_flag (S.relays r).status RELAY_WAIT_MX then S
  else
    let d := (S.relays r).domain
    let first := (S.domains d).waitq.isEmpty
    let d1 : struct_mta_domain := { S.domains d with waitq := (S.domains d).waitq ++ [r] }
    let S1 := { S with domains := Function.update S.domains d d1 }
    let S2 :=
      if first then
        let u := generate_uid S1
        let S2 := u.2
        let ev := if (S2.domains d).flags ≠ 0 then
          mta_event.dns_query_host u.1 (S2.domains d).name
          else mta_event.dns_query_mx u.1 (S2.domains d).name
        let d2 : struct_mta_domain := { S2.domains d with lastmxquery := now }
        { S2 with
          wait_mx := S2.wait_mx ++ [(u.1, d)]
          out := S2.out ++ [ev]
          domains := Function.update S2.domains d d2 }
      else S1
    let r1 : struct_mta_relay :=
      { S2.relays r with status := set_flag (S2.relays r).status RELAY_WAIT_MX }
    mta_relay_ref { S2 with relays := Function.update S2.relays r r1 } r

/-- Embeds `mta_query_limits`. -/
def mta_query_limits (S : mta_state) (r : relay_ptr) : mta_state :=
  if has_flag (S.relays r).status RELAY_WAIT_LIMITS then S
  else
    let l := match S.sc_limits_dict (S.domains (S.relays r).domain).name with
      | some l => some l
      | none => S.sc_limits_dict "default"
    let r1 : struct_mta_relay := { S.relays r with limits := l }
    let S1 := { S with relays := Function.update S.relays r r1 }
    let S2 := if S1.max_seen_conndelay_route < (deref_limits l).conndelay_route then
      { S1 with max_seen_conndelay_route := (deref_limits l).conndelay_route } else S1
    if S2.max_seen_discdelay_route < (deref_limits l).discdelay_route then
      { S2 with max_seen_discdelay_route := (deref_limits l).discdelay_route } else S2

/-! ## Source replies and the drain loop -/

/-- The OR of the flags of the connectors of a relay (`errmask`). -/
def connectors_errmask (S : mta_state) (r : relay_ptr) : Nat :=
  (S.relays r).connectors.foldl (fun m s => m ||| (S.connectors (r, s)).flags) 0

/-- The two tests of `mta_on_source` that record a terminal failure on the relay. -/
def mta_on_source_fail (S : mta_state) (r : relay_ptr) : mta_state :=
  let S1 :=
    if (S.relays r).connectors.length = 0 then
      let r1 : struct_mta_relay :=
        { S.relays r with fail := IMSG_DELIVERY_TEMPFAIL,
                          failstr := "Could not retrieve source address" }
      { S with relays := Function.update S.relays r r1 }
    else S
  if (S1.relays r).connectors.length < (S1.relays r).sourceloop then
    let errmask := connectors_errmask S1 r
    let failstr :=
      if has_flag errmask CONNECTOR_ERROR_ROUTE_SMTP then "Destination seem to reject all mails"
      else if has_flag errmask CONNECTOR_ERROR_ROUTE_NET then "Network error on destination MXs"
      else if has_flag errmask CONNECTOR_ERROR_MX then "No MX found for destination"
      else if has_flag errmask CONNECTOR_ERROR_FAMILY then
        "Address family mismatch on destination MXs"
      else "No valid route to destination"
    let r2 : struct_mta_relay :=
      { S1.relays r with fail := IMSG_DELIVERY_TEMPFAIL, failstr := failstr }
    { S1 with relays := Function.update S1.relays r r2 }
  else S1

/-- The statements of `mta_on_source` down to the failure tests: the connector
of the source is looked up and `mta_connect` runs on it.  The result is the
state and the delay before the next source query. -/
def mta_on_source_connect (fuel : Nat) (now : Int) (S : mta_state) (r : relay_ptr)
    (source : Option source_ptr) : Option (mta_state × Int) :=
  let r0 : struct_mta_relay := { S.relays r with lastsource := now }
  let S0 := { S with relays := Function.update S.relays r r0 }
  match source with
  | none => some (S0, DELAY_CHECK_SOURCE_SLOW)
  | some s =>
    let c : connector_ptr := (r, s)
    let S1 := mta_connector S0 r s
    let isnew := has_flag (S1.connectors c).flags CONNECTOR_NEW
    let c1 : struct_mta_connector :=
      { S1.connectors c with flags := clr_flag (S1.connectors c).flags CONNECTOR_NEW }
    let S2 := if isnew then { S1 with connectors := Function.update S1.connectors c c1 } else S1
    let delay := if isnew then DELAY_CHECK_SOURCE else DELAY_CHECK_SOURCE_SLOW
    match mta_connect fuel now S2 c with
    | none => none
    | some S3 =>
      if has_flag (S3.connectors c).flags CONNECTOR_ERROR = false then
        let r3 : struct_mta_relay := { S3.relays r with sourceloop := 0 }
        some (mta_source_unref { S3 with relays := Function.update S3.relays r r3 } s, delay)
      else some (mta_source_unref S3 s, DELAY_CHECK_SOURCE_FAST)

/-- Embeds `mta_on_source`; `drain` stands for the call of `mta_drain`. -/
def mta_on_source_with (drain : mta_state → relay_ptr → mta_result) (fuel : Nat) (now : Int)
    (S : mta_state) (r : relay_ptr) (source : Option source_ptr) : mta_result :=
  match mta_on_source_connect fuel now S r source with
  | none => mta_result.fuel
  | some (S1, delay) =>
    let S2 := mta_on_source_fail S1 r
    let r3 : struct_mta_relay :=
      { S2.relays r with
        nextsource := (S2.relays r).lastsource + delay
        status := clr_flag (S2.relays r).status RELAY_WAIT_SOURCE }
    let S3 := { S2 with relays := Function.update S2.relays r r3 }
    (drain S3 r).bind (fun S4 => mta_result.done (mta_relay_unref S4 r))

/-- Embeds `mta_query_source`; `drain` stands for the call of `mta_drain` in
`mta_on_source`.  `tree_xset` is modelled from the spec (`tree.c` is missing):
the process exits when the key is already in the tree. -/
def mta_query_source_with (drain : mta_state → relay_ptr → mta_result) (fuel : Nat) (now : Int)
    (S : mta_state) (r : relay_ptr) : mta_result :=
  let r1 : struct_mta_relay := { S.relays r with sourceloop := (S.relays r).sourceloop + 1 }
  let S1 := { S with relays := Function.update S.relays r r1 }
  match (S1.relays r).sourcetable with
  | none =>
    let S2 := mta_relay_ref S1 r
    mta_on_source_with drain fuel now (mta_source S2 none) r (some none)
  | some table =>
    if S1.wait_source.any (fun e => decide (e.1 = (S1.relays r).id)) then
      mta_result.fatal "tree_xset"
    else
      let r2 : struct_mta_relay :=
        { S1.relays r with status := set_flag (S1.relays r).status RELAY_WAIT_SOURCE }
      let S2 := { S1 with
        out := S1.out ++ [mta_event.lka_source (S1.relays r).id table]
        wait_source := S1.wait_source ++ [((S1.relays r).id, r)]
        relays := Function.update S1.relays r r2 }
      mta_result.done (mta_relay_ref S2 r)

/-- The body of `mta_drain`; `drain` stands for the nested call of `mta_drain`
reached through `mta_query_source` and `mta_on_source`. -/
def mta_drain_with (drain : mta_state → relay_ptr → mta_result) (fuel : Nat) (now : Int)
    (S : mta_state) (r : relay_ptr) : mta_result :=
  if (S.relays r).ntask = 0 then mta_result.done S
  else if (S.relays r).fail ≠ 0 then mta_flush S r (S.relays r).fail (S.relays r).failstr
  else
    let S1 := if has_flag (S.relays r).flags RELAY_AUTH = true ∧ (S.relays r).secret = none then
      mta_query_secret S r else S
    let S2 := if (S1.relays r).backupname.isSome = true ∧ (S1.relays r).backuppref = -1 then
      mta_query_preference S1 r else S1
    let S3 := if (S2.domains (S2.relays r).domain).lastmxquery = 0 then
      mta_query_mx now S2 r else S2
    let S4 := if (S3.relays r).limits = none then mta_query_limits S3 r else S3
    if has_flag (S4.relays r).status RELAY_WAITMASK then mta_result.done S4
    else if (S4.relays r).nextsource ≤ now then mta_query_source_with drain fuel now S4 r
    else
      let r5 : struct_mta_relay :=
        { S4.relays r with status := set_flag (S4.relays r).status RELAY_WAIT_CONNECTOR }
      let S5 := { S4 with
        runq_relay := runq_schedule S4.runq_relay (S4.relays r).nextsource r
        relays := Function.update S4.relays r r5 }
      mta_result.done (mta_relay_ref S5 r)

/-- Embeds `mta_drain`.  `fuel` bounds the depth of the recursion through
`mta_query_source` and `mta_on_source`, and the passes of `mta_connect`. -/
def mta_drain : Nat → Int → mta_state → relay_ptr → mta_result
  | 0, _, _, _ => mta_result.fuel
  | fuel + 1, now, S, r => mta_drain_with (mta_drain fuel now) (fuel + 1) now S r

/-- Embeds `mta_on_source`. -/
def mta_on_source (fuel : Nat) (now : Int) (S : mta_state) (r : relay_ptr)
    (source : Option source_ptr) : mta_result :=
  mta_on_source_with (mta_drain fuel now) fuel now S r source

/-- Embeds `mta_query_source`. -/
def mta_query_source (fuel : Nat) (now : Int) (S : mta_state) (r : relay_ptr) : mta_result :=
  mta_query_source_with (mta_drain fuel now) fuel now S r

/-- Modelled from the spec: `tree.c` is missing; `tree_xpop` on a wait tree
removes the entry of the request and yields its value. -/
def wait_pop (t : List (Nat × Nat)) (reqid : Nat) : Option (Nat × List (Nat × Nat)) :=
  match t.find? (fun e => decide (e.1 = reqid)) with
  | none => none
  | some e => some (e.2, t.eraseP (fun e => decide (e.1 = reqid)))

/-- The case `IMSG_LKA_SOURCE` of `mta_imsg`: the reply to a source query; `ss`
is the address when the status is `LKA_OK`. -/
def mta_imsg_lka_source (fuel : Nat) (now : Int) (S : mta_state) (reqid : Nat)
    (ss : Option sockaddr) : mta_result :=
  match wait_pop S.wait_source reqid with
  | none => mta_result.fatal "tree_xpop"
  | some (r, t) =>
    let S1 := { S with wait_source := t }
    match ss with
    | some sa => mta_on_source fuel now (mta_source S1 (some sa)) r (some (some sa))
    | none => mta_on_source fuel now S1 r none

/-! ## Interning hosts and domains -/

/-- Embeds `mta_host(sa)`: the interned host is `sa`; the function returns the
state after interning. -/
def mta_host (S : mta_state) (sa : host_ptr) : mta_state :=
  let S1 :=
    if sa ∈ S.hosts_tree then S
    else
      { S with
        hosts := Function.update S.hosts sa calloc_host
        hosts_tree := sa :: S.hosts_tree
        out := S.out ++ [mta_event.stat_increment "mta.host" 1] }
  mta_host_ref S1 sa

/-- The C library function `strcmp` on the bytes of two strings.  The standard
fixes the sign of the result only; the embedding returns `-1`, `0` or `1`. -/
def strcmp_chars : List Char → List Char → Int
  | [], [] => 0
  | [], _ :: _ => -1
  | _ :: _, [] => 1
  | a :: as, b :: bs =>
    if a = b then strcmp_chars as bs else if a.toNat < b.toNat then -1 else 1

/-- The C library function `strcmp`. -/
def strcmp (a b : String) : Int := strcmp_chars a.data b.data

/-- The C library function `strcasecmp`: `strcmp` on the lower-cased strings. -/
def strcasecmp (a b : String) : Int :=
  strcmp_chars (a.data.map Char.toLower) (b.data.map Char.toLower)

/-- Embeds `mta_domain_cmp`. -/
def mta_domain_cmp (a b : struct_mta_domain) : Int :=
  if a.flags < b.flags then -1
  else if a.flags > b.flags then 1
  else strcasecmp a.name b.name

/-- The address handed out by `xcalloc` for a new domain record: one that no
interned domain has. -/
def domain_alloc (S : mta_state) : domain_ptr := S.domains_tree.foldl max 0 + 1

/-- Embeds `mta_domain(name, flags)`: the interned domain and the state after
interning. -/
def mta_domain (S : mta_state) (name : String) (flags : Nat) : domain_ptr × mta_state :=
  let key : struct_mta_domain := { calloc_domain with name := name, flags := flags }
  let found := S.domains_tree.find? (fun d => decide (mta_domain_cmp key (S.domains d) = 0))
  let d := found.getD (domain_alloc S)
  let S1 :=
    if found.isSome then S
    else
      let d0 : struct_mta_domain := { calloc_domain with name := name, flags := flags }
      { S with
        domains := Function.update S.domains d d0
        domains_tree := d :: S.domains_tree
        out := S.out ++ [mta_event.stat_increment "mta.domain" 1] }
  let d1 : struct_mta_domain := { S1.domains d with refcount := (S1.domains d).refcount + 1 }
  (d, { S1 with domains := Function.update S1.domains d d1 })

/-! ## Relay identity -/

/-- The test `a && ((r = strcmp(a, b)))` of `mta_relay_cmp` on two string
pointers: the value of `r` when `a` is set, `0` when `a` is null, and `none`
when `strcmp` is handed the null pointer `b`. -/
def strcmp_if (a b : Option String) : Option Int :=
  match a, b with
  | none, _ => some 0
  | some _, none => none
  | some x, some y => some (strcmp x y)

/-- Embeds `mta_relay_cmp`; `none` when the comparison dereferences a null
pointer.  Domain pointers are compared as addresses. -/
def mta_relay_cmp (a b : struct_mta_relay) : Option Int :=
  if a.domain < b.domain then some (-1)
  else if a.domain > b.domain then some 1
  else if a.flags < b.flags then some (-1)
  else if a.flags > b.flags then some 1
  else if a.port < b.port then some (-1)
  else if a.port > b.port then some 1
  else if a.authtable = none ∧ b.authtable ≠ none then some (-1)
  else if a.authtable ≠ none ∧ b.authtable = none then some 1
  else (strcmp_if a.authtable b.authtable).bind fun r1 =>
    if r1 ≠ 0 then some r1
    else (strcmp_if a.authlabel b.authlabel).bind fun r2 =>
      if r2 ≠ 0 then some r2
      else if a.sourcetable = none ∧ b.sourcetable ≠ none then some (-1)
      else if a.sourcetable ≠ none ∧ b.sourcetable = none then some 1
      else (strcmp_if a.sourcetable b.sourcetable).bind fun r3 =>
        if r3 ≠ 0 then some r3
        else if a.cert = none ∧ b.cert ≠ none then some (-1)
        else if a.cert ≠ none ∧ b.cert = none then some 1
        else (strcmp_if a.cert b.cert).bind fun r4 =>
          if r4 ≠ 0 then some r4
          else (strcmp_if a.backupname b.backupname).bind fun r5 =>
            if r5 ≠ 0 then some r5 else some 0

/-! ## MX replies -/

/-- Modelled from the spec: `tree.c` is missing; `tree_xget` on a wait tree
yields the value of the request and leaves the entry in place. -/
def wait_get (t : List (Nat × Nat)) (reqid : Nat) : Option Nat :=
  (t.find? (fun e => decide (e.1 = reqid))).map Prod.snd

/-- The loop of the case `IMSG_DNS_HOST` over the MX list: the new entry goes
before the first entry of greater preference, or to the tail. -/
def mxs_insert (mx : mta_mx) : List mta_mx → List mta_mx
  | [] => [mx]
  | imx :: rest =>
    if imx.preference > mx.preference then mx :: imx :: rest
    else imx :: mxs_insert mx rest

/-- The case `IMSG_DNS_HOST` of `mta_imsg`: one address of an MX of the domain
that waits under `reqid`. -/
def mta_imsg_dns_host (S : mta_state) (reqid : Nat) (ss : sockaddr) (preference : Int) :
    mta_result :=
  match wait_get S.wait_mx reqid with
  | none => mta_result.fatal "tree_xget"
  | some d =>
    let S1 := mta_host S ss
    let mx : mta_mx := { host := ss, preference := preference }
    let d1 : struct_mta_domain := { S1.domains d with mxs := mxs_insert mx (S1.domains d).mxs }
    mta_result.done { S1 with domains := Function.update S1.domains d d1 }

/-- A sequence of `IMSG_DNS_HOST` messages for the request `reqid`, handled in
the order of arrival. -/
def mta_imsg_dns_hosts (reqid : Nat) : List (sockaddr × Int) → mta_state → mta_result
  | [], S => mta_result.done S
  | m :: rest, S =>
    (mta_imsg_dns_host S reqid m.1 m.2).bind (mta_imsg_dns_hosts reqid rest)

/-- The `switch` of `mta_on_mx` on the status of the MX lookup and the statement
that clears `RELAY_WAIT_MX`: the state handed to `mta_drain`, or the message of
`fatalx`. -/
def mta_on_mx_status (S : mta_state) (r : relay_ptr) (d : domain_ptr) : Except String mta_state :=
  let fail (S : mta_state) (code : Nat) (str : String) : mta_state :=
    let r1 : struct_mta_relay := { S.relays r with fail := code, failstr := str }
    { S with relays := Function.update S.relays r r1 }
  let status := (S.domains d).mxstatus
  let S1 : Except String mta_state :=
    if status = DNS_OK then Except.ok S
    else if status = DNS_RETRY then
      Except.ok (fail S IMSG_DELIVERY_TEMPFAIL "Temporary failure in MX lookup")
    else if status = DNS_EINVAL then
      Except.ok (fail S IMSG_DELIVERY_PERMFAIL "Invalid domain name")
    else if status = DNS_ENONAME then
      Except.ok (fail S IMSG_DELIVERY_PERMFAIL "Domain does not exist")
    else if status = DNS_ENOTFOUND then
      Except.ok (fail S IMSG_DELIVERY_TEMPFAIL "No MX found for domain")
    else Except.error "bad DNS lookup error code"
  S1.map fun T =>
    let r2 : struct_mta_relay :=
      { T.relays r with status := clr_flag (T.relays r).status RELAY_WAIT_MX }
    { T with relays := Function.update T.relays r r2 }

/-- Embeds `mta_on_mx(tag, relay, domain)`. -/
def mta_on_mx (fuel : Nat) (now : Int) (S : mta_state) (r : relay_ptr) (d : domain_ptr) :
    mta_result :=
  match mta_on_mx_status S r d with
  | Except.error msg => mta_result.fatal msg
  | Except.ok S1 =>
    (mta_drain fuel now S1 r).bind (fun S2 => mta_result.done (mta_relay_unref S2 r))

/-! ## Session outcomes -/

/-- The C statement `n -= 1` on a `size_t` counter: it wraps at zero. -/
def size_dec (n : Nat) : Nat := if n = 0 then 2 ^ 64 - 1 else n - 1

/-- Embeds `mta_source_error`. -/
def mta_source_error (S : mta_state) (r : relay_ptr) (k : route_ptr) : mta_state :=
  let S1 := mta_connector S r k.1
  let c : connector_ptr := (r, k.1)
  let c1 : struct_mta_connector :=
    { S1.connectors c with flags := set_flag (S1.connectors c).flags CONNECTOR_ERROR_SOURCE }
  { S1 with connectors := Function.update S1.connectors c c1 }

/-- Embeds `mta_route_error`. -/
def mta_route_error (S : mta_state) (k : route_ptr) : mta_state :=
  let h1 : struct_mta_host := { S.hosts k.2 with nerror := (S.hosts k.2).nerror + 1 }
  let S1 := { S with hosts := Function.update S.hosts k.2 h1 }
  if has_flag h1.flags HOST_IGNORE then S1
  else if h1.nerror > MAXERROR_PER_HOST then
    let h2 : struct_mta_host := { h1 with flags := set_flag h1.flags HOST_IGNORE }
    { S1 with hosts := Function.update S1.hosts k.2 h2 }
  else S1

/-- Embeds `mta_route_ok`; `none` when `mta_connect` runs out of `fuel`. -/
def mta_route_ok (fuel : Nat) (now : Int) (S : mta_state) (r : relay_ptr) (k : route_ptr) :
    Option mta_state :=
  if has_flag (S.routes k).flags ROUTE_NEW then
    let k1 : struct_mta_route := { S.routes k with flags := clr_flag (S.routes k).flags ROUTE_NEW }
    let S1 := { S with routes := Function.update S.routes k k1 }
    mta_connect fuel now (mta_connector S1 r k.1) (r, k.1)
  else some S

/-- Embeds `mta_route_down`. -/
def mta_route_down (now : Int) (S : mta_state) (k : route_ptr) : mta_state :=
  mta_route_disable now S k 2 ROUTE_DISABLED_SMTP

/-- The first statements of `mta_route_collect`: the counters of the relay, its
domain, the route, its source and its host go down by one and the route is
stamped with the time of the disconnection. -/
def mta_route_collect_close (now : Int) (S : mta_state) (r : relay_ptr) (k : route_ptr) :
    mta_state :=
  let r1 : struct_mta_relay := { S.relays r with nconn := size_dec (S.relays r).nconn }
  let S1 := { S with relays := Function.update S.relays r r1 }
  let d := (S1.relays r).domain
  let d1 : struct_mta_domain := { S1.domains d with nconn := size_dec (S1.domains d).nconn }
  let S2 := { S1 with domains := Function.update S1.domains d d1 }
  let k1 : struct_mta_route := { S2.routes k with nconn := size_dec (S2.routes k).nconn }
  let S3 := { S2 with routes := Function.update S2.routes k k1 }
  let s1 : struct_mta_source := { S3.sources k.1 with nconn := size_dec (S3.sources k.1).nconn }
  let S4 := { S3 with sources := Function.update S3.sources k.1 s1 }
  let h1 : struct_mta_host := { S4.hosts k.2 with nconn := size_dec (S4.hosts k.2).nconn }
  let S5 := { S4 with hosts := Function.update S4.hosts k.2 h1 }
  let k2 : struct_mta_route := { S5.routes k with lastdisc := now }
  { S5 with routes := Function.update S5.routes k k2 }

/-- The statements of `mta_route_collect` down to the call of `mta_connect`:
the connection is closed, a route that is still `ROUTE_NEW` is disabled, and
the counter of the connector goes down by one. -/
def mta_route_collect_probe (now : Int) (S : mta_state) (r : relay_ptr) (k : route_ptr) :
    mta_state :=
  let S1 := mta_route_collect_close now S r k
  let S2 := if has_flag (S1.routes k).flags ROUTE_NEW then
    mta_route_disable now S1 k 2 ROUTE_DISABLED_NET else S1
  let S3 := mta_connector S2 r k.1
  let c : connector_ptr := (r, k.1)
  let c1 : struct_mta_connector := { S3.connectors c with nconn := size_dec (S3.connectors c).nconn }
  { S3 with connectors := Function.update S3.connectors c c1 }

/-- Embeds `mta_route_collect`; `none` when `mta_connect` runs out of `fuel`. -/
def mta_route_collect (fuel : Nat) (now : Int) (S : mta_state) (r : relay_ptr) (k : route_ptr) :
    Option mta_state :=
  match mta_connect fuel now (mta_route_collect_probe now S r k) (r, k.1) with
  | none => none
  | some S1 => some (mta_relay_unref (mta_route_unref now S1 k) r)

/-! ## Timers and control messages -/

/-- Modelled from the spec: `runq.c` is missing; an entry whose deadline has
passed leaves the run-queue before its callback runs. -/
def runq_expire {α : Type} [DecidableEq α] (q : List (Int × α)) (e : Int × α) :
    List (Int × α) :=
  q.erase e

/-- The branch of `mta_on_timeout` for the route run-queue. -/
def mta_on_timeout_route (now : Int) (S : mta_state) (k : route_ptr) : mta_state :=
  let k1 : struct_mta_route := { S.routes k with flags := clr_flag (S.routes k).flags ROUTE_RUNQ }
  let S1 := { S with routes := Function.update S.routes k k1 }
  mta_route_unref now (mta_route_enable now S1 k) k

/-- The branch of `mta_on_timeout` for the connector run-queue. -/
def mta_on_timeout_connector (fuel : Nat) (now : Int) (S : mta_state) (c : connector_ptr) :
    Option mta_state :=
  let c1 : struct_mta_connector :=
    { S.connectors c with flags := clr_flag (S.connectors c).flags CONNECTOR_WAIT }
  mta_connect fuel now { S with connectors := Function.update S.connectors c c1 } c

/-- The branch of `mta_on_timeout` for the relay run-queue. -/
def mta_on_timeout_relay (fuel : Nat) (now : Int) (S : mta_state) (r : relay_ptr) : mta_result :=
  let r1 : struct_mta_relay :=
    { S.relays r with status := clr_flag (S.relays r).status RELAY_WAIT_CONNECTOR }
  (mta_drain fuel now { S with relays := Function.update S.relays r r1 } r).bind
    (fun S1 => mta_result.done (mta_relay_unref S1 r))

/-- The expiry of the entry `e` of the route run-queue: the entry is removed
and `mta_on_timeout` runs on its route. -/
def runq_route_expire (now : Int) (S : mta_state) (e : Int × route_ptr) : mta_state :=
  mta_on_timeout_route now { S with runq_route := runq_expire S.runq_route e } e.2

/-- The loop of the case `IMSG_CTL_RESUME_ROUTE` over the routes, in the order
of the tree: with a route id only the route of that id is enabled. -/
def mta_resume_routes (now : Int) (u64 : Nat) : List route_ptr → mta_state → mta_state
  | [], S => S
  | k :: rest, S =>
    if u64 ≠ 0 ∧ (S.routes k).id ≠ u64 then mta_resume_routes now u64 rest S
    else if u64 ≠ 0 then mta_route_enable now S k
    else mta_resume_routes now u64 rest (mta_route_enable now S k)

/-- The case `IMSG_CTL_RESUME_ROUTE` of `mta_imsg`. -/
def mta_imsg_ctl_resume_route (now : Int) (S : mta_state) (u64 : Nat) : mta_state :=
  mta_resume_routes now u64 S.routes_tree S

/-! ## The host status cache: replay, update and removal of an id -/

/-- Embeds `mta_hoststat_reschedule`.  Modelled from the spec for
`tree_poproot` (`tree.c` is missing): it removes one entry of the deferred set
and yields its id, until the set is empty; the entries leave in list order. -/
def mta_hoststat_reschedule (S : mta_state) (host : String) : mta_state :=
  match lowercase host SMTPD_MAXHOSTNAMELEN with
  | none => S
  | some buf =>
    match hoststat_get S.hoststat buf with
    | none => S
    | some hs =>
      { S with
        out := S.out ++ hs.deferred.map mta_event.queue_schedule
        hoststat := hoststat_set S.hoststat buf { hs with deferred := [] } }

/-- Embeds `mta_hoststat_update`; the allocation of a new entry is taken to
succeed.  Modelled from the spec for the size of the `error` field
(`smtpd.h` is missing): the error text is stored as given.  The timer of the
entry is keyed by its name. -/
def mta_hoststat_update (now : Int) (S : mta_state) (host error : String) : mta_state :=
  match lowercase host SMTPD_MAXHOSTNAMELEN with
  | none => S
  | some buf =>
    let tm := now
    let hs : hoststat := match hoststat_get S.hoststat buf with
      | some hs => hs
      | none => { tm := 0, error := "", deferred := [] }
    let S1 := match hoststat_get S.hoststat buf with
      | some _ => S
      | none =>
        { S with runq_hoststat := runq_schedule S.runq_hoststat (tm + HOSTSTAT_EXPIRE_DELAY) buf }
    let hs1 : hoststat := { hs with error := error, tm := now }
    let S2 := { S1 with hoststat := hoststat_set S1.hoststat buf hs1 }
    { S2 with
      runq_hoststat :=
        runq_schedule (runq_cancel S2.runq_hoststat buf) (tm + HOSTSTAT_EXPIRE_DELAY) buf }

/-- Embeds `mta_hoststat_uncache`.  Modelled from the spec for `tree_pop`
(`tree.c` is missing): it removes the id from the deferred set. -/
def mta_hoststat_uncache (S : mta_state) (host : String) (evpid : Nat) : mta_state :=
  match lowercase host SMTPD_MAXHOSTNAMELEN with
  | none => S
  | some buf =>
    match hoststat_get S.hoststat buf with
    | none => S
    | some hs =>
      let hs1 : hoststat := { hs with deferred := hs.deferred.filter (fun x => x ≠ evpid) }
      { S with hoststat := hoststat_set S.hoststat buf hs1 }

/-! ## The TRANSFER message and the tasks of a relay -/

/-- Modelled from the spec: `smtpd.h` is missing; relay flag `TLS_OPTIONAL`. -/
def RELAY_TLS_OPTIONAL : Nat := 0x01
/-- Modelled from the spec: `smtpd.h` is missing; relay flag `BACKUP`. -/
def RELAY_BACKUP : Nat := 0x10
/-- Modelled from the spec: `smtpd.h` is missing; relay flag `MX`. -/
def RELAY_MX : Nat := 0x20

/-- Modelled from the spec: `smtpd.h` is missing; the fields of `struct
envelope` that `mta_imsg` and `mta_relay` read: the id of the envelope, its
creation time, the sender, destination and recipient addresses, and the relay
settings of the rule (`agent.mta.relay`). -/
structure envelope where
  id : Nat
  creation : Int
  sender_user : String
  sender_domain : String
  dest_user : String
  dest_domain : String
  rcpt_user : String
  rcpt_domain : String
  relay_flags : Nat
  relay_hostname : String
  relay_port : Nat
  relay_cert : String
  relay_authtable : String
  relay_authlabel : String
  relay_sourcetable : String
deriving DecidableEq, Repr

/-- Modelled from the spec: `evpid_to_msgid` of `smtpd.h` is missing; the
message id is the upper half of the 64-bit envelope id. -/
def evpid_to_msgid (evpid : Nat) : Nat := evpid / 2 ^ 32

/-- A string field of the rule, `NULL` when it is empty (`if (!key.cert[0])
key.cert = NULL`). -/
def string_or_null (s : String) : Option String := if s = "" then none else some s

/-- The address handed out by `xcalloc` for a new relay record: one that no
interned relay has. -/
def relay_alloc (S : mta_state) : relay_ptr := S.relays_tree.foldl max 0 + 1

/-- The statements of `mta_relay(e)` that fill the key of the search: the
domain is interned, and the strings of the rule that are empty become `NULL`.
The field `helotable` is left out: no function of the embedding reads it. -/
def mta_relay_key (S : mta_state) (e : envelope) : struct_mta_relay × mta_state :=
  let D : (domain_ptr × mta_state) × Option String × Nat :=
    if has_flag e.relay_flags RELAY_BACKUP then
      (mta_domain S e.dest_domain 0, some e.relay_hostname, 0)
    else if e.relay_hostname ≠ "" then (mta_domain S e.relay_hostname 1, none, RELAY_MX)
    else (mta_domain S e.dest_domain 0, none, RELAY_TLS_OPTIONAL)
  let key : struct_mta_relay :=
    { calloc_relay with
      domain := D.1.1, backupname := D.2.1, flags := set_flag D.2.2 e.relay_flags,
      port := e.relay_port, cert := string_or_null e.relay_cert,
      authtable := string_or_null e.relay_authtable,
      authlabel := string_or_null e.relay_authlabel,
      sourcetable := string_or_null e.relay_sourcetable }
  (key, D.1.2)

/-- The statements of `mta_relay(e)` from `SPLAY_FIND` on: the relay equal to
the key is looked up and created if there is none, and one reference is taken
for the caller.  `SPLAY_FIND` is modelled as the search of the relay of the
tree that `mta_relay_cmp` finds equal to the key. -/
def mta_relay_intern (S : mta_state) (key : struct_mta_relay) : relay_ptr × mta_state :=
  match S.relays_tree.find? (fun r => decide (mta_relay_cmp key (S.relays r) = some 0)) with
  | none =>
    let r := relay_alloc S
    let u := generate_uid S
    let S2 := u.2
    let r0 : struct_mta_relay :=
      { calloc_relay with
        id := u.1, flags := key.flags, domain := key.domain, backupname := key.backupname,
        backuppref := -1, port := key.port, cert := key.cert, authtable := key.authtable,
        authlabel := key.authlabel, sourcetable := key.sourcetable }
    let S3 := { S2 with
      relays := Function.update S2.relays r r0
      relays_tree := r :: S2.relays_tree
      out := S2.out ++ [mta_event.stat_increment "mta.relay" 1] }
    (r, mta_relay_ref S3 r)
  | some r => (r, mta_relay_ref (mta_domain_unref S key.domain) r)

/-- Embeds `mta_relay(e)`: the interned relay and the state after interning. -/
def mta_relay (S : mta_state) (e : envelope) : relay_ptr × mta_state :=
  mta_relay_intern (mta_relay_key S e).2 (mta_relay_key S e).1

/-- The statement `TAILQ_INSERT_TAIL(&task->envelopes, e, entry)` on the task
that the loop over the tasks of the relay found: the first one with the
message id. -/
def task_add_envelope (msgid : Nat) (e : mta_envelope) : List mta_task → List mta_task
  | [] => []
  | t :: ts =>
    if t.msgid = msgid then { t with envelopes := t.envelopes ++ [e] } :: ts
    else t :: task_add_envelope msgid e ts

/-- The statements of the case `IMSG_MTA_TRANSFER` of `mta_imsg` between
`mta_relay` and `mta_drain`: the task of the message is looked up among the
tasks of the relay and created at the tail of the list if there is none, and
the envelope is added to it. -/
def mta_imsg_transfer_task (S : mta_state) (r : relay_ptr) (evp : envelope) : mta_state :=
  let msgid := evpid_to_msgid evp.id
  let S2 :=
    match (S.relays r).tasks.find? (fun t => decide (t.msgid = msgid)) with
    | some _ => S
    | none =>
      let sender := if evp.sender_user ≠ "" ∨ evp.sender_domain ≠ "" then
        evp.sender_user ++ "@" ++ evp.sender_domain else ""
      let task : mta_task := { msgid := msgid, sender := sender, envelopes := [] }
      let r1 : struct_mta_relay :=
        { S.relays r with ntask := (S.relays r).ntask + 1, tasks := (S.relays r).tasks ++ [task] }
      { S with
        relays := Function.update S.relays r r1
        out := S.out ++ [mta_event.stat_increment "mta.task" 1] }
  let dest := evp.dest_user ++ "@" ++ evp.dest_domain
  let rcpt := evp.rcpt_user ++ "@" ++ evp.rcpt_domain
  let e : mta_envelope :=
    { id := evp.id, creation := evp.creation, dest := dest,
      rcpt := if strcmp rcpt dest ≠ 0 then some rcpt else none, session := 0 }
  let r3 : struct_mta_relay :=
    { S2.relays r with tasks := task_add_envelope msgid e (S2.relays r).tasks }
  { S2 with
    relays := Function.update S2.relays r r3
    out := S2.out ++ [mta_event.stat_increment "mta.envelope" 1] }

/-- The case `IMSG_MTA_TRANSFER` of `mta_imsg` down to the call of
`mta_drain`: the relay of the envelope and the state. -/
def mta_imsg_transfer_enqueue (S : mta_state) (evp : envelope) : relay_ptr × mta_state :=
  ((mta_relay S evp).1, mta_imsg_transfer_task (mta_relay S evp).2 (mta_relay S evp).1 evp)

/-- The case `IMSG_MTA_TRANSFER` of `mta_imsg`. -/
def mta_imsg_transfer (fuel : Nat) (now : Int) (S : mta_state) (evp : envelope) : mta_result :=
  let R := mta_imsg_transfer_enqueue S evp
  (mta_drain fuel now R.2 R.1).bind (fun S1 => mta_result.done (mta_relay_unref S1 R.1))

/-- Embeds `mta_route_next_task`: the task handed to the session, if any, and
the state. -/
def mta_route_next_task (S : mta_state) (r : relay_ptr) (_route : route_ptr) :
    Option mta_task × mta_state :=
  match (S.relays r).tasks with
  | [] => (none, S)
  | t :: ts =>
    let r1 : struct_mta_relay :=
      { S.relays r with tasks := ts, ntask := size_dec (S.relays r).ntask }
    (some t, { S with relays := Function.update S.relays r r1 })

/-! ## Replies to the secret, preference and MX queries -/

/-- The value of `INT_MAX`. -/
def INT_MAX : Int := 2147483647

/-- Embeds `mta_on_secret(relay, secret)`. -/
def mta_on_secret (fuel : Nat) (now : Int) (S : mta_state) (r : relay_ptr)
    (secret : Option String) : mta_result :=
  let r1 : struct_mta_relay :=
    match secret with
    | some s => { S.relays r with secret := some s }
    | none => S.relays r
  let r2 : struct_mta_relay :=
    if r1.secret = none then
      { r1 with fail := IMSG_DELIVERY_TEMPFAIL, failstr := "Could not retrieve credentials" }
    else r1
  let r3 : struct_mta_relay := { r2 with status := clr_flag r2.status RELAY_WAIT_SECRET }
  (mta_drain fuel now { S with relays := Function.update S.relays r r3 } r).bind
    (fun S1 => mta_result.done (mta_relay_unref S1 r))

/-- The case `IMSG_LKA_SECRET` of `mta_imsg`: the reply to a secret query. -/
def mta_imsg_lka_secret (fuel : Nat) (now : Int) (S : mta_state) (reqid : Nat)
    (secret : String) : mta_result :=
  match wait_pop S.wait_secret reqid with
  | none => mta_result.fatal "tree_xpop"
  | some (r, t) =>
    mta_on_secret fuel now { S with wait_secret := t } r
      (if secret ≠ "" then some secret else none)

/-- Embeds `mta_on_preference(relay, dnserror, preference)`. -/
def mta_on_preference (fuel : Nat) (now : Int) (S : mta_state) (r : relay_ptr)
    (dnserror : Int) (preference : Int) : mta_result :=
  let r1 : struct_mta_relay :=
    if dnserror ≠ 0 then { S.relays r with backuppref := INT_MAX }
    else { S.relays r with backuppref := preference }
  let r2 : struct_mta_relay := { r1 with status := clr_flag r1.status RELAY_WAIT_PREFERENCE }
  (mta_drain fuel now { S with relays := Function.update S.relays r r2 } r).bind
    (fun S1 => mta_result.done (mta_relay_unref S1 r))

/-- The case `IMSG_DNS_MX_PREFERENCE` of `mta_imsg`: the reply to a preference
query. -/
def mta_imsg_dns_mx_preference (fuel : Nat) (now : Int) (S : mta_state) (reqid : Nat)
    (dnserror : Int) (preference : Int) : mta_result :=
  match wait_pop S.wait_preference reqid with
  | none => mta_result.fatal "tree_xpop"
  | some (r, t) => mta_on_preference fuel now { S with wait_preference := t } r dnserror preference

/-- The calls of `mta_on_mx` for the waiters of the MX list of a domain, one
after the other. -/
def waitq_run_waiters (fuel : Nat) (now : Int) (d : domain_ptr) :
    List relay_ptr → mta_state → mta_result
  | [], S => mta_result.done S
  | r :: rs, S => (mta_on_mx fuel now S r d).bind (waitq_run_waiters fuel now d rs)

/-- Modelled from the spec: `waitq.c` is missing; `waitq_run(key, payload)`
removes the entry of the key and invokes the callback of every waiter, here
`mta_on_mx` for the relays that wait for the MX list of the domain. -/
def waitq_run (fuel : Nat) (now : Int) (S : mta_state) (d : domain_ptr) : mta_result :=
  let d1 : struct_mta_domain := { S.domains d with waitq := [] }
  waitq_run_waiters fuel now d (S.domains d).waitq
    { S with domains := Function.update S.domains d d1 }

/-- The case `IMSG_DNS_HOST_END` of `mta_imsg`: the end of the reply to an MX
query. -/
def mta_imsg_dns_host_end (fuel : Nat) (now : Int) (S : mta_state) (reqid : Nat)
    (dnserror : Nat) : mta_result :=
  match wait_pop S.wait_mx reqid with
  | none => mta_result.fatal "tree_xpop"
  | some (d, t) =>
    let d1 : struct_mta_domain := { S.domains d with mxstatus := dnserror }
    waitq_run fuel now { S with wait_mx := t, domains := Function.update S.domains d d1 } d

/-! ## Predicates used by the proofs -/

/-- Two host records that differ at most in their reference count. -/
def host_same (a b : struct_mta_host) : Prop :=
  a.nconn = b.nconn ∧ a.lastconn = b.lastconn ∧ a.flags = b.flags ∧ a.nerror = b.nerror

/-- Two source records that differ at most in their reference count. -/
def source_same (a b : struct_mta_source) : Prop :=
  a.nconn = b.nconn ∧ a.lastconn = b.lastconn

/-- Two route records that agree on everything the selection looks at. -/
def route_same (a b : struct_mta_route) : Prop :=
  a.nconn = b.nconn ∧ a.lastconn = b.lastconn ∧ a.lastdisc = b.lastdisc ∧
    a.penalty = b.penalty ∧ a.lastpenalty = b.lastpenalty ∧
    a.flags &&& ROUTE_DISABLED = b.flags &&& ROUTE_DISABLED ∧
    a.flags &&& ROUTE_NEW = b.flags &&& ROUTE_NEW

/-- A route record as `mta_route` creates it. -/
def route_fresh (a : struct_mta_route) : Prop :=
  a.nconn = 0 ∧ a.flags = ROUTE_NEW ∧ a.lastconn = 0 ∧ a.lastdisc = 0 ∧ a.penalty = 0

/-- A route record without connection and without disable bit. -/
def route_unused (a : struct_mta_route) : Prop :=
  a.nconn = 0 ∧ a.flags &&& ROUTE_DISABLED = 0

/-- The record `a` is the record `b` up to reference count and timer flags, or
was created anew. -/
def route_evolves (a b : struct_mta_route) : Prop := route_same a b ∨ route_unused a

/-- The state `T` comes from `S` by interning and releasing routes: relays,
domains and connectors are untouched, hosts and sources keep everything but
their reference count, route records evolve. -/
def state_frame (T S : mta_state) : Prop :=
  T.relays = S.relays ∧ T.domains = S.domains ∧ T.connectors = S.connectors ∧
    (∀ x, host_same (T.hosts x) (S.hosts x)) ∧ (∀ x, source_same (T.sources x) (S.sources x)) ∧
    (∀ x, route_evolves (T.routes x) (S.routes x))

/-- The verdicts that stand for an MX skipped because of the per-host cap, the
per-host connect delay, the per-route cap or unvalidated-probe rule, or a
per-route connect or disconnect delay. -/
def mx_verdict.blocked : mx_verdict → Bool
  | mx_verdict.host_limit => true
  | mx_verdict.host_delay => true
  | mx_verdict.not_validated => true
  | mx_verdict.route_limit => true
  | mx_verdict.conn_delay => true
  | mx_verdict.disc_delay => true
  | _ => false

/-- The test `limit_host || limit_route || tm` of the level-crossing block. -/
def find_route_vars.blocked (v : find_route_vars) : Bool :=
  v.limit_host || v.limit_route || decide (v.tm ≠ 0)

/-- The record of a candidate route passes the admission checks of the loop. -/
def route_admissible (m : Nat) (r : struct_mta_route) : Prop :=
  has_flag r.flags ROUTE_DISABLED = false ∧
    ¬ (r.nconn ≠ 0 ∧ has_flag r.flags ROUTE_NEW = true) ∧ r.nconn < m

/-- The invariant of the loop of `mta_find_route` on its candidate. -/
def best_ok (l : mta_limits) (c : connector_ptr) (v : find_route_vars) (S : mta_state) : Prop :=
  ∀ k, v.best = some k →
    k.1 = c.2 ∧ route_admissible l.maxconn_per_route (S.routes k) ∧
      (S.hosts k.2).nconn < l.maxconn_per_host

/-- Every connection counter that `mta_connect` on the connector `c` can
increment is at most its cap in the limits profile of the relay. -/
def caps_ok (S : mta_state) (c : connector_ptr) : Prop :=
  (S.domains (S.relays c.1).domain).nconn ≤
      (deref_limits (S.relays c.1).limits).maxconn_per_domain ∧
    (S.sources c.2).nconn ≤ (deref_limits (S.relays c.1).limits).maxconn_per_source ∧
    (S.connectors c).nconn ≤ (deref_limits (S.relays c.1).limits).maxconn_per_connector ∧
    (S.relays c.1).nconn ≤ (deref_limits (S.relays c.1).limits).maxconn_per_relay ∧
    (∀ h, (S.hosts h).nconn ≤ (deref_limits (S.relays c.1).limits).maxconn_per_host) ∧
    (∀ h, (S.routes (c.2, h)).nconn ≤ (deref_limits (S.relays c.1).limits).maxconn_per_route)

/-- The state `T` has the connection counters of `S`, except that route
records may have been created anew. -/
def caps_frame (T S : mta_state) : Prop :=
  T.relays = S.relays ∧ T.domains = S.domains ∧
    (∀ x, (T.connectors x).nconn = (S.connectors x).nconn) ∧
    (∀ x, host_same (T.hosts x) (S.hosts x)) ∧ (∀ x, source_same (T.sources x) (S.sources x)) ∧
    (∀ x, route_evolves (T.routes x) (S.routes x))

/-- Some connector of the relay `r` carries a bit of the mask `m` in the state
`S`: the bit is in the OR of the flags of all the connectors of the relay. -/
def relay_flagged (S : mta_state) (r : relay_ptr) (m : Nat) : Prop :=
  ∃ s ∈ (S.relays r).connectors, has_flag (S.connectors (r, s)).flags m = true

/-- The failure message that `mta_on_source` chooses from the OR of the
connector flags. -/
def exhaustion_message (errmask : Nat) : String :=
  if has_flag errmask CONNECTOR_ERROR_ROUTE_SMTP then "Destination seem to reject all mails"
  else if has_flag errmask CONNECTOR_ERROR_ROUTE_NET then "Network error on destination MXs"
  else if has_flag errmask CONNECTOR_ERROR_MX then "No MX found for destination"
  else if has_flag errmask CONNECTOR_ERROR_FAMILY then "Address family mismatch on destination MXs"
  else "No valid route to destination"

/-- The references that a running handler holds on routes in its local
variables: one on the candidate `best` of `mta_find_route`. -/
def hold (best : Option route_ptr) : route_ptr → Nat :=
  fun k => if best = some k then 1 else 0

/-- One more held reference on the route `k`. -/
def bump (H : route_ptr → Nat) (k : route_ptr) : route_ptr → Nat :=
  Function.update H k (H k + 1)

/-- One held reference on the route `k` less. -/
def drop (H : route_ptr → Nat) (k : route_ptr) : route_ptr → Nat :=
  Function.update H k (H k - 1)

/-- The state `T` differs from `S` at most in the connector records and in the
connector run-queue. -/
def conn_frame (T S : mta_state) : Prop :=
  T = { S with connectors := T.connectors, runq_connector := T.runq_connector }

/-- A property of the state and of the held route references that is kept by
interning a route and by releasing a held route: an invariant of the loop of
`mta_find_route`. -/
structure route_invariant (now : Int) (P : mta_state → (route_ptr → Nat) → Prop) : Prop where
  intern : ∀ S H s d, P S H → P (mta_route S s d) (bump H (s, d))
  release : ∀ S H k, P S H → 1 ≤ H k → P (mta_route_unref now S k) (drop H k)

/-- An invariant of the loop of `mta_find_route` that is also kept by spawning a
session on a held route and by changes to connectors: an invariant of
`mta_connect`. -/
structure connect_invariant (now : Int) (P : mta_state → (route_ptr → Nat) → Prop) : Prop where
  routes : route_invariant now P
  spawn : ∀ S H c k, P S H → 1 ≤ H k → P (mta_connect_spawn now S c k) (drop H k)
  frame : ∀ S T H, P S H → conn_frame T S → P T H

/-- The latest of `now` and the four `lastconn + conndelay` deadlines of the
domain, the source, the connector and the relay of the connector `c`. -/
def connect_deadline (now : Int) (S : mta_state) (c : connector_ptr) : Int :=
  max now
    (max ((S.domains (S.relays c.1).domain).lastconn +
        (deref_limits (S.relays c.1).limits).conndelay_domain)
      (max ((S.sources c.2).lastconn + (deref_limits (S.relays c.1).limits).conndelay_source)
        (max ((S.connectors c).lastconn + (deref_limits (S.relays c.1).limits).conndelay_connector)
          ((S.relays c.1).lastconn + (deref_limits (S.relays c.1).limits).conndelay_relay))))

/-- One of the counters of the domain, the source, the connector and the relay
of the connector `c` is at its cap. -/
def connect_capped (S : mta_state) (c : connector_ptr) : Prop :=
  (S.domains (S.relays c.1).domain).nconn ≥
      (deref_limits (S.relays c.1).limits).maxconn_per_domain ∨
    (S.sources c.2).nconn ≥ (deref_limits (S.relays c.1).limits).maxconn_per_source ∨
    (S.connectors c).nconn ≥ (deref_limits (S.relays c.1).limits).maxconn_per_connector ∨
    (S.relays c.1).nconn ≥ (deref_limits (S.relays c.1).limits).maxconn_per_relay

instance (S : mta_state) (c : connector_ptr) : Decidable (connect_capped S c) := by
  unfold connect_capped; infer_instance

/-- The local variables of `mta_find_route` at the end of its loop, for the
connector `c` in the state `S`. -/
def find_route_exit (now : Int) (S : mta_state) (c : connector_ptr) : find_route_vars :=
  (mta_find_route_loop now (deref_limits (S.relays c.1).limits) c
    (S.domains (S.relays c.1).domain).mxs find_route_vars_init S).vars

/-- The retry time of a connector that obtained no route, in the words of the
retry rule: five seconds from `now` if a limit bit fired (one of the four
counters of `mta_connect`, or the host or route limit of the route search,
which runs when no counter is at its cap and no deadline lies ahead), and
otherwise the latest of `now`, the four deadlines and the earliest time
reported by the route search, if it reported one. -/
def connect_retry_time (now : Int) (S : mta_state) (c : connector_ptr) : Int :=
  if connect_capped S c then now + 5
  else if connect_deadline now S c > now then connect_deadline now S c
  else if (find_route_exit now S c).limit_route = true ∨
      (find_route_exit now S c).limit_host = true then now + 5
  else if (find_route_exit now S c).tm ≠ 0 then
    max (connect_deadline now S c) (find_route_exit now S c).tm
  else connect_deadline now S c

/-- The state of `mta_connect` after its first two tests, for a connector
without error: the pending timer of the connector is cancelled when
`CONNECTOR_WAIT` is set. -/
def connect_entry (S : mta_state) (c : connector_ptr) : mta_state :=
  if has_flag (S.connectors c).flags CONNECTOR_WAIT = true then
    { S with runq_connector := runq_cancel S.runq_connector c }
  else S

/-- The route that a pass of `mta_connect` found, if any. -/
def connect_select.found : connect_select → Option route_ptr
  | connect_select.stop _ => none
  | connect_select.route k _ => some k

/-- The key of a relay in the words of the specification: the eight fields
`(domain, flags, port, authtable, authlabel, sourcetable, cert, backupname)`,
an absent string being equal to an absent string only. -/
def relay_key (a : struct_mta_relay) :
    Nat × Nat × Nat × Option String × Option String × Option String × Option String ×
      Option String :=
  (a.domain, a.flags, a.port, a.authtable, a.authlabel, a.sourcetable, a.cert, a.backupname)

/-- Sequencing of two comparisons: the second decides when the first finds no
difference. -/
def cmp_then (x y : Option Int) : Option Int :=
  x.bind fun r => if r ≠ 0 then some r else y

/-- The pair of tests `a < b`, `a > b` on two numbers. -/
def cmp_nat (a b : Nat) : Option Int :=
  some (if a < b then -1 else if a > b then 1 else 0)

/-- The two tests on null pointers that precede `strcmp` for the fields
`authtable`, `sourcetable` and `cert`, followed by `strcmp`. -/
def cmp_null (a b : Option String) : Option Int :=
  if a = none ∧ b ≠ none then some (-1)
  else if a ≠ none ∧ b = none then some 1
  else strcmp_if a b

/-- The comparisons `x` of `a` with `b` and `y` of `b` with `a` both return,
with opposite results, and find no difference exactly when `p` holds. -/
def cmp_ok (x y : Option Int) (p : Prop) : Prop :=
  ∃ r : Int, x = some r ∧ y = some (-r) ∧ (r = 0 ↔ p)

/-- One disable/enable cycle of the route `k`: `mta_route_disable(route, 2,
reason)` at the time `c.1`, then the expiry, at the time `c.2.1`, of the timer
entry that the call scheduled; `c.2.2` is the reason. -/
def route_cycle (k : route_ptr) (S : mta_state) (c : Int × Int × Nat) : mta_state :=
  runq_route_expire c.2.1 (mta_route_disable c.1 S k 2 c.2.2)
    (c.1 + mta_route_disable_delay ((S.routes k).penalty + 2), k)

/-- The state `T` has the routes, the route tree and the route run-queue of
`S`, and its hosts and sources differ from those of `S` at most in their
reference count. -/
def graph_frame (T S : mta_state) : Prop :=
  T.routes = S.routes ∧ T.routes_tree = S.routes_tree ∧ T.runq_route = S.runq_route ∧
    (∀ h, host_same (T.hosts h) (S.hosts h)) ∧ (∀ s, source_same (T.sources s) (S.sources s))

/-- Every route record has a penalty between zero and the bound `B`. -/
def penalty_bounded (B : route_ptr → Int) (S : mta_state) : Prop :=
  ∀ x, 0 ≤ (S.routes x).penalty ∧ (S.routes x).penalty ≤ B x

/-- The events that act on the penalty of routes: a session reports the route
down, a session is collected, a route timer expires, the control message
`RESUME_ROUTE` arrives. -/
inductive route_event where
  | down (now : Int) (k : route_ptr)
  | collect (fuel : Nat) (now : Int) (r : relay_ptr) (k : route_ptr)
  | timer (now : Int) (e : Int × route_ptr)
  | resume (now : Int) (u64 : Nat)

/-- The handler of an event; `none` when `mta_connect` runs out of fuel. -/
def route_event.run : route_event → mta_state → Option mta_state
  | route_event.down now k, S => some (mta_route_down now S k)
  | route_event.collect fuel now r k, S => mta_route_collect fuel now S r k
  | route_event.timer now e, S => some (runq_route_expire now S e)
  | route_event.resume now u64, S => some (mta_imsg_ctl_resume_route now S u64)

/-- The event calls `mta_route_disable` on the route `x`: the route is reported
down, or it is collected while it is still `ROUTE_NEW`. -/
def route_event.disables (e : route_event) (S : mta_state) (x : route_ptr) : Bool :=
  match e with
  | route_event.down _ k => decide (x = k)
  | route_event.collect _ _ _ k => decide (x = k) && has_flag (S.routes k).flags ROUTE_NEW
  | _ => false

/-- The handlers of a sequence of events, one after the other. -/
def route_events_run : List route_event → mta_state → Option mta_state
  | [], S => some S
  | e :: es, S => (e.run S).bind (route_events_run es)

/-- The route `k` is held: it is in the tree, it is not kept alive by a timer,
its reference count covers one reference beyond those of the entries `E` and
those held by the running handler, its penalty, its time of disconnection and
its `ROUTE_DISABLED` and `ROUTE_NEW` bits are `p`, `d`, `f` and `n`, and the
entries `E` are pending on its timer. -/
def route_held (k : route_ptr) (p d : Int) (f n : Nat) (E : List (Int × route_ptr))
    (S : mta_state) (H : route_ptr → Nat) : Prop :=
  k ∈ S.routes_tree ∧ has_flag (S.routes k).flags ROUTE_RUNQ = false ∧
    1 + (E.length : Int) + (H k : Int) ≤ (S.routes k).refcount ∧ (S.routes k).penalty = p ∧
    (S.routes k).lastdisc = d ∧ (S.routes k).flags &&& ROUTE_DISABLED = f ∧
    (S.routes k).flags &&& ROUTE_NEW = n ∧ ∀ e ∈ E, e.2 = k ∧ e ∈ S.runq_route

/-- The number of entries of the route run-queue for the route `k`. -/
def runq_route_count (S : mta_state) (k : route_ptr) : Nat :=
  S.runq_route.countP (fun e => decide (e.2 = k))

/-- The sum of `nconn` over the routes of the list `l` that satisfy `p`. -/
def nconn_sum (routes : route_ptr → struct_mta_route) (l : List route_ptr)
    (p : route_ptr → Bool) : Nat :=
  ((l.filter p).map (fun k => (routes k).nconn)).sum

/-- The sum of `route.nconn` over the routes of the tree with `route.dst = h`. -/
def host_routes_nconn (S : mta_state) (h : host_ptr) : Nat :=
  nconn_sum S.routes S.routes_tree (fun k => decide (k.2 = h))

/-- The sum of `route.nconn` over the routes of the tree with `route.src = s`. -/
def source_routes_nconn (S : mta_state) (s : source_ptr) : Nat :=
  nconn_sum S.routes S.routes_tree (fun k => decide (k.1 = s))

/-- Connection-count consistency: the counter of every host and of every
source is the sum of the counters of its routes. -/
def nconn_consistent (S : mta_state) : Prop :=
  (∀ h, (S.hosts h).nconn = host_routes_nconn S h) ∧
    (∀ s, (S.sources s).nconn = source_routes_nconn S s)

/-- The accounting of the route graph, with `H` the references that the
running handler holds: the tree has no duplicate; the reference count of a
route covers its sessions, its pending timers and the held references; a
route that is kept alive or suspended has a pending timer for each of the two;
a route outside the tree has no timer and is not held; the counters of hosts
and sources are the sums over their routes. -/
structure route_acct (S : mta_state) (H : route_ptr → Nat) : Prop where
  nodup : S.routes_tree.Nodup
  refs : ∀ k ∈ S.routes_tree,
    ((S.routes k).nconn : Int) + runq_route_count S k + H k ≤ (S.routes k).refcount
  timers : ∀ k ∈ S.routes_tree,
    (if has_flag (S.routes k).flags ROUTE_RUNQ = true then 1 else 0) +
      (if has_flag (S.routes k).flags ROUTE_DISABLED = true then 1 else 0) ≤ runq_route_count S k
  gone : ∀ k, k ∉ S.routes_tree → runq_route_count S k = 0 ∧ H k = 0
  sums : nconn_consistent S

/-- The timers of the routes: at most one entry of the route run-queue is
pending for a route, and a route of the tree that is kept alive by its timer
(`ROUTE_RUNQ`) has the reference of that timer and no other. -/
structure runq_acct (S : mta_state) : Prop where
  once : ∀ k, runq_route_count S k ≤ 1
  alone : ∀ k ∈ S.routes_tree,
    has_flag (S.routes k).flags ROUTE_RUNQ = true → (S.routes k).refcount = 1

/-- The state `T` comes from `S` by a step that touches neither the route
tree, nor the route run-queue, nor the counter, the reference count and the
timer flags of a route, nor the counter of a host or of a source. -/
def acct_frame (T S : mta_state) : Prop :=
  T.routes_tree = S.routes_tree ∧ T.runq_route = S.runq_route ∧
    (∀ k, (T.routes k).nconn = (S.routes k).nconn ∧
      (T.routes k).refcount = (S.routes k).refcount ∧
      has_flag (T.routes k).flags ROUTE_RUNQ = has_flag (S.routes k).flags ROUTE_RUNQ ∧
      has_flag (T.routes k).flags ROUTE_DISABLED = has_flag (S.routes k).flags ROUTE_DISABLED) ∧
    (∀ h, (T.hosts h).nconn = (S.hosts h).nconn) ∧
    (∀ s, (T.sources s).nconn = (S.sources s).nconn)

/-- The handlers that act on the route graph: `mta_connect` on a connector, a
session that is collected, that validates its route or that reports it down,
the expiry of a route timer, and the control message `RESUME_ROUTE`. -/
inductive graph_event where
  | connect (fuel : Nat) (now : Int) (c : connector_ptr)
  | collect (fuel : Nat) (now : Int) (r : relay_ptr) (k : route_ptr)
  | ok (fuel : Nat) (now : Int) (r : relay_ptr) (k : route_ptr)
  | down (now : Int) (k : route_ptr)
  | timer (now : Int) (e : Int × route_ptr)
  | resume (now : Int) (u64 : Nat)

/-- The handler of an event; `none` when `mta_connect` runs out of fuel. -/
def graph_event.run : graph_event → mta_state → Option mta_state
  | graph_event.connect fuel now c, S => mta_connect fuel now S c
  | graph_event.collect fuel now r k, S => mta_route_collect fuel now S r k
  | graph_event.ok fuel now r k, S => mta_route_ok fuel now S r k
  | graph_event.down now k, S => some (mta_route_down now S k)
  | graph_event.timer now e, S => some (runq_route_expire now S e)
  | graph_event.resume now u64, S => some (mta_imsg_ctl_resume_route now S u64)

/-- The event can happen in the state `S`: a session is collected or reports
its route down only while it is open on a route of the tree, and a timer
expires only while it is pending. -/
def graph_event.enabled : graph_event → mta_state → Prop
  | graph_event.collect _ _ _ k, S => k ∈ S.routes_tree ∧ 0 < (S.routes k).nconn
  | graph_event.down _ k, S => k ∈ S.routes_tree ∧ 0 < (S.routes k).nconn
  | graph_event.timer _ e, S => e ∈ S.runq_route
  | _, _ => True

/-- The states reachable from the initial state by the handlers that act on
the route graph and by steps that leave the route graph alone. -/
inductive mta_reachable : mta_state → Prop where
  | init (dict : String → Option mta_limits) : mta_reachable (mta_init dict)
  | other {S T : mta_state} : mta_reachable S → acct_frame T S → mta_reachable T
  | event {S T : mta_state} (e : graph_event) :
      mta_reachable S → e.enabled S → e.run S = some T → mta_reachable T

/-- The calls of `mta_route_error` for the routes `ks`, one after the other. -/
def mta_route_errors (S : mta_state) (ks : List route_ptr) : mta_state :=
  ks.foldl mta_route_error S

/-- What is observed of a relay after a drain: `RELAY_WAIT_MX`, its reference
count, the number of source queries, its terminal failure, and the waiters
and the MX requests of its domain. -/
structure relay_view where
  wait_mx : Bool
  refcount : Int
  sourceloop : Nat
  failstr : String
  waitq : List Nat
  requests : List (Nat × Nat)
deriving DecidableEq, Repr

/-- The view of the relay `r` in the state `T`. -/
def drain_view (r : relay_ptr) (T : mta_state) : relay_view :=
  { wait_mx := has_flag (T.relays r).status RELAY_WAIT_MX
    refcount := (T.relays r).refcount
    sourceloop := (T.relays r).sourceloop
    failstr := (T.relays r).failstr
    waitq := (T.domains (T.relays r).domain).waitq
    requests := T.wait_mx }

/-- The queue outcome of a terminal failure for the envelope `e`: a temporary
failure without penalty, or a permanent failure, with the failure message. -/
def flush_outcome (fail : Nat) (error : String) (e : mta_envelope) : mta_event :=
  if fail = IMSG_DELIVERY_TEMPFAIL then mta_event.queue_tempfail e.id 0 error
  else mta_event.queue_permfail e.id error

/-- The envelopes of the tasks of the relay `r`, task after task, in the order
of the queues. -/
def relay_envelopes (S : mta_state) (r : relay_ptr) : List mta_envelope :=
  ((S.relays r).tasks.map (fun t => t.envelopes)).flatten

/-- Every entry of the host status cache `d` is in `d1` under the same name,
with at least the deferred envelopes it had, and the same error and time. -/
def hoststat_grows (d d1 : List (String × hoststat)) : Prop :=
  ∀ name hs, hoststat_get d name = some hs →
    ∃ hs1, hoststat_get d1 name = some hs1 ∧ (∀ x ∈ hs.deferred, x ∈ hs1.deferred) ∧
      hs1.error = hs.error ∧ hs1.tm = hs.tm

/-- Every connector of the relay `r` carries a bit of `CONNECTOR_ERROR_ROUTE`. -/
def relay_routes_failed (S : mta_state) (r : relay_ptr) : Prop :=
  ∀ s ∈ (S.relays r).connectors,
    has_flag (S.connectors (r, s)).flags CONNECTOR_ERROR_ROUTE = true

/-- The pacing fields of a relay: `lastsource`, `nextsource` and `sourceloop`. -/
def relay_pacing (S : mta_state) (r : relay_ptr) : Int × Int × Nat :=
  ((S.relays r).lastsource, (S.relays r).nextsource, (S.relays r).sourceloop)

/-- The connector of the source carries a bit of `CONNECTOR_ERROR` in the
state `S1`; false when no source was produced. -/
def source_error (S1 : mta_state) (r : relay_ptr) (source : Option source_ptr) : Bool :=
  match source with
  | some s => has_flag (S1.connectors (r, s)).flags CONNECTOR_ERROR
  | none => false

instance (e : graph_event) (S : mta_state) : Decidable (e.enabled S) := by
  cases e <;> unfold graph_event.enabled <;> infer_instance

/-- All five wait bits of the relay are set: MX, preference, secret, source
and connector. -/
def relay_waits_all (S : mta_state) (r : relay_ptr) : Prop :=
  has_flag (S.relays r).status RELAY_WAIT_MX = true ∧
    has_flag (S.relays r).status RELAY_WAIT_PREFERENCE = true ∧
    has_flag (S.relays r).status RELAY_WAIT_SECRET = true ∧
    has_flag (S.relays r).status RELAY_WAIT_SOURCE = true ∧
    has_flag (S.relays r).status RELAY_WAIT_CONNECTOR = true

/-- The limits that `mta_query_limits` finds for a relay. -/
def relay_limits_lookup (S : mta_state) (r : relay_ptr) : Option mta_limits :=
  match S.sc_limits_dict (S.domains (S.relays r).domain).name with
  | some l => some l
  | none => S.sc_limits_dict "default"

/-- The host status entry of the lower-cased host name, if the name fits the
buffer and has an entry. -/
def hoststat_entry (S : mta_state) (host : String) : Option hoststat :=
  (lowercase host SMTPD_MAXHOSTNAMELEN).bind (hoststat_get S.hoststat)

/-- The event starts a session of the relay `r`. -/
def mta_event.session_of (r : relay_ptr) : mta_event → Bool
  | mta_event.session x _ => decide (x = r)
  | _ => false

/-- The number of sessions of the relay `r` started so far. -/
def relay_sessions (r : relay_ptr) (S : mta_state) : Nat :=
  S.out.countP (mta_event.session_of r)

/-- The connection counts of a state: `nconn` of every relay, domain,
connector, route, source and host. -/
structure nconn_view where
  relay : relay_ptr → Nat
  domain : domain_ptr → Nat
  connector : connector_ptr → Nat
  route : route_ptr → Nat
  source : source_ptr → Nat
  host : host_ptr → Nat

/-- The connection counts of the state `S`. -/
def nconn_of (S : mta_state) : nconn_view :=
  { relay := fun x => (S.relays x).nconn
    domain := fun x => (S.domains x).nconn
    connector := fun x => (S.connectors x).nconn
    route := fun x => (S.routes x).nconn
    source := fun x => (S.sources x).nconn
    host := fun x => (S.hosts x).nconn }

/-- One more connection of the connector `c`, whose relay has the domain `d`,
on the route `k`: six counts go up by one, the others stay. -/
def nconn_view.opened (v : nconn_view) (c : connector_ptr) (d : domain_ptr) (k : route_ptr) :
    nconn_view :=
  { relay := Function.update v.relay c.1 (v.relay c.1 + 1)
    domain := Function.update v.domain d (v.domain d + 1)
    connector := Function.update v.connector c (v.connector c + 1)
    route := Function.update v.route k (v.route k + 1)
    source := Function.update v.source k.1 (v.source k.1 + 1)
    host := Function.update v.host k.2 (v.host k.2 + 1) }

/-- One connection less of the relay `r`, of domain `d`, on the route `k`: the
same six counts go down by one (as `size_t` counters), the others stay. -/
def nconn_view.closed (v : nconn_view) (r : relay_ptr) (d : domain_ptr) (k : route_ptr) :
    nconn_view :=
  { relay := Function.update v.relay r (size_dec (v.relay r))
    domain := Function.update v.domain d (size_dec (v.domain d))
    connector := Function.update v.connector (r, k.1) (size_dec (v.connector (r, k.1)))
    route := Function.update v.route k (size_dec (v.route k))
    source := Function.update v.source k.1 (size_dec (v.source k.1))
    host := Function.update v.host k.2 (size_dec (v.host k.2)) }

/-- The number of pending entries of the connector `c` in the connector
run-queue. -/
def runq_connector_count (S : mta_state) (c : connector_ptr) : Nat :=
  S.runq_connector.countP (fun e => decide (e.2 = c))

/-- Every connector has at most one pending entry in the connector run-queue,
and a connector with a pending entry has `CONNECTOR_WAIT`. -/
def connector_wait_acct (S : mta_state) : Prop :=
  ∀ x, runq_connector_count S x ≤
    if has_flag (S.connectors x).flags CONNECTOR_WAIT = true then 1 else 0

/-- The connector has `CONNECTOR_WAIT` exactly when it has a pending entry. -/
def connector_wait_exact (S : mta_state) (c : connector_ptr) : Prop :=
  has_flag (S.connectors c).flags CONNECTOR_WAIT = true ↔ 1 ≤ runq_connector_count S c

/-- The state in which the timer callback of the entry `e` of the connector
run-queue starts: the entry has left the queue. -/
def runq_connector_expire (S : mta_state) (e : Int × connector_ptr) : mta_state :=
  { S with runq_connector := runq_expire S.runq_connector e }

/-- The state `T` has the connector run-queue of `S` and the `CONNECTOR_WAIT`
flags of `S`. -/
def wait_frame (T S : mta_state) : Prop :=
  T.runq_connector = S.runq_connector ∧
    ∀ x, has_flag (T.connectors x).flags CONNECTOR_WAIT =
      has_flag (S.connectors x).flags CONNECTOR_WAIT

/-- The task count and the task list of every relay. -/
def relay_tasks (S : mta_state) : relay_ptr → Nat × List mta_task :=
  fun x => ((S.relays x).ntask, (S.relays x).tasks)

/-- The task count of every relay is the length of its task list, and the
message ids of its tasks are pairwise distinct. -/
def task_acct (S : mta_state) : Prop :=
  ∀ r, (S.relays r).ntask = (S.relays r).tasks.length ∧
    ((S.relays r).tasks.map (fun t => t.msgid)).Nodup

/-- The message ids of the tasks of a relay, in the order of the list. -/
def relay_msgids (S : mta_state) (r : relay_ptr) : List Nat :=
  (S.relays r).tasks.map (fun t => t.msgid)

/-- The states reached from the initial state through `TRANSFER` messages,
`mta_route_next_task` and `mta_flush`, and through steps that leave the task
lists and task counts of the relays alone. -/
inductive task_reachable : mta_state → Prop
  | init (dict : String → Option mta_limits) : task_reachable (mta_init dict)
  | transfer {S T : mta_state} (fuel : Nat) (now : Int) (evp : envelope) :
      task_reachable S → mta_imsg_transfer fuel now S evp = mta_result.done T → task_reachable T
  | next_task {S : mta_state} (r : relay_ptr) (k : route_ptr) :
      task_reachable S → task_reachable (mta_route_next_task S r k).2
  | flush {S T : mta_state} (r : relay_ptr) (fail : Nat) (error : String) :
      task_reachable S → mta_flush S r fail error = mta_result.done T → task_reachable T
  | other {S T : mta_state} :
      task_reachable S → relay_tasks T = relay_tasks S → task_reachable T

/-- One MX entry that went through the loop body of `mta_find_route`: the
entry, the verdict on it, and the state in which the body ran. -/
structure find_route_exam where
  mx : mta_mx
  verdict : mx_verdict
  state : mta_state

/-- The entries that go through the loop body of `mta_find_route`, in list
order, each with the state in which the body runs on it. -/
def mta_find_route_exams (now : Int) (l : mta_limits) (c : connector_ptr) :
    List mta_mx → find_route_vars → mta_state → List find_route_exam
  | [], _, _ => []
  | mx :: rest, v, S =>
    match mta_find_route_level (S.relays c.1).backuppref mx v with
    | Except.error _ => []
    | Except.ok v1 =>
      { mx := mx, verdict := (mta_find_route_mx now l c mx v1 S).2.2, state := S } ::
        mta_find_route_exams now l c rest (mta_find_route_mx now l c mx v1 S).1
          (mta_find_route_mx now l c mx v1 S).2.1

/-- The route record that the loop body looks at for the entry: the route from
the source of the connector to the host, after `mta_route`. -/
def find_route_exam.route (c : connector_ptr) (e : find_route_exam) : struct_mta_route :=
  (mta_route e.state c.2 e.mx.host).routes (c.2, e.mx.host)

/-- The host or the route of the entry cannot be used yet. -/
def find_route_exam.delayed (e : find_route_exam) : Bool :=
  decide (e.verdict = mx_verdict.host_delay) || decide (e.verdict = mx_verdict.conn_delay) ||
    decide (e.verdict = mx_verdict.disc_delay)

/-- The time from which the host or the route of a delayed entry can be used. -/
def find_route_exam.deadline (l : mta_limits) (c : connector_ptr) (e : find_route_exam) : Int :=
  match e.verdict with
  | mx_verdict.host_delay => (e.state.hosts e.mx.host).lastconn + l.conndelay_host
  | mx_verdict.conn_delay => (e.route c).lastconn + l.conndelay_route
  | mx_verdict.disc_delay => (e.route c).lastdisc + l.discdelay_route
  | _ => 0

/-- The route of the entry is blocked by an open probe (it has a connection
and was never validated) or by the route cap. -/
def find_route_exam.route_blocked (e : find_route_exam) : Bool :=
  decide (e.verdict = mx_verdict.not_validated) || decide (e.verdict = mx_verdict.route_limit)

/-- The route of the entry is suspended with the disable bit `k`. -/
def find_route_exam.suspended_with (c : connector_ptr) (k : Nat) (e : find_route_exam) : Bool :=
  decide (e.verdict = mx_verdict.suspended) && has_flag (e.route c).flags k

/-- What the loop body does to the local variables for an examined entry,
read off the verdict. -/
def find_route_exam.apply (l : mta_limits) (c : connector_ptr) (v : find_route_vars)
    (e : find_route_exam) : find_route_vars :=
  match e.verdict with
  | mx_verdict.ignored => v
  | mx_verdict.af_mismatch => { v with seen := v.seen + 1, family_mismatch := true }
  | mx_verdict.host_limit => { v with seen := v.seen + 1, limit_host := true }
  | mx_verdict.host_delay => { v with seen := v.seen + 1, tm := tm_min v.tm (e.deadline l c) }
  | mx_verdict.conn_delay => { v with seen := v.seen + 1, tm := tm_min v.tm (e.deadline l c) }
  | mx_verdict.disc_delay => { v with seen := v.seen + 1, tm := tm_min v.tm (e.deadline l c) }
  | mx_verdict.suspended =>
    { v with seen := v.seen + 1,
             suspended_route := v.suspended_route ||| ((e.route c).flags &&& ROUTE_DISABLED) }
  | mx_verdict.not_validated => { v with seen := v.seen + 1, limit_route := true }
  | mx_verdict.route_limit => { v with seen := v.seen + 1, limit_route := true }
  | mx_verdict.worse => { v with seen := v.seen + 1 }
  | mx_verdict.selected => { v with seen := v.seen + 1, best := some (c.2, e.mx.host) }

/-- An examined entry is consistent with the clock: a delayed entry has its
deadline after `now`, and a suspended one has a disable bit. -/
def find_route_exam.sound (now : Int) (l : mta_limits) (c : connector_ptr)
    (e : find_route_exam) : Prop :=
  (e.delayed = true → e.deadline l c > now) ∧
    (e.verdict = mx_verdict.suspended → has_flag (e.route c).flags ROUTE_DISABLED = true)

/-- The local variables of `mta_find_route` but the preference level. -/
def find_route_vars.core (v : find_route_vars) :
    Int × Bool × Bool × Nat × Bool × Option route_ptr × Nat :=
  (v.tm, v.limit_host, v.limit_route, v.suspended_route, v.family_mismatch, v.best, v.seen)

/-- The earliest of a list of times, if there is one. -/
def earliest : List Int → Option Int
  | [] => none
  | d :: ds => some (match earliest ds with
      | none => d
      | some m => min d m)

/-- The outcomes of a search that returns no route, in the words of the
specification. -/
inductive no_route_outcome where
  | error_mx
  | limit_route
  | limit_host
  | delay (t : Int)
  | error_family
  | error_route (net smtp : Bool)
deriving DecidableEq, Repr

/-- The outcome that the specification gives for the examined entries: the
first that matches, in the order of the list of the specification. -/
def no_route_classify (l : mta_limits) (c : connector_ptr) (E : List find_route_exam) :
    Option no_route_outcome :=
  if E.all (fun e => decide (e.verdict = mx_verdict.ignored)) then
    some no_route_outcome.error_mx
  else if E.any find_route_exam.route_blocked then some no_route_outcome.limit_route
  else if E.any (fun e => decide (e.verdict = mx_verdict.host_limit)) then
    some no_route_outcome.limit_host
  else
    match earliest ((E.filter find_route_exam.delayed).map (find_route_exam.deadline l c)) with
    | some t => some (no_route_outcome.delay t)
    | none =>
      if E.any (fun e => decide (e.verdict = mx_verdict.af_mismatch)) then
        some no_route_outcome.error_family
      else if E.any (fun e => decide (e.verdict = mx_verdict.suspended)) then
        some (no_route_outcome.error_route
          (E.any (find_route_exam.suspended_with c ROUTE_DISABLED_NET))
          (E.any (find_route_exam.suspended_with c ROUTE_DISABLED_SMTP)))
      else none

/-- The connector `c` gets the flag `m`. -/
def connector_flagged (S : mta_state) (c : connector_ptr) (m : Nat) : mta_state :=
  { S with
    connectors := Function.update S.connectors c
      { S.connectors c with flags := set_flag (S.connectors c).flags m } }

/-- What the outcome does, in the words of the specification: the state, and
the values of `limits` and `nextconn`. -/
def no_route_outcome.apply (S : mta_state) (c : connector_ptr) (limits : Nat) (nextconn : Int) :
    no_route_outcome → mta_state × Nat × Int
  | no_route_outcome.error_mx => (connector_flagged S c CONNECTOR_ERROR_MX, limits, nextconn)
  | no_route_outcome.limit_route => (S, set_flag limits CONNECTOR_LIMIT_ROUTE, nextconn)
  | no_route_outcome.limit_host => (S, set_flag limits CONNECTOR_LIMIT_HOST, nextconn)
  | no_route_outcome.delay t => (S, limits, if t > nextconn then t else nextconn)
  | no_route_outcome.error_family =>
    (connector_flagged S c CONNECTOR_ERROR_FAMILY, limits, nextconn)
  | no_route_outcome.error_route net smtp =>
    let S1 := if net then connector_flagged S c CONNECTOR_ERROR_ROUTE_NET else S
    (if smtp then connector_flagged S1 c CONNECTOR_ERROR_ROUTE_SMTP else S1, limits, nextconn)

/-- The entries examined by `mta_find_route` for the connector `c` in the
state `S`. -/
def find_route_examined (now : Int) (S : mta_state) (c : connector_ptr) : List find_route_exam :=
  mta_find_route_exams now (deref_limits (S.relays c.1).limits) c
    (S.domains (S.relays c.1).domain).mxs find_route_vars_init S

/-- The state at the end of the loop of `mta_find_route`. -/
def find_route_exit_state (now : Int) (S : mta_state) (c : connector_ptr) : mta_state :=
  (mta_find_route_loop now (deref_limits (S.relays c.1).limits) c
    (S.domains (S.relays c.1).domain).mxs find_route_vars_init S).state

/-- The entry passed every admission check of the loop body: it reached the
comparison with the current candidate. -/
def find_route_exam.candidate (e : find_route_exam) : Bool :=
  decide (e.verdict = mx_verdict.worse) || decide (e.verdict = mx_verdict.selected)

/-- The admission checks of the loop body of `mta_find_route`, in the words of
the specification: the host is not ignored, the address family fits, the host
is below its cap and past its connect delay, the route is not suspended, has
no open probe, is below its cap and past its connect and disconnect delays. -/
def find_route_exam.admitted (now : Int) (l : mta_limits) (c : connector_ptr)
    (e : find_route_exam) : Prop :=
  has_flag (e.state.hosts e.mx.host).flags HOST_IGNORE = false ∧
    af_mismatch c.2 l e.mx.host = false ∧
    (e.state.hosts e.mx.host).nconn < l.maxconn_per_host ∧
    (e.state.hosts e.mx.host).lastconn + l.conndelay_host ≤ now ∧
    has_flag (e.route c).flags ROUTE_DISABLED = false ∧
    ¬ ((e.route c).nconn ≠ 0 ∧ has_flag (e.route c).flags ROUTE_NEW = true) ∧
    (e.route c).nconn < l.maxconn_per_route ∧
    (e.route c).lastconn + l.conndelay_route ≤ now ∧
    (e.route c).lastdisc + l.discdelay_route ≤ now

/-- The route `b` is in the tree, is not on the route run-queue and has a
reference. -/
def route_in_use (S : mta_state) (b : route_ptr) : Prop :=
  b ∈ S.routes_tree ∧ has_flag (S.routes b).flags ROUTE_RUNQ = false ∧ 1 ≤ (S.routes b).refcount

/-- Every route of the tree is there once and has a reference:
`mta_route_unref` takes a route out of the tree when its last reference goes. -/
def routes_referenced (S : mta_state) : Prop :=
  S.routes_tree.Nodup ∧ ∀ k ∈ S.routes_tree, 1 ≤ (S.routes k).refcount

/-- The candidate of the loop of `mta_find_route` is a route in use. -/
def best_held (v : find_route_vars) (S : mta_state) : Prop :=
  ∀ b, v.best = some b → route_in_use S b

/-- What one pass of the loop body of `mta_find_route` does to the candidate:
a selected entry becomes the candidate and has fewer connections than the
candidate before; any other entry leaves the candidate and its `nconn` alone;
an entry found worse has at least the connections of the candidate. -/
def find_route_step_ok (c : connector_ptr) (mx : mta_mx) (v : find_route_vars) (S : mta_state)
    (out : find_route_vars × mta_state × mx_verdict) : Prop :=
  routes_referenced out.2.1 ∧ best_held out.1 out.2.1 ∧
    (out.2.2 = mx_verdict.selected →
      out.1.best = some (c.2, mx.host) ∧
        (out.2.1.routes (c.2, mx.host)).nconn =
          ((mta_route S c.2 mx.host).routes (c.2, mx.host)).nconn ∧
        ∀ b, v.best = some b →
          ((mta_route S c.2 mx.host).routes (c.2, mx.host)).nconn < (S.routes b).nconn) ∧
    (out.2.2 ≠ mx_verdict.selected →
      out.1.best = v.best ∧
        ∀ b, v.best = some b → (out.2.1.routes b).nconn = (S.routes b).nconn) ∧
    (out.2.2 = mx_verdict.worse →
      ∃ b, v.best = some b ∧
        (S.routes b).nconn ≤ ((mta_route S c.2 mx.host).routes (c.2, mx.host)).nconn)

/-- What the reference accounting of the relays reads of a state: the relay
tree; the reference count, the number of sessions and the domain of every
relay; the waiters of the MX list of every domain; the three wait trees of
relays; and the run-queue of the relays. -/
structure refs_view where
  tree : List relay_ptr
  refcount : relay_ptr → Int
  nconn : relay_ptr → Nat
  domain : relay_ptr → domain_ptr
  waitq : domain_ptr → List relay_ptr
  secret : List (Nat × relay_ptr)
  preference : List (Nat × relay_ptr)
  source : List (Nat × relay_ptr)
  runq : List (Int × relay_ptr)

/-- The reference accounting view of a state. -/
def relay_refs (S : mta_state) : refs_view :=
  { tree := S.relays_tree
    refcount := fun r => (S.relays r).refcount
    nconn := fun r => (S.relays r).nconn
    domain := fun r => (S.relays r).domain
    waitq := fun d => (S.domains d).waitq
    secret := S.wait_secret
    preference := S.wait_preference
    source := S.wait_source
    runq := S.runq_relay }

/-- The number of outstanding queries of the relay `r`: its entries in the wait
trees of the secret, preference and source queries, and its entries among the
waiters of the MX list of its domain. -/
def refs_view.queries (V : refs_view) (r : relay_ptr) : Nat :=
  V.secret.countP (fun e => decide (e.2 = r)) + V.preference.countP (fun e => decide (e.2 = r)) +
    V.source.countP (fun e => decide (e.2 = r)) + (V.waitq (V.domain r)).count r

/-- The number of entries of the relay `r` on the run-queue of the relays. -/
def refs_view.scheduled (V : refs_view) (r : relay_ptr) : Nat :=
  V.runq.countP (fun e => decide (e.2 = r))

/-- Nothing waits for the relay `r`: it has no entry in a wait tree, among
the waiters of a domain or on the run-queue of the relays. -/
def refs_view.absent (V : refs_view) (r : relay_ptr) : Prop :=
  (∀ e ∈ V.secret, e.2 ≠ r) ∧ (∀ e ∈ V.preference, e.2 ≠ r) ∧ (∀ e ∈ V.source, e.2 ≠ r) ∧
    (∀ e ∈ V.runq, e.2 ≠ r) ∧ ∀ d, r ∉ V.waitq d

/-- The reference accounting of the relays; `H r` is the number of references
on the relay `r` that the running handler holds.  Every relay of the tree is
there once and has a reference, and its reference count covers its outstanding
queries, its sessions, its entries on the run-queue and the held references;
nothing waits for a relay that is not in the tree; a relay waits for the MX
list of its own domain only. -/
structure refs_ok (V : refs_view) (H : relay_ptr → Nat) : Prop where
  nodup : V.tree.Nodup
  pos : ∀ r ∈ V.tree, 1 ≤ V.refcount r
  refs : ∀ r ∈ V.tree,
    (V.queries r : Int) + V.nconn r + V.scheduled r + H r ≤ V.refcount r
  gone : ∀ r, r ∉ V.tree → H r = 0 ∧ V.absent r
  own : ∀ d r, r ∈ V.waitq d → V.domain r = d

/-- One more held reference on the relay `r`. -/
def held_more (H : relay_ptr → Nat) (r : relay_ptr) : relay_ptr → Nat :=
  Function.update H r (H r + 1)

/-- One held reference on the relay `r` less. -/
def held_less (H : relay_ptr → Nat) (r : relay_ptr) : relay_ptr → Nat :=
  Function.update H r (H r - 1)

/-- The view after `mta_relay_ref`. -/
def refs_view.ref (V : refs_view) (r : relay_ptr) : refs_view :=
  { V with refcount := Function.update V.refcount r (V.refcount r + 1) }

/-- The view after `mta_relay_unref`. -/
def refs_view.unref (V : refs_view) (r : relay_ptr) : refs_view :=
  if V.refcount r - 1 ≠ 0 then
    { V with refcount := Function.update V.refcount r (V.refcount r - 1) }
  else
    { V with
      refcount := Function.update V.refcount r (V.refcount r - 1)
      tree := V.tree.erase r }

/-- The state `T` has the relays, the domains, the relay tree, the wait trees
of relays and the run-queue of the relays of `S`. -/
def refs_frame (T S : mta_state) : Prop :=
  T.relays = S.relays ∧ T.domains = S.domains ∧ T.relays_tree = S.relays_tree ∧
    T.wait_secret = S.wait_secret ∧ T.wait_preference = S.wait_preference ∧
    T.wait_source = S.wait_source ∧ T.runq_relay = S.runq_relay

/-- The handlers of the scheduler: the `TRANSFER` of an envelope, the replies
to the four queries (`DNS_HOST` and `DNS_HOST_END` for the MX query), the
expiry of a timer of a relay, of a connector or of a route, the entry points
of a session (`mta_route_ok`, `mta_route_down`, `mta_route_error`,
`mta_source_error`, `mta_route_next_task` and `mta_route_collect`), and the
control message `RESUME_ROUTE`. -/
inductive relay_event where
  | transfer (evp : envelope)
  | lka_secret (reqid : Nat) (secret : String)
  | dns_mx_preference (reqid : Nat) (dnserror preference : Int)
  | lka_source (reqid : Nat) (ss : Option sockaddr)
  | dns_host (reqid : Nat) (ss : sockaddr) (preference : Int)
  | dns_host_end (reqid : Nat) (dnserror : Nat)
  | timeout_relay (e : Int × relay_ptr)
  | timeout_connector (e : Int × connector_ptr)
  | timeout_route (e : Int × route_ptr)
  | collect (r : relay_ptr) (k : route_ptr)
  | route_ok (r : relay_ptr) (k : route_ptr)
  | route_down (k : route_ptr)
  | route_error (k : route_ptr)
  | source_error (r : relay_ptr) (k : route_ptr)
  | route_next_task (r : relay_ptr) (k : route_ptr)
  | resume_route (u64 : Nat)

/-- The result of a handler that returns a state or runs out of `fuel`. -/
def mta_result.of_option : Option mta_state → mta_result
  | some S => mta_result.done S
  | none => mta_result.fuel

/-- The handler of an event, at the time `now`; a timer that expires leaves
its run-queue before the handler runs. -/
def relay_event.run (fuel : Nat) (now : Int) : relay_event → mta_state → mta_result
  | relay_event.transfer evp, S => mta_imsg_transfer fuel now S evp
  | relay_event.lka_secret reqid secret, S => mta_imsg_lka_secret fuel now S reqid secret
  | relay_event.dns_mx_preference reqid dnserror preference, S =>
    mta_imsg_dns_mx_preference fuel now S reqid dnserror preference
  | relay_event.lka_source reqid ss, S => mta_imsg_lka_source fuel now S reqid ss
  | relay_event.dns_host reqid ss preference, S => mta_imsg_dns_host S reqid ss preference
  | relay_event.dns_host_end reqid dnserror, S => mta_imsg_dns_host_end fuel now S reqid dnserror
  | relay_event.timeout_relay e, S =>
    mta_on_timeout_relay fuel now { S with runq_relay := runq_expire S.runq_relay e } e.2
  | relay_event.timeout_connector e, S =>
    mta_result.of_option (mta_on_timeout_connector fuel now (runq_connector_expire S e) e.2)
  | relay_event.timeout_route e, S => mta_result.done (runq_route_expire now S e)
  | relay_event.collect r k, S => mta_result.of_option (mta_route_collect fuel now S r k)
  | relay_event.route_ok r k, S => mta_result.of_option (mta_route_ok fuel now S r k)
  | relay_event.route_down k, S => mta_result.done (mta_route_down now S k)
  | relay_event.route_error k, S => mta_result.done (mta_route_error S k)
  | relay_event.source_error r k, S => mta_result.done (mta_source_error S r k)
  | relay_event.route_next_task r k, S => mta_result.done (mta_route_next_task S r k).2
  | relay_event.resume_route u64, S => mta_result.done (mta_imsg_ctl_resume_route now S u64)

/-- The event can happen in the state `S`: a timer expires only while it is
pending, and a session is collected only while it is open on a relay of the
tree. -/
def relay_event.enabled : relay_event → mta_state → Bool
  | relay_event.timeout_relay e, S => decide (e ∈ S.runq_relay)
  | relay_event.timeout_connector e, S => decide (e ∈ S.runq_connector)
  | relay_event.timeout_route e, S => decide (e ∈ S.runq_route)
  | relay_event.collect r _, S => decide (r ∈ S.relays_tree) && decide (0 < (S.relays r).nconn)
  | _, _ => true

/-- The states in which a handler has returned, from the initial state on;
`other` stands for every step that leaves alone what the reference accounting
of the relays reads of the state (the operations on the host status cache,
for instance). -/
inductive refs_reachable : mta_state → Prop
  | init (dict : String → Option mta_limits) : refs_reachable (mta_init dict)
  | event {S T : mta_state} (fuel : Nat) (now : Int) (e : relay_event) :
      refs_reachable S → e.enabled S = true → e.run fuel now S = mta_result.done T →
      refs_reachable T
  | other {S T : mta_state} : refs_reachable S → relay_refs T = relay_refs S → refs_reachable T

/-- The number of outstanding queries of a relay. -/
def relay_queries (S : mta_state) (r : relay_ptr) : Nat := (relay_refs S).queries r

/-- One if the relay is scheduled on the run-queue of the relays, else zero. -/
def relay_on_runq (S : mta_state) (r : relay_ptr) : Nat :=
  if S.runq_relay.any (fun e => decide (e.2 = r)) then 1 else 0

/-- IPv4 address `203.0.113.10`, port 25. -/
def ex_host_a : sockaddr := { sa_len := 16, sa_family := 2, sa_data := [0, 25, 203, 0, 113, 10] }

/-- IPv4 address `203.0.113.20`, port 25. -/
def ex_host_b : sockaddr := { sa_len := 16, sa_family := 2, sa_data := [0, 25, 203, 0, 113, 20] }

/-- IPv4 address `198.51.100.1`, port 25: the backup MX itself. -/
def ex_host_self : sockaddr :=
  { sa_len := 16, sa_family := 2, sa_data := [0, 25, 198, 51, 100, 1] }

/-- The route from the default source to `ex_host_a`. -/
def ex_route_a : route_ptr := (none, ex_host_a)

/-- A state whose only route, to `ex_host_a`, has the given record and is held
in the tree; the largest route delays seen so far are `cd` and `dd`. -/
def ex_state_route (r : struct_mta_route) (cd dd : Int) : mta_state :=
  { mta_init (fun _ => none) with
    routes := Function.update (fun _ => calloc_route) ex_route_a r
    routes_tree := [ex_route_a]
    sources := Function.update (fun _ => calloc_source) none { calloc_source with refcount := 2 }
    sources_tree := [none]
    hosts := Function.update (fun _ => calloc_host) ex_host_a { calloc_host with refcount := 2 }
    hosts_tree := [ex_host_a]
    max_seen_conndelay_route := cd
    max_seen_discdelay_route := dd
    rid := 1 }

/-- A validated route (no flag set) without penalty, held by one reference. -/
def ex_route_valid : struct_mta_route :=
  { id := 1, flags := 0, penalty := 0, refcount := 1, nconn := 0, lastconn := 100, lastdisc := 120,
    lastpenalty := 0 }

/-- A route that was never used, as `mta_route` creates it, held by one reference. -/
def ex_route_fresh : struct_mta_route :=
  { id := 1, flags := ROUTE_NEW, penalty := 0, refcount := 1, nconn := 0, lastconn := 0,
    lastdisc := 0, lastpenalty := 0 }

/-- A route suspended for a network error with penalty 2, held by the timer and one session. -/
def ex_route_suspended : struct_mta_route :=
  { id := 1, flags := ROUTE_NEW ||| ROUTE_DISABLED_NET, penalty := 2, refcount := 2, nconn := 0,
    lastconn := 100, lastdisc := 101, lastpenalty := 101 }

/-- The state of a finished handler, `none` after a fatal error or without fuel. -/
def mta_result.state (x : mta_result) : Option mta_state :=
  match x with
  | mta_result.done S => some S
  | _ => none

/-- A limits profile: ten connections per host, five per route, a hundred for
the other scopes, no connect delay, no imposed address family. -/
def ex_limits : mta_limits :=
  { maxconn_per_host := 10, maxconn_per_route := 5, maxconn_per_source := 100,
    maxconn_per_connector := 20, maxconn_per_relay := 100, maxconn_per_domain := 100,
    conndelay_host := 0, conndelay_route := 0, conndelay_source := 0, conndelay_connector := 0,
    conndelay_relay := 0, conndelay_domain := 0, discdelay_route := 0, family := 0 }

/-- A host record referenced by one MX entry. -/
def ex_host : struct_mta_host := { calloc_host with refcount := 1 }

/-- A relay (number 7) for the domain number 1 with one task of one envelope
for `user@example.com`, the limits `ex_limits`, the given backup preference,
source table and status bits, and no connector yet. -/
def ex_relay (backuppref : Int) (sourcetable : Option String) (status : Nat) :
    struct_mta_relay :=
  { calloc_relay with
    id := 7, domain := 1, backuppref := backuppref, sourcetable := sourcetable,
    limits := some ex_limits, status := status, refcount := 1, ntask := 1,
    tasks := [{ msgid := 1, sender := "a@example.org",
                envelopes := [{ id := 4294967297, creation := 900, dest := "user@example.com",
                                rcpt := none, session := 0 }] }] }

/-- A state with the relay 7 and its domain 1 (`example.com`), whose MX list
is `mxs`; the hosts have the records `hosts`. -/
def ex_state_mx (relay : struct_mta_relay) (mxs : List mta_mx)
    (hosts : host_ptr → struct_mta_host) : mta_state :=
  { mta_init (fun _ => some ex_limits) with
    relays := Function.update (fun _ => calloc_relay) 7 relay
    relays_tree := [7]
    domains := Function.update (fun _ => calloc_domain) 1
      { calloc_domain with name := "example.com", mxs := mxs, refcount := 1, lastmxquery := 50 }
    domains_tree := [1]
    hosts := hosts
    hosts_tree := mxs.map (fun mx => mx.host) }

/-- The connector of the relay 7 for the default source. -/
def ex_conn : connector_ptr := (7, none)

/-- Backup MX scenario: the relay is a backup MX of preference 20 and the MX
list is `[10 -> a, 20 -> self, 30 -> b]`; `ha` is the record of the host `a`. -/
def ex_state_backup (ha : struct_mta_host) : mta_state :=
  ex_state_mx (ex_relay 20 none 0)
    [{ host := ex_host_a, preference := 10 }, { host := ex_host_self, preference := 20 },
      { host := ex_host_b, preference := 30 }]
    (Function.update (fun _ => ex_host) ex_host_a ha)

/-- Blocked MX scenario: `a` and `b` share the preference 10, `self` has the
preference 30, and the host `a` is at its connection cap; `hb` is the record
of the host `b`. -/
def ex_state_blocked (hb : struct_mta_host) : mta_state :=
  ex_state_mx (ex_relay (-1) none 0)
    [{ host := ex_host_a, preference := 10 }, { host := ex_host_b, preference := 10 },
      { host := ex_host_self, preference := 30 }]
    (Function.update (Function.update (fun _ => ex_host) ex_host_a { ex_host with nconn := 10 })
      ex_host_b hb)

/-- First local address of the source table. -/
def ex_src1 : sockaddr := { sa_len := 16, sa_family := 2, sa_data := [0, 0, 192, 0, 2, 1] }

/-- Second local address of the source table. -/
def ex_src2 : sockaddr := { sa_len := 16, sa_family := 2, sa_data := [0, 0, 192, 0, 2, 2] }

/-- Source exhaustion scenario, after the first source query was sent: the
relay 7 has a source table, waits for the source (`sourceloop = 1`), and the
only MX of its domain is `a`; the routes from both local addresses to `a` are
suspended for a network error, each held by its timer. -/
def ex_state_exhaust : mta_state :=
  let S := ex_state_mx (ex_relay (-1) (some "sources") RELAY_WAIT_SOURCE)
    [{ host := ex_host_a, preference := 10 }]
    (Function.update (fun _ => calloc_host) ex_host_a { calloc_host with refcount := 3 })
  let r1 : struct_mta_relay := { S.relays 7 with sourceloop := 1 }
  let rt : struct_mta_route := { ex_route_suspended with refcount := 1 }
  { S with
    relays := Function.update S.relays 7 r1
    wait_source := [(7, 7)]
    sources := Function.update
      (Function.update (fun _ => calloc_source) (some ex_src1) { calloc_source with refcount := 1 })
      (some ex_src2) { calloc_source with refcount := 1 }
    sources_tree := [some ex_src1, some ex_src2]
    routes := Function.update
      (Function.update (fun _ => calloc_route) (some ex_src1, ex_host_a) rt)
      (some ex_src2, ex_host_a) { rt with id := 2 }
    routes_tree := [(some ex_src1, ex_host_a), (some ex_src2, ex_host_a)]
    runq_route := [(901, (some ex_src1, ex_host_a)), (901, (some ex_src2, ex_host_a))]
    rid := 2
    hoststat := [("example.com", { tm := 101, error := "Network error", deferred := [] })] }

/-- The state after the reply `ss` to the pending source query of the relay 7
at time 200, with fuel 5; `none` if the handler does not return. -/
def ex_reply (S : Option mta_state) (ss : Option sockaddr) : Option mta_state :=
  S.bind (fun T => (mta_imsg_lka_source 5 200 T 7 ss).state)

/-- Source unavailable scenario, before the first source query: the relay 7
has a source table and no connector. -/
def ex_state_nosource : mta_state :=
  ex_state_mx (ex_relay (-1) (some "sources") 0) [{ host := ex_host_a, preference := 10 }]
    (fun _ => ex_host)

/-- The source exhaustion scenario after the replies to the first and the
second source query. -/
def ex_state_exhaust2 : mta_state :=
  (ex_reply (ex_reply (some ex_state_exhaust) (some ex_src1)) (some ex_src2)).getD
    ex_state_exhaust

/-- The state and the delay at the failure tests of `mta_on_source` for the
third reply of the source exhaustion scenario. -/
def ex_state_exhaust3 : mta_state × Int :=
  (mta_on_source_connect 5 200 ex_state_exhaust2 7 (some (some ex_src1))).getD
    (ex_state_exhaust2, 0)

/-- A state in which the MX lookup of the domain number 1 is pending under the
request 5; the domain has no MX yet. -/
def ex_state_dns : mta_state := { mta_init (fun _ => none) with wait_mx := [(5, 1)] }

/-- Replies of an MX lookup in the order of arrival: `b` with preference 20,
then `a` and `self` with preference 10. -/
def ex_dns_replies : List (sockaddr × Int) := [(ex_host_b, 20), (ex_host_a, 10), (ex_host_self, 10)]

/-- A state in which the relay 7 waits for the MX list of its domain 1, whose
lookup ended with the given status. -/
def ex_state_mxstatus (status : Nat) : mta_state :=
  let S := ex_state_mx (ex_relay (-1) none RELAY_WAIT_MX) [] (fun _ => calloc_host)
  let d1 : struct_mta_domain := { S.domains 1 with mxstatus := status }
  { S with domains := Function.update S.domains 1 d1 }

/-- The backup MX scenario with one connection of the relay 7 open and ready:
as many ready connections as tasks. -/
def ex_state_capped : mta_state :=
  let S := ex_state_backup ex_host
  let r1 : struct_mta_relay := { S.relays 7 with nconn := 1, nconn_ready := 1 }
  { S with relays := Function.update S.relays 7 r1 }

/-- The backup MX scenario at time 1000 with a connect delay of 30 seconds per
host, the host `a` having been connected to at time 990. -/
def ex_state_delay : mta_state :=
  let S := ex_state_backup { ex_host with lastconn := 990 }
  let r1 : struct_mta_relay :=
    { S.relays 7 with limits := some { ex_limits with conndelay_host := 30 } }
  { S with relays := Function.update S.relays 7 r1 }

/-- A relay key with a table of credentials and no label. -/
def ex_relay_nolabel : struct_mta_relay :=
  { ex_relay (-1) none 0 with authtable := some "secrets" }

/-- The relay key `ex_relay_nolabel` with the label `backup`. -/
def ex_relay_label : struct_mta_relay := { ex_relay_nolabel with authlabel := some "backup" }

/-- Two disable/enable cycles: a network failure at time 1000 with the timer
firing at 1800, then a rejection at time 2000 with the timer firing at 3800. -/
def ex_cycles : List (Int × Int × Nat) :=
  [(1000, 1800, ROUTE_DISABLED_NET), (2000, 3800, ROUTE_DISABLED_SMTP)]

/-- The backup MX scenario with one session open since the time 900 on the
route from the default source to `a`, which is still `ROUTE_NEW`. -/
def ex_state_session : mta_state :=
  let S := ex_state_backup { ex_host with nconn := 1, lastconn := 900, refcount := 2 }
  let r1 : struct_mta_relay :=
    { S.relays 7 with nconn := 1, lastconn := 900, refcount := 2, connectors := [none] }
  let d1 : struct_mta_domain := { S.domains 1 with nconn := 1, lastconn := 900 }
  { S with
    relays := Function.update S.relays 7 r1
    domains := Function.update S.domains 1 d1
    sources := Function.update S.sources none { refcount := 2, nconn := 1, lastconn := 900 }
    sources_tree := [none]
    connectors := Function.update S.connectors ex_conn { flags := 0, nconn := 1, lastconn := 900 }
    routes := Function.update S.routes ex_route_a
      { ex_route_fresh with nconn := 1, lastconn := 900 }
    routes_tree := [ex_route_a]
    rid := 1 }

/-- The session on the route to `a` is collected at time 1000, the timer of
the route expires at 1800, and the control message `RESUME_ROUTE` for all
routes arrives twice. -/
def ex_events : List route_event :=
  [route_event.collect 5 1000 7 ex_route_a, route_event.timer 1800 (1800, ex_route_a),
    route_event.resume 1900 0, route_event.resume 1950 0]

/-- A host that is known to the tree, with the error count `n` and the flag
`HOST_IGNORE` only. -/
def ex_state_errors (n : Nat) : mta_state :=
  { mta_init (fun _ => none) with
    hosts := Function.update (fun _ => calloc_host) ex_host_a
      { calloc_host with refcount := 1, nerror := n }
    hosts_tree := [ex_host_a] }

/-- Two relays, 7 (port 25) and 8 (port 587), for the domain 1
(`example.com`), whose MX list was never queried; each has one task. -/
def ex_state_two_relays : mta_state :=
  { mta_init (fun _ => some ex_limits) with
    relays := Function.update (Function.update (fun _ => calloc_relay) 7
      { ex_relay (-1) none 0 with port := 25 }) 8
      { ex_relay (-1) none 0 with id := 8, port := 587 }
    relays_tree := [7, 8]
    domains := Function.update (fun _ => calloc_domain) 1
      { calloc_domain with name := "example.com", refcount := 2 }
    domains_tree := [1] }

/-- The relay waits for the MX list: it has `RELAY_WAIT_MX` and a second
reference, it is the waiter of its domain, and the request 1 is outstanding. -/
def ex_view_waiting : relay_view :=
  { wait_mx := true, refcount := 2, sourceloop := 0, failstr := "", waitq := [7],
    requests := [(1, 1)] }

/-- The relay has failed after two source queries: it has neither
`RELAY_WAIT_MX` nor a second reference, and the waiter of its domain is still
the relay 7 alone. -/
def ex_view_failed : relay_view :=
  { wait_mx := false, refcount := 1, sourceloop := 2, failstr := "No MX found for destination",
    waitq := [7], requests := [(1, 1)] }

/-- The relay 7 with the terminal failure `fail` and two tasks, of two and of
one envelope; there is no host status entry. -/
def ex_state_failing (fail : Nat) : mta_state :=
  { mta_init (fun _ => some ex_limits) with
    relays := Function.update (fun _ => calloc_relay) 7
      { ex_relay (-1) none 0 with
        fail := fail, failstr := "Network error on destination MXs", ntask := 2,
        tasks := [
          { msgid := 1, sender := "a@example.org",
            envelopes := [
              { id := 11, creation := 900, dest := "u@example.com", rcpt := none, session := 0 },
              { id := 12, creation := 900, dest := "v@example.com", rcpt := none,
                session := 0 }] },
          { msgid := 2, sender := "b@example.org",
            envelopes := [
              { id := 21, creation := 901, dest := "w@example.com", rcpt := none,
                session := 0 }] }] }
    relays_tree := [7] }

/-- The relay 7 of `ex_state_failing` with the connectors of the default
source and of `ex_src1`, whose flags are `f1` and `f2`; the host status cache
has an entry for `example.com` with the deferred envelope 5. -/
def ex_state_flush (fail f1 f2 : Nat) : mta_state :=
  let S := ex_state_failing fail
  { S with
    relays := Function.update S.relays 7 { S.relays 7 with connectors := [none, some ex_src1] }
    connectors := Function.update (Function.update S.connectors (7, none)
      { flags := f1, nconn := 0, lastconn := 0 }) (7, some ex_src1)
      { flags := f2, nconn := 0, lastconn := 0 }
    hoststat := [("example.com", { tm := 500, error := "Connection refused", deferred := [5] })] }

/-- A host status cache with the entry of `example.com`, which has the
deferred envelopes 5, 11 and 12. -/
def ex_state_hoststat : mta_state :=
  { mta_init (fun _ => none) with
    hoststat := [("example.org", { tm := 400, error := "Timeout", deferred := [7] }),
      ("example.com", { tm := 500, error := "Connection refused", deferred := [5, 11, 12] })] }

/-- The relay 7 waits for everything and has one task; its limits are not yet
known, and the limits of the configuration have a route connect delay of 30
seconds. -/
def ex_state_waiting : mta_state :=
  { mta_init (fun _ => some { ex_limits with conndelay_route := 30 }) with
    relays := Function.update (fun _ => calloc_relay) 7
      { ex_relay (-1) none 0x37 with limits := none, refcount := 6 }
    relays_tree := [7]
    domains := Function.update (fun _ => calloc_domain) 1
      { calloc_domain with name := "example.com", refcount := 1, lastmxquery := 50,
                           waitq := [7] }
    domains_tree := [1] }

/-- A route record with the given penalty, last penalised at the time 1000
and with one reference left. -/
def ex_route_penalty (p : Int) : struct_mta_route :=
  { calloc_route with penalty := p, lastpenalty := 1000, refcount := 1 }

/-- A state whose only route, from the default source to `ex_host_a`, has the
given penalty. -/
def ex_state_penalty (p : Int) : mta_state := ex_state_route (ex_route_penalty p) 0 0

/-- The backup MX scenario once the relay 7 has its connector for the default
source and the route to `a` is validated and held by one reference. -/
def ex_state_admitted : mta_state :=
  let S := ex_state_backup ex_host
  let r1 : struct_mta_relay := { S.relays 7 with connectors := [none] }
  { S with
    relays := Function.update S.relays 7 r1
    routes := Function.update S.routes ex_route_a { calloc_route with id := 1, refcount := 1 }
    routes_tree := [ex_route_a]
    sources := Function.update S.sources none { calloc_source with refcount := 2 }
    sources_tree := [none] }

/-- The state in which the session spawned from `ex_state_admitted` at the
time 1000 is collected: the session has taken the task of the relay. -/
def ex_state_collected : mta_state :=
  let S := mta_connect_spawn 1000 ex_state_admitted ex_conn ex_route_a
  let r1 : struct_mta_relay := { S.relays 7 with ntask := 0, tasks := [] }
  { S with relays := Function.update S.relays 7 r1 }

/-- The connector of the relay 7 has waited since the time 1000 for the host
delay of `ex_state_delay`; at the time 1005 the tasks of the relay are
flushed, and `mta_connect` runs on the connector again. -/
def ex_state_stale : Option mta_state :=
  (mta_connect 4 1000 ex_state_delay ex_conn).bind (fun T1 =>
    (mta_flush T1 7 IMSG_DELIVERY_TEMPFAIL "Network error").state.bind (fun T2 =>
      mta_connect 4 1005 T2 ex_conn))

/-- The state of `ex_state_delay` after `mta_connect` at the time 1000: the
connector waits, with its timer at 1020. -/
def ex_state_scheduled : mta_state :=
  (mta_connect 4 1000 ex_state_delay ex_conn).getD ex_state_delay

/-- An envelope of the message `msg` for `user@example.com`, to be relayed to
the MX of the domain. -/
def ex_evp (msg n : Nat) : envelope :=
  { id := msg * 2 ^ 32 + n, creation := 900, sender_user := "a", sender_domain := "example.org",
    dest_user := "user", dest_domain := "example.com", rcpt_user := "user",
    rcpt_domain := "example.com", relay_flags := 0, relay_hostname := "", relay_port := 25,
    relay_cert := "", relay_authtable := "", relay_authlabel := "", relay_sourcetable := "" }

/-- The state after the `TRANSFER` of the envelope at the time 100. -/
def ex_transfer (S : mta_state) (evp : envelope) : mta_state :=
  ((mta_imsg_transfer 5 100 S evp).state).getD S

/-- The queue sends a first envelope of the message 1, one of the message 2
and a second one of the message 1. -/
def ex_state_queued : mta_state :=
  ex_transfer (ex_transfer (ex_transfer (mta_init (fun _ => some ex_limits)) (ex_evp 1 1))
    (ex_evp 2 1)) (ex_evp 1 2)

/-- An IPv6 address of the local host, `2001:db8::1`. -/
def ex_src_v6 : sockaddr :=
  { sa_len := 28, sa_family := 24,
    sa_data := [0, 0, 0, 0, 0, 0, 32, 1, 13, 184, 0, 0, 0, 0, 0, 0, 0, 0, 0, 0, 0, 1] }

/-- The relay 7 has a connector for the IPv6 source, and the only MX of its
domain is the IPv4 host `a`. -/
def ex_state_family : mta_state :=
  let S := ex_state_mx (ex_relay (-1) none 0) [{ host := ex_host_a, preference := 10 }]
    (fun _ => ex_host)
  let r1 : struct_mta_relay := { S.relays 7 with connectors := [some ex_src_v6] }
  { S with
    relays := Function.update S.relays 7 r1
    sources := Function.update S.sources (some ex_src_v6) { calloc_source with refcount := 1 }
    sources_tree := [some ex_src_v6] }

/-- IPv4 address `203.0.113.30`, port 25. -/
def ex_host_c : sockaddr := { sa_len := 16, sa_family := 2, sa_data := [0, 25, 203, 0, 113, 30] }

/-- Three MX of preference 10, `a`, `b` and `c`, whose routes from the default
source are validated and carry 2, 1 and 1 connections, and the MX `self` of
preference 20, to which there is no route yet. -/
def ex_state_loaded : mta_state :=
  let S := ex_state_mx (ex_relay (-1) none 0)
    [{ host := ex_host_a, preference := 10 }, { host := ex_host_b, preference := 10 },
      { host := ex_host_c, preference := 10 }, { host := ex_host_self, preference := 20 }]
    (Function.update (Function.update (Function.update (fun _ => ex_host)
      ex_host_a { ex_host with nconn := 2, refcount := 2 })
      ex_host_b { ex_host with nconn := 1, refcount := 2 })
      ex_host_c { ex_host with nconn := 1, refcount := 2 })
  { S with
    routes := Function.update (Function.update (Function.update S.routes
      (none, ex_host_a) { ex_route_valid with nconn := 2, refcount := 2 })
      (none, ex_host_b) { ex_route_valid with id := 2, nconn := 1 })
      (none, ex_host_c) { ex_route_valid with id := 3, nconn := 1 }
    routes_tree := [(none, ex_host_a), (none, ex_host_b), (none, ex_host_c)]
    sources := Function.update S.sources none { calloc_source with nconn := 4, refcount := 4 }
    sources_tree := [none]
    rid := 3 }

/-- The state after the `TRANSFER` of one envelope for `user@example.com`, at
the time 100, from the initial state. -/
def ex_state_refs : mta_state :=
  ex_transfer (mta_init (fun _ => some ex_limits)) (ex_evp 1 1)

/-! # Theorems -/

/-! ## The run-queues -/

theorem runq_schedule_mem_self {α : Type} [DecidableEq α] (q : List (Int × α)) (tm : Int)
    (a : α) : (tm, a) ∈ runq_schedule q tm a := by
  unfold runq_schedule
  simp

theorem runq_schedule_mem_of_ne {α : Type} [DecidableEq α] (q : List (Int × α)) (tm : Int)
    (a : α) (e : Int × α) (h : e ∈ q) (hne : e.2 ≠ a) : e ∈ runq_schedule q tm a := by
  unfold runq_schedule
  simp [h, hne]

theorem runq_schedule_mem {α : Type} [DecidableEq α] (q : List (Int × α)) (tm : Int)
    (a : α) (e : Int × α) (h : e ∈ runq_schedule q tm a) : e = (tm, a) ∨ (e ∈ q ∧ e.2 ≠ a) := by
  unfold runq_schedule at h
  simp only [List.mem_append, List.mem_filter, Bool.not_eq_eq_eq_not, Bool.not_true,
    decide_eq_false_iff_not, List.mem_singleton] at h
  rcases h with h | h
  · exact Or.inr h
  · exact Or.inl h

theorem countP_filter_ne_self {α : Type} [DecidableEq α] (q : List (Int × α)) (a : α) :
    (q.filter (fun e => !decide (e.2 = a))).countP (fun e => decide (e.2 = a)) = 0 := by
  rw [List.countP_eq_zero]
  intro e he
  simp only [List.mem_filter, Bool.not_eq_eq_eq_not, Bool.not_true, decide_eq_false_iff_not] at he
  simpa using he.2

theorem countP_filter_ne_other {α : Type} [DecidableEq α] (q : List (Int × α)) (a x : α)
    (h : x ≠ a) :
    (q.filter (fun e => !decide (e.2 = a))).countP (fun e => decide (e.2 = x)) =
      q.countP (fun e => decide (e.2 = x)) := by
  induction q with
  | nil => rfl
  | cons b q ih =>
    by_cases hb : b.2 = a
    · have hx : ¬ b.2 = x := fun e => h (e.symm.trans hb)
      rw [List.filter_cons_of_neg (by simp [hb]), List.countP_cons_of_neg _ _ (by simp [hx]), ih]
    · rw [List.filter_cons_of_pos (by simp [hb])]
      by_cases hx : b.2 = x
      · rw [List.countP_cons_of_pos _ _ (by simp [hx]), List.countP_cons_of_pos _ _ (by simp [hx]),
          ih]
      · rw [List.countP_cons_of_neg _ _ (by simp [hx]), List.countP_cons_of_neg _ _ (by simp [hx]),
          ih]

/-- The number of entries of `x` after `schedule`: at most one entry is
pending for the scheduled argument. -/
theorem runq_schedule_countP {α : Type} [DecidableEq α] (q : List (Int × α)) (tm : Int)
    (a x : α) :
    (runq_schedule q tm a).countP (fun e => decide (e.2 = x)) =
      if x = a then 1 else q.countP (fun e => decide (e.2 = x)) := by
  unfold runq_schedule
  rw [List.countP_append]
  by_cases e : x = a
  · subst e
    rw [countP_filter_ne_self, if_pos rfl]
    simp
  · have : ¬ a = x := fun h => e h.symm
    rw [countP_filter_ne_other q a x e, if_neg e]
    simp [this]

/-- Without a pending entry for the argument, `schedule` appends the entry. -/
theorem runq_schedule_fresh {α : Type} [DecidableEq α] (q : List (Int × α)) (tm : Int)
    (a : α) (h : ∀ e ∈ q, e.2 ≠ a) : runq_schedule q tm a = q ++ [(tm, a)] := by
  unfold runq_schedule
  rw [List.filter_eq_self.2]
  intro e he
  simpa using h e he

/-! ## Bit mask lemmas -/

theorem has_flag_false_iff (f m : Nat) : has_flag f m = false ↔ f &&& m = 0 := by
  simp [has_flag]

theorem has_flag_true_iff (f m : Nat) : has_flag f m = true ↔ f &&& m ≠ 0 := by
  simp [has_flag]

theorem and_clr_flag_self (f m : Nat) : clr_flag f m &&& m = 0 := by
  unfold clr_flag
  rw [Nat.and_xor_distrib_right, Nat.and_assoc, Nat.and_self, Nat.xor_self]

theorem and_clr_flag_of_disjoint (f m k : Nat) (h : m &&& k = 0) :
    clr_flag f m &&& k = f &&& k := by
  unfold clr_flag
  rw [Nat.and_xor_distrib_right, Nat.and_assoc, h, Nat.and_zero, Nat.xor_zero]

theorem and_set_flag (f m k : Nat) : set_flag f m &&& k = (f &&& k) ||| (m &&& k) := by
  unfold set_flag
  exact Nat.and_distrib_right f m k

theorem and_set_flag_of_disjoint (f m k : Nat) (h : m &&& k = 0) :
    set_flag f m &&& k = f &&& k := by
  rw [and_set_flag, h, Nat.or_zero]

theorem or_eq_zero_iff_nat (a b : Nat) : a ||| b = 0 ↔ a = 0 ∧ b = 0 := by
  constructor
  · intro h
    constructor
    · apply Nat.eq_of_testBit_eq
      intro i
      have := congrArg (fun x => Nat.testBit x i) h
      simp only [Nat.testBit_or, Nat.zero_testBit, Bool.or_eq_false_iff] at this
      simp [this.1]
    · apply Nat.eq_of_testBit_eq
      intro i
      have := congrArg (fun x => Nat.testBit x i) h
      simp only [Nat.testBit_or, Nat.zero_testBit, Bool.or_eq_false_iff] at this
      simp [this.2]
  · rintro ⟨rfl, rfl⟩
    rfl

theorem has_flag_set_flag (f m k : Nat) :
    has_flag (set_flag f m) k = (has_flag f k || has_flag m k) := by
  unfold has_flag
  rw [and_set_flag, Bool.eq_iff_iff]
  simp only [bne_iff_ne, ne_eq, or_eq_zero_iff_nat, Bool.or_eq_true]
  tauto

theorem has_flag_clr_flag_self (f m : Nat) : has_flag (clr_flag f m) m = false := by
  rw [has_flag_false_iff, and_clr_flag_self]

theorem has_flag_clr_flag_of_disjoint (f m k : Nat) (h : m &&& k = 0) :
    has_flag (clr_flag f m) k = has_flag f k := by
  unfold has_flag
  rw [and_clr_flag_of_disjoint f m k h]

/-! ## Frame lemmas for reference counting -/

@[simp] theorem mta_source_unref_routes (S : mta_state) (s : source_ptr) :
    (mta_source_unref S s).routes = S.routes := by
  unfold mta_source_unref
  dsimp only
  split <;> rfl

@[simp] theorem mta_host_unref_routes (S : mta_state) (h : host_ptr) :
    (mta_host_unref S h).routes = S.routes := by
  unfold mta_host_unref
  dsimp only
  split <;> rfl

@[simp] theorem mta_source_unref_routes_tree (S : mta_state) (s : source_ptr) :
    (mta_source_unref S s).routes_tree = S.routes_tree := by
  unfold mta_source_unref
  dsimp only
  split <;> rfl

@[simp] theorem mta_host_unref_routes_tree (S : mta_state) (h : host_ptr) :
    (mta_host_unref S h).routes_tree = S.routes_tree := by
  unfold mta_host_unref
  dsimp only
  split <;> rfl

@[simp] theorem mta_source_unref_runq_route (S : mta_state) (s : source_ptr) :
    (mta_source_unref S s).runq_route = S.runq_route := by
  unfold mta_source_unref
  dsimp only
  split <;> rfl

@[simp] theorem mta_host_unref_runq_route (S : mta_state) (h : host_ptr) :
    (mta_host_unref S h).runq_route = S.runq_route := by
  unfold mta_host_unref
  dsimp only
  split <;> rfl

/-- What `mta_route_unref` does to the record of the route itself: only the
reference count and the `RUNQ` flag can change. -/
theorem mta_route_unref_record (now : Int) (S : mta_state) (k : route_ptr) :
    ((mta_route_unref now S k).routes k).penalty = (S.routes k).penalty ∧
    ((mta_route_unref now S k).routes k).lastpenalty = (S.routes k).lastpenalty ∧
    ((mta_route_unref now S k).routes k).nconn = (S.routes k).nconn ∧
    ((mta_route_unref now S k).routes k).lastconn = (S.routes k).lastconn ∧
    ((mta_route_unref now S k).routes k).lastdisc = (S.routes k).lastdisc ∧
    (((mta_route_unref now S k).routes k).flags = (S.routes k).flags ∨
      ((mta_route_unref now S k).routes k).flags = set_flag (S.routes k).flags ROUTE_RUNQ) := by
  unfold mta_route_unref
  dsimp only
  split
  · simp
  · split <;> simp

/-- After `mta_route_unref` the run-queue still holds every entry it held for
another route, and every entry of the route itself when a reference is left. -/
theorem mta_route_unref_runq_mono (now : Int) (S : mta_state) (k : route_ptr)
    (e : Int × route_ptr) (h : e ∈ S.runq_route)
    (hne : e.2 ≠ k ∨ (S.routes k).refcount - 1 ≠ 0) :
    e ∈ (mta_route_unref now S k).runq_route := by
  unfold mta_route_unref
  dsimp only
  split
  · exact h
  · rename_i h0
    have hk : e.2 ≠ k := by
      rcases hne with hne | hne
      · exact hne
      · exact absurd hne h0
    split
    · exact runq_schedule_mem_of_ne _ _ _ _ h hk
    · simpa using h

/-! ## Arithmetic of the suspension delay -/

theorem wrap_ull_product (pen : Int) :
    wrap_ull (wrap_ull (wrap_ull DELAY_ROUTE_BASE * wrap_ull pen) * wrap_ull pen) =
      (DELAY_ROUTE_BASE * pen * pen) % 2 ^ 64 := by
  unfold wrap_ull
  rw [Int.mul_emod (DELAY_ROUTE_BASE * pen) pen, Int.mul_emod DELAY_ROUTE_BASE pen]

theorem mta_route_disable_delay_eq (pen : Int)
    (h : DELAY_ROUTE_BASE * pen * pen < 2 ^ 64) :
    mta_route_disable_delay pen = min 14400 (200 * pen ^ 2) := by
  unfold mta_route_disable_delay
  dsimp only
  rw [wrap_ull_product]
  have h0 : 0 ≤ DELAY_ROUTE_BASE * pen * pen := by
    have := mul_self_nonneg pen
    unfold DELAY_ROUTE_BASE
    nlinarith
  rw [Int.emod_eq_of_lt h0 h]
  have e : DELAY_ROUTE_BASE * pen * pen = 200 * pen ^ 2 := by
    unfold DELAY_ROUTE_BASE
    ring
  rw [e]
  unfold DELAY_ROUTE_MAX
  split
  · omega
  · omega

theorem mta_route_disable_delay_le (pen : Int) : mta_route_disable_delay pen ≤ 14400 := by
  unfold mta_route_disable_delay DELAY_ROUTE_MAX
  dsimp only
  split
  · omega
  · omega

theorem mta_route_disable_delay_nonneg (pen : Int) : 0 ≤ mta_route_disable_delay pen := by
  unfold mta_route_disable_delay DELAY_ROUTE_MAX
  dsimp only
  split
  · omega
  · unfold wrap_ull
    apply Int.emod_nonneg
    norm_num

theorem has_flag_set_flag_self (f m : Nat) (hm : m ≠ 0) : has_flag (set_flag f m) m = true := by
  rw [has_flag_set_flag]
  simp [has_flag, hm]

theorem mta_route_disable_shape (now : Int) (S : mta_state) (k : route_ptr) (p : Int)
    (reason : Nat) :
    ∃ S2 : mta_state,
      (S2.routes k).penalty = (S.routes k).penalty + p ∧
      (S2.routes k).lastpenalty = now ∧
      ((S2.routes k).flags = (S.routes k).flags ∨
        (S2.routes k).flags = set_flag (S.routes k).flags ROUTE_RUNQ) ∧
      (has_flag (S.routes k).flags ROUTE_DISABLED = false →
        (S2.routes k).flags = (S.routes k).flags) ∧
      ((mta_route_disable now S k p reason).routes k).penalty = (S2.routes k).penalty ∧
      ((mta_route_disable now S k p reason).routes k).lastpenalty = (S2.routes k).lastpenalty ∧
      ((mta_route_disable now S k p reason).routes k).flags =
        set_flag (S2.routes k).flags (reason &&& ROUTE_DISABLED) ∧
      (mta_route_disable now S k p reason).runq_route =
        runq_schedule S2.runq_route
          (now + mta_route_disable_delay ((S.routes k).penalty + p)) k := by
  unfold mta_route_disable mta_route_ref
  dsimp only
  split
  · rename_i hdis
    refine ⟨_, ?_, ?_, ?_, ?_, ?_, ?_, ?_, rfl⟩
    · rw [(mta_route_unref_record now _ k).1]; simp
    · rw [(mta_route_unref_record now _ k).2.1]; simp
    · refine Or.imp (fun h => h.trans ?_) (fun h => h.trans ?_)
        (mta_route_unref_record now _ k).2.2.2.2.2
      · simp
      · simp
    · intro h; rw [h] at hdis; exact absurd hdis (by simp)
    · simp
    · simp
    · simp
  · rename_i hdis
    refine ⟨_, ?_, ?_, ?_, ?_, ?_, ?_, ?_, rfl⟩
    · simp
    · simp
    · left; simp
    · intro _; simp
    · simp
    · simp
    · simp

/-! ## Frame and invariant lemmas for the route selection -/

@[simp] theorem mta_source_unref_relays (S : mta_state) (s : source_ptr) :
    (mta_source_unref S s).relays = S.relays := by
  unfold mta_source_unref; dsimp only; split <;> rfl
@[simp] theorem mta_source_unref_domains (S : mta_state) (s : source_ptr) :
    (mta_source_unref S s).domains = S.domains := by
  unfold mta_source_unref; dsimp only; split <;> rfl
@[simp] theorem mta_source_unref_connectors (S : mta_state) (s : source_ptr) :
    (mta_source_unref S s).connectors = S.connectors := by
  unfold mta_source_unref; dsimp only; split <;> rfl
@[simp] theorem mta_source_unref_hosts (S : mta_state) (s : source_ptr) :
    (mta_source_unref S s).hosts = S.hosts := by
  unfold mta_source_unref; dsimp only; split <;> rfl
@[simp] theorem mta_host_unref_relays (S : mta_state) (h : host_ptr) :
    (mta_host_unref S h).relays = S.relays := by
  unfold mta_host_unref; dsimp only; split <;> rfl
@[simp] theorem mta_host_unref_domains (S : mta_state) (h : host_ptr) :
    (mta_host_unref S h).domains = S.domains := by
  unfold mta_host_unref; dsimp only; split <;> rfl
@[simp] theorem mta_host_unref_connectors (S : mta_state) (h : host_ptr) :
    (mta_host_unref S h).connectors = S.connectors := by
  unfold mta_host_unref; dsimp only; split <;> rfl
@[simp] theorem mta_host_unref_sources (S : mta_state) (h : host_ptr) :
    (mta_host_unref S h).sources = S.sources := by
  unfold mta_host_unref; dsimp only; split <;> rfl

theorem mta_host_unref_hosts (S : mta_state) (h x : host_ptr) :
    host_same ((mta_host_unref S h).hosts x) (S.hosts x) := by
  unfold mta_host_unref host_same; dsimp only
  split <;> by_cases e : x = h <;> simp [Function.update_apply, e]

theorem mta_source_unref_sources (S : mta_state) (s x : source_ptr) :
    source_same ((mta_source_unref S s).sources x) (S.sources x) := by
  unfold mta_source_unref source_same; dsimp only
  split <;> by_cases e : x = s <;> simp [Function.update_apply, e]

@[simp] theorem mta_route_relays (S : mta_state) (s : source_ptr) (d : host_ptr) :
    (mta_route S s d).relays = S.relays := by
  unfold mta_route mta_source_ref mta_host_ref; dsimp only; split_ifs <;> rfl
@[simp] theorem mta_route_domains (S : mta_state) (s : source_ptr) (d : host_ptr) :
    (mta_route S s d).domains = S.domains := by
  unfold mta_route mta_source_ref mta_host_ref; dsimp only; split_ifs <;> rfl
@[simp] theorem mta_route_connectors (S : mta_state) (s : source_ptr) (d : host_ptr) :
    (mta_route S s d).connectors = S.connectors := by
  unfold mta_route mta_source_ref mta_host_ref; dsimp only; split_ifs <;> rfl
theorem mta_route_hosts (S : mta_state) (s : source_ptr) (d x : host_ptr) :
    host_same ((mta_route S s d).hosts x) (S.hosts x) := by
  unfold mta_route mta_source_ref mta_host_ref host_same; dsimp only
  split_ifs <;> by_cases e : x = d <;> simp [Function.update_apply, e]
theorem mta_route_sources (S : mta_state) (s : source_ptr) (d : host_ptr) (x : source_ptr) :
    source_same ((mta_route S s d).sources x) (S.sources x) := by
  unfold mta_route mta_source_ref mta_host_ref source_same; dsimp only
  split_ifs <;> by_cases e : x = s <;> simp [Function.update_apply, e]

@[simp] theorem mta_route_unref_relays (now : Int) (S : mta_state) (k : route_ptr) :
    (mta_route_unref now S k).relays = S.relays := by
  unfold mta_route_unref; dsimp only; split_ifs <;> simp
@[simp] theorem mta_route_unref_domains (now : Int) (S : mta_state) (k : route_ptr) :
    (mta_route_unref now S k).domains = S.domains := by
  unfold mta_route_unref; dsimp only; split_ifs <;> simp
@[simp] theorem mta_route_unref_connectors (now : Int) (S : mta_state) (k : route_ptr) :
    (mta_route_unref now S k).connectors = S.connectors := by
  unfold mta_route_unref; dsimp only; split_ifs <;> simp
theorem host_same_refl (a : struct_mta_host) : host_same a a := ⟨rfl, rfl, rfl, rfl⟩
theorem host_same_trans {a b c : struct_mta_host} (h1 : host_same a b) (h2 : host_same b c) :
    host_same a c :=
  ⟨h1.1.trans h2.1, h1.2.1.trans h2.2.1, h1.2.2.1.trans h2.2.2.1, h1.2.2.2.trans h2.2.2.2⟩
theorem source_same_refl (a : struct_mta_source) : source_same a a := ⟨rfl, rfl⟩
theorem source_same_trans {a b c : struct_mta_source} (h1 : source_same a b)
    (h2 : source_same b c) : source_same a c :=
  ⟨h1.1.trans h2.1, h1.2.trans h2.2⟩

theorem mta_route_unref_hosts (now : Int) (S : mta_state) (k : route_ptr) (x : host_ptr) :
    host_same ((mta_route_unref now S k).hosts x) (S.hosts x) := by
  unfold mta_route_unref; dsimp only
  split_ifs
  · exact host_same_refl _
  · exact host_same_refl _
  · exact host_same_trans (mta_host_unref_hosts _ _ _) (by simp; exact host_same_refl _)
theorem mta_route_unref_sources (now : Int) (S : mta_state) (k : route_ptr) (x : source_ptr) :
    source_same ((mta_route_unref now S k).sources x) (S.sources x) := by
  unfold mta_route_unref; dsimp only
  split_ifs
  · exact source_same_refl _
  · exact source_same_refl _
  · simp only [mta_host_unref_sources]
    exact source_same_trans (mta_source_unref_sources _ _ _) (source_same_refl _)

theorem route_same_refl (a : struct_mta_route) : route_same a a :=
  ⟨rfl, rfl, rfl, rfl, rfl, rfl, rfl⟩

theorem route_same_trans {a b c : struct_mta_route} (h1 : route_same a b)
    (h2 : route_same b c) : route_same a c :=
  ⟨h1.1.trans h2.1, h1.2.1.trans h2.2.1, h1.2.2.1.trans h2.2.2.1,
    h1.2.2.2.1.trans h2.2.2.2.1, h1.2.2.2.2.1.trans h2.2.2.2.2.1,
    h1.2.2.2.2.2.1.trans h2.2.2.2.2.2.1, h1.2.2.2.2.2.2.trans h2.2.2.2.2.2.2⟩

theorem mta_route_routes (S : mta_state) (s : source_ptr) (d : host_ptr) (k : route_ptr) :
    route_same ((mta_route S s d).routes k) (S.routes k) ∨
      (k = (s, d) ∧ route_fresh ((mta_route S s d).routes k)) := by
  unfold mta_route mta_source_ref mta_host_ref; dsimp only
  by_cases e : k = (s, d)
  · subst e
    split_ifs
    · left
      simp only [Function.update_same]
      refine ⟨rfl, rfl, rfl, rfl, rfl, ?_, ?_⟩
      · exact and_clr_flag_of_disjoint _ _ _ (by decide)
      · exact and_clr_flag_of_disjoint _ _ _ (by decide)
    · left
      simp only [Function.update_same]
      exact route_same_refl _
    · right
      simp [route_fresh, set_flag]
  · left
    split_ifs <;> simp [Function.update_apply, e, route_same_refl]

theorem mta_route_unref_routes (now : Int) (S : mta_state) (k x : route_ptr) :
    route_same ((mta_route_unref now S k).routes x) (S.routes x) := by
  unfold mta_route_unref; dsimp only
  by_cases e : x = k
  · subst e
    split_ifs
    · simp [route_same]
    · simp only [Function.update_same, Function.update_idem]
      refine ⟨rfl, rfl, rfl, rfl, rfl, ?_, ?_⟩
      · exact and_set_flag_of_disjoint _ _ _ (by decide)
      · exact and_set_flag_of_disjoint _ _ _ (by decide)
    · simp [route_same]
  · split_ifs <;> simp [Function.update_apply, e, route_same_refl]

theorem route_evolves_refl (a : struct_mta_route) : route_evolves a a := Or.inl (route_same_refl a)

theorem route_evolves_trans {a b c : struct_mta_route} (h1 : route_evolves a b)
    (h2 : route_evolves b c) : route_evolves a c := by
  rcases h1 with h1 | h1
  · rcases h2 with h2 | h2
    · exact Or.inl (route_same_trans h1 h2)
    · exact Or.inr ⟨h1.1.trans h2.1, h1.2.2.2.2.2.1.trans h2.2⟩
  · exact Or.inr h1

theorem state_frame_refl (S : mta_state) : state_frame S S :=
  ⟨rfl, rfl, rfl, fun _ => host_same_refl _, fun _ => source_same_refl _,
    fun _ => route_evolves_refl _⟩

theorem state_frame_trans {U T S : mta_state} (h1 : state_frame U T) (h2 : state_frame T S) :
    state_frame U S :=
  ⟨h1.1.trans h2.1, h1.2.1.trans h2.2.1, h1.2.2.1.trans h2.2.2.1,
    fun x => host_same_trans (h1.2.2.2.1 x) (h2.2.2.2.1 x),
    fun x => source_same_trans (h1.2.2.2.2.1 x) (h2.2.2.2.2.1 x),
    fun x => route_evolves_trans (h1.2.2.2.2.2 x) (h2.2.2.2.2.2 x)⟩

theorem state_frame_mta_route (S : mta_state) (s : source_ptr) (d : host_ptr) :
    state_frame (mta_route S s d) S :=
  ⟨mta_route_relays S s d, mta_route_domains S s d, mta_route_connectors S s d,
    mta_route_hosts S s d, mta_route_sources S s d, fun x => by
      rcases mta_route_routes S s d x with h | h
      · exact Or.inl h
      · refine Or.inr ⟨h.2.1, ?_⟩
        rw [h.2.2.1]; decide⟩

theorem state_frame_mta_route_unref (now : Int) (S : mta_state) (k : route_ptr) :
    state_frame (mta_route_unref now S k) S :=
  ⟨mta_route_unref_relays now S k, mta_route_unref_domains now S k,
    mta_route_unref_connectors now S k, mta_route_unref_hosts now S k,
    mta_route_unref_sources now S k, fun x => Or.inl (mta_route_unref_routes now S k x)⟩

/-- Case analysis of the loop body of `mta_find_route`: one case per verdict,
with the tests that lead to it. -/
theorem mta_find_route_mx_cases (now : Int) (l : mta_limits) (c : connector_ptr) (mx : mta_mx)
    (v : find_route_vars) (S : mta_state)
    (P : find_route_vars × mta_state × mx_verdict → Prop)
    (h_ignored : has_flag (S.hosts mx.host).flags HOST_IGNORE = true →
      P (v, S, mx_verdict.ignored))
    (h_af : P ({ v with seen := v.seen + 1, family_mismatch := true }, S, mx_verdict.af_mismatch))
    (h_host_limit : (S.hosts mx.host).nconn ≥ l.maxconn_per_host →
      P ({ v with seen := v.seen + 1, limit_host := true }, S, mx_verdict.host_limit))
    (h_host_delay : (S.hosts mx.host).lastconn + l.conndelay_host > now →
      P ({ v with seen := v.seen + 1,
                  tm := tm_min v.tm ((S.hosts mx.host).lastconn + l.conndelay_host) },
        S, mx_verdict.host_delay))
    (h_suspended :
      has_flag ((mta_route S c.2 mx.host).routes (c.2, mx.host)).flags ROUTE_DISABLED = true →
      P ({ v with seen := v.seen + 1,
                  suspended_route := v.suspended_route |||
                    (((mta_route S c.2 mx.host).routes (c.2, mx.host)).flags &&& ROUTE_DISABLED) },
        mta_route_unref now (mta_route S c.2 mx.host) (c.2, mx.host), mx_verdict.suspended))
    (h_not_validated :
      ((mta_route S c.2 mx.host).routes (c.2, mx.host)).nconn ≠ 0 ∧
        has_flag ((mta_route S c.2 mx.host).routes (c.2, mx.host)).flags ROUTE_NEW = true →
      P ({ v with seen := v.seen + 1, limit_route := true },
        mta_route_unref now (mta_route S c.2 mx.host) (c.2, mx.host), mx_verdict.not_validated))
    (h_route_limit :
      ((mta_route S c.2 mx.host).routes (c.2, mx.host)).nconn ≥ l.maxconn_per_route →
      P ({ v with seen := v.seen + 1, limit_route := true },
        mta_route_unref now (mta_route S c.2 mx.host) (c.2, mx.host), mx_verdict.route_limit))
    (h_conn_delay :
      ((mta_route S c.2 mx.host).routes (c.2, mx.host)).lastconn + l.conndelay_route > now →
      P ({ v with seen := v.seen + 1,
                  tm := tm_min v.tm
                    (((mta_route S c.2 mx.host).routes (c.2, mx.host)).lastconn +
                      l.conndelay_route) },
        mta_route_unref now (mta_route S c.2 mx.host) (c.2, mx.host), mx_verdict.conn_delay))
    (h_disc_delay :
      ((mta_route S c.2 mx.host).routes (c.2, mx.host)).lastdisc + l.discdelay_route > now →
      P ({ v with seen := v.seen + 1,
                  tm := tm_min v.tm
                    (((mta_route S c.2 mx.host).routes (c.2, mx.host)).lastdisc +
                      l.discdelay_route) },
        mta_route_unref now (mta_route S c.2 mx.host) (c.2, mx.host), mx_verdict.disc_delay))
    (h_worse : ∀ b, v.best = some b →
      P ({ v with seen := v.seen + 1 },
        mta_route_unref now (mta_route S c.2 mx.host) (c.2, mx.host), mx_verdict.worse))
    (h_selected : ∀ T : mta_state,
      (T = mta_route S c.2 mx.host ∨ ∃ b, T = mta_route_unref now (mta_route S c.2 mx.host) b) →
      (S.hosts mx.host).nconn < l.maxconn_per_host →
      has_flag ((mta_route S c.2 mx.host).routes (c.2, mx.host)).flags ROUTE_DISABLED = false →
      ¬ (((mta_route S c.2 mx.host).routes (c.2, mx.host)).nconn ≠ 0 ∧
        has_flag ((mta_route S c.2 mx.host).routes (c.2, mx.host)).flags ROUTE_NEW = true) →
      ((mta_route S c.2 mx.host).routes (c.2, mx.host)).nconn < l.maxconn_per_route →
      P ({ v with seen := v.seen + 1, best := some (c.2, mx.host) }, T, mx_verdict.selected)) :
    P (mta_find_route_mx now l c mx v S) := by
  unfold mta_find_route_mx
  dsimp only
  by_cases c1 : has_flag (S.hosts mx.host).flags HOST_IGNORE = true
  · rw [if_pos c1]; exact h_ignored c1
  rw [if_neg c1]
  by_cases c2 : af_mismatch c.2 l mx.host = true
  · rw [if_pos c2]; exact h_af
  rw [if_neg c2]
  by_cases c3 : (S.hosts mx.host).nconn ≥ l.maxconn_per_host
  · rw [if_pos c3]; exact h_host_limit c3
  rw [if_neg c3]
  by_cases c4 : (S.hosts mx.host).lastconn + l.conndelay_host > now
  · rw [if_pos c4]; exact h_host_delay c4
  rw [if_neg c4]
  by_cases c5 :
      has_flag ((mta_route S c.2 mx.host).routes (c.2, mx.host)).flags ROUTE_DISABLED = true
  · rw [if_pos c5]; exact h_suspended c5
  rw [if_neg c5]
  by_cases c6 : ((mta_route S c.2 mx.host).routes (c.2, mx.host)).nconn ≠ 0 ∧
      has_flag ((mta_route S c.2 mx.host).routes (c.2, mx.host)).flags ROUTE_NEW = true
  · rw [if_pos c6]; exact h_not_validated c6
  rw [if_neg c6]
  by_cases c7 : ((mta_route S c.2 mx.host).routes (c.2, mx.host)).nconn ≥ l.maxconn_per_route
  · rw [if_pos c7]; exact h_route_limit c7
  rw [if_neg c7]
  by_cases c8 :
      ((mta_route S c.2 mx.host).routes (c.2, mx.host)).lastconn + l.conndelay_route > now
  · rw [if_pos c8]; exact h_conn_delay c8
  rw [if_neg c8]
  by_cases c9 :
      ((mta_route S c.2 mx.host).routes (c.2, mx.host)).lastdisc + l.discdelay_route > now
  · rw [if_pos c9]; exact h_disc_delay c9
  rw [if_neg c9]
  have c3' : (S.hosts mx.host).nconn < l.maxconn_per_host := Nat.lt_of_not_ge c3
  have c5' :
      has_flag ((mta_route S c.2 mx.host).routes (c.2, mx.host)).flags ROUTE_DISABLED = false := by
    simpa using c5
  have c7' : ((mta_route S c.2 mx.host).routes (c.2, mx.host)).nconn < l.maxconn_per_route :=
    Nat.lt_of_not_ge c7
  cases hb : v.best with
  | none => exact h_selected _ (Or.inl rfl) c3' c5' c6 c7'
  | some b =>
    dsimp only
    by_cases c10 : ((mta_route S c.2 mx.host).routes (c.2, mx.host)).nconn ≥
        ((mta_route S c.2 mx.host).routes b).nconn
    · rw [if_pos c10]
      have := h_worse b hb
      rw [hb] at this
      exact this
    · rw [if_neg c10]
      exact h_selected _ (Or.inr ⟨b, rfl⟩) c3' c5' c6 c7'

theorem mta_find_route_mx_frame (now : Int) (l : mta_limits) (c : connector_ptr) (mx : mta_mx)
    (v : find_route_vars) (S : mta_state) :
    state_frame (mta_find_route_mx now l c mx v S).2.1 S := by
  have h1 := state_frame_mta_route S c.2 mx.host
  have h2 : ∀ k, state_frame (mta_route_unref now (mta_route S c.2 mx.host) k) S :=
    fun k => state_frame_trans (state_frame_mta_route_unref now _ k) h1
  apply mta_find_route_mx_cases now l c mx v S (fun r => state_frame r.2.1 S)
  · intro _; exact state_frame_refl S
  · exact state_frame_refl S
  · intro _; exact state_frame_refl S
  · intro _; exact state_frame_refl S
  · intro _; exact h2 _
  · intro _; exact h2 _
  · intro _; exact h2 _
  · intro _; exact h2 _
  · intro _; exact h2 _
  · intro _ _; exact h2 _
  · intro T hT _ _ _ _
    rcases hT with rfl | ⟨b, rfl⟩
    · exact h1
    · exact h2 _

theorem mta_find_route_loop_frame (now : Int) (l : mta_limits) (c : connector_ptr)
    (mxs : List mta_mx) :
    ∀ (v : find_route_vars) (S : mta_state),
      state_frame (mta_find_route_loop now l c mxs v S).state S := by
  induction mxs with
  | nil => intro v S; exact state_frame_refl S
  | cons mx rest ih =>
    intro v S
    unfold mta_find_route_loop
    split
    · exact state_frame_refl S
    · exact state_frame_trans (ih _ _) (mta_find_route_mx_frame now l c mx _ S)

theorem route_admissible_evolves {m : Nat} {a b : struct_mta_route} (h : route_evolves a b)
    (hb : route_admissible m b) : route_admissible m a := by
  rcases h with h | h
  · obtain ⟨h1, _, _, _, _, h6, h7⟩ := h
    obtain ⟨b1, b2, b3⟩ := hb
    refine ⟨?_, ?_, ?_⟩
    · rw [has_flag_false_iff] at b1 ⊢; rw [h6]; exact b1
    · unfold has_flag at b2 ⊢; rw [h1, h7]; exact b2
    · rw [h1]; exact b3
  · obtain ⟨h1, h2⟩ := h
    refine ⟨?_, ?_, ?_⟩
    · rw [has_flag_false_iff]; exact h2
    · intro hh; exact hh.1 h1
    · rw [h1]; exact Nat.lt_of_le_of_lt (Nat.zero_le _) hb.2.2

theorem best_ok_frame {l : mta_limits} {c : connector_ptr} {v : find_route_vars}
    {T S : mta_state} (h : state_frame T S) (hb : best_ok l c v S) : best_ok l c v T := by
  intro k hk
  obtain ⟨h1, h2, h3⟩ := hb k hk
  refine ⟨h1, route_admissible_evolves (h.2.2.2.2.2 k) h2, ?_⟩
  rw [(h.2.2.2.1 k.2).1]; exact h3

theorem tm_min_ne_zero (now tm t : Int) (hnow : 0 ≤ now) (ht : t > now) : tm_min tm t ≠ 0 := by
  unfold tm_min
  split_ifs with h
  · omega
  · intro h0; exact h (Or.inl h0)

theorem mta_find_route_mx_level (now : Int) (l : mta_limits) (c : connector_ptr) (mx : mta_mx)
    (v : find_route_vars) (S : mta_state) :
    (mta_find_route_mx now l c mx v S).1.level = v.level := by
  apply mta_find_route_mx_cases now l c mx v S (fun r => r.1.level = v.level) <;> intros <;> rfl

theorem mta_find_route_mx_best (now : Int) (l : mta_limits) (c : connector_ptr) (mx : mta_mx)
    (v : find_route_vars) (S : mta_state) :
    ((mta_find_route_mx now l c mx v S).2.2 = mx_verdict.selected ∧
        (mta_find_route_mx now l c mx v S).1.best = some (c.2, mx.host)) ∨
      ((mta_find_route_mx now l c mx v S).2.2 ≠ mx_verdict.selected ∧
        (mta_find_route_mx now l c mx v S).1.best = v.best) := by
  apply mta_find_route_mx_cases now l c mx v S (fun r =>
    (r.2.2 = mx_verdict.selected ∧ r.1.best = some (c.2, mx.host)) ∨
      (r.2.2 ≠ mx_verdict.selected ∧ r.1.best = v.best))
  case h_selected => intros; exact Or.inl ⟨rfl, rfl⟩
  all_goals intros; exact Or.inr ⟨by simp, rfl⟩

theorem mta_find_route_mx_blocked (now : Int) (l : mta_limits) (c : connector_ptr) (mx : mta_mx)
    (v : find_route_vars) (S : mta_state) (hnow : 0 ≤ now) :
    (v.blocked = true → (mta_find_route_mx now l c mx v S).1.blocked = true) ∧
      ((mta_find_route_mx now l c mx v S).2.2.blocked = true →
        (mta_find_route_mx now l c mx v S).1.blocked = true) := by
  have key : ∀ (tm t : Int), t > now → tm_min tm t ≠ 0 := fun tm t ht =>
    tm_min_ne_zero now tm t hnow ht
  apply mta_find_route_mx_cases now l c mx v S (fun r =>
    (v.blocked = true → r.1.blocked = true) ∧ (r.2.2.blocked = true → r.1.blocked = true))
  case h_host_delay =>
    intro h
    simp [find_route_vars.blocked, key _ _ h]
  case h_conn_delay =>
    intro h
    simp [find_route_vars.blocked, key _ _ h]
  case h_disc_delay =>
    intro h
    simp [find_route_vars.blocked, key _ _ h]
  all_goals intros; simp [find_route_vars.blocked, mx_verdict.blocked]

theorem mta_find_route_mx_best_ok (now : Int) (l : mta_limits) (c : connector_ptr) (mx : mta_mx)
    (v : find_route_vars) (S : mta_state) (hb : best_ok l c v S) :
    best_ok l c (mta_find_route_mx now l c mx v S).1 (mta_find_route_mx now l c mx v S).2.1 := by
  have hf := mta_find_route_mx_frame now l c mx v S
  revert hf
  apply mta_find_route_mx_cases now l c mx v S (fun r =>
    state_frame r.2.1 S → best_ok l c r.1 r.2.1)
  case h_selected =>
    intro T hT c3 c5 c6 c7 hf k hk
    have hk' : k = (c.2, mx.host) := by
      simp at hk; exact hk.symm
    subst hk'
    refine ⟨rfl, ?_, ?_⟩
    · have hX : route_admissible l.maxconn_per_route
          ((mta_route S c.2 mx.host).routes (c.2, mx.host)) := ⟨c5, c6, c7⟩
      rcases hT with rfl | ⟨b, rfl⟩
      · exact hX
      · exact route_admissible_evolves
          ((state_frame_mta_route_unref now _ b).2.2.2.2.2 _) hX
    · rw [(hf.2.2.2.1 mx.host).1]; exact c3
  all_goals
    intros
    first
      | exact best_ok_frame (by assumption) hb

theorem backup_excluded_neg (bp pref : Int) (h : bp < 0) : backup_excluded bp pref = false := by
  unfold backup_excluded
  simp
  intro h0
  omega

theorem mta_find_route_level_ok (bp : Int) (mx : mta_mx) (v v1 : find_route_vars)
    (h : mta_find_route_level bp mx v = Except.ok v1) :
    (v1 = v ∧ mx.preference ≤ v.level) ∨
      (v1 = { v with level := mx.preference } ∧ v.level < mx.preference ∧ v.best = none ∧
        v.blocked = false ∧ backup_excluded bp mx.preference = false) := by
  unfold mta_find_route_level at h
  by_cases c1 : mx.preference > v.level
  · rw [if_pos c1] at h
    by_cases c2 : v.best.isSome = true
    · rw [if_pos c2] at h; cases h
    rw [if_neg c2] at h
    by_cases c3 : (v.limit_host || v.limit_route || decide (v.tm ≠ 0)) = true
    · rw [if_pos c3] at h; cases h
    rw [if_neg c3] at h
    by_cases c4 : backup_excluded bp mx.preference = true
    · rw [if_pos c4] at h; cases h
    rw [if_neg c4] at h
    right
    refine ⟨?_, c1, ?_, ?_, ?_⟩
    · injection h with h; exact h.symm
    · simpa using c2
    · simpa [find_route_vars.blocked] using c3
    · simpa using c4
  · rw [if_neg c1] at h
    left
    refine ⟨?_, by omega⟩
    injection h with h; exact h.symm

theorem mta_find_route_level_backup (bp : Int) (mx : mta_mx) (v : find_route_vars)
    (h : mta_find_route_level bp mx v = Except.error loop_break.backup) :
    backup_excluded bp mx.preference = true := by
  unfold mta_find_route_level at h
  by_cases c1 : mx.preference > v.level
  · rw [if_pos c1] at h
    by_cases c2 : v.best.isSome = true
    · rw [if_pos c2] at h; cases h
    rw [if_neg c2] at h
    by_cases c3 : (v.limit_host || v.limit_route || decide (v.tm ≠ 0)) = true
    · rw [if_pos c3] at h; cases h
    rw [if_neg c3] at h
    by_cases c4 : backup_excluded bp mx.preference = true
    · exact c4
    rw [if_neg c4] at h; cases h
  · rw [if_neg c1] at h; cases h

theorem mta_find_route_loop_nil (now : Int) (l : mta_limits) (c : connector_ptr)
    (v : find_route_vars) (S : mta_state) :
    mta_find_route_loop now l c [] v S = { vars := v, state := S, log := [], brk := none } := rfl

theorem mta_find_route_loop_error (now : Int) (l : mta_limits) (c : connector_ptr) (mx : mta_mx)
    (rest : List mta_mx) (v : find_route_vars) (S : mta_state) (b : loop_break)
    (h : mta_find_route_level (S.relays c.1).backuppref mx v = Except.error b) :
    mta_find_route_loop now l c (mx :: rest) v S =
      { vars := v, state := S, log := [], brk := some b } := by
  rw [mta_find_route_loop, h]

theorem mta_find_route_loop_ok (now : Int) (l : mta_limits) (c : connector_ptr) (mx : mta_mx)
    (rest : List mta_mx) (v v1 : find_route_vars) (S : mta_state)
    (h : mta_find_route_level (S.relays c.1).backuppref mx v = Except.ok v1) :
    mta_find_route_loop now l c (mx :: rest) v S =
      { mta_find_route_loop now l c rest (mta_find_route_mx now l c mx v1 S).1
          (mta_find_route_mx now l c mx v1 S).2.1 with
        log := (mx, (mta_find_route_mx now l c mx v1 S).2.2) ::
          (mta_find_route_loop now l c rest (mta_find_route_mx now l c mx v1 S).1
            (mta_find_route_mx now l c mx v1 S).2.1).log } := by
  rw [mta_find_route_loop, h]

/-- Induction principle for the loop of `mta_find_route`. -/
theorem mta_find_route_loop_induct (now : Int) (l : mta_limits) (c : connector_ptr)
    (P : List mta_mx → find_route_vars → mta_state → find_route_loop_result → Prop)
    (h_nil : ∀ v S, P [] v S { vars := v, state := S, log := [], brk := none })
    (h_brk : ∀ mx rest v S b,
      mta_find_route_level (S.relays c.1).backuppref mx v = Except.error b →
      P (mx :: rest) v S { vars := v, state := S, log := [], brk := some b })
    (h_step : ∀ mx rest v v1 S R,
      mta_find_route_level (S.relays c.1).backuppref mx v = Except.ok v1 →
      R = mta_find_route_loop now l c rest (mta_find_route_mx now l c mx v1 S).1
          (mta_find_route_mx now l c mx v1 S).2.1 →
      P rest (mta_find_route_mx now l c mx v1 S).1 (mta_find_route_mx now l c mx v1 S).2.1 R →
      P (mx :: rest) v S
        { R with log := (mx, (mta_find_route_mx now l c mx v1 S).2.2) :: R.log }) :
    ∀ mxs v S, P mxs v S (mta_find_route_loop now l c mxs v S) := by
  intro mxs
  induction mxs with
  | nil => intro v S; exact h_nil v S
  | cons mx rest ih =>
    intro v S
    cases h : mta_find_route_level (S.relays c.1).backuppref mx v with
    | error b => rw [mta_find_route_loop_error now l c mx rest v S b h]; exact h_brk mx rest v S b h
    | ok v1 =>
      rw [mta_find_route_loop_ok now l c mx rest v v1 S h]
      exact h_step mx rest v v1 S _ h rfl (ih _ _)

theorem best_ok_level {l : mta_limits} {c : connector_ptr} {v v1 : find_route_vars}
    {S : mta_state} (hv : v1.best = v.best) (hb : best_ok l c v S) : best_ok l c v1 S := by
  intro k hk
  rw [hv] at hk
  exact hb k hk

theorem mta_find_route_level_best (bp : Int) (mx : mta_mx) (v v1 : find_route_vars)
    (h : mta_find_route_level bp mx v = Except.ok v1) : v1.best = v.best := by
  rcases mta_find_route_level_ok bp mx v v1 h with ⟨rfl, _⟩ | ⟨rfl, _⟩ <;> rfl

theorem mta_find_route_loop_best_ok (now : Int) (l : mta_limits) (c : connector_ptr) :
    ∀ mxs v S, best_ok l c v S →
      best_ok l c (mta_find_route_loop now l c mxs v S).vars
        (mta_find_route_loop now l c mxs v S).state := by
  apply mta_find_route_loop_induct now l c
    (fun _ v S R => best_ok l c v S → best_ok l c R.vars R.state)
  · intro v S h; exact h
  · intro mx rest v S b _ h; exact h
  · intro mx rest v v1 S R hl _ ih hb
    exact ih (mta_find_route_mx_best_ok now l c mx v1 S
      (best_ok_level (mta_find_route_level_best _ mx v v1 hl) hb))

theorem mta_find_route_loop_log_mem (now : Int) (l : mta_limits) (c : connector_ptr) :
    ∀ mxs v S, ∀ e ∈ (mta_find_route_loop now l c mxs v S).log, e.1 ∈ mxs := by
  apply mta_find_route_loop_induct now l c (fun mxs _ _ R => ∀ e ∈ R.log, e.1 ∈ mxs)
  · intro v S e he; simp at he
  · intro mx rest v S b _ e he; simp at he
  · intro mx rest v v1 S R _ _ ih e he
    simp only [List.mem_cons] at he
    rcases he with rfl | he
    · exact List.mem_cons_self _ _
    · exact List.mem_cons_of_mem _ (ih e he)

theorem mta_find_route_loop_best_log (now : Int) (l : mta_limits) (c : connector_ptr) :
    ∀ mxs v S k, (mta_find_route_loop now l c mxs v S).vars.best = some k →
      v.best = some k ∨
        ∃ mx, (mx, mx_verdict.selected) ∈ (mta_find_route_loop now l c mxs v S).log ∧
          k = (c.2, mx.host) := by
  apply mta_find_route_loop_induct now l c (fun _ v _ R => ∀ k, R.vars.best = some k →
      v.best = some k ∨ ∃ mx, (mx, mx_verdict.selected) ∈ R.log ∧ k = (c.2, mx.host))
  · intro v S k h; exact Or.inl h
  · intro mx rest v S b _ k h; exact Or.inl h
  · intro mx rest v v1 S R hl _ ih k hk
    rcases ih k hk with h | ⟨m, hm, hk'⟩
    · rcases mta_find_route_mx_best now l c mx v1 S with ⟨hs, hbest⟩ | ⟨_, hbest⟩
      · right
        refine ⟨mx, ?_, ?_⟩
        · rw [← hs]; exact List.mem_cons_self _ _
        · rw [hbest] at h; injection h with h; exact h.symm
      · left
        rw [hbest, mta_find_route_level_best _ mx v v1 hl] at h
        exact h
    · right
      exact ⟨m, List.mem_cons_of_mem _ hm, hk'⟩

theorem mta_find_route_loop_backup (now : Int) (l : mta_limits) (c : connector_ptr) :
    ∀ mxs v S, 0 ≤ (S.relays c.1).backuppref → v.level < (S.relays c.1).backuppref →
      ∀ e ∈ (mta_find_route_loop now l c mxs v S).log,
        e.1.preference < (S.relays c.1).backuppref := by
  apply mta_find_route_loop_induct now l c (fun _ v S R =>
    0 ≤ (S.relays c.1).backuppref → v.level < (S.relays c.1).backuppref →
      ∀ e ∈ R.log, e.1.preference < (S.relays c.1).backuppref)
  · intro v S _ _ e he; simp at he
  · intro mx rest v S b _ _ _ e he; simp at he
  · intro mx rest v v1 S R hl _ ih h0 hlev e he
    have hrel : (mta_find_route_mx now l c mx v1 S).2.1.relays = S.relays :=
      (mta_find_route_mx_frame now l c mx v1 S).1
    rw [hrel, mta_find_route_mx_level] at ih
    have hv1 : v1.level < (S.relays c.1).backuppref ∧
        mx.preference < (S.relays c.1).backuppref := by
      rcases mta_find_route_level_ok _ mx v v1 hl with ⟨rfl, hle⟩ | ⟨rfl, _, _, _, hbk⟩
      · exact ⟨hlev, by omega⟩
      · unfold backup_excluded at hbk
        simp at hbk
        have := hbk h0
        exact ⟨this, this⟩
    simp only [List.mem_cons] at he
    rcases he with rfl | he
    · exact hv1.2
    · exact ih h0 hv1.1 e he

theorem mta_find_route_loop_brk (now : Int) (l : mta_limits) (c : connector_ptr) :
    ∀ mxs v S, (S.relays c.1).backuppref < 0 →
      (mta_find_route_loop now l c mxs v S).brk ≠ some loop_break.backup := by
  apply mta_find_route_loop_induct now l c (fun _ _ S R =>
    (S.relays c.1).backuppref < 0 → R.brk ≠ some loop_break.backup)
  · intro v S _; simp
  · intro mx rest v S b hl hneg hb
    simp at hb
    subst hb
    have := mta_find_route_level_backup _ mx v hl
    rw [backup_excluded_neg _ _ hneg] at this
    cases this
  · intro mx rest v v1 S R hl _ ih hneg
    have hrel : (mta_find_route_mx now l c mx v1 S).2.1.relays = S.relays :=
      (mta_find_route_mx_frame now l c mx v1 S).1
    rw [hrel] at ih
    exact ih hneg

theorem mta_find_route_loop_blocked (now : Int) (l : mta_limits) (c : connector_ptr)
    (hnow : 0 ≤ now) :
    ∀ mxs v S, v.blocked = true →
      ∀ e ∈ (mta_find_route_loop now l c mxs v S).log, e.1.preference ≤ v.level := by
  apply mta_find_route_loop_induct now l c (fun _ v _ R =>
    v.blocked = true → ∀ e ∈ R.log, e.1.preference ≤ v.level)
  · intro v S _ e he; simp at he
  · intro mx rest v S b _ _ e he; simp at he
  · intro mx rest v v1 S R hl _ ih hbl e he
    rcases mta_find_route_level_ok _ mx v v1 hl with ⟨rfl, hle⟩ | ⟨_, _, _, hnb, _⟩
    · rw [mta_find_route_mx_level] at ih
      simp only [List.mem_cons] at he
      rcases he with rfl | he
      · exact hle
      · exact ih ((mta_find_route_mx_blocked now l c mx v1 S hnow).1 hbl) e he
    · rw [hbl] at hnb; cases hnb

theorem mta_find_route_loop_no_skip (now : Int) (l : mta_limits) (c : connector_ptr)
    (hnow : 0 ≤ now) :
    ∀ mxs v S, mxs.Pairwise (fun a b => a.preference ≤ b.preference) →
      (∀ m ∈ mxs, v.level ≤ max (-1) m.preference) →
      ∀ eb ∈ (mta_find_route_loop now l c mxs v S).log, eb.2.blocked = true →
        -1 ≤ eb.1.preference →
        ∀ es ∈ (mta_find_route_loop now l c mxs v S).log, es.2 = mx_verdict.selected →
          es.1.preference ≤ eb.1.preference := by
  intro mxs
  induction mxs with
  | nil => intro v S _ _ eb heb; simp [mta_find_route_loop_nil] at heb
  | cons mx rest ih =>
    intro v S hsorted hlev eb heb hblk hq es hes hsel
    cases hl : mta_find_route_level (S.relays c.1).backuppref mx v with
    | error b =>
      rw [mta_find_route_loop_error now l c mx rest v S b hl] at heb
      simp at heb
    | ok v1 =>
      rw [mta_find_route_loop_ok now l c mx rest v v1 S hl] at heb hes
      simp only [List.mem_cons] at heb hes
      have hsorted' := List.pairwise_cons.mp hsorted
      have hv1 : v1.level ≤ max (-1) mx.preference ∧
          ∀ m ∈ rest, v1.level ≤ max (-1) m.preference := by
        rcases mta_find_route_level_ok _ mx v v1 hl with ⟨rfl, _⟩ | ⟨rfl, _⟩
        · exact ⟨hlev mx (List.mem_cons_self _ _),
            fun m hm => hlev m (List.mem_cons_of_mem _ hm)⟩
        · refine ⟨le_max_right _ _, fun m hm => ?_⟩
          exact le_trans (hsorted'.1 m hm) (le_max_right _ _)
      rcases heb with rfl | heb
      · rcases hes with rfl | hes
        · exact le_refl _
        · have hb := (mta_find_route_mx_blocked now l c mx v1 S hnow).2 hblk
          have := mta_find_route_loop_blocked now l c hnow rest _ _ hb es hes
          rw [mta_find_route_mx_level] at this
          have h1 := hv1.1
          have h2 : max (-1) mx.preference = mx.preference := max_eq_right hq
          dsimp only at hq ⊢
          omega
      · rcases hes with rfl | hes
        · exact hsorted'.1 eb.1 (mta_find_route_loop_log_mem now l c rest _ _ eb heb)
        · refine ih _ _ hsorted'.2 ?_ eb heb hblk hq es hes hsel
          rw [mta_find_route_mx_level]
          exact hv1.2

theorem mta_find_route_some (S : mta_state) (c : connector_ptr) (now : Int) (limits : Nat)
    (nextconn : Int) (k : route_ptr)
    (h : (mta_find_route S c now limits nextconn).route = some k) :
    (mta_find_route_loop now (deref_limits (S.relays c.1).limits) c
        (S.domains (S.relays c.1).domain).mxs find_route_vars_init S).vars.best = some k ∧
      (mta_find_route S c now limits nextconn).state =
        (mta_find_route_loop now (deref_limits (S.relays c.1).limits) c
          (S.domains (S.relays c.1).domain).mxs find_route_vars_init S).state ∧
      (mta_find_route S c now limits nextconn).limits = limits ∧
      (mta_find_route S c now limits nextconn).nextconn = nextconn := by
  unfold mta_find_route at h ⊢
  dsimp only at h ⊢
  split at h
  · rename_i k' hk'
    simp only [hk']
    simp at h
    subst h
    simp
  · simp at h

theorem mta_find_route_log (S : mta_state) (c : connector_ptr) (now : Int) (limits : Nat)
    (nextconn : Int) :
    (mta_find_route S c now limits nextconn).log =
      (mta_find_route_loop now (deref_limits (S.relays c.1).limits) c
        (S.domains (S.relays c.1).domain).mxs find_route_vars_init S).log ∧
    (mta_find_route S c now limits nextconn).brk =
      (mta_find_route_loop now (deref_limits (S.relays c.1).limits) c
        (S.domains (S.relays c.1).domain).mxs find_route_vars_init S).brk := by
  unfold mta_find_route
  dsimp only
  split <;> exact ⟨rfl, rfl⟩

theorem best_ok_init (l : mta_limits) (c : connector_ptr) (S : mta_state) :
    best_ok l c find_route_vars_init S := by
  intro k hk
  simp [find_route_vars_init] at hk

theorem mta_find_route_best_ok (S : mta_state) (c : connector_ptr) (now : Int) (limits : Nat)
    (nextconn : Int) (k : route_ptr)
    (h : (mta_find_route S c now limits nextconn).route = some k) :
    k.1 = c.2 ∧
      route_admissible (deref_limits (S.relays c.1).limits).maxconn_per_route
        ((mta_find_route S c now limits nextconn).state.routes k) ∧
      ((mta_find_route S c now limits nextconn).state.hosts k.2).nconn <
        (deref_limits (S.relays c.1).limits).maxconn_per_host ∧
      state_frame (mta_find_route S c now limits nextconn).state S := by
  obtain ⟨hb, hs, _, _⟩ := mta_find_route_some S c now limits nextconn k h
  rw [hs]
  have := mta_find_route_loop_best_ok now (deref_limits (S.relays c.1).limits) c
    (S.domains (S.relays c.1).domain).mxs find_route_vars_init S (best_ok_init _ _ _) k hb
  exact ⟨this.1, this.2.1, this.2.2, mta_find_route_loop_frame now _ c _ _ S⟩

theorem mta_connect_select_route (now : Int) (S : mta_state) (c : connector_ptr)
    (k : route_ptr) (S1 : mta_state)
    (h : mta_connect_select now S c = connect_select.route k S1) :
    ∃ S0 : mta_state,
      S0.relays = S.relays ∧ S0.domains = S.domains ∧ S0.hosts = S.hosts ∧
      S0.sources = S.sources ∧ S0.connectors = S.connectors ∧ S0.routes = S.routes ∧
      (S0.relays c.1).ntask ≠ 0 ∧
      ¬ ((S0.relays c.1).nconn_ready ≥ (S0.relays c.1).ntask ∨
        ((S0.relays c.1).nconn > 2 ∧ (S0.relays c.1).nconn ≥ (S0.relays c.1).ntask / 2)) ∧
      (mta_connect_gates now S0 c).1 = 0 ∧ (mta_connect_gates now S0 c).2 ≤ now ∧
      (mta_find_route S0 c now (mta_connect_gates now S0 c).1
        (mta_connect_gates now S0 c).2).route = some k ∧
      S1 = (mta_find_route S0 c now (mta_connect_gates now S0 c).1
        (mta_connect_gates now S0 c).2).state := by
  unfold mta_connect_select at h
  by_cases c1 : has_flag (S.connectors c).flags CONNECTOR_ERROR = true
  · rw [if_pos c1] at h; cases h
  rw [if_neg c1] at h
  dsimp only at h
  generalize hS0 : (if has_flag (S.connectors c).flags CONNECTOR_WAIT = true then
      ({ S with runq_connector := runq_cancel S.runq_connector c } : mta_state) else S) = S0 at h
  have hfr : S0.relays = S.relays ∧ S0.domains = S.domains ∧ S0.hosts = S.hosts ∧
      S0.sources = S.sources ∧ S0.connectors = S.connectors ∧ S0.routes = S.routes := by
    rw [← hS0]; split <;> exact ⟨rfl, rfl, rfl, rfl, rfl, rfl⟩
  by_cases c2 : (S0.relays c.1).ntask = 0
  · rw [if_pos c2] at h; cases h
  rw [if_neg c2] at h
  by_cases c3 : (S0.relays c.1).nconn_ready ≥ (S0.relays c.1).ntask ∨
      ((S0.relays c.1).nconn > 2 ∧ (S0.relays c.1).nconn ≥ (S0.relays c.1).ntask / 2)
  · rw [if_pos c3] at h; cases h
  rw [if_neg c3] at h
  by_cases c4 : (mta_connect_gates now S0 c).1 = 0 ∧ (mta_connect_gates now S0 c).2 ≤ now
  · rw [if_pos c4] at h
    cases hr : (mta_find_route S0 c now (mta_connect_gates now S0 c).1
        (mta_connect_gates now S0 c).2).route with
    | none =>
      rw [hr] at h
      dsimp only at h
      split_ifs at h
    | some k' =>
      rw [hr] at h
      dsimp only at h
      injection h with h1 h2
      subst h1
      exact ⟨S0, hfr.1, hfr.2.1, hfr.2.2.1, hfr.2.2.2.1, hfr.2.2.2.2.1, hfr.2.2.2.2.2, c2, c3,
        c4.1, c4.2, hr, h2.symm⟩
  · rw [if_neg c4] at h
    dsimp only at h
    split_ifs at h

theorem set_flag_ne_zero (f m : Nat) (hm : m ≠ 0) : set_flag f m ≠ 0 := by
  unfold set_flag
  intro h
  exact hm ((or_eq_zero_iff_nat f m).mp h).2

theorem mta_connect_gates_zero (now : Int) (S : mta_state) (c : connector_ptr)
    (h : (mta_connect_gates now S c).1 = 0) :
    (S.domains (S.relays c.1).domain).nconn <
        (deref_limits (S.relays c.1).limits).maxconn_per_domain ∧
      (S.sources c.2).nconn < (deref_limits (S.relays c.1).limits).maxconn_per_source ∧
      (S.connectors c).nconn < (deref_limits (S.relays c.1).limits).maxconn_per_connector ∧
      (S.relays c.1).nconn < (deref_limits (S.relays c.1).limits).maxconn_per_relay := by
  unfold mta_connect_gates at h
  dsimp only at h
  by_cases c4 : (S.relays c.1).nconn ≥ (deref_limits (S.relays c.1).limits).maxconn_per_relay
  · rw [if_pos c4] at h; exact absurd h (set_flag_ne_zero _ _ (by decide))
  rw [if_neg c4] at h
  by_cases c3 : (S.connectors c).nconn ≥
      (deref_limits (S.relays c.1).limits).maxconn_per_connector
  · rw [if_pos c3] at h; exact absurd h (set_flag_ne_zero _ _ (by decide))
  rw [if_neg c3] at h
  by_cases c2 : (S.sources c.2).nconn ≥ (deref_limits (S.relays c.1).limits).maxconn_per_source
  · rw [if_pos c2] at h; exact absurd h (set_flag_ne_zero _ _ (by decide))
  rw [if_neg c2] at h
  by_cases c1 : (S.domains (S.relays c.1).domain).nconn ≥
      (deref_limits (S.relays c.1).limits).maxconn_per_domain
  · rw [if_pos c1] at h; exact absurd h (set_flag_ne_zero _ _ (by decide))
  exact ⟨Nat.lt_of_not_ge c1, Nat.lt_of_not_ge c2, Nat.lt_of_not_ge c3, Nat.lt_of_not_ge c4⟩

/-- What a pass of `mta_connect` that found a route guarantees about the state
in which the session is spawned. -/
theorem mta_connect_select_spec (now : Int) (S : mta_state) (c : connector_ptr)
    (k : route_ptr) (S1 : mta_state)
    (h : mta_connect_select now S c = connect_select.route k S1) :
    S1.relays = S.relays ∧ S1.domains = S.domains ∧ S1.connectors = S.connectors ∧
    (∀ x, host_same (S1.hosts x) (S.hosts x)) ∧
    (∀ x, source_same (S1.sources x) (S.sources x)) ∧
    (∀ x, route_evolves (S1.routes x) (S.routes x)) ∧
    k.1 = c.2 ∧
    route_admissible (deref_limits (S.relays c.1).limits).maxconn_per_route (S1.routes k) ∧
    (S1.hosts k.2).nconn < (deref_limits (S.relays c.1).limits).maxconn_per_host ∧
    (S.domains (S.relays c.1).domain).nconn <
        (deref_limits (S.relays c.1).limits).maxconn_per_domain ∧
    (S.sources c.2).nconn < (deref_limits (S.relays c.1).limits).maxconn_per_source ∧
    (S.connectors c).nconn < (deref_limits (S.relays c.1).limits).maxconn_per_connector ∧
    (S.relays c.1).nconn < (deref_limits (S.relays c.1).limits).maxconn_per_relay ∧
    (S.relays c.1).ntask ≠ 0 ∧
    ((S.relays c.1).nconn ≤ 2 ∨ (S.relays c.1).nconn < (S.relays c.1).ntask / 2) := by
  obtain ⟨S0, e1, e2, e3, e4, e5, e6, hnt, hcap, hg, _, hr, hS1⟩ :=
    mta_connect_select_route now S c k S1 h
  obtain ⟨b1, b2, b3, b4⟩ := mta_find_route_best_ok S0 c now _ _ k hr
  have g := mta_connect_gates_zero now S0 c hg
  rw [← hS1] at b2 b3 b4
  rw [e1] at b2 b3 g hnt hcap
  rw [e2, e4, e5] at g
  obtain ⟨f1, f2, f3, f4, f5, f6⟩ := b4
  refine ⟨f1.trans e1, f2.trans e2, f3.trans e5, ?_, ?_, ?_, b1, b2, b3, g.1, g.2.1, g.2.2.1,
    g.2.2.2, hnt, ?_⟩
  · intro x; rw [← e3]; exact f4 x
  · intro x; rw [← e4]; exact f5 x
  · intro x; rw [← e6]; exact f6 x
  · by_contra hc
    apply hcap
    right
    omega

theorem caps_frame_of_state_frame {T S : mta_state} (h : state_frame T S) : caps_frame T S :=
  ⟨h.1, h.2.1, fun x => by rw [h.2.2.1], h.2.2.2.1, h.2.2.2.2.1, h.2.2.2.2.2⟩

theorem caps_frame_trans {U T S : mta_state} (h1 : caps_frame U T) (h2 : caps_frame T S) :
    caps_frame U S :=
  ⟨h1.1.trans h2.1, h1.2.1.trans h2.2.1, fun x => (h1.2.2.1 x).trans (h2.2.2.1 x),
    fun x => host_same_trans (h1.2.2.2.1 x) (h2.2.2.2.1 x),
    fun x => source_same_trans (h1.2.2.2.2.1 x) (h2.2.2.2.2.1 x),
    fun x => route_evolves_trans (h1.2.2.2.2.2 x) (h2.2.2.2.2.2 x)⟩

/-- A state that differs from `S` in the flags of connectors and in the
connector run-queue only. -/
theorem caps_frame_of_eq {T S : mta_state} (h1 : T.relays = S.relays)
    (h2 : T.domains = S.domains) (h3 : ∀ x, (T.connectors x).nconn = (S.connectors x).nconn)
    (h4 : T.hosts = S.hosts) (h5 : T.sources = S.sources) (h6 : T.routes = S.routes) :
    caps_frame T S :=
  ⟨h1, h2, h3, fun x => by rw [h4]; exact host_same_refl _,
    fun x => by rw [h5]; exact source_same_refl _,
    fun x => by rw [h6]; exact route_evolves_refl _⟩

theorem mta_find_route_none_frame (S : mta_state) (c : connector_ptr) (v : find_route_vars)
    (limits : Nat) (nextconn : Int) :
    caps_frame (mta_find_route_none S c v limits nextconn).1 S := by
  unfold mta_find_route_none
  dsimp only
  split_ifs <;>
    exact caps_frame_of_eq rfl rfl
      (fun x => by
        by_cases e : x = c <;> simp [Function.update_apply, e])
      rfl rfl rfl

theorem mta_find_route_caps_frame (S : mta_state) (c : connector_ptr) (now : Int)
    (limits : Nat) (nextconn : Int) :
    caps_frame (mta_find_route S c now limits nextconn).state S := by
  have hl := caps_frame_of_state_frame (mta_find_route_loop_frame now
    (deref_limits (S.relays c.1).limits) c (S.domains (S.relays c.1).domain).mxs
    find_route_vars_init S)
  unfold mta_find_route
  dsimp only
  split
  · exact hl
  · exact caps_frame_trans (mta_find_route_none_frame _ c _ limits nextconn) hl

theorem mta_connect_select_stop (now : Int) (S : mta_state) (c : connector_ptr)
    (S1 : mta_state) (h : mta_connect_select now S c = connect_select.stop S1) :
    caps_frame S1 S := by
  unfold mta_connect_select at h
  by_cases c1 : has_flag (S.connectors c).flags CONNECTOR_ERROR = true
  · rw [if_pos c1] at h
    injection h with h; subst h
    exact caps_frame_of_eq rfl rfl (fun _ => rfl) rfl rfl rfl
  rw [if_neg c1] at h
  dsimp only at h
  generalize hS0 : (if has_flag (S.connectors c).flags CONNECTOR_WAIT = true then
      ({ S with runq_connector := runq_cancel S.runq_connector c } : mta_state) else S) = S0 at h
  have hfr : caps_frame S0 S := by
    rw [← hS0]; split <;> exact caps_frame_of_eq rfl rfl (fun _ => rfl) rfl rfl rfl
  by_cases c2 : (S0.relays c.1).ntask = 0
  · rw [if_pos c2] at h; injection h with h; subst h; exact hfr
  rw [if_neg c2] at h
  by_cases c3 : (S0.relays c.1).nconn_ready ≥ (S0.relays c.1).ntask ∨
      ((S0.relays c.1).nconn > 2 ∧ (S0.relays c.1).nconn ≥ (S0.relays c.1).ntask / 2)
  · rw [if_pos c3] at h; injection h with h; subst h; exact hfr
  rw [if_neg c3] at h
  have wait_frame : ∀ (T : mta_state) (t : Int), caps_frame
      ({ T with
          connectors := Function.update T.connectors c
            { T.connectors c with flags := set_flag (T.connectors c).flags CONNECTOR_WAIT }
          runq_connector := runq_schedule T.runq_connector t c } : mta_state) T := by
    intro T t
    exact caps_frame_of_eq rfl rfl
      (fun x => by by_cases e : x = c <;> simp [Function.update_apply, e]) rfl rfl rfl
  by_cases c4 : (mta_connect_gates now S0 c).1 = 0 ∧ (mta_connect_gates now S0 c).2 ≤ now
  · rw [if_pos c4] at h
    have hF := mta_find_route_caps_frame S0 c now (mta_connect_gates now S0 c).1
      (mta_connect_gates now S0 c).2
    cases hr : (mta_find_route S0 c now (mta_connect_gates now S0 c).1
        (mta_connect_gates now S0 c).2).route with
    | none =>
      rw [hr] at h
      dsimp only at h
      split_ifs at h
      · injection h with h; subst h; exact caps_frame_trans hF hfr
      · injection h with h; subst h
        exact caps_frame_trans (wait_frame _ _) (caps_frame_trans hF hfr)
      · injection h with h; subst h
        exact caps_frame_trans (wait_frame _ _) (caps_frame_trans hF hfr)
    | some k' =>
      rw [hr] at h
      dsimp only at h
      cases h
  · rw [if_neg c4] at h
    dsimp only at h
    split_ifs at h
    · injection h with h; subst h; exact hfr
    · injection h with h; subst h
      exact caps_frame_trans (wait_frame _ _) hfr
    · injection h with h; subst h
      exact caps_frame_trans (wait_frame _ _) hfr

theorem caps_ok_frame {T S : mta_state} {c : connector_ptr} (h : caps_frame T S)
    (hc : caps_ok S c) : caps_ok T c := by
  obtain ⟨f1, f2, f3, f4, f5, f6⟩ := h
  obtain ⟨a1, a2, a3, a4, a5, a6⟩ := hc
  unfold caps_ok
  rw [f1, f2, f3 c, (f5 c.2).1]
  refine ⟨a1, a2, a3, a4, ?_, ?_⟩
  · intro h; rw [(f4 h).1]; exact a5 h
  · intro h
    rcases f6 (c.2, h) with e | e
    · rw [e.1]; exact a6 h
    · rw [e.1]; exact Nat.zero_le _

theorem mta_connect_spawn_relays (now : Int) (S : mta_state) (c : connector_ptr)
    (k : route_ptr) :
    ((mta_connect_spawn now S c k).relays c.1).nconn = (S.relays c.1).nconn + 1 ∧
    ((mta_connect_spawn now S c k).relays c.1).ntask = (S.relays c.1).ntask ∧
    ((mta_connect_spawn now S c k).relays c.1).nconn_ready = (S.relays c.1).nconn_ready ∧
    ((mta_connect_spawn now S c k).relays c.1).limits = (S.relays c.1).limits ∧
    ((mta_connect_spawn now S c k).relays c.1).domain = (S.relays c.1).domain := by
  simp [mta_connect_spawn, mta_relay_ref]

theorem mta_connect_spawn_counters (now : Int) (S : mta_state) (c : connector_ptr)
    (k : route_ptr) :
    ((mta_connect_spawn now S c k).connectors c).nconn = (S.connectors c).nconn + 1 ∧
    ((mta_connect_spawn now S c k).domains (S.relays c.1).domain).nconn =
      (S.domains (S.relays c.1).domain).nconn + 1 ∧
    (∀ x, ((mta_connect_spawn now S c k).sources x).nconn =
      if x = k.1 then (S.sources x).nconn + 1 else (S.sources x).nconn) ∧
    (∀ x, ((mta_connect_spawn now S c k).hosts x).nconn =
      if x = k.2 then (S.hosts x).nconn + 1 else (S.hosts x).nconn) ∧
    (∀ x, ((mta_connect_spawn now S c k).routes x).nconn =
      if x = k then (S.routes x).nconn + 1 else (S.routes x).nconn) := by
  refine ⟨?_, ?_, ?_, ?_, ?_⟩
  · simp [mta_connect_spawn, mta_relay_ref]
  · simp [mta_connect_spawn, mta_relay_ref]
  · intro x
    by_cases e : x = k.1 <;> simp [mta_connect_spawn, mta_relay_ref, Function.update_apply, e]
  · intro x
    by_cases e : x = k.2 <;> simp [mta_connect_spawn, mta_relay_ref, Function.update_apply, e]
  · intro x
    by_cases e : x = k <;> simp [mta_connect_spawn, mta_relay_ref, Function.update_apply, e]

theorem caps_ok_spawn (now : Int) (S : mta_state) (c : connector_ptr) (k : route_ptr)
    (hc : caps_ok S c) (hk : k.1 = c.2)
    (h1 : (S.domains (S.relays c.1).domain).nconn <
      (deref_limits (S.relays c.1).limits).maxconn_per_domain)
    (h2 : (S.sources c.2).nconn < (deref_limits (S.relays c.1).limits).maxconn_per_source)
    (h3 : (S.connectors c).nconn < (deref_limits (S.relays c.1).limits).maxconn_per_connector)
    (h4 : (S.relays c.1).nconn < (deref_limits (S.relays c.1).limits).maxconn_per_relay)
    (h5 : (S.hosts k.2).nconn < (deref_limits (S.relays c.1).limits).maxconn_per_host)
    (h6 : (S.routes k).nconn < (deref_limits (S.relays c.1).limits).maxconn_per_route) :
    caps_ok (mta_connect_spawn now S c k) c := by
  obtain ⟨r1, _, _, r4, r5⟩ := mta_connect_spawn_relays now S c k
  obtain ⟨s1, s2, s3, s4, s5⟩ := mta_connect_spawn_counters now S c k
  obtain ⟨a1, a2, a3, a4, a5, a6⟩ := hc
  unfold caps_ok
  rw [r1, r4, r5, s1, s2, s3]
  refine ⟨h1, ?_, h3, h4, ?_, ?_⟩
  · rw [if_pos hk.symm]; exact h2
  · intro h
    rw [s4]
    split_ifs with e
    · rw [e]; exact h5
    · exact a5 h
  · intro h
    rw [s5]
    split_ifs with e
    · rw [e]; exact h6
    · exact a6 h

theorem mta_connect_caps (now : Int) (c : connector_ptr) :
    ∀ (fuel : Nat) (S S' : mta_state), caps_ok S c → mta_connect fuel now S c = some S' →
      caps_ok S' c := by
  intro fuel
  induction fuel with
  | zero => intro S S' _ h; simp [mta_connect] at h
  | succ n ih =>
    intro S S' hc h
    rw [mta_connect] at h
    cases hs : mta_connect_select now S c with
    | stop S1 =>
      rw [hs] at h
      simp at h
      subst h
      exact caps_ok_frame (mta_connect_select_stop now S c S1 hs) hc
    | route k S1 =>
      rw [hs] at h
      dsimp only at h
      obtain ⟨e1, e2, e3, e4, e5, e6, hk, hadm, hh, g1, g2, g3, g4, _, _⟩ :=
        mta_connect_select_spec now S c k S1 hs
      have hc1 : caps_ok S1 c :=
        caps_ok_frame ⟨e1, e2, fun x => by rw [e3], e4, e5, e6⟩ hc
      apply ih _ _ _ h
      apply caps_ok_spawn now S1 c k hc1 hk
      · rw [e1, e2]; exact g1
      · rw [e1, (e5 c.2).1]; exact g2
      · rw [e1, e3]; exact g3
      · rw [e1]; exact g4
      · rw [e1]; exact hh
      · rw [e1]; exact hadm.2.2

theorem mta_connect_terminates (now : Int) (c : connector_ptr) :
    ∀ (fuel : Nat) (S : mta_state), 0 < fuel →
      max 3 ((S.relays c.1).ntask / 2) < fuel + (S.relays c.1).nconn →
      ∃ S', mta_connect fuel now S c = some S' := by
  intro fuel
  induction fuel with
  | zero => intro S h; exact absurd h (Nat.lt_irrefl 0)
  | succ n ih =>
    intro S _ h
    rw [mta_connect]
    cases hs : mta_connect_select now S c with
    | stop S1 => exact ⟨S1, rfl⟩
    | route k S1 =>
      dsimp only
      obtain ⟨e1, _, _, _, _, _, _, _, _, _, _, _, _, hnt, hcap⟩ :=
        mta_connect_select_spec now S c k S1 hs
      obtain ⟨r1, r2, _, _, _⟩ := mta_connect_spawn_relays now S1 c k
      apply ih
      · omega
      · rw [r1, r2, e1]
        omega


/-! ## Lemmas on source replies -/

theorem mta_on_source_fail_exhausted (S : mta_state) (r : relay_ptr)
    (hne : 0 < (S.relays r).connectors.length)
    (hlt : (S.relays r).connectors.length < (S.relays r).sourceloop) :
    ((mta_on_source_fail S r).relays r).fail = IMSG_DELIVERY_TEMPFAIL ∧
    ((mta_on_source_fail S r).relays r).failstr = exhaustion_message (connectors_errmask S r) ∧
    ((mta_on_source_fail S r).relays r).ntask = (S.relays r).ntask := by
  unfold mta_on_source_fail
  have h0 : ¬ (S.relays r).connectors.length = 0 := by omega
  simp only [h0, if_false, hlt, if_true, Function.update_same, exhaustion_message, and_self]

theorem mta_hoststat_cache_relays (S : mta_state) (host : String) (evpid : Nat) :
    (mta_hoststat_cache S host evpid).relays = S.relays := by
  unfold mta_hoststat_cache
  split
  · rfl
  · split <;> rfl

theorem mta_flush_envelope_done (r : relay_ptr) (fail : Nat) (error : String) (S : mta_state)
    (e : mta_envelope)
    (hf : fail = IMSG_DELIVERY_TEMPFAIL ∨ fail = IMSG_DELIVERY_PERMFAIL) :
    ∃ S', mta_flush_envelope r fail error S e = mta_result.done S' ∧ S'.relays = S.relays := by
  unfold mta_flush_envelope
  have hn : ∃ ev, mta_delivery_notify e fail error 0 = some ev := by
    unfold mta_delivery_notify
    rcases hf with rfl | rfl
    · exact ⟨mta_event.queue_tempfail e.id 0 error, by simp [IMSG_DELIVERY_TEMPFAIL, IMSG_DELIVERY_OK]⟩
    · exact ⟨mta_event.queue_permfail e.id error, by
        simp [IMSG_DELIVERY_TEMPFAIL, IMSG_DELIVERY_OK, IMSG_DELIVERY_PERMFAIL]⟩
  obtain ⟨ev, hev⟩ := hn
  rw [hev]
  dsimp only
  split
  · split_ifs
    · exact ⟨_, rfl, by rw [mta_hoststat_cache_relays]⟩
    · exact ⟨_, rfl, rfl⟩
    · exact ⟨_, rfl, rfl⟩
  · exact ⟨_, rfl, rfl⟩

theorem mta_flush_envelopes_done (r : relay_ptr) (fail : Nat) (error : String)
    (hf : fail = IMSG_DELIVERY_TEMPFAIL ∨ fail = IMSG_DELIVERY_PERMFAIL) :
    ∀ (es : List mta_envelope) (S : mta_state),
      ∃ S', mta_flush_envelopes r fail error es S = mta_result.done S' ∧
        S'.relays = S.relays := by
  intro es
  induction es with
  | nil => intro S; exact ⟨S, rfl, rfl⟩
  | cons e es ih =>
    intro S
    obtain ⟨S1, h1, e1⟩ := mta_flush_envelope_done r fail error S e hf
    obtain ⟨S2, h2, e2⟩ := ih S1
    refine ⟨S2, ?_, e2.trans e1⟩
    rw [mta_flush_envelopes, h1, mta_result.bind, h2]

theorem mta_flush_done (S : mta_state) (r : relay_ptr) (fail : Nat) (error : String)
    (hf : fail = IMSG_DELIVERY_TEMPFAIL ∨ fail = IMSG_DELIVERY_PERMFAIL) :
    ∃ S', mta_flush S r fail error = mta_result.done S' ∧
      (S'.relays r).fail = (S.relays r).fail ∧ (S'.relays r).failstr = (S.relays r).failstr ∧
      (S'.relays r).ntask = 0 ∧ (S'.relays r).tasks = [] := by
  unfold mta_flush
  have hc : ¬ (fail ≠ IMSG_DELIVERY_TEMPFAIL ∧ fail ≠ IMSG_DELIVERY_PERMFAIL) := by
    rcases hf with h | h <;> simp [h]
  rw [if_neg hc]
  dsimp only
  obtain ⟨S1, h1, e1⟩ := mta_flush_envelopes_done r fail error hf
    ((S.relays r).tasks.map (fun t => t.envelopes)).flatten
    { S with relays := Function.update S.relays r { S.relays r with tasks := [] } }
  rw [h1, mta_result.bind]
  refine ⟨_, rfl, ?_, ?_, ?_, ?_⟩ <;> simp [e1]

theorem foldl_connector_free_relays (r : relay_ptr) :
    ∀ (l : List source_ptr) (S : mta_state),
      (l.foldl (fun T s => mta_connector_free T (r, s)) S).relays = S.relays := by
  intro l
  induction l with
  | nil => intro S; rfl
  | cons s l ih =>
    intro S
    rw [List.foldl_cons, ih]
    unfold mta_connector_free
    dsimp only
    rw [mta_source_unref_relays]
    split <;> rfl

theorem foldl_host_unref_relays :
    ∀ (l : List mta_mx) (S : mta_state),
      (l.foldl (fun T mx => mta_host_unref T mx.host) S).relays = S.relays := by
  intro l
  induction l with
  | nil => intro S; rfl
  | cons s l ih => intro S; rw [List.foldl_cons, ih, mta_host_unref_relays]

theorem mta_domain_unref_relays (S : mta_state) (d : domain_ptr) :
    (mta_domain_unref S d).relays = S.relays := by
  unfold mta_domain_unref
  dsimp only
  split
  · rfl
  · simp only [foldl_host_unref_relays]

theorem mta_relay_unref_fail (S : mta_state) (r : relay_ptr) :
    ((mta_relay_unref S r).relays r).fail = (S.relays r).fail ∧
    ((mta_relay_unref S r).relays r).failstr = (S.relays r).failstr := by
  unfold mta_relay_unref
  dsimp only
  split
  · simp
  · simp only [mta_domain_unref_relays, Function.update_same, foldl_connector_free_relays]
    trivial

/-- A drain on a relay with a recorded failure returns and keeps the record. -/
theorem mta_drain_failed (fuel : Nat) (now : Int) (S : mta_state) (r : relay_ptr)
    (hfuel : 0 < fuel)
    (hf : (S.relays r).fail = IMSG_DELIVERY_TEMPFAIL ∨ (S.relays r).fail = IMSG_DELIVERY_PERMFAIL) :
    ∃ S', mta_drain fuel now S r = mta_result.done S' ∧
      (S'.relays r).fail = (S.relays r).fail ∧ (S'.relays r).failstr = (S.relays r).failstr := by
  obtain ⟨n, rfl⟩ : ∃ n, fuel = n + 1 := ⟨fuel - 1, by omega⟩
  rw [mta_drain, mta_drain_with]
  by_cases h0 : (S.relays r).ntask = 0
  · rw [if_pos h0]; exact ⟨S, rfl, rfl, rfl⟩
  rw [if_neg h0]
  have hne : (S.relays r).fail ≠ 0 := by
    rcases hf with h | h <;> rw [h] <;> decide
  rw [if_pos hne]
  obtain ⟨S', h1, h2, h3, _, _⟩ := mta_flush_done S r _ (S.relays r).failstr hf
  exact ⟨S', h1, h2, h3⟩

/-- The failure recorded by `mta_on_source` at exhaustion survives the drain and
the release of the relay. -/
theorem mta_on_source_exhausted (fuel : Nat) (now : Int) (S : mta_state) (r : relay_ptr)
    (source : Option source_ptr) (S1 : mta_state) (delay : Int) (hfuel : 0 < fuel)
    (hc : mta_on_source_connect fuel now S r source = some (S1, delay))
    (hne : 0 < (S1.relays r).connectors.length)
    (hlt : (S1.relays r).connectors.length < (S1.relays r).sourceloop) :
    ∃ S', mta_on_source fuel now S r source = mta_result.done S' ∧
      (S'.relays r).fail = IMSG_DELIVERY_TEMPFAIL ∧
      (S'.relays r).failstr = exhaustion_message (connectors_errmask S1 r) := by
  obtain ⟨f1, f2, _⟩ := mta_on_source_fail_exhausted S1 r hne hlt
  unfold mta_on_source mta_on_source_with
  rw [hc]
  dsimp only
  obtain ⟨S4, h4, g1, g2⟩ := mta_drain_failed fuel now
    { mta_on_source_fail S1 r with
      relays := Function.update (mta_on_source_fail S1 r).relays r
        { (mta_on_source_fail S1 r).relays r with
          nextsource := ((mta_on_source_fail S1 r).relays r).lastsource + delay
          status := clr_flag ((mta_on_source_fail S1 r).relays r).status RELAY_WAIT_SOURCE } }
    r hfuel (by left; simp [f1])
  rw [h4, mta_result.bind]
  refine ⟨_, rfl, ?_, ?_⟩
  · rw [(mta_relay_unref_fail S4 r).1, g1]; simp [f1]
  · rw [(mta_relay_unref_fail S4 r).2, g2]; simp [f2]

theorem has_flag_foldl_or {α : Type} (f : α → Nat) (k : Nat) :
    ∀ (l : List α) (acc : Nat),
      has_flag (l.foldl (fun m s => m ||| f s) acc) k =
        (has_flag acc k || l.any (fun s => has_flag (f s) k)) := by
  intro l
  induction l with
  | nil => intro acc; simp
  | cons a l ih =>
    intro acc
    rw [List.foldl_cons, ih]
    have := has_flag_set_flag acc (f a) k
    unfold set_flag at this
    rw [this, List.any_cons, Bool.or_assoc]

theorem has_flag_errmask (S : mta_state) (r : relay_ptr) (k : Nat) :
    has_flag (connectors_errmask S r) k =
      (S.relays r).connectors.any (fun s => has_flag (S.connectors (r, s)).flags k) := by
  unfold connectors_errmask
  rw [has_flag_foldl_or (fun s => (S.connectors (r, s)).flags) k]
  simp [has_flag]

theorem has_flag_errmask_iff (S : mta_state) (r : relay_ptr) (k : Nat) :
    has_flag (connectors_errmask S r) k = true ↔ relay_flagged S r k := by
  rw [has_flag_errmask, List.any_eq_true]
  rfl

theorem has_flag_of_submask (f m k : Nat) (hmk : k &&& m = m) (h : has_flag f m = true) :
    has_flag f k = true := by
  rw [has_flag_true_iff] at h ⊢
  intro h0
  apply h
  rw [← hmk, ← Nat.and_assoc, h0, Nat.zero_and]

theorem mta_connect_error (fuel : Nat) (now : Int) (S : mta_state) (c : connector_ptr)
    (hfuel : 0 < fuel) (h : has_flag (S.connectors c).flags CONNECTOR_ERROR = true) :
    mta_connect fuel now S c = some S := by
  obtain ⟨n, rfl⟩ : ∃ n, fuel = n + 1 := ⟨fuel - 1, by omega⟩
  rw [mta_connect, mta_connect_select, if_pos h]

theorem mta_connector_known (S : mta_state) (r : relay_ptr) (s : source_ptr)
    (h : s ∈ (S.relays r).connectors) : mta_connector S r s = S := by
  unfold mta_connector
  rw [if_pos h]

/-- A source reply for a known connector that carries an error bit: nothing
is connected, and the state at the failure tests is the state of the call up
to the time stamp of the relay, the `NEW` flag of the connector and the
reference count of the source. -/
theorem mta_on_source_connect_error (fuel : Nat) (now : Int) (S : mta_state) (r : relay_ptr)
    (s : source_ptr) (hfuel : 0 < fuel) (hs : s ∈ (S.relays r).connectors)
    (he : has_flag (S.connectors (r, s)).flags CONNECTOR_ERROR = true) :
    ∃ S1, mta_on_source_connect fuel now S r (some s) = some (S1, DELAY_CHECK_SOURCE_FAST) ∧
      (S1.relays r).connectors = (S.relays r).connectors ∧
      (S1.relays r).sourceloop = (S.relays r).sourceloop ∧
      ∀ x k, k &&& CONNECTOR_NEW = 0 →
        has_flag (S1.connectors (r, x)).flags k = has_flag (S.connectors (r, x)).flags k := by
  unfold mta_on_source_connect
  dsimp only
  rw [mta_connector_known _ r s (by simpa using hs)]
  dsimp only
  by_cases hn : has_flag (S.connectors (r, s)).flags CONNECTOR_NEW = true
  · rw [if_pos hn]
    have he' : has_flag (clr_flag (S.connectors (r, s)).flags CONNECTOR_NEW) CONNECTOR_ERROR
        = true := by
      rw [has_flag_clr_flag_of_disjoint _ _ _ (by decide)]; exact he
    rw [mta_connect_error fuel now _ (r, s) hfuel (by simpa using he')]
    dsimp only
    rw [if_neg (by simp [he'])]
    refine ⟨_, rfl, ?_, ?_, ?_⟩
    · simp
    · simp
    · intro x k hk
      simp only [mta_source_unref_connectors]
      by_cases e : x = s
      · subst e
        simp only [Function.update_same]
        unfold has_flag
        rw [and_clr_flag_of_disjoint _ _ _ (by rw [Nat.and_comm]; exact hk)]
      · have : (r, x) ≠ (r, s) := fun h => e (Prod.mk.inj h).2
        simp [Function.update_apply, this]
  · rw [if_neg hn]
    rw [mta_connect_error fuel now _ (r, s) hfuel (by simpa using he)]
    dsimp only
    rw [if_neg (by simp [he])]
    refine ⟨_, rfl, ?_, ?_, ?_⟩
    · simp
    · simp
    · intro x k _
      simp only [mta_source_unref_connectors]

set_option maxRecDepth 100000 in
theorem ex_state_exhaust3_flags :
    (ex_state_exhaust3.1.relays 7).connectors = [some ex_src1, some ex_src2] ∧
      (ex_state_exhaust3.1.connectors (7, some ex_src1)).flags = CONNECTOR_ERROR_ROUTE_NET ∧
      (ex_state_exhaust3.1.connectors (7, some ex_src2)).flags = CONNECTOR_ERROR_ROUTE_NET := by
  decide

/-! ## The MX list of a domain -/

theorem mxs_insert_perm (mx : mta_mx) (l : List mta_mx) : List.Perm (mxs_insert mx l) (mx :: l) := by
  induction l with
  | nil => simp [mxs_insert]
  | cons a l ih =>
    unfold mxs_insert
    split_ifs
    · exact List.Perm.refl _
    · exact (List.Perm.cons a ih).trans (List.Perm.swap mx a l)

theorem mxs_insert_sorted (mx : mta_mx) (l : List mta_mx)
    (h : l.Pairwise (fun a b => a.preference ≤ b.preference)) :
    (mxs_insert mx l).Pairwise (fun a b => a.preference ≤ b.preference) := by
  induction l with
  | nil => simp [mxs_insert]
  | cons a l ih =>
    unfold mxs_insert
    rw [List.pairwise_cons] at h
    split_ifs with hgt
    · refine List.pairwise_cons.2 ⟨?_, List.pairwise_cons.2 h⟩
      intro b hb
      rcases List.mem_cons.1 hb with rfl | hb
      · exact le_of_lt hgt
      · exact le_trans (le_of_lt hgt) (h.1 b hb)
    · refine List.pairwise_cons.2 ⟨?_, ih h.2⟩
      intro b hb
      rcases List.mem_cons.1 ((mxs_insert_perm mx l).subset hb) with rfl | hb
      · exact not_lt.1 hgt
      · exact h.1 b hb

theorem mxs_insert_filter (mx : mta_mx) (l : List mta_mx) (p : Int)
    (h : l.Pairwise (fun a b => a.preference ≤ b.preference)) :
    (mxs_insert mx l).filter (fun x => decide (x.preference = p)) =
      l.filter (fun x => decide (x.preference = p)) ++
        (if mx.preference = p then [mx] else []) := by
  induction l with
  | nil => by_cases e : mx.preference = p <;> simp [mxs_insert, e]
  | cons a l ih =>
    unfold mxs_insert
    rw [List.pairwise_cons] at h
    by_cases hgt : a.preference > mx.preference
    · rw [if_pos hgt]
      by_cases e : mx.preference = p
      · -- every entry of `a :: l` has a preference above `p`
        have hnone : (a :: l).filter (fun x => decide (x.preference = p)) = [] := by
          rw [List.filter_eq_nil_iff]
          intro b hb
          have : a.preference ≤ b.preference := by
            rcases List.mem_cons.1 hb with rfl | hb
            · exact le_refl _
            · exact h.1 b hb
          simp only [decide_eq_true_eq]
          omega
        rw [List.filter_cons, hnone]
        simp [e]
      · rw [List.filter_cons]
        simp [e]
    · rw [if_neg hgt, List.filter_cons, List.filter_cons, ih h.2]
      split_ifs <;> simp

theorem mxs_foldl_spec (ms : List mta_mx) :
    ∀ l : List mta_mx, l.Pairwise (fun a b => a.preference ≤ b.preference) →
      (ms.foldl (fun acc mx => mxs_insert mx acc) l).Pairwise
          (fun a b => a.preference ≤ b.preference) ∧
        List.Perm (ms.foldl (fun acc mx => mxs_insert mx acc) l) (l ++ ms) ∧
        ∀ p, (ms.foldl (fun acc mx => mxs_insert mx acc) l).filter
            (fun x => decide (x.preference = p)) =
          (l ++ ms).filter (fun x => decide (x.preference = p)) := by
  induction ms with
  | nil => intro l h; simp [h]
  | cons m ms ih =>
    intro l h
    obtain ⟨h1, h2, h3⟩ := ih (mxs_insert m l) (mxs_insert_sorted m l h)
    refine ⟨h1, ?_, ?_⟩
    · refine h2.trans ?_
      refine (List.Perm.append_right ms (mxs_insert_perm m l)).trans ?_
      simpa using (@List.perm_middle _ m l ms).symm
    · intro p
      rw [List.foldl_cons, h3 p, List.filter_append, mxs_insert_filter m l p h, List.filter_append,
        List.filter_cons]
      by_cases e : m.preference = p <;> simp [e]

theorem mta_host_domains (S : mta_state) (sa : host_ptr) : (mta_host S sa).domains = S.domains := by
  unfold mta_host mta_host_ref; split_ifs <;> rfl

theorem mta_host_wait_mx (S : mta_state) (sa : host_ptr) : (mta_host S sa).wait_mx = S.wait_mx := by
  unfold mta_host mta_host_ref; split_ifs <;> rfl

theorem mta_imsg_dns_host_spec (S : mta_state) (reqid : Nat) (d : domain_ptr) (ss : sockaddr)
    (p : Int) (h : wait_get S.wait_mx reqid = some d) :
    ∃ T, mta_imsg_dns_host S reqid ss p = mta_result.done T ∧ T.wait_mx = S.wait_mx ∧
      (T.domains d).mxs = mxs_insert { host := ss, preference := p } (S.domains d).mxs := by
  unfold mta_imsg_dns_host
  rw [h]
  refine ⟨_, rfl, ?_, ?_⟩
  · exact mta_host_wait_mx S ss
  · simp [mta_host_domains]

theorem mta_imsg_dns_hosts_mxs (reqid : Nat) (d : domain_ptr) (ms : List (sockaddr × Int)) :
    ∀ S : mta_state, wait_get S.wait_mx reqid = some d →
      ∃ T, mta_imsg_dns_hosts reqid ms S = mta_result.done T ∧
        (T.domains d).mxs =
          (ms.map (fun m => ({ host := m.1, preference := m.2 } : mta_mx))).foldl
            (fun acc mx => mxs_insert mx acc) (S.domains d).mxs := by
  induction ms with
  | nil => intro S _; exact ⟨S, rfl, rfl⟩
  | cons m ms ih =>
    intro S h
    obtain ⟨T1, h1, hw, hm⟩ := mta_imsg_dns_host_spec S reqid d m.1 m.2 h
    obtain ⟨T, hT, hmT⟩ := ih T1 (by rw [hw]; exact h)
    refine ⟨T, ?_, ?_⟩
    · simp only [mta_imsg_dns_hosts, h1, mta_result.bind]
      exact hT
    · rw [hmT, hm]
      rfl

/-! ## Invariants of `mta_find_route` and `mta_connect` -/

theorem drop_bump (H : route_ptr → Nat) (k : route_ptr) : drop (bump H k) k = H := by
  funext x
  by_cases e : x = k <;> simp [drop, bump, Function.update_apply, e]

theorem bump_hold_none (k : route_ptr) : bump (hold none) k = hold (some k) := by
  funext x
  by_cases e : x = k
  · subst e; simp [bump, hold]
  · have e' : k ≠ x := fun h => e h.symm
    simp [bump, hold, Function.update_apply, e, e']

theorem drop_bump_hold (b k : route_ptr) : drop (bump (hold (some b)) k) b = hold (some k) := by
  funext x
  by_cases e1 : b = k
  · subst e1
    by_cases e2 : x = b
    · subst e2; simp [drop, bump, hold]
    · have e2' : b ≠ x := fun h => e2 h.symm
      simp [drop, bump, hold, Function.update_apply, e2, e2']
  · have e1' : k ≠ b := fun h => e1 h.symm
    by_cases e2 : x = b
    · subst e2
      simp [drop, bump, hold, Function.update_apply, e1, e1']
    · have e2' : b ≠ x := fun h => e2 h.symm
      by_cases e3 : x = k
      · subst e3; simp [drop, bump, hold, Function.update_apply, e1, e1']
      · have e3' : k ≠ x := fun h => e3 h.symm
        simp [drop, bump, hold, Function.update_apply, e2, e2', e3, e3']

theorem bump_pos (H : route_ptr → Nat) (k : route_ptr) : 1 ≤ bump H k k := by
  simp [bump]

theorem bump_hold_pos (b k : route_ptr) : 1 ≤ bump (hold (some b)) k b := by
  by_cases e : b = k
  · subst e; simp [bump]
  · simp [bump, hold, Function.update_apply, e]

/-- The state and the candidate after the loop body of `mta_find_route`: the
body leaves the state alone, or interns the route of the entry and then
releases it, keeps it as the first candidate, or keeps it and releases the
former candidate. -/
theorem mta_find_route_mx_state (now : Int) (l : mta_limits) (c : connector_ptr) (mx : mta_mx)
    (v : find_route_vars) (S : mta_state) :
    ((mta_find_route_mx now l c mx v S).2.1 = S ∧
        (mta_find_route_mx now l c mx v S).1.best = v.best) ∨
      ((mta_find_route_mx now l c mx v S).2.1 =
          mta_route_unref now (mta_route S c.2 mx.host) (c.2, mx.host) ∧
        (mta_find_route_mx now l c mx v S).1.best = v.best) ∨
      (v.best = none ∧ (mta_find_route_mx now l c mx v S).2.1 = mta_route S c.2 mx.host ∧
        (mta_find_route_mx now l c mx v S).1.best = some (c.2, mx.host)) ∨
      (∃ b, v.best = some b ∧
        (mta_find_route_mx now l c mx v S).2.1 =
          mta_route_unref now (mta_route S c.2 mx.host) b ∧
        (mta_find_route_mx now l c mx v S).1.best = some (c.2, mx.host)) := by
  unfold mta_find_route_mx
  dsimp only
  by_cases c1 : has_flag (S.hosts mx.host).flags HOST_IGNORE = true
  · rw [if_pos c1]; exact Or.inl ⟨rfl, rfl⟩
  rw [if_neg c1]
  by_cases c2 : af_mismatch c.2 l mx.host = true
  · rw [if_pos c2]; exact Or.inl ⟨rfl, rfl⟩
  rw [if_neg c2]
  by_cases c3 : (S.hosts mx.host).nconn ≥ l.maxconn_per_host
  · rw [if_pos c3]; exact Or.inl ⟨rfl, rfl⟩
  rw [if_neg c3]
  by_cases c4 : (S.hosts mx.host).lastconn + l.conndelay_host > now
  · rw [if_pos c4]; exact Or.inl ⟨rfl, rfl⟩
  rw [if_neg c4]
  by_cases c5 :
      has_flag ((mta_route S c.2 mx.host).routes (c.2, mx.host)).flags ROUTE_DISABLED = true
  · rw [if_pos c5]; exact Or.inr (Or.inl ⟨rfl, rfl⟩)
  rw [if_neg c5]
  by_cases c6 : ((mta_route S c.2 mx.host).routes (c.2, mx.host)).nconn ≠ 0 ∧
      has_flag ((mta_route S c.2 mx.host).routes (c.2, mx.host)).flags ROUTE_NEW = true
  · rw [if_pos c6]; exact Or.inr (Or.inl ⟨rfl, rfl⟩)
  rw [if_neg c6]
  by_cases c7 : ((mta_route S c.2 mx.host).routes (c.2, mx.host)).nconn ≥ l.maxconn_per_route
  · rw [if_pos c7]; exact Or.inr (Or.inl ⟨rfl, rfl⟩)
  rw [if_neg c7]
  by_cases c8 :
      ((mta_route S c.2 mx.host).routes (c.2, mx.host)).lastconn + l.conndelay_route > now
  · rw [if_pos c8]; exact Or.inr (Or.inl ⟨rfl, rfl⟩)
  rw [if_neg c8]
  by_cases c9 :
      ((mta_route S c.2 mx.host).routes (c.2, mx.host)).lastdisc + l.discdelay_route > now
  · rw [if_pos c9]; exact Or.inr (Or.inl ⟨rfl, rfl⟩)
  rw [if_neg c9]
  cases hb : v.best with
  | none => exact Or.inr (Or.inr (Or.inl ⟨rfl, rfl, rfl⟩))
  | some b =>
    dsimp only
    by_cases c10 : ((mta_route S c.2 mx.host).routes (c.2, mx.host)).nconn ≥
        ((mta_route S c.2 mx.host).routes b).nconn
    · rw [if_pos c10]; exact Or.inr (Or.inl ⟨rfl, rfl⟩)
    · rw [if_neg c10]; exact Or.inr (Or.inr (Or.inr ⟨b, rfl, rfl, rfl⟩))

theorem mta_find_route_mx_invariant {now : Int} {P : mta_state → (route_ptr → Nat) → Prop}
    (hP : route_invariant now P) (l : mta_limits) (c : connector_ptr) (mx : mta_mx)
    (v : find_route_vars) (S : mta_state) (h : P S (hold v.best)) :
    P (mta_find_route_mx now l c mx v S).2.1 (hold (mta_find_route_mx now l c mx v S).1.best) := by
  rcases mta_find_route_mx_state now l c mx v S with ⟨h1, h2⟩ | ⟨h1, h2⟩ | ⟨h0, h1, h2⟩ |
    ⟨b, h0, h1, h2⟩
  · rw [h1, h2]; exact h
  · rw [h1, h2]
    have := hP.release _ _ (c.2, mx.host) (hP.intern S _ c.2 mx.host h) (bump_pos _ _)
    rwa [drop_bump] at this
  · rw [h1, h2]
    have := hP.intern S _ c.2 mx.host h
    rwa [h0, bump_hold_none] at this
  · rw [h1, h2]
    have := hP.release _ _ b (hP.intern S _ c.2 mx.host h) (by rw [h0]; exact bump_hold_pos _ _)
    rwa [h0, drop_bump_hold] at this

theorem mta_find_route_loop_invariant {now : Int} {P : mta_state → (route_ptr → Nat) → Prop}
    (hP : route_invariant now P) (l : mta_limits) (c : connector_ptr) (mxs : List mta_mx) :
    ∀ (v : find_route_vars) (S : mta_state), P S (hold v.best) →
      P (mta_find_route_loop now l c mxs v S).state
        (hold (mta_find_route_loop now l c mxs v S).vars.best) := by
  induction mxs with
  | nil => intro v S h; exact h
  | cons mx rest ih =>
    intro v S h
    unfold mta_find_route_loop
    split
    · exact h
    · rename_i v1 hv1
      refine ih _ _ (mta_find_route_mx_invariant hP l c mx v1 S ?_)
      rw [mta_find_route_level_best _ mx v v1 hv1]
      exact h

theorem conn_frame_refl (S : mta_state) : conn_frame S S := rfl

theorem conn_frame_trans {U T S : mta_state} (h1 : conn_frame U T) (h2 : conn_frame T S) :
    conn_frame U S := by
  unfold conn_frame at *
  rw [h1, h2]

theorem drop_hold (k : route_ptr) : drop (hold (some k)) k = hold none := by
  funext x
  by_cases e : x = k
  · subst e; simp [drop, hold]
  · have e' : k ≠ x := fun h => e h.symm
    simp [drop, hold, Function.update_apply, e, e']

theorem mta_find_route_none_conn_frame (S : mta_state) (c : connector_ptr) (v : find_route_vars)
    (limits : Nat) (nextconn : Int) :
    conn_frame (mta_find_route_none S c v limits nextconn).1 S := by
  unfold mta_find_route_none conn_frame
  dsimp only
  split_ifs <;> rfl

theorem mta_find_route_invariant {now : Int} {P : mta_state → (route_ptr → Nat) → Prop}
    (hP : connect_invariant now P) (S : mta_state) (c : connector_ptr) (limits : Nat)
    (nextconn : Int) (h : P S (hold none)) :
    P (mta_find_route S c now limits nextconn).state
      (hold (mta_find_route S c now limits nextconn).route) := by
  have hl := mta_find_route_loop_invariant hP.routes (deref_limits (S.relays c.1).limits) c
    (S.domains (S.relays c.1).domain).mxs find_route_vars_init S h
  unfold mta_find_route
  dsimp only
  split
  · rename_i k hk
    rw [hk] at hl
    exact hl
  · rename_i hk
    rw [hk] at hl
    exact hP.frame _ _ _ hl (mta_find_route_none_conn_frame _ c _ limits nextconn)

/-- One pass of `mta_connect` keeps an invariant of its steps: when the pass
stops no route is held, when it found a route that route is held. -/
theorem mta_connect_select_invariant {now : Int} {P : mta_state → (route_ptr → Nat) → Prop}
    (hP : connect_invariant now P) (S : mta_state) (c : connector_ptr) (h : P S (hold none)) :
    match mta_connect_select now S c with
    | connect_select.stop S1 => P S1 (hold none)
    | connect_select.route k S1 => P S1 (hold (some k)) := by
  unfold mta_connect_select
  by_cases c1 : has_flag (S.connectors c).flags CONNECTOR_ERROR = true
  · rw [if_pos c1]; exact h
  rw [if_neg c1]
  dsimp only
  generalize hS0 : (if has_flag (S.connectors c).flags CONNECTOR_WAIT = true then
      ({ S with runq_connector := runq_cancel S.runq_connector c } : mta_state) else S) = S0
  have h0 : P S0 (hold none) := by
    rw [← hS0]; split
    · exact hP.frame _ _ _ h rfl
    · exact h
  by_cases c2 : (S0.relays c.1).ntask = 0
  · rw [if_pos c2]; exact h0
  rw [if_neg c2]
  by_cases c3 : (S0.relays c.1).nconn_ready ≥ (S0.relays c.1).ntask ∨
      ((S0.relays c.1).nconn > 2 ∧ (S0.relays c.1).nconn ≥ (S0.relays c.1).ntask / 2)
  · rw [if_pos c3]; exact h0
  rw [if_neg c3]
  by_cases c4 : (mta_connect_gates now S0 c).1 = 0 ∧ (mta_connect_gates now S0 c).2 ≤ now
  · rw [if_pos c4]
    have hF := mta_find_route_invariant hP S0 c (mta_connect_gates now S0 c).1
      (mta_connect_gates now S0 c).2 h0
    cases hr : (mta_find_route S0 c now (mta_connect_gates now S0 c).1
        (mta_connect_gates now S0 c).2).route with
    | none =>
      rw [hr] at hF
      dsimp only
      split_ifs
      · exact hF
      · exact hP.frame _ _ _ hF rfl
      · exact hP.frame _ _ _ hF rfl
    | some k =>
      rw [hr] at hF
      exact hF
  · rw [if_neg c4]
    dsimp only
    split_ifs
    · exact h0
    · exact hP.frame _ _ _ h0 rfl
    · exact hP.frame _ _ _ h0 rfl

/-- `mta_connect` keeps every invariant of its steps. -/
theorem mta_connect_invariant {now : Int} {P : mta_state → (route_ptr → Nat) → Prop}
    (hP : connect_invariant now P) (c : connector_ptr) :
    ∀ (fuel : Nat) (S T : mta_state), P S (hold none) → mta_connect fuel now S c = some T →
      P T (hold none) := by
  intro fuel
  induction fuel with
  | zero => intro S T _ h; simp [mta_connect] at h
  | succ n ih =>
    intro S T hS h
    have hsel := mta_connect_select_invariant hP S c hS
    unfold mta_connect at h
    cases hs : mta_connect_select now S c with
    | stop S1 =>
      rw [hs] at h hsel
      injection h with h
      subst h
      exact hsel
    | route k S1 =>
      rw [hs] at h hsel
      refine ih _ T ?_ h
      have := hP.spawn S1 _ c k hsel (by simp [hold])
      rwa [drop_hold] at this

/-! ## The self-imposed cap and the retry of `mta_connect` -/

theorem mta_connect_select_capped (now : Int) (S : mta_state) (c : connector_ptr)
    (hcap : (S.relays c.1).nconn_ready ≥ (S.relays c.1).ntask ∨
      ((S.relays c.1).nconn > 2 ∧ (S.relays c.1).nconn ≥ (S.relays c.1).ntask / 2)) :
    mta_connect_select now S c = connect_select.stop S ∨
      mta_connect_select now S c =
        connect_select.stop { S with runq_connector := runq_cancel S.runq_connector c } := by
  unfold mta_connect_select
  by_cases c1 : has_flag (S.connectors c).flags CONNECTOR_ERROR = true
  · left; rw [if_pos c1]
  rw [if_neg c1]
  by_cases c0 : has_flag (S.connectors c).flags CONNECTOR_WAIT = true
  · right
    simp only [if_pos c0]
    by_cases c2 : (S.relays c.1).ntask = 0
    · rw [if_pos c2]
    · rw [if_neg c2, if_pos hcap]
  · left
    simp only [if_neg c0]
    by_cases c2 : (S.relays c.1).ntask = 0
    · rw [if_pos c2]
    · rw [if_neg c2, if_pos hcap]

theorem mta_connect_gates_spec (now : Int) (S : mta_state) (c : connector_ptr) :
    (mta_connect_gates now S c).2 = connect_deadline now S c ∧
      ((mta_connect_gates now S c).1 ≠ 0 ↔ connect_capped S c) := by
  unfold mta_connect_gates connect_deadline connect_capped
  dsimp only
  have hmax : ∀ n x : Int, (if x > n then x else n) = max n x := by
    intro n x
    simp only [max_def]
    split_ifs <;> omega
  constructor
  · simp only [hmax, max_assoc]
  · by_cases c1 : (S.domains (S.relays c.1).domain).nconn ≥
        (deref_limits (S.relays c.1).limits).maxconn_per_domain <;>
    by_cases c2 : (S.sources c.2).nconn ≥ (deref_limits (S.relays c.1).limits).maxconn_per_source <;>
    by_cases c3 : (S.connectors c).nconn ≥
        (deref_limits (S.relays c.1).limits).maxconn_per_connector <;>
    by_cases c4 : (S.relays c.1).nconn ≥ (deref_limits (S.relays c.1).limits).maxconn_per_relay <;>
    simp only [c1, c2, c3, c4, if_true, if_false, true_or, or_true, or_self, iff_true, iff_false,
      not_not, ne_eq, not_true_eq_false, not_false_eq_true] <;>
    first
      | rfl
      | exact set_flag_ne_zero _ _ (by decide)

@[simp] theorem mta_source_unref_runq_connector (S : mta_state) (s : source_ptr) :
    (mta_source_unref S s).runq_connector = S.runq_connector := by
  unfold mta_source_unref; dsimp only; split_ifs <;> rfl

@[simp] theorem mta_host_unref_runq_connector (S : mta_state) (h : host_ptr) :
    (mta_host_unref S h).runq_connector = S.runq_connector := by
  unfold mta_host_unref; dsimp only; split_ifs <;> rfl

@[simp] theorem mta_route_runq_connector (S : mta_state) (s : source_ptr) (d : host_ptr) :
    (mta_route S s d).runq_connector = S.runq_connector := by
  unfold mta_route; dsimp only; split_ifs <;> rfl

@[simp] theorem mta_route_unref_runq_connector (now : Int) (S : mta_state) (k : route_ptr) :
    (mta_route_unref now S k).runq_connector = S.runq_connector := by
  unfold mta_route_unref; dsimp only; split_ifs <;> simp

/-- The loop of `mta_find_route` leaves the connectors and their run-queue alone. -/
theorem mta_find_route_loop_connectors (now : Int) (l : mta_limits) (c : connector_ptr)
    (mxs : List mta_mx) (v : find_route_vars) (S : mta_state) :
    (mta_find_route_loop now l c mxs v S).state.runq_connector = S.runq_connector ∧
      (mta_find_route_loop now l c mxs v S).state.connectors = S.connectors := by
  have hP : route_invariant now
      (fun T _ => T.runq_connector = S.runq_connector ∧ T.connectors = S.connectors) :=
    { intern := fun T H s d h => by simpa using h
      release := fun T H k h _ => by simpa using h }
  exact mta_find_route_loop_invariant hP l c mxs v S ⟨rfl, rfl⟩

theorem has_flag_set_flag_error (f m : Nat) (hm : m &&& CONNECTOR_ERROR ≠ 0) :
    has_flag (set_flag f m) CONNECTOR_ERROR = true := by
  rw [has_flag_set_flag]
  simp [has_flag, hm]

theorem has_flag_set_flag_wait (f : Nat) :
    has_flag (set_flag f CONNECTOR_WAIT) CONNECTOR_ERROR = has_flag f CONNECTOR_ERROR := by
  rw [has_flag_set_flag]
  have : has_flag CONNECTOR_WAIT CONNECTOR_ERROR = false := by decide
  simp [this]

/-- What `mta_find_route` leaves behind when its loop ends without candidate
and the connector has no error afterwards: the connector is as before, a
limit bit is set exactly when the host or route limit was met, and otherwise
`*nextconn` is moved to the earliest reported time if that lies later. -/
theorem mta_find_route_none_spec (X : mta_state) (c : connector_ptr) (v : find_route_vars)
    (n : Int)
    (h : has_flag ((mta_find_route_none X c v 0 n).1.connectors c).flags CONNECTOR_ERROR = false) :
    (mta_find_route_none X c v 0 n).1.connectors c = X.connectors c ∧
      ((mta_find_route_none X c v 0 n).2.1 ≠ 0 ↔ (v.limit_route = true ∨ v.limit_host = true)) ∧
      (¬ (v.limit_route = true ∨ v.limit_host = true) →
        (mta_find_route_none X c v 0 n).2.2 = if v.tm ≠ 0 then max n v.tm else n) := by
  unfold mta_find_route_none at h ⊢
  dsimp only at h ⊢
  by_cases c1 : v.seen = 0
  · rw [if_pos c1] at h
    simp only [Function.update_same] at h
    rw [has_flag_set_flag_error _ _ (by decide)] at h
    cases h
  rw [if_neg c1] at h ⊢
  by_cases c2 : v.limit_route = true
  · rw [if_pos c2]
    exact ⟨rfl, ⟨fun _ => Or.inl c2, fun _ => set_flag_ne_zero _ _ (by decide)⟩,
      fun hn => absurd (Or.inl c2) hn⟩
  rw [if_neg c2] at h ⊢
  by_cases c3 : v.limit_host = true
  · rw [if_pos c3]
    exact ⟨rfl, ⟨fun _ => Or.inr c3, fun _ => set_flag_ne_zero _ _ (by decide)⟩,
      fun hn => absurd (Or.inr c3) hn⟩
  rw [if_neg c3] at h ⊢
  have hno : ¬ (v.limit_route = true ∨ v.limit_host = true) := by tauto
  by_cases c4 : v.tm ≠ 0
  · rw [if_pos c4]
    refine ⟨rfl, ⟨fun hh => absurd rfl hh, fun hh => absurd hh hno⟩, fun _ => ?_⟩
    rw [if_pos c4]
    simp only [max_def]
    split_ifs <;> omega
  rw [if_neg c4] at h ⊢
  by_cases c5 : v.family_mismatch = true
  · rw [if_pos c5] at h
    simp only [Function.update_same] at h
    rw [has_flag_set_flag_error _ _ (by decide)] at h
    cases h
  rw [if_neg c5] at h ⊢
  by_cases c6 : v.suspended_route ≠ 0
  · rw [if_pos c6] at h ⊢
    dsimp only at h ⊢
    by_cases c7 : has_flag v.suspended_route ROUTE_DISABLED_SMTP = true
    · rw [if_pos c7] at h
      simp only [Function.update_same] at h
      rw [has_flag_set_flag_error _ _ (by decide)] at h
      cases h
    rw [if_neg c7] at h ⊢
    by_cases c8 : has_flag v.suspended_route ROUTE_DISABLED_NET = true
    · rw [if_pos c8] at h
      simp only [Function.update_same] at h
      rw [has_flag_set_flag_error _ _ (by decide)] at h
      cases h
    rw [if_neg c8] at h ⊢
    exact ⟨rfl, ⟨fun hh => absurd rfl hh, fun hh => absurd hh hno⟩, fun _ => by rw [if_neg c4]⟩
  rw [if_neg c6]
  exact ⟨rfl, ⟨fun hh => absurd rfl hh, fun hh => absurd hh hno⟩, fun _ => by rw [if_neg c4]⟩

theorem mta_find_route_none_runq (X : mta_state) (c : connector_ptr) (v : find_route_vars)
    (limits : Nat) (n : Int) :
    (mta_find_route_none X c v limits n).1.runq_connector = X.runq_connector := by
  unfold mta_find_route_none
  dsimp only
  split_ifs <;> rfl

theorem connect_entry_fields (S : mta_state) (c : connector_ptr) :
    (connect_entry S c).relays = S.relays ∧ (connect_entry S c).connectors = S.connectors ∧
      (connect_entry S c).domains = S.domains := by
  unfold connect_entry; split_ifs <;> exact ⟨rfl, rfl, rfl⟩

theorem mta_find_route_no_route (S : mta_state) (c : connector_ptr) (now : Int) (limits : Nat)
    (nextconn : Int) (h : (mta_find_route S c now limits nextconn).route = none) :
    (mta_find_route S c now limits nextconn).state =
        (mta_find_route_none
          (mta_find_route_loop now (deref_limits (S.relays c.1).limits) c
            (S.domains (S.relays c.1).domain).mxs find_route_vars_init S).state c
          (find_route_exit now S c) limits nextconn).1 ∧
      (mta_find_route S c now limits nextconn).limits =
        (mta_find_route_none
          (mta_find_route_loop now (deref_limits (S.relays c.1).limits) c
            (S.domains (S.relays c.1).domain).mxs find_route_vars_init S).state c
          (find_route_exit now S c) limits nextconn).2.1 ∧
      (mta_find_route S c now limits nextconn).nextconn =
        (mta_find_route_none
          (mta_find_route_loop now (deref_limits (S.relays c.1).limits) c
            (S.domains (S.relays c.1).domain).mxs find_route_vars_init S).state c
          (find_route_exit now S c) limits nextconn).2.2 := by
  unfold mta_find_route at h ⊢
  unfold find_route_exit
  dsimp only at h ⊢
  split at h
  · simp at h
  · rename_i hb
    simp [hb]

/-- A pass of `mta_connect` that ends without route, for a connector without
error, with tasks and below the self-imposed cap. -/
theorem mta_connect_select_retry (now : Int) (S : mta_state) (c : connector_ptr)
    (herr : has_flag (S.connectors c).flags CONNECTOR_ERROR = false)
    (htask : (S.relays c.1).ntask ≠ 0)
    (hcap : ¬ ((S.relays c.1).nconn_ready ≥ (S.relays c.1).ntask ∨
        ((S.relays c.1).nconn > 2 ∧ (S.relays c.1).nconn ≥ (S.relays c.1).ntask / 2)))
    (hnone : ∀ k S1, mta_connect_select now S c ≠ connect_select.route k S1) :
    ∃ T, mta_connect_select now S c = connect_select.stop T ∧
      (has_flag (T.connectors c).flags CONNECTOR_ERROR = true →
        T.runq_connector = (connect_entry S c).runq_connector) ∧
      (has_flag (T.connectors c).flags CONNECTOR_ERROR = false →
        has_flag (T.connectors c).flags CONNECTOR_WAIT = true ∧
        T.runq_connector = runq_schedule (connect_entry S c).runq_connector
          (connect_retry_time now (connect_entry S c) c) c) := by
  have herr' : ¬ has_flag (S.connectors c).flags CONNECTOR_ERROR = true := by simp [herr]
  obtain ⟨e1, e2, e3⟩ := connect_entry_fields S c
  obtain ⟨g2, g1⟩ := mta_connect_gates_spec now (connect_entry S c) c
  have hwait : ∀ (X : mta_state) (t : Int),
      has_flag (X.connectors c).flags CONNECTOR_ERROR = false →
      has_flag (((
        { X with
          connectors := Function.update X.connectors c
            { X.connectors c with flags := set_flag (X.connectors c).flags CONNECTOR_WAIT }
          runq_connector := runq_schedule X.runq_connector t c } : mta_state).connectors c).flags)
        CONNECTOR_ERROR = false := by
    intro X t hX
    simp only [Function.update_same]
    rw [has_flag_set_flag_wait]; exact hX
  unfold mta_connect_select at hnone ⊢
  rw [if_neg herr'] at hnone ⊢
  dsimp only at hnone ⊢
  have hS0 : (if has_flag (S.connectors c).flags CONNECTOR_WAIT = true then
      ({ S with runq_connector := runq_cancel S.runq_connector c } : mta_state) else S) =
      connect_entry S c := rfl
  rw [hS0, e1, if_neg htask, if_neg hcap] at hnone ⊢
  by_cases hc : (mta_connect_gates now (connect_entry S c) c).1 = 0 ∧
      (mta_connect_gates now (connect_entry S c) c).2 ≤ now
  · rw [if_pos hc] at hnone ⊢
    rw [hc.1] at hnone ⊢
    cases hr : (mta_find_route (connect_entry S c) c now 0
        (mta_connect_gates now (connect_entry S c) c).2).route with
    | some k =>
      rw [hr] at hnone
      exact absurd rfl (hnone k _)
    | none =>
      obtain ⟨f1, f2, f3⟩ := mta_find_route_no_route _ c now _ _ hr
      obtain ⟨l1, l2⟩ := mta_find_route_loop_connectors now
        (deref_limits ((connect_entry S c).relays c.1).limits) c
        ((connect_entry S c).domains ((connect_entry S c).relays c.1).domain).mxs
        find_route_vars_init (connect_entry S c)
      dsimp only
      by_cases he : has_flag ((mta_find_route (connect_entry S c) c now 0
          (mta_connect_gates now (connect_entry S c) c).2).state.connectors c).flags
          CONNECTOR_ERROR = true
      · rw [if_pos he]
        refine ⟨_, rfl, fun _ => ?_, fun h => ?_⟩
        · rw [f1, mta_find_route_none_runq, l1]
        · rw [he] at h; cases h
      · rw [if_neg he]
        have he' : has_flag ((mta_find_route (connect_entry S c) c now 0
          (mta_connect_gates now (connect_entry S c) c).2).state.connectors c).flags
          CONNECTOR_ERROR = false := by simpa using he
        refine ⟨_, rfl, fun h => ?_, fun _ => ⟨?_, ?_⟩⟩
        · rw [hwait _ _ he'] at h; cases h
        · simp only [Function.update_same]
          exact has_flag_set_flag_self _ _ (by decide)
        · show runq_schedule _ _ c = runq_schedule _ _ c
          rw [f1] at he'
          obtain ⟨_, s2, s3⟩ := mta_find_route_none_spec _ c _ _ he'
          have hq : (mta_find_route (connect_entry S c) c now 0
              (mta_connect_gates now (connect_entry S c) c).2).state.runq_connector =
              (connect_entry S c).runq_connector := by
            rw [f1, mta_find_route_none_runq, l1]
          rw [hq]
          congr 1
          unfold connect_retry_time
          have hcp : ¬ connect_capped (connect_entry S c) c := fun hh => g1.2 hh hc.1
          have hd : ¬ connect_deadline now (connect_entry S c) c > now := by
            rw [← g2]; exact not_lt.2 hc.2
          rw [if_neg hcp, if_neg hd, f2, f3]
          by_cases hl : (find_route_exit now (connect_entry S c) c).limit_route = true ∨
              (find_route_exit now (connect_entry S c) c).limit_host = true
          · rw [if_pos hl, if_pos (s2.2 hl)]; rfl
          · have hz : ¬ (mta_find_route_none
                (mta_find_route_loop now (deref_limits ((connect_entry S c).relays c.1).limits) c
                  ((connect_entry S c).domains ((connect_entry S c).relays c.1).domain).mxs
                  find_route_vars_init (connect_entry S c)).state c
                (find_route_exit now (connect_entry S c) c) 0
                (mta_connect_gates now (connect_entry S c) c).2).2.1 ≠ 0 := fun hh => hl (s2.1 hh)
            rw [if_neg hl, if_neg hz, s3 hl, g2]
  · rw [if_neg hc] at hnone ⊢
    dsimp only at hnone ⊢
    have herr0 : has_flag ((connect_entry S c).connectors c).flags CONNECTOR_ERROR = false := by
      rw [e2]; exact herr
    have herr0' : ¬ has_flag ((connect_entry S c).connectors c).flags CONNECTOR_ERROR = true := by
      simp [herr0]
    rw [if_neg herr0']
    refine ⟨_, rfl, ?_, ?_⟩
    · intro h
      rw [hwait _ _ herr0] at h
      cases h
    · intro _
      refine ⟨?_, ?_⟩
      · simp only [Function.update_same]
        exact has_flag_set_flag_self _ _ (by decide)
      · show runq_schedule _ _ c = runq_schedule _ _ c
        congr 1
        unfold connect_retry_time
        by_cases hcp : connect_capped (connect_entry S c) c
        · rw [if_pos hcp, if_pos (g1.2 hcp)]; rfl
        · have hz : (mta_connect_gates now (connect_entry S c) c).1 = 0 := by
            by_contra hh; exact hcp (g1.1 hh)
          rw [if_neg hcp, if_neg (by simpa using hz)]
          have hgt : connect_deadline now (connect_entry S c) c > now := by
            rw [← g2]
            by_contra hh
            exact hc ⟨hz, not_lt.1 hh⟩
          rw [if_pos hgt, g2]

/-! ## Relay identity -/

theorem strcmp_chars_eq_zero (a : List Char) : ∀ b, strcmp_chars a b = 0 ↔ a = b := by
  induction a with
  | nil => intro b; cases b <;> simp [strcmp_chars]
  | cons x xs ih =>
    intro b
    cases b with
    | nil => simp [strcmp_chars]
    | cons y ys =>
      unfold strcmp_chars
      by_cases e : x = y
      · rw [if_pos e, ih ys]; simp [e]
      · rw [if_neg e]
        split_ifs <;> simp [e]

theorem strcmp_chars_antisymm (a : List Char) : ∀ b, strcmp_chars b a = - strcmp_chars a b := by
  induction a with
  | nil => intro b; cases b <;> simp [strcmp_chars]
  | cons x xs ih =>
    intro b
    cases b with
    | nil => simp [strcmp_chars]
    | cons y ys =>
      unfold strcmp_chars
      by_cases e : x = y
      · rw [if_pos e, if_pos e.symm, ih ys]
      · have e' : ¬ y = x := fun h => e h.symm
        rw [if_neg e, if_neg e']
        have hne : x.toNat ≠ y.toNat := fun h => e (Char.ext (by
          have := congrArg UInt32.ofNat h
          exact UInt32.ext (by simpa [Char.toNat] using h)))
        split_ifs <;> omega

theorem strcmp_eq_zero (a b : String) : strcmp a b = 0 ↔ a = b := by
  unfold strcmp
  rw [strcmp_chars_eq_zero]
  exact ⟨fun h => String.ext h, fun h => by rw [h]⟩

theorem strcmp_antisymm (a b : String) : strcmp b a = - strcmp a b :=
  strcmp_chars_antisymm a.data b.data

theorem mta_relay_cmp_chain (a b : struct_mta_relay) :
    mta_relay_cmp a b =
      cmp_then (cmp_nat a.domain b.domain) (cmp_then (cmp_nat a.flags b.flags)
        (cmp_then (cmp_nat a.port b.port) (cmp_then (cmp_null a.authtable b.authtable)
          (cmp_then (strcmp_if a.authlabel b.authlabel)
            (cmp_then (cmp_null a.sourcetable b.sourcetable)
              (cmp_then (cmp_null a.cert b.cert)
                (cmp_then (strcmp_if a.backupname b.backupname) (some 0)))))))) := by
  have hn : ∀ (x y : Nat) (rest : Option Int),
      ((cmp_nat x y).bind fun r => if r ≠ 0 then some r else rest) =
      if x < y then some (-1) else if x > y then some 1 else rest := by
    intro x y rest
    unfold cmp_nat
    split_ifs <;> simp_all
  have ho : ∀ (x y : Option String) (rest : Option Int),
      ((cmp_null x y).bind fun r => if r ≠ 0 then some r else rest) =
      if x = none ∧ y ≠ none then some (-1)
      else if x ≠ none ∧ y = none then some 1
      else (strcmp_if x y).bind fun r => if r ≠ 0 then some r else rest := by
    intro x y rest
    unfold cmp_null
    split_ifs <;> simp_all
  unfold mta_relay_cmp cmp_then
  simp only [hn, ho]

theorem cmp_ok_nat (x y : Nat) : cmp_ok (cmp_nat x y) (cmp_nat y x) (x = y) := by
  unfold cmp_ok cmp_nat
  rcases lt_trichotomy x y with h | h | h
  · have h' : ¬ y < x := by omega
    exact ⟨-1, by simp [h], by simp [h, h'], by omega⟩
  · subst h
    exact ⟨0, by simp, by simp, by simp⟩
  · have h' : ¬ x < y := by omega
    exact ⟨1, by simp [h, h'], by simp [h], by omega⟩

theorem cmp_ok_strcmp_if (x y : Option String) (h : x.isSome = y.isSome) :
    cmp_ok (strcmp_if x y) (strcmp_if y x) (x = y) := by
  unfold cmp_ok
  cases x with
  | none =>
    cases y with
    | none => exact ⟨0, rfl, rfl, by simp⟩
    | some b => simp at h
  | some a =>
    cases y with
    | none => simp at h
    | some b =>
      refine ⟨strcmp a b, rfl, ?_, ?_⟩
      · simp only [strcmp_if]; rw [strcmp_antisymm]
      · rw [strcmp_eq_zero]; simp

theorem cmp_ok_null (x y : Option String) : cmp_ok (cmp_null x y) (cmp_null y x) (x = y) := by
  cases x with
  | none =>
    cases y with
    | none => exact ⟨0, by simp [cmp_null, strcmp_if], by simp [cmp_null, strcmp_if], by simp⟩
    | some b => exact ⟨-1, by simp [cmp_null], by simp [cmp_null], by simp⟩
  | some a =>
    cases y with
    | none => exact ⟨1, by simp [cmp_null], by simp [cmp_null], by simp⟩
    | some b =>
      have := cmp_ok_strcmp_if (some a) (some b) rfl
      simpa [cmp_null] using this

theorem cmp_ok_then {x y x' y' : Option Int} {p q : Prop} (h1 : cmp_ok x y p)
    (h2 : cmp_ok x' y' q) : cmp_ok (cmp_then x x') (cmp_then y y') (p ∧ q) := by
  obtain ⟨r, rfl, rfl, hr⟩ := h1
  obtain ⟨r', rfl, rfl, hr'⟩ := h2
  unfold cmp_ok cmp_then
  by_cases e : r = 0
  · subst e
    exact ⟨r', by simp, by simp, by rw [hr']; simp [hr.1 rfl]⟩
  · have e' : -r ≠ 0 := by omega
    refine ⟨r, by simp [e], by simp [e], ?_⟩
    constructor
    · intro h; exact absurd h e
    · intro h; exact hr.2 h.1

/-- On two relays that both have or both lack an `authlabel`, and both have or
both lack a `backupname`, `mta_relay_cmp` returns in both directions, with
opposite results, and returns `0` exactly when the eight key fields agree. -/
theorem mta_relay_cmp_keyed (a b : struct_mta_relay)
    (h1 : a.authlabel.isSome = b.authlabel.isSome)
    (h2 : a.backupname.isSome = b.backupname.isSome) :
    ∃ r : Int, mta_relay_cmp a b = some r ∧ mta_relay_cmp b a = some (-r) ∧
      (r = 0 ↔ relay_key a = relay_key b) := by
  have h := cmp_ok_then (cmp_ok_nat a.domain b.domain) (cmp_ok_then (cmp_ok_nat a.flags b.flags)
    (cmp_ok_then (cmp_ok_nat a.port b.port) (cmp_ok_then (cmp_ok_null a.authtable b.authtable)
      (cmp_ok_then (cmp_ok_strcmp_if a.authlabel b.authlabel h1)
        (cmp_ok_then (cmp_ok_null a.sourcetable b.sourcetable)
          (cmp_ok_then (cmp_ok_null a.cert b.cert)
            (cmp_ok_then (cmp_ok_strcmp_if a.backupname b.backupname h2)
              (⟨0, rfl, rfl, by simp⟩ : cmp_ok (some 0) (some 0) True))))))))
  rw [← mta_relay_cmp_chain a b, ← mta_relay_cmp_chain b a] at h
  obtain ⟨r, e1, e2, e3⟩ := h
  refine ⟨r, e1, e2, e3.trans ?_⟩
  simp only [relay_key, Prod.mk.injEq, and_true]

/-! ## Interning and releasing hosts, sources and domains -/

theorem mta_host_found (S : mta_state) (sa : host_ptr) (h : sa ∈ S.hosts_tree) :
    (mta_host S sa).hosts_tree = S.hosts_tree ∧
      (mta_host S sa).hosts = Function.update S.hosts sa
        { S.hosts sa with refcount := (S.hosts sa).refcount + 1 } := by
  simp only [mta_host, mta_host_ref, if_pos h]
  exact ⟨trivial, trivial⟩

theorem mta_host_created (S : mta_state) (sa : host_ptr) (h : sa ∉ S.hosts_tree) :
    (mta_host S sa).hosts_tree = sa :: S.hosts_tree ∧
      (mta_host S sa).hosts = Function.update S.hosts sa { calloc_host with refcount := 1 } := by
  simp only [mta_host, mta_host_ref, if_neg h, Function.update_same, Function.update_idem]
  exact ⟨trivial, rfl⟩

theorem mta_host_unref_kept (S : mta_state) (sa : host_ptr) (h : (S.hosts sa).refcount ≠ 1) :
    (mta_host_unref S sa).hosts_tree = S.hosts_tree ∧
      (mta_host_unref S sa).hosts = Function.update S.hosts sa
        { S.hosts sa with refcount := (S.hosts sa).refcount - 1 } := by
  have h' : (S.hosts sa).refcount - 1 ≠ 0 := by omega
  simp only [mta_host_unref, if_pos h']
  exact ⟨trivial, trivial⟩

theorem mta_host_unref_freed (S : mta_state) (sa : host_ptr) (h : (S.hosts sa).refcount = 1) :
    (mta_host_unref S sa).hosts_tree = S.hosts_tree.erase sa ∧
      (mta_host_unref S sa).hosts = Function.update S.hosts sa
        { S.hosts sa with refcount := 0 } := by
  have h' : ¬ (S.hosts sa).refcount - 1 ≠ 0 := by omega
  unfold mta_host_unref
  dsimp only
  rw [if_neg h', h]
  exact ⟨rfl, rfl⟩

theorem mta_host_roundtrip (S : mta_state) (sa : host_ptr)
    (hpos : sa ∈ S.hosts_tree → 0 < (S.hosts sa).refcount) :
    sa ∈ (mta_host S sa).hosts_tree ∧
    (mta_host (mta_host S sa) sa).hosts_tree = (mta_host S sa).hosts_tree ∧
    ((mta_host (mta_host S sa) sa).hosts sa).refcount =
      (if sa ∈ S.hosts_tree then (S.hosts sa).refcount else 0) + 2 ∧
    (mta_host_unref (mta_host_unref (mta_host (mta_host S sa) sa) sa) sa).hosts_tree =
      S.hosts_tree ∧
    ∀ x ∈ S.hosts_tree,
      (mta_host_unref (mta_host_unref (mta_host (mta_host S sa) sa) sa) sa).hosts x =
        S.hosts x := by
  have hin : sa ∈ (mta_host S sa).hosts_tree := by
    by_cases h : sa ∈ S.hosts_tree
    · rw [(mta_host_found S sa h).1]; exact h
    · rw [(mta_host_created S sa h).1]; exact List.mem_cons_self _ _
  obtain ⟨t2, f2⟩ := mta_host_found (mta_host S sa) sa hin
  by_cases h : sa ∈ S.hosts_tree
  · obtain ⟨t1, f1⟩ := mta_host_found S sa h
    have hp := hpos h
    have r2 : ((mta_host (mta_host S sa) sa).hosts sa).refcount = (S.hosts sa).refcount + 2 := by
      rw [f2, f1]; simp; ring
    obtain ⟨t3, f3⟩ := mta_host_unref_kept (mta_host (mta_host S sa) sa) sa (by rw [r2]; omega)
    have r3 : ((mta_host_unref (mta_host (mta_host S sa) sa) sa).hosts sa).refcount =
        (S.hosts sa).refcount + 1 := by
      rw [f3]; simp [r2]; ring
    obtain ⟨t4, f4⟩ := mta_host_unref_kept _ sa (by rw [r3]; omega)
    refine ⟨hin, t2, by rw [r2, if_pos h], by rw [t4, t3, t2, t1], ?_⟩
    intro x _
    by_cases ex : x = sa
    · subst ex
      rw [f4, Function.update_same, r3, f3, Function.update_same, f2, Function.update_same, f1,
        Function.update_same]
      cases hx : S.hosts x
      simp
    · rw [f4, Function.update_noteq ex, f3, Function.update_noteq ex, f2,
        Function.update_noteq ex, f1, Function.update_noteq ex]
  · obtain ⟨t1, f1⟩ := mta_host_created S sa h
    have r2 : ((mta_host (mta_host S sa) sa).hosts sa).refcount = 2 := by
      rw [f2, f1]; simp
    obtain ⟨t3, f3⟩ := mta_host_unref_kept (mta_host (mta_host S sa) sa) sa (by rw [r2]; omega)
    have r3 : ((mta_host_unref (mta_host (mta_host S sa) sa) sa).hosts sa).refcount = 1 := by
      rw [f3]; simp [r2]
    obtain ⟨t4, f4⟩ := mta_host_unref_freed _ sa r3
    refine ⟨hin, t2, by rw [r2, if_neg h]; rfl, by rw [t4, t3, t2, t1]; simp, ?_⟩
    intro x hx
    have ex : x ≠ sa := fun e => h (e ▸ hx)
    rw [f4, Function.update_noteq ex, f3, Function.update_noteq ex, f2,
      Function.update_noteq ex, f1, Function.update_noteq ex]

theorem mta_source_found (S : mta_state) (sa : source_ptr) (h : sa ∈ S.sources_tree) :
    (mta_source S sa).sources_tree = S.sources_tree ∧
      (mta_source S sa).sources = Function.update S.sources sa
        { S.sources sa with refcount := (S.sources sa).refcount + 1 } := by
  simp only [mta_source, mta_source_ref, if_pos h]
  exact ⟨trivial, trivial⟩

theorem mta_source_created (S : mta_state) (sa : source_ptr) (h : sa ∉ S.sources_tree) :
    (mta_source S sa).sources_tree = sa :: S.sources_tree ∧
      (mta_source S sa).sources = Function.update S.sources sa { calloc_source with refcount := 1 } := by
  simp only [mta_source, mta_source_ref, if_neg h, Function.update_same, Function.update_idem]
  exact ⟨trivial, rfl⟩

theorem mta_source_unref_kept (S : mta_state) (sa : source_ptr) (h : (S.sources sa).refcount ≠ 1) :
    (mta_source_unref S sa).sources_tree = S.sources_tree ∧
      (mta_source_unref S sa).sources = Function.update S.sources sa
        { S.sources sa with refcount := (S.sources sa).refcount - 1 } := by
  have h' : (S.sources sa).refcount - 1 ≠ 0 := by omega
  simp only [mta_source_unref, if_pos h']
  exact ⟨trivial, trivial⟩

theorem mta_source_unref_freed (S : mta_state) (sa : source_ptr) (h : (S.sources sa).refcount = 1) :
    (mta_source_unref S sa).sources_tree = S.sources_tree.erase sa ∧
      (mta_source_unref S sa).sources = Function.update S.sources sa
        { S.sources sa with refcount := 0 } := by
  have h' : ¬ (S.sources sa).refcount - 1 ≠ 0 := by omega
  unfold mta_source_unref
  dsimp only
  rw [if_neg h', h]
  exact ⟨rfl, rfl⟩

theorem mta_source_roundtrip (S : mta_state) (sa : source_ptr)
    (hpos : sa ∈ S.sources_tree → 0 < (S.sources sa).refcount) :
    sa ∈ (mta_source S sa).sources_tree ∧
    (mta_source (mta_source S sa) sa).sources_tree = (mta_source S sa).sources_tree ∧
    ((mta_source (mta_source S sa) sa).sources sa).refcount =
      (if sa ∈ S.sources_tree then (S.sources sa).refcount else 0) + 2 ∧
    (mta_source_unref (mta_source_unref (mta_source (mta_source S sa) sa) sa) sa).sources_tree =
      S.sources_tree ∧
    ∀ x ∈ S.sources_tree,
      (mta_source_unref (mta_source_unref (mta_source (mta_source S sa) sa) sa) sa).sources x =
        S.sources x := by
  have hin : sa ∈ (mta_source S sa).sources_tree := by
    by_cases h : sa ∈ S.sources_tree
    · rw [(mta_source_found S sa h).1]; exact h
    · rw [(mta_source_created S sa h).1]; exact List.mem_cons_self _ _
  obtain ⟨t2, f2⟩ := mta_source_found (mta_source S sa) sa hin
  by_cases h : sa ∈ S.sources_tree
  · obtain ⟨t1, f1⟩ := mta_source_found S sa h
    have hp := hpos h
    have r2 : ((mta_source (mta_source S sa) sa).sources sa).refcount = (S.sources sa).refcount + 2 := by
      rw [f2, f1]; simp; ring
    obtain ⟨t3, f3⟩ := mta_source_unref_kept (mta_source (mta_source S sa) sa) sa (by rw [r2]; omega)
    have r3 : ((mta_source_unref (mta_source (mta_source S sa) sa) sa).sources sa).refcount =
        (S.sources sa).refcount + 1 := by
      rw [f3]; simp [r2]; ring
    obtain ⟨t4, f4⟩ := mta_source_unref_kept _ sa (by rw [r3]; omega)
    refine ⟨hin, t2, by rw [r2, if_pos h], by rw [t4, t3, t2, t1], ?_⟩
    intro x _
    by_cases ex : x = sa
    · subst ex
      rw [f4, Function.update_same, r3, f3, Function.update_same, f2, Function.update_same, f1,
        Function.update_same]
      cases hx : S.sources x
      simp
    · rw [f4, Function.update_noteq ex, f3, Function.update_noteq ex, f2,
        Function.update_noteq ex, f1, Function.update_noteq ex]
  · obtain ⟨t1, f1⟩ := mta_source_created S sa h
    have r2 : ((mta_source (mta_source S sa) sa).sources sa).refcount = 2 := by
      rw [f2, f1]; simp
    obtain ⟨t3, f3⟩ := mta_source_unref_kept (mta_source (mta_source S sa) sa) sa (by rw [r2]; omega)
    have r3 : ((mta_source_unref (mta_source (mta_source S sa) sa) sa).sources sa).refcount = 1 := by
      rw [f3]; simp [r2]
    obtain ⟨t4, f4⟩ := mta_source_unref_freed _ sa r3
    refine ⟨hin, t2, by rw [r2, if_neg h]; rfl, by rw [t4, t3, t2, t1]; simp, ?_⟩
    intro x hx
    have ex : x ≠ sa := fun e => h (e ▸ hx)
    rw [f4, Function.update_noteq ex, f3, Function.update_noteq ex, f2,
      Function.update_noteq ex, f1, Function.update_noteq ex]



theorem foldl_max_le (l : List Nat) : ∀ init, init ≤ l.foldl max init ∧ ∀ x ∈ l, x ≤ l.foldl max init := by
  induction l with
  | nil => intro init; simp
  | cons a l ih =>
    intro init
    obtain ⟨h1, h2⟩ := ih (max init a)
    refine ⟨le_trans (le_max_left _ _) h1, ?_⟩
    intro x hx
    rcases List.mem_cons.1 hx with rfl | hx
    · exact le_trans (le_max_right _ _) h1
    · exact h2 x hx

theorem domain_alloc_fresh (S : mta_state) : domain_alloc S ∉ S.domains_tree := by
  intro h
  have := (foldl_max_le S.domains_tree 0).2 _ h
  unfold domain_alloc at this
  omega

theorem mta_domain_cmp_self (key d : struct_mta_domain) (h1 : d.name = key.name)
    (h2 : d.flags = key.flags) : mta_domain_cmp key d = 0 := by
  unfold mta_domain_cmp strcasecmp
  rw [h1, h2]
  simp [strcmp_chars_eq_zero]

/-- The lookup of `mta_domain` in the tree of domains. -/
theorem mta_domain_found (S : mta_state) (name : String) (flags : Nat) (d : domain_ptr)
    (h : S.domains_tree.find? (fun x => decide (mta_domain_cmp
      { calloc_domain with name := name, flags := flags } (S.domains x) = 0)) = some d) :
    (mta_domain S name flags).1 = d ∧
      (mta_domain S name flags).2.domains_tree = S.domains_tree ∧
      (mta_domain S name flags).2.domains = Function.update S.domains d
        { S.domains d with refcount := (S.domains d).refcount + 1 } ∧
      (mta_domain S name flags).2.hosts = S.hosts ∧
      (mta_domain S name flags).2.hosts_tree = S.hosts_tree := by
  unfold mta_domain
  dsimp only
  rw [h]
  exact ⟨rfl, rfl, rfl, rfl, rfl⟩

theorem mta_domain_created (S : mta_state) (name : String) (flags : Nat)
    (h : S.domains_tree.find? (fun x => decide (mta_domain_cmp
      { calloc_domain with name := name, flags := flags } (S.domains x) = 0)) = none) :
    (mta_domain S name flags).1 = domain_alloc S ∧
      (mta_domain S name flags).2.domains_tree = domain_alloc S :: S.domains_tree ∧
      (mta_domain S name flags).2.domains = Function.update S.domains (domain_alloc S)
        { calloc_domain with name := name, flags := flags, refcount := 1 } ∧
      (mta_domain S name flags).2.hosts = S.hosts ∧
      (mta_domain S name flags).2.hosts_tree = S.hosts_tree := by
  unfold mta_domain
  dsimp only
  rw [h]
  simp only [Option.getD_none, Option.isSome_none, Bool.false_eq_true, if_false,
    Function.update_same, Function.update_idem]
  refine ⟨?_, ?_, ?_, ?_, ?_⟩ <;> trivial

theorem mta_domain_unref_kept (S : mta_state) (d : domain_ptr) (h : (S.domains d).refcount ≠ 1) :
    (mta_domain_unref S d).domains_tree = S.domains_tree ∧
      (mta_domain_unref S d).domains = Function.update S.domains d
        { S.domains d with refcount := (S.domains d).refcount - 1 } ∧
      (mta_domain_unref S d).hosts = S.hosts ∧
      (mta_domain_unref S d).hosts_tree = S.hosts_tree := by
  have h' : (S.domains d).refcount - 1 ≠ 0 := by omega
  unfold mta_domain_unref
  dsimp only
  rw [if_pos h']
  exact ⟨rfl, rfl, rfl, rfl⟩

theorem mta_domain_unref_freed (S : mta_state) (d : domain_ptr) (h : (S.domains d).refcount = 1)
    (hmx : (S.domains d).mxs = []) :
    (mta_domain_unref S d).domains_tree = S.domains_tree.erase d ∧
      (mta_domain_unref S d).domains = Function.update S.domains d
        { S.domains d with refcount := 0, mxs := [] } ∧
      (mta_domain_unref S d).hosts = S.hosts ∧
      (mta_domain_unref S d).hosts_tree = S.hosts_tree := by
  have h' : ¬ (S.domains d).refcount - 1 ≠ 0 := by omega
  unfold mta_domain_unref
  dsimp only
  rw [if_neg h', hmx, h]
  simp only [List.foldl_nil, Function.update_same, Function.update_idem]
  refine ⟨?_, ?_, ?_, ?_⟩ <;> trivial

theorem find_congr {α : Type} (p q : α → Bool) (l : List α) (h : ∀ x ∈ l, p x = q x) :
    l.find? p = l.find? q := by
  induction l with
  | nil => rfl
  | cons a l ih =>
    have ha := h a (List.mem_cons_self _ _)
    have ih' := ih (fun x hx => h x (List.mem_cons_of_mem _ hx))
    simp only [List.find?_cons, ha, ih']

theorem mta_domain_roundtrip (S : mta_state) (name : String) (flags : Nat)
    (hpos : (mta_domain S name flags).1 ∈ S.domains_tree →
      0 < (S.domains (mta_domain S name flags).1).refcount) :
    (mta_domain (mta_domain S name flags).2 name flags).1 = (mta_domain S name flags).1 ∧
    ((mta_domain (mta_domain S name flags).2 name flags).2.domains
        (mta_domain S name flags).1).refcount =
      (if (mta_domain S name flags).1 ∈ S.domains_tree then
        (S.domains (mta_domain S name flags).1).refcount else 0) + 2 ∧
    (mta_domain_unref (mta_domain_unref (mta_domain (mta_domain S name flags).2 name flags).2
        (mta_domain S name flags).1) (mta_domain S name flags).1).domains_tree =
      S.domains_tree ∧
    ∀ x ∈ S.domains_tree,
      (mta_domain_unref (mta_domain_unref (mta_domain (mta_domain S name flags).2 name flags).2
        (mta_domain S name flags).1) (mta_domain S name flags).1).domains x = S.domains x := by
  cases hf : S.domains_tree.find? (fun x => decide (mta_domain_cmp
      { calloc_domain with name := name, flags := flags } (S.domains x) = 0)) with
  | some d =>
    obtain ⟨p1, t1, f1, _, _⟩ := mta_domain_found S name flags d hf
    have hd : d ∈ S.domains_tree := List.mem_of_find?_eq_some hf
    rw [p1] at hpos ⊢
    have hp := hpos hd
    have hf2 : (mta_domain S name flags).2.domains_tree.find? (fun x => decide (mta_domain_cmp
        { calloc_domain with name := name, flags := flags }
        ((mta_domain S name flags).2.domains x) = 0)) = some d := by
      rw [t1, f1, ← hf]
      apply find_congr
      intro x _
      by_cases ex : x = d
      · subst ex; simp [mta_domain_cmp]
      · simp [Function.update_noteq ex]
    obtain ⟨p2, t2, f2, _, _⟩ := mta_domain_found _ name flags d hf2
    have r2 : ((mta_domain (mta_domain S name flags).2 name flags).2.domains d).refcount =
        (S.domains d).refcount + 2 := by
      rw [f2, f1]; simp; ring
    obtain ⟨t3, f3, _, _⟩ := mta_domain_unref_kept
      (mta_domain (mta_domain S name flags).2 name flags).2 d (by rw [r2]; omega)
    have r3 : ((mta_domain_unref (mta_domain (mta_domain S name flags).2 name flags).2 d).domains
        d).refcount = (S.domains d).refcount + 1 := by
      rw [f3]; simp [r2]; ring
    obtain ⟨t4, f4, _, _⟩ := mta_domain_unref_kept _ d (by rw [r3]; omega)
    refine ⟨p2, by rw [r2, if_pos hd], by rw [t4, t3, t2, t1], ?_⟩
    intro x _
    by_cases ex : x = d
    · subst ex
      rw [f4, Function.update_same, r3, f3, Function.update_same, f2, Function.update_same, f1,
        Function.update_same]
      cases hx : S.domains x
      simp
    · rw [f4, Function.update_noteq ex, f3, Function.update_noteq ex, f2,
        Function.update_noteq ex, f1, Function.update_noteq ex]
  | none =>
    obtain ⟨p1, t1, f1, _, _⟩ := mta_domain_created S name flags hf
    have hd : domain_alloc S ∉ S.domains_tree := domain_alloc_fresh S
    rw [p1] at hpos ⊢
    have hf2 : (mta_domain S name flags).2.domains_tree.find? (fun x => decide (mta_domain_cmp
        { calloc_domain with name := name, flags := flags }
        ((mta_domain S name flags).2.domains x) = 0)) = some (domain_alloc S) := by
      rw [t1, f1]
      apply List.find?_cons_of_pos
      simp only [Function.update_same, decide_eq_true_eq]
      exact mta_domain_cmp_self _ _ rfl rfl
    obtain ⟨p2, t2, f2, _, _⟩ := mta_domain_found _ name flags _ hf2
    have r2 : ((mta_domain (mta_domain S name flags).2 name flags).2.domains
        (domain_alloc S)).refcount = 2 := by
      rw [f2, f1]; simp
    obtain ⟨t3, f3, _, _⟩ := mta_domain_unref_kept
      (mta_domain (mta_domain S name flags).2 name flags).2 (domain_alloc S) (by rw [r2]; omega)
    have r3 : ((mta_domain_unref (mta_domain (mta_domain S name flags).2 name flags).2
        (domain_alloc S)).domains (domain_alloc S)).refcount = 1 := by
      rw [f3]; simp [r2]
    have m3 : ((mta_domain_unref (mta_domain (mta_domain S name flags).2 name flags).2
        (domain_alloc S)).domains (domain_alloc S)).mxs = [] := by
      rw [f3, Function.update_same, f2, Function.update_same, f1, Function.update_same]
      rfl
    obtain ⟨t4, f4, _, _⟩ := mta_domain_unref_freed _ (domain_alloc S) r3 m3
    refine ⟨p2, by rw [r2, if_neg hd]; rfl, by rw [t4, t3, t2, t1]; simp, ?_⟩
    intro x hx
    have ex : x ≠ domain_alloc S := fun e => hd (e ▸ hx)
    rw [f4, Function.update_noteq ex, f3, Function.update_noteq ex, f2,
      Function.update_noteq ex, f1, Function.update_noteq ex]

/-! ## Disable/enable cycles of a route -/

/-- The record of a route after `mta_route_enable`. -/
theorem mta_route_enable_record (now : Int) (S : mta_state) (k : route_ptr) :
    ((mta_route_enable now S k).routes k).penalty =
        (if (S.routes k).penalty ≠ 0 then (S.routes k).penalty - 1 else (S.routes k).penalty) ∧
      ((mta_route_enable now S k).routes k).flags =
        (if has_flag (S.routes k).flags ROUTE_DISABLED = true then
          set_flag (clr_flag (S.routes k).flags ROUTE_DISABLED) ROUTE_NEW
        else (S.routes k).flags) ∧
      ((mta_route_enable now S k).routes k).nconn = (S.routes k).nconn ∧
      ((mta_route_enable now S k).routes k).refcount = (S.routes k).refcount ∧
      ((mta_route_enable now S k).routes k).lastdisc = (S.routes k).lastdisc ∧
      ((mta_route_enable now S k).routes k).lastconn = (S.routes k).lastconn := by
  unfold mta_route_enable
  simp only [Function.update_same]
  by_cases c1 : has_flag (S.routes k).flags ROUTE_DISABLED = true <;>
  by_cases c2 : (S.routes k).penalty ≠ 0 <;>
  simp [c1, c2]

/-- The record of a route after its timer fired. -/
theorem mta_on_timeout_route_record (now : Int) (S : mta_state) (k : route_ptr) :
    ((mta_on_timeout_route now S k).routes k).penalty =
        (if (S.routes k).penalty ≠ 0 then (S.routes k).penalty - 1 else (S.routes k).penalty) ∧
      has_flag ((mta_on_timeout_route now S k).routes k).flags ROUTE_DISABLED = false ∧
      has_flag ((mta_on_timeout_route now S k).routes k).flags ROUTE_NEW =
        (has_flag (S.routes k).flags ROUTE_NEW || has_flag (S.routes k).flags ROUTE_DISABLED) := by
  unfold mta_on_timeout_route
  dsimp only
  have hd : ∀ a b : Nat, a &&& ROUTE_DISABLED = b &&& ROUTE_DISABLED →
      has_flag a ROUTE_DISABLED = has_flag b ROUTE_DISABLED := by
    intro a b h; unfold has_flag; rw [h]
  have hn : ∀ a b : Nat, a &&& ROUTE_NEW = b &&& ROUTE_NEW →
      has_flag a ROUTE_NEW = has_flag b ROUTE_NEW := by
    intro a b h; unfold has_flag; rw [h]
  rw [(mta_route_unref_routes now _ k k).2.2.2.1,
    hd _ _ (mta_route_unref_routes now _ k k).2.2.2.2.2.1,
    hn _ _ (mta_route_unref_routes now _ k k).2.2.2.2.2.2,
    (mta_route_enable_record now _ k).1, (mta_route_enable_record now _ k).2.1]
  simp only [Function.update_same]
  rw [has_flag_clr_flag_of_disjoint _ _ _ (by decide : ROUTE_RUNQ &&& ROUTE_DISABLED = 0)]
  refine ⟨trivial, ?_, ?_⟩
  · by_cases c1 : has_flag (S.routes k).flags ROUTE_DISABLED = true
    · rw [if_pos c1, has_flag_set_flag, has_flag_clr_flag_self]; decide
    · rw [if_neg c1, has_flag_clr_flag_of_disjoint _ _ _ (by decide)]
      simpa using c1
  · by_cases c1 : has_flag (S.routes k).flags ROUTE_DISABLED = true
    · rw [if_pos c1, has_flag_set_flag, c1]
      have : has_flag ROUTE_NEW ROUTE_NEW = true := by decide
      simp [this]
    · rw [if_neg c1, has_flag_clr_flag_of_disjoint _ _ _ (by decide)]
      simp [c1]

/-- One disable/enable cycle on a route that is `NEW` and not disabled. -/
theorem route_cycle_record (k : route_ptr) (S : mta_state) (c : Int × Int × Nat)
    (hnew : has_flag (S.routes k).flags ROUTE_NEW = true)
    (hdis : has_flag (S.routes k).flags ROUTE_DISABLED = false)
    (hpen : 0 ≤ (S.routes k).penalty) :
    ((mta_route_disable c.1 S k 2 c.2.2).routes k).penalty = (S.routes k).penalty + 2 ∧
      (c.1 + mta_route_disable_delay ((S.routes k).penalty + 2), k) ∈
        (mta_route_disable c.1 S k 2 c.2.2).runq_route ∧
      ((route_cycle k S c).routes k).penalty = (S.routes k).penalty + 1 ∧
      has_flag ((route_cycle k S c).routes k).flags ROUTE_NEW = true ∧
      has_flag ((route_cycle k S c).routes k).flags ROUTE_DISABLED = false := by
  obtain ⟨S2, h1, _, _, h4, h5, _, h7, h8⟩ := mta_route_disable_shape c.1 S k 2 c.2.2
  have hp : ((mta_route_disable c.1 S k 2 c.2.2).routes k).penalty = (S.routes k).penalty + 2 := by
    rw [h5, h1]
  have hn : has_flag ((mta_route_disable c.1 S k 2 c.2.2).routes k).flags ROUTE_NEW = true := by
    rw [h7, h4 hdis, has_flag_set_flag, hnew]; rfl
  obtain ⟨t1, t2, t3⟩ := mta_on_timeout_route_record c.2.1
    { mta_route_disable c.1 S k 2 c.2.2 with
      runq_route := runq_expire (mta_route_disable c.1 S k 2 c.2.2).runq_route
        (c.1 + mta_route_disable_delay ((S.routes k).penalty + 2), k) } k
  refine ⟨hp, ?_, ?_, ?_, ?_⟩
  · rw [h8]; simp [runq_schedule]
  · show ((mta_on_timeout_route c.2.1 _ k).routes k).penalty = _
    rw [t1]
    simp only [hp]
    rw [if_pos (by omega)]
    omega
  · show has_flag ((mta_on_timeout_route c.2.1 _ k).routes k).flags ROUTE_NEW = true
    rw [t3]
    simp only [hn, Bool.true_or]
  · exact t2

/-- The record of a fresh route after a sequence of disable/enable cycles. -/
theorem route_cycles_record (k : route_ptr) (cs : List (Int × Int × Nat)) :
    ∀ S : mta_state, has_flag (S.routes k).flags ROUTE_NEW = true →
      has_flag (S.routes k).flags ROUTE_DISABLED = false → 0 ≤ (S.routes k).penalty →
      ((cs.foldl (route_cycle k) S).routes k).penalty = (S.routes k).penalty + cs.length ∧
        has_flag ((cs.foldl (route_cycle k) S).routes k).flags ROUTE_NEW = true ∧
        has_flag ((cs.foldl (route_cycle k) S).routes k).flags ROUTE_DISABLED = false := by
  induction cs with
  | nil => intro S h1 h2 _; simp [h1, h2]
  | cons c cs ih =>
    intro S h1 h2 h3
    obtain ⟨_, _, a3, a4, a5⟩ := route_cycle_record k S c h1 h2 h3
    obtain ⟨b1, b2, b3⟩ := ih (route_cycle k S c) a4 a5 (by rw [a3]; omega)
    refine ⟨?_, b2, b3⟩
    rw [List.foldl_cons, b1, a3, List.length_cons]
    push_cast
    ring

theorem delay_step_mono (n : Int) (h : 0 ≤ n) : 200 * (n + 2) ^ 2 ≤ 200 * (n + 3) ^ 2 := by
  nlinarith

theorem delay_step_capped (n : Int) (h : 7 ≤ n) : 14400 ≤ 200 * (n + 2) ^ 2 := by
  nlinarith

/-! ## Penalties of routes -/

theorem graph_frame_refl (S : mta_state) : graph_frame S S :=
  ⟨rfl, rfl, rfl, fun _ => host_same_refl _, fun _ => source_same_refl _⟩

theorem graph_frame_trans {U T S : mta_state} (h1 : graph_frame U T) (h2 : graph_frame T S) :
    graph_frame U S :=
  ⟨h1.1.trans h2.1, h1.2.1.trans h2.2.1, h1.2.2.1.trans h2.2.2.1,
    fun x => host_same_trans (h1.2.2.2.1 x) (h2.2.2.2.1 x),
    fun x => source_same_trans (h1.2.2.2.2 x) (h2.2.2.2.2 x)⟩

theorem graph_frame_of_conn_frame {T S : mta_state} (h : conn_frame T S) : graph_frame T S := by
  unfold conn_frame at h
  rw [h]
  exact graph_frame_refl S

theorem graph_frame_source_ref (S : mta_state) (s : source_ptr) :
    graph_frame (mta_source_ref S s) S := by
  refine ⟨rfl, rfl, rfl, fun _ => host_same_refl _, fun x => ?_⟩
  unfold mta_source_ref
  by_cases e : x = s
  · subst e; simp [source_same]
  · simp [Function.update_apply, e, source_same_refl]

theorem graph_frame_source_unref (S : mta_state) (s : source_ptr) :
    graph_frame (mta_source_unref S s) S :=
  ⟨by simp, by simp, by simp, fun x => by simp [host_same_refl],
    fun x => mta_source_unref_sources S s x⟩

theorem graph_frame_host_unref (S : mta_state) (h : host_ptr) :
    graph_frame (mta_host_unref S h) S :=
  ⟨by simp, by simp, by simp, fun x => mta_host_unref_hosts S h x,
    fun x => by simp [source_same_refl]⟩

theorem graph_frame_connector (S : mta_state) (r : relay_ptr) (s : source_ptr) :
    graph_frame (mta_connector S r s) S := by
  unfold mta_connector mta_source_ref
  split
  · exact graph_frame_refl S
  · refine ⟨rfl, rfl, rfl, fun _ => host_same_refl _, fun x => ?_⟩
    by_cases e : x = s
    · subst e; simp [source_same]
    · simp [Function.update_apply, e, source_same_refl]

theorem graph_frame_connector_free (S : mta_state) (c : connector_ptr) :
    graph_frame (mta_connector_free S c) S := by
  unfold mta_connector_free
  dsimp only
  refine graph_frame_trans (T := mta_source_unref _ c.2)
    ⟨rfl, rfl, rfl, fun _ => host_same_refl _, fun _ => source_same_refl _⟩
    (graph_frame_trans (graph_frame_source_unref _ c.2) ?_)
  split
  · exact ⟨rfl, rfl, rfl, fun _ => host_same_refl _, fun _ => source_same_refl _⟩
  · exact graph_frame_refl S

theorem graph_frame_foldl {α : Type} (f : mta_state → α → mta_state)
    (hf : ∀ S a, graph_frame (f S a) S) :
    ∀ (l : List α) (S : mta_state), graph_frame (l.foldl f S) S := by
  intro l
  induction l with
  | nil => intro S; exact graph_frame_refl S
  | cons a l ih => intro S; exact graph_frame_trans (ih _) (hf S a)

theorem graph_frame_domain_unref (S : mta_state) (d : domain_ptr) :
    graph_frame (mta_domain_unref S d) S := by
  unfold mta_domain_unref
  dsimp only
  split
  · exact ⟨rfl, rfl, rfl, fun _ => host_same_refl _, fun _ => source_same_refl _⟩
  · refine graph_frame_trans (T := List.foldl (fun T (mx : mta_mx) => mta_host_unref T mx.host) _ _)
      ⟨rfl, rfl, rfl, fun _ => host_same_refl _, fun _ => source_same_refl _⟩
      (graph_frame_trans (graph_frame_foldl _ (fun T (mx : mta_mx) => graph_frame_host_unref T mx.host) _ _)
        ⟨rfl, rfl, rfl, fun _ => host_same_refl _, fun _ => source_same_refl _⟩)

theorem graph_frame_relay_unref (S : mta_state) (r : relay_ptr) :
    graph_frame (mta_relay_unref S r) S := by
  unfold mta_relay_unref
  dsimp only
  split
  · exact ⟨rfl, rfl, rfl, fun _ => host_same_refl _, fun _ => source_same_refl _⟩
  · refine graph_frame_trans (T := mta_domain_unref _ _)
      ⟨rfl, rfl, rfl, fun _ => host_same_refl _, fun _ => source_same_refl _⟩
      (graph_frame_trans (graph_frame_domain_unref _ _) ?_)
    refine graph_frame_trans (T := List.foldl (fun T s => mta_connector_free T (r, s)) _ _)
      ⟨rfl, rfl, rfl, fun _ => host_same_refl _, fun _ => source_same_refl _⟩
      (graph_frame_trans
        (graph_frame_foldl _ (fun T s => graph_frame_connector_free T (r, s)) _ _)
        ⟨rfl, rfl, rfl, fun _ => host_same_refl _, fun _ => source_same_refl _⟩)

theorem penalty_bounded_of_routes {B : route_ptr → Int} {T S : mta_state}
    (h : ∀ x, (T.routes x).penalty = (S.routes x).penalty) (hS : penalty_bounded B S) :
    penalty_bounded B T := fun x => by rw [h x]; exact hS x

theorem penalty_bounded_frame {B : route_ptr → Int} {T S : mta_state} (h : graph_frame T S)
    (hS : penalty_bounded B S) : penalty_bounded B T :=
  penalty_bounded_of_routes (fun x => by rw [h.1]) hS

theorem mta_connect_spawn_routes (now : Int) (S : mta_state) (c : connector_ptr) (k x : route_ptr) :
    ((mta_connect_spawn now S c k).routes x).penalty = (S.routes x).penalty ∧
      ((mta_connect_spawn now S c k).routes x).flags = (S.routes x).flags ∧
      ((mta_connect_spawn now S c k).routes x).refcount = (S.routes x).refcount ∧
      ((mta_connect_spawn now S c k).routes x).lastdisc = (S.routes x).lastdisc ∧
      ((mta_connect_spawn now S c k).routes x).nconn =
        (S.routes x).nconn + (if x = k then 1 else 0) ∧
      (mta_connect_spawn now S c k).routes_tree = S.routes_tree ∧
      (mta_connect_spawn now S c k).runq_route = S.runq_route := by
  unfold mta_connect_spawn mta_relay_ref
  by_cases e : x = k
  · subst e; simp
  · simp [Function.update_apply, e]

theorem penalty_bounded_invariant (now : Int) (B : route_ptr → Int) :
    connect_invariant now (fun S _ => penalty_bounded B S) where
  routes :=
    { intern := fun S _ s d h x => by
        rcases mta_route_routes S s d x with h1 | ⟨_, h1⟩
        · rw [h1.2.2.2.1]; exact h x
        · rw [h1.2.2.2.2]; exact ⟨le_refl _, le_trans (h x).1 (h x).2⟩
      release := fun S _ k h _ x => by
        rw [(mta_route_unref_routes now S k x).2.2.2.1]; exact h x }
  spawn := fun S _ c k h _ x => by
    rw [(mta_connect_spawn_routes now S c k x).1]; exact h x
  frame := fun S T _ h hf => penalty_bounded_frame (graph_frame_of_conn_frame hf) h

theorem mta_route_disable_penalties (now : Int) (S : mta_state) (k x : route_ptr) (p : Int)
    (reason : Nat) :
    ((mta_route_disable now S k p reason).routes x).penalty =
      (S.routes x).penalty + (if x = k then p else 0) := by
  unfold mta_route_disable mta_route_ref
  dsimp only
  by_cases e : x = k
  · subst e
    split
    · simp only [Function.update_same, if_true]
      rw [(mta_route_unref_routes now _ x x).2.2.2.1]
      simp
    · simp
  · split
    · simp only [Function.update_noteq e, if_neg e, add_zero]
      rw [(mta_route_unref_routes now _ k x).2.2.2.1]
      simp [Function.update_noteq e]
    · simp [Function.update_noteq e, e]

theorem mta_route_enable_penalties (now : Int) (S : mta_state) (k x : route_ptr) :
    (S.routes x).penalty - 1 ≤ ((mta_route_enable now S k).routes x).penalty ∧
      ((mta_route_enable now S k).routes x).penalty ≤ (S.routes x).penalty ∧
      (0 ≤ (S.routes x).penalty → 0 ≤ ((mta_route_enable now S k).routes x).penalty) := by
  by_cases e : x = k
  · subst e
    rw [(mta_route_enable_record now S x).1]
    split_ifs <;> refine ⟨?_, ?_, ?_⟩ <;> omega
  · have : (mta_route_enable now S k).routes x = S.routes x := by
      unfold mta_route_enable; simp [Function.update_noteq e]
    rw [this]
    exact ⟨by omega, le_refl _, id⟩

theorem mta_on_timeout_route_penalties (now : Int) (S : mta_state) (k x : route_ptr) :
    (S.routes x).penalty - 1 ≤ ((mta_on_timeout_route now S k).routes x).penalty ∧
      ((mta_on_timeout_route now S k).routes x).penalty ≤ (S.routes x).penalty ∧
      (0 ≤ (S.routes x).penalty → 0 ≤ ((mta_on_timeout_route now S k).routes x).penalty) := by
  unfold mta_on_timeout_route
  dsimp only
  rw [(mta_route_unref_routes now _ k x).2.2.2.1]
  let r1 : struct_mta_route :=
    { S.routes k with flags := clr_flag (S.routes k).flags ROUTE_RUNQ }
  have h := mta_route_enable_penalties now { S with routes := Function.update S.routes k r1 } k x
  have e : ((Function.update S.routes k r1) x).penalty = (S.routes x).penalty := by
    by_cases e : x = k
    · subst e; simp [r1]
    · simp [Function.update_noteq e]
  simp only [e] at h
  exact h

theorem mta_resume_routes_penalties (now : Int) (u64 : Nat) (x : route_ptr) :
    ∀ (l : List route_ptr) (S : mta_state),
      ((mta_resume_routes now u64 l S).routes x).penalty ≤ (S.routes x).penalty ∧
        (0 ≤ (S.routes x).penalty → 0 ≤ ((mta_resume_routes now u64 l S).routes x).penalty) := by
  intro l
  induction l with
  | nil => intro S; exact ⟨le_refl _, id⟩
  | cons k rest ih =>
    intro S
    unfold mta_resume_routes
    split_ifs
    · exact ih S
    · exact ⟨(mta_route_enable_penalties now S k x).2.1, (mta_route_enable_penalties now S k x).2.2⟩
    · obtain ⟨h1, h2⟩ := ih (mta_route_enable now S k)
      obtain ⟨_, e2, e3⟩ := mta_route_enable_penalties now S k x
      exact ⟨le_trans h1 e2, fun h => h2 (e3 h)⟩

theorem mta_route_collect_close_routes (now : Int) (S : mta_state) (r : relay_ptr)
    (k x : route_ptr) :
    ((mta_route_collect_close now S r k).routes x).penalty = (S.routes x).penalty ∧
      ((mta_route_collect_close now S r k).routes x).flags = (S.routes x).flags ∧
      ((mta_route_collect_close now S r k).routes x).refcount = (S.routes x).refcount ∧
      ((mta_route_collect_close now S r k).routes x).lastdisc =
        (if x = k then now else (S.routes x).lastdisc) ∧
      ((mta_route_collect_close now S r k).routes x).nconn =
        (if x = k then size_dec (S.routes x).nconn else (S.routes x).nconn) ∧
      (mta_route_collect_close now S r k).routes_tree = S.routes_tree ∧
      (mta_route_collect_close now S r k).runq_route = S.runq_route := by
  unfold mta_route_collect_close
  by_cases e : x = k
  · subst e; simp
  · simp [Function.update_apply, e]

/-- The penalties after `mta_route_collect`: none is negative, and none is
above its value before the call, except that of a route collected while it
was `ROUTE_NEW`, which is at most two above. -/
theorem mta_route_collect_penalties (fuel : Nat) (now : Int) (S T : mta_state) (r : relay_ptr)
    (k : route_ptr) (h0 : ∀ x, 0 ≤ (S.routes x).penalty)
    (h : mta_route_collect fuel now S r k = some T) :
    penalty_bounded (fun x => (S.routes x).penalty +
      (if x = k ∧ has_flag (S.routes k).flags ROUTE_NEW = true then 2 else 0)) T := by
  unfold mta_route_collect at h
  cases hc : mta_connect fuel now (mta_route_collect_probe now S r k) (r, k.1) with
  | none => rw [hc] at h; cases h
  | some S5 =>
    rw [hc] at h
    injection h with h
    subst h
    have hprobe : penalty_bounded (fun x => (S.routes x).penalty +
        (if x = k ∧ has_flag (S.routes k).flags ROUTE_NEW = true then 2 else 0))
        (mta_route_collect_probe now S r k) := by
      unfold mta_route_collect_probe
      dsimp only
      refine penalty_bounded_of_routes (S := mta_connector _ r k.1) (fun x => rfl) ?_
      refine penalty_bounded_frame (graph_frame_connector _ r k.1) ?_
      intro x
      rw [(mta_route_collect_close_routes now S r k k).2.1]
      by_cases hn : has_flag (S.routes k).flags ROUTE_NEW = true
      · rw [if_pos hn, mta_route_disable_penalties, (mta_route_collect_close_routes now S r k x).1]
        by_cases e : x = k
        · simp only [e, if_true, hn, and_self]
          have := h0 k
          omega
        · simp only [e, if_false, false_and]
          have := h0 x
          omega
      · rw [if_neg hn, (mta_route_collect_close_routes now S r k x).1]
        simp only [hn, and_false, if_false]
        have := h0 x
        omega
    have h5 := mta_connect_invariant (penalty_bounded_invariant now _) (r, k.1) fuel _ S5 hprobe hc
    refine penalty_bounded_frame (graph_frame_relay_unref _ r) ?_
    exact penalty_bounded_of_routes
      (fun x => (mta_route_unref_routes now S5 k x).2.2.2.1) h5

/-- The penalties after the handler of one event. -/
theorem route_event_penalties (e : route_event) (S T : mta_state)
    (h0 : ∀ x, 0 ≤ (S.routes x).penalty) (h : e.run S = some T) :
    penalty_bounded
      (fun x => (S.routes x).penalty + (if e.disables S x = true then 2 else 0)) T := by
  cases e with
  | down now k =>
    simp only [route_event.run, Option.some.injEq] at h
    subst h
    intro x
    unfold mta_route_down
    rw [mta_route_disable_penalties]
    simp only [route_event.disables, decide_eq_true_eq]
    have := h0 x
    split_ifs <;> omega
  | collect fuel now r k =>
    have := mta_route_collect_penalties fuel now S T r k h0 h
    intro x
    have hx := this x
    simp only [route_event.disables, Bool.and_eq_true, decide_eq_true_eq] at hx ⊢
    exact hx
  | timer now e =>
    simp only [route_event.run, Option.some.injEq] at h
    subst h
    intro x
    unfold runq_route_expire
    obtain ⟨_, h2, h3⟩ := mta_on_timeout_route_penalties now
      { S with runq_route := runq_expire S.runq_route e } e.2 x
    simp only [route_event.disables, Bool.false_eq_true, if_false, add_zero]
    exact ⟨h3 (h0 x), h2⟩
  | resume now u64 =>
    simp only [route_event.run, Option.some.injEq] at h
    subst h
    intro x
    unfold mta_imsg_ctl_resume_route
    obtain ⟨h1, h2⟩ := mta_resume_routes_penalties now u64 x S.routes_tree S
    simp only [route_event.disables, Bool.false_eq_true, if_false, add_zero]
    exact ⟨h2 (h0 x), h1⟩

theorem route_events_nonneg (es : List route_event) :
    ∀ S T : mta_state, (∀ x, 0 ≤ (S.routes x).penalty) → route_events_run es S = some T →
      ∀ x, 0 ≤ (T.routes x).penalty := by
  induction es with
  | nil =>
    intro S T h0 h
    simp only [route_events_run, Option.some.injEq] at h
    subst h
    exact h0
  | cons e es ih =>
    intro S T h0 h
    unfold route_events_run at h
    cases he : e.run S with
    | none => rw [he] at h; cases h
    | some S1 =>
      rw [he] at h
      exact ih S1 T (fun x => (route_event_penalties e S S1 h0 he x).1) h

/-! ## The failed probe of `mta_route_collect` -/

/-- The three cases of `mta_route`: a kept-alive route loses its timer, a
known route gains a reference, an unknown route is created. -/
theorem mta_route_cases (S : mta_state) (s : source_ptr) (d : host_ptr) :
    ((s, d) ∈ S.routes_tree ∧ has_flag (S.routes (s, d)).flags ROUTE_RUNQ = true ∧
      (mta_route S s d).routes = Function.update S.routes (s, d)
        { S.routes (s, d) with
          flags := clr_flag (S.routes (s, d)).flags (ROUTE_RUNQ ||| ROUTE_KEEPALIVE)
          refcount := (S.routes (s, d)).refcount - 1 + 1 } ∧
      (mta_route S s d).routes_tree = S.routes_tree ∧
      (mta_route S s d).runq_route = runq_cancel S.runq_route (s, d)) ∨
    ((s, d) ∈ S.routes_tree ∧ has_flag (S.routes (s, d)).flags ROUTE_RUNQ = false ∧
      (mta_route S s d).routes = Function.update S.routes (s, d)
        { S.routes (s, d) with refcount := (S.routes (s, d)).refcount + 1 } ∧
      (mta_route S s d).routes_tree = S.routes_tree ∧
      (mta_route S s d).runq_route = S.runq_route) ∨
    ((s, d) ∉ S.routes_tree ∧
      (mta_route S s d).routes = Function.update S.routes (s, d)
        { id := S.rid + 1, flags := ROUTE_NEW, penalty := 0, refcount := 1, nconn := 0,
          lastconn := 0, lastdisc := 0, lastpenalty := 0 } ∧
      (mta_route S s d).routes_tree = (s, d) :: S.routes_tree ∧
      (mta_route S s d).runq_route = S.runq_route) := by
  unfold mta_route mta_source_ref mta_host_ref
  dsimp only
  by_cases hk : (s, d) ∈ S.routes_tree
  · by_cases hq : has_flag (S.routes (s, d)).flags ROUTE_RUNQ = true
    · left
      rw [if_pos hk, if_pos hq]
      exact ⟨hk, hq, rfl, rfl, rfl⟩
    · right; left
      rw [if_pos hk, if_neg hq]
      exact ⟨hk, by simpa using hq, rfl, rfl, rfl⟩
  · right; right
    rw [if_neg hk]
    refine ⟨hk, ?_, rfl, rfl⟩
    simp [set_flag, ROUTE_NEW]

/-- The three cases of `mta_route_unref`: references remain, the route is kept
alive on a timer, the route is removed. -/
theorem mta_route_unref_cases (now : Int) (S : mta_state) (k : route_ptr) :
    ((S.routes k).refcount - 1 ≠ 0 ∧
      (mta_route_unref now S k).routes = Function.update S.routes k
        { S.routes k with refcount := (S.routes k).refcount - 1 } ∧
      (mta_route_unref now S k).routes_tree = S.routes_tree ∧
      (mta_route_unref now S k).runq_route = S.runq_route) ∨
    ((S.routes k).refcount - 1 = 0 ∧
      (mta_route_unref now S k).routes = Function.update S.routes k
        { S.routes k with flags := set_flag (S.routes k).flags ROUTE_RUNQ, refcount := 1 } ∧
      (mta_route_unref now S k).routes_tree = S.routes_tree ∧
      ∃ sched, (mta_route_unref now S k).runq_route = runq_schedule S.runq_route sched k) ∨
    ((S.routes k).refcount - 1 = 0 ∧
      (mta_route_unref now S k).routes = Function.update S.routes k
        { S.routes k with refcount := 0 } ∧
      (mta_route_unref now S k).routes_tree = S.routes_tree.erase k ∧
      (mta_route_unref now S k).runq_route = S.runq_route) := by
  unfold mta_route_unref
  dsimp only
  by_cases h0 : (S.routes k).refcount - 1 = 0
  · rw [if_neg (by simpa using h0)]
    split
    · right; left
      refine ⟨h0, ?_, rfl, _, rfl⟩
      simp [h0]
    · right; right
      refine ⟨h0, ?_, ?_, ?_⟩
      · simp [h0]
      · simp
      · simp
  · left
    rw [if_pos h0]
    exact ⟨h0, rfl, rfl, rfl⟩

theorem runq_cancel_mem_of_ne (q : List (Int × route_ptr)) (a : route_ptr) (e : Int × route_ptr)
    (he : e.2 ≠ a) (h : e ∈ q) : e ∈ runq_cancel q a := by
  unfold runq_cancel
  exact (List.mem_eraseP_of_neg (by simpa using he)).2 h

theorem bump_apply (H : route_ptr → Nat) (k x : route_ptr) :
    bump H k x = H x + (if x = k then 1 else 0) := by
  unfold bump
  by_cases e : x = k
  · subst e; simp
  · simp [Function.update_noteq e, e]

theorem drop_apply (H : route_ptr → Nat) (k x : route_ptr) :
    drop H k x = H x - (if x = k then 1 else 0) := by
  unfold drop
  by_cases e : x = k
  · subst e; simp
  · simp [Function.update_noteq e, e]

theorem route_held_invariant (now : Int) (k : route_ptr) (p d : Int) (f n : Nat)
    (E : List (Int × route_ptr)) : connect_invariant now (route_held k p d f n E) where
  routes :=
    { intern := fun S H s d0 h => by
        obtain ⟨h1, h2, h3, h4, h5, h6, h7, h8⟩ := h
        unfold route_held
        rw [bump_apply]
        by_cases e : k = (s, d0)
        · subst e
          rcases mta_route_cases S s d0 with ⟨_, c2, _⟩ | ⟨_, _, c3, c4, c5⟩ | ⟨c1, _⟩
          · rw [h2] at c2; cases c2
          · rw [c3, c4, c5]
            simp only [Function.update_same, if_true]
            refine ⟨h1, h2, ?_, h4, h5, h6, h7, h8⟩
            push_cast
            omega
          · exact absurd h1 c1
        · rw [if_neg e]
          rcases mta_route_cases S s d0 with ⟨_, _, c3, c4, c5⟩ | ⟨_, _, c3, c4, c5⟩ |
            ⟨_, c3, c4, c5⟩
          · rw [c3, c4, c5]
            simp only [Function.update_noteq e]
            refine ⟨h1, h2, by simpa using h3, h4, h5, h6, h7, fun x hx => ?_⟩
            exact ⟨(h8 x hx).1, runq_cancel_mem_of_ne _ _ _ (by rw [(h8 x hx).1]; exact e)
              (h8 x hx).2⟩
          · rw [c3, c4, c5]
            simp only [Function.update_noteq e]
            exact ⟨h1, h2, by simpa using h3, h4, h5, h6, h7, h8⟩
          · rw [c3, c4, c5]
            simp only [Function.update_noteq e]
            exact ⟨List.mem_cons_of_mem _ h1, h2, by simpa using h3, h4, h5, h6, h7, h8⟩
      release := fun S H x h hx => by
        obtain ⟨h1, h2, h3, h4, h5, h6, h7, h8⟩ := h
        unfold route_held
        rw [drop_apply]
        by_cases e : k = x
        · subst e
          rcases mta_route_unref_cases now S k with ⟨_, c3, c4, c5⟩ | ⟨c1, _⟩ | ⟨c1, _⟩
          · rw [c3, c4, c5]
            simp only [Function.update_same, if_true]
            refine ⟨h1, h2, ?_, h4, h5, h6, h7, h8⟩
            omega
          · omega
          · omega
        · rw [if_neg e]
          rcases mta_route_unref_cases now S x with ⟨_, c3, c4, c5⟩ | ⟨_, c3, c4, s0, c5⟩ |
            ⟨_, c3, c4, c5⟩
          · rw [c3, c4, c5]
            simp only [Function.update_noteq e]
            exact ⟨h1, h2, by simpa using h3, h4, h5, h6, h7, h8⟩
          · rw [c3, c4, c5]
            simp only [Function.update_noteq e]
            exact ⟨h1, h2, by simpa using h3, h4, h5, h6, h7,
              fun y hy => ⟨(h8 y hy).1,
                runq_schedule_mem_of_ne _ _ _ _ (h8 y hy).2 (by rw [(h8 y hy).1]; exact e)⟩⟩
          · rw [c3, c4, c5]
            simp only [Function.update_noteq e]
            exact ⟨(List.mem_erase_of_ne e).2 h1, h2, by simpa using h3, h4, h5, h6, h7, h8⟩ }
  spawn := fun S H c x h hx => by
    obtain ⟨h1, h2, h3, h4, h5, h6, h7, h8⟩ := h
    obtain ⟨s1, s2, s3, s4, _, s6, s7⟩ := mta_connect_spawn_routes now S c x k
    unfold route_held
    rw [drop_apply, s1, s2, s3, s4, s6, s7]
    refine ⟨h1, h2, ?_, h4, h5, h6, h7, h8⟩
    split_ifs <;> omega
  frame := fun S T H h hf => by
    unfold conn_frame at hf
    unfold route_held
    rw [hf]
    exact h

/-- The state after `mta_route_disable` on a route whose reference count stays
positive when the pending timer gives its reference back. -/
theorem mta_route_disable_held (now : Int) (S : mta_state) (k : route_ptr) (p : Int)
    (reason : Nat)
    (h : has_flag (S.routes k).flags ROUTE_DISABLED = true → (S.routes k).refcount - 1 ≠ 0) :
    mta_route_disable now S k p reason =
      { S with
        routes := Function.update S.routes k
          { S.routes k with
            penalty := (S.routes k).penalty + p
            lastpenalty := now
            flags := set_flag (S.routes k).flags (reason &&& ROUTE_DISABLED)
            refcount :=
              if has_flag (S.routes k).flags ROUTE_DISABLED = true
              then (S.routes k).refcount - 1 + 1 else (S.routes k).refcount + 1 }
        runq_route :=
          runq_schedule
            (if has_flag (S.routes k).flags ROUTE_DISABLED = true
              then runq_cancel S.runq_route k else S.runq_route)
            (now + mta_route_disable_delay ((S.routes k).penalty + p)) k } := by
  unfold mta_route_disable mta_route_ref mta_route_unref
  dsimp only
  by_cases hd : has_flag (S.routes k).flags ROUTE_DISABLED = true
  · have h1 := h hd
    simp [hd, h1]
  · simp [hd]

theorem route_held_frame {k : route_ptr} {p d : Int} {f n : Nat} {E : List (Int × route_ptr)}
    {T S : mta_state} {H : route_ptr → Nat} (hf : graph_frame T S)
    (h : route_held k p d f n E S H) : route_held k p d f n E T H := by
  unfold route_held
  rw [hf.1, hf.2.1, hf.2.2.1]
  exact h

/-- The state in which `mta_route_collect` calls `mta_connect`, for a route
that is held by its session. -/
theorem mta_route_collect_probe_held (now : Int) (S : mta_state) (r : relay_ptr) (k : route_ptr)
    (hk : k ∈ S.routes_tree) (hq : has_flag (S.routes k).flags ROUTE_RUNQ = false)
    (href : 1 ≤ (S.routes k).refcount)
    (hdis : has_flag (S.routes k).flags ROUTE_DISABLED = true → 2 ≤ (S.routes k).refcount) :
    route_held k
      ((S.routes k).penalty + (if has_flag (S.routes k).flags ROUTE_NEW = true then 2 else 0))
      now
      (if has_flag (S.routes k).flags ROUTE_NEW = true
        then set_flag (S.routes k).flags ROUTE_DISABLED_NET &&& ROUTE_DISABLED
        else (S.routes k).flags &&& ROUTE_DISABLED)
      ((S.routes k).flags &&& ROUTE_NEW)
      (if has_flag (S.routes k).flags ROUTE_NEW = true
        then [(now + mta_route_disable_delay ((S.routes k).penalty + 2), k)] else [])
      (mta_route_collect_probe now S r k) (hold none) := by
  unfold mta_route_collect_probe
  dsimp only
  refine route_held_frame (S := mta_connector _ r k.1)
    ⟨rfl, rfl, rfl, fun _ => host_same_refl _, fun _ => source_same_refl _⟩ ?_
  refine route_held_frame (graph_frame_connector _ r k.1) ?_
  obtain ⟨c1, c2, c3, c4, _, c6, c7⟩ := mta_route_collect_close_routes now S r k k
  rw [if_pos rfl] at c4
  rw [c2]
  by_cases hn : has_flag (S.routes k).flags ROUTE_NEW = true
  · simp only [if_pos hn]
    rw [mta_route_disable_held now _ k 2 ROUTE_DISABLED_NET
      (by rw [c2, c3]; intro hd; have := hdis hd; omega)]
    unfold route_held
    simp only [Function.update_same, c1, c2, c3, c4, c6, c7]
    have hh : hold none k = 0 := by simp [hold]
    refine ⟨hk, ?_, ?_, trivial, trivial, ?_, ?_, ?_⟩
    · rw [has_flag_set_flag, hq]; decide
    · rw [hh]
      simp only [List.length_singleton]
      by_cases hd : has_flag (S.routes k).flags ROUTE_DISABLED = true
      · have := hdis hd; rw [if_pos hd]; push_cast; omega
      · rw [if_neg hd]; push_cast; omega
    · rfl
    · exact and_set_flag_of_disjoint _ _ _ (by decide)
    · intro e he
      simp only [List.mem_singleton] at he
      subst he
      exact ⟨rfl, runq_schedule_mem_self _ _ _⟩
  · simp only [if_neg hn]
    unfold route_held
    rw [c1, c2, c3, c4, c6, c7]
    refine ⟨hk, hq, ?_, by simp, rfl, rfl, rfl, ?_⟩
    · simp [hold]; omega
    · intro e he; cases he

/-- The record of the collected route after `mta_route_collect`, for a route
that is held by its session. -/
theorem mta_route_collect_held (fuel : Nat) (now : Int) (S T : mta_state) (r : relay_ptr)
    (k : route_ptr) (hk : k ∈ S.routes_tree)
    (hq : has_flag (S.routes k).flags ROUTE_RUNQ = false) (href : 1 ≤ (S.routes k).refcount)
    (hdis : has_flag (S.routes k).flags ROUTE_DISABLED = true → 2 ≤ (S.routes k).refcount)
    (h : mta_route_collect fuel now S r k = some T) :
    (T.routes k).penalty =
        (S.routes k).penalty + (if has_flag (S.routes k).flags ROUTE_NEW = true then 2 else 0) ∧
      (T.routes k).lastdisc = now ∧
      (T.routes k).flags &&& ROUTE_DISABLED =
        (if has_flag (S.routes k).flags ROUTE_NEW = true
          then set_flag (S.routes k).flags ROUTE_DISABLED_NET &&& ROUTE_DISABLED
          else (S.routes k).flags &&& ROUTE_DISABLED) ∧
      (T.routes k).flags &&& ROUTE_NEW = (S.routes k).flags &&& ROUTE_NEW ∧
      (has_flag (S.routes k).flags ROUTE_NEW = true →
        (now + mta_route_disable_delay ((S.routes k).penalty + 2), k) ∈ T.runq_route) := by
  unfold mta_route_collect at h
  cases hc : mta_connect fuel now (mta_route_collect_probe now S r k) (r, k.1) with
  | none => rw [hc] at h; cases h
  | some S5 =>
    rw [hc] at h
    injection h with h
    subst h
    obtain ⟨_, _, h3, h4, h5, h6, h7, h8⟩ :=
      mta_connect_invariant (route_held_invariant now k _ _ _ _ _) (r, k.1) fuel _ S5
        (mta_route_collect_probe_held now S r k hk hq href hdis) hc
    have hf := graph_frame_relay_unref (mta_route_unref now S5 k) r
    obtain ⟨_, _, u3, u4, _, u6, u7⟩ := mta_route_unref_routes now S5 k k
    rw [hf.1, hf.2.2.1, u3, u4, u6, u7]
    refine ⟨h4, h5, h6, h7, fun hn => ?_⟩
    rw [if_pos hn] at h8 h3
    simp only [List.length_singleton] at h3
    refine mta_route_unref_runq_mono now S5 k _ (h8 _ (List.mem_singleton.2 rfl)).2 (Or.inr ?_)
    have : (0 : Int) ≤ (hold none k : Int) := Int.ofNat_nonneg _
    omega

/-! ## The accounting of the route graph -/

theorem countP_eraseP_self {α : Type} (p : α → Bool) (l : List α) :
    (l.eraseP p).countP p = l.countP p - 1 := by
  induction l with
  | nil => rfl
  | cons a l ih =>
    by_cases h : p a = true
    · rw [List.eraseP_cons_of_pos h, List.countP_cons_of_pos _ _ h]
      simp
    · rw [List.eraseP_cons_of_neg h, List.countP_cons_of_neg _ _ h,
        List.countP_cons_of_neg _ _ h, ih]

theorem countP_eraseP_other {α : Type} (p q : α → Bool) (l : List α)
    (h : ∀ a, p a = true → q a = false) : (l.eraseP p).countP q = l.countP q := by
  induction l with
  | nil => rfl
  | cons a l ih =>
    by_cases hp : p a = true
    · rw [List.eraseP_cons_of_pos hp, List.countP_cons_of_neg _ _ (by rw [h a hp]; simp)]
    · rw [List.eraseP_cons_of_neg hp, List.countP_cons, List.countP_cons, ih]

theorem runq_cancel_count (q : List (Int × route_ptr)) (a x : route_ptr) :
    (runq_cancel q a).countP (fun e => decide (e.2 = x)) =
      q.countP (fun e => decide (e.2 = x)) - (if x = a then 1 else 0) := by
  unfold runq_cancel
  by_cases e : x = a
  · subst e
    rw [if_pos rfl]
    exact countP_eraseP_self _ q
  · rw [if_neg e, Nat.sub_zero]
    apply countP_eraseP_other
    intro b hb
    simp only [decide_eq_true_eq] at hb
    simp only [decide_eq_false_iff_not]
    rw [hb]
    exact fun h => e h.symm

theorem runq_expire_count {α : Type} [DecidableEq α] (q : List (Int × α)) (e : Int × α) (x : α)
    (he : e ∈ q) :
    (runq_expire q e).countP (fun e => decide (e.2 = x)) =
      q.countP (fun e => decide (e.2 = x)) - (if x = e.2 then 1 else 0) := by
  unfold runq_expire
  induction q with
  | nil => cases he
  | cons a l ih =>
    by_cases ha : a = e
    · subst ha
      rw [List.erase_cons_head, List.countP_cons]
      by_cases hx : x = a.2
      · simp [hx]
      · have : ¬ a.2 = x := fun h => hx h.symm
        simp [hx, this]
    · have he1 : e ∈ l := by
        rcases List.mem_cons.1 he with h | h
        · exact absurd h.symm ha
        · exact h
      rw [List.erase_cons_tail (by simpa using ha), List.countP_cons, List.countP_cons, ih he1]
      have hpos : x = e.2 → 1 ≤ l.countP (fun e => decide (e.2 = x)) := by
        intro hx
        exact List.countP_pos_iff.2 ⟨e, he1, by simp [hx]⟩
      split_ifs with h1 h2
      · have := hpos h1; omega
      · have := hpos h1; omega
      · omega
      · omega

theorem runq_schedule_count (q : List (Int × route_ptr)) (tm : Int) (a x : route_ptr)
    (h : q.countP (fun e => decide (e.2 = a)) = 0) :
    (runq_schedule q tm a).countP (fun e => decide (e.2 = x)) =
      q.countP (fun e => decide (e.2 = x)) + (if x = a then 1 else 0) := by
  rw [runq_schedule_countP]
  by_cases e : x = a
  · subst e; rw [if_pos rfl, if_pos rfl, h]
  · rw [if_neg e, if_neg e]; rfl

theorem nconn_sum_congr (f g : route_ptr → struct_mta_route) (l : List route_ptr)
    (p : route_ptr → Bool) (h : ∀ k ∈ l, (f k).nconn = (g k).nconn) :
    nconn_sum f l p = nconn_sum g l p := by
  unfold nconn_sum
  congr 1
  apply List.map_congr_left
  intro k hk
  exact h k (List.mem_filter.1 hk).1

theorem nconn_sum_cons (f : route_ptr → struct_mta_route) (k : route_ptr) (l : List route_ptr)
    (p : route_ptr → Bool) :
    nconn_sum f (k :: l) p = (if p k = true then (f k).nconn else 0) + nconn_sum f l p := by
  unfold nconn_sum
  by_cases h : p k = true
  · rw [List.filter_cons_of_pos h, if_pos h]; simp
  · rw [List.filter_cons_of_neg h, if_neg h]; simp

theorem nconn_sum_erase (f : route_ptr → struct_mta_route) (k : route_ptr) :
    ∀ (l : List route_ptr) (p : route_ptr → Bool), l.Nodup → k ∈ l →
      nconn_sum f (l.erase k) p + (if p k = true then (f k).nconn else 0) = nconn_sum f l p := by
  intro l p
  induction l with
  | nil => intro _ h; cases h
  | cons a l ih =>
    intro hn hk
    by_cases e : a = k
    · subst e
      rw [List.erase_cons_head, nconn_sum_cons]
      omega
    · have hk1 : k ∈ l := by
        rcases List.mem_cons.1 hk with h | h
        · exact absurd h.symm e
        · exact h
      rw [List.erase_cons_tail (by simpa using e), nconn_sum_cons, nconn_sum_cons,
        ← ih (List.nodup_cons.1 hn).2 hk1]
      omega

theorem nconn_sum_update (f : route_ptr → struct_mta_route) (k : route_ptr)
    (r : struct_mta_route) :
    ∀ (l : List route_ptr) (p : route_ptr → Bool), l.Nodup → k ∈ l →
      nconn_sum (Function.update f k r) l p + (if p k = true then (f k).nconn else 0) =
        nconn_sum f l p + (if p k = true then r.nconn else 0) := by
  intro l p
  induction l with
  | nil => intro _ h; cases h
  | cons a l ih =>
    intro hn hk
    obtain ⟨hal, hn1⟩ := List.nodup_cons.1 hn
    by_cases e : a = k
    · subst e
      rw [nconn_sum_cons, nconn_sum_cons, Function.update_same,
        nconn_sum_congr (Function.update f a r) f l p
          (fun x hx => by rw [Function.update_noteq (fun h => hal (by rw [← h]; exact hx))])]
      omega
    · have hk1 : k ∈ l := by
        rcases List.mem_cons.1 hk with h | h
        · exact absurd h.symm e
        · exact h
      rw [nconn_sum_cons, nconn_sum_cons, Function.update_noteq e]
      have := ih hn1 hk1
      omega

theorem nconn_sum_ge (f : route_ptr → struct_mta_route) (k : route_ptr) :
    ∀ (l : List route_ptr) (p : route_ptr → Bool), k ∈ l → p k = true →
      (f k).nconn ≤ nconn_sum f l p := by
  intro l p
  induction l with
  | nil => intro h; cases h
  | cons a l ih =>
    intro hk hp
    rw [nconn_sum_cons]
    rcases List.mem_cons.1 hk with h | h
    · subst h; rw [if_pos hp]; omega
    · have := ih h hp; omega

theorem has_flag_clr_flag_of_submask (f m k : Nat) (h : m &&& k = k) :
    has_flag (clr_flag f m) k = false := by
  rw [has_flag_false_iff]
  unfold clr_flag
  rw [Nat.and_xor_distrib_right, Nat.and_assoc, h, Nat.xor_self]

theorem nconn_consistent_keep {T S : mta_state} (ht : T.routes_tree = S.routes_tree)
    (hr : ∀ k ∈ S.routes_tree, (T.routes k).nconn = (S.routes k).nconn)
    (hh : ∀ h, (T.hosts h).nconn = (S.hosts h).nconn)
    (hs : ∀ s, (T.sources s).nconn = (S.sources s).nconn) (h : nconn_consistent S) :
    nconn_consistent T := by
  constructor
  · intro x
    rw [hh, h.1 x]
    unfold host_routes_nconn
    rw [ht]
    exact (nconn_sum_congr _ _ _ _ hr).symm
  · intro x
    rw [hs, h.2 x]
    unfold source_routes_nconn
    rw [ht]
    exact (nconn_sum_congr _ _ _ _ hr).symm

/-- Interning a route keeps the accounting, with one more held reference. -/
theorem route_acct_intern (S : mta_state) (H : route_ptr → Nat) (s : source_ptr) (d : host_ptr)
    (h : route_acct S H) : route_acct (mta_route S s d) (bump H (s, d)) := by
  have hh : ∀ x, ((mta_route S s d).hosts x).nconn = (S.hosts x).nconn :=
    fun x => (mta_route_hosts S s d x).1
  have hs : ∀ x, ((mta_route S s d).sources x).nconn = (S.sources x).nconn :=
    fun x => (mta_route_sources S s d x).1
  rcases mta_route_cases S s d with ⟨c1, c2, c3, c4, c5⟩ | ⟨c1, c2, c3, c4, c5⟩ |
    ⟨c1, c3, c4, c5⟩
  · have hc : 1 ≤ runq_route_count S (s, d) := by
      have := h.timers _ c1
      rw [if_pos c2] at this
      omega
    refine ⟨by rw [c4]; exact h.nodup, ?_, ?_, ?_, ?_⟩
    · intro x hx
      rw [c4] at hx
      have := h.refs x hx
      unfold runq_route_count at this hc ⊢
      rw [c3, c5, runq_cancel_count, bump_apply]
      by_cases e : x = (s, d)
      · subst e
        simp only [Function.update_same, if_true]
        push_cast
        omega
      · simp only [Function.update_noteq e, if_neg e]
        simpa using this
    · intro x hx
      rw [c4] at hx
      have := h.timers x hx
      unfold runq_route_count at this hc ⊢
      rw [c3, c5, runq_cancel_count]
      by_cases e : x = (s, d)
      · subst e
        simp only [Function.update_same, if_true]
        rw [has_flag_clr_flag_of_submask _ _ _ (by decide),
          has_flag_clr_flag_of_disjoint _ _ _ (by decide)]
        rw [if_pos c2] at this
        simp only [Bool.false_eq_true, if_false]
        omega
      · simp only [Function.update_noteq e, if_neg e]
        simpa using this
    · intro x hx
      rw [c4] at hx
      have e : x ≠ (s, d) := fun e => hx (e ▸ c1)
      have := h.gone x hx
      unfold runq_route_count at this ⊢
      rw [c5, runq_cancel_count, bump_apply, if_neg e]
      simpa using this
    · refine nconn_consistent_keep c4 (fun x _ => ?_) hh hs h.sums
      rw [c3]
      by_cases e : x = (s, d)
      · subst e; simp
      · simp [Function.update_noteq e]
  · refine ⟨by rw [c4]; exact h.nodup, ?_, ?_, ?_, ?_⟩
    · intro x hx
      rw [c4] at hx
      have := h.refs x hx
      unfold runq_route_count at this ⊢
      rw [c3, c5, bump_apply]
      by_cases e : x = (s, d)
      · subst e
        simp only [Function.update_same, if_true]
        push_cast
        omega
      · simp only [Function.update_noteq e, if_neg e]
        simpa using this
    · intro x hx
      rw [c4] at hx
      have := h.timers x hx
      unfold runq_route_count at this ⊢
      rw [c3, c5]
      by_cases e : x = (s, d)
      · subst e
        simpa only [Function.update_same] using this
      · simpa only [Function.update_noteq e] using this
    · intro x hx
      rw [c4] at hx
      have e : x ≠ (s, d) := fun e => hx (e ▸ c1)
      have := h.gone x hx
      unfold runq_route_count at this ⊢
      rw [c5, bump_apply, if_neg e]
      simpa using this
    · refine nconn_consistent_keep c4 (fun x _ => ?_) hh hs h.sums
      rw [c3]
      by_cases e : x = (s, d)
      · subst e; simp
      · simp [Function.update_noteq e]
  · obtain ⟨g1, g2⟩ := h.gone _ c1
    refine ⟨by rw [c4]; exact List.nodup_cons.2 ⟨c1, h.nodup⟩, ?_, ?_, ?_, ?_⟩
    · intro x hx
      rw [c4] at hx
      unfold runq_route_count at g1 ⊢
      rw [c3, c5, bump_apply]
      by_cases e : x = (s, d)
      · subst e
        simp only [Function.update_same, if_true]
        rw [g1, g2]
        simp
      · simp only [Function.update_noteq e, if_neg e]
        have hx1 : x ∈ S.routes_tree := by
          rcases List.mem_cons.1 hx with h1 | h1
          · exact absurd h1 e
          · exact h1
        have := h.refs x hx1
        unfold runq_route_count at this
        simpa using this
    · intro x hx
      rw [c4] at hx
      unfold runq_route_count
      rw [c3, c5]
      by_cases e : x = (s, d)
      · subst e
        simp only [Function.update_same]
        have e1 : has_flag ROUTE_NEW ROUTE_RUNQ = false := by decide
        have e2 : has_flag ROUTE_NEW ROUTE_DISABLED = false := by decide
        rw [e1, e2]
        simp
      · simp only [Function.update_noteq e]
        have hx1 : x ∈ S.routes_tree := by
          rcases List.mem_cons.1 hx with h1 | h1
          · exact absurd h1 e
          · exact h1
        exact h.timers x hx1
    · intro x hx
      rw [c4] at hx
      have e : x ≠ (s, d) := fun e => hx (by rw [e]; exact List.mem_cons_self _ _)
      have hx1 : x ∉ S.routes_tree := fun h1 => hx (List.mem_cons_of_mem _ h1)
      have := h.gone x hx1
      unfold runq_route_count at this ⊢
      rw [c5, bump_apply, if_neg e]
      simpa using this
    · have hsum : ∀ p : route_ptr → Bool,
          nconn_sum (mta_route S s d).routes (mta_route S s d).routes_tree p =
            nconn_sum S.routes S.routes_tree p := by
        intro p
        rw [c3, c4, nconn_sum_cons, Function.update_same]
        simp only [ite_self, zero_add]
        apply nconn_sum_congr
        intro x hx
        rw [Function.update_noteq (fun e => c1 (by rw [← e]; exact hx))]
      constructor
      · intro x
        rw [hh, h.sums.1 x]
        exact (hsum _).symm
      · intro x
        rw [hs, h.sums.2 x]
        exact (hsum _).symm

theorem nconn_sum_step (f g : route_ptr → struct_mta_route) (k : route_ptr)
    (l : List route_ptr) (p : route_ptr → Bool) (hn : l.Nodup) (hk : k ∈ l)
    (hg : ∀ x ∈ l, x ≠ k → (g x).nconn = (f x).nconn) :
    nconn_sum g l p + (if p k = true then (f k).nconn else 0) =
      nconn_sum f l p + (if p k = true then (g k).nconn else 0) := by
  rw [nconn_sum_congr g (Function.update f k (g k)) l p (fun x hx => by
    by_cases e : x = k
    · subst e; simp
    · rw [Function.update_noteq e]; exact hg x hx e)]
  exact nconn_sum_update f k (g k) l p hn hk

theorem route_acct_held_mem {S : mta_state} {H : route_ptr → Nat} (h : route_acct S H)
    {k : route_ptr} (hk : 1 ≤ H k) : k ∈ S.routes_tree := by
  by_contra hn
  have := (h.gone k hn).2
  omega

/-- Releasing a held route keeps the accounting, with one held reference less. -/
theorem route_acct_release (now : Int) (S : mta_state) (H : route_ptr → Nat) (k : route_ptr)
    (h : route_acct S H) (hk : 1 ≤ H k) :
    route_acct (mta_route_unref now S k) (drop H k) := by
  have hh : ∀ x, ((mta_route_unref now S k).hosts x).nconn = (S.hosts x).nconn :=
    fun x => (mta_route_unref_hosts now S k x).1
  have hs : ∀ x, ((mta_route_unref now S k).sources x).nconn = (S.sources x).nconn :=
    fun x => (mta_route_unref_sources now S k x).1
  have hmem := route_acct_held_mem h hk
  have hr := h.refs k hmem
  have ht := h.timers k hmem
  rcases mta_route_unref_cases now S k with ⟨c1, c3, c4, c5⟩ | ⟨c1, c3, c4, sched, c5⟩ |
    ⟨c1, c3, c4, c5⟩
  · refine ⟨by rw [c4]; exact h.nodup, ?_, ?_, ?_, ?_⟩
    · intro x hx
      rw [c4] at hx
      have := h.refs x hx
      unfold runq_route_count at this ⊢
      rw [c3, c5, drop_apply]
      by_cases e : x = k
      · subst e
        simp only [Function.update_same, if_true]
        omega
      · simp only [Function.update_noteq e, if_neg e]
        simpa using this
    · intro x hx
      rw [c4] at hx
      have := h.timers x hx
      unfold runq_route_count at this ⊢
      rw [c3, c5]
      by_cases e : x = k
      · subst e
        simpa only [Function.update_same] using this
      · simpa only [Function.update_noteq e] using this
    · intro x hx
      rw [c4] at hx
      have e : x ≠ k := fun e => hx (e ▸ hmem)
      have := h.gone x hx
      unfold runq_route_count at this ⊢
      rw [c5, drop_apply, if_neg e]
      simpa using this
    · refine nconn_consistent_keep c4 (fun x _ => ?_) hh hs h.sums
      rw [c3]
      by_cases e : x = k
      · subst e; simp
      · simp [Function.update_noteq e]
  · have hc : runq_route_count S k = 0 := by omega
    have hH : H k = 1 := by omega
    rw [hc] at ht
    have hq : has_flag (S.routes k).flags ROUTE_RUNQ = false := by
      by_contra hq
      rw [if_pos (by simpa using hq)] at ht
      omega
    have hd : has_flag (S.routes k).flags ROUTE_DISABLED = false := by
      by_contra hd
      have hd1 : has_flag (S.routes k).flags ROUTE_DISABLED = true := by simpa using hd
      simp only [hd1, if_true] at ht
      omega
    have c5a : (mta_route_unref now S k).runq_route = runq_schedule S.runq_route sched k := c5
    have hc0 : S.runq_route.countP (fun e => decide (e.2 = k)) = 0 := hc
    refine ⟨by rw [c4]; exact h.nodup, ?_, ?_, ?_, ?_⟩
    · intro x hx
      rw [c4] at hx
      have := h.refs x hx
      unfold runq_route_count at this hc ⊢
      rw [c3, c5a, runq_schedule_count _ _ _ _ hc0, drop_apply]
      by_cases e : x = k
      · subst e
        simp only [Function.update_same, if_true]
        rw [hc, hH]
        push_cast
        omega
      · simp only [Function.update_noteq e, if_neg e]
        simpa using this
    · intro x hx
      rw [c4] at hx
      have := h.timers x hx
      unfold runq_route_count at this hc ⊢
      rw [c3, c5a, runq_schedule_count _ _ _ _ hc0]
      by_cases e : x = k
      · subst e
        simp only [Function.update_same, if_true]
        rw [has_flag_set_flag, has_flag_set_flag, hq, hd, hc]
        decide
      · simp only [Function.update_noteq e, if_neg e]
        simpa using this
    · intro x hx
      rw [c4] at hx
      have e : x ≠ k := fun e => hx (e ▸ hmem)
      have := h.gone x hx
      unfold runq_route_count at this ⊢
      rw [c5a, runq_schedule_count _ _ _ _ hc0, drop_apply, if_neg e]
      simpa using this
    · refine nconn_consistent_keep c4 (fun x _ => ?_) hh hs h.sums
      rw [c3]
      by_cases e : x = k
      · subst e; simp
      · simp [Function.update_noteq e]
  · have hc : runq_route_count S k = 0 := by omega
    have hH : H k = 1 := by omega
    have hn : (S.routes k).nconn = 0 := by omega
    refine ⟨by rw [c4]; exact h.nodup.erase k, ?_, ?_, ?_, ?_⟩
    · intro x hx
      rw [c4] at hx
      obtain ⟨e, hx1⟩ := (List.Nodup.mem_erase_iff h.nodup).1 hx
      have := h.refs x hx1
      unfold runq_route_count at this ⊢
      rw [c3, c5, drop_apply]
      simp only [Function.update_noteq e, if_neg e]
      simpa using this
    · intro x hx
      rw [c4] at hx
      obtain ⟨e, hx1⟩ := (List.Nodup.mem_erase_iff h.nodup).1 hx
      have := h.timers x hx1
      unfold runq_route_count at this ⊢
      rw [c3, c5]
      simpa only [Function.update_noteq e] using this
    · intro x hx
      rw [c4] at hx
      unfold runq_route_count at hc ⊢
      rw [c5, drop_apply]
      by_cases e : x = k
      · subst e
        rw [hc, hH]
        simp
      · have hx1 : x ∉ S.routes_tree :=
          fun h1 => hx ((List.Nodup.mem_erase_iff h.nodup).2 ⟨e, h1⟩)
        have := h.gone x hx1
        unfold runq_route_count at this
        rw [if_neg e]
        simpa using this
    · have hsum : ∀ p : route_ptr → Bool,
          nconn_sum (mta_route_unref now S k).routes (mta_route_unref now S k).routes_tree p =
            nconn_sum S.routes S.routes_tree p := by
        intro p
        rw [c3, c4, ← nconn_sum_erase S.routes k S.routes_tree p h.nodup hmem, hn]
        simp only [ite_self, add_zero]
        apply nconn_sum_congr
        intro x hx
        rw [Function.update_noteq ((List.Nodup.mem_erase_iff h.nodup).1 hx).1]
      constructor
      · intro x
        rw [hh, h.sums.1 x]
        exact (hsum _).symm
      · intro x
        rw [hs, h.sums.2 x]
        exact (hsum _).symm

/-- Spawning a session on a held route keeps the accounting: the held
reference goes to the session. -/
theorem route_acct_spawn (now : Int) (S : mta_state) (H : route_ptr → Nat) (c : connector_ptr)
    (k : route_ptr) (h : route_acct S H) (hk : 1 ≤ H k) :
    route_acct (mta_connect_spawn now S c k) (drop H k) := by
  have hmem := route_acct_held_mem h hk
  obtain ⟨_, _, s3, s4, _⟩ := mta_connect_spawn_counters now S c k
  have hf := fun x => mta_connect_spawn_routes now S c k x
  have c4 := (hf k).2.2.2.2.2.1
  have c5 := (hf k).2.2.2.2.2.2
  refine ⟨by rw [c4]; exact h.nodup, ?_, ?_, ?_, ?_⟩
  · intro x hx
    rw [c4] at hx
    have := h.refs x hx
    unfold runq_route_count at this ⊢
    rw [(hf x).2.2.1, (hf x).2.2.2.2.1, c5, drop_apply]
    by_cases e : x = k
    · subst e
      simp only [if_true]
      push_cast
      omega
    · simp only [if_neg e]
      simpa using this
  · intro x hx
    rw [c4] at hx
    have := h.timers x hx
    unfold runq_route_count at this ⊢
    rw [(hf x).2.1, c5]
    exact this
  · intro x hx
    rw [c4] at hx
    have e : x ≠ k := fun e => hx (e ▸ hmem)
    have := h.gone x hx
    unfold runq_route_count at this ⊢
    rw [c5, drop_apply, if_neg e]
    simpa using this
  · have hsum : ∀ p : route_ptr → Bool,
        nconn_sum (mta_connect_spawn now S c k).routes (mta_connect_spawn now S c k).routes_tree p =
          nconn_sum S.routes S.routes_tree p + (if p k = true then 1 else 0) := by
      intro p
      rw [c4]
      have := nconn_sum_step S.routes (mta_connect_spawn now S c k).routes k S.routes_tree p
        h.nodup hmem (fun x _ e => by rw [(hf x).2.2.2.2.1, if_neg e, add_zero])
      rw [(hf k).2.2.2.2.1, if_pos rfl] at this
      split_ifs at this ⊢ <;> omega
    constructor
    · intro x
      unfold host_routes_nconn
      rw [s4, hsum, h.sums.1 x]
      unfold host_routes_nconn
      by_cases e : x = k.2
      · subst e
        simp
      · have e1 : ¬ k.2 = x := fun h => e h.symm
        simp [e, e1]
    · intro x
      unfold source_routes_nconn
      rw [s3, hsum, h.sums.2 x]
      unfold source_routes_nconn
      by_cases e : x = k.1
      · subst e
        simp
      · have e1 : ¬ k.1 = x := fun h => e h.symm
        simp [e, e1]

theorem acct_frame_of_graph_frame {T S : mta_state} (h : graph_frame T S) : acct_frame T S :=
  ⟨h.2.1, h.2.2.1, fun k => by rw [h.1]; exact ⟨rfl, rfl, rfl, rfl⟩,
    fun x => (h.2.2.2.1 x).1, fun x => (h.2.2.2.2 x).1⟩

theorem route_acct_frame {T S : mta_state} {H : route_ptr → Nat} (hf : acct_frame T S)
    (h : route_acct S H) : route_acct T H := by
  obtain ⟨f1, f2, f3, f4, f5⟩ := hf
  refine ⟨by rw [f1]; exact h.nodup, ?_, ?_, ?_, ?_⟩
  · intro x hx
    rw [f1] at hx
    have := h.refs x hx
    unfold runq_route_count at this ⊢
    rw [f2, (f3 x).1, (f3 x).2.1]
    exact this
  · intro x hx
    rw [f1] at hx
    have := h.timers x hx
    unfold runq_route_count at this ⊢
    rw [f2, (f3 x).2.2.1, (f3 x).2.2.2]
    exact this
  · intro x hx
    rw [f1] at hx
    have := h.gone x hx
    unfold runq_route_count at this ⊢
    rw [f2]
    exact this
  · exact nconn_consistent_keep f1 (fun x _ => (f3 x).1) f4 f5 h.sums

/-- The accounting of the route graph is an invariant of `mta_connect`, with
`G` the references held by the caller. -/
theorem route_acct_invariant (now : Int) (G : route_ptr → Nat) :
    connect_invariant now (fun S H => route_acct S (fun x => H x + G x)) where
  routes :=
    { intern := fun S H s d h => by
        have e : (fun x => bump H (s, d) x + G x) = bump (fun x => H x + G x) (s, d) := by
          funext x
          rw [bump_apply, bump_apply]
          omega
        rw [e]
        exact route_acct_intern S _ s d h
      release := fun S H k h hk => by
        have e : (fun x => drop H k x + G x) = drop (fun x => H x + G x) k := by
          funext x
          rw [drop_apply, drop_apply]
          by_cases e : x = k
          · subst e; simp only [if_true]; omega
          · simp only [if_neg e]; omega
        rw [e]
        exact route_acct_release now S _ k h (by omega) }
  spawn := fun S H c k h hk => by
    have e : (fun x => drop H k x + G x) = drop (fun x => H x + G x) k := by
      funext x
      rw [drop_apply, drop_apply]
      by_cases e : x = k
      · subst e; simp only [if_true]; omega
      · simp only [if_neg e]; omega
    rw [e]
    exact route_acct_spawn now S _ c k h (by omega)
  frame := fun S T H h hf =>
    route_acct_frame (acct_frame_of_graph_frame (graph_frame_of_conn_frame hf)) h

/-- The accounting after `mta_connect`, for a caller that holds `G`. -/
theorem route_acct_connect (fuel : Nat) (now : Int) (S T : mta_state) (c : connector_ptr)
    (G : route_ptr → Nat) (h : route_acct S G) (hc : mta_connect fuel now S c = some T) :
    route_acct T G := by
  have e : (fun x => hold none x + G x) = G := by
    funext x
    simp [hold]
  have := mta_connect_invariant (route_acct_invariant now G) c fuel S T (by rw [e]; exact h) hc
  rw [e] at this
  exact this

theorem mta_route_collect_close_counters (now : Int) (S : mta_state) (r : relay_ptr)
    (k : route_ptr) :
    (∀ x, ((mta_route_collect_close now S r k).hosts x).nconn =
      if x = k.2 then size_dec (S.hosts x).nconn else (S.hosts x).nconn) ∧
    (∀ x, ((mta_route_collect_close now S r k).sources x).nconn =
      if x = k.1 then size_dec (S.sources x).nconn else (S.sources x).nconn) := by
  unfold mta_route_collect_close
  constructor
  · intro x
    by_cases e : x = k.2
    · subst e; simp
    · simp [Function.update_apply, e]
  · intro x
    by_cases e : x = k.1
    · subst e; simp
    · simp [Function.update_apply, e]

/-- Closing the connection of a session keeps the accounting: the reference
of the session is now held by the handler. -/
theorem route_acct_close (now : Int) (S : mta_state) (H : route_ptr → Nat) (r : relay_ptr)
    (k : route_ptr) (h : route_acct S H) (hmem : k ∈ S.routes_tree)
    (hn : 0 < (S.routes k).nconn) :
    route_acct (mta_route_collect_close now S r k) (bump H k) := by
  have hf := fun x => mta_route_collect_close_routes now S r k x
  obtain ⟨s4, s3⟩ := mta_route_collect_close_counters now S r k
  have c4 := (hf k).2.2.2.2.2.1
  have c5 := (hf k).2.2.2.2.2.2
  have hdec : size_dec (S.routes k).nconn = (S.routes k).nconn - 1 := by
    unfold size_dec
    rw [if_neg (by omega)]
  refine ⟨by rw [c4]; exact h.nodup, ?_, ?_, ?_, ?_⟩
  · intro x hx
    rw [c4] at hx
    have := h.refs x hx
    unfold runq_route_count at this ⊢
    rw [(hf x).2.2.1, (hf x).2.2.2.2.1, c5, bump_apply]
    by_cases e : x = k
    · subst e
      simp only [if_true]
      rw [hdec]
      push_cast
      omega
    · simp only [if_neg e]
      simpa using this
  · intro x hx
    rw [c4] at hx
    have := h.timers x hx
    unfold runq_route_count at this ⊢
    rw [(hf x).2.1, c5]
    exact this
  · intro x hx
    rw [c4] at hx
    have e : x ≠ k := fun e => hx (e ▸ hmem)
    have := h.gone x hx
    unfold runq_route_count at this ⊢
    rw [c5, bump_apply, if_neg e]
    simpa using this
  · have hsum : ∀ p : route_ptr → Bool,
        nconn_sum (mta_route_collect_close now S r k).routes
            (mta_route_collect_close now S r k).routes_tree p + (if p k = true then 1 else 0) =
          nconn_sum S.routes S.routes_tree p := by
      intro p
      rw [c4]
      have := nconn_sum_step S.routes (mta_route_collect_close now S r k).routes k
        S.routes_tree p h.nodup hmem (fun x _ e => by rw [(hf x).2.2.2.2.1, if_neg e])
      rw [(hf k).2.2.2.2.1, if_pos rfl, hdec] at this
      split_ifs at this ⊢ <;> omega
    constructor
    · intro x
      have h1 := h.sums.1 x
      have h2 := hsum (fun y => decide (y.2 = x))
      unfold host_routes_nconn at h1 ⊢
      rw [s4]
      by_cases e : x = k.2
      · subst e
        have hge := nconn_sum_ge S.routes k S.routes_tree (fun y => decide (y.2 = k.2)) hmem
          (by simp)
        simp only [decide_True, if_true] at h2 ⊢
        unfold size_dec
        rw [if_neg (by omega)]
        omega
      · have e1 : ¬ k.2 = x := fun h => e h.symm
        simp only [e1, decide_False, Bool.false_eq_true, if_false, add_zero] at h2
        rw [if_neg e, h2]
        exact h1
    · intro x
      have h1 := h.sums.2 x
      have h2 := hsum (fun y => decide (y.1 = x))
      unfold source_routes_nconn at h1 ⊢
      rw [s3]
      by_cases e : x = k.1
      · subst e
        have hge := nconn_sum_ge S.routes k S.routes_tree (fun y => decide (y.1 = k.1)) hmem
          (by simp)
        simp only [decide_True, if_true] at h2 ⊢
        unfold size_dec
        rw [if_neg (by omega)]
        omega
      · have e1 : ¬ k.1 = x := fun h => e h.symm
        simp only [e1, decide_False, Bool.false_eq_true, if_false, add_zero] at h2
        rw [if_neg e, h2]
        exact h1

theorem has_flag_and_of_disjoint (x m k : Nat) (h : m &&& k = 0) :
    has_flag (x &&& m) k = false := by
  rw [has_flag_false_iff, Nat.and_assoc, h, Nat.and_zero]

/-- Suspending a route with a session or a held reference keeps the
accounting: the new timer takes a reference, the timer it replaces gives its
reference back. -/
theorem route_acct_disable (now : Int) (S : mta_state) (H : route_ptr → Nat) (k : route_ptr)
    (p : Int) (reason : Nat) (h : route_acct S H) (hmem : k ∈ S.routes_tree)
    (hk : 1 ≤ (S.routes k).nconn + H k)
    (hq : has_flag (S.routes k).flags ROUTE_RUNQ = false) :
    route_acct (mta_route_disable now S k p reason) H := by
  have hr := h.refs k hmem
  have ht := h.timers k hmem
  have hpre : has_flag (S.routes k).flags ROUTE_DISABLED = true →
      (S.routes k).refcount - 1 ≠ 0 := by
    intro hd
    simp only [hd, if_true] at ht
    omega
  rw [mta_route_disable_held now S k p reason hpre]
  refine ⟨h.nodup, ?_, ?_, ?_, ?_⟩
  · intro x hx
    have := h.refs x hx
    unfold runq_route_count at this hr ht ⊢
    dsimp only
    rw [runq_schedule_countP]
    by_cases e : x = k
    · subst e
      simp only [Function.update_same, if_true]
      by_cases hd : has_flag (S.routes x).flags ROUTE_DISABLED = true
      · simp only [hd, if_true] at ht ⊢
        push_cast
        omega
      · simp only [hd, if_false] at ht ⊢
        push_cast
        omega
    · simp only [Function.update_noteq e, if_neg e]
      by_cases hd : has_flag (S.routes k).flags ROUTE_DISABLED = true
      · simp only [hd, if_true]
        rw [runq_cancel_count, if_neg e]
        simpa using this
      · simp only [hd, if_false]
        exact this
  · intro x hx
    have := h.timers x hx
    unfold runq_route_count at this ht ⊢
    dsimp only
    rw [runq_schedule_countP]
    by_cases e : x = k
    · subst e
      simp only [Function.update_same, if_true]
      have e1 : has_flag (set_flag (S.routes x).flags (reason &&& ROUTE_DISABLED)) ROUTE_RUNQ =
          has_flag (S.routes x).flags ROUTE_RUNQ := by
        rw [has_flag_set_flag, has_flag_and_of_disjoint reason _ _ (by decide), Bool.or_false]
      rw [e1, hq]
      have hb : ∀ b : Bool, (if b = true then 1 else 0) ≤ 1 := by
        intro b; split_ifs <;> omega
      have hb1 := hb (has_flag (set_flag (S.routes x).flags (reason &&& ROUTE_DISABLED))
        ROUTE_DISABLED)
      simp only [Bool.false_eq_true, if_false, zero_add]
      exact hb1
    · simp only [Function.update_noteq e, if_neg e]
      by_cases hd : has_flag (S.routes k).flags ROUTE_DISABLED = true
      · simp only [hd, if_true]
        rw [runq_cancel_count, if_neg e]
        simpa using this
      · simp only [hd, if_false]
        exact this
  · intro x hx
    have e : x ≠ k := fun e => hx (e ▸ hmem)
    have := h.gone x hx
    unfold runq_route_count at this ⊢
    dsimp only
    rw [runq_schedule_countP, if_neg e]
    by_cases hd : has_flag (S.routes k).flags ROUTE_DISABLED = true
    · simp only [hd, if_true]
      rw [runq_cancel_count, if_neg e]
      simpa using this
    · simp only [hd, if_false]
      simpa using this
  · refine nconn_consistent_keep (S := S) rfl (fun x _ => ?_) (fun _ => rfl) (fun _ => rfl)
      h.sums
    dsimp only
    by_cases e : x = k
    · subst e; simp
    · simp [Function.update_noteq e]

/-- What `mta_route_enable` keeps: the route tree, the run-queue, hosts and
sources, and of every route the counter, the reference count and the flag
`ROUTE_RUNQ`; `ROUTE_DISABLED` is cleared on the route and kept elsewhere. -/
theorem mta_route_enable_acct (now : Int) (S : mta_state) (k : route_ptr) :
    (mta_route_enable now S k).routes_tree = S.routes_tree ∧
      (mta_route_enable now S k).runq_route = S.runq_route ∧
      (mta_route_enable now S k).hosts = S.hosts ∧
      (mta_route_enable now S k).sources = S.sources ∧
      ∀ x, ((mta_route_enable now S k).routes x).nconn = (S.routes x).nconn ∧
        ((mta_route_enable now S k).routes x).refcount = (S.routes x).refcount ∧
        has_flag ((mta_route_enable now S k).routes x).flags ROUTE_RUNQ =
          has_flag (S.routes x).flags ROUTE_RUNQ ∧
        has_flag ((mta_route_enable now S k).routes x).flags ROUTE_DISABLED =
          (if x = k then false else has_flag (S.routes x).flags ROUTE_DISABLED) := by
  refine ⟨rfl, rfl, rfl, rfl, fun x => ?_⟩
  by_cases e : x = k
  · subst e
    obtain ⟨_, r2, r3, r4, _⟩ := mta_route_enable_record now S x
    rw [r2, r3, r4, if_pos rfl]
    refine ⟨rfl, rfl, ?_, ?_⟩
    · split_ifs with hd
      · rw [has_flag_set_flag, has_flag_clr_flag_of_disjoint _ _ _ (by decide)]
        have : has_flag ROUTE_NEW ROUTE_RUNQ = false := by decide
        rw [this, Bool.or_false]
      · rfl
    · split_ifs with hd
      · rw [has_flag_set_flag, has_flag_clr_flag_self]
        decide
      · simpa using hd
  · have : (mta_route_enable now S k).routes x = S.routes x := by
      unfold mta_route_enable; simp [Function.update_noteq e]
    rw [this, if_neg e]
    exact ⟨rfl, rfl, rfl, rfl⟩

/-- Enabling a route keeps the accounting. -/
theorem route_acct_enable (now : Int) (S : mta_state) (H : route_ptr → Nat) (k : route_ptr)
    (h : route_acct S H) : route_acct (mta_route_enable now S k) H := by
  obtain ⟨f1, f2, f3, f4, f5⟩ := mta_route_enable_acct now S k
  refine ⟨by rw [f1]; exact h.nodup, ?_, ?_, ?_, ?_⟩
  · intro x hx
    rw [f1] at hx
    have := h.refs x hx
    unfold runq_route_count at this ⊢
    rw [f2, (f5 x).1, (f5 x).2.1]
    exact this
  · intro x hx
    rw [f1] at hx
    have := h.timers x hx
    unfold runq_route_count at this ⊢
    rw [f2, (f5 x).2.2.1, (f5 x).2.2.2]
    by_cases e : x = k
    · simp only [e, if_true, Bool.false_eq_true, if_false, add_zero] at this ⊢
      omega
    · simp only [if_neg e]
      exact this
  · intro x hx
    rw [f1] at hx
    have := h.gone x hx
    unfold runq_route_count at this ⊢
    rw [f2]
    exact this
  · exact nconn_consistent_keep f1 (fun x _ => (f5 x).1) (fun x => by rw [f3])
      (fun x => by rw [f4]) h.sums

theorem route_acct_resume (now : Int) (u64 : Nat) (H : route_ptr → Nat) :
    ∀ (l : List route_ptr) (S : mta_state), route_acct S H →
      route_acct (mta_resume_routes now u64 l S) H := by
  intro l
  induction l with
  | nil => intro S h; exact h
  | cons k rest ih =>
    intro S h
    unfold mta_resume_routes
    split_ifs
    · exact ih S h
    · exact route_acct_enable now S H k h
    · exact ih _ (route_acct_enable now S H k h)

/-- The expiry of a pending route timer keeps the accounting: the reference
of the timer is released by `mta_on_timeout`. -/
theorem route_acct_expire (now : Int) (S : mta_state) (H : route_ptr → Nat)
    (e : Int × route_ptr) (h : route_acct S H) (he : e ∈ S.runq_route) :
    route_acct (runq_route_expire now S e) H := by
  have hc : 1 ≤ runq_route_count S e.2 := by
    unfold runq_route_count
    exact List.countP_pos_iff.2 ⟨e, he, by simp⟩
  have hmem : e.2 ∈ S.routes_tree := by
    by_contra hn
    have := (h.gone _ hn).1
    omega
  unfold runq_route_expire mta_on_timeout_route
  dsimp only
  have hb : route_acct
      (mta_route_enable now
        { S with
          runq_route := runq_expire S.runq_route e
          routes := Function.update S.routes e.2
            { S.routes e.2 with flags := clr_flag (S.routes e.2).flags ROUTE_RUNQ } } e.2)
      (bump H e.2) := by
    obtain ⟨f1, f2, f3, f4, f5⟩ := mta_route_enable_acct now
      { S with
        runq_route := runq_expire S.runq_route e
        routes := Function.update S.routes e.2
          { S.routes e.2 with flags := clr_flag (S.routes e.2).flags ROUTE_RUNQ } } e.2
    dsimp only at f1 f2 f3 f4 f5
    refine ⟨by rw [f1]; exact h.nodup, ?_, ?_, ?_, ?_⟩
    · intro x hx
      rw [f1] at hx
      have := h.refs x hx
      unfold runq_route_count at this hc ⊢
      rw [f2, (f5 x).1, (f5 x).2.1, runq_expire_count _ _ _ he, bump_apply]
      by_cases e1 : x = e.2
      · subst e1
        simp only [Function.update_same, if_true]
        push_cast
        omega
      · simp only [Function.update_noteq e1, if_neg e1]
        simpa using this
    · intro x hx
      rw [f1] at hx
      have := h.timers x hx
      unfold runq_route_count at this hc ⊢
      rw [f2, (f5 x).2.2.1, (f5 x).2.2.2, runq_expire_count _ _ _ he]
      by_cases e1 : x = e.2
      · subst e1
        simp only [Function.update_same, if_true, has_flag_clr_flag_self, Bool.false_eq_true,
          if_false, add_zero]
        omega
      · simp only [Function.update_noteq e1, if_neg e1]
        simpa using this
    · intro x hx
      rw [f1] at hx
      have e1 : x ≠ e.2 := fun e1 => hx (e1 ▸ hmem)
      have := h.gone x hx
      unfold runq_route_count at this ⊢
      rw [f2, runq_expire_count _ _ _ he, bump_apply, if_neg e1]
      simpa using this
    · refine nconn_consistent_keep (S := S) f1 (fun x _ => ?_) (fun x => by rw [f3])
        (fun x => by rw [f4]) h.sums
      rw [(f5 x).1]
      by_cases e1 : x = e.2
      · subst e1; simp
      · simp [Function.update_noteq e1]
  have := route_acct_release now _ _ e.2 hb (bump_pos H e.2)
  rw [drop_bump] at this
  exact this

/-- A route with a session or a held reference is not kept alive by its
timer. -/
theorem route_acct_busy {S : mta_state} {H : route_ptr → Nat} (h : route_acct S H)
    (hq : runq_acct S) (k : route_ptr) (hmem : k ∈ S.routes_tree)
    (hk : 1 ≤ (S.routes k).nconn + H k) : has_flag (S.routes k).flags ROUTE_RUNQ = false := by
  by_contra hc
  have hc1 : has_flag (S.routes k).flags ROUTE_RUNQ = true := by simpa using hc
  have h1 := hq.alone k hmem hc1
  have h2 := h.refs k hmem
  have h3 := h.timers k hmem
  rw [if_pos hc1] at h3
  omega

theorem runq_acct_same {T S : mta_state} (h : runq_acct S)
    (h1 : T.routes_tree = S.routes_tree) (h2 : T.runq_route = S.runq_route)
    (h3 : ∀ k, (T.routes k).refcount = (S.routes k).refcount ∧
      has_flag (T.routes k).flags ROUTE_RUNQ = has_flag (S.routes k).flags ROUTE_RUNQ) :
    runq_acct T := by
  constructor
  · intro x
    have := h.once x
    unfold runq_route_count at this ⊢
    rw [h2]
    exact this
  · intro x hx hq
    rw [h1] at hx
    rw [(h3 x).2] at hq
    rw [(h3 x).1]
    exact h.alone x hx hq

theorem runq_acct_frame {T S : mta_state} (hf : acct_frame T S) (h : runq_acct S) :
    runq_acct T :=
  runq_acct_same h hf.1 hf.2.1 (fun k => ⟨(hf.2.2.1 k).2.1, (hf.2.2.1 k).2.2.1⟩)

theorem runq_acct_intern (S : mta_state) (s : source_ptr) (d : host_ptr) (h : runq_acct S) :
    runq_acct (mta_route S s d) := by
  rcases mta_route_cases S s d with ⟨c1, c2, c3, c4, c5⟩ | ⟨c1, c2, c3, c4, c5⟩ |
    ⟨c1, c3, c4, c5⟩
  · constructor
    · intro x
      have := h.once x
      unfold runq_route_count at this ⊢
      rw [c5, runq_cancel_count]
      omega
    · intro x hx hq
      rw [c4] at hx
      rw [c3] at hq ⊢
      by_cases e : x = (s, d)
      · subst e
        rw [Function.update_same] at hq
        dsimp only at hq
        rw [has_flag_clr_flag_of_submask _ _ _ (by decide)] at hq
        cases hq
      · rw [Function.update_noteq e] at hq ⊢
        exact h.alone x hx hq
  · constructor
    · intro x
      have := h.once x
      unfold runq_route_count at this ⊢
      rw [c5]
      exact this
    · intro x hx hq
      rw [c4] at hx
      rw [c3] at hq ⊢
      by_cases e : x = (s, d)
      · subst e
        rw [Function.update_same] at hq
        dsimp only at hq
        rw [c2] at hq
        cases hq
      · rw [Function.update_noteq e] at hq ⊢
        exact h.alone x hx hq
  · constructor
    · intro x
      have := h.once x
      unfold runq_route_count at this ⊢
      rw [c5]
      exact this
    · intro x hx hq
      rw [c4] at hx
      rw [c3] at hq ⊢
      by_cases e : x = (s, d)
      · subst e
        rw [Function.update_same]
      · rw [Function.update_noteq e] at hq ⊢
        exact h.alone x ((List.mem_cons.1 hx).resolve_left e) hq

theorem runq_acct_release (now : Int) (S : mta_state) (k : route_ptr) (h : runq_acct S)
    (hn : S.routes_tree.Nodup) : runq_acct (mta_route_unref now S k) := by
  rcases mta_route_unref_cases now S k with ⟨c1, c3, c4, c5⟩ | ⟨c1, c3, c4, sched, c5⟩ |
    ⟨c1, c3, c4, c5⟩
  · constructor
    · intro x
      have := h.once x
      unfold runq_route_count at this ⊢
      rw [c5]
      exact this
    · intro x hx hq
      rw [c4] at hx
      rw [c3] at hq ⊢
      by_cases e : x = k
      · subst e
        rw [Function.update_same] at hq
        dsimp only at hq
        have := h.alone x hx hq
        omega
      · rw [Function.update_noteq e] at hq ⊢
        exact h.alone x hx hq
  · constructor
    · intro x
      have := h.once x
      unfold runq_route_count at this ⊢
      rw [c5, runq_schedule_countP]
      split
      · exact Nat.le_refl 1
      · exact this
    · intro x hx hq
      rw [c4] at hx
      rw [c3] at hq ⊢
      by_cases e : x = k
      · subst e
        rw [Function.update_same]
      · rw [Function.update_noteq e] at hq ⊢
        exact h.alone x hx hq
  · constructor
    · intro x
      have := h.once x
      unfold runq_route_count at this ⊢
      rw [c5]
      exact this
    · intro x hx hq
      rw [c4] at hx
      obtain ⟨e, hx1⟩ := (List.Nodup.mem_erase_iff hn).1 hx
      rw [c3] at hq ⊢
      rw [Function.update_noteq e] at hq ⊢
      exact h.alone x hx1 hq

theorem runq_acct_spawn (now : Int) (S : mta_state) (c : connector_ptr) (k : route_ptr)
    (h : runq_acct S) : runq_acct (mta_connect_spawn now S c k) :=
  runq_acct_same h (mta_connect_spawn_routes now S c k k).2.2.2.2.2.1
    (mta_connect_spawn_routes now S c k k).2.2.2.2.2.2
    (fun x => ⟨(mta_connect_spawn_routes now S c k x).2.2.1, by
      rw [(mta_connect_spawn_routes now S c k x).2.1]⟩)

/-- The accounting of the route graph and of the timers is an invariant of
`mta_connect`. -/
theorem graph_acct_invariant (now : Int) (G : route_ptr → Nat) :
    connect_invariant now
      (fun S H => route_acct S (fun x => H x + G x) ∧ runq_acct S) where
  routes :=
    { intern := fun S H s d h =>
        ⟨(route_acct_invariant now G).routes.intern S H s d h.1, runq_acct_intern S s d h.2⟩
      release := fun S H k h hk =>
        ⟨(route_acct_invariant now G).routes.release S H k h.1 hk,
          runq_acct_release now S k h.2 h.1.nodup⟩ }
  spawn := fun S H c k h hk =>
    ⟨(route_acct_invariant now G).spawn S H c k h.1 hk, runq_acct_spawn now S c k h.2⟩
  frame := fun S T H h hf =>
    ⟨(route_acct_invariant now G).frame S T H h.1 hf,
      runq_acct_frame (acct_frame_of_graph_frame (graph_frame_of_conn_frame hf)) h.2⟩

theorem runq_acct_connect (fuel : Nat) (now : Int) (S T : mta_state) (c : connector_ptr)
    (G : route_ptr → Nat) (h : route_acct S G) (hq : runq_acct S)
    (hc : mta_connect fuel now S c = some T) : runq_acct T := by
  have e : (fun x => hold none x + G x) = G := by
    funext x
    simp [hold]
  exact (mta_connect_invariant (graph_acct_invariant now G) c fuel S T
    ⟨by rw [e]; exact h, hq⟩ hc).2

theorem runq_acct_disable (now : Int) (S : mta_state) (k : route_ptr) (p : Int) (reason : Nat)
    (h : runq_acct S) (hq : has_flag (S.routes k).flags ROUTE_RUNQ = false)
    (hpre : has_flag (S.routes k).flags ROUTE_DISABLED = true → (S.routes k).refcount - 1 ≠ 0) :
    runq_acct (mta_route_disable now S k p reason) := by
  rw [mta_route_disable_held now S k p reason hpre]
  constructor
  · intro x
    unfold runq_route_count
    dsimp only
    rw [runq_schedule_countP]
    by_cases e : x = k
    · rw [if_pos e]
    · rw [if_neg e]
      have := h.once x
      unfold runq_route_count at this
      split
      · rw [runq_cancel_count]; omega
      · exact this
  · intro x hx hqx
    dsimp only at hx hqx ⊢
    by_cases e : x = k
    · subst e
      rw [Function.update_same] at hqx
      dsimp only at hqx
      rw [has_flag_set_flag, hq, has_flag_and_of_disjoint reason _ _ (by decide)] at hqx
      cases hqx
    · rw [Function.update_noteq e] at hqx ⊢
      exact h.alone x hx hqx

theorem runq_acct_enable (now : Int) (S : mta_state) (k : route_ptr) (h : runq_acct S) :
    runq_acct (mta_route_enable now S k) := by
  obtain ⟨f1, f2, _, _, f5⟩ := mta_route_enable_acct now S k
  exact runq_acct_same h f1 f2 (fun x => ⟨(f5 x).2.1, (f5 x).2.2.1⟩)

theorem runq_acct_resume (now : Int) (u64 : Nat) :
    ∀ (l : List route_ptr) (S : mta_state), runq_acct S →
      runq_acct (mta_resume_routes now u64 l S) := by
  intro l
  induction l with
  | nil => intro S h; exact h
  | cons k l ih =>
    intro S h
    unfold mta_resume_routes
    split_ifs
    · exact ih S h
    · exact runq_acct_enable now S k h
    · exact ih _ (runq_acct_enable now S k h)

theorem runq_acct_expire (now : Int) (S : mta_state) (e : Int × route_ptr) (h : runq_acct S)
    (hn : S.routes_tree.Nodup) (he : e ∈ S.runq_route) :
    runq_acct (runq_route_expire now S e) := by
  unfold runq_route_expire mta_on_timeout_route
  dsimp only
  have h1 : runq_acct
      { S with
        runq_route := runq_expire S.runq_route e
        routes := Function.update S.routes e.2
          { S.routes e.2 with flags := clr_flag (S.routes e.2).flags ROUTE_RUNQ } } := by
    constructor
    · intro x
      have := h.once x
      unfold runq_route_count at this ⊢
      dsimp only
      rw [runq_expire_count _ _ _ he]
      omega
    · intro x hx hq
      dsimp only at hx hq ⊢
      by_cases e1 : x = e.2
      · subst e1
        rw [Function.update_same] at hq
        dsimp only at hq
        rw [has_flag_clr_flag_self] at hq
        cases hq
      · rw [Function.update_noteq e1] at hq ⊢
        exact h.alone x hx hq
  have h2 := runq_acct_enable now _ e.2 h1
  refine runq_acct_release now _ e.2 h2 ?_
  rw [(mta_route_enable_acct now _ e.2).1]
  exact hn

/-- The accounting after `mta_route_collect` on a route with a session. -/
theorem route_acct_collect (fuel : Nat) (now : Int) (S T : mta_state) (H : route_ptr → Nat)
    (r : relay_ptr) (k : route_ptr) (h : route_acct S H) (hmem : k ∈ S.routes_tree)
    (hn : 0 < (S.routes k).nconn) (hq : has_flag (S.routes k).flags ROUTE_RUNQ = false)
    (hc : mta_route_collect fuel now S r k = some T) :
    route_acct T H := by
  unfold mta_route_collect at hc
  cases h5 : mta_connect fuel now (mta_route_collect_probe now S r k) (r, k.1) with
  | none => rw [h5] at hc; cases hc
  | some S5 =>
    rw [h5] at hc
    injection hc with hc
    subst hc
    have h1 := route_acct_close now S H r k h hmem hn
    have hprobe : route_acct (mta_route_collect_probe now S r k) (bump H k) := by
      unfold mta_route_collect_probe
      dsimp only
      refine route_acct_frame (S := mta_connector _ r k.1) (acct_frame_of_graph_frame
        ⟨rfl, rfl, rfl, fun _ => host_same_refl _, fun _ => source_same_refl _⟩) ?_
      refine route_acct_frame (acct_frame_of_graph_frame (graph_frame_connector _ r k.1)) ?_
      split
      · refine route_acct_disable now _ _ k 2 ROUTE_DISABLED_NET h1 ?_ ?_ ?_
        · rw [(mta_route_collect_close_routes now S r k k).2.2.2.2.2.1]; exact hmem
        · have := bump_pos H k; omega
        · rw [(mta_route_collect_close_routes now S r k k).2.1]; exact hq
      · exact h1
    have h6 := route_acct_release now S5 _ k
      (route_acct_connect fuel now _ S5 (r, k.1) _ hprobe h5) (bump_pos H k)
    rw [drop_bump] at h6
    exact route_acct_frame (acct_frame_of_graph_frame (graph_frame_relay_unref _ r)) h6

/-- The accounting after `mta_route_ok`. -/
theorem route_acct_ok (fuel : Nat) (now : Int) (S T : mta_state) (H : route_ptr → Nat)
    (r : relay_ptr) (k : route_ptr) (h : route_acct S H)
    (hc : mta_route_ok fuel now S r k = some T) : route_acct T H := by
  unfold mta_route_ok at hc
  split at hc
  · refine route_acct_connect fuel now _ T (r, k.1) H ?_ hc
    refine route_acct_frame (acct_frame_of_graph_frame (graph_frame_connector _ r k.1)) ?_
    refine route_acct_frame (S := S) ⟨rfl, rfl, fun x => ?_, fun _ => rfl, fun _ => rfl⟩ h
    dsimp only
    by_cases e : x = k
    · subst e
      rw [Function.update_same]
      exact ⟨rfl, rfl, has_flag_clr_flag_of_disjoint _ _ _ (by decide),
        has_flag_clr_flag_of_disjoint _ _ _ (by decide)⟩
    · rw [Function.update_noteq e]
      exact ⟨rfl, rfl, rfl, rfl⟩
  · injection hc with hc
    subst hc
    exact h

theorem route_acct_init (dict : String → Option mta_limits) :
    route_acct (mta_init dict) (fun _ => 0) := by
  refine ⟨?_, ?_, ?_, ?_, ?_, ?_⟩
  · simp [mta_init]
  · intro k hk; simp [mta_init] at hk
  · intro k hk; simp [mta_init] at hk
  · intro k _; simp [mta_init, runq_route_count]
  · intro h; simp [mta_init, host_routes_nconn, nconn_sum, calloc_host]
  · intro s; simp [mta_init, source_routes_nconn, nconn_sum, calloc_source]

/-- The timers after `mta_route_collect` on a route with a session. -/
theorem runq_acct_collect (fuel : Nat) (now : Int) (S T : mta_state) (H : route_ptr → Nat)
    (r : relay_ptr) (k : route_ptr) (h : route_acct S H) (hr : runq_acct S)
    (hmem : k ∈ S.routes_tree) (hn : 0 < (S.routes k).nconn)
    (hc : mta_route_collect fuel now S r k = some T) : runq_acct T := by
  have hq := route_acct_busy h hr k hmem (by omega)
  unfold mta_route_collect at hc
  cases h5 : mta_connect fuel now (mta_route_collect_probe now S r k) (r, k.1) with
  | none => rw [h5] at hc; cases hc
  | some S5 =>
    rw [h5] at hc
    injection hc with hc
    subst hc
    have h1 := route_acct_close now S H r k h hmem hn
    obtain ⟨_, c2, c3, _, _, c6, c7⟩ := mta_route_collect_close_routes now S r k k
    have r1 : runq_acct (mta_route_collect_close now S r k) :=
      runq_acct_same hr (mta_route_collect_close_routes now S r k k).2.2.2.2.2.1
        (mta_route_collect_close_routes now S r k k).2.2.2.2.2.2
        (fun x => ⟨(mta_route_collect_close_routes now S r k x).2.2.1, by
          rw [(mta_route_collect_close_routes now S r k x).2.1]⟩)
    have hmem1 : k ∈ (mta_route_collect_close now S r k).routes_tree := by
      rw [c6]; exact hmem
    have hq1 : has_flag ((mta_route_collect_close now S r k).routes k).flags ROUTE_RUNQ
        = false := by
      rw [c2]; exact hq
    have hprobe : route_acct (mta_route_collect_probe now S r k) (bump H k) ∧
        runq_acct (mta_route_collect_probe now S r k) := by
      unfold mta_route_collect_probe
      dsimp only
      have hd : route_acct
            (if has_flag ((mta_route_collect_close now S r k).routes k).flags ROUTE_NEW = true
              then mta_route_disable now (mta_route_collect_close now S r k) k 2
                ROUTE_DISABLED_NET
              else mta_route_collect_close now S r k) (bump H k) ∧
          runq_acct
            (if has_flag ((mta_route_collect_close now S r k).routes k).flags ROUTE_NEW = true
              then mta_route_disable now (mta_route_collect_close now S r k) k 2
                ROUTE_DISABLED_NET
              else mta_route_collect_close now S r k) := by
        split
        · refine ⟨route_acct_disable now _ _ k 2 ROUTE_DISABLED_NET h1 hmem1
            (by have := bump_pos H k; omega) hq1, runq_acct_disable now _ k 2 _ r1 hq1 ?_⟩
          intro hd
          have t1 := h1.timers k hmem1
          have t2 := h1.refs k hmem1
          have t3 := bump_pos H k
          simp only [hd, if_true] at t1
          omega
        · exact ⟨h1, r1⟩
      constructor
      · refine route_acct_frame (S := mta_connector _ r k.1) (acct_frame_of_graph_frame
          ⟨rfl, rfl, rfl, fun _ => host_same_refl _, fun _ => source_same_refl _⟩) ?_
        exact route_acct_frame (acct_frame_of_graph_frame (graph_frame_connector _ r k.1)) hd.1
      · refine runq_acct_frame (S := mta_connector _ r k.1) (acct_frame_of_graph_frame
          ⟨rfl, rfl, rfl, fun _ => host_same_refl _, fun _ => source_same_refl _⟩) ?_
        exact runq_acct_frame (acct_frame_of_graph_frame (graph_frame_connector _ r k.1)) hd.2
    have h6 := runq_acct_release now S5 k
      (runq_acct_connect fuel now _ S5 (r, k.1) _ hprobe.1 hprobe.2 h5)
      (route_acct_connect fuel now _ S5 (r, k.1) _ hprobe.1 h5).nodup
    exact runq_acct_frame (acct_frame_of_graph_frame (graph_frame_relay_unref _ r)) h6

/-- The timers after `mta_route_ok`. -/
theorem runq_acct_ok (fuel : Nat) (now : Int) (S T : mta_state) (H : route_ptr → Nat)
    (r : relay_ptr) (k : route_ptr) (h : route_acct S H) (hr : runq_acct S)
    (hc : mta_route_ok fuel now S r k = some T) : runq_acct T := by
  unfold mta_route_ok at hc
  split at hc
  · have hf : acct_frame
        { S with
          routes := Function.update S.routes k
            { S.routes k with flags := clr_flag (S.routes k).flags ROUTE_NEW } } S := by
      refine ⟨rfl, rfl, fun x => ?_, fun _ => rfl, fun _ => rfl⟩
      dsimp only
      by_cases e : x = k
      · subst e
        rw [Function.update_same]
        exact ⟨rfl, rfl, has_flag_clr_flag_of_disjoint _ _ _ (by decide),
          has_flag_clr_flag_of_disjoint _ _ _ (by decide)⟩
      · rw [Function.update_noteq e]
        exact ⟨rfl, rfl, rfl, rfl⟩
    refine runq_acct_connect fuel now _ T (r, k.1) H ?_ ?_ hc
    · exact route_acct_frame (acct_frame_of_graph_frame (graph_frame_connector _ r k.1))
        (route_acct_frame hf h)
    · exact runq_acct_frame (acct_frame_of_graph_frame (graph_frame_connector _ r k.1))
        (runq_acct_frame hf hr)
  · injection hc with hc
    subst hc
    exact hr

theorem runq_acct_init (dict : String → Option mta_limits) : runq_acct (mta_init dict) := by
  constructor
  · intro k; simp [mta_init, runq_route_count]
  · intro k hk; simp [mta_init] at hk

theorem route_acct_event (e : graph_event) (S T : mta_state) (H : route_ptr → Nat)
    (h : route_acct S H) (hr : runq_acct S) (hen : e.enabled S) (hrun : e.run S = some T) :
    route_acct T H := by
  cases e with
  | connect fuel now c => exact route_acct_connect fuel now S T c H h hrun
  | collect fuel now r k =>
    exact route_acct_collect fuel now S T H r k h hen.1 hen.2
      (route_acct_busy h hr k hen.1 (by have := hen.2; omega)) hrun
  | ok fuel now r k => exact route_acct_ok fuel now S T H r k h hrun
  | down now k =>
    simp only [graph_event.run, Option.some.injEq] at hrun
    subst hrun
    exact route_acct_disable now S H k 2 ROUTE_DISABLED_SMTP h hen.1
      (by have := hen.2; omega) (route_acct_busy h hr k hen.1 (by have := hen.2; omega))
  | timer now e =>
    simp only [graph_event.run, Option.some.injEq] at hrun
    subst hrun
    exact route_acct_expire now S H e h hen
  | resume now u64 =>
    simp only [graph_event.run, Option.some.injEq] at hrun
    subst hrun
    exact route_acct_resume now u64 H S.routes_tree S h

theorem runq_acct_event (e : graph_event) (S T : mta_state) (H : route_ptr → Nat)
    (h : route_acct S H) (hr : runq_acct S) (hen : e.enabled S) (hrun : e.run S = some T) :
    runq_acct T := by
  cases e with
  | connect fuel now c => exact runq_acct_connect fuel now S T c H h hr hrun
  | collect fuel now r k => exact runq_acct_collect fuel now S T H r k h hr hen.1 hen.2 hrun
  | ok fuel now r k => exact runq_acct_ok fuel now S T H r k h hr hrun
  | down now k =>
    simp only [graph_event.run, Option.some.injEq] at hrun
    subst hrun
    refine runq_acct_disable now S k 2 ROUTE_DISABLED_SMTP hr
      (route_acct_busy h hr k hen.1 (by have := hen.2; omega)) ?_
    intro hd
    have t1 := h.timers k hen.1
    have t2 := h.refs k hen.1
    have t3 := hen.2
    simp only [hd, if_true] at t1
    omega
  | timer now e =>
    simp only [graph_event.run, Option.some.injEq] at hrun
    subst hrun
    exact runq_acct_expire now S e hr h.nodup hen
  | resume now u64 =>
    simp only [graph_event.run, Option.some.injEq] at hrun
    subst hrun
    exact runq_acct_resume now u64 S.routes_tree S hr

/-- The accounting of the route graph and of the timers holds in every
reachable state. -/
theorem graph_acct_reachable (S : mta_state) (h : mta_reachable S) :
    route_acct S (fun _ => 0) ∧ runq_acct S := by
  induction h with
  | init dict => exact ⟨route_acct_init dict, runq_acct_init dict⟩
  | other _ hf ih => exact ⟨route_acct_frame hf ih.1, runq_acct_frame hf ih.2⟩
  | event e _ hen hrun ih =>
    exact ⟨route_acct_event e _ _ _ ih.1 ih.2 hen hrun, runq_acct_event e _ _ _ ih.1 ih.2 hen hrun⟩

/-- The accounting of the route graph holds in every reachable state. -/
theorem route_acct_reachable (S : mta_state) (h : mta_reachable S) :
    route_acct S (fun _ => 0) :=
  (graph_acct_reachable S h).1

/-! ## The error count of a host -/

theorem mta_route_error_host (S : mta_state) (k : route_ptr) :
    ((mta_route_error S k).hosts k.2).nerror = (S.hosts k.2).nerror + 1 ∧
      (has_flag ((mta_route_error S k).hosts k.2).flags HOST_IGNORE = true ↔
        has_flag (S.hosts k.2).flags HOST_IGNORE = true ∨
          MAXERROR_PER_HOST < (S.hosts k.2).nerror + 1) := by
  unfold mta_route_error
  dsimp only
  by_cases h1 : has_flag (S.hosts k.2).flags HOST_IGNORE = true
  · rw [if_pos h1]
    simp [h1]
  · rw [if_neg h1]
    by_cases h2 : (S.hosts k.2).nerror + 1 > MAXERROR_PER_HOST
    · rw [if_pos h2]
      dsimp only
      rw [Function.update_same]
      refine ⟨rfl, fun _ => Or.inr h2, fun _ => ?_⟩
      exact has_flag_set_flag_self _ _ (by decide)
    · rw [if_neg h2]
      dsimp only
      rw [Function.update_same]
      exact ⟨rfl, fun h => absurd h h1, fun h => h.elim (fun h => absurd h h1)
        (fun h => absurd h h2)⟩

theorem mta_route_error_other (S : mta_state) (k : route_ptr) (x : host_ptr) (hx : x ≠ k.2) :
    (mta_route_error S k).hosts x = S.hosts x := by
  unfold mta_route_error
  dsimp only
  split_ifs <;> simp [Function.update_noteq hx]

theorem mta_route_errors_host (h : host_ptr) :
    ∀ (ks : List route_ptr) (S : mta_state) (n : Nat), (∀ k ∈ ks, k.2 = h) →
      (S.hosts h).nerror = n → (has_flag (S.hosts h).flags HOST_IGNORE = true ↔ 5 ≤ n) →
      ((mta_route_errors S ks).hosts h).nerror = n + ks.length ∧
        (has_flag ((mta_route_errors S ks).hosts h).flags HOST_IGNORE = true ↔
          5 ≤ n + ks.length) := by
  intro ks
  induction ks with
  | nil => intro S n _ h1 h2; exact ⟨h1, h2⟩
  | cons k ks ih =>
    intro S n hk h1 h2
    have e : k.2 = h := hk k (List.mem_cons_self _ _)
    subst e
    obtain ⟨e1, e2⟩ := mta_route_error_host S k
    have := ih (mta_route_error S k) (n + 1) (fun x hx => hk x (List.mem_cons_of_mem _ hx))
      (by rw [e1, h1])
      (by
        rw [e2, h2, h1]
        unfold MAXERROR_PER_HOST
        omega)
    unfold mta_route_errors at this ⊢
    rw [List.foldl_cons, List.length_cons]
    rw [show n + (ks.length + 1) = n + 1 + ks.length by omega]
    exact this

theorem mta_find_route_mx_ignored (now : Int) (l : mta_limits) (c : connector_ptr) (mx : mta_mx)
    (v : find_route_vars) (S : mta_state) :
    (has_flag (S.hosts mx.host).flags HOST_IGNORE = true →
        mta_find_route_mx now l c mx v S = (v, S, mx_verdict.ignored)) ∧
      (has_flag (S.hosts mx.host).flags HOST_IGNORE = false →
        (mta_find_route_mx now l c mx v S).2.2 ≠ mx_verdict.ignored ∧
          (mta_find_route_mx now l c mx v S).1.seen = v.seen + 1) := by
  constructor
  · intro h
    unfold mta_find_route_mx
    dsimp only
    rw [if_pos h]
  · intro h
    apply mta_find_route_mx_cases now l c mx v S
      (fun x => x.2.2 ≠ mx_verdict.ignored ∧ x.1.seen = v.seen + 1)
    · intro h1; rw [h] at h1; cases h1
    all_goals (intros; exact ⟨fun e => (by cases e), rfl⟩)

/-! ## The MX query of a domain shared by relays -/

/-- With the MX list of the domain already queried, `mta_drain` on a relay
without terminal failure, wait bit or missing limits goes on to the source
query without calling `mta_query_mx`. -/
theorem mta_drain_with_mx_queried (drain : mta_state → relay_ptr → mta_result) (fuel : Nat)
    (now : Int) (S : mta_state) (r : relay_ptr) (h1 : (S.relays r).ntask ≠ 0)
    (h2 : (S.relays r).fail = 0) (h3 : has_flag (S.relays r).flags RELAY_AUTH = false)
    (h4 : (S.relays r).backupname = none)
    (h5 : (S.domains (S.relays r).domain).lastmxquery ≠ 0)
    (h6 : (S.relays r).limits ≠ none)
    (h7 : has_flag (S.relays r).status RELAY_WAITMASK = false)
    (h8 : (S.relays r).nextsource ≤ now) :
    mta_drain_with drain fuel now S r = mta_query_source_with drain fuel now S r := by
  unfold mta_drain_with
  simp [h1, h2, h3, h4, h5, h6, h7, h8]

/-! ## Flushing the tasks of a failed relay -/

theorem mta_hoststat_cache_frame (S : mta_state) (host : String) (evpid : Nat) :
    mta_hoststat_cache S host evpid =
      { S with hoststat := (mta_hoststat_cache S host evpid).hoststat } := by
  unfold mta_hoststat_cache
  split
  · rfl
  · split <;> rfl

theorem mta_flush_envelope_out (r : relay_ptr) (fail : Nat) (error : String) (S : mta_state)
    (e : mta_envelope)
    (hf : fail = IMSG_DELIVERY_TEMPFAIL ∨ fail = IMSG_DELIVERY_PERMFAIL) :
    ∃ S', mta_flush_envelope r fail error S e = mta_result.done S' ∧
      S' = { S with out := S.out ++ [flush_outcome fail error e], hoststat := S'.hoststat } := by
  unfold mta_flush_envelope
  have hn : mta_delivery_notify e fail error 0 = some (flush_outcome fail error e) := by
    unfold mta_delivery_notify flush_outcome
    rcases hf with rfl | rfl
    · simp [IMSG_DELIVERY_TEMPFAIL, IMSG_DELIVERY_OK]
    · simp [IMSG_DELIVERY_TEMPFAIL, IMSG_DELIVERY_OK, IMSG_DELIVERY_PERMFAIL]
  rw [hn]
  dsimp only
  split
  · split_ifs
    · refine ⟨_, rfl, ?_⟩
      rw [mta_hoststat_cache_frame]
    · exact ⟨_, rfl, rfl⟩
    · exact ⟨_, rfl, rfl⟩
  · exact ⟨_, rfl, rfl⟩

theorem mta_flush_envelopes_out (r : relay_ptr) (fail : Nat) (error : String)
    (hf : fail = IMSG_DELIVERY_TEMPFAIL ∨ fail = IMSG_DELIVERY_PERMFAIL) :
    ∀ (es : List mta_envelope) (S : mta_state),
      ∃ S', mta_flush_envelopes r fail error es S = mta_result.done S' ∧
        S' = { S with
          out := S.out ++ es.map (flush_outcome fail error), hoststat := S'.hoststat } := by
  intro es
  induction es with
  | nil =>
    intro S
    exact ⟨S, rfl, by simp⟩
  | cons e es ih =>
    intro S
    obtain ⟨S1, h1, e1⟩ := mta_flush_envelope_out r fail error S e hf
    obtain ⟨S2, h2, e2⟩ := ih S1
    refine ⟨S2, ?_, ?_⟩
    · rw [mta_flush_envelopes, h1, mta_result.bind, h2]
    · rw [e2, e1]
      simp

/-- The state after `mta_flush`: the outcomes of the envelopes and the two
statistics are appended to the output, the relay loses its tasks, and nothing
else changes but the host status cache. -/
theorem mta_flush_spec (S : mta_state) (r : relay_ptr) (fail : Nat) (error : String)
    (hf : fail = IMSG_DELIVERY_TEMPFAIL ∨ fail = IMSG_DELIVERY_PERMFAIL) :
    ∃ S', mta_flush S r fail error = mta_result.done S' ∧
      S' = { S with
        relays := Function.update S.relays r { S.relays r with tasks := [], ntask := 0 }
        out := S.out ++ (relay_envelopes S r).map (flush_outcome fail error) ++
          [mta_event.stat_decrement "mta.task" (S.relays r).ntask,
            mta_event.stat_decrement "mta.envelope" (relay_envelopes S r).length]
        hoststat := S'.hoststat } := by
  unfold mta_flush
  have hc : ¬ (fail ≠ IMSG_DELIVERY_TEMPFAIL ∧ fail ≠ IMSG_DELIVERY_PERMFAIL) := by
    rcases hf with h | h <;> simp [h]
  rw [if_neg hc]
  dsimp only
  obtain ⟨S1, h1, e1⟩ := mta_flush_envelopes_out r fail error hf
    ((S.relays r).tasks.map (fun t => t.envelopes)).flatten
    { S with relays := Function.update S.relays r { S.relays r with tasks := [] } }
  rw [h1, mta_result.bind]
  refine ⟨_, rfl, ?_⟩
  rw [e1]
  simp [relay_envelopes]

/-! ## The host status cache on flush -/

theorem hoststat_find_map (name : String) (hs : hoststat) :
    ∀ d : List (String × hoststat), (d.find? (fun e => decide (e.1 = name))).isSome = true →
      (d.map (fun e => if e.1 = name then (name, hs) else e)).find?
        (fun e => decide (e.1 = name)) = some (name, hs) := by
  intro d
  induction d with
  | nil => intro h; simp at h
  | cons a d ih =>
    intro h
    by_cases ha : a.1 = name
    · simp [ha]
    · rw [List.find?_cons_of_neg _ (by simpa using ha)] at h
      rw [List.map_cons, if_neg ha, List.find?_cons_of_neg _ (by simpa using ha)]
      exact ih h

theorem hoststat_get_set_same (d : List (String × hoststat)) (name : String) (hs : hoststat) :
    hoststat_get (hoststat_set d name hs) name = some hs := by
  unfold hoststat_get hoststat_set
  split_ifs with h
  · rw [hoststat_find_map name hs d h]
    rfl
  · rw [List.find?_append]
    have : d.find? (fun e => decide (e.1 = name)) = none := by
      cases hf : d.find? (fun e => decide (e.1 = name)) with
      | none => rfl
      | some x => rw [hf] at h; simp at h
    rw [this]
    simp

theorem hoststat_get_set_other (d : List (String × hoststat)) (name other : String)
    (hs : hoststat) (h : other ≠ name) :
    hoststat_get (hoststat_set d name hs) other = hoststat_get d other := by
  unfold hoststat_get hoststat_set
  have hmap : ∀ l : List (String × hoststat),
      (l.map (fun e => if e.1 = name then (name, hs) else e)).find?
        (fun e => decide (e.1 = other)) = l.find? (fun e => decide (e.1 = other)) := by
    intro l
    induction l with
    | nil => rfl
    | cons a l ih =>
      by_cases ha : a.1 = name
      · have ho : ¬ a.1 = other := fun e => h (e.symm.trans ha)
        have ho1 : ¬ name = other := fun e => h e.symm
        simp only [List.map_cons, if_pos ha, List.find?_cons, ho, ho1, decide_False]
        exact ih
      · simp only [List.map_cons, if_neg ha, List.find?_cons]
        rw [ih]
  split_ifs
  · rw [hmap]
  · rw [List.find?_append]
    have ho1 : ¬ name = other := fun e => h e.symm
    cases hf : d.find? (fun e => decide (e.1 = other)) with
    | none => simp [ho1]
    | some x => simp

theorem hoststat_grows_refl (d : List (String × hoststat)) : hoststat_grows d d :=
  fun _ hs h => ⟨hs, h, fun _ hx => hx, rfl, rfl⟩

theorem hoststat_grows_trans {d d1 d2 : List (String × hoststat)} (h1 : hoststat_grows d d1)
    (h2 : hoststat_grows d1 d2) : hoststat_grows d d2 := by
  intro name hs h
  obtain ⟨hs1, g1, g2, g3, g4⟩ := h1 name hs h
  obtain ⟨hs2, k1, k2, k3, k4⟩ := h2 name hs1 g1
  exact ⟨hs2, k1, fun x hx => k2 x (g2 x hx), k3.trans g3, k4.trans g4⟩

/-- The cache after `mta_hoststat_cache`: it has grown, and when the name has
an entry, the envelope is deferred in it. -/
theorem mta_hoststat_cache_spec (S : mta_state) (host : String) (evpid : Nat) :
    hoststat_grows S.hoststat (mta_hoststat_cache S host evpid).hoststat ∧
      ∀ buf hs, lowercase host SMTPD_MAXHOSTNAMELEN = some buf →
        hoststat_get S.hoststat buf = some hs →
        ∃ hs1, hoststat_get (mta_hoststat_cache S host evpid).hoststat buf = some hs1 ∧
          evpid ∈ hs1.deferred := by
  unfold mta_hoststat_cache
  cases hl : lowercase host SMTPD_MAXHOSTNAMELEN with
  | none =>
    exact ⟨hoststat_grows_refl _, fun buf hs h => by cases h⟩
  | some buf =>
    dsimp only
    cases hg : hoststat_get S.hoststat buf with
    | none =>
      refine ⟨hoststat_grows_refl _, fun buf1 hs h1 h2 => ?_⟩
      injection h1 with h1
      subst h1
      rw [hg] at h2
      cases h2
    | some hs =>
      dsimp only
      constructor
      · intro name hs0 h0
        by_cases e : name = buf
        · subst e
          rw [hg] at h0
          injection h0 with h0
          subst h0
          refine ⟨_, hoststat_get_set_same _ _ _, fun x hx => ?_, rfl, rfl⟩
          dsimp only
          split_ifs
          · exact hx
          · exact List.mem_append_left _ hx
        · rw [hoststat_get_set_other _ _ _ _ e]
          exact ⟨hs0, h0, fun _ hx => hx, rfl, rfl⟩
      · intro buf1 hs0 h1 _
        injection h1 with h1
        subst h1
        refine ⟨_, hoststat_get_set_same _ _ _, ?_⟩
        dsimp only
        split_ifs with hm
        · exact hm
        · simp

theorem relay_routes_failed_iff (S : mta_state) (r : relay_ptr) :
    (S.relays r).connectors.length =
        ((S.relays r).connectors.filter
          (fun s => has_flag (S.connectors (r, s)).flags CONNECTOR_ERROR_ROUTE)).length ↔
      relay_routes_failed S r := by
  unfold relay_routes_failed
  rw [eq_comm, List.filter_length_eq_length]

theorem relay_routes_failed_congr {T S : mta_state} (r : relay_ptr) (h1 : T.relays = S.relays)
    (h2 : T.connectors = S.connectors) : relay_routes_failed T r ↔ relay_routes_failed S r := by
  unfold relay_routes_failed
  rw [h1, h2]

/-- The host status cache after the flush of one envelope. -/
theorem mta_flush_envelope_hoststat (r : relay_ptr) (fail : Nat) (error : String)
    (S : mta_state) (e : mta_envelope)
    (hf : fail = IMSG_DELIVERY_TEMPFAIL ∨ fail = IMSG_DELIVERY_PERMFAIL) :
    ∃ S', mta_flush_envelope r fail error S e = mta_result.done S' ∧
      S'.relays = S.relays ∧ S'.connectors = S.connectors ∧
      hoststat_grows S.hoststat S'.hoststat ∧
      (fail = IMSG_DELIVERY_TEMPFAIL → relay_routes_failed S r →
        ∀ domain buf hs, dest_domain e.dest = some domain →
          lowercase domain SMTPD_MAXHOSTNAMELEN = some buf →
          hoststat_get S.hoststat buf = some hs →
          ∃ hs1, hoststat_get S'.hoststat buf = some hs1 ∧ e.id ∈ hs1.deferred) ∧
      (fail = IMSG_DELIVERY_PERMFAIL ∨ ¬ relay_routes_failed S r →
        S'.hoststat = S.hoststat) := by
  unfold mta_flush_envelope
  have hn : mta_delivery_notify e fail error 0 = some (flush_outcome fail error e) := by
    unfold mta_delivery_notify flush_outcome
    rcases hf with rfl | rfl
    · simp [IMSG_DELIVERY_TEMPFAIL, IMSG_DELIVERY_OK]
    · simp [IMSG_DELIVERY_TEMPFAIL, IMSG_DELIVERY_OK, IMSG_DELIVERY_PERMFAIL]
  rw [hn]
  dsimp only
  cases hd : dest_domain e.dest with
  | none =>
    dsimp only
    exact ⟨_, rfl, rfl, rfl, hoststat_grows_refl _, fun _ _ _ _ _ h _ _ => (by cases h),
      fun _ => rfl⟩
  | some domain =>
    dsimp only
    by_cases ht : fail = IMSG_DELIVERY_TEMPFAIL
    · rw [if_pos ht]
      by_cases hall : relay_routes_failed S r
      · rw [if_pos ((relay_routes_failed_iff
          { S with out := S.out ++ [flush_outcome fail error e] } r).2 hall)]
        obtain ⟨g1, g2⟩ := mta_hoststat_cache_spec
          { S with out := S.out ++ [flush_outcome fail error e] } domain e.id
        refine ⟨_, rfl, ?_, ?_, g1, ?_, ?_⟩
        · rw [mta_hoststat_cache_relays]
        · rw [mta_hoststat_cache_frame]
        · intro _ _ d1 buf hs h1 h2 h3
          injection h1 with h1
          subst h1
          exact g2 buf hs h2 h3
        · intro h
          rcases h with h | h
          · rw [ht] at h; exact absurd h (by decide)
          · exact absurd hall h
      · rw [if_neg (fun h => hall ((relay_routes_failed_iff
          { S with out := S.out ++ [flush_outcome fail error e] } r).1 h))]
        exact ⟨_, rfl, rfl, rfl, hoststat_grows_refl _, fun _ h => absurd h hall, fun _ => rfl⟩
    · rw [if_neg ht]
      exact ⟨_, rfl, rfl, rfl, hoststat_grows_refl _, fun h => absurd h ht, fun _ => rfl⟩

/-- The host status cache after the flush of a list of envelopes. -/
theorem mta_flush_envelopes_hoststat (r : relay_ptr) (fail : Nat) (error : String)
    (hf : fail = IMSG_DELIVERY_TEMPFAIL ∨ fail = IMSG_DELIVERY_PERMFAIL) :
    ∀ (es : List mta_envelope) (S : mta_state),
      ∃ S', mta_flush_envelopes r fail error es S = mta_result.done S' ∧
        S'.relays = S.relays ∧ S'.connectors = S.connectors ∧
        hoststat_grows S.hoststat S'.hoststat ∧
        (fail = IMSG_DELIVERY_TEMPFAIL → relay_routes_failed S r →
          ∀ e ∈ es, ∀ domain buf hs, dest_domain e.dest = some domain →
            lowercase domain SMTPD_MAXHOSTNAMELEN = some buf →
            hoststat_get S.hoststat buf = some hs →
            ∃ hs1, hoststat_get S'.hoststat buf = some hs1 ∧ e.id ∈ hs1.deferred) ∧
        (fail = IMSG_DELIVERY_PERMFAIL ∨ ¬ relay_routes_failed S r →
          S'.hoststat = S.hoststat) := by
  intro es
  induction es with
  | nil =>
    intro S
    exact ⟨S, rfl, rfl, rfl, hoststat_grows_refl _, fun _ _ _ he => (by cases he), fun _ => rfl⟩
  | cons e es ih =>
    intro S
    obtain ⟨S1, h1, a1, a2, a3, a4, a5⟩ := mta_flush_envelope_hoststat r fail error S e hf
    obtain ⟨S2, h2, b1, b2, b3, b4, b5⟩ := ih S1
    have hcong := relay_routes_failed_congr r a1 a2
    refine ⟨S2, ?_, b1.trans a1, b2.trans a2, hoststat_grows_trans a3 b3, ?_, ?_⟩
    · rw [mta_flush_envelopes, h1, mta_result.bind, h2]
    · intro ht hall x hx domain buf hs d1 d2 d3
      rcases List.mem_cons.1 hx with hx | hx
      · subst hx
        obtain ⟨hs1, g1, g2⟩ := a4 ht hall domain buf hs d1 d2 d3
        obtain ⟨hs2, k1, k2, _⟩ := b3 buf hs1 g1
        exact ⟨hs2, k1, k2 _ g2⟩
      · obtain ⟨hs1, g1, _⟩ := a3 buf hs d3
        exact b4 ht (hcong.2 hall) x hx domain buf hs1 d1 d2 g1
    · intro h
      rw [b5 (h.imp id (fun hn => fun hall => hn (hcong.1 hall))), a5 h]

/-! ## Replaying the deferred envelopes of a host -/

theorem lowercase_congr (a b : String) (n : Nat)
    (h : a.data.map Char.toLower = b.data.map Char.toLower) : lowercase a n = lowercase b n := by
  unfold lowercase
  have hl : a.data.length = b.data.length := by
    have := congrArg List.length h
    simpa using this
  rw [h, hl]

/-- The state after `mta_hoststat_reschedule` on a name that has an entry. -/
theorem mta_hoststat_reschedule_entry (S : mta_state) (host buf : String) (hs : hoststat)
    (hl : lowercase host SMTPD_MAXHOSTNAMELEN = some buf)
    (hg : hoststat_get S.hoststat buf = some hs) :
    mta_hoststat_reschedule S host =
      { S with
        out := S.out ++ hs.deferred.map mta_event.queue_schedule
        hoststat := hoststat_set S.hoststat buf { hs with deferred := [] } } := by
  unfold mta_hoststat_reschedule
  rw [hl]
  dsimp only
  rw [hg]

/-! ## The pacing of source queries -/

theorem mta_source_unref_pacing (S : mta_state) (x : relay_ptr) (s : source_ptr) :
    relay_pacing (mta_source_unref S s) x = relay_pacing S x := by
  unfold relay_pacing
  rw [mta_source_unref_relays]

theorem mta_query_secret_pacing (S : mta_state) (r : relay_ptr) :
    relay_pacing (mta_query_secret S r) r = relay_pacing S r := by
  unfold mta_query_secret mta_relay_ref relay_pacing
  split_ifs <;> simp

theorem mta_query_preference_pacing (S : mta_state) (r : relay_ptr) :
    relay_pacing (mta_query_preference S r) r = relay_pacing S r := by
  unfold mta_query_preference mta_relay_ref relay_pacing
  split_ifs <;> simp

theorem mta_query_mx_pacing (now : Int) (S : mta_state) (r : relay_ptr) :
    relay_pacing (mta_query_mx now S r) r = relay_pacing S r := by
  unfold mta_query_mx mta_relay_ref relay_pacing generate_uid
  dsimp only
  by_cases h : has_flag (S.relays r).status RELAY_WAIT_MX = true
  · rw [if_pos h]
  · rw [if_neg h]
    by_cases h1 : (S.domains (S.relays r).domain).waitq.isEmpty = true
    · simp [h1]
    · simp [h1]

theorem mta_query_limits_pacing (S : mta_state) (r : relay_ptr) :
    relay_pacing (mta_query_limits S r) r = relay_pacing S r := by
  unfold mta_query_limits relay_pacing
  dsimp only
  split_ifs <;> simp

theorem mta_flush_pacing (S T : mta_state) (r : relay_ptr) (fail : Nat) (error : String)
    (h : mta_flush S r fail error = mta_result.done T) : relay_pacing T r = relay_pacing S r := by
  by_cases hf : fail = IMSG_DELIVERY_TEMPFAIL ∨ fail = IMSG_DELIVERY_PERMFAIL
  · obtain ⟨T1, h1, h2⟩ := mta_flush_spec S r fail error hf
    rw [h1] at h
    injection h with h
    subst h
    rw [h2]
    simp [relay_pacing]
  · unfold mta_flush at h
    rw [if_pos (by tauto)] at h
    cases h

/-- A drain before the time of the next source query leaves the pacing fields
of the relay alone. -/
theorem mta_drain_with_pacing (drain : mta_state → relay_ptr → mta_result) (fuel : Nat)
    (now : Int) (S T : mta_state) (r : relay_ptr) (hnext : now < (S.relays r).nextsource)
    (h : mta_drain_with drain fuel now S r = mta_result.done T) :
    relay_pacing T r = relay_pacing S r := by
  unfold mta_drain_with at h
  dsimp only at h
  by_cases h0 : (S.relays r).ntask = 0
  · rw [if_pos h0] at h
    injection h with h
    rw [h]
  rw [if_neg h0] at h
  by_cases h1 : (S.relays r).fail ≠ 0
  · rw [if_pos h1] at h
    exact mta_flush_pacing S T r _ _ h
  rw [if_neg h1] at h
  have p1 : relay_pacing
      (if has_flag (S.relays r).flags RELAY_AUTH = true ∧ (S.relays r).secret = none then
        mta_query_secret S r else S) r = relay_pacing S r := by
    split
    · exact mta_query_secret_pacing S r
    · rfl
  generalize (if has_flag (S.relays r).flags RELAY_AUTH = true ∧ (S.relays r).secret = none then
    mta_query_secret S r else S) = S1 at h p1
  have p2 : relay_pacing
      (if (S1.relays r).backupname.isSome = true ∧ (S1.relays r).backuppref = -1 then
        mta_query_preference S1 r else S1) r = relay_pacing S1 r := by
    split
    · exact mta_query_preference_pacing S1 r
    · rfl
  generalize (if (S1.relays r).backupname.isSome = true ∧ (S1.relays r).backuppref = -1 then
    mta_query_preference S1 r else S1) = S2 at h p2
  have p3 : relay_pacing
      (if (S2.domains (S2.relays r).domain).lastmxquery = 0 then mta_query_mx now S2 r else S2) r =
      relay_pacing S2 r := by
    split
    · exact mta_query_mx_pacing now S2 r
    · rfl
  generalize (if (S2.domains (S2.relays r).domain).lastmxquery = 0 then
    mta_query_mx now S2 r else S2) = S3 at h p3
  have p4 : relay_pacing (if (S3.relays r).limits = none then mta_query_limits S3 r else S3) r =
      relay_pacing S3 r := by
    split
    · exact mta_query_limits_pacing S3 r
    · rfl
  generalize (if (S3.relays r).limits = none then mta_query_limits S3 r else S3) = S4 at h p4
  have p : relay_pacing S4 r = relay_pacing S r := p4.trans (p3.trans (p2.trans p1))
  by_cases hw : has_flag (S4.relays r).status RELAY_WAITMASK = true
  · rw [if_pos hw] at h
    injection h with h
    rw [← h]
    exact p
  rw [if_neg hw] at h
  have hn4 : ¬ (S4.relays r).nextsource ≤ now := by
    have : (S4.relays r).nextsource = (S.relays r).nextsource := by
      have := congrArg (fun x => x.2.1) p
      exact this
    rw [this]
    omega
  rw [if_neg hn4] at h
  injection h with h
  rw [← h, ← p]
  simp [relay_pacing, mta_relay_ref]

/-! ## Sequences of events on the route graph -/

theorem mta_query_limits_status (S : mta_state) (r : relay_ptr) :
    ((mta_query_limits S r).relays r).status = (S.relays r).status ∧
      ((mta_query_limits S r).relays r).ntask = (S.relays r).ntask ∧
      ((mta_query_limits S r).relays r).fail = (S.relays r).fail ∧
      ((mta_query_limits S r).relays r).flags = (S.relays r).flags ∧
      ((mta_query_limits S r).relays r).secret = (S.relays r).secret ∧
      ((mta_query_limits S r).relays r).backupname = (S.relays r).backupname ∧
      ((mta_query_limits S r).relays r).backuppref = (S.relays r).backuppref ∧
      ((mta_query_limits S r).relays r).domain = (S.relays r).domain ∧
      (mta_query_limits S r).domains = S.domains ∧
      (mta_query_limits S r).sc_limits_dict = S.sc_limits_dict := by
  unfold mta_query_limits
  dsimp only
  split_ifs <;> simp

theorem mta_query_limits_eq (S : mta_state) (r : relay_ptr)
    (hw : ¬ has_flag (S.relays r).status RELAY_WAIT_LIMITS = true) :
    mta_query_limits S r =
      { S with
        relays := Function.update S.relays r
          { S.relays r with limits := relay_limits_lookup S r }
        max_seen_conndelay_route :=
          max S.max_seen_conndelay_route (deref_limits (relay_limits_lookup S r)).conndelay_route
        max_seen_discdelay_route :=
          max S.max_seen_discdelay_route
            (deref_limits (relay_limits_lookup S r)).discdelay_route } := by
  have key : ∀ l : Option mta_limits,
      (let r1 : struct_mta_relay := { S.relays r with limits := l }
       let S1 := { S with relays := Function.update S.relays r r1 }
       let S2 := if S1.max_seen_conndelay_route < (deref_limits l).conndelay_route then
         { S1 with max_seen_conndelay_route := (deref_limits l).conndelay_route } else S1
       if S2.max_seen_discdelay_route < (deref_limits l).discdelay_route then
         { S2 with max_seen_discdelay_route := (deref_limits l).discdelay_route } else S2) =
      { S with
        relays := Function.update S.relays r { S.relays r with limits := l }
        max_seen_conndelay_route :=
          max S.max_seen_conndelay_route (deref_limits l).conndelay_route
        max_seen_discdelay_route :=
          max S.max_seen_discdelay_route (deref_limits l).discdelay_route } := by
    intro l
    dsimp only
    by_cases h1 : S.max_seen_conndelay_route < (deref_limits l).conndelay_route <;>
      by_cases h2 : S.max_seen_discdelay_route < (deref_limits l).discdelay_route
    · simp only [h1, h2, if_true, max_eq_right (le_of_lt h1), max_eq_right (le_of_lt h2)]
    · simp only [h1, h2, if_true, if_false, max_eq_right (le_of_lt h1),
        max_eq_left (not_lt.1 h2)]
    · simp only [h1, h2, if_true, if_false, max_eq_left (not_lt.1 h1),
        max_eq_right (le_of_lt h2)]
    · simp only [h1, h2, if_false, max_eq_left (not_lt.1 h1), max_eq_left (not_lt.1 h2)]
  unfold mta_query_limits
  rw [if_neg hw]
  exact key (relay_limits_lookup S r)

/-- A second `mta_query_limits` changes nothing. -/
theorem mta_query_limits_twice (S : mta_state) (r : relay_ptr) :
    mta_query_limits (mta_query_limits S r) r = mta_query_limits S r := by
  by_cases hw : has_flag (S.relays r).status RELAY_WAIT_LIMITS = true
  · have : mta_query_limits S r = S := by unfold mta_query_limits; rw [if_pos hw]
    rw [this, this]
  · have e := mta_query_limits_eq S r hw
    have hw1 : ¬ has_flag ((mta_query_limits S r).relays r).status RELAY_WAIT_LIMITS = true := by
      rw [(mta_query_limits_status S r).1]; exact hw
    rw [mta_query_limits_eq _ r hw1]
    have hl : relay_limits_lookup (mta_query_limits S r) r = relay_limits_lookup S r := by
      obtain ⟨_, _, _, _, _, _, _, a8, a9, a10⟩ := mta_query_limits_status S r
      unfold relay_limits_lookup
      rw [a8, a9, a10]
    rw [hl, e]
    simp

theorem mta_query_secret_waiting (S : mta_state) (r : relay_ptr)
    (h : has_flag (S.relays r).status RELAY_WAIT_SECRET = true) : mta_query_secret S r = S := by
  unfold mta_query_secret
  rw [if_pos h]

theorem mta_query_preference_waiting (S : mta_state) (r : relay_ptr)
    (h : has_flag (S.relays r).status RELAY_WAIT_PREFERENCE = true) :
    mta_query_preference S r = S := by
  unfold mta_query_preference
  rw [if_pos h]

theorem mta_query_mx_waiting (now : Int) (S : mta_state) (r : relay_ptr)
    (h : has_flag (S.relays r).status RELAY_WAIT_MX = true) : mta_query_mx now S r = S := by
  unfold mta_query_mx
  rw [if_pos h]

/-- What `mta_drain` does on a relay that waits for everything, has tasks and
has not failed: it looks up the limits when they are unknown, and returns. -/
theorem mta_drain_waiting (fuel : Nat) (now : Int) (S : mta_state) (r : relay_ptr)
    (hw : relay_waits_all S r) (hn : (S.relays r).ntask ≠ 0) (hf : (S.relays r).fail = 0) :
    mta_drain (fuel + 1) now S r = mta_result.done
      (if (S.relays r).limits = none then mta_query_limits S r else S) := by
  obtain ⟨h1, h2, h3, _, _⟩ := hw
  rw [mta_drain]
  unfold mta_drain_with
  rw [if_neg hn, if_neg (by rw [hf]; simp)]
  have e1 : (if has_flag (S.relays r).flags RELAY_AUTH = true ∧ (S.relays r).secret = none then
      mta_query_secret S r else S) = S := by
    rw [mta_query_secret_waiting S r h3]; simp
  simp only [e1]
  have e2 : (if (S.relays r).backupname.isSome = true ∧ (S.relays r).backuppref = -1 then
      mta_query_preference S r else S) = S := by
    rw [mta_query_preference_waiting S r h2]; simp
  simp only [e2]
  have e3 : (if (S.domains (S.relays r).domain).lastmxquery = 0 then
      mta_query_mx now S r else S) = S := by
    rw [mta_query_mx_waiting now S r h1]; simp
  simp only [e3]
  have hm : has_flag ((if (S.relays r).limits = none then mta_query_limits S r else S).relays
      r).status RELAY_WAITMASK = true := by
    have : ((if (S.relays r).limits = none then mta_query_limits S r else S).relays r).status =
        (S.relays r).status := by
      split_ifs
      · exact (mta_query_limits_status S r).1
      · rfl
    rw [this]
    exact has_flag_of_submask _ RELAY_WAIT_MX _ (by decide) h1
  rw [if_pos hm]

/-! ## The keep-alive delay of a penalised route -/

theorem wrap_int_of_range (x : Int) (h0 : -2 ^ 31 ≤ x) (h1 : x < 2 ^ 31) : wrap_int x = x := by
  unfold wrap_int
  rw [Int.emod_eq_of_lt (by omega) (by omega)]
  omega

/-- Without overflow of the `int` product the deadline of `mta_route_unref`
for a penalised route is the last penalty time plus the suspension delay. -/
theorem mta_route_unref_sched_penalty (now : Int) (S : mta_state) (r : struct_mta_route)
    (h1 : 1 ≤ r.penalty) (h2 : r.penalty ≤ 3276) :
    mta_route_unref_sched now S r = r.lastpenalty + mta_route_disable_delay r.penalty ∧
      mta_route_disable_delay r.penalty = min 14400 (200 * r.penalty ^ 2) := by
  have hd := mta_route_disable_delay_eq r.penalty (by
    unfold DELAY_ROUTE_BASE
    nlinarith)
  refine ⟨?_, hd⟩
  rw [hd]
  unfold mta_route_unref_sched
  rw [if_pos (by omega)]
  dsimp only
  have a : wrap_int (DELAY_ROUTE_BASE * r.penalty) = 200 * r.penalty := by
    unfold DELAY_ROUTE_BASE
    exact wrap_int_of_range _ (by omega) (by omega)
  have b : wrap_int (200 * r.penalty * r.penalty) = 200 * r.penalty ^ 2 := by
    rw [wrap_int_of_range _ (by nlinarith) (by nlinarith)]
    ring
  rw [a, b]
  unfold DELAY_ROUTE_MAX
  split_ifs <;> omega

/-! ## The host status operations -/

theorem hoststat_get_set_isSome (d : List (String × hoststat)) (name other : String)
    (hs hs1 : hoststat) (h : hoststat_get d name = some hs) :
    (hoststat_get (hoststat_set d name hs1) other).isSome = (hoststat_get d other).isSome := by
  by_cases e : other = name
  · subst e
    rw [hoststat_get_set_same, h]
    rfl
  · rw [hoststat_get_set_other d name other hs1 e]

/-- No entry for the host: the three operations return the state. -/
theorem mta_hoststat_unknown (S : mta_state) (host : String) (evpid : Nat)
    (h : hoststat_entry S host = none) :
    mta_hoststat_cache S host evpid = S ∧ mta_hoststat_uncache S host evpid = S ∧
      mta_hoststat_reschedule S host = S := by
  unfold hoststat_entry at h
  unfold mta_hoststat_cache mta_hoststat_uncache mta_hoststat_reschedule
  cases hl : lowercase host SMTPD_MAXHOSTNAMELEN with
  | none => simp
  | some buf =>
    rw [hl] at h
    simp only [Option.some_bind] at h
    simp [h]

/-- The three operations create no entry and drop none. -/
theorem mta_hoststat_names (S : mta_state) (host name : String) (evpid : Nat) :
    (hoststat_get (mta_hoststat_cache S host evpid).hoststat name).isSome =
        (hoststat_get S.hoststat name).isSome ∧
      (hoststat_get (mta_hoststat_uncache S host evpid).hoststat name).isSome =
        (hoststat_get S.hoststat name).isSome ∧
      (hoststat_get (mta_hoststat_reschedule S host).hoststat name).isSome =
        (hoststat_get S.hoststat name).isSome := by
  unfold mta_hoststat_cache mta_hoststat_uncache mta_hoststat_reschedule
  cases hl : lowercase host SMTPD_MAXHOSTNAMELEN with
  | none => simp
  | some buf =>
    dsimp only
    cases hg : hoststat_get S.hoststat buf with
    | none => simp
    | some hs =>
      dsimp only
      exact ⟨hoststat_get_set_isSome _ _ _ hs _ hg, hoststat_get_set_isSome _ _ _ hs _ hg,
        hoststat_get_set_isSome _ _ _ hs _ hg⟩

/-- The entry after `mta_hoststat_update`. -/
theorem mta_hoststat_update_entry (now : Int) (S : mta_state) (host error buf : String)
    (hl : lowercase host SMTPD_MAXHOSTNAMELEN = some buf) :
    hoststat_get (mta_hoststat_update now S host error).hoststat buf =
      some { tm := now, error := error,
             deferred := ((hoststat_get S.hoststat buf).map (fun hs => hs.deferred)).getD [] } := by
  unfold mta_hoststat_update
  rw [hl]
  dsimp only
  cases hg : hoststat_get S.hoststat buf with
  | none =>
    dsimp only
    rw [hoststat_get_set_same]
    rfl
  | some hs =>
    dsimp only
    rw [hoststat_get_set_same]
    rfl

theorem hoststat_set_set (d : List (String × hoststat)) (name : String) (hs1 hs2 : hoststat) :
    hoststat_set (hoststat_set d name hs1) name hs2 = hoststat_set d name hs2 := by
  have hsome : (hoststat_set d name hs1).find? (fun e => decide (e.1 = name)) =
      some (name, hs1) := by
    have := hoststat_get_set_same d name hs1
    unfold hoststat_get at this
    cases hf : (hoststat_set d name hs1).find? (fun e => decide (e.1 = name)) with
    | none => rw [hf] at this; simp at this
    | some e =>
      rw [hf] at this
      have h1 := List.find?_some hf
      simp only [decide_eq_true_eq] at h1
      simp only [Option.map_some', Option.some.injEq] at this
      rw [← h1, ← this]
  have e : hoststat_set (hoststat_set d name hs1) name hs2 =
      (hoststat_set d name hs1).map (fun e => if e.1 = name then (name, hs2) else e) := by
    generalize hoststat_set d name hs1 = X at hsome
    unfold hoststat_set
    rw [hsome]
    simp
  rw [e]
  unfold hoststat_set
  split_ifs with h
  · rw [List.map_map]
    apply List.map_congr_left
    intro e _
    simp only [Function.comp]
    by_cases he : e.1 = name
    · simp [he]
    · simp [he]
  · have hn : ∀ e ∈ d, e.1 ≠ name := by
      intro e he hen
      apply h
      rw [List.find?_isSome]
      exact ⟨e, he, by simpa using hen⟩
    rw [List.map_append]
    congr 1
    · have hid2 : d.map (fun e => if e.1 = name then (name, hs2) else e) = d.map id :=
        List.map_congr_left (fun e he => by simp [hn e he])
      rw [hid2, List.map_id]
    · simp

/-- A second `mta_hoststat_cache` of the same envelope changes nothing. -/
theorem mta_hoststat_cache_twice (S : mta_state) (host : String) (evpid : Nat) :
    mta_hoststat_cache (mta_hoststat_cache S host evpid) host evpid =
      mta_hoststat_cache S host evpid := by
  cases hl : lowercase host SMTPD_MAXHOSTNAMELEN with
  | none =>
    have : ∀ T, mta_hoststat_cache T host evpid = T := by
      intro T; unfold mta_hoststat_cache; rw [hl]
    rw [this, this]
  | some buf =>
    cases hg : hoststat_get S.hoststat buf with
    | none =>
      have : mta_hoststat_cache S host evpid = S := by
        unfold mta_hoststat_cache; rw [hl]; dsimp only; rw [hg]
      rw [this, this]
    | some hs =>
      have e1 : ∀ hs1 : hoststat, hs1 = hoststat.mk hs.tm hs.error
          (if evpid ∈ hs.deferred then hs.deferred else hs.deferred ++ [evpid]) →
          mta_hoststat_cache S host evpid =
            { S with hoststat := hoststat_set S.hoststat buf hs1 } := by
        intro hs1 h1
        subst h1
        unfold mta_hoststat_cache; rw [hl]; dsimp only; rw [hg]
      rw [e1 _ rfl]
      unfold mta_hoststat_cache
      rw [hl]
      dsimp only
      rw [hoststat_get_set_same]
      dsimp only
      rw [hoststat_set_set]
      have : evpid ∈ (if evpid ∈ hs.deferred then hs.deferred else hs.deferred ++ [evpid]) := by
        split_ifs with h
        · exact h
        · simp
      rw [if_pos this]

/-- The entry after `mta_hoststat_cache` and `mta_hoststat_uncache` of an id
that was not deferred. -/
theorem mta_hoststat_cache_uncache (S : mta_state) (host buf : String) (evpid : Nat)
    (hs : hoststat) (hl : lowercase host SMTPD_MAXHOSTNAMELEN = some buf)
    (hg : hoststat_get S.hoststat buf = some hs) (hn : evpid ∉ hs.deferred) :
    hoststat_get (mta_hoststat_uncache (mta_hoststat_cache S host evpid) host evpid).hoststat
      buf = some hs := by
  have e1 : ∀ hs1 : hoststat, hs1 = hoststat.mk hs.tm hs.error (hs.deferred ++ [evpid]) →
      mta_hoststat_cache S host evpid =
        { S with hoststat := hoststat_set S.hoststat buf hs1 } := by
    intro hs1 h1
    subst h1
    unfold mta_hoststat_cache; rw [hl]; dsimp only; rw [hg]; dsimp only; rw [if_neg hn]
  rw [e1 _ rfl]
  unfold mta_hoststat_uncache
  rw [hl]
  dsimp only
  rw [hoststat_get_set_same]
  dsimp only
  rw [hoststat_get_set_same]
  have : (hs.deferred ++ [evpid]).filter (fun x => decide (x ≠ evpid)) = hs.deferred := by
    rw [List.filter_append]
    have a : hs.deferred.filter (fun x => decide (x ≠ evpid)) = hs.deferred := by
      rw [List.filter_eq_self]
      intro x hx
      simp only [ne_eq, decide_not, Bool.not_eq_true', decide_eq_false_iff_not]
      intro e
      exact hn (e ▸ hx)
    rw [a]
    simp
  rw [this]

/-! ## The sessions started by one call of mta_connect -/

theorem relay_sessions_source_unref (r : relay_ptr) (S : mta_state) (s : source_ptr) :
    relay_sessions r (mta_source_unref S s) = relay_sessions r S := by
  unfold mta_source_unref relay_sessions
  dsimp only
  split_ifs <;> simp [List.countP_append, mta_event.session_of]

theorem relay_sessions_host_unref (r : relay_ptr) (S : mta_state) (h : host_ptr) :
    relay_sessions r (mta_host_unref S h) = relay_sessions r S := by
  unfold mta_host_unref relay_sessions
  dsimp only
  split_ifs <;> simp [List.countP_append, mta_event.session_of]

theorem relay_sessions_route (r : relay_ptr) (S : mta_state) (s : source_ptr) (d : host_ptr) :
    relay_sessions r (mta_route S s d) = relay_sessions r S := by
  unfold mta_route relay_sessions mta_host_ref mta_source_ref
  dsimp only
  split_ifs <;> simp [List.countP_append, mta_event.session_of]

theorem relay_sessions_route_unref (now : Int) (r : relay_ptr) (S : mta_state) (k : route_ptr) :
    relay_sessions r (mta_route_unref now S k) = relay_sessions r S := by
  unfold mta_route_unref
  dsimp only
  split_ifs
  · rfl
  · rfl
  · have e : ∀ T : mta_state, relay_sessions r
        { T with out := T.out ++ [mta_event.stat_decrement "mta.route" 1] } =
        relay_sessions r T := by
      intro T
      simp [relay_sessions, List.countP_append, mta_event.session_of]
    rw [e, relay_sessions_host_unref, relay_sessions_source_unref]
    rfl

/-- The sessions of a relay started so far and its connection count move
together through `mta_connect`, and its `ntask` and `nconn_ready` stay. -/
theorem relay_sessions_invariant (now : Int) (r : relay_ptr) (a b n m : Nat) :
    connect_invariant now (fun S _ =>
      relay_sessions r S + a = (S.relays r).nconn + b ∧ (S.relays r).ntask = n ∧
        (S.relays r).nconn_ready = m) where
  routes :=
    { intern := fun S _ s d h => by
        rw [relay_sessions_route, mta_route_relays]
        exact h
      release := fun S _ k h _ => by
        rw [relay_sessions_route_unref, mta_route_unref_relays]
        exact h }
  spawn := fun S _ c k h _ => by
    obtain ⟨h1, h2, h3⟩ := h
    unfold mta_connect_spawn mta_relay_ref relay_sessions at *
    by_cases e : r = c.1
    · subst e
      simp [List.countP_append, mta_event.session_of]
      omega
    · have e1 : ¬ c.1 = r := fun x => e x.symm
      simp [Function.update_noteq e, List.countP_append, mta_event.session_of, e1]
      omega
  frame := fun S T _ h hf => by
    unfold conn_frame at hf
    unfold relay_sessions at h ⊢
    rw [hf]
    exact h

/-- After a call of `mta_connect` that spawned a session, the connection count
of the relay is at most `max(3, ntask / 2)`. -/
theorem mta_connect_nconn_bound (now : Int) (c : connector_ptr) :
    ∀ (fuel : Nat) (S T : mta_state), mta_connect fuel now S c = some T →
      (T.relays c.1).nconn = (S.relays c.1).nconn ∨
        ((S.relays c.1).nconn < (T.relays c.1).nconn ∧
          (T.relays c.1).nconn ≤ max 3 ((S.relays c.1).ntask / 2)) := by
  intro fuel
  induction fuel with
  | zero => intro S T h; simp [mta_connect] at h
  | succ n ih =>
    intro S T h
    rw [mta_connect] at h
    cases hs : mta_connect_select now S c with
    | stop S1 =>
      rw [hs] at h
      simp at h
      subst h
      left
      rw [(mta_connect_select_stop now S c S1 hs).1]
    | route k S1 =>
      rw [hs] at h
      dsimp only at h
      obtain ⟨e1, _, _, _, _, _, _, _, _, _, _, _, _, _, hcap⟩ :=
        mta_connect_select_spec now S c k S1 hs
      obtain ⟨r1, r2, _, _, _⟩ := mta_connect_spawn_relays now S1 c k
      right
      rcases ih _ T h with g | ⟨g1, g2⟩
      · rw [g, r1, e1]
        omega
      · rw [r1, e1] at g1
        rw [r2, e1] at g2
        omega

/-! ## The connection counts of a spawn and of a collect -/

theorem size_dec_succ (n : Nat) : size_dec (n + 1) = n := by
  unfold size_dec
  rw [if_neg (by omega)]
  omega

theorem nconn_view.closed_opened (v : nconn_view) (c : connector_ptr) (d : domain_ptr)
    (k : route_ptr) (hk : k.1 = c.2) : (v.opened c d k).closed c.1 d k = v := by
  obtain ⟨r, s⟩ := c
  obtain ⟨s1, h⟩ := k
  simp only at hk
  subst hk
  unfold nconn_view.opened nconn_view.closed
  simp only [Function.update_same, size_dec_succ, Function.update_idem,
    Function.update_eq_self]

/-- The spawn step of `mta_connect` on the connection counts. -/
theorem nconn_of_spawn (now : Int) (S : mta_state) (c : connector_ptr) (k : route_ptr) :
    nconn_of (mta_connect_spawn now S c k) =
      (nconn_of S).opened c (S.relays c.1).domain k := by
  unfold nconn_of nconn_view.opened
  simp only [nconn_view.mk.injEq]
  refine ⟨?_, ?_, ?_, ?_, ?_, ?_⟩ <;> funext x
  · by_cases e : x = c.1
    · subst e; simp [mta_connect_spawn, mta_relay_ref]
    · simp [mta_connect_spawn, mta_relay_ref, Function.update_noteq e]
  · by_cases e : x = (S.relays c.1).domain
    · subst e; simp [mta_connect_spawn, mta_relay_ref]
    · simp [mta_connect_spawn, mta_relay_ref, Function.update_noteq e]
  · by_cases e : x = c
    · subst e; simp [mta_connect_spawn, mta_relay_ref]
    · simp [mta_connect_spawn, mta_relay_ref, Function.update_noteq e]
  · by_cases e : x = k
    · subst e; simp [mta_connect_spawn, mta_relay_ref]
    · simp [mta_connect_spawn, mta_relay_ref, Function.update_noteq e]
  · by_cases e : x = k.1
    · subst e; simp [mta_connect_spawn, mta_relay_ref]
    · simp [mta_connect_spawn, mta_relay_ref, Function.update_noteq e]
  · by_cases e : x = k.2
    · subst e; simp [mta_connect_spawn, mta_relay_ref]
    · simp [mta_connect_spawn, mta_relay_ref, Function.update_noteq e]

theorem nconn_of_route_unref (now : Int) (S : mta_state) (k : route_ptr) :
    nconn_of (mta_route_unref now S k) = nconn_of S := by
  unfold nconn_of
  simp only [mta_route_unref_relays, mta_route_unref_domains, mta_route_unref_connectors,
    nconn_view.mk.injEq, true_and]
  refine ⟨?_, ?_, ?_⟩ <;> funext x
  · exact (mta_route_unref_routes now S k x).1
  · exact (mta_route_unref_sources now S k x).1
  · exact (mta_route_unref_hosts now S k x).1

theorem nconn_of_relay_unref (S : mta_state) (r : relay_ptr)
    (h : (S.relays r).refcount ≠ 1) :
    nconn_of (mta_relay_unref S r) = nconn_of S ∧
      ((mta_relay_unref S r).relays r).refcount = (S.relays r).refcount - 1 ∧
      (mta_relay_unref S r).routes = S.routes := by
  unfold mta_relay_unref
  dsimp only
  rw [if_pos (by omega)]
  refine ⟨?_, by simp, rfl⟩
  unfold nconn_of
  simp only [nconn_view.mk.injEq, and_true]
  funext x
  by_cases e : x = r
  · subst e; simp
  · simp [Function.update_noteq e]

/-- The statements of `mta_route_collect` before `mta_connect`, on a validated
route and a known connector. -/
theorem nconn_of_collect_probe (now : Int) (S : mta_state) (r : relay_ptr) (k : route_ptr)
    (hc : k.1 ∈ (S.relays r).connectors)
    (hv : has_flag (S.routes k).flags ROUTE_NEW = false) :
    nconn_of (mta_route_collect_probe now S r k) =
        (nconn_of S).closed r (S.relays r).domain k ∧
      ((mta_route_collect_probe now S r k).relays r).ntask = (S.relays r).ntask ∧
      ((mta_route_collect_probe now S r k).relays r).refcount = (S.relays r).refcount ∧
      ((mta_route_collect_probe now S r k).routes k).refcount = (S.routes k).refcount ∧
      ((mta_route_collect_probe now S r k).routes k).flags = (S.routes k).flags := by
  unfold mta_route_collect_probe
  dsimp only
  have hf : has_flag ((mta_route_collect_close now S r k).routes k).flags ROUTE_NEW = false := by
    rw [← hv]
    unfold mta_route_collect_close
    simp
  have hcc : k.1 ∈ ((mta_route_collect_close now S r k).relays r).connectors := by
    unfold mta_route_collect_close
    simpa using hc
  rw [if_neg (by rw [hf]; simp), mta_connector_known _ r k.1 hcc]
  unfold nconn_of nconn_view.closed
  simp only [nconn_view.mk.injEq]
  refine ⟨⟨?_, ?_, ?_, ?_, ?_, ?_⟩, ?_, ?_, ?_, ?_⟩
  · funext x
    by_cases e : x = r
    · subst e; simp [mta_route_collect_close]
    · simp [mta_route_collect_close, Function.update_noteq e]
  · funext x
    by_cases e : x = (S.relays r).domain
    · subst e; simp [mta_route_collect_close]
    · simp [mta_route_collect_close, Function.update_noteq e]
  · funext x
    by_cases e : x = (r, k.1)
    · subst e; simp [mta_route_collect_close]
    · simp [mta_route_collect_close, Function.update_noteq e]
  · funext x
    by_cases e : x = k
    · subst e; simp [mta_route_collect_close]
    · simp [mta_route_collect_close, Function.update_noteq e]
  · funext x
    by_cases e : x = k.1
    · subst e; simp [mta_route_collect_close]
    · simp [mta_route_collect_close, Function.update_noteq e]
  · funext x
    by_cases e : x = k.2
    · subst e; simp [mta_route_collect_close]
    · simp [mta_route_collect_close, Function.update_noteq e]
  · simp [mta_route_collect_close]
  · simp [mta_route_collect_close]
  · simp [mta_route_collect_close]
  · simp [mta_route_collect_close]

/-- The session of a validated route is collected on a relay without task:
`mta_connect` returns at once, six counts go down by one and the references
of the relay and of the route are released. -/
theorem mta_route_collect_counts (fuel : Nat) (now : Int) (S : mta_state) (r : relay_ptr)
    (k : route_ptr) (hc : k.1 ∈ (S.relays r).connectors)
    (hv : has_flag (S.routes k).flags ROUTE_NEW = false) (hn : (S.relays r).ntask = 0)
    (href : (S.relays r).refcount ≠ 1) :
    ∃ T, mta_route_collect (fuel + 1) now S r k = some T ∧
      nconn_of T = (nconn_of S).closed r (S.relays r).domain k ∧
      (T.relays r).refcount = (S.relays r).refcount - 1 ∧
      ((T.routes k).refcount = (S.routes k).refcount - 1 ∨
        ((S.routes k).refcount = 1 ∧ (T.routes k).refcount = 1 ∧
          has_flag (T.routes k).flags ROUTE_RUNQ = true)) := by
  obtain ⟨p1, p2, p3, p4, p5⟩ := nconn_of_collect_probe now S r k hc hv
  generalize hP : mta_route_collect_probe now S r k = P at p1 p2 p3 p4 p5
  have hcap : (P.relays (r, k.1).1).nconn_ready ≥ (P.relays (r, k.1).1).ntask ∨
      ((P.relays (r, k.1).1).nconn > 2 ∧
        (P.relays (r, k.1).1).nconn ≥ (P.relays (r, k.1).1).ntask / 2) := by
    left
    show (P.relays r).nconn_ready ≥ (P.relays r).ntask
    rw [p2, hn]
    exact Nat.zero_le _
  have key : ∀ Q : mta_state, Q.relays = P.relays → Q.domains = P.domains →
      Q.connectors = P.connectors → Q.routes = P.routes → Q.sources = P.sources →
      Q.hosts = P.hosts → mta_connect (fuel + 1) now P (r, k.1) = some Q →
      ∃ T, mta_route_collect (fuel + 1) now S r k = some T ∧
        nconn_of T = (nconn_of S).closed r (S.relays r).domain k ∧
        (T.relays r).refcount = (S.relays r).refcount - 1 ∧
        ((T.routes k).refcount = (S.routes k).refcount - 1 ∨
          ((S.routes k).refcount = 1 ∧ (T.routes k).refcount = 1 ∧
            has_flag (T.routes k).flags ROUTE_RUNQ = true)) := by
    intro Q q1 q2 q3 q4 q5 q6 hQ
    have hnQ : nconn_of Q = nconn_of P := by
      unfold nconn_of
      rw [q1, q2, q3, q4, q5, q6]
    have hU : ((mta_route_unref now Q k).relays r).refcount ≠ 1 := by
      rw [mta_route_unref_relays, q1, p3]
      exact href
    obtain ⟨u1, u2, u3⟩ := nconn_of_relay_unref (mta_route_unref now Q k) r hU
    refine ⟨mta_relay_unref (mta_route_unref now Q k) r, ?_, ?_, ?_, ?_⟩
    · unfold mta_route_collect
      rw [hP, hQ]
    · rw [u1, nconn_of_route_unref, hnQ, p1]
    · rw [u2, mta_route_unref_relays, q1, p3]
    · rw [u3]
      have hr : (Q.routes k).refcount = (S.routes k).refcount := by rw [q4, p4]
      rcases mta_route_unref_cases now Q k with ⟨_, c2, _, _⟩ | ⟨c1, c2, _, _⟩ | ⟨c1, c2, _, _⟩
      · left
        rw [c2, Function.update_same, hr]
      · right
        rw [c2, Function.update_same]
        refine ⟨by omega, rfl, ?_⟩
        exact has_flag_set_flag_self _ _ (by decide)
      · left
        rw [c2, Function.update_same]
        show (0 : Int) = _
        omega
  rcases mta_connect_select_capped now P (r, k.1) hcap with h | h
  · exact key P rfl rfl rfl rfl rfl rfl (by simp only [mta_connect, h])
  · exact key { P with runq_connector := runq_cancel P.runq_connector (r, k.1) }
      rfl rfl rfl rfl rfl rfl (by simp only [mta_connect, h])

/-! ## The wait flag of a connector and its timer -/

theorem runq_cancel_countP {α : Type} [DecidableEq α] (q : List (Int × α)) (a x : α) :
    (runq_cancel q a).countP (fun e => decide (e.2 = x)) =
      q.countP (fun e => decide (e.2 = x)) - (if x = a then 1 else 0) := by
  unfold runq_cancel
  induction q with
  | nil => simp
  | cons b q ih =>
    by_cases hb : b.2 = a
    · rw [List.eraseP_cons_of_pos (by simpa using hb)]
      by_cases e : x = a
      · subst e
        rw [if_pos rfl, List.countP_cons_of_pos _ _ (by simpa using hb)]
        omega
      · rw [if_neg e, List.countP_cons_of_neg _ _ (by simp [hb]; exact fun h => e h.symm)]
        omega
    · rw [List.eraseP_cons_of_neg (by simpa using hb)]
      by_cases hx : b.2 = x
      · rw [List.countP_cons_of_pos _ _ (by simpa using hx),
          List.countP_cons_of_pos _ _ (by simpa using hx), ih]
        have hpos : x = a → 0 < q.countP (fun e => decide (e.2 = x)) := by
          intro e
          exact absurd (hx.trans e) hb
        split_ifs with e
        · exact absurd (hx.trans e) hb
        · omega
      · rw [List.countP_cons_of_neg _ _ (by simpa using hx),
          List.countP_cons_of_neg _ _ (by simpa using hx), ih]

theorem runq_schedule_countP_fresh {α : Type} [DecidableEq α] (q : List (Int × α)) (tm : Int)
    (a x : α) (h : q.countP (fun e => decide (e.2 = a)) = 0) :
    (runq_schedule q tm a).countP (fun e => decide (e.2 = x)) =
      q.countP (fun e => decide (e.2 = x)) + (if x = a then 1 else 0) := by
  rw [runq_schedule_countP]
  by_cases e : x = a
  · subst e; rw [if_pos rfl, if_pos rfl, h]
  · rw [if_neg e, if_neg e]; rfl

/-- The setting of an error bit leaves `CONNECTOR_WAIT`. -/
theorem has_flag_wait_set_error (f m : Nat) (hm : m &&& CONNECTOR_WAIT = 0) :
    has_flag (set_flag f m) CONNECTOR_WAIT = has_flag f CONNECTOR_WAIT := by
  rw [has_flag_set_flag]
  have : has_flag m CONNECTOR_WAIT = false := by
    unfold has_flag
    simp [hm]
  rw [this, Bool.or_false]

theorem wait_frame_acct {T S : mta_state} (h : wait_frame T S) (hS : connector_wait_acct S) :
    connector_wait_acct T := by
  intro x
  have := hS x
  unfold runq_connector_count at this ⊢
  rw [h.1, h.2 x]
  exact this

theorem mta_find_route_none_wait (X : mta_state) (c : connector_ptr) (v : find_route_vars)
    (limits : Nat) (n : Int) : wait_frame (mta_find_route_none X c v limits n).1 X := by
  refine ⟨mta_find_route_none_runq X c v limits n, fun x => ?_⟩
  have key : ∀ (f : connector_ptr → struct_mta_connector) (m : Nat),
      m &&& CONNECTOR_WAIT = 0 →
      has_flag ((Function.update f c
        (struct_mta_connector.mk (set_flag (f c).flags m) (f c).nconn (f c).lastconn) x).flags)
        CONNECTOR_WAIT = has_flag (f x).flags CONNECTOR_WAIT := by
    intro f m hm
    by_cases e : x = c
    · subst e
      simp only [Function.update_same]
      exact has_flag_wait_set_error _ _ hm
    · simp only [Function.update_noteq e]
  unfold mta_find_route_none
  dsimp only
  split_ifs
  all_goals first
    | rfl
    | exact key X.connectors CONNECTOR_ERROR_MX (by decide)
    | exact key X.connectors CONNECTOR_ERROR_FAMILY (by decide)
    | exact key X.connectors CONNECTOR_ERROR_ROUTE_NET (by decide)
    | exact key X.connectors CONNECTOR_ERROR_ROUTE_SMTP (by decide)
    | exact (key (Function.update X.connectors c _) CONNECTOR_ERROR_ROUTE_SMTP (by decide)).trans
        (key X.connectors CONNECTOR_ERROR_ROUTE_NET (by decide))

theorem mta_find_route_wait (S : mta_state) (c : connector_ptr) (now : Int) (limits : Nat)
    (nextconn : Int) : wait_frame (mta_find_route S c now limits nextconn).state S := by
  obtain ⟨l1, l2⟩ := mta_find_route_loop_connectors now (deref_limits (S.relays c.1).limits) c
    (S.domains (S.relays c.1).domain).mxs find_route_vars_init S
  unfold mta_find_route
  dsimp only
  split
  · exact ⟨l1, fun x => by rw [l2]⟩
  · dsimp only
    have h := mta_find_route_none_wait
      (mta_find_route_loop now (deref_limits (S.relays c.1).limits) c
        (S.domains (S.relays c.1).domain).mxs find_route_vars_init S).state c
      (mta_find_route_loop now (deref_limits (S.relays c.1).limits) c
        (S.domains (S.relays c.1).domain).mxs find_route_vars_init S).vars limits nextconn
    exact ⟨h.1.trans l1, fun x => by rw [h.2 x, l2]⟩

theorem connector_wait_exact_of_clear {T : mta_state} {c : connector_ptr}
    (hT : connector_wait_acct T)
    (hw : has_flag (T.connectors c).flags CONNECTOR_WAIT = false) : connector_wait_exact T c := by
  have := hT c
  unfold connector_wait_exact
  rw [hw] at this ⊢
  simp only [Bool.false_eq_true, if_false] at this
  constructor
  · intro h; cases h
  · intro h; omega

/-- A pass of `mta_connect` keeps the accounting of the connector timers; the
connector keeps its `CONNECTOR_WAIT` flag when a route is found, and when the
pass returns for a connector that was not waiting, the flag is set exactly
when the pass scheduled the connector. -/
theorem mta_connect_select_wait (now : Int) (S : mta_state) (c : connector_ptr)
    (hI : connector_wait_acct S) :
    match mta_connect_select now S c with
    | connect_select.stop T => connector_wait_acct T ∧
        (has_flag (S.connectors c).flags CONNECTOR_WAIT = false → connector_wait_exact T c)
    | connect_select.route _ T => connector_wait_acct T ∧
        has_flag (T.connectors c).flags CONNECTOR_WAIT =
          has_flag (S.connectors c).flags CONNECTOR_WAIT := by
  unfold mta_connect_select
  by_cases c1 : has_flag (S.connectors c).flags CONNECTOR_ERROR = true
  · rw [if_pos c1]
    exact ⟨hI, fun hw => connector_wait_exact_of_clear hI hw⟩
  rw [if_neg c1]
  dsimp only
  generalize hS0 : (if has_flag (S.connectors c).flags CONNECTOR_WAIT = true then
      ({ S with runq_connector := runq_cancel S.runq_connector c } : mta_state) else S) = S0
  have hf0 : S0.connectors = S.connectors := by
    rw [← hS0]; split <;> rfl
  have hc0 : ∀ x, runq_connector_count S0 x =
      runq_connector_count S x -
        (if x = c ∧ has_flag (S.connectors c).flags CONNECTOR_WAIT = true then 1 else 0) := by
    intro x
    rw [← hS0]
    unfold runq_connector_count
    by_cases hw : has_flag (S.connectors c).flags CONNECTOR_WAIT = true
    · rw [if_pos hw]
      dsimp only
      rw [runq_cancel_countP]
      by_cases e : x = c
      · simp [e, hw]
      · simp [e]
    · rw [if_neg hw]
      simp [hw]
  have hI0 : connector_wait_acct S0 := by
    intro x
    have := hI x
    rw [hc0 x, hf0]
    omega
  have hz : runq_connector_count S0 c = 0 := by
    have := hI c
    rw [hc0 c]
    by_cases hw : has_flag (S.connectors c).flags CONNECTOR_WAIT = true
    · rw [hw] at this
      simp only [if_true] at this
      simp only [hw, and_self, if_true]
      omega
    · have hw1 : has_flag (S.connectors c).flags CONNECTOR_WAIT = false := by simpa using hw
      rw [hw1] at this
      simp only [Bool.false_eq_true, if_false] at this
      omega
  have hclear : has_flag (S.connectors c).flags CONNECTOR_WAIT = false →
      connector_wait_exact S0 c := by
    intro hw
    exact connector_wait_exact_of_clear hI0 (by rw [hf0]; exact hw)
  by_cases c2 : (S0.relays c.1).ntask = 0
  · rw [if_pos c2]; exact ⟨hI0, hclear⟩
  rw [if_neg c2]
  by_cases c3 : (S0.relays c.1).nconn_ready ≥ (S0.relays c.1).ntask ∨
      ((S0.relays c.1).nconn > 2 ∧ (S0.relays c.1).nconn ≥ (S0.relays c.1).ntask / 2)
  · rw [if_pos c3]; exact ⟨hI0, hclear⟩
  rw [if_neg c3]
  have sched : ∀ (X : mta_state) (t : Int), wait_frame X S0 →
      connector_wait_acct
          { X with
            connectors := Function.update X.connectors c
              (struct_mta_connector.mk (set_flag (X.connectors c).flags CONNECTOR_WAIT)
                (X.connectors c).nconn (X.connectors c).lastconn)
            runq_connector := runq_schedule X.runq_connector t c } ∧
        connector_wait_exact
          { X with
            connectors := Function.update X.connectors c
              (struct_mta_connector.mk (set_flag (X.connectors c).flags CONNECTOR_WAIT)
                (X.connectors c).nconn (X.connectors c).lastconn)
            runq_connector := runq_schedule X.runq_connector t c } c := by
    intro X t hX
    have hXI := wait_frame_acct hX hI0
    have hXz : runq_connector_count X c = 0 := by
      unfold runq_connector_count at hz ⊢
      rw [hX.1]; exact hz
    constructor
    · intro x
      have := hXI x
      unfold runq_connector_count at this hXz ⊢
      dsimp only
      rw [runq_schedule_countP_fresh _ _ _ _ hXz]
      by_cases e : x = c
      · subst e
        simp only [Function.update_same, if_true]
        rw [has_flag_set_flag_self _ _ (by decide), hXz]
        simp
      · simp only [Function.update_noteq e, if_neg e]
        omega
    · unfold connector_wait_exact runq_connector_count
      dsimp only
      rw [runq_schedule_countP]
      simp only [Function.update_same, if_true]
      rw [has_flag_set_flag_self _ _ (by decide)]
      simp
  have stopF : ∀ (X : mta_state), wait_frame X S0 →
      connector_wait_acct X ∧
        (has_flag (S.connectors c).flags CONNECTOR_WAIT = false → connector_wait_exact X c) := by
    intro X hX
    have hXI := wait_frame_acct hX hI0
    exact ⟨hXI, fun hw => connector_wait_exact_of_clear hXI (by rw [hX.2 c, hf0]; exact hw)⟩
  have hrefl : wait_frame S0 S0 := ⟨rfl, fun _ => rfl⟩
  by_cases c4 : (mta_connect_gates now S0 c).1 = 0 ∧ (mta_connect_gates now S0 c).2 ≤ now
  · rw [if_pos c4]
    have hF := mta_find_route_wait S0 c now (mta_connect_gates now S0 c).1
      (mta_connect_gates now S0 c).2
    cases hr : (mta_find_route S0 c now (mta_connect_gates now S0 c).1
        (mta_connect_gates now S0 c).2).route with
    | none =>
      dsimp only
      split_ifs
      · exact stopF _ hF
      · exact ⟨(sched _ _ hF).1, fun _ => (sched _ _ hF).2⟩
      · exact ⟨(sched _ _ hF).1, fun _ => (sched _ _ hF).2⟩
    | some k =>
      dsimp only
      exact ⟨wait_frame_acct hF hI0, by rw [hF.2 c, hf0]⟩
  · rw [if_neg c4]
    dsimp only
    split_ifs
    · exact stopF _ hrefl
    · exact ⟨(sched _ _ hrefl).1, fun _ => (sched _ _ hrefl).2⟩
    · exact ⟨(sched _ _ hrefl).1, fun _ => (sched _ _ hrefl).2⟩

theorem mta_connect_spawn_wait (now : Int) (S : mta_state) (c : connector_ptr) (k : route_ptr) :
    wait_frame (mta_connect_spawn now S c k) S := by
  refine ⟨by simp [mta_connect_spawn, mta_relay_ref], fun x => ?_⟩
  by_cases e : x = c
  · subst e; simp [mta_connect_spawn, mta_relay_ref]
  · simp [mta_connect_spawn, mta_relay_ref, Function.update_noteq e]

/-- A call of `mta_connect` keeps the accounting of the connector timers, and
for a connector that was not waiting the flag is set exactly when the call
scheduled the connector. -/
theorem mta_connect_wait (now : Int) (c : connector_ptr) :
    ∀ (fuel : Nat) (S T : mta_state), connector_wait_acct S →
      mta_connect fuel now S c = some T →
      connector_wait_acct T ∧
        (has_flag (S.connectors c).flags CONNECTOR_WAIT = false → connector_wait_exact T c) := by
  intro fuel
  induction fuel with
  | zero => intro S T _ h; simp [mta_connect] at h
  | succ n ih =>
    intro S T hI h
    have hsel := mta_connect_select_wait now S c hI
    rw [mta_connect] at h
    cases hs : mta_connect_select now S c with
    | stop S1 =>
      rw [hs] at h hsel
      simp at h
      subst h
      exact hsel
    | route k S1 =>
      rw [hs] at h hsel
      dsimp only at h hsel
      have hw := mta_connect_spawn_wait now S1 c k
      obtain ⟨a1, a2⟩ := ih _ T (wait_frame_acct hw hsel.1) h
      exact ⟨a1, fun hc => a2 (by rw [hw.2 c, hsel.2]; exact hc)⟩

theorem runq_connector_expire_acct (S : mta_state) (e : Int × connector_ptr)
    (hI : connector_wait_acct S) (he : e ∈ S.runq_connector) :
    connector_wait_acct
      { runq_connector_expire S e with
        connectors := Function.update (runq_connector_expire S e).connectors e.2
          (struct_mta_connector.mk
            (clr_flag ((runq_connector_expire S e).connectors e.2).flags CONNECTOR_WAIT)
            ((runq_connector_expire S e).connectors e.2).nconn
            ((runq_connector_expire S e).connectors e.2).lastconn) } := by
  intro x
  have := hI x
  unfold runq_connector_count at this ⊢
  unfold runq_connector_expire
  dsimp only
  rw [runq_expire_count _ e x he]
  by_cases hx : x = e.2
  · subst hx
    simp only [Function.update_same, if_true]
    rw [has_flag_clr_flag_self]
    simp only [Bool.false_eq_true, if_false]
    split_ifs at this <;> omega
  · simp only [Function.update_noteq hx, if_neg hx]
    omega

theorem ex_state_scheduled_acct : connector_wait_acct ex_state_scheduled := by
  have hq : ex_state_scheduled.runq_connector = [(1020, ex_conn)] := by decide
  have hw : has_flag (ex_state_scheduled.connectors ex_conn).flags CONNECTOR_WAIT = true := by
    decide
  intro x
  unfold runq_connector_count
  rw [hq]
  by_cases e : x = ex_conn
  · subst e
    rw [hw]
    simp
  · have : ¬ ex_conn = x := fun h => e h.symm
    simp [this]

/-! ## The accounting of the tasks -/

theorem task_acct_of_tasks {T S : mta_state} (h : relay_tasks T = relay_tasks S)
    (hS : task_acct S) : task_acct T := by
  intro r
  have := congrFun h r
  unfold relay_tasks at this
  simp only [Prod.mk.injEq] at this
  rw [this.1, this.2]
  exact hS r

theorem relay_tasks_of_relays {T S : mta_state} (h : T.relays = S.relays) :
    relay_tasks T = relay_tasks S := by
  unfold relay_tasks
  rw [h]

theorem relay_tasks_invariant (now : Int) (v : relay_ptr → Nat × List mta_task) :
    connect_invariant now (fun S _ => relay_tasks S = v) where
  routes :=
    { intern := fun S _ s d h => by
        rw [relay_tasks_of_relays (mta_route_relays S s d)]
        exact h
      release := fun S _ k h _ => by
        rw [relay_tasks_of_relays (mta_route_unref_relays now S k)]
        exact h }
  spawn := fun S _ c k h _ => by
    rw [← h]
    unfold mta_connect_spawn mta_relay_ref relay_tasks
    funext x
    by_cases e : x = c.1
    · subst e; simp
    · simp [Function.update_noteq e]
  frame := fun S T _ h hf => by
    unfold conn_frame at hf
    rw [← h]
    unfold relay_tasks
    rw [hf]

theorem mta_connect_tasks (fuel : Nat) (now : Int) (S T : mta_state) (c : connector_ptr)
    (h : mta_connect fuel now S c = some T) : relay_tasks T = relay_tasks S :=
  mta_connect_invariant (relay_tasks_invariant now (relay_tasks S)) c fuel S T rfl h

theorem mta_relay_ref_tasks (S : mta_state) (r : relay_ptr) :
    relay_tasks (mta_relay_ref S r) = relay_tasks S := by
  unfold mta_relay_ref relay_tasks
  funext x
  by_cases e : x = r
  · subst e; simp
  · simp [Function.update_noteq e]

theorem mta_relay_unref_tasks (S : mta_state) (r : relay_ptr) :
    relay_tasks (mta_relay_unref S r) = relay_tasks S := by
  unfold mta_relay_unref relay_tasks
  dsimp only
  funext x
  split
  · by_cases e : x = r
    · subst e; simp
    · simp [Function.update_noteq e]
  · simp only [mta_domain_unref_relays]
    by_cases e : x = r
    · subst e
      simp only [Function.update_same, foldl_connector_free_relays]
    · simp only [Function.update_noteq e, foldl_connector_free_relays]

theorem mta_connector_tasks (S : mta_state) (r : relay_ptr) (s : source_ptr) :
    relay_tasks (mta_connector S r s) = relay_tasks S := by
  unfold mta_connector mta_source_ref relay_tasks
  funext x
  split
  · rfl
  · by_cases e : x = r
    · subst e; simp
    · simp [Function.update_noteq e]

theorem mta_source_tasks (S : mta_state) (s : source_ptr) :
    relay_tasks (mta_source S s) = relay_tasks S := by
  unfold mta_source mta_source_ref relay_tasks
  funext x
  split_ifs <;> rfl

theorem mta_query_secret_tasks (S : mta_state) (r : relay_ptr) :
    relay_tasks (mta_query_secret S r) = relay_tasks S := by
  unfold mta_query_secret mta_relay_ref relay_tasks
  funext x
  split_ifs
  · rfl
  · by_cases e : x = r
    · subst e; simp
    · simp [Function.update_noteq e]

theorem mta_query_preference_tasks (S : mta_state) (r : relay_ptr) :
    relay_tasks (mta_query_preference S r) = relay_tasks S := by
  unfold mta_query_preference mta_relay_ref relay_tasks
  funext x
  split_ifs
  · rfl
  · by_cases e : x = r
    · subst e; simp
    · simp [Function.update_noteq e]

theorem mta_query_mx_tasks (now : Int) (S : mta_state) (r : relay_ptr) :
    relay_tasks (mta_query_mx now S r) = relay_tasks S := by
  unfold mta_query_mx mta_relay_ref relay_tasks generate_uid
  dsimp only
  funext x
  by_cases h : has_flag (S.relays r).status RELAY_WAIT_MX = true
  · rw [if_pos h]
  · rw [if_neg h]
    by_cases h1 : (S.domains (S.relays r).domain).waitq.isEmpty = true
    · by_cases e : x = r
      · subst e; simp [h1]
      · simp [h1, Function.update_noteq e]
    · by_cases e : x = r
      · subst e; simp [h1]
      · simp [h1, Function.update_noteq e]

theorem mta_query_limits_tasks (S : mta_state) (r : relay_ptr) :
    relay_tasks (mta_query_limits S r) = relay_tasks S := by
  unfold mta_query_limits relay_tasks
  dsimp only
  funext x
  by_cases e : x = r
  · subst e; split_ifs <;> simp
  · split_ifs <;> simp [Function.update_noteq e]

theorem mta_on_source_fail_tasks (S : mta_state) (r : relay_ptr) :
    relay_tasks (mta_on_source_fail S r) = relay_tasks S := by
  unfold mta_on_source_fail relay_tasks
  dsimp only
  funext x
  by_cases e : x = r
  · subst e; split_ifs <;> simp
  · split_ifs <;> simp [Function.update_noteq e]

theorem mta_source_unref_tasks (S : mta_state) (s : source_ptr) :
    relay_tasks (mta_source_unref S s) = relay_tasks S :=
  relay_tasks_of_relays (mta_source_unref_relays S s)

theorem relay_tasks_update (S : mta_state) (r : relay_ptr) (rec : struct_mta_relay)
    (h1 : rec.ntask = (S.relays r).ntask) (h2 : rec.tasks = (S.relays r).tasks) :
    relay_tasks { S with relays := Function.update S.relays r rec } = relay_tasks S := by
  unfold relay_tasks
  funext x
  by_cases e : x = r
  · subst e; simp [h1, h2]
  · simp [Function.update_noteq e]

theorem mta_on_source_connect_tasks (fuel : Nat) (now : Int) (S S1 : mta_state)
    (r : relay_ptr) (source : Option source_ptr) (delay : Int)
    (h : mta_on_source_connect fuel now S r source = some (S1, delay)) :
    relay_tasks S1 = relay_tasks S := by
  unfold mta_on_source_connect at h
  dsimp only at h
  have h0 : relay_tasks
      { S with
        relays := Function.update S.relays r
          (struct_mta_relay.mk (S.relays r).id (S.relays r).domain (S.relays r).flags
            (S.relays r).port (S.relays r).cert (S.relays r).backupname (S.relays r).backuppref
            (S.relays r).sourcetable (S.relays r).authtable (S.relays r).authlabel
            (S.relays r).secret (S.relays r).limits (S.relays r).status (S.relays r).refcount
            (S.relays r).ntask (S.relays r).tasks (S.relays r).connectors
            (S.relays r).sourceloop now (S.relays r).nextsource (S.relays r).nconn
            (S.relays r).nconn_ready (S.relays r).lastconn (S.relays r).fail
            (S.relays r).failstr) } = relay_tasks S :=
    relay_tasks_update S r _ rfl rfl
  generalize ({ S with
      relays := Function.update S.relays r
        (struct_mta_relay.mk (S.relays r).id (S.relays r).domain (S.relays r).flags
          (S.relays r).port (S.relays r).cert (S.relays r).backupname (S.relays r).backuppref
          (S.relays r).sourcetable (S.relays r).authtable (S.relays r).authlabel
          (S.relays r).secret (S.relays r).limits (S.relays r).status (S.relays r).refcount
          (S.relays r).ntask (S.relays r).tasks (S.relays r).connectors
          (S.relays r).sourceloop now (S.relays r).nextsource (S.relays r).nconn
          (S.relays r).nconn_ready (S.relays r).lastconn (S.relays r).fail
          (S.relays r).failstr) } : mta_state) = S0 at h h0
  cases source with
  | none =>
    simp only [Option.some.injEq, Prod.mk.injEq] at h
    rw [← h.1]
    exact h0
  | some s =>
    dsimp only at h
    have h2 : relay_tasks
        (if has_flag ((mta_connector S0 r s).connectors (r, s)).flags CONNECTOR_NEW = true then
          { mta_connector S0 r s with
            connectors := Function.update (mta_connector S0 r s).connectors (r, s)
              (struct_mta_connector.mk
                (clr_flag ((mta_connector S0 r s).connectors (r, s)).flags CONNECTOR_NEW)
                ((mta_connector S0 r s).connectors (r, s)).nconn
                ((mta_connector S0 r s).connectors (r, s)).lastconn) }
        else mta_connector S0 r s) = relay_tasks S0 := by
      split
      · exact mta_connector_tasks S0 r s
      · exact mta_connector_tasks S0 r s
    generalize (if has_flag ((mta_connector S0 r s).connectors (r, s)).flags CONNECTOR_NEW = true
        then
          ({ mta_connector S0 r s with
            connectors := Function.update (mta_connector S0 r s).connectors (r, s)
              (struct_mta_connector.mk
                (clr_flag ((mta_connector S0 r s).connectors (r, s)).flags CONNECTOR_NEW)
                ((mta_connector S0 r s).connectors (r, s)).nconn
                ((mta_connector S0 r s).connectors (r, s)).lastconn) } : mta_state)
        else mta_connector S0 r s) = S2 at h h2
    cases hc : mta_connect fuel now S2 (r, s) with
    | none => rw [hc] at h; cases h
    | some S3 =>
      rw [hc] at h
      dsimp only at h
      have h3 := mta_connect_tasks fuel now S2 S3 (r, s) hc
      split_ifs at h
      all_goals
        simp only [Option.some.injEq, Prod.mk.injEq] at h
        rw [← h.1, mta_source_unref_tasks]
        first
          | exact h3.trans (h2.trans h0)
          | (refine Eq.trans ?_ (h3.trans (h2.trans h0))
             exact relay_tasks_update S3 r _ rfl rfl)

/-- After `mta_flush` the relay has no task and `ntask = 0`; the tasks of the
other relays are as before. -/
theorem mta_flush_tasks (S T : mta_state) (r : relay_ptr) (fail : Nat) (error : String)
    (h : mta_flush S r fail error = mta_result.done T) :
    relay_tasks T = Function.update (relay_tasks S) r (0, []) := by
  by_cases hf : fail = IMSG_DELIVERY_TEMPFAIL ∨ fail = IMSG_DELIVERY_PERMFAIL
  · obtain ⟨T1, h1, h2⟩ := mta_flush_spec S r fail error hf
    rw [h1] at h
    injection h with h
    subst h
    rw [h2]
    unfold relay_tasks
    funext x
    by_cases e : x = r
    · subst e; simp
    · simp [Function.update_noteq e]
  · unfold mta_flush at h
    rw [if_pos (by tauto)] at h
    cases h

theorem task_acct_flush {T S : mta_state} {r : relay_ptr}
    (h : relay_tasks T = Function.update (relay_tasks S) r (0, [])) (hS : task_acct S) :
    task_acct T := by
  intro x
  have := congrFun h x
  unfold relay_tasks at this
  by_cases e : x = r
  · subst e
    simp only [Function.update_same, Prod.mk.injEq] at this
    rw [this.1, this.2]
    simp
  · simp only [Function.update_noteq e, Prod.mk.injEq] at this
    rw [this.1, this.2]
    exact hS x

theorem mta_result_bind_done {x : mta_result} {f : mta_state → mta_result} {T : mta_state}
    (h : x.bind f = mta_result.done T) : ∃ S1, x = mta_result.done S1 ∧ f S1 = mta_result.done T := by
  cases x with
  | done S1 => exact ⟨S1, rfl, h⟩
  | fatal msg => cases h
  | fuel => cases h

theorem mta_on_source_with_task_acct (drain : mta_state → relay_ptr → mta_result)
    (hd : ∀ S T r, task_acct S → drain S r = mta_result.done T → task_acct T)
    (fuel : Nat) (now : Int) (S T : mta_state) (r : relay_ptr) (source : Option source_ptr)
    (hS : task_acct S) (h : mta_on_source_with drain fuel now S r source = mta_result.done T) :
    task_acct T := by
  unfold mta_on_source_with at h
  cases hc : mta_on_source_connect fuel now S r source with
  | none => rw [hc] at h; cases h
  | some X =>
    obtain ⟨S1, delay⟩ := X
    rw [hc] at h
    dsimp only at h
    obtain ⟨S4, h4, h5⟩ := mta_result_bind_done h
    injection h5 with h5
    subst h5
    have t1 := mta_on_source_connect_tasks fuel now S S1 r source delay hc
    have a2 : task_acct (mta_on_source_fail S1 r) :=
      task_acct_of_tasks ((mta_on_source_fail_tasks S1 r).trans t1) hS
    refine task_acct_of_tasks (mta_relay_unref_tasks S4 r) (hd _ S4 r ?_ h4)
    exact task_acct_of_tasks (relay_tasks_update _ r _ rfl rfl) a2

theorem mta_query_source_with_task_acct (drain : mta_state → relay_ptr → mta_result)
    (hd : ∀ S T r, task_acct S → drain S r = mta_result.done T → task_acct T)
    (fuel : Nat) (now : Int) (S T : mta_state) (r : relay_ptr)
    (hS : task_acct S) (h : mta_query_source_with drain fuel now S r = mta_result.done T) :
    task_acct T := by
  have aux : ∀ S1 : mta_state, task_acct S1 →
      (match (S1.relays r).sourcetable with
        | none =>
          let S2 := mta_relay_ref S1 r
          mta_on_source_with drain fuel now (mta_source S2 none) r (some none)
        | some table =>
          if S1.wait_source.any (fun e => decide (e.1 = (S1.relays r).id)) then
            mta_result.fatal "tree_xset"
          else
            let r2 : struct_mta_relay :=
              { S1.relays r with status := set_flag (S1.relays r).status RELAY_WAIT_SOURCE }
            let S2 := { S1 with
              out := S1.out ++ [mta_event.lka_source (S1.relays r).id table]
              wait_source := S1.wait_source ++ [((S1.relays r).id, r)]
              relays := Function.update S1.relays r r2 }
            mta_result.done (mta_relay_ref S2 r)) = mta_result.done T → task_acct T := by
    intro S1 a1 h
    cases hst : (S1.relays r).sourcetable with
    | none =>
      rw [hst] at h
      dsimp only at h
      refine mta_on_source_with_task_acct drain hd fuel now _ T r _ ?_ h
      exact task_acct_of_tasks ((mta_source_tasks _ none).trans (mta_relay_ref_tasks S1 r)) a1
    | some table =>
      rw [hst] at h
      dsimp only at h
      by_cases hx : S1.wait_source.any (fun e => decide (e.1 = (S1.relays r).id)) = true
      · rw [if_pos hx] at h
        cases h
      rw [if_neg hx] at h
      injection h with h
      subst h
      refine task_acct_of_tasks (mta_relay_ref_tasks _ r) ?_
      refine task_acct_of_tasks ?_ a1
      unfold relay_tasks
      funext x
      by_cases e : x = r
      · subst e; simp
      · simp [Function.update_noteq e]
  unfold mta_query_source_with at h
  refine aux _ ?_ h
  exact task_acct_of_tasks (relay_tasks_update S r _ rfl rfl) hS

theorem mta_drain_with_task_acct (drain : mta_state → relay_ptr → mta_result)
    (hd : ∀ S T r, task_acct S → drain S r = mta_result.done T → task_acct T)
    (fuel : Nat) (now : Int) (S T : mta_state) (r : relay_ptr)
    (hS : task_acct S) (h : mta_drain_with drain fuel now S r = mta_result.done T) :
    task_acct T := by
  unfold mta_drain_with at h
  dsimp only at h
  by_cases h0 : (S.relays r).ntask = 0
  · rw [if_pos h0] at h
    injection h with h
    rw [← h]
    exact hS
  rw [if_neg h0] at h
  by_cases h1 : (S.relays r).fail ≠ 0
  · rw [if_pos h1] at h
    exact task_acct_flush (mta_flush_tasks S T r _ _ h) hS
  rw [if_neg h1] at h
  have p1 : task_acct
      (if has_flag (S.relays r).flags RELAY_AUTH = true ∧ (S.relays r).secret = none then
        mta_query_secret S r else S) := by
    split
    · exact task_acct_of_tasks (mta_query_secret_tasks S r) hS
    · exact hS
  generalize (if has_flag (S.relays r).flags RELAY_AUTH = true ∧ (S.relays r).secret = none then
    mta_query_secret S r else S) = S1 at h p1
  have p2 : task_acct
      (if (S1.relays r).backupname.isSome = true ∧ (S1.relays r).backuppref = -1 then
        mta_query_preference S1 r else S1) := by
    split
    · exact task_acct_of_tasks (mta_query_preference_tasks S1 r) p1
    · exact p1
  generalize (if (S1.relays r).backupname.isSome = true ∧ (S1.relays r).backuppref = -1 then
    mta_query_preference S1 r else S1) = S2 at h p2
  have p3 : task_acct
      (if (S2.domains (S2.relays r).domain).lastmxquery = 0 then mta_query_mx now S2 r
        else S2) := by
    split
    · exact task_acct_of_tasks (mta_query_mx_tasks now S2 r) p2
    · exact p2
  generalize (if (S2.domains (S2.relays r).domain).lastmxquery = 0 then
    mta_query_mx now S2 r else S2) = S3 at h p3
  have p4 : task_acct (if (S3.relays r).limits = none then mta_query_limits S3 r else S3) := by
    split
    · exact task_acct_of_tasks (mta_query_limits_tasks S3 r) p3
    · exact p3
  generalize (if (S3.relays r).limits = none then mta_query_limits S3 r else S3) = S4 at h p4
  by_cases hw : has_flag (S4.relays r).status RELAY_WAITMASK = true
  · rw [if_pos hw] at h
    injection h with h
    rw [← h]
    exact p4
  rw [if_neg hw] at h
  by_cases hn : (S4.relays r).nextsource ≤ now
  · rw [if_pos hn] at h
    exact mta_query_source_with_task_acct drain hd fuel now S4 T r p4 h
  · rw [if_neg hn] at h
    injection h with h
    rw [← h]
    refine task_acct_of_tasks (mta_relay_ref_tasks _ r) ?_
    refine task_acct_of_tasks ?_ p4
    unfold relay_tasks
    funext x
    by_cases e : x = r
    · subst e; simp
    · simp [Function.update_noteq e]

/-- `mta_drain` keeps the accounting of the tasks. -/
theorem mta_drain_task_acct (now : Int) :
    ∀ (fuel : Nat) (S T : mta_state) (r : relay_ptr), task_acct S →
      mta_drain fuel now S r = mta_result.done T → task_acct T := by
  intro fuel
  induction fuel with
  | zero => intro S T r _ h; simp [mta_drain] at h
  | succ n ih =>
    intro S T r hS h
    rw [mta_drain] at h
    exact mta_drain_with_task_acct (mta_drain n now) ih (n + 1) now S T r hS h

theorem mta_domain_relays (S : mta_state) (name : String) (flags : Nat) :
    (mta_domain S name flags).2.relays = S.relays ∧
      (mta_domain S name flags).2.relays_tree = S.relays_tree := by
  unfold mta_domain
  dsimp only
  split_ifs <;> exact ⟨rfl, rfl⟩

theorem relay_alloc_fresh (S : mta_state) : relay_alloc S ∉ S.relays_tree := by
  intro h
  have := (foldl_max_le S.relays_tree 0).2 _ h
  unfold relay_alloc at this
  omega

theorem mta_relay_key_relays (S : mta_state) (e : envelope) :
    (mta_relay_key S e).2.relays = S.relays ∧
      (mta_relay_key S e).2.relays_tree = S.relays_tree := by
  unfold mta_relay_key
  dsimp only
  split_ifs <;> exact mta_domain_relays S _ _

theorem mta_relay_intern_tasks (S : mta_state) (key : struct_mta_relay) :
    (relay_tasks (mta_relay_intern S key).2 = relay_tasks S ∧
        (mta_relay_intern S key).1 ∈ S.relays_tree) ∨
      (relay_tasks (mta_relay_intern S key).2 =
          Function.update (relay_tasks S) (mta_relay_intern S key).1 (0, []) ∧
        (mta_relay_intern S key).1 ∉ S.relays_tree) := by
  unfold mta_relay_intern
  cases hf : S.relays_tree.find? (fun r => decide (mta_relay_cmp key (S.relays r) = some 0)) with
  | none =>
    right
    dsimp only
    refine ⟨?_, relay_alloc_fresh S⟩
    rw [mta_relay_ref_tasks]
    unfold relay_tasks generate_uid
    funext x
    by_cases e : x = relay_alloc S
    · subst e; simp [calloc_relay]
    · simp [Function.update_noteq e]
  | some r =>
    left
    dsimp only
    refine ⟨?_, List.mem_of_find?_eq_some hf⟩
    rw [mta_relay_ref_tasks]
    exact relay_tasks_of_relays (mta_domain_unref_relays S key.domain)

/-- The tasks after `mta_relay`: those of the state of the call, the relay
returned being one of the tree, or a new one without task. -/
theorem mta_relay_tasks (S : mta_state) (e : envelope) :
    (relay_tasks (mta_relay S e).2 = relay_tasks S ∧ (mta_relay S e).1 ∈ S.relays_tree) ∨
      (relay_tasks (mta_relay S e).2 = Function.update (relay_tasks S) (mta_relay S e).1 (0, []) ∧
        (mta_relay S e).1 ∉ S.relays_tree) := by
  unfold mta_relay
  obtain ⟨k1, k2⟩ := mta_relay_key_relays S e
  have hk : relay_tasks (mta_relay_key S e).2 = relay_tasks S := relay_tasks_of_relays k1
  rcases mta_relay_intern_tasks (mta_relay_key S e).2 (mta_relay_key S e).1 with ⟨h1, h2⟩ | ⟨h1, h2⟩
  · left
    exact ⟨h1.trans hk, by rw [← k2]; exact h2⟩
  · right
    exact ⟨by rw [h1, hk], by rw [← k2]; exact h2⟩

theorem task_add_envelope_msgids (msgid : Nat) (e : mta_envelope) :
    ∀ ts : List mta_task, (task_add_envelope msgid e ts).map (fun t => t.msgid) =
      ts.map (fun t => t.msgid) := by
  intro ts
  induction ts with
  | nil => rfl
  | cons t ts ih =>
    unfold task_add_envelope
    split_ifs
    · simp
    · simp [ih]

theorem task_add_envelope_length (msgid : Nat) (e : mta_envelope) (ts : List mta_task) :
    (task_add_envelope msgid e ts).length = ts.length := by
  have := congrArg List.length (task_add_envelope_msgids msgid e ts)
  simpa using this

theorem find_msgid_none (msgid : Nat) (ts : List mta_task) :
    ts.find? (fun t => decide (t.msgid = msgid)) = none ↔ msgid ∉ ts.map (fun t => t.msgid) := by
  rw [List.find?_eq_none]
  simp only [decide_eq_true_eq, List.mem_map, not_exists, not_and]

/-- The task of the message is looked up or created and the envelope added:
the message id joins the ids of the relay at the tail unless it is among
them, the other relays keep their tasks, and the accounting is kept. -/
theorem mta_imsg_transfer_task_spec (S : mta_state) (r : relay_ptr) (evp : envelope)
    (hS : task_acct S) :
    task_acct (mta_imsg_transfer_task S r evp) ∧
      relay_msgids (mta_imsg_transfer_task S r evp) r =
        (if evpid_to_msgid evp.id ∈ relay_msgids S r then relay_msgids S r
          else relay_msgids S r ++ [evpid_to_msgid evp.id]) ∧
      ∀ x, x ≠ r → relay_tasks (mta_imsg_transfer_task S r evp) x = relay_tasks S x := by
  unfold mta_imsg_transfer_task relay_msgids
  dsimp only
  obtain ⟨a1, a2⟩ := hS r
  cases hf : (S.relays r).tasks.find? (fun t => decide (t.msgid = evpid_to_msgid evp.id)) with
  | some t =>
    have hm : evpid_to_msgid evp.id ∈ (S.relays r).tasks.map (fun t => t.msgid) := by
      by_contra hc
      rw [(find_msgid_none _ _).2 hc] at hf
      cases hf
    dsimp only
    rw [if_pos hm]
    refine ⟨?_, ?_, ?_⟩
    · intro x
      by_cases e : x = r
      · subst e
        simp only [Function.update_same]
        rw [task_add_envelope_length, task_add_envelope_msgids]
        exact ⟨a1, a2⟩
      · simp only [Function.update_noteq e]
        exact hS x
    · simp only [Function.update_same]
      rw [task_add_envelope_msgids]
    · intro x e
      unfold relay_tasks
      simp only [Function.update_noteq e]
  | none =>
    have hm : evpid_to_msgid evp.id ∉ (S.relays r).tasks.map (fun t => t.msgid) :=
      (find_msgid_none _ _).1 hf
    dsimp only
    rw [if_neg hm]
    refine ⟨?_, ?_, ?_⟩
    · intro x
      by_cases e : x = r
      · subst e
        simp only [Function.update_same]
        rw [task_add_envelope_length, task_add_envelope_msgids]
        refine ⟨by simp [a1], ?_⟩
        rw [List.map_append, List.nodup_append]
        refine ⟨a2, by simp, ?_⟩
        intro m hm1 hm2
        simp only [List.map_cons, List.map_nil, List.mem_singleton] at hm2
        subst hm2
        exact hm hm1
      · simp only [Function.update_noteq e]
        exact hS x
    · simp only [Function.update_same]
      rw [task_add_envelope_msgids]
      simp
    · intro x e
      unfold relay_tasks
      simp only [Function.update_noteq e]

theorem mta_imsg_transfer_task_acct (fuel : Nat) (now : Int) (S T : mta_state) (evp : envelope)
    (hS : task_acct S) (h : mta_imsg_transfer fuel now S evp = mta_result.done T) :
    task_acct T := by
  unfold mta_imsg_transfer at h
  dsimp only at h
  obtain ⟨S1, h1, h2⟩ := mta_result_bind_done h
  injection h2 with h2
  subst h2
  have hR : task_acct (mta_relay S evp).2 := by
    rcases mta_relay_tasks S evp with ⟨a, _⟩ | ⟨a, _⟩
    · exact task_acct_of_tasks a hS
    · exact task_acct_flush a hS
  have hq : task_acct (mta_imsg_transfer_enqueue S evp).2 :=
    (mta_imsg_transfer_task_spec _ _ evp hR).1
  exact task_acct_of_tasks (mta_relay_unref_tasks S1 _) (mta_drain_task_acct now fuel _ S1 _ hq h1)

theorem mta_route_next_task_spec (S : mta_state) (r : relay_ptr) (k : route_ptr) :
    (mta_route_next_task S r k).1 = (S.relays r).tasks.head? ∧
      relay_tasks (mta_route_next_task S r k).2 =
        Function.update (relay_tasks S) r
          (if (S.relays r).tasks = [] then (S.relays r).ntask else size_dec (S.relays r).ntask,
            (S.relays r).tasks.tail) := by
  unfold mta_route_next_task
  cases ht : (S.relays r).tasks with
  | nil =>
    dsimp only
    refine ⟨rfl, ?_⟩
    funext x
    unfold relay_tasks
    by_cases e : x = r
    · subst e; simp [ht]
    · simp [Function.update_noteq e]
  | cons t ts =>
    dsimp only
    refine ⟨rfl, ?_⟩
    funext x
    unfold relay_tasks
    by_cases e : x = r
    · subst e; simp
    · simp [Function.update_noteq e]

theorem task_acct_next_task (S : mta_state) (r : relay_ptr) (k : route_ptr) (hS : task_acct S) :
    task_acct (mta_route_next_task S r k).2 := by
  obtain ⟨_, h⟩ := mta_route_next_task_spec S r k
  intro x
  have hx := congrFun h x
  unfold relay_tasks at hx
  by_cases e : x = r
  · subst e
    simp only [Function.update_same, Prod.mk.injEq] at hx
    rw [hx.1, hx.2]
    obtain ⟨a1, a2⟩ := hS x
    cases ht : (S.relays x).tasks with
    | nil =>
      rw [ht] at a1
      simp [a1]
    | cons t ts =>
      rw [ht] at a1 a2
      simp only [List.map_cons, List.nodup_cons] at a2
      simp only [List.tail_cons, reduceCtorEq, if_false]
      refine ⟨?_, a2.2⟩
      rw [a1]
      exact size_dec_succ _
  · simp only [Function.update_noteq e, Prod.mk.injEq] at hx
    rw [hx.1, hx.2]
    exact hS x

theorem task_acct_init (dict : String → Option mta_limits) : task_acct (mta_init dict) := by
  intro r
  simp [mta_init, calloc_relay]

theorem task_reachable_acct {S : mta_state} (h : task_reachable S) : task_acct S := by
  induction h with
  | init dict => exact task_acct_init dict
  | transfer fuel now evp _ ht ih => exact mta_imsg_transfer_task_acct fuel now _ _ evp ih ht
  | next_task r k _ ih => exact task_acct_next_task _ r k ih
  | flush r fail error _ hf ih => exact task_acct_flush (mta_flush_tasks _ _ r fail error hf) ih
  | other _ ht ih => exact task_acct_of_tasks ht ih

theorem ex_transfer_reachable (S : mta_state) (evp : envelope) (hS : task_reachable S) :
    task_reachable (ex_transfer S evp) := by
  unfold ex_transfer
  cases h : mta_imsg_transfer 5 100 S evp with
  | done T => exact task_reachable.transfer 5 100 evp hS h
  | fatal msg => exact hS
  | fuel => exact hS

theorem ex_state_queued_reachable : task_reachable ex_state_queued :=
  ex_transfer_reachable _ _ (ex_transfer_reachable _ _ (ex_transfer_reachable _ _
    (task_reachable.init _)))

/-! ## The outcome of a search without route -/

theorem mta_find_route_mx_exam (now : Int) (l : mta_limits) (c : connector_ptr) (mx : mta_mx)
    (v : find_route_vars) (S : mta_state) :
    (mta_find_route_mx now l c mx v S).1 =
        find_route_exam.apply l c v
          { mx := mx, verdict := (mta_find_route_mx now l c mx v S).2.2, state := S } ∧
      find_route_exam.sound now l c
        { mx := mx, verdict := (mta_find_route_mx now l c mx v S).2.2, state := S } := by
  apply mta_find_route_mx_cases now l c mx v S (fun out =>
    out.1 = find_route_exam.apply l c v { mx := mx, verdict := out.2.2, state := S } ∧
      find_route_exam.sound now l c { mx := mx, verdict := out.2.2, state := S })
  case h_ignored =>
    intro _
    exact ⟨rfl, fun h => by simp [find_route_exam.delayed] at h, fun h => by cases h⟩
  case h_af => exact ⟨rfl, fun h => by simp [find_route_exam.delayed] at h, fun h => by cases h⟩
  case h_host_limit =>
    intro _
    exact ⟨rfl, fun h => by simp [find_route_exam.delayed] at h, fun h => by cases h⟩
  case h_host_delay =>
    intro hd
    exact ⟨rfl, fun _ => hd, fun h => by cases h⟩
  case h_suspended =>
    intro hs
    exact ⟨rfl, fun h => by simp [find_route_exam.delayed] at h, fun _ => hs⟩
  case h_not_validated =>
    intro _
    exact ⟨rfl, fun h => by simp [find_route_exam.delayed] at h, fun h => by cases h⟩
  case h_route_limit =>
    intro _
    exact ⟨rfl, fun h => by simp [find_route_exam.delayed] at h, fun h => by cases h⟩
  case h_conn_delay =>
    intro hd
    exact ⟨rfl, fun _ => hd, fun h => by cases h⟩
  case h_disc_delay =>
    intro hd
    exact ⟨rfl, fun _ => hd, fun h => by cases h⟩
  case h_worse =>
    intro b _
    exact ⟨rfl, fun h => by simp [find_route_exam.delayed] at h, fun h => by cases h⟩
  case h_selected =>
    intro T _ _ _ _ _
    exact ⟨rfl, fun h => by simp [find_route_exam.delayed] at h, fun h => by cases h⟩

theorem find_route_exam.apply_core (l : mta_limits) (c : connector_ptr) (a b : find_route_vars)
    (e : find_route_exam) (h : a.core = b.core) :
    (find_route_exam.apply l c a e).core = (find_route_exam.apply l c b e).core := by
  unfold find_route_vars.core at h ⊢
  simp only [Prod.mk.injEq] at h
  obtain ⟨h1, h2, h3, h4, h5, h6, h7⟩ := h
  unfold find_route_exam.apply
  cases e.verdict <;> simp [h1, h2, h3, h4, h5, h6, h7]

theorem find_route_exam.foldl_core (l : mta_limits) (c : connector_ptr) :
    ∀ (E : List find_route_exam) (a b : find_route_vars), a.core = b.core →
      (E.foldl (find_route_exam.apply l c) a).core =
        (E.foldl (find_route_exam.apply l c) b).core := by
  intro E
  induction E with
  | nil => intro a b h; exact h
  | cons e E ih =>
    intro a b h
    rw [List.foldl_cons, List.foldl_cons]
    exact ih _ _ (find_route_exam.apply_core l c a b e h)

theorem mta_find_route_level_core (bp : Int) (mx : mta_mx) (v v1 : find_route_vars)
    (h : mta_find_route_level bp mx v = Except.ok v1) : v1.core = v.core := by
  rcases mta_find_route_level_ok bp mx v v1 h with ⟨h1, _⟩ | ⟨h1, _⟩
  · rw [h1]
  · rw [h1]
    rfl

/-- The local variables at the end of the loop of `mta_find_route` are those
that the examined entries give, one after the other; every examined entry is
consistent with the clock, and the entries are those of the log. -/
theorem mta_find_route_loop_exams (now : Int) (l : mta_limits) (c : connector_ptr) :
    ∀ (mxs : List mta_mx) (v : find_route_vars) (S : mta_state),
      (mta_find_route_loop now l c mxs v S).vars.core =
          ((mta_find_route_exams now l c mxs v S).foldl (find_route_exam.apply l c) v).core ∧
        (∀ e ∈ mta_find_route_exams now l c mxs v S, find_route_exam.sound now l c e) ∧
        (mta_find_route_exams now l c mxs v S).map (fun e => (e.mx, e.verdict)) =
          (mta_find_route_loop now l c mxs v S).log := by
  intro mxs
  induction mxs with
  | nil =>
    intro v S
    refine ⟨rfl, ?_, rfl⟩
    intro e he
    simp [mta_find_route_exams] at he
  | cons mx rest ih =>
    intro v S
    cases h : mta_find_route_level (S.relays c.1).backuppref mx v with
    | error b =>
      rw [mta_find_route_loop_error now l c mx rest v S b h]
      have he : mta_find_route_exams now l c (mx :: rest) v S = [] := by
        rw [mta_find_route_exams, h]
      rw [he]
      refine ⟨rfl, ?_, rfl⟩
      intro e he
      cases he
    | ok v1 =>
      rw [mta_find_route_loop_ok now l c mx rest v v1 S h]
      have he : mta_find_route_exams now l c (mx :: rest) v S =
          { mx := mx, verdict := (mta_find_route_mx now l c mx v1 S).2.2, state := S } ::
            mta_find_route_exams now l c rest (mta_find_route_mx now l c mx v1 S).1
              (mta_find_route_mx now l c mx v1 S).2.1 := by
        rw [mta_find_route_exams, h]
      rw [he]
      obtain ⟨i1, i2, i3⟩ := ih (mta_find_route_mx now l c mx v1 S).1
        (mta_find_route_mx now l c mx v1 S).2.1
      obtain ⟨s1, s2⟩ := mta_find_route_mx_exam now l c mx v1 S
      refine ⟨?_, ?_, ?_⟩
      · dsimp only
        rw [List.foldl_cons, i1]
        apply find_route_exam.foldl_core
        rw [s1]
        exact find_route_exam.apply_core l c v1 v _ (mta_find_route_level_core _ mx v v1 h)
      · intro e hmem
        rcases List.mem_cons.1 hmem with rfl | hmem
        · exact s2
        · exact i2 e hmem
      · simp only [List.map_cons]
        rw [i3]

theorem find_route_exam.foldl_seen (l : mta_limits) (c : connector_ptr) :
    ∀ (E : List find_route_exam) (v : find_route_vars),
      (E.foldl (find_route_exam.apply l c) v).seen =
        v.seen + E.countP (fun e => decide (e.verdict ≠ mx_verdict.ignored)) := by
  intro E
  induction E with
  | nil => intro v; simp
  | cons e E ih =>
    intro v
    rw [List.foldl_cons, ih]
    unfold find_route_exam.apply
    cases hv : e.verdict <;> simp [List.countP_cons, hv] <;> omega

theorem find_route_exam.foldl_limit_route (l : mta_limits) (c : connector_ptr) :
    ∀ (E : List find_route_exam) (v : find_route_vars),
      (E.foldl (find_route_exam.apply l c) v).limit_route =
        (v.limit_route || E.any find_route_exam.route_blocked) := by
  intro E
  induction E with
  | nil => intro v; simp
  | cons e E ih =>
    intro v
    rw [List.foldl_cons, ih]
    unfold find_route_exam.apply find_route_exam.route_blocked
    cases hv : e.verdict <;> simp [hv, find_route_exam.route_blocked]

theorem find_route_exam.foldl_limit_host (l : mta_limits) (c : connector_ptr) :
    ∀ (E : List find_route_exam) (v : find_route_vars),
      (E.foldl (find_route_exam.apply l c) v).limit_host =
        (v.limit_host || E.any (fun e => decide (e.verdict = mx_verdict.host_limit))) := by
  intro E
  induction E with
  | nil => intro v; simp
  | cons e E ih =>
    intro v
    rw [List.foldl_cons, ih]
    unfold find_route_exam.apply
    cases hv : e.verdict <;> simp [hv]

theorem find_route_exam.foldl_family (l : mta_limits) (c : connector_ptr) :
    ∀ (E : List find_route_exam) (v : find_route_vars),
      (E.foldl (find_route_exam.apply l c) v).family_mismatch =
        (v.family_mismatch || E.any (fun e => decide (e.verdict = mx_verdict.af_mismatch))) := by
  intro E
  induction E with
  | nil => intro v; simp
  | cons e E ih =>
    intro v
    rw [List.foldl_cons, ih]
    unfold find_route_exam.apply
    cases hv : e.verdict <;> simp [hv]

theorem find_route_exam.foldl_best (l : mta_limits) (c : connector_ptr) :
    ∀ (E : List find_route_exam) (v : find_route_vars),
      (E.foldl (find_route_exam.apply l c) v).best = none →
        v.best = none ∧ ∀ e ∈ E, e.verdict ≠ mx_verdict.selected := by
  intro E
  induction E with
  | nil => intro v h; exact ⟨h, fun e he => by cases he⟩
  | cons e E ih =>
    intro v h
    rw [List.foldl_cons] at h
    obtain ⟨h1, h2⟩ := ih _ h
    unfold find_route_exam.apply at h1
    cases hv : e.verdict <;> rw [hv] at h1 <;> simp only at h1
    all_goals first
      | cases h1
      | (refine ⟨h1, fun x hx => ?_⟩
         rcases List.mem_cons.1 hx with rfl | hx
         · rw [hv]; simp
         · exact h2 x hx)

theorem find_route_exam.foldl_suspended (l : mta_limits) (c : connector_ptr) (k : Nat)
    (hk : ROUTE_DISABLED &&& k = k) :
    ∀ (E : List find_route_exam) (v : find_route_vars),
      has_flag (E.foldl (find_route_exam.apply l c) v).suspended_route k =
        (has_flag v.suspended_route k || E.any (find_route_exam.suspended_with c k)) := by
  have hand : ∀ a f : Nat, has_flag (a ||| (f &&& ROUTE_DISABLED)) k =
      (has_flag a k || has_flag f k) := by
    intro a f
    have := has_flag_set_flag a (f &&& ROUTE_DISABLED) k
    unfold set_flag at this
    rw [this]
    congr 1
    unfold has_flag
    rw [Nat.and_assoc, hk]
  intro E
  induction E with
  | nil => intro v; simp
  | cons e E ih =>
    intro v
    rw [List.foldl_cons, ih]
    unfold find_route_exam.apply find_route_exam.suspended_with
    cases hv : e.verdict <;>
      simp [hv, find_route_exam.suspended_with, hand, Bool.or_assoc]

theorem find_route_exam.foldl_tm (l : mta_limits) (c : connector_ptr) :
    ∀ (E : List find_route_exam) (v : find_route_vars),
      (E.foldl (find_route_exam.apply l c) v).tm =
        ((E.filter find_route_exam.delayed).map (find_route_exam.deadline l c)).foldl
          tm_min v.tm := by
  intro E
  induction E with
  | nil => intro v; simp
  | cons e E ih =>
    intro v
    rw [List.foldl_cons, ih]
    unfold find_route_exam.apply
    cases hv : e.verdict <;> simp [hv, find_route_exam.delayed, List.filter_cons]

theorem earliest_cons (d : Int) (ds : List Int) :
    earliest (d :: ds) = some (match earliest ds with
      | none => d
      | some m => min d m) := rfl

theorem earliest_pos : ∀ (ds : List Int) (m : Int), (∀ d ∈ ds, 0 < d) → earliest ds = some m →
    0 < m := by
  intro ds
  induction ds with
  | nil => intro m _ h; cases h
  | cons d ds ih =>
    intro m hd h
    rw [earliest_cons] at h
    have h0 : 0 < d := hd d (List.mem_cons_self _ _)
    cases he : earliest ds with
    | none =>
      rw [he] at h
      simp only [Option.some.injEq] at h
      omega
    | some m1 =>
      rw [he] at h
      simp only [Option.some.injEq] at h
      have := ih m1 (fun x hx => hd x (List.mem_cons_of_mem _ hx)) he
      rw [← h]
      exact lt_min h0 this

theorem tm_min_eq (t d : Int) : tm_min t d = if t = 0 then d else min t d := by
  unfold tm_min
  by_cases h1 : t = 0
  · simp [h1]
  · by_cases h2 : d < t
    · simp [h1, h2, min_eq_right (le_of_lt h2)]
    · simp [h1, h2, min_eq_left (not_lt.1 h2)]

theorem foldl_tm_min_earliest : ∀ (ds : List Int) (t : Int), (∀ d ∈ ds, 0 < d) → 0 ≤ t →
    ds.foldl tm_min t =
      match earliest ds with
      | none => t
      | some m => if t = 0 then m else min t m := by
  intro ds
  induction ds with
  | nil => intro t _ _; rfl
  | cons d ds ih =>
    intro t hd ht
    have h0 : 0 < d := hd d (List.mem_cons_self _ _)
    have hds : ∀ x ∈ ds, 0 < x := fun x hx => hd x (List.mem_cons_of_mem _ hx)
    have ht1 : 0 < tm_min t d := by
      rw [tm_min_eq]
      split_ifs with h
      · exact h0
      · exact lt_min (by omega) h0
    rw [List.foldl_cons, ih (tm_min t d) hds (le_of_lt ht1), earliest_cons]
    cases he : earliest ds with
    | none =>
      dsimp only
      exact tm_min_eq t d
    | some m =>
      dsimp only
      rw [if_neg (by omega), tm_min_eq]
      by_cases h1 : t = 0
      · simp [h1]
      · simp only [h1, if_false]
        exact min_assoc t d m

theorem mta_find_route_mx_worse (now : Int) (l : mta_limits) (c : connector_ptr) (mx : mta_mx)
    (v : find_route_vars) (S : mta_state)
    (h : (mta_find_route_mx now l c mx v S).2.2 = mx_verdict.worse) : v.best ≠ none := by
  revert h
  apply mta_find_route_mx_cases now l c mx v S (fun out =>
    out.2.2 = mx_verdict.worse → v.best ≠ none)
  case h_worse =>
    intro b hb _
    rw [hb]
    simp
  all_goals intros; simp_all

/-- A loop that ends without candidate has selected none and has found none
worse than a candidate. -/
theorem mta_find_route_loop_no_candidate (now : Int) (l : mta_limits) (c : connector_ptr) :
    ∀ (mxs : List mta_mx) (v : find_route_vars) (S : mta_state),
      (mta_find_route_loop now l c mxs v S).vars.best = none →
        v.best = none ∧ ∀ e ∈ mta_find_route_exams now l c mxs v S,
          e.verdict ≠ mx_verdict.worse ∧ e.verdict ≠ mx_verdict.selected := by
  intro mxs
  induction mxs with
  | nil =>
    intro v S h
    refine ⟨h, fun e he => ?_⟩
    simp [mta_find_route_exams] at he
  | cons mx rest ih =>
    intro v S h
    cases hl : mta_find_route_level (S.relays c.1).backuppref mx v with
    | error b =>
      rw [mta_find_route_loop_error now l c mx rest v S b hl] at h
      have he : mta_find_route_exams now l c (mx :: rest) v S = [] := by
        rw [mta_find_route_exams, hl]
      rw [he]
      exact ⟨h, fun e he => by cases he⟩
    | ok v1 =>
      rw [mta_find_route_loop_ok now l c mx rest v v1 S hl] at h
      have he : mta_find_route_exams now l c (mx :: rest) v S =
          { mx := mx, verdict := (mta_find_route_mx now l c mx v1 S).2.2, state := S } ::
            mta_find_route_exams now l c rest (mta_find_route_mx now l c mx v1 S).1
              (mta_find_route_mx now l c mx v1 S).2.1 := by
        rw [mta_find_route_exams, hl]
      rw [he]
      obtain ⟨i1, i2⟩ := ih _ _ h
      have hb1 := mta_find_route_level_best _ mx v v1 hl
      rcases mta_find_route_mx_best now l c mx v1 S with ⟨_, hbest⟩ | ⟨hns, hbest⟩
      · rw [hbest] at i1
        cases i1
      · rw [hbest] at i1
        refine ⟨by rw [← hb1]; exact i1, fun e hmem => ?_⟩
        rcases List.mem_cons.1 hmem with rfl | hmem
        · refine ⟨fun hw => ?_, hns⟩
          exact mta_find_route_mx_worse now l c mx v1 S hw i1
        · exact i2 e hmem

theorem find_route_exam.foldl_suspended_zero (l : mta_limits) (c : connector_ptr) :
    ∀ (E : List find_route_exam) (v : find_route_vars),
      (E.foldl (find_route_exam.apply l c) v).suspended_route = 0 ↔
        v.suspended_route = 0 ∧ ∀ e ∈ E, e.verdict = mx_verdict.suspended →
          (e.route c).flags &&& ROUTE_DISABLED = 0 := by
  intro E
  induction E with
  | nil => intro v; simp
  | cons e E ih =>
    intro v
    rw [List.foldl_cons, ih]
    unfold find_route_exam.apply
    cases hv : e.verdict <;> simp [hv, or_eq_zero_iff_nat, and_assoc]

/-- The statements after the loop apply the outcome that the specification
gives for the examined entries. -/
theorem mta_find_route_none_classify (now : Int) (l : mta_limits) (c : connector_ptr)
    (X : mta_state) (V : find_route_vars) (E : List find_route_exam) (limits : Nat)
    (nextconn : Int) (h0 : 0 ≤ now)
    (hcore : V.core = (E.foldl (find_route_exam.apply l c) find_route_vars_init).core)
    (hsound : ∀ e ∈ E, find_route_exam.sound now l c e)
    (hcand : ∀ e ∈ E, e.verdict ≠ mx_verdict.worse ∧ e.verdict ≠ mx_verdict.selected) :
    ∃ o, no_route_classify l c E = some o ∧
      mta_find_route_none X c V limits nextconn = o.apply X c limits nextconn := by
  unfold find_route_vars.core at hcore
  simp only [Prod.mk.injEq] at hcore
  obtain ⟨htm, hlh, hlr, hsr, hfm, _, hseen⟩ := hcore
  rw [find_route_exam.foldl_tm] at htm
  rw [find_route_exam.foldl_limit_host] at hlh
  rw [find_route_exam.foldl_limit_route] at hlr
  rw [find_route_exam.foldl_family] at hfm
  rw [find_route_exam.foldl_seen] at hseen
  simp only [find_route_vars_init, Bool.false_or, Nat.zero_add] at htm hlh hlr hfm hseen
  have hds : ∀ d ∈ (E.filter find_route_exam.delayed).map (find_route_exam.deadline l c),
      0 < d := by
    intro d hd
    obtain ⟨e, he, rfl⟩ := List.mem_map.1 hd
    obtain ⟨he1, he2⟩ := List.mem_filter.1 he
    have := (hsound e he1).1 he2
    omega
  rw [foldl_tm_min_earliest _ 0 hds (le_refl 0)] at htm
  have hsn : ∀ k, ROUTE_DISABLED &&& k = k →
      has_flag V.suspended_route k = E.any (find_route_exam.suspended_with c k) := by
    intro k hk
    rw [hsr, find_route_exam.foldl_suspended l c k hk]
    simp [find_route_vars_init, has_flag]
  have hs0 : V.suspended_route = 0 ↔
      E.any (fun e => decide (e.verdict = mx_verdict.suspended)) = false := by
    rw [hsr, find_route_exam.foldl_suspended_zero]
    simp only [find_route_vars_init, true_and]
    constructor
    · intro h
      rw [List.any_eq_false]
      intro e he hv
      have hv1 : e.verdict = mx_verdict.suspended := by simpa using hv
      have h1 := h e he hv1
      have h2 := (hsound e he).2 hv1
      rw [has_flag_true_iff] at h2
      exact h2 h1
    · intro h e he hv
      rw [List.any_eq_false] at h
      exact absurd (by simpa using hv) (h e he)
  unfold mta_find_route_none no_route_classify
  dsimp only
  by_cases c1 : V.seen = 0
  · have hall : E.all (fun e => decide (e.verdict = mx_verdict.ignored)) = true := by
      rw [List.all_eq_true]
      intro e he
      rw [hseen] at c1
      rw [List.countP_eq_zero] at c1
      have := c1 e he
      simpa using this
    rw [if_pos c1, if_pos hall]
    exact ⟨_, rfl, rfl⟩
  have hnall : ¬ E.all (fun e => decide (e.verdict = mx_verdict.ignored)) = true := by
    intro hall
    apply c1
    rw [hseen, List.countP_eq_zero]
    intro e he
    rw [List.all_eq_true] at hall
    have := hall e he
    simpa using this
  rw [if_neg c1, if_neg hnall]
  by_cases c2 : V.limit_route = true
  · rw [if_pos c2, if_pos (by rw [← hlr]; exact c2)]
    exact ⟨_, rfl, rfl⟩
  rw [if_neg c2, if_neg (by rw [← hlr]; exact c2)]
  by_cases c3 : V.limit_host = true
  · rw [if_pos c3, if_pos (by rw [← hlh]; exact c3)]
    exact ⟨_, rfl, rfl⟩
  rw [if_neg c3, if_neg (by rw [← hlh]; exact c3)]
  cases he : earliest ((E.filter find_route_exam.delayed).map (find_route_exam.deadline l c)) with
  | some t =>
    rw [he] at htm
    simp only [if_true] at htm
    have ht := earliest_pos _ t hds he
    have hne : V.tm ≠ 0 := by rw [htm]; omega
    rw [if_pos hne]
    refine ⟨_, rfl, ?_⟩
    rw [htm]
    rfl
  | none =>
    rw [he] at htm
    dsimp only at htm
    have hz0 : ¬ V.tm ≠ 0 := by rw [htm]; simp
    rw [if_neg hz0]
    dsimp only
    by_cases c5 : V.family_mismatch = true
    · rw [if_pos c5, if_pos (by rw [← hfm]; exact c5)]
      exact ⟨_, rfl, rfl⟩
    rw [if_neg c5, if_neg (by rw [← hfm]; exact c5)]
    by_cases c6 : V.suspended_route ≠ 0
    · have hany : E.any (fun e => decide (e.verdict = mx_verdict.suspended)) = true := by
        by_contra hc
        exact c6 (hs0.2 (by simpa using hc))
      rw [if_pos c6, if_pos hany]
      refine ⟨_, rfl, ?_⟩
      rw [hsn ROUTE_DISABLED_NET (by decide), hsn ROUTE_DISABLED_SMTP (by decide)]
      rfl
    · exfalso
      have hz : V.suspended_route = 0 := by simpa using c6
      have hnos := hs0.1 hz
      rw [List.all_eq_true] at hnall
      push_neg at hnall
      obtain ⟨e, he1, he2⟩ := hnall
      have he3 : e.verdict ≠ mx_verdict.ignored := by simpa using he2
      obtain ⟨w1, w2⟩ := hcand e he1
      have n2 : E.any find_route_exam.route_blocked = false := by
        rw [← hlr]; simpa using c2
      have n3 : E.any (fun e => decide (e.verdict = mx_verdict.host_limit)) = false := by
        rw [← hlh]; simpa using c3
      have n5 : E.any (fun e => decide (e.verdict = mx_verdict.af_mismatch)) = false := by
        rw [← hfm]; simpa using c5
      have n4 : E.filter find_route_exam.delayed = [] := by
        cases hf : E.filter find_route_exam.delayed with
        | nil => rfl
        | cons a as =>
          rw [hf] at he
          simp [earliest_cons] at he
      rw [List.any_eq_false] at n2 n3 n5 hnos
      have m2 := n2 e he1
      have m3 := n3 e he1
      have m5 := n5 e he1
      have m6 := hnos e he1
      have m4 : find_route_exam.delayed e = false := by
        by_contra hc
        have : e ∈ E.filter find_route_exam.delayed :=
          List.mem_filter.2 ⟨he1, by simpa using hc⟩
        rw [n4] at this
        cases this
      unfold find_route_exam.route_blocked at m2
      unfold find_route_exam.delayed at m4
      cases hv : e.verdict <;> simp_all

theorem mta_find_route_result_best (S : mta_state) (c : connector_ptr) (now : Int)
    (limits : Nat) (nextconn : Int)
    (h : (mta_find_route S c now limits nextconn).route = none) :
    (mta_find_route_loop now (deref_limits (S.relays c.1).limits) c
      (S.domains (S.relays c.1).domain).mxs find_route_vars_init S).vars.best = none := by
  unfold mta_find_route at h
  dsimp only at h
  split at h
  · cases h
  · assumption

/-! ## Least-loaded selection -/

theorem mta_route_unref_nconn (now : Int) (S : mta_state) (k b : route_ptr) :
    ((mta_route_unref now S k).routes b).nconn = (S.routes b).nconn := by
  rcases mta_route_unref_cases now S k with ⟨_, h, _⟩ | ⟨_, h, _⟩ | ⟨_, h, _⟩ <;>
    · rw [h]
      by_cases e : b = k
      · subst e
        rw [Function.update_same]
      · rw [Function.update_noteq e]

theorem mta_route_in_use_new (S : mta_state) (s : source_ptr) (d : host_ptr)
    (hS : routes_referenced S) : route_in_use (mta_route S s d) (s, d) := by
  unfold route_in_use
  rcases mta_route_cases S s d with ⟨h1, h2, h3, h4, _⟩ | ⟨h1, h2, h3, h4, _⟩ | ⟨h1, h3, h4, _⟩
  · rw [h3, h4, Function.update_same]
    have := hS.2 _ h1
    refine ⟨h1, ?_, by dsimp only; omega⟩
    exact has_flag_clr_flag_of_submask _ _ _ (by decide)
  · rw [h3, h4, Function.update_same]
    have := hS.2 _ h1
    exact ⟨h1, h2, by dsimp only; omega⟩
  · rw [h3, h4, Function.update_same]
    exact ⟨List.mem_cons_self _ _, by dsimp only; decide, by dsimp only; decide⟩

theorem routes_referenced_route (S : mta_state) (s : source_ptr) (d : host_ptr)
    (hS : routes_referenced S) : routes_referenced (mta_route S s d) := by
  obtain ⟨n, r⟩ := hS
  unfold routes_referenced
  rcases mta_route_cases S s d with ⟨h1, h2, h3, h4, _⟩ | ⟨h1, h2, h3, h4, _⟩ | ⟨h1, h3, h4, _⟩
  · rw [h3, h4]
    refine ⟨n, fun k hk => ?_⟩
    have := r k hk
    by_cases e : k = (s, d)
    · subst e
      rw [Function.update_same]
      dsimp only
      omega
    · rw [Function.update_noteq e]
      exact this
  · rw [h3, h4]
    refine ⟨n, fun k hk => ?_⟩
    have := r k hk
    by_cases e : k = (s, d)
    · subst e
      rw [Function.update_same]
      dsimp only
      omega
    · rw [Function.update_noteq e]
      exact this
  · rw [h3, h4]
    refine ⟨List.nodup_cons.2 ⟨h1, n⟩, fun k hk => ?_⟩
    by_cases e : k = (s, d)
    · subst e
      rw [Function.update_same]
    · rw [Function.update_noteq e]
      rcases List.mem_cons.1 hk with h | h
      · exact absurd h e
      · exact r k h

theorem routes_referenced_unref (now : Int) (S : mta_state) (k : route_ptr)
    (hS : routes_referenced S) : routes_referenced (mta_route_unref now S k) := by
  obtain ⟨n, r⟩ := hS
  unfold routes_referenced
  rcases mta_route_unref_cases now S k with ⟨h0, h3, h4, _⟩ | ⟨h0, h3, h4, _⟩ | ⟨h0, h3, h4, _⟩
  · rw [h3, h4]
    refine ⟨n, fun x hx => ?_⟩
    have := r x hx
    by_cases e : x = k
    · subst e
      rw [Function.update_same]
      dsimp only
      omega
    · rw [Function.update_noteq e]
      exact this
  · rw [h3, h4]
    refine ⟨n, fun x hx => ?_⟩
    have := r x hx
    by_cases e : x = k
    · subst e
      rw [Function.update_same]
    · rw [Function.update_noteq e]
      exact this
  · rw [h3, h4]
    refine ⟨n.erase k, fun x hx => ?_⟩
    have hx1 := (List.Nodup.mem_erase_iff n).1 hx
    rw [Function.update_noteq hx1.1]
    exact r x hx1.2

theorem mta_route_in_use (S : mta_state) (s : source_ptr) (d : host_ptr) (b : route_ptr)
    (hb : route_in_use S b) :
    route_in_use (mta_route S s d) b ∧
      ((mta_route S s d).routes b).nconn = (S.routes b).nconn ∧
      (b = (s, d) → 2 ≤ ((mta_route S s d).routes b).refcount) := by
  obtain ⟨b1, b2, b3⟩ := hb
  unfold route_in_use
  by_cases e : b = (s, d)
  · subst e
    rcases mta_route_cases S s d with ⟨h1, h2, h3, h4, _⟩ | ⟨h1, h2, h3, h4, _⟩ | ⟨h1, h3, h4, _⟩
    · rw [b2] at h2
      cases h2
    · rw [h3, h4, Function.update_same]
      exact ⟨⟨h1, h2, by dsimp only; omega⟩, rfl, fun _ => by dsimp only; omega⟩
    · exact absurd b1 h1
  · rcases mta_route_cases S s d with ⟨h1, h2, h3, h4, _⟩ | ⟨h1, h2, h3, h4, _⟩ | ⟨h1, h3, h4, _⟩
    · rw [h3, h4, Function.update_noteq e]
      exact ⟨⟨b1, b2, b3⟩, rfl, fun h => absurd h e⟩
    · rw [h3, h4, Function.update_noteq e]
      exact ⟨⟨b1, b2, b3⟩, rfl, fun h => absurd h e⟩
    · rw [h3, h4, Function.update_noteq e]
      exact ⟨⟨List.mem_cons_of_mem _ b1, b2, b3⟩, rfl, fun h => absurd h e⟩

theorem mta_route_unref_in_use (now : Int) (S : mta_state) (k b : route_ptr)
    (hb : route_in_use S b) (h2 : b = k → 2 ≤ (S.routes b).refcount) :
    route_in_use (mta_route_unref now S k) b := by
  obtain ⟨b1, b2, b3⟩ := hb
  unfold route_in_use
  by_cases e : b = k
  · subst e
    have := h2 rfl
    rcases mta_route_unref_cases now S b with ⟨_, h3, h4, _⟩ | ⟨h0, _⟩ | ⟨h0, _⟩
    · rw [h3, h4, Function.update_same]
      exact ⟨b1, b2, by dsimp only; omega⟩
    · omega
    · omega
  · rcases mta_route_unref_cases now S k with ⟨_, h3, h4, _⟩ | ⟨_, h3, h4, _⟩ | ⟨_, h3, h4, _⟩
    · rw [h3, h4, Function.update_noteq e]
      exact ⟨b1, b2, b3⟩
    · rw [h3, h4, Function.update_noteq e]
      exact ⟨b1, b2, b3⟩
    · rw [h3, h4, Function.update_noteq e]
      exact ⟨(List.mem_erase_of_ne e).2 b1, b2, b3⟩

/-- A route in use stays in use, with its `nconn`, when the loop body interns a
route and releases it again. -/
theorem mta_route_probe_in_use (now : Int) (S : mta_state) (s : source_ptr) (d : host_ptr)
    (b : route_ptr) (hb : route_in_use S b) :
    route_in_use (mta_route_unref now (mta_route S s d) (s, d)) b ∧
      ((mta_route_unref now (mta_route S s d) (s, d)).routes b).nconn = (S.routes b).nconn := by
  obtain ⟨h1, h2, h3⟩ := mta_route_in_use S s d b hb
  exact ⟨mta_route_unref_in_use now _ _ b h1 h3, by rw [mta_route_unref_nconn, h2]⟩

theorem mta_find_route_mx_select (now : Int) (l : mta_limits) (c : connector_ptr) (mx : mta_mx)
    (v : find_route_vars) (S : mta_state) (hS : routes_referenced S) (hv : best_held v S) :
    find_route_step_ok c mx v S (mta_find_route_mx now l c mx v S) := by
  have hsame : ∀ (v1 : find_route_vars) (w : mx_verdict), v1.best = v.best →
      w ≠ mx_verdict.selected → w ≠ mx_verdict.worse → find_route_step_ok c mx v S (v1, S, w) := by
    intro v1 w h1 h2 h3
    refine ⟨hS, ?_, fun h => absurd h h2, fun _ => ⟨h1, fun _ _ => rfl⟩, fun h => absurd h h3⟩
    intro b hb
    rw [h1] at hb
    exact hv b hb
  have hprobe : ∀ (v1 : find_route_vars) (w : mx_verdict), v1.best = v.best →
      w ≠ mx_verdict.selected → w ≠ mx_verdict.worse →
      find_route_step_ok c mx v S
        (v1, mta_route_unref now (mta_route S c.2 mx.host) (c.2, mx.host), w) := by
    intro v1 w h1 h2 h3
    refine ⟨routes_referenced_unref now _ _ (routes_referenced_route S _ _ hS), ?_,
      fun h => absurd h h2, fun _ => ⟨h1, fun b hb => ?_⟩, fun h => absurd h h3⟩
    · intro b hb
      rw [h1] at hb
      exact (mta_route_probe_in_use now S c.2 mx.host b (hv b hb)).1
    · exact (mta_route_probe_in_use now S c.2 mx.host b (hv b hb)).2
  unfold mta_find_route_mx
  dsimp only
  by_cases c1 : has_flag (S.hosts mx.host).flags HOST_IGNORE = true
  · rw [if_pos c1]; exact hsame _ _ rfl (by decide) (by decide)
  rw [if_neg c1]
  by_cases c2 : af_mismatch c.2 l mx.host = true
  · rw [if_pos c2]; exact hsame _ _ rfl (by decide) (by decide)
  rw [if_neg c2]
  by_cases c3 : (S.hosts mx.host).nconn ≥ l.maxconn_per_host
  · rw [if_pos c3]; exact hsame _ _ rfl (by decide) (by decide)
  rw [if_neg c3]
  by_cases c4 : (S.hosts mx.host).lastconn + l.conndelay_host > now
  · rw [if_pos c4]; exact hsame _ _ rfl (by decide) (by decide)
  rw [if_neg c4]
  by_cases c5 :
      has_flag ((mta_route S c.2 mx.host).routes (c.2, mx.host)).flags ROUTE_DISABLED = true
  · rw [if_pos c5]; exact hprobe _ _ rfl (by decide) (by decide)
  rw [if_neg c5]
  by_cases c6 : ((mta_route S c.2 mx.host).routes (c.2, mx.host)).nconn ≠ 0 ∧
      has_flag ((mta_route S c.2 mx.host).routes (c.2, mx.host)).flags ROUTE_NEW = true
  · rw [if_pos c6]; exact hprobe _ _ rfl (by decide) (by decide)
  rw [if_neg c6]
  by_cases c7 : ((mta_route S c.2 mx.host).routes (c.2, mx.host)).nconn ≥ l.maxconn_per_route
  · rw [if_pos c7]; exact hprobe _ _ rfl (by decide) (by decide)
  rw [if_neg c7]
  by_cases c8 :
      ((mta_route S c.2 mx.host).routes (c.2, mx.host)).lastconn + l.conndelay_route > now
  · rw [if_pos c8]; exact hprobe _ _ rfl (by decide) (by decide)
  rw [if_neg c8]
  by_cases c9 :
      ((mta_route S c.2 mx.host).routes (c.2, mx.host)).lastdisc + l.discdelay_route > now
  · rw [if_pos c9]; exact hprobe _ _ rfl (by decide) (by decide)
  rw [if_neg c9]
  have hS1 := routes_referenced_route S c.2 mx.host hS
  have hnew := mta_route_in_use_new S c.2 mx.host hS
  cases hb : v.best with
  | none =>
    unfold find_route_step_ok
    dsimp only
    refine ⟨hS1, ?_, ?_, ?_, ?_⟩
    · intro b h
      cases h
      exact hnew
    · intro _
      refine ⟨rfl, rfl, fun b h => ?_⟩
      rw [hb] at h
      cases h
    · intro h
      exact absurd rfl h
    · intro h
      cases h
  | some b =>
    obtain ⟨u1, u2, u3⟩ := mta_route_in_use S c.2 mx.host b (hv b hb)
    obtain ⟨p1, p2⟩ := mta_route_probe_in_use now S c.2 mx.host b (hv b hb)
    by_cases c10 : ((mta_route S c.2 mx.host).routes (c.2, mx.host)).nconn ≥
        ((mta_route S c.2 mx.host).routes b).nconn
    · unfold find_route_step_ok
      dsimp only
      rw [if_pos c10]
      dsimp only
      refine ⟨routes_referenced_unref now _ _ hS1, ?_, ?_, ?_, ?_⟩
      · intro b1 h1
        cases h1
        exact p1
      · intro h
        cases h
      · intro _
        refine ⟨hb.symm, fun b1 h1 => ?_⟩
        rw [hb] at h1
        cases h1
        exact p2
      · intro _
        refine ⟨b, hb.symm ▸ rfl, ?_⟩
        rw [← u2]
        exact c10
    · have hne : (c.2, mx.host) ≠ b := by
        intro e
        rw [e] at c10
        exact c10 (Nat.le_refl _)
      unfold find_route_step_ok
      dsimp only
      rw [if_neg c10]
      dsimp only
      refine ⟨routes_referenced_unref now _ _ hS1, ?_, ?_, ?_, ?_⟩
      · intro b1 h1
        cases h1
        exact mta_route_unref_in_use now _ b _ hnew (fun e => absurd e hne)
      · intro _
        refine ⟨rfl, ?_, fun b1 h1 => ?_⟩
        · rw [mta_route_unref_nconn]
        · rw [hb] at h1
          cases h1
          rw [← u2]
          omega
      · intro h
        exact absurd rfl h
      · intro h
        cases h

theorem find_route_exam.candidate_iff (e : find_route_exam) :
    e.candidate = true ↔ e.verdict = mx_verdict.worse ∨ e.verdict = mx_verdict.selected := by
  unfold find_route_exam.candidate
  simp

theorem mta_find_route_exams_error (now : Int) (l : mta_limits) (c : connector_ptr) (mx : mta_mx)
    (rest : List mta_mx) (v : find_route_vars) (S : mta_state) (b : loop_break)
    (h : mta_find_route_level (S.relays c.1).backuppref mx v = Except.error b) :
    mta_find_route_exams now l c (mx :: rest) v S = [] := by
  rw [mta_find_route_exams, h]

theorem mta_find_route_exams_ok (now : Int) (l : mta_limits) (c : connector_ptr) (mx : mta_mx)
    (rest : List mta_mx) (v v1 : find_route_vars) (S : mta_state)
    (h : mta_find_route_level (S.relays c.1).backuppref mx v = Except.ok v1) :
    mta_find_route_exams now l c (mx :: rest) v S =
      { mx := mx, verdict := (mta_find_route_mx now l c mx v1 S).2.2, state := S } ::
        mta_find_route_exams now l c rest (mta_find_route_mx now l c mx v1 S).1
          (mta_find_route_mx now l c mx v1 S).2.1 := by
  rw [mta_find_route_exams, h]

/-- The candidate at the end of the loop of `mta_find_route`: either the one
at the start, and then no examined entry had fewer connections, or a selected
entry that has fewer connections than every candidate before it and than the
candidate at the start, and at most the connections of every candidate after
it. -/
theorem mta_find_route_loop_select (now : Int) (l : mta_limits) (c : connector_ptr) :
    ∀ (mxs : List mta_mx) (v : find_route_vars) (S : mta_state),
      routes_referenced S → best_held v S →
      ∀ k, (mta_find_route_loop now l c mxs v S).vars.best = some k →
        (v.best = some k ∧
          ((mta_find_route_loop now l c mxs v S).state.routes k).nconn = (S.routes k).nconn ∧
          ∀ x ∈ mta_find_route_exams now l c mxs v S, x.candidate = true →
            (S.routes k).nconn ≤ (x.route c).nconn) ∨
        (∃ E1 e E2, mta_find_route_exams now l c mxs v S = E1 ++ e :: E2 ∧
          e.verdict = mx_verdict.selected ∧ k = (c.2, e.mx.host) ∧
          ((mta_find_route_loop now l c mxs v S).state.routes k).nconn = (e.route c).nconn ∧
          (∀ x ∈ E1, x.candidate = true → (e.route c).nconn < (x.route c).nconn) ∧
          (∀ x ∈ E2, x.candidate = true → (e.route c).nconn ≤ (x.route c).nconn) ∧
          ∀ b, v.best = some b → (e.route c).nconn < (S.routes b).nconn) := by
  intro mxs
  induction mxs with
  | nil =>
    intro v S _ _ k hk
    left
    refine ⟨hk, rfl, ?_⟩
    intro x hx
    simp [mta_find_route_exams] at hx
  | cons mx rest ih =>
    intro v S hS hv k hk
    cases h : mta_find_route_level (S.relays c.1).backuppref mx v with
    | error b =>
      rw [mta_find_route_loop_error now l c mx rest v S b h] at hk ⊢
      rw [mta_find_route_exams_error now l c mx rest v S b h]
      left
      refine ⟨hk, rfl, ?_⟩
      intro x hx
      cases hx
    | ok v1 =>
      rw [mta_find_route_loop_ok now l c mx rest v v1 S h] at hk ⊢
      rw [mta_find_route_exams_ok now l c mx rest v v1 S h]
      have hb1 : v1.best = v.best := mta_find_route_level_best _ mx v v1 h
      have hv1 : best_held v1 S := by
        intro b hb
        rw [hb1] at hb
        exact hv b hb
      obtain ⟨s1, s2, s3, s4, s5⟩ := mta_find_route_mx_select now l c mx v1 S hS hv1
      rw [hb1] at s3 s4 s5
      generalize he0 : find_route_exam.mk mx (mta_find_route_mx now l c mx v1 S).2.2 S = e0
      have hr0 : (e0.route c).nconn =
          ((mta_route S c.2 mx.host).routes (c.2, mx.host)).nconn := by
        rw [← he0]
        rfl
      have hm0 : e0.mx = mx := by rw [← he0]
      have hw0 : e0.verdict = (mta_find_route_mx now l c mx v1 S).2.2 := by rw [← he0]
      rw [← hr0] at s3 s5
      rw [← hw0] at s3 s4 s5
      dsimp only at hk ⊢
      rcases ih _ _ s1 s2 k hk with ⟨i1, i2, i3⟩ | ⟨E1, e, E2, i1, i2, i3, i4, i5, i6, i7⟩
      · by_cases hsel : e0.verdict = mx_verdict.selected
        · obtain ⟨t1, t2, t3⟩ := s3 hsel
          rw [t1] at i1
          cases i1
          right
          refine ⟨[], e0, _, rfl, hsel, by rw [hm0], ?_, ?_, ?_, t3⟩
          · rw [i2, t2]
          · intro x hx
            cases hx
          · intro x hx hc
            have := i3 x hx hc
            omega
        · obtain ⟨t1, t2⟩ := s4 hsel
          rw [t1] at i1
          left
          refine ⟨i1, ?_, ?_⟩
          · rw [i2, t2 k i1]
          · intro x hx hc
            rcases List.mem_cons.1 hx with rfl | hx
            · rcases (find_route_exam.candidate_iff _).1 hc with hw | hw
              · obtain ⟨b, a1, a2⟩ := s5 hw
                rw [a1] at i1
                cases i1
                exact a2
              · exact absurd hw hsel
            · have := i3 x hx hc
              rw [t2 k i1] at this
              exact this
      · right
        refine ⟨e0 :: E1, e, E2, by rw [i1]; rfl, i2, i3, i4, ?_, i6, ?_⟩
        · intro x hx hc
          rcases List.mem_cons.1 hx with rfl | hx
          · by_cases hsel : x.verdict = mx_verdict.selected
            · obtain ⟨t1, t2, t3⟩ := s3 hsel
              have := i7 _ t1
              omega
            · obtain ⟨t1, t2⟩ := s4 hsel
              rcases (find_route_exam.candidate_iff _).1 hc with hw | hw
              · obtain ⟨b, hvb, a1⟩ := s5 hw
                have a2 := i7 b (by rw [t1, hvb])
                rw [t2 b hvb] at a2
                omega
              · exact absurd hw hsel
          · exact i5 x hx hc
        · intro b hb
          by_cases hsel : e0.verdict = mx_verdict.selected
          · obtain ⟨t1, t2, t3⟩ := s3 hsel
            have := i7 _ t1
            have := t3 b hb
            omega
          · obtain ⟨t1, t2⟩ := s4 hsel
            have := i7 b (by rw [t1, hb])
            rw [t2 b hb] at this
            exact this

/-- The loop body of `mta_find_route` takes an entry to the comparison with
the candidate exactly when the entry passes the admission checks. -/
theorem mta_find_route_mx_admitted (now : Int) (l : mta_limits) (c : connector_ptr)
    (mx : mta_mx) (v : find_route_vars) (S : mta_state) :
    ((mta_find_route_mx now l c mx v S).2.2 = mx_verdict.worse ∨
        (mta_find_route_mx now l c mx v S).2.2 = mx_verdict.selected) ↔
      find_route_exam.admitted now l c
        (find_route_exam.mk mx (mta_find_route_mx now l c mx v S).2.2 S) := by
  unfold find_route_exam.admitted find_route_exam.route
  dsimp only
  unfold mta_find_route_mx
  dsimp only
  by_cases c1 : has_flag (S.hosts mx.host).flags HOST_IGNORE = true
  · rw [if_pos c1]
    simp [c1]
  rw [if_neg c1]
  by_cases c2 : af_mismatch c.2 l mx.host = true
  · rw [if_pos c2]
    simp [c2]
  rw [if_neg c2]
  by_cases c3 : (S.hosts mx.host).nconn ≥ l.maxconn_per_host
  · rw [if_pos c3]
    simp only [reduceCtorEq, or_self, false_iff, not_and]
    intro _ _ h
    omega
  rw [if_neg c3]
  by_cases c4 : (S.hosts mx.host).lastconn + l.conndelay_host > now
  · rw [if_pos c4]
    simp only [reduceCtorEq, or_self, false_iff, not_and]
    intro _ _ _ h
    omega
  rw [if_neg c4]
  by_cases c5 :
      has_flag ((mta_route S c.2 mx.host).routes (c.2, mx.host)).flags ROUTE_DISABLED = true
  · rw [if_pos c5]
    simp only [reduceCtorEq, or_self, false_iff, not_and]
    intro _ _ _ _ h
    rw [c5] at h
    cases h
  rw [if_neg c5]
  by_cases c6 : ((mta_route S c.2 mx.host).routes (c.2, mx.host)).nconn ≠ 0 ∧
      has_flag ((mta_route S c.2 mx.host).routes (c.2, mx.host)).flags ROUTE_NEW = true
  · rw [if_pos c6]
    simp only [reduceCtorEq, or_self, false_iff, not_and]
    intro _ _ _ _ _ h
    exact absurd c6.2 (h c6.1)
  rw [if_neg c6]
  by_cases c7 : ((mta_route S c.2 mx.host).routes (c.2, mx.host)).nconn ≥ l.maxconn_per_route
  · rw [if_pos c7]
    simp only [reduceCtorEq, or_self, false_iff, not_and]
    intro _ _ _ _ _ _ h
    omega
  rw [if_neg c7]
  by_cases c8 :
      ((mta_route S c.2 mx.host).routes (c.2, mx.host)).lastconn + l.conndelay_route > now
  · rw [if_pos c8]
    simp only [reduceCtorEq, or_self, false_iff, not_and]
    intro _ _ _ _ _ _ _ h
    omega
  rw [if_neg c8]
  by_cases c9 :
      ((mta_route S c.2 mx.host).routes (c.2, mx.host)).lastdisc + l.discdelay_route > now
  · rw [if_pos c9]
    simp only [reduceCtorEq, or_self, false_iff, not_and]
    intro _ _ _ _ _ _ _ _
    omega
  rw [if_neg c9]
  have a1 : has_flag (S.hosts mx.host).flags HOST_IGNORE = false := by simpa using c1
  have a2 : af_mismatch c.2 l mx.host = false := by simpa using c2
  have a5 :
      has_flag ((mta_route S c.2 mx.host).routes (c.2, mx.host)).flags ROUTE_DISABLED = false := by
    simpa using c5
  have hall : has_flag (S.hosts mx.host).flags HOST_IGNORE = false ∧
      af_mismatch c.2 l mx.host = false ∧
      (S.hosts mx.host).nconn < l.maxconn_per_host ∧
      (S.hosts mx.host).lastconn + l.conndelay_host ≤ now ∧
      has_flag ((mta_route S c.2 mx.host).routes (c.2, mx.host)).flags ROUTE_DISABLED = false ∧
      ¬ (((mta_route S c.2 mx.host).routes (c.2, mx.host)).nconn ≠ 0 ∧
        has_flag ((mta_route S c.2 mx.host).routes (c.2, mx.host)).flags ROUTE_NEW = true) ∧
      ((mta_route S c.2 mx.host).routes (c.2, mx.host)).nconn < l.maxconn_per_route ∧
      ((mta_route S c.2 mx.host).routes (c.2, mx.host)).lastconn + l.conndelay_route ≤ now ∧
      ((mta_route S c.2 mx.host).routes (c.2, mx.host)).lastdisc + l.discdelay_route ≤ now :=
    ⟨a1, a2, by omega, by omega, a5, c6, by omega, by omega, by omega⟩
  refine ⟨fun _ => hall, fun _ => ?_⟩
  cases v.best with
  | none => exact Or.inr rfl
  | some b =>
    dsimp only
    by_cases c10 : ((mta_route S c.2 mx.host).routes (c.2, mx.host)).nconn ≥
        ((mta_route S c.2 mx.host).routes b).nconn
    · rw [if_pos c10]
      exact Or.inl rfl
    · rw [if_neg c10]
      exact Or.inr rfl

/-- Among the examined entries the candidates are those that pass the
admission checks. -/
theorem mta_find_route_exams_admitted (now : Int) (l : mta_limits) (c : connector_ptr) :
    ∀ (mxs : List mta_mx) (v : find_route_vars) (S : mta_state),
      ∀ e ∈ mta_find_route_exams now l c mxs v S,
        e.candidate = true ↔ find_route_exam.admitted now l c e := by
  intro mxs
  induction mxs with
  | nil =>
    intro v S e he
    simp [mta_find_route_exams] at he
  | cons mx rest ih =>
    intro v S e he
    cases h : mta_find_route_level (S.relays c.1).backuppref mx v with
    | error b =>
      rw [mta_find_route_exams_error now l c mx rest v S b h] at he
      cases he
    | ok v1 =>
      rw [mta_find_route_exams_ok now l c mx rest v v1 S h] at he
      rcases List.mem_cons.1 he with rfl | he
      · rw [find_route_exam.candidate_iff]
        exact mta_find_route_mx_admitted now l c mx v1 S
      · exact ih _ _ e he

theorem mta_find_route_level_error (bp : Int) (mx : mta_mx) (v : find_route_vars)
    (b : loop_break) (h : mta_find_route_level bp mx v = Except.error b) :
    v.level < mx.preference := by
  unfold mta_find_route_level at h
  by_cases c1 : mx.preference > v.level
  · exact c1
  · rw [if_neg c1] at h
    cases h

theorem mta_find_route_level_le (bp : Int) (mx : mta_mx) (v v1 : find_route_vars)
    (h : mta_find_route_level bp mx v = Except.ok v1) :
    mx.preference ≤ v1.level ∧ v.level ≤ v1.level ∧
      (v.level ≤ mx.preference → v1.level = mx.preference) ∧
      (v.best ≠ none → v1.level = v.level) := by
  rcases mta_find_route_level_ok bp mx v v1 h with ⟨h1, h2⟩ | ⟨h1, h2, h3, _⟩
  · rw [h1]
    exact ⟨h2, Int.le_refl _, fun h => Int.le_antisymm h h2, fun _ => rfl⟩
  · rw [h1]
    exact ⟨Int.le_refl _, Int.le_of_lt h2, fun _ => rfl, fun h => absurd h3 h⟩

theorem mta_find_route_mx_best_some (now : Int) (l : mta_limits) (c : connector_ptr)
    (mx : mta_mx) (v : find_route_vars) (S : mta_state) :
    (v.best ≠ none → (mta_find_route_mx now l c mx v S).1.best ≠ none) ∧
      (((mta_find_route_mx now l c mx v S).2.2 = mx_verdict.worse ∨
          (mta_find_route_mx now l c mx v S).2.2 = mx_verdict.selected) →
        (mta_find_route_mx now l c mx v S).1.best ≠ none) := by
  apply mta_find_route_mx_cases now l c mx v S (fun r =>
    (v.best ≠ none → r.1.best ≠ none) ∧
      ((r.2.2 = mx_verdict.worse ∨ r.2.2 = mx_verdict.selected) → r.1.best ≠ none))
  case h_selected =>
    intros
    exact ⟨fun _ => by simp, fun _ => by simp⟩
  case h_worse =>
    intro b hb
    exact ⟨fun h => h, fun _ => by simp [hb]⟩
  all_goals
    intros
    exact ⟨fun h => h, fun h => by simp at h⟩

/-- The level of the search does not go down, and it stays once there is a
candidate. -/
theorem mta_find_route_loop_level (now : Int) (l : mta_limits) (c : connector_ptr) :
    ∀ (mxs : List mta_mx) (v : find_route_vars) (S : mta_state),
      v.level ≤ (mta_find_route_loop now l c mxs v S).vars.level ∧
        (v.best ≠ none → (mta_find_route_loop now l c mxs v S).vars.level = v.level) := by
  intro mxs
  induction mxs with
  | nil =>
    intro v S
    exact ⟨Int.le_refl _, fun _ => rfl⟩
  | cons mx rest ih =>
    intro v S
    cases h : mta_find_route_level (S.relays c.1).backuppref mx v with
    | error b =>
      rw [mta_find_route_loop_error now l c mx rest v S b h]
      exact ⟨Int.le_refl _, fun _ => rfl⟩
    | ok v1 =>
      rw [mta_find_route_loop_ok now l c mx rest v v1 S h]
      dsimp only
      obtain ⟨l1, l2, _, l4⟩ := mta_find_route_level_le _ mx v v1 h
      obtain ⟨i1, i2⟩ := ih (mta_find_route_mx now l c mx v1 S).1
        (mta_find_route_mx now l c mx v1 S).2.1
      rw [mta_find_route_mx_level] at i1 i2
      refine ⟨Int.le_trans l2 i1, fun hb => ?_⟩
      have hb1 : v1.best ≠ none := by
        rw [mta_find_route_level_best _ mx v v1 h]
        exact hb
      rw [i2 ((mta_find_route_mx_best_some now l c mx v1 S).1 hb1), l4 hb]

/-- The examined entries are the entries of the list up to the first one
above the level at which the search ends. -/
theorem mta_find_route_exams_upto (now : Int) (l : mta_limits) (c : connector_ptr) :
    ∀ (mxs : List mta_mx) (v : find_route_vars) (S : mta_state),
      (mta_find_route_exams now l c mxs v S).map (fun e => e.mx) =
        mxs.takeWhile (fun m =>
          decide (m.preference ≤ (mta_find_route_loop now l c mxs v S).vars.level)) := by
  intro mxs
  induction mxs with
  | nil =>
    intro v S
    rfl
  | cons mx rest ih =>
    intro v S
    cases h : mta_find_route_level (S.relays c.1).backuppref mx v with
    | error b =>
      rw [mta_find_route_loop_error now l c mx rest v S b h,
        mta_find_route_exams_error now l c mx rest v S b h]
      have := mta_find_route_level_error _ mx v b h
      rw [List.takeWhile_cons_of_neg]
      · rfl
      · simp only [decide_eq_true_eq]
        omega
    | ok v1 =>
      rw [mta_find_route_loop_ok now l c mx rest v v1 S h,
        mta_find_route_exams_ok now l c mx rest v v1 S h]
      dsimp only
      obtain ⟨l1, _, _, _⟩ := mta_find_route_level_le _ mx v v1 h
      have i1 := (mta_find_route_loop_level now l c rest (mta_find_route_mx now l c mx v1 S).1
        (mta_find_route_mx now l c mx v1 S).2.1).1
      rw [mta_find_route_mx_level] at i1
      rw [List.takeWhile_cons_of_pos, List.map_cons, ih]
      simp only [decide_eq_true_eq]
      omega

/-- On a list in the order of the preferences, none below the level at the
start, every candidate among the examined entries has the preference at which
the search ends. -/
theorem mta_find_route_exams_level (now : Int) (l : mta_limits) (c : connector_ptr) :
    ∀ (mxs : List mta_mx) (v : find_route_vars) (S : mta_state),
      mxs.Pairwise (fun a b => a.preference ≤ b.preference) →
      (∀ m ∈ mxs, v.level ≤ m.preference) →
      ∀ e ∈ mta_find_route_exams now l c mxs v S, e.candidate = true →
        e.mx.preference = (mta_find_route_loop now l c mxs v S).vars.level := by
  intro mxs
  induction mxs with
  | nil =>
    intro v S _ _ e he
    simp [mta_find_route_exams] at he
  | cons mx rest ih =>
    intro v S hs hp e he hc
    cases h : mta_find_route_level (S.relays c.1).backuppref mx v with
    | error b =>
      rw [mta_find_route_exams_error now l c mx rest v S b h] at he
      cases he
    | ok v1 =>
      rw [mta_find_route_exams_ok now l c mx rest v v1 S h] at he
      rw [mta_find_route_loop_ok now l c mx rest v v1 S h]
      dsimp only
      obtain ⟨_, _, l3, _⟩ := mta_find_route_level_le _ mx v v1 h
      have hl1 : v1.level = mx.preference := l3 (hp mx (List.mem_cons_self _ _))
      obtain ⟨hs1, hs2⟩ := List.pairwise_cons.1 hs
      rcases List.mem_cons.1 he with rfl | he
      · have hb := (mta_find_route_mx_best_some now l c mx v1 S).2
          ((find_route_exam.candidate_iff _).1 hc)
        rw [(mta_find_route_loop_level now l c rest _ _).2 hb, mta_find_route_mx_level, hl1]
      · refine ih _ _ hs2 ?_ e he hc
        intro m hm
        rw [mta_find_route_mx_level, hl1]
        exact hs1 m hm

/-! ## The reference accounting of the relays -/

theorem held_more_same (H : relay_ptr → Nat) (r : relay_ptr) : held_more H r r = H r + 1 := by
  unfold held_more
  rw [Function.update_same]

theorem held_more_other (H : relay_ptr → Nat) {r x : relay_ptr} (h : x ≠ r) :
    held_more H r x = H x := by
  unfold held_more
  rw [Function.update_noteq h]

theorem held_less_same (H : relay_ptr → Nat) (r : relay_ptr) : held_less H r r = H r - 1 := by
  unfold held_less
  rw [Function.update_same]

theorem held_less_other (H : relay_ptr → Nat) {r x : relay_ptr} (h : x ≠ r) :
    held_less H r x = H x := by
  unfold held_less
  rw [Function.update_noteq h]

theorem held_less_more (H : relay_ptr → Nat) (r : relay_ptr) :
    held_less (held_more H r) r = H := by
  funext x
  by_cases e : x = r
  · subst e
    rw [held_less_same, held_more_same]
    omega
  · rw [held_less_other _ e, held_more_other _ e]

theorem refs_ok.mem_of_held {V : refs_view} {H : relay_ptr → Nat} (h : refs_ok V H)
    {r : relay_ptr} (hr : 1 ≤ H r) : r ∈ V.tree := by
  by_contra hn
  have := (h.gone r hn).1
  omega

theorem countP_snd_zero {α : Type} (l : List (α × relay_ptr)) (r : relay_ptr)
    (h : l.countP (fun e => decide (e.2 = r)) = 0) : ∀ e ∈ l, e.2 ≠ r := by
  intro e he
  have := (List.countP_eq_zero.1 h) e he
  simpa using this

/-- Taking a reference on a relay of the tree. -/
theorem refs_ok.ref {V : refs_view} {H : relay_ptr → Nat} (h : refs_ok V H) {r : relay_ptr}
    (hr : r ∈ V.tree) : refs_ok (V.ref r) (held_more H r) where
  nodup := h.nodup
  pos := by
    intro x hx
    have := h.pos x hx
    show 1 ≤ Function.update V.refcount r (V.refcount r + 1) x
    by_cases e : x = r
    · subst e
      rw [Function.update_same]
      omega
    · rw [Function.update_noteq e]
      exact this
  refs := by
    intro x hx
    have := h.refs x hx
    show (V.queries x : Int) + V.nconn x + V.scheduled x + held_more H r x ≤
      Function.update V.refcount r (V.refcount r + 1) x
    by_cases e : x = r
    · subst e
      rw [Function.update_same, held_more_same]
      push_cast
      omega
    · rw [Function.update_noteq e, held_more_other _ e]
      exact this
  gone := by
    intro x hx
    have e : x ≠ r := fun e => hx (e ▸ hr)
    rw [held_more_other _ e]
    exact h.gone x hx
  own := h.own

/-- Releasing a held reference. -/
theorem refs_ok.unref {V : refs_view} {H : relay_ptr → Nat} (h : refs_ok V H) {r : relay_ptr}
    (hr : 1 ≤ H r) : refs_ok (V.unref r) (held_less H r) := by
  have hm := h.mem_of_held hr
  have hrefs := h.refs r hm
  have hpos := h.pos r hm
  unfold refs_view.unref
  by_cases h0 : V.refcount r - 1 ≠ 0
  · rw [if_pos h0]
    refine ⟨h.nodup, ?_, ?_, ?_, h.own⟩
    · intro x hx
      have := h.pos x hx
      show 1 ≤ Function.update V.refcount r (V.refcount r - 1) x
      by_cases e : x = r
      · subst e
        rw [Function.update_same]
        omega
      · rw [Function.update_noteq e]
        exact this
    · intro x hx
      have := h.refs x hx
      show (V.queries x : Int) + V.nconn x + V.scheduled x + held_less H r x ≤
        Function.update V.refcount r (V.refcount r - 1) x
      by_cases e : x = r
      · subst e
        rw [Function.update_same, held_less_same]
        omega
      · rw [Function.update_noteq e, held_less_other _ e]
        exact this
    · intro x hx
      have e : x ≠ r := fun e => hx (e ▸ hm)
      rw [held_less_other _ e]
      exact h.gone x hx
  · rw [if_neg h0]
    have h1 : V.refcount r = 1 := by omega
    have hq : V.queries r = 0 ∧ V.scheduled r = 0 ∧ H r = 1 := by omega
    obtain ⟨q0, s0, H1⟩ := hq
    unfold refs_view.queries at q0
    have a1 := countP_snd_zero V.secret r (by omega)
    have a2 := countP_snd_zero V.preference r (by omega)
    have a3 := countP_snd_zero V.source r (by omega)
    have a4 := countP_snd_zero V.runq r s0
    have a5 : ∀ d, r ∉ V.waitq d := by
      intro d hd
      have := h.own d r hd
      rw [← this] at hd
      have : 0 < (V.waitq (V.domain r)).count r := List.count_pos_iff.2 hd
      omega
    refine ⟨h.nodup.erase r, ?_, ?_, ?_, h.own⟩
    · intro x hx
      have hx1 := (List.Nodup.mem_erase_iff h.nodup).1 hx
      show 1 ≤ Function.update V.refcount r (V.refcount r - 1) x
      rw [Function.update_noteq hx1.1]
      exact h.pos x hx1.2
    · intro x hx
      have hx1 := (List.Nodup.mem_erase_iff h.nodup).1 hx
      show (V.queries x : Int) + V.nconn x + V.scheduled x + held_less H r x ≤
        Function.update V.refcount r (V.refcount r - 1) x
      rw [Function.update_noteq hx1.1, held_less_other _ hx1.1]
      exact h.refs x hx1.2
    · intro x hx
      by_cases e : x = r
      · subst e
        rw [held_less_same]
        exact ⟨by omega, a1, a2, a3, a4, a5⟩
      · rw [held_less_other _ e]
        refine h.gone x ?_
        intro hx2
        exact hx ((List.Nodup.mem_erase_iff h.nodup).2 ⟨e, hx2⟩)

/-- The accounting passes to a view with the same tree in which no reference
count went down and no relay lost slack. -/
theorem refs_ok.of_le {V W : refs_view} {H K : relay_ptr → Nat} (h : refs_ok V H)
    (htree : W.tree = V.tree) (hpos : ∀ r ∈ V.tree, V.refcount r ≤ W.refcount r)
    (hrefs : ∀ r ∈ V.tree,
      (W.queries r : Int) + W.nconn r + W.scheduled r + K r - W.refcount r ≤
        V.queries r + V.nconn r + V.scheduled r + H r - V.refcount r)
    (hgone : ∀ r, r ∉ V.tree → K r = 0 ∧ W.absent r)
    (hown : ∀ d r, r ∈ W.waitq d → W.domain r = d) : refs_ok W K where
  nodup := by rw [htree]; exact h.nodup
  pos := by
    intro r hr
    rw [htree] at hr
    have := h.pos r hr
    have := hpos r hr
    omega
  refs := by
    intro r hr
    rw [htree] at hr
    have := h.refs r hr
    have := hrefs r hr
    omega
  gone := by
    intro r hr
    rw [htree] at hr
    exact hgone r hr
  own := hown

theorem countP_snd_append {α : Type} (l : List (α × relay_ptr)) (a : α) (r x : relay_ptr) :
    (l ++ [(a, r)]).countP (fun e => decide (e.2 = x)) =
      l.countP (fun e => decide (e.2 = x)) + (if x = r then 1 else 0) := by
  rw [List.countP_append]
  by_cases e : x = r
  · subst e; simp
  · have : ¬ r = x := fun h => e h.symm
    simp [e, this]

theorem mem_snd_append {α : Type} {l : List (α × relay_ptr)} {a : α} {r x : relay_ptr}
    (h : ∀ e ∈ l, e.2 ≠ x) (hx : x ≠ r) : ∀ e ∈ l ++ [(a, r)], e.2 ≠ x := by
  intro e he
  rcases List.mem_append.1 he with he | he
  · exact h e he
  · rw [List.mem_singleton] at he
    rw [he]
    exact fun e => hx e.symm

/-- A secret query: an entry in the wait tree and a reference. -/
theorem refs_ok.wait_secret {V : refs_view} {H : relay_ptr → Nat} (h : refs_ok V H)
    {r : relay_ptr} (hr : r ∈ V.tree) (id : Nat) :
    refs_ok { V with secret := V.secret ++ [(id, r)],
                     refcount := Function.update V.refcount r (V.refcount r + 1) } H := by
  refine h.of_le rfl ?_ ?_ ?_ h.own
  · intro x _
    show V.refcount x ≤ Function.update V.refcount r (V.refcount r + 1) x
    by_cases e : x = r
    · subst e; rw [Function.update_same]; omega
    · rw [Function.update_noteq e]
  · intro x _
    unfold refs_view.queries refs_view.scheduled
    dsimp only
    rw [countP_snd_append]
    by_cases e : x = r
    · subst e
      rw [Function.update_same, if_pos rfl]
      push_cast
      omega
    · rw [Function.update_noteq e, if_neg e]
      omega
  · intro x hx
    have e : x ≠ r := fun e => hx (e ▸ hr)
    obtain ⟨g0, g1, g2, g3, g4, g5⟩ := h.gone x hx
    exact ⟨g0, mem_snd_append g1 e, g2, g3, g4, g5⟩

/-- A preference query: an entry in the wait tree and a reference. -/
theorem refs_ok.wait_preference {V : refs_view} {H : relay_ptr → Nat} (h : refs_ok V H)
    {r : relay_ptr} (hr : r ∈ V.tree) (id : Nat) :
    refs_ok { V with preference := V.preference ++ [(id, r)],
                     refcount := Function.update V.refcount r (V.refcount r + 1) } H := by
  refine h.of_le rfl ?_ ?_ ?_ h.own
  · intro x _
    show V.refcount x ≤ Function.update V.refcount r (V.refcount r + 1) x
    by_cases e : x = r
    · subst e; rw [Function.update_same]; omega
    · rw [Function.update_noteq e]
  · intro x _
    unfold refs_view.queries refs_view.scheduled
    dsimp only
    rw [countP_snd_append]
    by_cases e : x = r
    · subst e
      rw [Function.update_same, if_pos rfl]
      push_cast
      omega
    · rw [Function.update_noteq e, if_neg e]
      omega
  · intro x hx
    have e : x ≠ r := fun e => hx (e ▸ hr)
    obtain ⟨g0, g1, g2, g3, g4, g5⟩ := h.gone x hx
    exact ⟨g0, g1, mem_snd_append g2 e, g3, g4, g5⟩

/-- A source query: an entry in the wait tree and a reference. -/
theorem refs_ok.wait_source {V : refs_view} {H : relay_ptr → Nat} (h : refs_ok V H)
    {r : relay_ptr} (hr : r ∈ V.tree) (id : Nat) :
    refs_ok { V with source := V.source ++ [(id, r)],
                     refcount := Function.update V.refcount r (V.refcount r + 1) } H := by
  refine h.of_le rfl ?_ ?_ ?_ h.own
  · intro x _
    show V.refcount x ≤ Function.update V.refcount r (V.refcount r + 1) x
    by_cases e : x = r
    · subst e; rw [Function.update_same]; omega
    · rw [Function.update_noteq e]
  · intro x _
    unfold refs_view.queries refs_view.scheduled
    dsimp only
    rw [countP_snd_append]
    by_cases e : x = r
    · subst e
      rw [Function.update_same, if_pos rfl]
      push_cast
      omega
    · rw [Function.update_noteq e, if_neg e]
      omega
  · intro x hx
    have e : x ≠ r := fun e => hx (e ▸ hr)
    obtain ⟨g0, g1, g2, g3, g4, g5⟩ := h.gone x hx
    exact ⟨g0, g1, g2, mem_snd_append g3 e, g4, g5⟩

/-- The relay goes on the run-queue of the relays and takes a reference. -/
theorem refs_ok.schedule {V : refs_view} {H : relay_ptr → Nat} (h : refs_ok V H)
    {r : relay_ptr} (hr : r ∈ V.tree) (tm : Int) :
    refs_ok { V with runq := runq_schedule V.runq tm r,
                     refcount := Function.update V.refcount r (V.refcount r + 1) } H := by
  refine h.of_le rfl ?_ ?_ ?_ h.own
  · intro x _
    show V.refcount x ≤ Function.update V.refcount r (V.refcount r + 1) x
    by_cases e : x = r
    · subst e; rw [Function.update_same]; omega
    · rw [Function.update_noteq e]
  · intro x _
    unfold refs_view.queries refs_view.scheduled
    dsimp only
    rw [runq_schedule_countP]
    by_cases e : x = r
    · subst e
      rw [Function.update_same, if_pos rfl]
      push_cast
      omega
    · rw [Function.update_noteq e, if_neg e]
  · intro x hx
    have e : x ≠ r := fun e => hx (e ▸ hr)
    obtain ⟨g0, g1, g2, g3, g4, g5⟩ := h.gone x hx
    refine ⟨g0, g1, g2, g3, fun e1 he1 => ?_, g5⟩
    rcases runq_schedule_mem _ _ _ _ he1 with h1 | h1
    · rw [h1]
      exact fun e2 => e e2.symm
    · exact g4 e1 h1.1

/-- An MX query: the relay joins the waiters of the MX list of its domain and
takes a reference. -/
theorem refs_ok.wait_mx {V : refs_view} {H : relay_ptr → Nat} (h : refs_ok V H)
    {r : relay_ptr} (hr : r ∈ V.tree) :
    refs_ok { V with
      waitq := Function.update V.waitq (V.domain r) (V.waitq (V.domain r) ++ [r]),
      refcount := Function.update V.refcount r (V.refcount r + 1) } H := by
  refine h.of_le rfl ?_ ?_ ?_ ?_
  · intro x _
    show V.refcount x ≤ Function.update V.refcount r (V.refcount r + 1) x
    by_cases e : x = r
    · subst e; rw [Function.update_same]; omega
    · rw [Function.update_noteq e]
  · intro x _
    unfold refs_view.queries refs_view.scheduled
    dsimp only
    by_cases e : x = r
    · subst e
      rw [Function.update_same, Function.update_same, List.count_append]
      simp only [List.count_singleton_self]
      push_cast
      omega
    · rw [Function.update_noteq e]
      by_cases ed : V.domain x = V.domain r
      · rw [ed, Function.update_same, List.count_append]
        have : List.count x [r] = 0 := by
          rw [List.count_eq_zero]
          simp [e]
        rw [this, ← ed]
        omega
      · rw [Function.update_noteq ed]
  · intro x hx
    have e : x ≠ r := fun e => hx (e ▸ hr)
    obtain ⟨g0, g1, g2, g3, g4, g5⟩ := h.gone x hx
    refine ⟨g0, g1, g2, g3, g4, ?_⟩
    intro d
    show x ∉ Function.update V.waitq (V.domain r) (V.waitq (V.domain r) ++ [r]) d
    by_cases ed : d = V.domain r
    · subst ed
      rw [Function.update_same]
      simp [e, g5 (V.domain r)]
    · rw [Function.update_noteq ed]
      exact g5 d
  · intro d x
    show x ∈ Function.update V.waitq (V.domain r) (V.waitq (V.domain r) ++ [r]) d →
      V.domain x = d
    by_cases ed : d = V.domain r
    · subst ed
      rw [Function.update_same]
      intro hx
      rcases List.mem_append.1 hx with hx | hx
      · exact h.own _ x hx
      · rw [List.mem_singleton.1 hx]
    · rw [Function.update_noteq ed]
      exact h.own d x

/-- A session is spawned: one more session and one more reference. -/
theorem refs_ok.spawn {V : refs_view} {H : relay_ptr → Nat} (h : refs_ok V H) (r : relay_ptr) :
    refs_ok { V with nconn := Function.update V.nconn r (V.nconn r + 1),
                     refcount := Function.update V.refcount r (V.refcount r + 1) } H := by
  refine h.of_le rfl ?_ ?_ h.gone h.own
  · intro x _
    show V.refcount x ≤ Function.update V.refcount r (V.refcount r + 1) x
    by_cases e : x = r
    · subst e; rw [Function.update_same]; omega
    · rw [Function.update_noteq e]
  · intro x _
    unfold refs_view.queries refs_view.scheduled
    dsimp only
    by_cases e : x = r
    · subst e
      rw [Function.update_same, Function.update_same]
      push_cast
      omega
    · rw [Function.update_noteq e, Function.update_noteq e]

/-- A session is closed: the handler now holds its reference. -/
theorem refs_ok.close {V : refs_view} {H : relay_ptr → Nat} (h : refs_ok V H) {r : relay_ptr}
    (hr : r ∈ V.tree) (hn : 0 < V.nconn r) :
    refs_ok { V with nconn := Function.update V.nconn r (size_dec (V.nconn r)) }
      (held_more H r) := by
  refine h.of_le rfl (fun _ _ => Int.le_refl _) ?_ ?_ h.own
  · intro x _
    unfold refs_view.queries refs_view.scheduled
    dsimp only
    by_cases e : x = r
    · subst e
      rw [Function.update_same, held_more_same]
      unfold size_dec
      rw [if_neg (by omega)]
      push_cast
      omega
    · rw [Function.update_noteq e, held_more_other _ e]
  · intro x hx
    have e : x ≠ r := fun e => hx (e ▸ hr)
    rw [held_more_other _ e]
    exact h.gone x hx

theorem countP_eraseP_find {α : Type} (p q : α → Bool) :
    ∀ (t : List α) (e : α), t.find? p = some e →
      t.countP q = (t.eraseP p).countP q + (if q e = true then 1 else 0) := by
  intro t
  induction t with
  | nil => intro e h; cases h
  | cons a t ih =>
    intro e h
    by_cases ha : p a = true
    · rw [List.find?_cons_of_pos _ ha] at h
      injection h with h
      subst h
      rw [List.eraseP_cons_of_pos ha, List.countP_cons]
    · rw [List.find?_cons_of_neg _ ha] at h
      rw [List.eraseP_cons_of_neg ha, List.countP_cons, List.countP_cons, ih e h]
      omega

/-- The entry that `tree_xpop` takes out of a wait tree. -/
theorem wait_pop_spec (t t1 : List (Nat × relay_ptr)) (reqid : Nat) (r : relay_ptr)
    (h : wait_pop t reqid = some (r, t1)) :
    (∃ e ∈ t, e.2 = r) ∧ (∀ e ∈ t1, e ∈ t) ∧
      ∀ x : relay_ptr, t.countP (fun e => decide (e.2 = x)) =
        t1.countP (fun e => decide (e.2 = x)) + (if x = r then 1 else 0) := by
  unfold wait_pop at h
  cases hf : t.find? (fun e => decide (e.1 = reqid)) with
  | none => rw [hf] at h; cases h
  | some e =>
    rw [hf] at h
    simp only [Option.some.injEq, Prod.mk.injEq] at h
    obtain ⟨h1, h2⟩ := h
    refine ⟨⟨e, List.mem_of_find?_eq_some hf, h1⟩, ?_, ?_⟩
    · intro x hx
      rw [← h2] at hx
      exact List.mem_of_mem_eraseP hx
    · intro x
      rw [countP_eraseP_find _ (fun e => decide (e.2 = x)) t e hf, h2, h1]
      by_cases ex : x = r
      · subst ex; simp
      · have : ¬ r = x := fun h => ex h.symm
        simp [ex, this]

/-- The reply to a secret query: the entry leaves the wait tree and the
handler holds its reference. -/
theorem refs_ok.reply_secret {V : refs_view} {H : relay_ptr → Nat} (h : refs_ok V H)
    {reqid : Nat} {r : relay_ptr} {t : List (Nat × relay_ptr)} (hp : wait_pop V.secret reqid = some (r, t)) :
    r ∈ V.tree ∧ refs_ok { V with secret := t } (held_more H r) := by
  obtain ⟨⟨e, he, her⟩, p2, p3⟩ := wait_pop_spec _ _ _ _ hp
  have hr : r ∈ V.tree := by
    by_contra hn
    exact (h.gone r hn).2.1 e he her
  refine ⟨hr, h.of_le rfl (fun _ _ => Int.le_refl _) ?_ ?_ h.own⟩
  · intro x _
    unfold refs_view.queries refs_view.scheduled
    dsimp only
    rw [p3 x]
    by_cases ex : x = r
    · subst ex
      rw [held_more_same, if_pos rfl]
      push_cast
      omega
    · rw [held_more_other _ ex, if_neg ex]
      omega
  · intro x hx
    have ex : x ≠ r := fun e => hx (e ▸ hr)
    rw [held_more_other _ ex]
    obtain ⟨g0, g1, g2, g3, g4, g5⟩ := h.gone x hx
    exact ⟨g0, fun e he => g1 e (p2 e he), g2, g3, g4, g5⟩

/-- The reply to a preference query. -/
theorem refs_ok.reply_preference {V : refs_view} {H : relay_ptr → Nat} (h : refs_ok V H)
    {reqid : Nat} {r : relay_ptr} {t : List (Nat × relay_ptr)} (hp : wait_pop V.preference reqid = some (r, t)) :
    r ∈ V.tree ∧ refs_ok { V with preference := t } (held_more H r) := by
  obtain ⟨⟨e, he, her⟩, p2, p3⟩ := wait_pop_spec _ _ _ _ hp
  have hr : r ∈ V.tree := by
    by_contra hn
    exact (h.gone r hn).2.2.1 e he her
  refine ⟨hr, h.of_le rfl (fun _ _ => Int.le_refl _) ?_ ?_ h.own⟩
  · intro x _
    unfold refs_view.queries refs_view.scheduled
    dsimp only
    rw [p3 x]
    by_cases ex : x = r
    · subst ex
      rw [held_more_same, if_pos rfl]
      push_cast
      omega
    · rw [held_more_other _ ex, if_neg ex]
      omega
  · intro x hx
    have ex : x ≠ r := fun e => hx (e ▸ hr)
    rw [held_more_other _ ex]
    obtain ⟨g0, g1, g2, g3, g4, g5⟩ := h.gone x hx
    exact ⟨g0, g1, fun e he => g2 e (p2 e he), g3, g4, g5⟩

/-- The reply to a source query. -/
theorem refs_ok.reply_source {V : refs_view} {H : relay_ptr → Nat} (h : refs_ok V H)
    {reqid : Nat} {r : relay_ptr} {t : List (Nat × relay_ptr)} (hp : wait_pop V.source reqid = some (r, t)) :
    r ∈ V.tree ∧ refs_ok { V with source := t } (held_more H r) := by
  obtain ⟨⟨e, he, her⟩, p2, p3⟩ := wait_pop_spec _ _ _ _ hp
  have hr : r ∈ V.tree := by
    by_contra hn
    exact (h.gone r hn).2.2.2.1 e he her
  refine ⟨hr, h.of_le rfl (fun _ _ => Int.le_refl _) ?_ ?_ h.own⟩
  · intro x _
    unfold refs_view.queries refs_view.scheduled
    dsimp only
    rw [p3 x]
    by_cases ex : x = r
    · subst ex
      rw [held_more_same, if_pos rfl]
      push_cast
      omega
    · rw [held_more_other _ ex, if_neg ex]
      omega
  · intro x hx
    have ex : x ≠ r := fun e => hx (e ▸ hr)
    rw [held_more_other _ ex]
    obtain ⟨g0, g1, g2, g3, g4, g5⟩ := h.gone x hx
    exact ⟨g0, g1, g2, fun e he => g3 e (p2 e he), g4, g5⟩

theorem countP_snd_erase (q : List (Int × relay_ptr)) (e : Int × relay_ptr) (he : e ∈ q)
    (x : relay_ptr) :
    q.countP (fun a => decide (a.2 = x)) =
      (q.erase e).countP (fun a => decide (a.2 = x)) + (if x = e.2 then 1 else 0) := by
  induction q with
  | nil => cases he
  | cons a q ih =>
    by_cases ha : a = e
    · subst ha
      rw [List.erase_cons_head, List.countP_cons]
      by_cases ex : x = a.2
      · subst ex; simp
      · have : ¬ a.2 = x := fun h => ex h.symm
        simp [ex, this]
    · have he1 : e ∈ q := by
        rcases List.mem_cons.1 he with h | h
        · exact absurd h.symm ha
        · exact h
      rw [List.erase_cons_tail (by simpa using ha), List.countP_cons, List.countP_cons, ih he1]
      omega

/-- The timer of a relay expires: the entry leaves the run-queue and the
handler holds its reference. -/
theorem refs_ok.expire {V : refs_view} {H : relay_ptr → Nat} (h : refs_ok V H)
    {e : Int × relay_ptr} (he : e ∈ V.runq) :
    e.2 ∈ V.tree ∧ refs_ok { V with runq := runq_expire V.runq e } (held_more H e.2) := by
  have hr : e.2 ∈ V.tree := by
    by_contra hn
    exact (h.gone e.2 hn).2.2.2.2.1 e he rfl
  refine ⟨hr, h.of_le rfl (fun _ _ => Int.le_refl _) ?_ ?_ h.own⟩
  · intro x _
    unfold refs_view.queries refs_view.scheduled runq_expire
    dsimp only
    rw [countP_snd_erase V.runq e he x]
    by_cases ex : x = e.2
    · rw [ex, held_more_same, if_pos rfl]
      push_cast
      omega
    · rw [held_more_other _ ex, if_neg ex]
      omega
  · intro x hx
    have ex : x ≠ e.2 := fun e1 => hx (e1 ▸ hr)
    rw [held_more_other _ ex]
    obtain ⟨g0, g1, g2, g3, g4, g5⟩ := h.gone x hx
    refine ⟨g0, g1, g2, g3, ?_, g5⟩
    intro a ha
    exact g4 a (List.mem_of_mem_erase ha)

/-- The waiters of the MX list of a domain are taken off: the handler holds
their references. -/
theorem refs_ok.run_waiters {V : refs_view} {H : relay_ptr → Nat} (h : refs_ok V H)
    (d : domain_ptr) :
    refs_ok { V with waitq := Function.update V.waitq d [] }
      (fun r => H r + (V.waitq d).count r) := by
  refine h.of_le rfl (fun _ _ => Int.le_refl _) ?_ ?_ ?_
  · intro x _
    unfold refs_view.queries refs_view.scheduled
    dsimp only
    by_cases ed : V.domain x = d
    · rw [ed, Function.update_same]
      simp only [List.count_nil]
      push_cast
      omega
    · rw [Function.update_noteq ed]
      have : (V.waitq d).count x = 0 := by
        rw [List.count_eq_zero]
        intro hx
        exact ed (h.own d x hx)
      rw [this]
      push_cast
      omega
  · intro x hx
    obtain ⟨g0, g1, g2, g3, g4, g5⟩ := h.gone x hx
    refine ⟨?_, g1, g2, g3, g4, ?_⟩
    · rw [g0, List.count_eq_zero.2 (g5 d)]
    · intro d1
      show x ∉ Function.update V.waitq d [] d1
      by_cases e : d1 = d
      · subst e
        rw [Function.update_same]
        simp
      · rw [Function.update_noteq e]
        exact g5 d1
  · intro d1 x
    show x ∈ Function.update V.waitq d [] d1 → V.domain x = d1
    by_cases e : d1 = d
    · subst e
      rw [Function.update_same]
      intro hx
      cases hx
    · rw [Function.update_noteq e]
      exact h.own d1 x

/-- The record of a domain is made anew: its waiters are dropped. -/
theorem refs_ok.fresh_domain {V : refs_view} {H : relay_ptr → Nat} (h : refs_ok V H)
    (d : domain_ptr) : refs_ok { V with waitq := Function.update V.waitq d [] } H := by
  have := h.run_waiters d
  refine this.of_le rfl (fun _ _ => Int.le_refl _) ?_ ?_ this.own
  · intro x _
    have : (0 : Int) ≤ ((V.waitq d).count x : Int) := Int.ofNat_nonneg _
    push_cast
    omega
  · intro x hx
    exact ⟨(h.gone x hx).1, (this.gone x hx).2⟩

/-- A relay is created with one reference, held by the caller. -/
theorem refs_ok.create {V : refs_view} {H : relay_ptr → Nat} (h : refs_ok V H) {r : relay_ptr}
    (hr : r ∉ V.tree) (d : domain_ptr) :
    refs_ok { V with
      tree := r :: V.tree
      refcount := Function.update V.refcount r 1
      nconn := Function.update V.nconn r 0
      domain := Function.update V.domain r d } (held_more H r) := by
  obtain ⟨g0, g1, g2, g3, g4, g5⟩ := h.gone r hr
  have hq : ∀ x, x ≠ r →
      refs_view.queries { V with
        tree := r :: V.tree
        refcount := Function.update V.refcount r 1
        nconn := Function.update V.nconn r 0
        domain := Function.update V.domain r d } x = V.queries x := by
    intro x e
    unfold refs_view.queries
    dsimp only
    rw [Function.update_noteq e]
  refine ⟨List.nodup_cons.2 ⟨hr, h.nodup⟩, ?_, ?_, ?_, ?_⟩
  · intro x hx
    show 1 ≤ Function.update V.refcount r 1 x
    by_cases e : x = r
    · subst e; rw [Function.update_same]
    · rw [Function.update_noteq e]
      rcases List.mem_cons.1 hx with hx | hx
      · exact absurd hx e
      · exact h.pos x hx
  · intro x hx
    by_cases e : x = r
    · subst e
      unfold refs_view.queries refs_view.scheduled
      dsimp only
      rw [Function.update_same, Function.update_same, Function.update_same, held_more_same, g0,
        List.countP_eq_zero.2 (fun e he => by simpa using g1 e he),
        List.countP_eq_zero.2 (fun e he => by simpa using g2 e he),
        List.countP_eq_zero.2 (fun e he => by simpa using g3 e he),
        List.countP_eq_zero.2 (fun e he => by simpa using g4 e he),
        List.count_eq_zero.2 (g5 d)]
      decide
    · rw [hq x e, held_more_other _ e]
      show (V.queries x : Int) + Function.update V.nconn r 0 x + V.scheduled x + H x ≤
        Function.update V.refcount r 1 x
      rw [Function.update_noteq e, Function.update_noteq e]
      rcases List.mem_cons.1 hx with hx | hx
      · exact absurd hx e
      · exact h.refs x hx
  · intro x hx
    have e : x ≠ r := fun e => hx (e ▸ List.mem_cons_self _ _)
    rw [held_more_other _ e]
    exact h.gone x (fun hx1 => hx (List.mem_cons_of_mem _ hx1))
  · intro d1 x hx
    show Function.update V.domain r d x = d1
    have e : x ≠ r := fun e => g5 d1 (e ▸ hx)
    rw [Function.update_noteq e]
    exact h.own d1 x hx

theorem refs_frame_refl (S : mta_state) : refs_frame S S := ⟨rfl, rfl, rfl, rfl, rfl, rfl, rfl⟩

theorem refs_frame_trans {U T S : mta_state} (h1 : refs_frame U T) (h2 : refs_frame T S) :
    refs_frame U S := by
  obtain ⟨a1, a2, a3, a4, a5, a6, a7⟩ := h1
  obtain ⟨b1, b2, b3, b4, b5, b6, b7⟩ := h2
  exact ⟨a1.trans b1, a2.trans b2, a3.trans b3, a4.trans b4, a5.trans b5, a6.trans b6,
    a7.trans b7⟩

theorem relay_refs_of_frame {T S : mta_state} (h : refs_frame T S) :
    relay_refs T = relay_refs S := by
  obtain ⟨a1, a2, a3, a4, a5, a6, a7⟩ := h
  unfold relay_refs
  rw [a1, a2, a3, a4, a5, a6, a7]

theorem refs_frame_source_ref (S : mta_state) (s : source_ptr) :
    refs_frame (mta_source_ref S s) S := refs_frame_refl S

theorem refs_frame_host_ref (S : mta_state) (h : host_ptr) :
    refs_frame (mta_host_ref S h) S := refs_frame_refl S

theorem refs_frame_source_unref (S : mta_state) (s : source_ptr) :
    refs_frame (mta_source_unref S s) S := by
  unfold mta_source_unref
  dsimp only
  split_ifs <;> exact refs_frame_refl S

theorem refs_frame_host_unref (S : mta_state) (h : host_ptr) :
    refs_frame (mta_host_unref S h) S := by
  unfold mta_host_unref
  dsimp only
  split_ifs <;> exact refs_frame_refl S

theorem refs_frame_source (S : mta_state) (s : source_ptr) : refs_frame (mta_source S s) S := by
  unfold mta_source
  dsimp only
  split_ifs <;> exact refs_frame_refl S

theorem refs_frame_route (S : mta_state) (s : source_ptr) (d : host_ptr) :
    refs_frame (mta_route S s d) S := by
  unfold mta_route
  dsimp only
  split_ifs <;> exact refs_frame_refl S

theorem refs_frame_route_unref (now : Int) (S : mta_state) (k : route_ptr) :
    refs_frame (mta_route_unref now S k) S := by
  unfold mta_route_unref
  dsimp only
  split_ifs
  · exact refs_frame_refl S
  · exact refs_frame_refl S
  · exact refs_frame_trans (refs_frame_host_unref _ _)
      (refs_frame_trans (refs_frame_source_unref _ _) (refs_frame_refl S))

theorem refs_frame_connector_free (S : mta_state) (c : connector_ptr) :
    refs_frame (mta_connector_free S c) S := by
  unfold mta_connector_free
  dsimp only
  split_ifs
  · exact refs_frame_trans (refs_frame_source_unref _ _) (refs_frame_refl S)
  · exact refs_frame_source_unref _ _

theorem refs_frame_connectors_free (r : relay_ptr) :
    ∀ (l : List source_ptr) (S : mta_state),
      refs_frame (l.foldl (fun T s => mta_connector_free T (r, s)) S) S := by
  intro l
  induction l with
  | nil => intro S; exact refs_frame_refl S
  | cons s l ih =>
    intro S
    rw [List.foldl_cons]
    exact refs_frame_trans (ih _) (refs_frame_connector_free S (r, s))

theorem refs_frame_hosts_unref :
    ∀ (l : List mta_mx) (S : mta_state),
      refs_frame (l.foldl (fun T mx => mta_host_unref T mx.host) S) S := by
  intro l
  induction l with
  | nil => intro S; exact refs_frame_refl S
  | cons s l ih =>
    intro S
    rw [List.foldl_cons]
    exact refs_frame_trans (ih _) (refs_frame_host_unref S s.host)

theorem refs_frame_of_conn_frame {T S : mta_state} (h : conn_frame T S) : refs_frame T S := by
  unfold conn_frame at h
  rw [h]
  exact refs_frame_refl S

/-- An update of the record of a relay that keeps its reference count, its
number of sessions and its domain does not show in the view. -/
theorem relay_refs_update (S : mta_state) (r : relay_ptr) (rec : struct_mta_relay)
    (h1 : rec.refcount = (S.relays r).refcount) (h2 : rec.nconn = (S.relays r).nconn)
    (h3 : rec.domain = (S.relays r).domain) :
    relay_refs { S with relays := Function.update S.relays r rec } = relay_refs S := by
  unfold relay_refs
  dsimp only
  congr 1
  · funext x
    by_cases e : x = r
    · subst e; rw [Function.update_same, h1]
    · rw [Function.update_noteq e]
  · funext x
    by_cases e : x = r
    · subst e; rw [Function.update_same, h2]
    · rw [Function.update_noteq e]
  · funext x
    by_cases e : x = r
    · subst e; rw [Function.update_same, h3]
    · rw [Function.update_noteq e]

/-- An update of the record of a domain that keeps its waiters does not show
in the view. -/
theorem relay_refs_update_domain (S : mta_state) (d : domain_ptr) (rec : struct_mta_domain)
    (h1 : rec.waitq = (S.domains d).waitq) :
    relay_refs { S with domains := Function.update S.domains d rec } = relay_refs S := by
  unfold relay_refs
  dsimp only
  congr 1
  funext x
  by_cases e : x = d
  · subst e; rw [Function.update_same, h1]
  · rw [Function.update_noteq e]

theorem relay_refs_ref (S : mta_state) (r : relay_ptr) :
    relay_refs (mta_relay_ref S r) = (relay_refs S).ref r := by
  unfold mta_relay_ref relay_refs refs_view.ref
  dsimp only
  congr 1
  · funext x
    by_cases e : x = r
    · subst e; rw [Function.update_same, Function.update_same]
    · rw [Function.update_noteq e, Function.update_noteq e]
  · funext x
    by_cases e : x = r
    · subst e; rw [Function.update_same]
    · rw [Function.update_noteq e]
  · funext x
    by_cases e : x = r
    · subst e; rw [Function.update_same]
    · rw [Function.update_noteq e]

theorem relay_refs_domain_free (S : mta_state) (d : domain_ptr) (rec : struct_mta_domain)
    (t : List domain_ptr) (o : List mta_event) (h1 : rec.waitq = (S.domains d).waitq) :
    relay_refs { S with domains := Function.update S.domains d rec, domains_tree := t, out := o } =
      relay_refs S := by
  unfold relay_refs
  dsimp only
  congr 1
  funext x
  by_cases e : x = d
  · subst e; rw [Function.update_same, h1]
  · rw [Function.update_noteq e]

theorem relay_refs_domain_unref (S : mta_state) (d : domain_ptr) :
    relay_refs (mta_domain_unref S d) = relay_refs S := by
  unfold mta_domain_unref
  dsimp only
  split_ifs
  · exact relay_refs_update_domain S d _ rfl
  · refine (relay_refs_domain_free _ d _ _ _ ?_).trans ?_
    · rfl
    · exact (relay_refs_of_frame (refs_frame_hosts_unref _ _)).trans
        (relay_refs_update_domain S d _ rfl)

theorem relay_refs_unref_free (S3 : mta_state) (r : relay_ptr) (rec : struct_mta_relay)
    (d : domain_ptr) (o : List mta_event)
    (h1 : rec.refcount = (S3.relays r).refcount) (h2 : rec.nconn = (S3.relays r).nconn)
    (h3 : rec.domain = (S3.relays r).domain) :
    relay_refs
        { mta_domain_unref { S3 with relays := Function.update S3.relays r rec } d with
          out := o } = relay_refs S3 :=
  (relay_refs_domain_unref _ d).trans (relay_refs_update S3 r rec h1 h2 h3)

theorem relay_refs_set_refcount (S : mta_state) (r : relay_ptr) (rec : struct_mta_relay)
    (t : List relay_ptr) (h2 : rec.nconn = (S.relays r).nconn)
    (h3 : rec.domain = (S.relays r).domain) :
    relay_refs { S with relays := Function.update S.relays r rec, relays_tree := t } =
      { relay_refs S with
        refcount := Function.update (relay_refs S).refcount r rec.refcount
        tree := t } := by
  unfold relay_refs
  dsimp only
  congr 1
  · funext x
    by_cases e : x = r
    · subst e; rw [Function.update_same, Function.update_same]
    · rw [Function.update_noteq e, Function.update_noteq e]
  · funext x
    by_cases e : x = r
    · subst e; rw [Function.update_same, h2]
    · rw [Function.update_noteq e]
  · funext x
    by_cases e : x = r
    · subst e; rw [Function.update_same, h3]
    · rw [Function.update_noteq e]

theorem relay_refs_unref (S : mta_state) (r : relay_ptr) :
    relay_refs (mta_relay_unref S r) = (relay_refs S).unref r := by
  unfold mta_relay_unref refs_view.unref
  dsimp only
  have hv : (relay_refs S).refcount r = (S.relays r).refcount := rfl
  rw [hv]
  by_cases hc : (S.relays r).refcount - 1 ≠ 0
  · rw [if_pos hc, if_pos hc]
    exact relay_refs_set_refcount S r _ S.relays_tree rfl rfl
  · rw [if_neg hc, if_neg hc]
    refine (relay_refs_unref_free _ r _ _ _ ?_ ?_ ?_).trans ?_
    · rfl
    · rfl
    · rfl
    · refine (relay_refs_of_frame (refs_frame_connectors_free r _ _)).trans ?_
      exact relay_refs_set_refcount S r _ (S.relays_tree.erase r) rfl rfl

theorem relay_refs_spawn (now : Int) (S : mta_state) (c : connector_ptr) (k : route_ptr) :
    relay_refs (mta_connect_spawn now S c k) =
      { relay_refs S with
        nconn := Function.update (relay_refs S).nconn c.1 ((relay_refs S).nconn c.1 + 1)
        refcount :=
          Function.update (relay_refs S).refcount c.1 ((relay_refs S).refcount c.1 + 1) } := by
  unfold relay_refs
  simp only [refs_view.mk.injEq]
  refine ⟨?_, ?_, ?_, ?_, ?_, ?_, ?_, ?_, ?_⟩
  · simp [mta_connect_spawn, mta_relay_ref]
  · funext x
    by_cases e : x = c.1
    · subst e; simp [mta_connect_spawn, mta_relay_ref]
    · simp [mta_connect_spawn, mta_relay_ref, Function.update_noteq e]
  · funext x
    by_cases e : x = c.1
    · subst e; simp [mta_connect_spawn, mta_relay_ref]
    · simp [mta_connect_spawn, mta_relay_ref, Function.update_noteq e]
  · funext x
    by_cases e : x = c.1
    · subst e; simp [mta_connect_spawn, mta_relay_ref]
    · simp [mta_connect_spawn, mta_relay_ref, Function.update_noteq e]
  · funext x
    by_cases e : x = (S.relays c.1).domain
    · subst e; simp [mta_connect_spawn, mta_relay_ref]
    · simp [mta_connect_spawn, mta_relay_ref, Function.update_noteq e]
  · simp [mta_connect_spawn, mta_relay_ref]
  · simp [mta_connect_spawn, mta_relay_ref]
  · simp [mta_connect_spawn, mta_relay_ref]
  · simp [mta_connect_spawn, mta_relay_ref]

/-- The reference accounting of the relays is an invariant of `mta_connect`. -/
theorem refs_ok_invariant (now : Int) (H : relay_ptr → Nat) :
    connect_invariant now (fun S _ => refs_ok (relay_refs S) H) where
  routes :=
    { intern := fun S _ s d h => by
        rw [relay_refs_of_frame (refs_frame_route S s d)]
        exact h
      release := fun S _ k h _ => by
        rw [relay_refs_of_frame (refs_frame_route_unref now S k)]
        exact h }
  spawn := fun S _ c k h _ => by
    rw [relay_refs_spawn]
    exact h.spawn c.1
  frame := fun S T _ h hf => by
    rw [relay_refs_of_frame (refs_frame_of_conn_frame hf)]
    exact h

theorem mta_connect_refs (fuel : Nat) (now : Int) (S T : mta_state) (c : connector_ptr)
    (H : relay_ptr → Nat) (hS : refs_ok (relay_refs S) H)
    (h : mta_connect fuel now S c = some T) : refs_ok (relay_refs T) H :=
  mta_connect_invariant (refs_ok_invariant now H) c fuel S T hS h

theorem relay_refs_connector (S : mta_state) (r : relay_ptr) (s : source_ptr) :
    relay_refs (mta_connector S r s) = relay_refs S := by
  unfold mta_connector mta_source_ref
  dsimp only
  split_ifs
  · rfl
  · exact relay_refs_update
      { S with connectors := Function.update S.connectors (r, s)
                (struct_mta_connector.mk (set_flag 0 CONNECTOR_NEW) 0 0),
               sources := Function.update S.sources s
                (struct_mta_source.mk ((S.sources s).refcount + 1) (S.sources s).nconn
                  (S.sources s).lastconn) } r _ rfl rfl rfl

theorem relay_refs_on_source_fail (S : mta_state) (r : relay_ptr) :
    relay_refs (mta_on_source_fail S r) = relay_refs S := by
  have aux : ∀ (S1 : mta_state) (str : String), relay_refs S1 = relay_refs S →
      relay_refs
        (if (S1.relays r).connectors.length < (S1.relays r).sourceloop then
          { S1 with
            relays := Function.update S1.relays r
              { S1.relays r with fail := IMSG_DELIVERY_TEMPFAIL, failstr := str } }
        else S1) = relay_refs S := by
    intro S1 str h1
    split
    · refine Eq.trans ?_ h1
      exact relay_refs_update S1 r _ rfl rfl rfl
    · exact h1
  unfold mta_on_source_fail
  dsimp only
  refine aux _ _ ?_
  split
  · exact relay_refs_update S r _ rfl rfl rfl
  · rfl

theorem relay_refs_query_limits (S : mta_state) (r : relay_ptr) :
    relay_refs (mta_query_limits S r) = relay_refs S := by
  unfold mta_query_limits
  dsimp only
  split_ifs
  all_goals first
    | rfl
    | exact relay_refs_update S r _ rfl rfl rfl

theorem relay_refs_query_secret (S : mta_state) (r : relay_ptr)
    (hw : has_flag (S.relays r).status RELAY_WAIT_SECRET = false) :
    relay_refs (mta_query_secret S r) =
      { relay_refs S with
        secret := (relay_refs S).secret ++ [((S.relays r).id, r)]
        refcount :=
          Function.update (relay_refs S).refcount r ((relay_refs S).refcount r + 1) } := by
  unfold relay_refs
  simp only [refs_view.mk.injEq]
  refine ⟨?_, ?_, ?_, ?_, ?_, ?_, ?_, ?_, ?_⟩
  · simp [mta_query_secret, hw, mta_relay_ref]
  · funext x
    by_cases e : x = r
    · subst e; simp [mta_query_secret, hw, mta_relay_ref]
    · simp [mta_query_secret, hw, mta_relay_ref, Function.update_noteq e]
  · funext x
    by_cases e : x = r
    · subst e; simp [mta_query_secret, hw, mta_relay_ref]
    · simp [mta_query_secret, hw, mta_relay_ref, Function.update_noteq e]
  · funext x
    by_cases e : x = r
    · subst e; simp [mta_query_secret, hw, mta_relay_ref]
    · simp [mta_query_secret, hw, mta_relay_ref, Function.update_noteq e]
  · simp [mta_query_secret, hw, mta_relay_ref]
  · simp [mta_query_secret, hw, mta_relay_ref]
  · simp [mta_query_secret, hw, mta_relay_ref]
  · simp [mta_query_secret, hw, mta_relay_ref]
  · simp [mta_query_secret, hw, mta_relay_ref]

theorem refs_ok_query_secret (S : mta_state) (r : relay_ptr) (H : relay_ptr → Nat)
    (h : refs_ok (relay_refs S) H) (hr : r ∈ S.relays_tree) :
    refs_ok (relay_refs (mta_query_secret S r)) H := by
  by_cases hw : has_flag (S.relays r).status RELAY_WAIT_SECRET = true
  · unfold mta_query_secret
    rw [if_pos hw]
    exact h
  · rw [relay_refs_query_secret S r (by simpa using hw)]
    exact h.wait_secret hr _

theorem relay_refs_query_preference (S : mta_state) (r : relay_ptr)
    (hw : has_flag (S.relays r).status RELAY_WAIT_PREFERENCE = false) :
    relay_refs (mta_query_preference S r) =
      { relay_refs S with
        preference := (relay_refs S).preference ++ [((S.relays r).id, r)]
        refcount :=
          Function.update (relay_refs S).refcount r ((relay_refs S).refcount r + 1) } := by
  unfold relay_refs
  simp only [refs_view.mk.injEq]
  refine ⟨?_, ?_, ?_, ?_, ?_, ?_, ?_, ?_, ?_⟩
  · simp [mta_query_preference, hw, mta_relay_ref]
  · funext x
    by_cases e : x = r
    · subst e; simp [mta_query_preference, hw, mta_relay_ref]
    · simp [mta_query_preference, hw, mta_relay_ref, Function.update_noteq e]
  · funext x
    by_cases e : x = r
    · subst e; simp [mta_query_preference, hw, mta_relay_ref]
    · simp [mta_query_preference, hw, mta_relay_ref, Function.update_noteq e]
  · funext x
    by_cases e : x = r
    · subst e; simp [mta_query_preference, hw, mta_relay_ref]
    · simp [mta_query_preference, hw, mta_relay_ref, Function.update_noteq e]
  · simp [mta_query_preference, hw, mta_relay_ref]
  · simp [mta_query_preference, hw, mta_relay_ref]
  · simp [mta_query_preference, hw, mta_relay_ref]
  · simp [mta_query_preference, hw, mta_relay_ref]
  · simp [mta_query_preference, hw, mta_relay_ref]

theorem refs_ok_query_preference (S : mta_state) (r : relay_ptr) (H : relay_ptr → Nat)
    (h : refs_ok (relay_refs S) H) (hr : r ∈ S.relays_tree) :
    refs_ok (relay_refs (mta_query_preference S r)) H := by
  by_cases hw : has_flag (S.relays r).status RELAY_WAIT_PREFERENCE = true
  · unfold mta_query_preference
    rw [if_pos hw]
    exact h
  · rw [relay_refs_query_preference S r (by simpa using hw)]
    exact h.wait_preference hr _

theorem relay_refs_query_mx (now : Int) (S : mta_state) (r : relay_ptr)
    (hw : has_flag (S.relays r).status RELAY_WAIT_MX = false) :
    relay_refs (mta_query_mx now S r) =
      { relay_refs S with
        waitq := Function.update (relay_refs S).waitq ((relay_refs S).domain r)
          ((relay_refs S).waitq ((relay_refs S).domain r) ++ [r])
        refcount :=
          Function.update (relay_refs S).refcount r ((relay_refs S).refcount r + 1) } := by
  have aux : ∀ S2 : mta_state,
      (S2.relays = S.relays ∧ S2.relays_tree = S.relays_tree ∧
        (∀ x, (S2.domains x).waitq =
          Function.update (fun d => (S.domains d).waitq) (S.relays r).domain
            ((S.domains (S.relays r).domain).waitq ++ [r]) x) ∧
        S2.wait_secret = S.wait_secret ∧ S2.wait_preference = S.wait_preference ∧
        S2.wait_source = S.wait_source ∧ S2.runq_relay = S.runq_relay) →
      relay_refs
          (mta_relay_ref
            { S2 with
              relays := Function.update S2.relays r
                { S2.relays r with status := set_flag (S2.relays r).status RELAY_WAIT_MX } } r) =
        { relay_refs S with
          waitq := Function.update (relay_refs S).waitq ((relay_refs S).domain r)
            ((relay_refs S).waitq ((relay_refs S).domain r) ++ [r])
          refcount :=
            Function.update (relay_refs S).refcount r ((relay_refs S).refcount r + 1) } := by
    intro S2 h
    obtain ⟨h1, h2, h3, h4, h5, h6, h7⟩ := h
    unfold relay_refs mta_relay_ref
    simp only [refs_view.mk.injEq]
    refine ⟨h2, ?_, ?_, ?_, ?_, h4, h5, h6, h7⟩
    · funext x
      by_cases e : x = r
      · subst e; simp [h1]
      · simp [Function.update_noteq e, h1]
    · funext x
      by_cases e : x = r
      · subst e; simp [h1]
      · simp [Function.update_noteq e, h1]
    · funext x
      by_cases e : x = r
      · subst e; simp [h1]
      · simp [Function.update_noteq e, h1]
    · funext x
      exact h3 x
  unfold mta_query_mx
  rw [if_neg (by simp [hw])]
  dsimp only
  refine aux _ ?_
  unfold generate_uid
  split_ifs
  all_goals
    refine ⟨rfl, rfl, ?_, rfl, rfl, rfl, rfl⟩
    intro x
    dsimp only
    by_cases e : x = (S.relays r).domain
    · subst e; simp
    · simp [Function.update_noteq e]

theorem refs_ok_query_mx (now : Int) (S : mta_state) (r : relay_ptr) (H : relay_ptr → Nat)
    (h : refs_ok (relay_refs S) H) (hr : r ∈ S.relays_tree) :
    refs_ok (relay_refs (mta_query_mx now S r)) H := by
  by_cases hw : has_flag (S.relays r).status RELAY_WAIT_MX = true
  · unfold mta_query_mx
    rw [if_pos hw]
    exact h
  · rw [relay_refs_query_mx now S r (by simpa using hw)]
    exact h.wait_mx hr

theorem refs_ok.of_eq {V W : refs_view} {H : relay_ptr → Nat} (h : refs_ok V H) (e : W = V) :
    refs_ok W H := e ▸ h

theorem relay_refs_update_more (S : mta_state) (r : relay_ptr) (rec : struct_mta_relay)
    (o : List mta_event) (hs : List (String × hoststat))
    (h1 : rec.refcount = (S.relays r).refcount) (h2 : rec.nconn = (S.relays r).nconn)
    (h3 : rec.domain = (S.relays r).domain) :
    relay_refs { S with relays := Function.update S.relays r rec, out := o, hoststat := hs } =
      relay_refs S :=
  relay_refs_update S r rec h1 h2 h3

theorem relay_refs_flush (S T : mta_state) (r : relay_ptr) (fail : Nat) (error : String)
    (h : mta_flush S r fail error = mta_result.done T) : relay_refs T = relay_refs S := by
  by_cases hf : fail = IMSG_DELIVERY_TEMPFAIL ∨ fail = IMSG_DELIVERY_PERMFAIL
  · obtain ⟨T1, h1, h2⟩ := mta_flush_spec S r fail error hf
    rw [h1] at h
    injection h with h
    subst h
    rw [h2]
    refine relay_refs_update_more S r _ _ _ ?_ ?_ ?_ <;> rfl
  · unfold mta_flush at h
    rw [if_pos (by tauto)] at h
    cases h

theorem relay_refs_sourceloop (S : mta_state) (r : relay_ptr) (n : Nat) :
    relay_refs
      { S with
        relays := Function.update S.relays r { S.relays r with sourceloop := n } } =
      relay_refs S :=
  relay_refs_update S r _ rfl rfl rfl

theorem mta_on_source_connect_refs (fuel : Nat) (now : Int) (S S1 : mta_state)
    (r : relay_ptr) (source : Option source_ptr) (delay : Int) (H : relay_ptr → Nat)
    (hS : refs_ok (relay_refs S) H)
    (h : mta_on_source_connect fuel now S r source = some (S1, delay)) :
    refs_ok (relay_refs S1) H := by
  unfold mta_on_source_connect at h
  dsimp only at h
  have h0 : refs_ok (relay_refs
      { S with
        relays := Function.update S.relays r
          (struct_mta_relay.mk (S.relays r).id (S.relays r).domain (S.relays r).flags
            (S.relays r).port (S.relays r).cert (S.relays r).backupname (S.relays r).backuppref
            (S.relays r).sourcetable (S.relays r).authtable (S.relays r).authlabel
            (S.relays r).secret (S.relays r).limits (S.relays r).status (S.relays r).refcount
            (S.relays r).ntask (S.relays r).tasks (S.relays r).connectors
            (S.relays r).sourceloop now (S.relays r).nextsource (S.relays r).nconn
            (S.relays r).nconn_ready (S.relays r).lastconn (S.relays r).fail
            (S.relays r).failstr) }) H := by
    exact hS.of_eq (relay_refs_update S r _ rfl rfl rfl)
  generalize ({ S with
      relays := Function.update S.relays r
        (struct_mta_relay.mk (S.relays r).id (S.relays r).domain (S.relays r).flags
          (S.relays r).port (S.relays r).cert (S.relays r).backupname (S.relays r).backuppref
          (S.relays r).sourcetable (S.relays r).authtable (S.relays r).authlabel
          (S.relays r).secret (S.relays r).limits (S.relays r).status (S.relays r).refcount
          (S.relays r).ntask (S.relays r).tasks (S.relays r).connectors
          (S.relays r).sourceloop now (S.relays r).nextsource (S.relays r).nconn
          (S.relays r).nconn_ready (S.relays r).lastconn (S.relays r).fail
          (S.relays r).failstr) } : mta_state) = S0 at h h0
  cases source with
  | none =>
    simp only [Option.some.injEq, Prod.mk.injEq] at h
    rw [← h.1]
    exact h0
  | some s =>
    dsimp only at h
    have h2 : refs_ok (relay_refs
        (if has_flag ((mta_connector S0 r s).connectors (r, s)).flags CONNECTOR_NEW = true then
          { mta_connector S0 r s with
            connectors := Function.update (mta_connector S0 r s).connectors (r, s)
              (struct_mta_connector.mk
                (clr_flag ((mta_connector S0 r s).connectors (r, s)).flags CONNECTOR_NEW)
                ((mta_connector S0 r s).connectors (r, s)).nconn
                ((mta_connector S0 r s).connectors (r, s)).lastconn) }
        else mta_connector S0 r s)) H := by
      have : relay_refs
          (if has_flag ((mta_connector S0 r s).connectors (r, s)).flags CONNECTOR_NEW = true then
            { mta_connector S0 r s with
              connectors := Function.update (mta_connector S0 r s).connectors (r, s)
                (struct_mta_connector.mk
                  (clr_flag ((mta_connector S0 r s).connectors (r, s)).flags CONNECTOR_NEW)
                  ((mta_connector S0 r s).connectors (r, s)).nconn
                  ((mta_connector S0 r s).connectors (r, s)).lastconn) }
          else mta_connector S0 r s) = relay_refs (mta_connector S0 r s) := by
        split <;> rfl
      rw [this, relay_refs_connector]
      exact h0
    generalize (if has_flag ((mta_connector S0 r s).connectors (r, s)).flags CONNECTOR_NEW = true
        then
          ({ mta_connector S0 r s with
            connectors := Function.update (mta_connector S0 r s).connectors (r, s)
              (struct_mta_connector.mk
                (clr_flag ((mta_connector S0 r s).connectors (r, s)).flags CONNECTOR_NEW)
                ((mta_connector S0 r s).connectors (r, s)).nconn
                ((mta_connector S0 r s).connectors (r, s)).lastconn) } : mta_state)
        else mta_connector S0 r s) = S2 at h h2
    cases hc : mta_connect fuel now S2 (r, s) with
    | none => rw [hc] at h; cases h
    | some S3 =>
      rw [hc] at h
      dsimp only at h
      have h3 := mta_connect_refs fuel now S2 S3 (r, s) H h2 hc
      split_ifs at h
      all_goals
        simp only [Option.some.injEq, Prod.mk.injEq] at h
        rw [← h.1, relay_refs_of_frame (refs_frame_source_unref _ _)]
        first
          | exact h3
          | (rw [relay_refs_sourceloop]
             exact h3)

theorem relay_refs_wait_source (S : mta_state) (r : relay_ptr) (table : String) :
    relay_refs
        (mta_relay_ref
          { S with
            out := S.out ++ [mta_event.lka_source (S.relays r).id table]
            wait_source := S.wait_source ++ [((S.relays r).id, r)]
            relays := Function.update S.relays r
              { S.relays r with status := set_flag (S.relays r).status RELAY_WAIT_SOURCE } } r) =
      { relay_refs S with
        source := (relay_refs S).source ++ [((S.relays r).id, r)]
        refcount :=
          Function.update (relay_refs S).refcount r ((relay_refs S).refcount r + 1) } := by
  unfold relay_refs mta_relay_ref
  simp only [refs_view.mk.injEq]
  refine ⟨trivial, ?_, ?_, ?_, trivial, trivial, trivial, trivial, trivial⟩
  · funext x
    by_cases e : x = r
    · subst e; simp
    · simp [Function.update_noteq e]
  · funext x
    by_cases e : x = r
    · subst e; simp
    · simp [Function.update_noteq e]
  · funext x
    by_cases e : x = r
    · subst e; simp
    · simp [Function.update_noteq e]

theorem relay_refs_schedule (S : mta_state) (r : relay_ptr) (tm : Int) :
    relay_refs
        (mta_relay_ref
          { S with
            runq_relay := runq_schedule S.runq_relay tm r
            relays := Function.update S.relays r
              { S.relays r with status := set_flag (S.relays r).status RELAY_WAIT_CONNECTOR } }
          r) =
      { relay_refs S with
        runq := runq_schedule (relay_refs S).runq tm r
        refcount :=
          Function.update (relay_refs S).refcount r ((relay_refs S).refcount r + 1) } := by
  unfold relay_refs mta_relay_ref
  simp only [refs_view.mk.injEq]
  refine ⟨trivial, ?_, ?_, ?_, trivial, trivial, trivial, trivial, trivial⟩
  · funext x
    by_cases e : x = r
    · subst e; simp
    · simp [Function.update_noteq e]
  · funext x
    by_cases e : x = r
    · subst e; simp
    · simp [Function.update_noteq e]
  · funext x
    by_cases e : x = r
    · subst e; simp
    · simp [Function.update_noteq e]

theorem mta_on_source_with_refs (drain : mta_state → relay_ptr → mta_result)
    (hd : ∀ S T r H, refs_ok (relay_refs S) H → 1 ≤ H r → drain S r = mta_result.done T →
      refs_ok (relay_refs T) H)
    (fuel : Nat) (now : Int) (S T : mta_state) (r : relay_ptr) (source : Option source_ptr)
    (H : relay_ptr → Nat) (hS : refs_ok (relay_refs S) H) (hr : 1 ≤ H r)
    (h : mta_on_source_with drain fuel now S r source = mta_result.done T) :
    refs_ok (relay_refs T) (held_less H r) := by
  unfold mta_on_source_with at h
  cases hc : mta_on_source_connect fuel now S r source with
  | none => rw [hc] at h; cases h
  | some X =>
    obtain ⟨S1, delay⟩ := X
    rw [hc] at h
    dsimp only at h
    obtain ⟨S4, h4, h5⟩ := mta_result_bind_done h
    injection h5 with h5
    subst h5
    have t1 := mta_on_source_connect_refs fuel now S S1 r source delay H hS hc
    have a2 : refs_ok (relay_refs (mta_on_source_fail S1 r)) H :=
      t1.of_eq (relay_refs_on_source_fail S1 r)
    rw [relay_refs_unref]
    refine (hd _ S4 r H ?_ hr h4).unref hr
    exact a2.of_eq (relay_refs_update _ r _ rfl rfl rfl)

theorem mta_query_source_with_refs (drain : mta_state → relay_ptr → mta_result)
    (hd : ∀ S T r H, refs_ok (relay_refs S) H → 1 ≤ H r → drain S r = mta_result.done T →
      refs_ok (relay_refs T) H)
    (fuel : Nat) (now : Int) (S T : mta_state) (r : relay_ptr) (H : relay_ptr → Nat)
    (hS : refs_ok (relay_refs S) H) (hr : 1 ≤ H r)
    (h : mta_query_source_with drain fuel now S r = mta_result.done T) :
    refs_ok (relay_refs T) H := by
  have aux : ∀ S1 : mta_state, refs_ok (relay_refs S1) H →
      (match (S1.relays r).sourcetable with
        | none =>
          let S2 := mta_relay_ref S1 r
          mta_on_source_with drain fuel now (mta_source S2 none) r (some none)
        | some table =>
          if S1.wait_source.any (fun e => decide (e.1 = (S1.relays r).id)) then
            mta_result.fatal "tree_xset"
          else
            let r2 : struct_mta_relay :=
              { S1.relays r with status := set_flag (S1.relays r).status RELAY_WAIT_SOURCE }
            let S2 := { S1 with
              out := S1.out ++ [mta_event.lka_source (S1.relays r).id table]
              wait_source := S1.wait_source ++ [((S1.relays r).id, r)]
              relays := Function.update S1.relays r r2 }
            mta_result.done (mta_relay_ref S2 r)) = mta_result.done T →
      refs_ok (relay_refs T) H := by
    intro S1 a1 h
    have hm : r ∈ (relay_refs S1).tree := a1.mem_of_held hr
    cases hst : (S1.relays r).sourcetable with
    | none =>
      rw [hst] at h
      dsimp only at h
      have a2 : refs_ok (relay_refs (mta_source (mta_relay_ref S1 r) none)) (held_more H r) := by
        rw [relay_refs_of_frame (refs_frame_source _ _), relay_refs_ref]
        exact a1.ref hm
      have := mta_on_source_with_refs drain hd fuel now _ T r _ (held_more H r) a2
        (by rw [held_more_same]; omega) h
      rwa [held_less_more] at this
    | some table =>
      rw [hst] at h
      dsimp only at h
      by_cases hx : S1.wait_source.any (fun e => decide (e.1 = (S1.relays r).id)) = true
      · rw [if_pos hx] at h
        cases h
      rw [if_neg hx] at h
      injection h with h
      subst h
      rw [relay_refs_wait_source]
      exact a1.wait_source hm _
  unfold mta_query_source_with at h
  refine aux _ ?_ h
  exact hS.of_eq (relay_refs_update S r _ rfl rfl rfl)

theorem mta_drain_with_refs (drain : mta_state → relay_ptr → mta_result)
    (hd : ∀ S T r H, refs_ok (relay_refs S) H → 1 ≤ H r → drain S r = mta_result.done T →
      refs_ok (relay_refs T) H)
    (fuel : Nat) (now : Int) (S T : mta_state) (r : relay_ptr) (H : relay_ptr → Nat)
    (hS : refs_ok (relay_refs S) H) (hr : 1 ≤ H r)
    (h : mta_drain_with drain fuel now S r = mta_result.done T) :
    refs_ok (relay_refs T) H := by
  unfold mta_drain_with at h
  dsimp only at h
  by_cases h0 : (S.relays r).ntask = 0
  · rw [if_pos h0] at h
    injection h with h
    rw [← h]
    exact hS
  rw [if_neg h0] at h
  by_cases h1 : (S.relays r).fail ≠ 0
  · rw [if_pos h1] at h
    exact hS.of_eq (relay_refs_flush S T r _ _ h)
  rw [if_neg h1] at h
  have p1 : refs_ok (relay_refs
      (if has_flag (S.relays r).flags RELAY_AUTH = true ∧ (S.relays r).secret = none then
        mta_query_secret S r else S)) H := by
    split
    · exact refs_ok_query_secret S r H hS (hS.mem_of_held hr)
    · exact hS
  generalize (if has_flag (S.relays r).flags RELAY_AUTH = true ∧ (S.relays r).secret = none then
    mta_query_secret S r else S) = S1 at h p1
  have p2 : refs_ok (relay_refs
      (if (S1.relays r).backupname.isSome = true ∧ (S1.relays r).backuppref = -1 then
        mta_query_preference S1 r else S1)) H := by
    split
    · exact refs_ok_query_preference S1 r H p1 (p1.mem_of_held hr)
    · exact p1
  generalize (if (S1.relays r).backupname.isSome = true ∧ (S1.relays r).backuppref = -1 then
    mta_query_preference S1 r else S1) = S2 at h p2
  have p3 : refs_ok (relay_refs
      (if (S2.domains (S2.relays r).domain).lastmxquery = 0 then mta_query_mx now S2 r
        else S2)) H := by
    split
    · exact refs_ok_query_mx now S2 r H p2 (p2.mem_of_held hr)
    · exact p2
  generalize (if (S2.domains (S2.relays r).domain).lastmxquery = 0 then
    mta_query_mx now S2 r else S2) = S3 at h p3
  have p4 : refs_ok (relay_refs
      (if (S3.relays r).limits = none then mta_query_limits S3 r else S3)) H := by
    split
    · exact p3.of_eq (relay_refs_query_limits S3 r)
    · exact p3
  generalize (if (S3.relays r).limits = none then mta_query_limits S3 r else S3) = S4 at h p4
  by_cases hw : has_flag (S4.relays r).status RELAY_WAITMASK = true
  · rw [if_pos hw] at h
    injection h with h
    rw [← h]
    exact p4
  rw [if_neg hw] at h
  by_cases hn : (S4.relays r).nextsource ≤ now
  · rw [if_pos hn] at h
    exact mta_query_source_with_refs drain hd fuel now S4 T r H p4 hr h
  · rw [if_neg hn] at h
    injection h with h
    rw [← h, relay_refs_schedule]
    exact p4.schedule (p4.mem_of_held hr) _

/-- `mta_drain` keeps the reference accounting of the relays, whatever
references the caller holds, as long as it holds one on the relay. -/
theorem mta_drain_refs (now : Int) :
    ∀ (fuel : Nat) (S T : mta_state) (r : relay_ptr) (H : relay_ptr → Nat),
      refs_ok (relay_refs S) H → 1 ≤ H r → mta_drain fuel now S r = mta_result.done T →
      refs_ok (relay_refs T) H := by
  intro fuel
  induction fuel with
  | zero => intro S T r H _ _ h; simp [mta_drain] at h
  | succ n ih =>
    intro S T r H hS hr h
    rw [mta_drain] at h
    exact mta_drain_with_refs (mta_drain n now) ih (n + 1) now S T r H hS hr h

theorem mta_on_source_refs (fuel : Nat) (now : Int) (S T : mta_state) (r : relay_ptr)
    (source : Option source_ptr) (H : relay_ptr → Nat) (hS : refs_ok (relay_refs S) H)
    (hr : 1 ≤ H r) (h : mta_on_source fuel now S r source = mta_result.done T) :
    refs_ok (relay_refs T) (held_less H r) :=
  mta_on_source_with_refs (mta_drain fuel now) (mta_drain_refs now fuel) fuel now S T r source H
    hS hr h

theorem relay_refs_domain_ref (S : mta_state) (d : domain_ptr) :
    relay_refs
      { S with
        domains := Function.update S.domains d
          { S.domains d with refcount := (S.domains d).refcount + 1 } } = relay_refs S :=
  relay_refs_update_domain S d _ rfl

theorem relay_refs_domain_new (S : mta_state) (d : domain_ptr) (rec : struct_mta_domain)
    (t : List domain_ptr) (o : List mta_event) (h : rec.waitq = []) :
    relay_refs { S with domains := Function.update S.domains d rec, domains_tree := t, out := o } =
      { relay_refs S with waitq := Function.update (relay_refs S).waitq d [] } := by
  unfold relay_refs
  simp only [refs_view.mk.injEq]
  refine ⟨trivial, trivial, trivial, trivial, ?_, trivial, trivial, trivial, trivial⟩
  funext x
  by_cases e : x = d
  · subst e; simp [h]
  · simp [Function.update_noteq e]

/-- Interning a domain keeps the reference accounting of the relays. -/
theorem mta_domain_refs (S : mta_state) (name : String) (flags : Nat) (H : relay_ptr → Nat)
    (h : refs_ok (relay_refs S) H) : refs_ok (relay_refs (mta_domain S name flags).2) H := by
  unfold mta_domain
  dsimp only
  rw [relay_refs_domain_ref]
  split
  · exact h
  · rw [relay_refs_domain_new _ _ _ _ _ rfl]
    exact h.fresh_domain _

theorem mta_relay_key_refs (S : mta_state) (e : envelope) (H : relay_ptr → Nat)
    (h : refs_ok (relay_refs S) H) : refs_ok (relay_refs (mta_relay_key S e).2) H := by
  unfold mta_relay_key
  dsimp only
  split_ifs <;> exact mta_domain_refs S _ _ H h

theorem relay_refs_create (S : mta_state) (r : relay_ptr) (rec : struct_mta_relay)
    (o : List mta_event) (u : Nat) (h : rec.refcount = 0) (hn : rec.nconn = 0) :
    relay_refs
        (mta_relay_ref
          { S with
            uid := u
            relays := Function.update S.relays r rec
            relays_tree := r :: S.relays_tree
            out := o } r) =
      { relay_refs S with
        tree := r :: (relay_refs S).tree
        refcount := Function.update (relay_refs S).refcount r 1
        nconn := Function.update (relay_refs S).nconn r 0
        domain := Function.update (relay_refs S).domain r rec.domain } := by
  unfold relay_refs mta_relay_ref
  simp only [refs_view.mk.injEq]
  refine ⟨trivial, ?_, ?_, ?_, trivial, trivial, trivial, trivial, trivial⟩
  · funext x
    by_cases e : x = r
    · subst e; simp [h]
    · simp [Function.update_noteq e]
  · funext x
    by_cases e : x = r
    · subst e; simp [hn]
    · simp [Function.update_noteq e]
  · funext x
    by_cases e : x = r
    · subst e; simp
    · simp [Function.update_noteq e]

/-- `mta_relay_intern` keeps the reference accounting of the relays: the
caller holds the reference on the relay that it returns. -/
theorem mta_relay_intern_refs (S : mta_state) (key : struct_mta_relay) (H : relay_ptr → Nat)
    (h : refs_ok (relay_refs S) H) :
    refs_ok (relay_refs (mta_relay_intern S key).2) (held_more H (mta_relay_intern S key).1) := by
  unfold mta_relay_intern
  cases hf : S.relays_tree.find? (fun r => decide (mta_relay_cmp key (S.relays r) = some 0)) with
  | none =>
    dsimp only
    unfold generate_uid
    dsimp only
    rw [relay_refs_create S (relay_alloc S) _ _ _ rfl rfl]
    exact h.create (relay_alloc_fresh S) _
  | some r =>
    dsimp only
    rw [relay_refs_ref, relay_refs_domain_unref]
    exact h.ref (List.mem_of_find?_eq_some hf)

theorem mta_relay_refs (S : mta_state) (e : envelope) (H : relay_ptr → Nat)
    (h : refs_ok (relay_refs S) H) :
    refs_ok (relay_refs (mta_relay S e).2) (held_more H (mta_relay S e).1) := by
  unfold mta_relay
  exact mta_relay_intern_refs _ _ H (mta_relay_key_refs S e H h)

theorem relay_refs_transfer_task (S : mta_state) (r : relay_ptr) (evp : envelope) :
    relay_refs (mta_imsg_transfer_task S r evp) = relay_refs S := by
  have aux : ∀ (S2 : mta_state) (ts : List mta_task) (o : List mta_event),
      relay_refs S2 = relay_refs S →
      relay_refs
        { S2 with
          relays := Function.update S2.relays r { S2.relays r with tasks := ts }
          out := o } = relay_refs S := by
    intro S2 ts o h2
    refine Eq.trans ?_ h2
    exact relay_refs_update S2 r _ rfl rfl rfl
  unfold mta_imsg_transfer_task
  dsimp only
  refine aux _ _ _ ?_
  split
  · rfl
  · exact relay_refs_update S r _ rfl rfl rfl

/-- The case `IMSG_MTA_TRANSFER` keeps the reference accounting of the relays. -/
theorem mta_imsg_transfer_refs (fuel : Nat) (now : Int) (S T : mta_state) (evp : envelope)
    (H : relay_ptr → Nat) (hS : refs_ok (relay_refs S) H)
    (h : mta_imsg_transfer fuel now S evp = mta_result.done T) : refs_ok (relay_refs T) H := by
  unfold mta_imsg_transfer mta_imsg_transfer_enqueue at h
  dsimp only at h
  obtain ⟨S1, h1, h2⟩ := mta_result_bind_done h
  injection h2 with h2
  subst h2
  have a1 := mta_relay_refs S evp H hS
  have a2 : refs_ok (relay_refs (mta_imsg_transfer_task (mta_relay S evp).2 (mta_relay S evp).1 evp))
      (held_more H (mta_relay S evp).1) := a1.of_eq (relay_refs_transfer_task _ _ _)
  have hr : 1 ≤ held_more H (mta_relay S evp).1 (mta_relay S evp).1 := by
    rw [held_more_same]
    omega
  have a3 := mta_drain_refs now fuel _ S1 _ _ a2 hr h1
  rw [relay_refs_unref]
  have := a3.unref hr
  rwa [held_less_more] at this

theorem mta_on_secret_refs (fuel : Nat) (now : Int) (S T : mta_state) (r : relay_ptr)
    (secret : Option String) (H : relay_ptr → Nat) (hS : refs_ok (relay_refs S) H)
    (hr : 1 ≤ H r) (h : mta_on_secret fuel now S r secret = mta_result.done T) :
    refs_ok (relay_refs T) (held_less H r) := by
  unfold mta_on_secret at h
  dsimp only at h
  obtain ⟨S1, h1, h2⟩ := mta_result_bind_done h
  injection h2 with h2
  subst h2
  rw [relay_refs_unref]
  refine (mta_drain_refs now fuel _ S1 r H ?_ hr h1).unref hr
  refine hS.of_eq (relay_refs_update S r _ ?_ ?_ ?_)
  all_goals
    cases secret <;> dsimp only <;> split_ifs <;> rfl

/-- The case `IMSG_LKA_SECRET` keeps the reference accounting of the relays. -/
theorem mta_imsg_lka_secret_refs (fuel : Nat) (now : Int) (S T : mta_state) (reqid : Nat)
    (secret : String) (H : relay_ptr → Nat) (hS : refs_ok (relay_refs S) H)
    (h : mta_imsg_lka_secret fuel now S reqid secret = mta_result.done T) :
    refs_ok (relay_refs T) H := by
  unfold mta_imsg_lka_secret at h
  cases hp : wait_pop S.wait_secret reqid with
  | none => rw [hp] at h; cases h
  | some X =>
    obtain ⟨r, t⟩ := X
    rw [hp] at h
    dsimp only at h
    have hp1 : wait_pop (relay_refs S).secret reqid = some (r, t) := hp
    obtain ⟨_, a1⟩ := hS.reply_secret hp1
    have a2 : refs_ok (relay_refs { S with wait_secret := t }) (held_more H r) := a1
    have := mta_on_secret_refs fuel now _ T r _ (held_more H r) a2
      (by rw [held_more_same]; omega) h
    rwa [held_less_more] at this

theorem mta_on_preference_refs (fuel : Nat) (now : Int) (S T : mta_state) (r : relay_ptr)
    (dnserror preference : Int) (H : relay_ptr → Nat) (hS : refs_ok (relay_refs S) H)
    (hr : 1 ≤ H r)
    (h : mta_on_preference fuel now S r dnserror preference = mta_result.done T) :
    refs_ok (relay_refs T) (held_less H r) := by
  unfold mta_on_preference at h
  dsimp only at h
  obtain ⟨S1, h1, h2⟩ := mta_result_bind_done h
  injection h2 with h2
  subst h2
  rw [relay_refs_unref]
  refine (mta_drain_refs now fuel _ S1 r H ?_ hr h1).unref hr
  refine hS.of_eq (relay_refs_update S r _ ?_ ?_ ?_)
  all_goals
    split_ifs <;> rfl

/-- The case `IMSG_DNS_MX_PREFERENCE` keeps the reference accounting of the
relays. -/
theorem mta_imsg_dns_mx_preference_refs (fuel : Nat) (now : Int) (S T : mta_state)
    (reqid : Nat) (dnserror preference : Int) (H : relay_ptr → Nat)
    (hS : refs_ok (relay_refs S) H)
    (h : mta_imsg_dns_mx_preference fuel now S reqid dnserror preference = mta_result.done T) :
    refs_ok (relay_refs T) H := by
  unfold mta_imsg_dns_mx_preference at h
  cases hp : wait_pop S.wait_preference reqid with
  | none => rw [hp] at h; cases h
  | some X =>
    obtain ⟨r, t⟩ := X
    rw [hp] at h
    dsimp only at h
    have hp1 : wait_pop (relay_refs S).preference reqid = some (r, t) := hp
    obtain ⟨_, a1⟩ := hS.reply_preference hp1
    have a2 : refs_ok (relay_refs { S with wait_preference := t }) (held_more H r) := a1
    have := mta_on_preference_refs fuel now _ T r _ _ (held_more H r) a2
      (by rw [held_more_same]; omega) h
    rwa [held_less_more] at this

/-- The case `IMSG_LKA_SOURCE` keeps the reference accounting of the relays. -/
theorem mta_imsg_lka_source_refs (fuel : Nat) (now : Int) (S T : mta_state) (reqid : Nat)
    (ss : Option sockaddr) (H : relay_ptr → Nat) (hS : refs_ok (relay_refs S) H)
    (h : mta_imsg_lka_source fuel now S reqid ss = mta_result.done T) :
    refs_ok (relay_refs T) H := by
  unfold mta_imsg_lka_source at h
  cases hp : wait_pop S.wait_source reqid with
  | none => rw [hp] at h; cases h
  | some X =>
    obtain ⟨r, t⟩ := X
    rw [hp] at h
    dsimp only at h
    have hp1 : wait_pop (relay_refs S).source reqid = some (r, t) := hp
    obtain ⟨_, a1⟩ := hS.reply_source hp1
    have a2 : refs_ok (relay_refs { S with wait_source := t }) (held_more H r) := a1
    have hr : 1 ≤ held_more H r r := by rw [held_more_same]; omega
    cases ss with
    | none =>
      dsimp only at h
      have := mta_on_source_refs fuel now _ T r _ (held_more H r) a2 hr h
      rwa [held_less_more] at this
    | some sa =>
      dsimp only at h
      have a3 : refs_ok (relay_refs (mta_source { S with wait_source := t } (some sa)))
          (held_more H r) := a2.of_eq (relay_refs_of_frame (refs_frame_source _ _))
      have := mta_on_source_refs fuel now _ T r _ (held_more H r) a3 hr h
      rwa [held_less_more] at this

theorem relay_refs_on_mx_status (S S1 : mta_state) (r : relay_ptr) (d : domain_ptr)
    (h : mta_on_mx_status S r d = Except.ok S1) : relay_refs S1 = relay_refs S := by
  have aux : ∀ X : Except String mta_state,
      (∀ T, X = Except.ok T → relay_refs T = relay_refs S) →
      (X.map fun T =>
        { T with
          relays := Function.update T.relays r
            { T.relays r with status := clr_flag (T.relays r).status RELAY_WAIT_MX } }) =
        Except.ok S1 → relay_refs S1 = relay_refs S := by
    intro X hX h
    cases X with
    | error m => cases h
    | ok T =>
      simp only [Except.map] at h
      injection h with h
      subst h
      refine Eq.trans ?_ (hX T rfl)
      exact relay_refs_update T r _ rfl rfl rfl
  unfold mta_on_mx_status at h
  dsimp only at h
  refine aux _ ?_ h
  intro T hT
  split_ifs at hT
  all_goals first
    | (cases hT
       done)
    | (cases hT
       first
         | rfl
         | exact relay_refs_update S r _ rfl rfl rfl)

theorem mta_on_mx_refs (fuel : Nat) (now : Int) (S T : mta_state) (r : relay_ptr)
    (d : domain_ptr) (H : relay_ptr → Nat) (hS : refs_ok (relay_refs S) H) (hr : 1 ≤ H r)
    (h : mta_on_mx fuel now S r d = mta_result.done T) :
    refs_ok (relay_refs T) (held_less H r) := by
  unfold mta_on_mx at h
  cases hm : mta_on_mx_status S r d with
  | error m => rw [hm] at h; cases h
  | ok S1 =>
    rw [hm] at h
    dsimp only at h
    obtain ⟨S2, h1, h2⟩ := mta_result_bind_done h
    injection h2 with h2
    subst h2
    rw [relay_refs_unref]
    exact (mta_drain_refs now fuel S1 S2 r H
      (hS.of_eq (relay_refs_on_mx_status S S1 r d hm)) hr h1).unref hr

theorem waitq_run_waiters_refs (fuel : Nat) (now : Int) (d : domain_ptr) (T : mta_state)
    (H : relay_ptr → Nat) :
    ∀ (L : List relay_ptr) (S : mta_state),
      refs_ok (relay_refs S) (fun x => H x + L.count x) →
      waitq_run_waiters fuel now d L S = mta_result.done T → refs_ok (relay_refs T) H := by
  intro L
  induction L with
  | nil =>
    intro S hS h
    unfold waitq_run_waiters at h
    injection h with h
    subst h
    simpa using hS
  | cons r rs ih =>
    intro S hS h
    unfold waitq_run_waiters at h
    obtain ⟨S1, h1, h2⟩ := mta_result_bind_done h
    have e : (fun x => H x + (r :: rs).count x) = held_more (fun x => H x + rs.count x) r := by
      funext x
      by_cases ex : x = r
      · subst ex
        rw [held_more_same, List.count_cons_self]
        omega
      · rw [held_more_other _ ex, List.count_cons_of_ne (fun h => ex h)]
    rw [e] at hS
    have := mta_on_mx_refs fuel now S S1 r d _ hS (by rw [held_more_same]; omega) h1
    rw [held_less_more] at this
    exact ih S1 this h2

/-- The case `IMSG_DNS_HOST_END` keeps the reference accounting of the relays. -/
theorem mta_imsg_dns_host_end_refs (fuel : Nat) (now : Int) (S T : mta_state) (reqid : Nat)
    (dnserror : Nat) (H : relay_ptr → Nat) (hS : refs_ok (relay_refs S) H)
    (h : mta_imsg_dns_host_end fuel now S reqid dnserror = mta_result.done T) :
    refs_ok (relay_refs T) H := by
  unfold mta_imsg_dns_host_end at h
  cases hp : wait_pop S.wait_mx reqid with
  | none => rw [hp] at h; cases h
  | some X =>
    obtain ⟨d, t⟩ := X
    rw [hp] at h
    dsimp only at h
    unfold waitq_run at h
    dsimp only at h
    simp only [Function.update_same, Function.update_idem] at h
    refine waitq_run_waiters_refs fuel now d T H _ _ ?_ h
    have := hS.run_waiters d
    refine this.of_eq ?_
    unfold relay_refs
    simp only [refs_view.mk.injEq]
    refine ⟨trivial, trivial, trivial, trivial, ?_, trivial, trivial, trivial, trivial⟩
    funext x
    by_cases e : x = d
    · subst e; simp
    · simp [Function.update_noteq e]

/-- The case `IMSG_DNS_HOST` keeps the view of the relays. -/
theorem relay_refs_dns_host (S T : mta_state) (reqid : Nat) (ss : sockaddr) (preference : Int)
    (h : mta_imsg_dns_host S reqid ss preference = mta_result.done T) :
    relay_refs T = relay_refs S := by
  unfold mta_imsg_dns_host at h
  cases hg : wait_get S.wait_mx reqid with
  | none => rw [hg] at h; cases h
  | some d =>
    rw [hg] at h
    dsimp only at h
    injection h with h
    subst h
    refine (relay_refs_update_domain _ d _ ?_).trans ?_
    · rfl
    unfold mta_host mta_host_ref
    dsimp only
    split <;> rfl

theorem refs_frame_route_enable (now : Int) (S : mta_state) (k : route_ptr) :
    refs_frame (mta_route_enable now S k) S := by
  unfold mta_route_enable
  exact refs_frame_refl S

theorem refs_frame_route_disable (now : Int) (S : mta_state) (k : route_ptr) (penalty : Int)
    (reason : Nat) : refs_frame (mta_route_disable now S k penalty reason) S := by
  have aux : ∀ (S2 : mta_state) (rec : struct_mta_route) (q : List (Int × route_ptr)),
      refs_frame S2 S →
      refs_frame (mta_route_ref { S2 with routes := Function.update S2.routes k rec,
                                          runq_route := q } k) S := by
    intro S2 rec q h
    exact h
  unfold mta_route_disable
  dsimp only
  refine aux _ _ _ ?_
  split
  · exact refs_frame_trans (refs_frame_route_unref now _ k) (refs_frame_refl S)
  · exact refs_frame_refl S

theorem refs_frame_timeout_route (now : Int) (S : mta_state) (e : Int × route_ptr) :
    refs_frame (runq_route_expire now S e) S := by
  unfold runq_route_expire mta_on_timeout_route
  dsimp only
  exact refs_frame_trans (refs_frame_route_unref now _ _)
    (refs_frame_trans (refs_frame_route_enable now _ _) (refs_frame_refl S))

/-- The branch of `mta_on_timeout` for the run-queue of the relays keeps the
reference accounting of the relays. -/
theorem mta_on_timeout_relay_refs (fuel : Nat) (now : Int) (S T : mta_state)
    (e : Int × relay_ptr) (H : relay_ptr → Nat) (hS : refs_ok (relay_refs S) H)
    (he : e ∈ S.runq_relay)
    (h : mta_on_timeout_relay fuel now { S with runq_relay := runq_expire S.runq_relay e } e.2 =
      mta_result.done T) : refs_ok (relay_refs T) H := by
  unfold mta_on_timeout_relay at h
  dsimp only at h
  obtain ⟨S1, h1, h2⟩ := mta_result_bind_done h
  injection h2 with h2
  subst h2
  have he1 : e ∈ (relay_refs S).runq := he
  obtain ⟨_, a1⟩ := hS.expire he1
  have a2 : refs_ok (relay_refs { S with runq_relay := runq_expire S.runq_relay e })
      (held_more H e.2) := a1
  have hr : 1 ≤ held_more H e.2 e.2 := by rw [held_more_same]; omega
  rw [relay_refs_unref]
  have key : refs_ok (relay_refs S1) (held_more H e.2) := by
    refine mta_drain_refs now fuel _ S1 e.2 (held_more H e.2) ?_ hr h1
    exact a2.of_eq
      (relay_refs_update { S with runq_relay := runq_expire S.runq_relay e } e.2 _ rfl rfl rfl)
  have := key.unref hr
  rwa [held_less_more] at this

/-- The branch of `mta_on_timeout` for the run-queue of the connectors keeps
the reference accounting of the relays. -/
theorem mta_on_timeout_connector_refs (fuel : Nat) (now : Int) (S T : mta_state)
    (e : Int × connector_ptr) (H : relay_ptr → Nat) (hS : refs_ok (relay_refs S) H)
    (h : mta_on_timeout_connector fuel now (runq_connector_expire S e) e.2 = some T) :
    refs_ok (relay_refs T) H := by
  unfold mta_on_timeout_connector at h
  dsimp only at h
  refine mta_connect_refs fuel now _ T e.2 H ?_ h
  exact hS

theorem relay_refs_collect_close (now : Int) (S : mta_state) (r : relay_ptr) (k : route_ptr) :
    relay_refs (mta_route_collect_close now S r k) =
      { relay_refs S with
        nconn := Function.update (relay_refs S).nconn r (size_dec ((relay_refs S).nconn r)) } := by
  unfold relay_refs
  simp only [refs_view.mk.injEq]
  refine ⟨?_, ?_, ?_, ?_, ?_, ?_, ?_, ?_, ?_⟩
  · simp [mta_route_collect_close]
  · funext x
    by_cases e : x = r
    · subst e; simp [mta_route_collect_close]
    · simp [mta_route_collect_close, Function.update_noteq e]
  · funext x
    by_cases e : x = r
    · subst e; simp [mta_route_collect_close]
    · simp [mta_route_collect_close, Function.update_noteq e]
  · funext x
    by_cases e : x = r
    · subst e; simp [mta_route_collect_close]
    · simp [mta_route_collect_close, Function.update_noteq e]
  · funext x
    by_cases e : x = (S.relays r).domain
    · subst e; simp [mta_route_collect_close]
    · simp [mta_route_collect_close, Function.update_noteq e]
  · simp [mta_route_collect_close]
  · simp [mta_route_collect_close]
  · simp [mta_route_collect_close]
  · simp [mta_route_collect_close]

theorem relay_refs_collect_probe (now : Int) (S : mta_state) (r : relay_ptr) (k : route_ptr) :
    relay_refs (mta_route_collect_probe now S r k) =
      relay_refs (mta_route_collect_close now S r k) := by
  have aux : ∀ (S2 : mta_state) (rec : struct_mta_connector),
      relay_refs
        { mta_connector S2 r k.1 with
          connectors := Function.update (mta_connector S2 r k.1).connectors (r, k.1) rec } =
        relay_refs S2 := by
    intro S2 rec
    exact relay_refs_connector S2 r k.1
  unfold mta_route_collect_probe
  dsimp only
  refine (aux _ _).trans ?_
  split
  · exact relay_refs_of_frame (refs_frame_route_disable now _ k 2 ROUTE_DISABLED_NET)
  · rfl

/-- `mta_route_collect` for a session that is open on a relay of the tree
keeps the reference accounting of the relays. -/
theorem mta_route_collect_refs (fuel : Nat) (now : Int) (S T : mta_state) (r : relay_ptr)
    (k : route_ptr) (H : relay_ptr → Nat) (hS : refs_ok (relay_refs S) H)
    (hr : r ∈ S.relays_tree) (hn : 0 < (S.relays r).nconn)
    (h : mta_route_collect fuel now S r k = some T) : refs_ok (relay_refs T) H := by
  unfold mta_route_collect at h
  cases hc : mta_connect fuel now (mta_route_collect_probe now S r k) (r, k.1) with
  | none => rw [hc] at h; cases h
  | some S1 =>
    rw [hc] at h
    injection h with h
    subst h
    have a1 : refs_ok (relay_refs (mta_route_collect_probe now S r k)) (held_more H r) := by
      rw [relay_refs_collect_probe, relay_refs_collect_close]
      exact hS.close hr hn
    have a2 := mta_connect_refs fuel now _ S1 (r, k.1) _ a1 hc
    have a3 : refs_ok (relay_refs (mta_route_unref now S1 k)) (held_more H r) :=
      a2.of_eq (relay_refs_of_frame (refs_frame_route_unref now S1 k))
    rw [relay_refs_unref]
    have := a3.unref (by rw [held_more_same]; omega)
    rwa [held_less_more] at this

theorem refs_ok_init (dict : String → Option mta_limits) :
    refs_ok (relay_refs (mta_init dict)) (fun _ => 0) := by
  refine ⟨List.nodup_nil, ?_, ?_, ?_, ?_⟩
  · intro r hr
    cases hr
  · intro r hr
    cases hr
  · intro r _
    refine ⟨rfl, ?_, ?_, ?_, ?_, ?_⟩
    · intro e he
      cases he
    · intro e he
      cases he
    · intro e he
      cases he
    · intro e he
      cases he
    · intro d hd
      cases hd
  · intro d r hr
    cases hr

theorem refs_frame_resume_routes (now : Int) (u64 : Nat) :
    ∀ (l : List route_ptr) (S : mta_state), refs_frame (mta_resume_routes now u64 l S) S := by
  intro l
  induction l with
  | nil => intro S; exact refs_frame_refl S
  | cons k l ih =>
    intro S
    unfold mta_resume_routes
    split_ifs
    · exact ih S
    · exact refs_frame_route_enable now S k
    · exact refs_frame_trans (ih _) (refs_frame_route_enable now S k)

/-- A session that validates its route: `mta_connect` may start sessions, each
with a reference on the relay. -/
theorem mta_route_ok_refs (fuel : Nat) (now : Int) (S T : mta_state) (r : relay_ptr)
    (k : route_ptr) (H : relay_ptr → Nat) (hS : refs_ok (relay_refs S) H)
    (h : mta_route_ok fuel now S r k = some T) : refs_ok (relay_refs T) H := by
  unfold mta_route_ok at h
  split at h
  · refine mta_connect_refs fuel now _ T (r, k.1) H ?_ h
    rw [relay_refs_connector]
    exact hS
  · injection h with h
    subst h
    exact hS

theorem relay_refs_source_error (S : mta_state) (r : relay_ptr) (k : route_ptr) :
    relay_refs (mta_source_error S r k) = relay_refs S := by
  unfold mta_source_error
  dsimp only
  exact relay_refs_connector S r k.1

theorem relay_refs_route_error (S : mta_state) (k : route_ptr) :
    relay_refs (mta_route_error S k) = relay_refs S := by
  unfold mta_route_error
  dsimp only
  split_ifs <;> rfl

theorem relay_refs_next_task (S : mta_state) (r : relay_ptr) (k : route_ptr) :
    relay_refs (mta_route_next_task S r k).2 = relay_refs S := by
  unfold mta_route_next_task
  split
  · rfl
  · exact relay_refs_update S r _ rfl rfl rfl

theorem relay_event_refs (fuel : Nat) (now : Int) (e : relay_event) (S T : mta_state)
    (H : relay_ptr → Nat) (hS : refs_ok (relay_refs S) H) (hen : e.enabled S = true)
    (h : e.run fuel now S = mta_result.done T) : refs_ok (relay_refs T) H := by
  cases e with
  | transfer evp => exact mta_imsg_transfer_refs fuel now S T evp H hS h
  | lka_secret reqid secret => exact mta_imsg_lka_secret_refs fuel now S T reqid secret H hS h
  | dns_mx_preference reqid dnserror preference =>
    exact mta_imsg_dns_mx_preference_refs fuel now S T reqid dnserror preference H hS h
  | lka_source reqid ss => exact mta_imsg_lka_source_refs fuel now S T reqid ss H hS h
  | dns_host reqid ss preference => exact hS.of_eq (relay_refs_dns_host S T reqid ss preference h)
  | dns_host_end reqid dnserror =>
    exact mta_imsg_dns_host_end_refs fuel now S T reqid dnserror H hS h
  | timeout_relay e =>
    refine mta_on_timeout_relay_refs fuel now S T e H hS ?_ h
    simpa [relay_event.enabled] using hen
  | timeout_connector e =>
    have h : mta_result.of_option
        (mta_on_timeout_connector fuel now (runq_connector_expire S e) e.2) =
        mta_result.done T := h
    cases hc : mta_on_timeout_connector fuel now (runq_connector_expire S e) e.2 with
    | none => rw [hc] at h; cases h
    | some T1 =>
      rw [hc] at h
      injection h with h
      subst h
      exact mta_on_timeout_connector_refs fuel now S T1 e H hS hc
  | timeout_route e =>
    have h : mta_result.done (runq_route_expire now S e) = mta_result.done T := h
    injection h with h
    subst h
    exact hS.of_eq (relay_refs_of_frame (refs_frame_timeout_route now S e))
  | collect r k =>
    have h : mta_result.of_option (mta_route_collect fuel now S r k) = mta_result.done T := h
    simp only [relay_event.enabled, Bool.and_eq_true, decide_eq_true_eq] at hen
    cases hc : mta_route_collect fuel now S r k with
    | none => rw [hc] at h; cases h
    | some T1 =>
      rw [hc] at h
      injection h with h
      subst h
      exact mta_route_collect_refs fuel now S T1 r k H hS hen.1 hen.2 hc
  | route_ok r k =>
    have h : mta_result.of_option (mta_route_ok fuel now S r k) = mta_result.done T := h
    cases hc : mta_route_ok fuel now S r k with
    | none => rw [hc] at h; cases h
    | some T1 =>
      rw [hc] at h
      injection h with h
      subst h
      exact mta_route_ok_refs fuel now S T1 r k H hS hc
  | route_down k =>
    have h : mta_result.done (mta_route_down now S k) = mta_result.done T := h
    injection h with h
    subst h
    exact hS.of_eq (relay_refs_of_frame (refs_frame_route_disable now S k 2 ROUTE_DISABLED_SMTP))
  | route_error k =>
    have h : mta_result.done (mta_route_error S k) = mta_result.done T := h
    injection h with h
    subst h
    exact hS.of_eq (relay_refs_route_error S k)
  | source_error r k =>
    have h : mta_result.done (mta_source_error S r k) = mta_result.done T := h
    injection h with h
    subst h
    exact hS.of_eq (relay_refs_source_error S r k)
  | route_next_task r k =>
    have h : mta_result.done (mta_route_next_task S r k).2 = mta_result.done T := h
    injection h with h
    subst h
    exact hS.of_eq (relay_refs_next_task S r k)
  | resume_route u64 =>
    have h : mta_result.done (mta_imsg_ctl_resume_route now S u64) = mta_result.done T := h
    injection h with h
    subst h
    exact hS.of_eq (relay_refs_of_frame (refs_frame_resume_routes now u64 S.routes_tree S))

/-- The reference accounting of the relays holds in every state in which a
handler has returned. -/
theorem refs_ok_reachable (S : mta_state) (h : refs_reachable S) :
    refs_ok (relay_refs S) (fun _ => 0) := by
  induction h with
  | init dict => exact refs_ok_init dict
  | event fuel now e _ hen hrun ih => exact relay_event_refs fuel now e _ _ _ ih hen hrun
  | other _ he ih => exact ih.of_eq he

theorem relay_on_runq_le (S : mta_state) (r : relay_ptr) :
    relay_on_runq S r ≤ (relay_refs S).scheduled r := by
  unfold relay_on_runq refs_view.scheduled
  split
  · rename_i h
    rw [List.any_eq_true] at h
    obtain ⟨e, he, hr⟩ := h
    exact List.countP_pos_iff.2 ⟨e, he, hr⟩
  · exact Nat.zero_le _

theorem ex_state_refs_reachable : refs_reachable ex_state_refs := by
  unfold ex_state_refs ex_transfer
  cases h : mta_imsg_transfer 5 100 (mta_init (fun _ => some ex_limits)) (ex_evp 1 1) with
  | done T =>
    show refs_reachable T
    exact refs_reachable.event 5 100 (relay_event.transfer (ex_evp 1 1))
      (refs_reachable.init (fun _ => some ex_limits)) rfl h
  | fatal msg => exact refs_reachable.init _
  | fuel => exact refs_reachable.init _

/-- After the `TRANSFER` the relay 1 is in the tree with one outstanding query
(it waits for the MX list of its domain), no session, no entry on the
run-queue of the relays, and the reference count 1. -/
theorem ex_state_refs_counts :
    (decide (1 ∈ ex_state_refs.relays_tree), relay_queries ex_state_refs 1,
      (ex_state_refs.relays 1).nconn, relay_on_runq ex_state_refs 1,
      (ex_state_refs.relays 1).refcount) = (true, 1, 0, 0, 1) := by
  decide

/-! ## The pacing fields in the state that `mta_on_source` returns -/

set_option maxRecDepth 100000

/-- C1: backup-MX loop guard of `mta_find_route`.  With `backuppref = -1` the
backup test is false for every preference and the loop is never left through
the backup `break`; with `backuppref >= 0` a returned route was selected from
an MX entry of the list whose preference is strictly below `backuppref`; so
with `backuppref = 20` and the MX list `[10 -> a, 20 -> self, 30 -> b]` the
only route that can be returned is the route to `a`.
The statement holds for every MX list, sorted or not. -/
theorem mta_find_route_backup_guard (S : mta_state) (c : connector_ptr) (now : Int)
    (limits : Nat) (nextconn : Int) :
    (∀ pref, backup_excluded (-1) pref = false) ∧
    ((S.relays c.1).backuppref = -1 →
      (mta_find_route S c now limits nextconn).brk ≠ some loop_break.backup) ∧
    (0 ≤ (S.relays c.1).backuppref →
      ∀ k, (mta_find_route S c now limits nextconn).route = some k →
        ∃ mx ∈ (S.domains (S.relays c.1).domain).mxs,
          (mx, mx_verdict.selected) ∈ (mta_find_route S c now limits nextconn).log ∧
          k = (c.2, mx.host) ∧ mx.preference < (S.relays c.1).backuppref) ∧
    (∀ a self b : host_ptr, (S.relays c.1).backuppref = 20 →
      (S.domains (S.relays c.1).domain).mxs =
        [{ host := a, preference := 10 }, { host := self, preference := 20 },
          { host := b, preference := 30 }] →
      ∀ k, (mta_find_route S c now limits nextconn).route = some k → k = (c.2, a)) := by
  have main : 0 ≤ (S.relays c.1).backuppref →
      ∀ k, (mta_find_route S c now limits nextconn).route = some k →
        ∃ mx ∈ (S.domains (S.relays c.1).domain).mxs,
          (mx, mx_verdict.selected) ∈ (mta_find_route S c now limits nextconn).log ∧
          k = (c.2, mx.host) ∧ mx.preference < (S.relays c.1).backuppref := by
    intro h0 k hk
    obtain ⟨hb, _, _, _⟩ := mta_find_route_some S c now limits nextconn k hk
    rw [(mta_find_route_log S c now limits nextconn).1]
    rcases mta_find_route_loop_best_log now _ c _ _ S k hb with h | ⟨mx, hmx, hk'⟩
    · simp [find_route_vars_init] at h
    · refine ⟨mx, mta_find_route_loop_log_mem now _ c _ _ S _ hmx, hmx, hk', ?_⟩
      exact mta_find_route_loop_backup now _ c _ _ S h0
        (by simp only [find_route_vars_init]; omega) _ hmx
  refine ⟨fun pref => backup_excluded_neg _ _ (by decide), ?_, main, ?_⟩
  · intro h
    rw [(mta_find_route_log S c now limits nextconn).2]
    exact mta_find_route_loop_brk now _ c _ _ S (by rw [h]; decide)
  · intro a self b hbp hmxs k hk
    obtain ⟨mx, hmem, _, hk', hlt⟩ := main (by rw [hbp]; decide) k hk
    rw [hmxs] at hmem
    rw [hbp] at hlt
    simp only [List.mem_cons, List.mem_singleton, List.not_mem_nil, or_false] at hmem
    rcases hmem with rfl | rfl | rfl
    · exact hk'
    · exact absurd hlt (by simp)
    · exact absurd hlt (by simp)

/-- Witness of C1: with backup preference 20 and the MX list
`[10 -> a, 20 -> self, 30 -> b]` the selector returns the route to `a`, taken
from the entry of preference 10; when `a` is ignored the loop stops at the
entry of preference 20 through the backup `break` and returns no route. -/
theorem mta_find_route_backup_guard_witness :
    (0 : Int) ≤ ((ex_state_backup ex_host).relays ex_conn.1).backuppref ∧
    (mta_find_route (ex_state_backup ex_host) ex_conn 1000 0 1000).route
      = some (none, ex_host_a) ∧
    (∃ mx ∈ ((ex_state_backup ex_host).domains
          ((ex_state_backup ex_host).relays ex_conn.1).domain).mxs,
      (mx, mx_verdict.selected) ∈
        (mta_find_route (ex_state_backup ex_host) ex_conn 1000 0 1000).log ∧
      ((none, ex_host_a) : route_ptr) = (ex_conn.2, mx.host) ∧
      mx.preference < ((ex_state_backup ex_host).relays ex_conn.1).backuppref) ∧
    (mta_find_route (ex_state_backup { ex_host with flags := HOST_IGNORE }) ex_conn 1000 0
      1000).route = none ∧
    (mta_find_route (ex_state_backup { ex_host with flags := HOST_IGNORE }) ex_conn 1000 0
      1000).brk = some loop_break.backup :=
  ⟨by decide, by decide,
    (mta_find_route_backup_guard (ex_state_backup ex_host) ex_conn 1000 0 1000).2.2.1
      (by decide) (none, ex_host_a) (by decide),
    by decide, by decide⟩

/-- C2: `mta_find_route` does not skip past blocked MXs.  For a sorted MX list
and a clock that is not negative, if an MX entry of preference `q >= -1` (the
initial level) went through the loop and was skipped because of the per-host
cap, the per-host connect delay, the per-route cap or unvalidated-probe rule,
or a per-route connect or disconnect delay, then every entry selected as a
candidate, and so the entry of the returned route, has a preference at most
`q`. -/
theorem mta_find_route_no_skip_blocked (S : mta_state) (c : connector_ptr) (now : Int)
    (limits : Nat) (nextconn : Int)
    (hsorted : (S.domains (S.relays c.1).domain).mxs.Pairwise
      (fun a b => a.preference ≤ b.preference))
    (hnow : 0 ≤ now) (mxb : mta_mx) (vb : mx_verdict)
    (hlog : (mxb, vb) ∈ (mta_find_route S c now limits nextconn).log)
    (hblk : vb.blocked = true) (hq : -1 ≤ mxb.preference) :
    (∀ mx, (mx, mx_verdict.selected) ∈ (mta_find_route S c now limits nextconn).log →
      mx.preference ≤ mxb.preference) ∧
    (∀ k, (mta_find_route S c now limits nextconn).route = some k →
      ∃ mx, (mx, mx_verdict.selected) ∈ (mta_find_route S c now limits nextconn).log ∧
        k = (c.2, mx.host) ∧ mx.preference ≤ mxb.preference) := by
  rw [(mta_find_route_log S c now limits nextconn).1] at hlog ⊢
  have main : ∀ mx, (mx, mx_verdict.selected) ∈
      (mta_find_route_loop now (deref_limits (S.relays c.1).limits) c
        (S.domains (S.relays c.1).domain).mxs find_route_vars_init S).log →
      mx.preference ≤ mxb.preference := by
    intro mx hmx
    exact mta_find_route_loop_no_skip now _ c hnow _ _ S hsorted
      (by intro m _; simp only [find_route_vars_init]; exact le_max_left _ _)
      (mxb, vb) hlog hblk hq (mx, mx_verdict.selected) hmx rfl
  refine ⟨main, ?_⟩
  intro k hk
  obtain ⟨hb, _, _, _⟩ := mta_find_route_some S c now limits nextconn k hk
  rcases mta_find_route_loop_best_log now _ c _ _ S k hb with h | ⟨mx, hmx, hk'⟩
  · simp [find_route_vars_init] at h
  · exact ⟨mx, hmx, hk', main mx hmx⟩

/-- Witness of C2: `a` and `b` have preference 10 and `self` has preference
30; `a` is at its host cap.  The route to `b` is returned, at the preference
of the blocked entry; when `b` is at its cap too, no route is returned
although `self` is usable. -/
theorem mta_find_route_no_skip_blocked_witness :
    ((ex_state_blocked ex_host).domains
      ((ex_state_blocked ex_host).relays ex_conn.1).domain).mxs.Pairwise
      (fun a b => a.preference ≤ b.preference) ∧
    (({ host := ex_host_a, preference := 10 } : mta_mx), mx_verdict.host_limit) ∈
      (mta_find_route (ex_state_blocked ex_host) ex_conn 1000 0 1000).log ∧
    (mta_find_route (ex_state_blocked ex_host) ex_conn 1000 0 1000).route
      = some (none, ex_host_b) ∧
    (∃ mx, (mx, mx_verdict.selected) ∈
        (mta_find_route (ex_state_blocked ex_host) ex_conn 1000 0 1000).log ∧
      ((none, ex_host_b) : route_ptr) = (ex_conn.2, mx.host) ∧
      mx.preference ≤ ({ host := ex_host_a, preference := 10 } : mta_mx).preference) ∧
    (mta_find_route (ex_state_blocked { ex_host with nconn := 10 }) ex_conn 1000 0 1000).route
      = none :=
  ⟨by decide, by decide, by decide,
    (mta_find_route_no_skip_blocked (ex_state_blocked ex_host) ex_conn 1000 0 1000 (by decide)
      (by decide) { host := ex_host_a, preference := 10 } mx_verdict.host_limit (by decide)
      (by decide) (by decide)).2 (none, ex_host_b) (by decide),
    by decide⟩

/-- C3: one probing session at a time.  A route returned by `mta_find_route`
has no `ROUTE_DISABLED` bit and does not have `ROUTE_NEW` together with
`nconn > 0`, in the state the function returns; the same holds for the route
on which a pass of `mta_connect` goes on to spawn a session, in the state
right before the spawn. -/
theorem mta_find_route_one_probe (S : mta_state) (c : connector_ptr) (now : Int) (limits : Nat) (nextconn : Int) :
    (∀ k, (mta_find_route S c now limits nextconn).route = some k →
      has_flag ((mta_find_route S c now limits nextconn).state.routes k).flags ROUTE_DISABLED
          = false ∧
        ¬ (has_flag ((mta_find_route S c now limits nextconn).state.routes k).flags ROUTE_NEW
            = true ∧
          0 < ((mta_find_route S c now limits nextconn).state.routes k).nconn)) ∧
    (∀ k S1, mta_connect_select now S c = connect_select.route k S1 →
      has_flag (S1.routes k).flags ROUTE_DISABLED = false ∧
        ¬ (has_flag (S1.routes k).flags ROUTE_NEW = true ∧ 0 < (S1.routes k).nconn)) := by
  constructor
  · intro k hk
    obtain ⟨_, ⟨h1, h2, _⟩, _, _⟩ := mta_find_route_best_ok S c now limits nextconn k hk
    exact ⟨h1, fun hh => h2 ⟨Nat.pos_iff_ne_zero.mp hh.2, hh.1⟩⟩
  · intro k S1 h
    obtain ⟨_, _, _, _, _, _, _, ⟨h1, h2, _⟩, _⟩ := mta_connect_select_spec now S c k S1 h
    exact ⟨h1, fun hh => h2 ⟨Nat.pos_iff_ne_zero.mp hh.2, hh.1⟩⟩

/-- Witness of C3: in the backup scenario the route to `a` is returned; it is
new, enabled and without connection. -/
theorem mta_find_route_one_probe_witness :
    (mta_find_route (ex_state_backup ex_host) ex_conn 1000 0 1000).route
      = some (none, ex_host_a) ∧
    (has_flag ((mta_find_route (ex_state_backup ex_host) ex_conn 1000 0 1000).state.routes
        (none, ex_host_a)).flags ROUTE_DISABLED = false ∧
      ¬ (has_flag ((mta_find_route (ex_state_backup ex_host) ex_conn 1000 0 1000).state.routes
          (none, ex_host_a)).flags ROUTE_NEW = true ∧
        0 < ((mta_find_route (ex_state_backup ex_host) ex_conn 1000 0 1000).state.routes
          (none, ex_host_a)).nconn)) :=
  ⟨by decide,
    (mta_find_route_one_probe (ex_state_backup ex_host) ex_conn 1000 0 1000).1
      (none, ex_host_a) (by decide)⟩

/-- C4: connection caps are never exceeded by admission.  When a pass of
`mta_connect` finds a route, each of the six counters it is about to increment
is strictly below its cap in the state right before the increments; hence a
call of `mta_connect` that starts with every counter at most at its cap ends
with every counter at most at its cap; and the call returns as soon as the
fuel exceeds `max 3 (ntask / 2)`. -/
theorem mta_connect_caps_respected (now : Int) (S : mta_state) (c : connector_ptr) :
    (∀ k S1, mta_connect_select now S c = connect_select.route k S1 →
      (S1.domains (S1.relays c.1).domain).nconn <
          (deref_limits (S1.relays c.1).limits).maxconn_per_domain ∧
        (S1.sources k.1).nconn < (deref_limits (S1.relays c.1).limits).maxconn_per_source ∧
        (S1.connectors c).nconn < (deref_limits (S1.relays c.1).limits).maxconn_per_connector ∧
        (S1.relays c.1).nconn < (deref_limits (S1.relays c.1).limits).maxconn_per_relay ∧
        (S1.hosts k.2).nconn < (deref_limits (S1.relays c.1).limits).maxconn_per_host ∧
        (S1.routes k).nconn < (deref_limits (S1.relays c.1).limits).maxconn_per_route) ∧
    (caps_ok S c → ∀ fuel S', mta_connect fuel now S c = some S' → caps_ok S' c) ∧
    (∀ fuel, max 3 ((S.relays c.1).ntask / 2) < fuel →
      ∃ S', mta_connect fuel now S c = some S') := by
  refine ⟨?_, ?_, ?_⟩
  · intro k S1 hs
    obtain ⟨e1, e2, e3, e4, e5, e6, hk, hadm, hh, g1, g2, g3, g4, _, _⟩ :=
      mta_connect_select_spec now S c k S1 hs
    rw [e1, e2, e3, hk, (e5 c.2).1]
    exact ⟨g1, g2, g3, g4, hh, hadm.2.2⟩
  · intro hc fuel S' h
    exact mta_connect_caps now c fuel S S' hc h
  · intro fuel h
    exact mta_connect_terminates now c fuel S (by omega) (by omega)

/-- Witness of C4: in the backup scenario a call of `mta_connect` spawns one
session, on the route to `a`, and returns; the counters stay within the caps. -/
theorem mta_connect_caps_respected_witness :
    (mta_connect 4 1000 (ex_state_backup ex_host) ex_conn).map
        (fun T => ((T.relays 7).nconn, (T.hosts ex_host_a).nconn,
          (T.routes (none, ex_host_a)).nconn, T.out.getLast?))
      = some (1, 1, 1, some (mta_event.session 7 (none, ex_host_a))) ∧
    ∃ S', mta_connect 4 1000 (ex_state_backup ex_host) ex_conn = some S' ∧
      caps_ok S' ex_conn := by
  refine ⟨by decide, ?_⟩
  obtain ⟨S', h⟩ := (mta_connect_caps_respected 1000 (ex_state_backup ex_host) ex_conn).2.2 4
    (by decide)
  refine ⟨S', h,
    (mta_connect_caps_respected 1000 (ex_state_backup ex_host) ex_conn).2.1 ?_ 4 S' h⟩
  refine ⟨by decide, by decide, by decide, by decide, ?_, ?_⟩
  · intro h
    by_cases e : h = ex_host_a <;>
      simp [ex_state_backup, ex_state_mx, Function.update_apply, e, ex_host, calloc_host,
        ex_relay, calloc_relay, deref_limits, ex_limits, ex_conn]
  · intro h
    simp [ex_state_backup, ex_state_mx, mta_init, calloc_route]

/-- C5: `mta_route_disable(route, p, reason)` sets the penalty to the old
penalty plus `p`, stamps `lastpenalty = now`, ORs the `DISABLED` bits of
`reason` into the flags, and schedules the route on the route run-queue at
`now + min(14400, 200 * penalty^2)` for the new penalty; the delay never
exceeds four hours, and a fresh route disabled with `p = 2` is scheduled at
`now + 800`.  The hypothesis says that the `unsigned long long` product
`200 * penalty * penalty` does not wrap. -/
theorem mta_route_disable_penalty_delay (now : Int) (S : mta_state) (k : route_ptr) (p : Int) (reason : Nat)
    (hrange : 200 * ((S.routes k).penalty + p) * ((S.routes k).penalty + p) < 2 ^ 64) :
    ((mta_route_disable now S k p reason).routes k).penalty = (S.routes k).penalty + p ∧
    ((mta_route_disable now S k p reason).routes k).lastpenalty = now ∧
    ((mta_route_disable now S k p reason).routes k).flags &&& ROUTE_DISABLED =
      ((S.routes k).flags ||| reason) &&& ROUTE_DISABLED ∧
    (has_flag (S.routes k).flags ROUTE_DISABLED = false →
      ((mta_route_disable now S k p reason).routes k).flags =
        (S.routes k).flags ||| (reason &&& ROUTE_DISABLED)) ∧
    (now + min 14400 (200 * ((S.routes k).penalty + p) ^ 2), k) ∈
      (mta_route_disable now S k p reason).runq_route ∧
    mta_route_disable_delay ((S.routes k).penalty + p) ≤ 4 * 3600 ∧
    ((S.routes k).penalty = 0 → p = 2 →
      (now + 800, k) ∈ (mta_route_disable now S k p reason).runq_route) := by
  have hd := mta_route_disable_delay_eq ((S.routes k).penalty + p) hrange
  have hle := mta_route_disable_delay_le ((S.routes k).penalty + p)
  obtain ⟨S2, h1, h2, h3, h4, h5, h6, h7, h8⟩ := mta_route_disable_shape now S k p reason
  have hq : (now + min 14400 (200 * ((S.routes k).penalty + p) ^ 2), k) ∈
      (mta_route_disable now S k p reason).runq_route := by
    rw [h8, hd]; simp [runq_schedule]
  refine ⟨by rw [h5, h1], by rw [h6, h2], ?_, ?_, hq, by simpa using hle, ?_⟩
  · rw [h7, and_set_flag]
    have e : reason &&& ROUTE_DISABLED &&& ROUTE_DISABLED = reason &&& ROUTE_DISABLED := by
      rw [Nat.and_assoc, Nat.and_self]
    rw [e, Nat.and_distrib_right]
    rcases h3 with h3 | h3
    · rw [h3]
    · rw [h3, and_set_flag_of_disjoint _ _ _ (by decide)]
  · intro hnd
    rw [h7, h4 hnd]; rfl
  · intro hz hp
    have : min (14400 : Int) (200 * ((S.routes k).penalty + p) ^ 2) = 800 := by
      rw [hz, hp]; decide
    rw [this] at hq; exact hq

/-- Witness of C5: a fresh route disabled with penalty 2 at time 1000 is
scheduled at time 1800. -/
theorem mta_route_disable_penalty_delay_witness :
    200 * (((ex_state_route ex_route_fresh 0 0).routes ex_route_a).penalty + 2) *
        (((ex_state_route ex_route_fresh 0 0).routes ex_route_a).penalty + 2) < (2 : Int) ^ 64 ∧
    ((1000 : Int) + 800, ex_route_a) ∈
      (mta_route_disable 1000 (ex_state_route ex_route_fresh 0 0) ex_route_a 2
        ROUTE_DISABLED_NET).runq_route :=
  ⟨by decide,
    (mta_route_disable_penalty_delay 1000 (ex_state_route ex_route_fresh 0 0) ex_route_a 2
      ROUTE_DISABLED_NET (by decide)).2.2.2.2.2.2 (by decide) rfl⟩

/-- C6, counterexample: a validated route that is not disabled (no flag set)
does not have `ROUTE_NEW` after `mta_route_enable`. -/
theorem mta_route_enable_new_counterexample :
    has_flag ((ex_state_route ex_route_valid 0 0).routes ex_route_a).flags ROUTE_DISABLED
      = false ∧
    has_flag ((mta_route_enable 1000 (ex_state_route ex_route_valid 0 0) ex_route_a).routes
      ex_route_a).flags ROUTE_NEW = false := by
  decide

/-- C6, amended: after `mta_route_enable(route)` no `ROUTE_DISABLED` bit is set;
`ROUTE_NEW` is set exactly when it was set before or a `ROUTE_DISABLED` bit
was set before, and the flags are unchanged when no `ROUTE_DISABLED` bit was
set; the penalty is the old penalty minus one if it was positive and stays
zero if it was zero. -/
theorem mta_route_enable_flags_penalty (now : Int) (S : mta_state) (k : route_ptr) :
    has_flag ((mta_route_enable now S k).routes k).flags ROUTE_DISABLED = false ∧
    has_flag ((mta_route_enable now S k).routes k).flags ROUTE_NEW =
      (has_flag (S.routes k).flags ROUTE_DISABLED || has_flag (S.routes k).flags ROUTE_NEW) ∧
    (has_flag (S.routes k).flags ROUTE_DISABLED = false →
      ((mta_route_enable now S k).routes k).flags = (S.routes k).flags) ∧
    (0 < (S.routes k).penalty →
      ((mta_route_enable now S k).routes k).penalty = (S.routes k).penalty - 1) ∧
    ((S.routes k).penalty = 0 → ((mta_route_enable now S k).routes k).penalty = 0) := by
  unfold mta_route_enable
  dsimp only
  by_cases hd : has_flag (S.routes k).flags ROUTE_DISABLED = true
  · by_cases hp : (S.routes k).penalty = 0
    · simp only [hd, hp, if_true, Function.update_same, ne_eq, not_true_eq_false, if_false]
      refine ⟨?_, ?_, ?_, ?_, ?_⟩
      · rw [has_flag_false_iff, and_set_flag_of_disjoint _ _ _ (by decide), and_clr_flag_self]
      · rw [has_flag_set_flag]; simp [has_flag, ROUTE_NEW]
      · intro h; simp at h
      · intro h; omega
      · intro _; trivial
    · simp only [hd, hp, if_true, Function.update_same, ne_eq, not_false_eq_true]
      refine ⟨?_, ?_, ?_, ?_, ?_⟩
      · rw [has_flag_false_iff, and_set_flag_of_disjoint _ _ _ (by decide), and_clr_flag_self]
      · rw [has_flag_set_flag]; simp [has_flag, ROUTE_NEW]
      · intro h; simp at h
      · intro _; trivial
      · intro h; exact absurd h (by simp)
  · have hd' : has_flag (S.routes k).flags ROUTE_DISABLED = false := by simpa using hd
    by_cases hp : (S.routes k).penalty = 0
    · simp [hd', hp]
    · simp [hd', hp]

/-- Witness of C6, amended: a route suspended with penalty 2 comes back new,
enabled and with penalty 1. -/
theorem mta_route_enable_flags_penalty_witness :
    (0 : Int) < ((ex_state_route ex_route_suspended 0 0).routes ex_route_a).penalty ∧
    ((mta_route_enable 1000 (ex_state_route ex_route_suspended 0 0) ex_route_a).routes
      ex_route_a).penalty =
      ((ex_state_route ex_route_suspended 0 0).routes ex_route_a).penalty - 1 :=
  ⟨by decide,
    (mta_route_enable_flags_penalty 1000 (ex_state_route ex_route_suspended 0 0)
      ex_route_a).2.2.2.1 (by decide)⟩

/-- C7, counterexample: two source replies, each producing a connector that
ends `mta_connect` with `CONNECTOR_ERROR_ROUTE_NET`.  The second reply finds
`sourceloop = 2`; after it there are two connectors, both with the error bit,
and no terminal failure is recorded on the relay: the task is still queued and
a third source query is pending. -/
theorem mta_on_source_second_reply_counterexample :
    (ex_reply (some ex_state_exhaust) (some ex_src1)).map
        (fun S => ((S.relays 7).sourceloop, (S.connectors (7, some ex_src1)).flags))
      = some (2, CONNECTOR_ERROR_ROUTE_NET) ∧
    (ex_reply (ex_reply (some ex_state_exhaust) (some ex_src1)) (some ex_src2)).map
        (fun S => ((S.relays 7).connectors, (S.connectors (7, some ex_src1)).flags,
          (S.connectors (7, some ex_src2)).flags))
      = some ([some ex_src1, some ex_src2], CONNECTOR_ERROR_ROUTE_NET,
          CONNECTOR_ERROR_ROUTE_NET) ∧
    (ex_reply (ex_reply (some ex_state_exhaust) (some ex_src1)) (some ex_src2)).map
        (fun S => ((S.relays 7).fail, (S.relays 7).failstr, (S.relays 7).ntask,
          (S.relays 7).sourceloop, has_flag (S.relays 7).status RELAY_WAIT_SOURCE))
      = some (0, "", 1, 3, true) := by
  decide

/-- C7, amended: for a relay with two connectors, each carrying
`CONNECTOR_ERROR_ROUTE_NET` and none `CONNECTOR_ERROR_ROUTE_SMTP`, the reply
to the third source query (`sourceloop = 3`), naming one of the two sources,
makes `mta_on_source` return with the terminal failure tempfail
"Network error on destination MXs" recorded on the relay. -/
theorem mta_on_source_third_reply (fuel : Nat) (now : Int) (S : mta_state) (r : relay_ptr)
    (s : source_ptr) (hfuel : 0 < fuel) (hs : s ∈ (S.relays r).connectors)
    (hlen : (S.relays r).connectors.length = 2) (hloop : (S.relays r).sourceloop = 3)
    (hnet : ∀ x ∈ (S.relays r).connectors,
      has_flag (S.connectors (r, x)).flags CONNECTOR_ERROR_ROUTE_NET = true ∧
        has_flag (S.connectors (r, x)).flags CONNECTOR_ERROR_ROUTE_SMTP = false) :
    ∃ S', mta_on_source fuel now S r (some s) = mta_result.done S' ∧
      (S'.relays r).fail = IMSG_DELIVERY_TEMPFAIL ∧
      (S'.relays r).failstr = "Network error on destination MXs" := by
  have he : has_flag (S.connectors (r, s)).flags CONNECTOR_ERROR = true :=
    has_flag_of_submask _ CONNECTOR_ERROR_ROUTE_NET _ (by decide) (hnet s hs).1
  obtain ⟨S1, h1, hconn, hsl, hfl⟩ := mta_on_source_connect_error fuel now S r s hfuel hs he
  obtain ⟨S', hd, hf, hm⟩ := mta_on_source_exhausted fuel now S r (some s) S1
    DELAY_CHECK_SOURCE_FAST hfuel h1 (by rw [hconn, hlen]; decide)
    (by rw [hconn, hlen, hsl, hloop]; decide)
  refine ⟨S', hd, hf, ?_⟩
  rw [hm]
  have hsmtp : has_flag (connectors_errmask S1 r) CONNECTOR_ERROR_ROUTE_SMTP = false := by
    rw [has_flag_errmask, hconn, List.any_eq_false]
    intro x hx
    rw [hfl x _ (by decide)]
    simp [(hnet x hx).2]
  have hnt : has_flag (connectors_errmask S1 r) CONNECTOR_ERROR_ROUTE_NET = true := by
    rw [has_flag_errmask, hconn, List.any_eq_true]
    exact ⟨s, hs, by rw [hfl s _ (by decide)]; exact (hnet s hs).1⟩
  simp [exhaustion_message, hsmtp, hnt]

/-- Witness of C7, amended: the third reply of the source exhaustion scenario. -/
theorem mta_on_source_third_reply_witness :
    (0 < 5 ∧ some ex_src1 ∈ (ex_state_exhaust2.relays 7).connectors ∧
      (ex_state_exhaust2.relays 7).connectors.length = 2 ∧
      (ex_state_exhaust2.relays 7).sourceloop = 3) ∧
    ∃ S', mta_on_source 5 200 ex_state_exhaust2 7 (some (some ex_src1)) = mta_result.done S' ∧
      (S'.relays 7).fail = IMSG_DELIVERY_TEMPFAIL ∧
      (S'.relays 7).failstr = "Network error on destination MXs" :=
  ⟨by decide,
    mta_on_source_third_reply 5 200 ex_state_exhaust2 7 (some ex_src1) (by decide) (by decide)
      (by decide) (by decide) (by decide)⟩

/-- C8, the code at the failing input: a relay with a source table and no
connector sends its first source query (`sourceloop` becomes 1) and the reply
carries no source.  `mta_on_source` records tempfail, but the message left on
the relay is "No valid route to destination": the second test of the function
fires as well (`0 < sourceloop`) and overwrites "Could not retrieve source
address". -/
theorem mta_on_source_no_source_message :
    ((mta_query_source 5 200 ex_state_nosource 7).state.map
        (fun S => ((S.relays 7).sourceloop, (S.relays 7).connectors, S.wait_source)))
      = some (1, [], [(7, 7)]) ∧
    (((mta_query_source 5 200 ex_state_nosource 7).state.bind
        (fun S => (mta_imsg_lka_source 5 200 S 7 none).state)).map
        (fun S => ((S.relays 7).fail, (S.relays 7).failstr)))
      = some (IMSG_DELIVERY_TEMPFAIL, "No valid route to destination") := by
  decide

/-- C9: exhaustion message priority.  Whenever `mta_on_source` reaches its
failure tests with a connector set that is not empty and has fewer connectors
than `sourceloop`, the call returns and the relay carries tempfail with the
message chosen in this priority: "Destination seem to reject all mails" when
some connector of the relay has `CONNECTOR_ERROR_ROUTE_SMTP`; else "Network
error on destination MXs" when some connector has `CONNECTOR_ERROR_ROUTE_NET`;
else "No MX found for destination" when some connector has
`CONNECTOR_ERROR_MX`; else "Address family mismatch on destination MXs" when
some connector has `CONNECTOR_ERROR_FAMILY`; else "No valid route to
destination".  `S1` is the state at the failure tests. -/
theorem mta_on_source_exhaustion_message (fuel : Nat) (now : Int) (S : mta_state) (r : relay_ptr)
    (source : Option source_ptr) (S1 : mta_state) (delay : Int) (hfuel : 0 < fuel)
    (hc : mta_on_source_connect fuel now S r source = some (S1, delay))
    (hne : 0 < (S1.relays r).connectors.length)
    (hlt : (S1.relays r).connectors.length < (S1.relays r).sourceloop) :
    ∃ S', mta_on_source fuel now S r source = mta_result.done S' ∧
      (S'.relays r).fail = IMSG_DELIVERY_TEMPFAIL ∧
      (relay_flagged S1 r CONNECTOR_ERROR_ROUTE_SMTP →
        (S'.relays r).failstr = "Destination seem to reject all mails") ∧
      (¬ relay_flagged S1 r CONNECTOR_ERROR_ROUTE_SMTP →
        relay_flagged S1 r CONNECTOR_ERROR_ROUTE_NET →
        (S'.relays r).failstr = "Network error on destination MXs") ∧
      (¬ relay_flagged S1 r CONNECTOR_ERROR_ROUTE_SMTP →
        ¬ relay_flagged S1 r CONNECTOR_ERROR_ROUTE_NET →
        relay_flagged S1 r CONNECTOR_ERROR_MX →
        (S'.relays r).failstr = "No MX found for destination") ∧
      (¬ relay_flagged S1 r CONNECTOR_ERROR_ROUTE_SMTP →
        ¬ relay_flagged S1 r CONNECTOR_ERROR_ROUTE_NET →
        ¬ relay_flagged S1 r CONNECTOR_ERROR_MX →
        relay_flagged S1 r CONNECTOR_ERROR_FAMILY →
        (S'.relays r).failstr = "Address family mismatch on destination MXs") ∧
      (¬ relay_flagged S1 r CONNECTOR_ERROR_ROUTE_SMTP →
        ¬ relay_flagged S1 r CONNECTOR_ERROR_ROUTE_NET →
        ¬ relay_flagged S1 r CONNECTOR_ERROR_MX →
        ¬ relay_flagged S1 r CONNECTOR_ERROR_FAMILY →
        (S'.relays r).failstr = "No valid route to destination") := by
  obtain ⟨S', h1, h2, h3⟩ := mta_on_source_exhausted fuel now S r source S1 delay hfuel hc hne hlt
  refine ⟨S', h1, h2, ?_, ?_, ?_, ?_, ?_⟩
  · intro a
    rw [h3, exhaustion_message, if_pos ((has_flag_errmask_iff S1 r _).2 a)]
  · intro a b
    rw [h3, exhaustion_message, if_neg (fun h => a ((has_flag_errmask_iff S1 r _).1 h)),
      if_pos ((has_flag_errmask_iff S1 r _).2 b)]
  · intro a b c
    rw [h3, exhaustion_message, if_neg (fun h => a ((has_flag_errmask_iff S1 r _).1 h)),
      if_neg (fun h => b ((has_flag_errmask_iff S1 r _).1 h)),
      if_pos ((has_flag_errmask_iff S1 r _).2 c)]
  · intro a b c d
    rw [h3, exhaustion_message, if_neg (fun h => a ((has_flag_errmask_iff S1 r _).1 h)),
      if_neg (fun h => b ((has_flag_errmask_iff S1 r _).1 h)),
      if_neg (fun h => c ((has_flag_errmask_iff S1 r _).1 h)),
      if_pos ((has_flag_errmask_iff S1 r _).2 d)]
  · intro a b c d
    rw [h3, exhaustion_message, if_neg (fun h => a ((has_flag_errmask_iff S1 r _).1 h)),
      if_neg (fun h => b ((has_flag_errmask_iff S1 r _).1 h)),
      if_neg (fun h => c ((has_flag_errmask_iff S1 r _).1 h)),
      if_neg (fun h => d ((has_flag_errmask_iff S1 r _).1 h))]

/-- Witness of C9: the third reply of the source exhaustion scenario.  The
relay has two connectors, each with `CONNECTOR_ERROR_ROUTE_NET` alone, and
`sourceloop = 3`: the relay fails with "Network error on destination MXs". -/
theorem mta_on_source_exhaustion_message_witness :
    (0 < (ex_state_exhaust3.1.relays 7).connectors.length ∧
      (ex_state_exhaust3.1.relays 7).connectors.length <
        (ex_state_exhaust3.1.relays 7).sourceloop) ∧
    ((ex_state_exhaust3.1.relays 7).connectors = [some ex_src1, some ex_src2] ∧
      (ex_state_exhaust3.1.connectors (7, some ex_src1)).flags = CONNECTOR_ERROR_ROUTE_NET ∧
      (ex_state_exhaust3.1.connectors (7, some ex_src2)).flags = CONNECTOR_ERROR_ROUTE_NET) ∧
    ∃ S', mta_on_source 5 200 ex_state_exhaust2 7 (some (some ex_src1)) = mta_result.done S' ∧
      (S'.relays 7).fail = IMSG_DELIVERY_TEMPFAIL ∧
      (S'.relays 7).failstr = "Network error on destination MXs" := by
  refine ⟨by decide, ex_state_exhaust3_flags, ?_⟩
  obtain ⟨S', h1, h2, _, h4, _⟩ :=
    mta_on_source_exhaustion_message 5 200 ex_state_exhaust2 7 (some (some ex_src1))
      ex_state_exhaust3.1 ex_state_exhaust3.2 (by decide) (by rfl) (by decide) (by decide)
  obtain ⟨f1, f2, f3⟩ := ex_state_exhaust3_flags
  refine ⟨S', h1, h2, h4 ?_ ?_⟩
  · rintro ⟨s, hs, hf⟩
    rw [f1] at hs
    simp only [List.mem_cons, List.mem_singleton, List.not_mem_nil, or_false] at hs
    rcases hs with rfl | rfl
    · rw [f2] at hf; exact absurd hf (by decide)
    · rw [f3] at hf; exact absurd hf (by decide)
  · exact ⟨some ex_src1, by rw [f1]; simp, by rw [f2]; decide⟩

/-- C10, counterexample: the last reference of a route without penalty and
without `ROUTE_KEEPALIVE` is dropped at time 125; `lastconn + 50 = 150` and
`lastdisc + 10 = 130` are both later.  The route is scheduled at 130, the
earlier deadline, and not at the maximum 150. -/
theorem mta_route_unref_keepalive_counterexample :
    ((ex_state_route ex_route_valid 50 10).routes ex_route_a).refcount = 1 ∧
    ((ex_state_route ex_route_valid 50 10).routes ex_route_a).penalty = 0 ∧
    has_flag ((ex_state_route ex_route_valid 50 10).routes ex_route_a).flags ROUTE_KEEPALIVE
      = false ∧
    (125 : Int) < max (100 + 50) (120 + 10) ∧
    (mta_route_unref 125 (ex_state_route ex_route_valid 50 10) ex_route_a).runq_route =
      [(130, ex_route_a)] ∧
    ((max (100 + 50) (120 + 10) : Int), ex_route_a) ∉
      (mta_route_unref 125 (ex_state_route ex_route_valid 50 10) ex_route_a).runq_route := by
  decide

/-- C10, amended: when `mta_route_unref` drops the last reference of a route
with penalty 0 and `ROUTE_KEEPALIVE` clear, at a time `now >= 0`: if
`lastconn + max_seen_conndelay_route` is later than `now`, the route is kept
(`ROUTE_RUNQ` set, one reference retaken, still in the tree) and scheduled on
the route run-queue at the earlier of that deadline and
`lastdisc + max_seen_discdelay_route`, the latter counting only when it is
later than `now`; if neither deadline is later than `now`, the route is
removed from the route tree and nothing is scheduled. -/
theorem mta_route_unref_keepalive (now : Int) (S : mta_state) (k : route_ptr)
    (hlast : (S.routes k).refcount = 1) (hpen : (S.routes k).penalty = 0)
    (hka : has_flag (S.routes k).flags ROUTE_KEEPALIVE = false) (hnow : 0 ≤ now) :
    (now < (S.routes k).lastconn + S.max_seen_conndelay_route →
      has_flag ((mta_route_unref now S k).routes k).flags ROUTE_RUNQ = true ∧
      ((mta_route_unref now S k).routes k).refcount = 1 ∧
      (mta_route_unref now S k).routes_tree = S.routes_tree ∧
      (mta_route_unref now S k).runq_route = runq_schedule S.runq_route
        (if now < (S.routes k).lastdisc + S.max_seen_discdelay_route then
            min ((S.routes k).lastconn + S.max_seen_conndelay_route)
              ((S.routes k).lastdisc + S.max_seen_discdelay_route)
          else (S.routes k).lastconn + S.max_seen_conndelay_route) k) ∧
    ((S.routes k).lastconn + S.max_seen_conndelay_route ≤ now →
      (S.routes k).lastdisc + S.max_seen_discdelay_route ≤ now →
      (mta_route_unref now S k).routes_tree = S.routes_tree.erase k ∧
      (mta_route_unref now S k).runq_route = S.runq_route) := by
  constructor
  · intro hA
    unfold mta_route_unref mta_route_unref_sched
    simp only [hlast, hpen, hka, sub_self, ne_eq, not_true_eq_false, if_false, gt_iff_lt, hA,
      if_true, Bool.false_eq_true, not_false_eq_true, Function.update_same]
    by_cases hB : now < (S.routes k).lastdisc + S.max_seen_discdelay_route
    · by_cases hBA : (S.routes k).lastdisc + S.max_seen_discdelay_route <
          (S.routes k).lastconn + S.max_seen_conndelay_route
      · simp [hB, hBA, hBA.le, has_flag_set_flag_self _ ROUTE_RUNQ (by decide)]
      · have : (S.routes k).lastconn + S.max_seen_conndelay_route ≤
            (S.routes k).lastdisc + S.max_seen_discdelay_route := by omega
        simp [hB, hBA, hA, this, has_flag_set_flag_self _ ROUTE_RUNQ (by decide)]
    · simp [hB, hA, has_flag_set_flag_self _ ROUTE_RUNQ (by decide)]
  · intro hA hB
    unfold mta_route_unref mta_route_unref_sched
    have hA' : ¬ now < (S.routes k).lastconn + S.max_seen_conndelay_route := by omega
    have hB' : ¬ now < (S.routes k).lastdisc + S.max_seen_discdelay_route := by omega
    have h0 : ¬ (0 : Int) > now := by omega
    simp [hlast, hpen, hka, hA', hB', h0]

/-- Witness of C10, amended: the same route at time 125 with the largest
delays 50 and 10 is kept and scheduled at 130. -/
theorem mta_route_unref_keepalive_witness :
    (((ex_state_route ex_route_valid 50 10).routes ex_route_a).refcount = 1 ∧
      (125 : Int) < ((ex_state_route ex_route_valid 50 10).routes ex_route_a).lastconn +
        (ex_state_route ex_route_valid 50 10).max_seen_conndelay_route) ∧
    has_flag ((mta_route_unref 125 (ex_state_route ex_route_valid 50 10) ex_route_a).routes
      ex_route_a).flags ROUTE_RUNQ = true :=
  ⟨by decide,
    ((mta_route_unref_keepalive 125 (ex_state_route ex_route_valid 50 10) ex_route_a (by decide)
      (by decide) (by decide) (by decide)).1 (by decide)).1⟩

/-- The slip behind C10: with `lastconn + max_seen_conndelay_route` already
past (`105 <= 160`) the test on `lastdisc` compares with `sched = 0`, so the
route is removed from the tree at time 160 although
`lastdisc + max_seen_discdelay_route = 163` has not elapsed. -/
theorem mta_route_unref_discdelay_ignored :
    ex_route_a ∉ (mta_route_unref 160
      (ex_state_route { ex_route_valid with lastdisc := 160 } 5 3) ex_route_a).routes_tree ∧
    (160 : Int) < 160 + 3 := by
  decide

/-- C11: starting from an empty MX list, after any sequence of `IMSG_DNS_HOST`
replies for the domain that waits under the request, the handler has returned
on every reply, the MX list of the domain is sorted by non-decreasing
preference, it is a permutation of the received entries, and for every
preference the entries of that preference appear in the order in which they
arrived. -/
theorem mta_imsg_dns_host_ordering (S : mta_state) (reqid : Nat) (d : domain_ptr)
    (ms : List (sockaddr × Int)) (hreq : wait_get S.wait_mx reqid = some d)
    (hempty : (S.domains d).mxs = []) :
    ∃ T, mta_imsg_dns_hosts reqid ms S = mta_result.done T ∧
      (T.domains d).mxs.Pairwise (fun a b => a.preference ≤ b.preference) ∧
      List.Perm (T.domains d).mxs
        (ms.map (fun m => ({ host := m.1, preference := m.2 } : mta_mx))) ∧
      ∀ p : Int, (T.domains d).mxs.filter (fun x => decide (x.preference = p)) =
        (ms.map (fun m => ({ host := m.1, preference := m.2 } : mta_mx))).filter
          (fun x => decide (x.preference = p)) := by
  obtain ⟨T, hT, hm⟩ := mta_imsg_dns_hosts_mxs reqid d ms S hreq
  obtain ⟨h1, h2, h3⟩ := mxs_foldl_spec
    (ms.map (fun m => ({ host := m.1, preference := m.2 } : mta_mx))) [] List.Pairwise.nil
  rw [hempty] at hm
  refine ⟨T, hT, ?_, ?_, ?_⟩
  · rw [hm]; exact h1
  · rw [hm]; simpa using h2
  · intro p; rw [hm]; simpa using h3 p

/-- C11 at the replies `[20 -> b, 10 -> a, 10 -> self]`: the list becomes
`[10 -> a, 10 -> self, 20 -> b]`. -/
theorem mta_imsg_dns_host_ordering_witness :
    ((mta_imsg_dns_hosts 5 ex_dns_replies ex_state_dns).state.map
        (fun T => (T.domains 1).mxs) =
      some [{ host := ex_host_a, preference := 10 }, { host := ex_host_self, preference := 10 },
        { host := ex_host_b, preference := 20 }]) ∧
    ∃ T, mta_imsg_dns_hosts 5 ex_dns_replies ex_state_dns = mta_result.done T ∧
      (T.domains 1).mxs.Pairwise (fun a b => a.preference ≤ b.preference) ∧
      List.Perm (T.domains 1).mxs
        (ex_dns_replies.map (fun m => ({ host := m.1, preference := m.2 } : mta_mx))) ∧
      ∀ p : Int, (T.domains 1).mxs.filter (fun x => decide (x.preference = p)) =
        (ex_dns_replies.map (fun m => ({ host := m.1, preference := m.2 } : mta_mx))).filter
          (fun x => decide (x.preference = p)) :=
  ⟨by decide, mta_imsg_dns_host_ordering ex_state_dns 5 1 ex_dns_replies (by decide) (by decide)⟩

/-- C12, as stated, fails on the message for `EINVAL`: with that status
`mta_on_mx` records `(permfail, "Invalid domain name")`, not
`(permfail, "Invalid domain")`, and this is the text the queue receives for the
pending envelope. -/
theorem mta_on_mx_einval_counterexample :
    (mta_on_mx_status (ex_state_mxstatus DNS_EINVAL) 7 1).toOption.map
        (fun T => ((T.relays 7).fail, (T.relays 7).failstr)) =
      some (IMSG_DELIVERY_PERMFAIL, "Invalid domain name") ∧
    (mta_on_mx_status (ex_state_mxstatus DNS_EINVAL) 7 1).toOption.map
        (fun T => ((T.relays 7).fail, (T.relays 7).failstr)) ≠
      some (IMSG_DELIVERY_PERMFAIL, "Invalid domain") ∧
    (mta_on_mx 3 200 (ex_state_mxstatus DNS_EINVAL) 7 1).state.map (fun T => T.out.head?) =
      some (some (mta_event.queue_permfail 4294967297 "Invalid domain name")) := by
  refine ⟨by decide, by decide, by decide⟩

/-- C12, amended: in `mta_on_mx` the status `OK` leaves the terminal failure of
the relay as it is, `RETRY` records `(tempfail, "Temporary failure in MX
lookup")`, `EINVAL` records `(permfail, "Invalid domain name")`, `ENONAME`
records `(permfail, "Domain does not exist")`, `ENOTFOUND` records `(tempfail,
"No MX found for domain")`; in each of these cases `RELAY_WAIT_MX` is clear in
the state on which `mta_drain` then runs.  Any other status is the fatal error
`bad DNS lookup error code`. -/
theorem mta_on_mx_status_mapping (S : mta_state) (r : relay_ptr) (d : domain_ptr) :
    ((S.domains d).mxstatus = DNS_OK ∨ (S.domains d).mxstatus = DNS_RETRY ∨
        (S.domains d).mxstatus = DNS_EINVAL ∨ (S.domains d).mxstatus = DNS_ENONAME ∨
        (S.domains d).mxstatus = DNS_ENOTFOUND →
      ∃ T, mta_on_mx_status S r d = Except.ok T ∧
        has_flag (T.relays r).status RELAY_WAIT_MX = false ∧
        ((T.relays r).fail, (T.relays r).failstr) =
          (if (S.domains d).mxstatus = DNS_OK then ((S.relays r).fail, (S.relays r).failstr)
            else if (S.domains d).mxstatus = DNS_RETRY then
              (IMSG_DELIVERY_TEMPFAIL, "Temporary failure in MX lookup")
            else if (S.domains d).mxstatus = DNS_EINVAL then
              (IMSG_DELIVERY_PERMFAIL, "Invalid domain name")
            else if (S.domains d).mxstatus = DNS_ENONAME then
              (IMSG_DELIVERY_PERMFAIL, "Domain does not exist")
            else (IMSG_DELIVERY_TEMPFAIL, "No MX found for domain")) ∧
        ∀ fuel now, mta_on_mx fuel now S r d =
          (mta_drain fuel now T r).bind (fun S2 => mta_result.done (mta_relay_unref S2 r))) ∧
    (¬ ((S.domains d).mxstatus = DNS_OK ∨ (S.domains d).mxstatus = DNS_RETRY ∨
        (S.domains d).mxstatus = DNS_EINVAL ∨ (S.domains d).mxstatus = DNS_ENONAME ∨
        (S.domains d).mxstatus = DNS_ENOTFOUND) →
      mta_on_mx_status S r d = Except.error "bad DNS lookup error code" ∧
        ∀ fuel now, mta_on_mx fuel now S r d = mta_result.fatal "bad DNS lookup error code") := by
  constructor
  · intro h
    by_cases h0 : (S.domains d).mxstatus = DNS_OK
    · refine ⟨_, by simp only [mta_on_mx_status, h0, if_true]; rfl, ?_, ?_, ?_⟩
      · simp [has_flag_clr_flag_self]
      · rw [if_pos h0]; simp
      · intro fuel now; simp only [mta_on_mx, mta_on_mx_status, h0, if_true]; rfl
    by_cases h1 : (S.domains d).mxstatus = DNS_RETRY
    · refine ⟨_, by simp only [mta_on_mx_status, h0, h1, if_true, if_false]; rfl, ?_, ?_, ?_⟩
      · simp [has_flag_clr_flag_self]
      · rw [if_neg h0, if_pos h1]; simp
      · intro fuel now; simp only [mta_on_mx, mta_on_mx_status, h0, h1, if_true, if_false]; rfl
    by_cases h2 : (S.domains d).mxstatus = DNS_EINVAL
    · refine ⟨_, by simp only [mta_on_mx_status, h0, h1, h2, if_true, if_false]; rfl, ?_, ?_, ?_⟩
      · simp [has_flag_clr_flag_self]
      · rw [if_neg h0, if_neg h1, if_pos h2]; simp
      · intro fuel now
        simp only [mta_on_mx, mta_on_mx_status, h0, h1, h2, if_true, if_false]; rfl
    by_cases h3 : (S.domains d).mxstatus = DNS_ENONAME
    · refine ⟨_, by simp only [mta_on_mx_status, h0, h1, h2, h3, if_true, if_false]; rfl, ?_, ?_, ?_⟩
      · simp [has_flag_clr_flag_self]
      · rw [if_neg h0, if_neg h1, if_neg h2, if_pos h3]; simp
      · intro fuel now
        simp only [mta_on_mx, mta_on_mx_status, h0, h1, h2, h3, if_true, if_false]; rfl
    have h4 : (S.domains d).mxstatus = DNS_ENOTFOUND := by tauto
    refine ⟨_, by simp only [mta_on_mx_status, h0, h1, h2, h3, h4, if_true, if_false]; rfl, ?_, ?_, ?_⟩
    · simp [has_flag_clr_flag_self]
    · rw [if_neg h0, if_neg h1, if_neg h2, if_neg h3]; simp
    · intro fuel now
      simp only [mta_on_mx, mta_on_mx_status, h0, h1, h2, h3, h4, if_true, if_false]; rfl
  · intro h
    push_neg at h
    obtain ⟨h0, h1, h2, h3, h4⟩ := h
    have e : mta_on_mx_status S r d = Except.error "bad DNS lookup error code" := by
      simp only [mta_on_mx_status, h0, h1, h2, h3, h4, if_false]; rfl
    exact ⟨e, fun fuel now => by simp only [mta_on_mx, e]⟩

/-- C12, amended, at the statuses `ENONAME` and 9 (not a lookup status). -/
theorem mta_on_mx_status_mapping_witness :
    (∃ T, mta_on_mx_status (ex_state_mxstatus DNS_ENONAME) 7 1 = Except.ok T ∧
      has_flag (T.relays 7).status RELAY_WAIT_MX = false ∧
      ((T.relays 7).fail, (T.relays 7).failstr) =
        (IMSG_DELIVERY_PERMFAIL, "Domain does not exist")) ∧
    mta_on_mx_status (ex_state_mxstatus 9) 7 1 = Except.error "bad DNS lookup error code" := by
  refine ⟨?_, ((mta_on_mx_status_mapping (ex_state_mxstatus 9) 7 1).2 (by decide)).1⟩
  obtain ⟨T, h1, h2, h3, _⟩ :=
    (mta_on_mx_status_mapping (ex_state_mxstatus DNS_ENONAME) 7 1).1 (by decide)
  exact ⟨T, h1, h2, h3.trans (by decide)⟩

/-- C15: from a state in which `relay.nconn_ready >= relay.ntask`, or
`relay.nconn > 2` and `relay.nconn >= relay.ntask / 2`, no pass of `mta_connect`
reaches the point where a session is spawned, and the call returns the state
it was given, at most without the pending timer of the connector (which the
call cancels when `CONNECTOR_WAIT` is set): no counter changes, no session is
started and nothing is scheduled. -/
theorem mta_connect_self_cap (fuel : Nat) (now : Int) (S : mta_state) (c : connector_ptr)
    (hcap : (S.relays c.1).nconn_ready ≥ (S.relays c.1).ntask ∨
      ((S.relays c.1).nconn > 2 ∧ (S.relays c.1).nconn ≥ (S.relays c.1).ntask / 2)) :
    (∀ k S1, mta_connect_select now S c ≠ connect_select.route k S1) ∧
    (mta_connect (fuel + 1) now S c = some S ∨
      mta_connect (fuel + 1) now S c =
        some { S with runq_connector := runq_cancel S.runq_connector c }) := by
  rcases mta_connect_select_capped now S c hcap with h | h
  · exact ⟨fun k S1 e => (by rw [h] at e; cases e), Or.inl (by simp only [mta_connect, h])⟩
  · exact ⟨fun k S1 e => (by rw [h] at e; cases e), Or.inr (by simp only [mta_connect, h])⟩

/-- C15 on the backup MX scenario with one ready connection for its one task:
the call returns at once, where the same call without the ready connection
spawns a session. -/
theorem mta_connect_self_cap_witness :
    ((mta_connect 4 1000 ex_state_capped ex_conn).map
        (fun T => (T.out.length, (T.relays 7).nconn, T.runq_connector.length)) = some (0, 1, 0) ∧
      (mta_connect 4 1000 (ex_state_backup ex_host) ex_conn).map
        (fun T => (T.relays 7).nconn) = some 1) ∧
    (∀ k S1, mta_connect_select 1000 ex_state_capped ex_conn ≠ connect_select.route k S1) ∧
    (mta_connect (3 + 1) 1000 ex_state_capped ex_conn = some ex_state_capped ∨
      mta_connect (3 + 1) 1000 ex_state_capped ex_conn =
        some { ex_state_capped with
          runq_connector := runq_cancel ex_state_capped.runq_connector ex_conn }) :=
  ⟨⟨by decide, by decide⟩,
    mta_connect_self_cap 3 1000 ex_state_capped ex_conn (Or.inl (by decide))⟩

/-- C14: a call of `mta_connect` on a connector with an error bit returns at
once and schedules nothing.  When a connector without error bit, with pending
tasks and below the self-imposed cap obtains no route, the call returns; if
the route search left an error bit on the connector, nothing is scheduled;
otherwise the connector has `CONNECTOR_WAIT` and is scheduled on the connector
run-queue (after its pending timer was cancelled) at `connect_retry_time`:
`now + 5` if a limit bit fired, and otherwise the latest of `now`, the four
`lastconn + conndelay` deadlines and the earliest time reported by
`mta_find_route`. -/
theorem mta_connect_retry (fuel : Nat) (now : Int) (S : mta_state) (c : connector_ptr) :
    (has_flag (S.connectors c).flags CONNECTOR_ERROR = true →
      mta_connect (fuel + 1) now S c = some S) ∧
    (has_flag (S.connectors c).flags CONNECTOR_ERROR = false →
      (S.relays c.1).ntask ≠ 0 →
      ¬ ((S.relays c.1).nconn_ready ≥ (S.relays c.1).ntask ∨
        ((S.relays c.1).nconn > 2 ∧ (S.relays c.1).nconn ≥ (S.relays c.1).ntask / 2)) →
      (mta_connect_select now S c).found = none →
      ∃ T, mta_connect (fuel + 1) now S c = some T ∧
        (has_flag (T.connectors c).flags CONNECTOR_ERROR = true →
          T.runq_connector = (connect_entry S c).runq_connector) ∧
        (has_flag (T.connectors c).flags CONNECTOR_ERROR = false →
          has_flag (T.connectors c).flags CONNECTOR_WAIT = true ∧
          T.runq_connector = runq_schedule (connect_entry S c).runq_connector
            (connect_retry_time now (connect_entry S c) c) c)) := by
  constructor
  · intro herr
    simp only [mta_connect, mta_connect_select, if_pos herr]
  intro herr htask hcap hnone
  obtain ⟨T, h1, h2⟩ := mta_connect_select_retry now S c herr htask hcap
    (fun k S1 e => by rw [e] at hnone; cases hnone)
  exact ⟨T, by simp only [mta_connect, h1], h2⟩

/-- C14 on the backup MX scenario with a connect delay of 30 seconds on the
host `a`, last used at 990: the connector is scheduled at 1020; with the two
hosts of the first level at their cap it is scheduled at 1005. -/
theorem mta_connect_retry_witness :
    ((mta_connect 4 1000 ex_state_delay ex_conn).map (fun T => T.runq_connector) =
        some [(1020, ex_conn)] ∧
      (mta_connect 4 1000 (ex_state_blocked { ex_host with nconn := 10 }) ex_conn).map
        (fun T => T.runq_connector) = some [(1005, ex_conn)]) ∧
    ∃ T, mta_connect (3 + 1) 1000 ex_state_delay ex_conn = some T ∧
      (has_flag (T.connectors ex_conn).flags CONNECTOR_ERROR = true →
        T.runq_connector = (connect_entry ex_state_delay ex_conn).runq_connector) ∧
      (has_flag (T.connectors ex_conn).flags CONNECTOR_ERROR = false →
        has_flag (T.connectors ex_conn).flags CONNECTOR_WAIT = true ∧
        T.runq_connector = runq_schedule (connect_entry ex_state_delay ex_conn).runq_connector
          (connect_retry_time 1000 (connect_entry ex_state_delay ex_conn) ex_conn) ex_conn) :=
  ⟨⟨by decide, by decide⟩,
    (mta_connect_retry 3 1000 ex_state_delay ex_conn).2 (by decide) (by decide) (by decide)
      (by decide)⟩

/-- C19 fails on the code for the field `authlabel`: the relay without label
and the relay with the label `backup` agree on the seven other key fields and
differ on `authlabel`, yet `mta_relay_cmp` returns `0` on them in that order
(the test `a->authlabel && strcmp(...)` is skipped when `a->authlabel` is
null), and in the other order it hands a null pointer to `strcmp`, so the two
results are not of opposite signs. -/
theorem mta_relay_cmp_authlabel_null :
    mta_relay_cmp ex_relay_nolabel ex_relay_label = some 0 ∧
      relay_key ex_relay_nolabel ≠ relay_key ex_relay_label ∧
      mta_relay_cmp ex_relay_label ex_relay_nolabel = none := by
  refine ⟨by decide, fun h => ?_, by decide⟩
  have h5 : (relay_key ex_relay_nolabel).2.2.2.2.1 = (relay_key ex_relay_label).2.2.2.2.1 := by
    rw [h]
  exact absurd h5 (by decide)

/-- C20: interning the same key twice with `mta_host`, `mta_source` or
`mta_domain` yields the same entity both times (the second call finds the
entity of the first and adds nothing to the tree), the reference count of
the entity is its count before the two calls (zero for a new entity) plus
two, and two calls of the matching `unref` leave the tree of the entity kind
with the members and the records, reference counts included, that it had
before the two interns.  An entity that is in its tree has a positive
reference count. -/
theorem mta_intern_roundtrip (S : mta_state) (h : host_ptr) (s : source_ptr) (name : String)
    (flags : Nat)
    (hh : h ∈ S.hosts_tree → 0 < (S.hosts h).refcount)
    (hs : s ∈ S.sources_tree → 0 < (S.sources s).refcount)
    (hd : (mta_domain S name flags).1 ∈ S.domains_tree →
      0 < (S.domains (mta_domain S name flags).1).refcount) :
    (h ∈ (mta_host S h).hosts_tree ∧
      (mta_host (mta_host S h) h).hosts_tree = (mta_host S h).hosts_tree ∧
      ((mta_host (mta_host S h) h).hosts h).refcount =
        (if h ∈ S.hosts_tree then (S.hosts h).refcount else 0) + 2 ∧
      (mta_host_unref (mta_host_unref (mta_host (mta_host S h) h) h) h).hosts_tree =
        S.hosts_tree ∧
      ∀ x ∈ S.hosts_tree,
        (mta_host_unref (mta_host_unref (mta_host (mta_host S h) h) h) h).hosts x =
          S.hosts x) ∧
    (s ∈ (mta_source S s).sources_tree ∧
      (mta_source (mta_source S s) s).sources_tree = (mta_source S s).sources_tree ∧
      ((mta_source (mta_source S s) s).sources s).refcount =
        (if s ∈ S.sources_tree then (S.sources s).refcount else 0) + 2 ∧
      (mta_source_unref (mta_source_unref (mta_source (mta_source S s) s) s) s).sources_tree =
        S.sources_tree ∧
      ∀ x ∈ S.sources_tree,
        (mta_source_unref (mta_source_unref (mta_source (mta_source S s) s) s) s).sources x =
          S.sources x) ∧
    ((mta_domain (mta_domain S name flags).2 name flags).1 = (mta_domain S name flags).1 ∧
      ((mta_domain (mta_domain S name flags).2 name flags).2.domains
          (mta_domain S name flags).1).refcount =
        (if (mta_domain S name flags).1 ∈ S.domains_tree then
          (S.domains (mta_domain S name flags).1).refcount else 0) + 2 ∧
      (mta_domain_unref (mta_domain_unref (mta_domain (mta_domain S name flags).2 name flags).2
          (mta_domain S name flags).1) (mta_domain S name flags).1).domains_tree =
        S.domains_tree ∧
      ∀ x ∈ S.domains_tree,
        (mta_domain_unref (mta_domain_unref
          (mta_domain (mta_domain S name flags).2 name flags).2
          (mta_domain S name flags).1) (mta_domain S name flags).1).domains x = S.domains x) :=
  ⟨mta_host_roundtrip S h hh, mta_source_roundtrip S s hs, mta_domain_roundtrip S name flags hd⟩

/-- C20 on the source exhaustion scenario: the host `a` (three references),
the source `ex_src1` (one reference) and, under the name `EXAMPLE.com`, the
domain 1 (`example.com`, one reference) are interned; after two interns the
counts are 5, 3 and 3, and two releases give back the three trees. -/
theorem mta_intern_roundtrip_witness :
    (((mta_host (mta_host ex_state_exhaust ex_host_a) ex_host_a).hosts ex_host_a).refcount = 5 ∧
      ((mta_source (mta_source ex_state_exhaust (some ex_src1)) (some ex_src1)).sources
          (some ex_src1)).refcount = 3 ∧
      (mta_domain ex_state_exhaust "EXAMPLE.com" 0).1 = 1 ∧
      ((mta_domain (mta_domain ex_state_exhaust "EXAMPLE.com" 0).2
          "EXAMPLE.com" 0).2.domains 1).refcount = 3) ∧
    (mta_host_unref (mta_host_unref (mta_host (mta_host ex_state_exhaust ex_host_a)
        ex_host_a) ex_host_a) ex_host_a).hosts_tree = ex_state_exhaust.hosts_tree ∧
    (mta_source_unref (mta_source_unref (mta_source (mta_source ex_state_exhaust (some ex_src1))
        (some ex_src1)) (some ex_src1)) (some ex_src1)).sources_tree =
      ex_state_exhaust.sources_tree ∧
    (mta_domain_unref (mta_domain_unref
        (mta_domain (mta_domain ex_state_exhaust "EXAMPLE.com" 0).2 "EXAMPLE.com" 0).2
        (mta_domain ex_state_exhaust "EXAMPLE.com" 0).1)
        (mta_domain ex_state_exhaust "EXAMPLE.com" 0).1).domains_tree =
      ex_state_exhaust.domains_tree :=
  ⟨⟨by decide, by decide, by decide, by decide⟩,
    (mta_intern_roundtrip ex_state_exhaust ex_host_a (some ex_src1) "EXAMPLE.com" 0
      (fun _ => by decide) (fun _ => by decide) (fun _ => by decide)).1.2.2.2.1,
    (mta_intern_roundtrip ex_state_exhaust ex_host_a (some ex_src1) "EXAMPLE.com" 0
      (fun _ => by decide) (fun _ => by decide) (fun _ => by decide)).2.1.2.2.2.1,
    (mta_intern_roundtrip ex_state_exhaust ex_host_a (some ex_src1) "EXAMPLE.com" 0
      (fun _ => by decide) (fun _ => by decide) (fun _ => by decide)).2.2.2.2.1⟩

/-- C17: starting from a fresh route (penalty 0, `ROUTE_NEW`, not disabled),
after any sequence `cs` of cycles, each made of `mta_route_disable(route, 2,
reason)` followed by the expiry of the route timer, the next cycle `c` raises
the penalty to `cs.length + 2` at the disable, schedules the route at
`now + min(14400, 200 * (cs.length + 2)^2)`, and ends with `ROUTE_NEW` set, no
`DISABLED` bit and the penalty `cs.length + 1`, one less than right after the
disable.  The delays of successive disables are `min(14400, 200 * (n + 2)^2)`
for `n = 0, 1, 2, ...`: they never decrease, never exceed 14400 and equal
14400 from the eighth cycle on.  The hypothesis bounds the number of cycles
so that the `unsigned long long` product of `mta_route_disable` does not wrap. -/
theorem mta_route_cycles (S : mta_state) (k : route_ptr) (cs : List (Int × Int × Nat))
    (c : Int × Int × Nat)
    (hpen : (S.routes k).penalty = 0)
    (hnew : has_flag (S.routes k).flags ROUTE_NEW = true)
    (hdis : has_flag (S.routes k).flags ROUTE_DISABLED = false)
    (hbound : 200 * ((cs.length : Int) + 3) ^ 2 < 2 ^ 64) :
    ((mta_route_disable c.1 (cs.foldl (route_cycle k) S) k 2 c.2.2).routes k).penalty =
        cs.length + 2 ∧
      (c.1 + min 14400 (200 * ((cs.length : Int) + 2) ^ 2), k) ∈
        (mta_route_disable c.1 (cs.foldl (route_cycle k) S) k 2 c.2.2).runq_route ∧
      ((route_cycle k (cs.foldl (route_cycle k) S) c).routes k).penalty = cs.length + 1 ∧
      has_flag ((route_cycle k (cs.foldl (route_cycle k) S) c).routes k).flags ROUTE_NEW = true ∧
      has_flag ((route_cycle k (cs.foldl (route_cycle k) S) c).routes k).flags ROUTE_DISABLED =
        false ∧
      mta_route_disable_delay (((cs.foldl (route_cycle k) S).routes k).penalty + 2) =
        min 14400 (200 * ((cs.length : Int) + 2) ^ 2) ∧
      mta_route_disable_delay
          (((route_cycle k (cs.foldl (route_cycle k) S) c).routes k).penalty + 2) =
        min 14400 (200 * ((cs.length : Int) + 3) ^ 2) ∧
      min (14400 : Int) (200 * ((cs.length : Int) + 2) ^ 2) ≤
        min 14400 (200 * ((cs.length : Int) + 3) ^ 2) ∧
      min (14400 : Int) (200 * ((cs.length : Int) + 2) ^ 2) ≤ 14400 ∧
      (7 ≤ cs.length → min (14400 : Int) (200 * ((cs.length : Int) + 2) ^ 2) = 14400) := by
  obtain ⟨b1, b2, b3⟩ := route_cycles_record k cs S hnew hdis (by omega)
  rw [hpen, zero_add] at b1
  obtain ⟨a1, a2, a3, a4, a5⟩ := route_cycle_record k (cs.foldl (route_cycle k) S) c b2 b3
    (by rw [b1]; omega)
  have hn : (0 : Int) ≤ cs.length := Int.natCast_nonneg _
  have hb3 : DELAY_ROUTE_BASE * ((cs.length : Int) + 3) * ((cs.length : Int) + 3) < 2 ^ 64 := by
    have e : DELAY_ROUTE_BASE * ((cs.length : Int) + 3) * ((cs.length : Int) + 3) =
        200 * ((cs.length : Int) + 3) ^ 2 := by unfold DELAY_ROUTE_BASE; ring
    rw [e]; exact hbound
  have hmono : 200 * ((cs.length : Int) + 2) ^ 2 ≤ 200 * ((cs.length : Int) + 3) ^ 2 :=
    delay_step_mono _ hn
  have hb2 : DELAY_ROUTE_BASE * ((cs.length : Int) + 2) * ((cs.length : Int) + 2) < 2 ^ 64 := by
    have e : DELAY_ROUTE_BASE * ((cs.length : Int) + 2) * ((cs.length : Int) + 2) =
        200 * ((cs.length : Int) + 2) ^ 2 := by unfold DELAY_ROUTE_BASE; ring
    rw [e]; exact lt_of_le_of_lt hmono hbound
  have d2 := mta_route_disable_delay_eq ((cs.length : Int) + 2) hb2
  have d3 := mta_route_disable_delay_eq ((cs.length : Int) + 3) hb3
  rw [b1] at a1 a2 a3
  rw [d2] at a2
  refine ⟨a1, a2, a3, a4, a5, by rw [b1, d2], ?_, ?_, min_le_left _ _, ?_⟩
  · rw [a3]
    have : ((cs.length : Int) + 1 + 2) = (cs.length : Int) + 3 := by ring
    rw [this, d3]
  · exact min_le_min (le_refl _) hmono
  · intro h7
    have : (7 : Int) ≤ cs.length := by exact_mod_cast h7
    exact min_eq_left (delay_step_capped _ this)

/-- C17 after the two cycles `ex_cycles` on a fresh route: the penalty is 2, and
a third cycle at time 5000 raises it to 4, schedules the route at 5000 + 3200
and ends with penalty 3. -/
theorem mta_route_cycles_witness :
    (((ex_cycles.foldl (route_cycle ex_route_a) (ex_state_route ex_route_fresh 0 0)).routes
        ex_route_a).penalty = 2 ∧
      ((route_cycle ex_route_a
        (ex_cycles.foldl (route_cycle ex_route_a) (ex_state_route ex_route_fresh 0 0))
        (5000, 9000, ROUTE_DISABLED_NET)).routes ex_route_a).flags = ROUTE_NEW) ∧
    ((5000 : Int) + 3200, ex_route_a) ∈
      (mta_route_disable 5000
        (ex_cycles.foldl (route_cycle ex_route_a) (ex_state_route ex_route_fresh 0 0))
        ex_route_a 2 ROUTE_DISABLED_NET).runq_route ∧
    ((route_cycle ex_route_a
        (ex_cycles.foldl (route_cycle ex_route_a) (ex_state_route ex_route_fresh 0 0))
        (5000, 9000, ROUTE_DISABLED_NET)).routes ex_route_a).penalty = 3 := by
  have h := mta_route_cycles (ex_state_route ex_route_fresh 0 0) ex_route_a ex_cycles
    (5000, 9000, ROUTE_DISABLED_NET) (by decide) (by decide) (by decide) (by decide)
  exact ⟨⟨by decide, by decide⟩, h.2.1, h.2.2.1⟩

/-- C18: the penalty of every route is non-negative after any sequence of
`mta_route_down`, `mta_route_collect`, route timer expiries and `RESUME_ROUTE`
messages, from a state in which no penalty is negative (as after `mta()` and
after the creation of a route, whose penalty is zero).  One handler raises the
penalty of a route by at most two, and only of the route on which it calls
`mta_route_disable`: the route reported down, or the route collected while
`ROUTE_NEW`; `mta_route_enable` lowers a penalty by at most one and raises
none. -/
theorem mta_route_penalty_nonneg (es : List route_event) (S T : mta_state)
    (h0 : ∀ x, 0 ≤ (S.routes x).penalty) (hrun : route_events_run es S = some T) :
    (∀ x, 0 ≤ (T.routes x).penalty) ∧
    (∀ (e : route_event) (S1 S2 : mta_state), (∀ x, 0 ≤ (S1.routes x).penalty) →
      e.run S1 = some S2 →
      ∀ x, (S2.routes x).penalty ≤
        (S1.routes x).penalty + (if e.disables S1 x = true then 2 else 0)) ∧
    (∀ (now : Int) (S1 : mta_state) (k x : route_ptr),
      (S1.routes x).penalty - 1 ≤ ((mta_route_enable now S1 k).routes x).penalty ∧
        ((mta_route_enable now S1 k).routes x).penalty ≤ (S1.routes x).penalty) :=
  ⟨route_events_nonneg es S T h0 hrun,
    fun e S1 S2 h1 h2 x => (route_event_penalties e S1 S2 h1 h2 x).2,
    fun now S1 k x => ⟨(mta_route_enable_penalties now S1 k x).1,
      (mta_route_enable_penalties now S1 k x).2.1⟩⟩

/-- C18 on the backup MX scenario with a session on the route to `a`: the
penalty of the route is 2 after the collect, 1 after its timer, 0 after the
first `RESUME_ROUTE` and still 0 after the second. -/
theorem mta_route_penalty_nonneg_witness :
    ((route_events_run (ex_events.take 1) ex_state_session).map
        (fun T => (T.routes ex_route_a).penalty) = some 2 ∧
      (route_events_run (ex_events.take 2) ex_state_session).map
        (fun T => (T.routes ex_route_a).penalty) = some 1 ∧
      (route_events_run (ex_events.take 3) ex_state_session).map
        (fun T => (T.routes ex_route_a).penalty) = some 0 ∧
      (route_events_run ex_events ex_state_session).map
        (fun T => (T.routes ex_route_a).penalty) = some 0) ∧
    ∃ T, route_events_run ex_events ex_state_session = some T ∧
      ∀ x, 0 ≤ (T.routes x).penalty := by
  refine ⟨⟨by decide, by decide, by decide, by decide⟩, ?_⟩
  have h0 : ∀ x, 0 ≤ (ex_state_session.routes x).penalty := by
    intro x
    by_cases e : x = ex_route_a
    · subst e; decide
    · simp [ex_state_session, ex_state_backup, ex_state_mx, mta_init, calloc_route,
        Function.update_noteq e]
  cases h : route_events_run ex_events ex_state_session with
  | none =>
    have hs : (route_events_run ex_events ex_state_session).isSome = true := by decide
    rw [h] at hs
    cases hs
  | some T => exact ⟨T, rfl, (mta_route_penalty_nonneg ex_events ex_state_session T h0 h).1⟩

/-- C16: failed probe.  For a route that is held by its session (it is in the
tree, it is not kept alive by a timer, its reference count is at least one,
and at least two when it is suspended), `mta_route_collect` returns with
enough fuel, and in the state it returns `lastdisc` of the route is `now`.  If
the route had `ROUTE_NEW`, it has `ROUTE_DISABLED_NET`, its penalty is two
above the penalty before the call, and its timer is pending at `now` plus the
delay of the new penalty: a route without penalty gets the penalty 2 and a
timer at `now + 800`.  If the route did not have `ROUTE_NEW`, its
`ROUTE_DISABLED` bits and its penalty are those before the call. -/
theorem mta_route_collect_failed_probe (now : Int) (S : mta_state) (r : relay_ptr)
    (k : route_ptr) (hk : k ∈ S.routes_tree)
    (hq : has_flag (S.routes k).flags ROUTE_RUNQ = false) (href : 1 ≤ (S.routes k).refcount)
    (hdis : has_flag (S.routes k).flags ROUTE_DISABLED = true → 2 ≤ (S.routes k).refcount) :
    (∃ fuel T, mta_route_collect fuel now S r k = some T) ∧
      ∀ fuel T, mta_route_collect fuel now S r k = some T →
        (T.routes k).lastdisc = now ∧
        (has_flag (S.routes k).flags ROUTE_NEW = true →
          has_flag (T.routes k).flags ROUTE_DISABLED_NET = true ∧
          (T.routes k).penalty = (S.routes k).penalty + 2 ∧
          (now + mta_route_disable_delay ((S.routes k).penalty + 2), k) ∈ T.runq_route ∧
          ((S.routes k).penalty = 0 →
            (T.routes k).penalty = 2 ∧ (now + 800, k) ∈ T.runq_route)) ∧
        (has_flag (S.routes k).flags ROUTE_NEW = false →
          (T.routes k).flags &&& ROUTE_DISABLED = (S.routes k).flags &&& ROUTE_DISABLED ∧
          (T.routes k).penalty = (S.routes k).penalty) := by
  constructor
  · obtain ⟨S5, h5⟩ := mta_connect_terminates now (r, k.1)
      (max 3 (((mta_route_collect_probe now S r k).relays r).ntask / 2) + 1)
      (mta_route_collect_probe now S r k) (by omega) (by dsimp only; omega)
    refine ⟨max 3 (((mta_route_collect_probe now S r k).relays r).ntask / 2) + 1,
      mta_relay_unref (mta_route_unref now S5 k) r, ?_⟩
    unfold mta_route_collect
    rw [h5]
  · intro fuel T h
    obtain ⟨h1, h2, h3, _, h5⟩ := mta_route_collect_held fuel now S T r k hk hq href hdis h
    refine ⟨h2, fun hn => ?_, fun hn => ?_⟩
    · rw [if_pos hn] at h1 h3
      have hnet : has_flag (T.routes k).flags ROUTE_DISABLED_NET = true := by
        have e : (T.routes k).flags &&& ROUTE_DISABLED_NET =
            set_flag (S.routes k).flags ROUTE_DISABLED_NET &&& ROUTE_DISABLED_NET := by
          have d : ROUTE_DISABLED &&& ROUTE_DISABLED_NET = ROUTE_DISABLED_NET := by decide
          have e1 : ∀ x : Nat, x &&& ROUTE_DISABLED_NET =
              x &&& ROUTE_DISABLED &&& ROUTE_DISABLED_NET := by
            intro x; rw [Nat.and_assoc, d]
          rw [e1 (T.routes k).flags, h3, ← e1]
        unfold has_flag
        rw [e]
        exact has_flag_set_flag_self _ _ (by decide)
      refine ⟨hnet, h1, h5 hn, fun hp => ?_⟩
      have hd : mta_route_disable_delay (0 + 2) = 800 := by decide
      have h6 := h5 hn
      rw [hp, hd] at h6
      rw [hp] at h1
      exact ⟨by rw [h1]; rfl, h6⟩
    · have hn1 : ¬ has_flag (S.routes k).flags ROUTE_NEW = true := by rw [hn]; simp
      rw [if_neg hn1] at h1 h3
      exact ⟨h3, by rw [h1, add_zero]⟩

/-- The session of the backup MX scenario on the fresh route to `a` is
collected at the time 1000: the route gets the penalty 2, `ROUTE_DISABLED_NET`
and a timer at 1800. -/
theorem mta_route_collect_failed_probe_witness :
    ∃ T, mta_route_collect 5 1000 ex_state_session 7 ex_route_a = some T ∧
      (T.routes ex_route_a).lastdisc = 1000 ∧
      has_flag (T.routes ex_route_a).flags ROUTE_DISABLED_NET = true ∧
      (T.routes ex_route_a).penalty = 2 ∧ (1000 + 800, ex_route_a) ∈ T.runq_route := by
  have hw := mta_route_collect_failed_probe 1000 ex_state_session 7 ex_route_a
    (by decide) (by decide) (by decide) (by decide)
  cases h : mta_route_collect 5 1000 ex_state_session 7 ex_route_a with
  | none =>
    have hs : (mta_route_collect 5 1000 ex_state_session 7 ex_route_a).isSome = true := by decide
    rw [h] at hs
    cases hs
  | some T =>
    obtain ⟨h1, h2, _⟩ := hw.2 5 T h
    obtain ⟨h3, _, _, h4⟩ := h2 (by decide)
    exact ⟨T, rfl, h1, h3, (h4 (by decide)).1, (h4 (by decide)).2⟩

/-- C13: connection-count consistency.  In every state reachable from the
initial state by `mta_connect` (with the routes it creates, releases and
spawns sessions on), `mta_route_collect`, `mta_route_ok`, `mta_route_down`,
the expiry of route timers, `RESUME_ROUTE` and steps that leave the route
graph alone, the route tree has no duplicate, `nconn` of every host is the sum
of `nconn` over the routes of the tree to that host, and `nconn` of every
source is the sum of `nconn` over the routes of the tree from that source. -/
theorem mta_nconn_consistency (S : mta_state) (h : mta_reachable S) :
    S.routes_tree.Nodup ∧
      (∀ x, (S.hosts x).nconn =
        ((S.routes_tree.filter (fun k => decide (k.2 = x))).map
          (fun k => (S.routes k).nconn)).sum) ∧
      (∀ s, (S.sources s).nconn =
        ((S.routes_tree.filter (fun k => decide (k.1 = s))).map
          (fun k => (S.routes k).nconn)).sum) :=
  ⟨(route_acct_reachable S h).nodup, (route_acct_reachable S h).sums.1,
    (route_acct_reachable S h).sums.2⟩

/-- The backup MX scenario is reachable, and so is the state after
`mta_connect` on its connector, which has one session on the route to `a`:
the counters of the host `a` and of the default source are one, as is the
counter of the route. -/
theorem mta_nconn_consistency_witness :
    ∃ T, mta_connect 5 1000 (ex_state_backup ex_host) ex_conn = some T ∧
      (T.hosts ex_host_a).nconn = 1 ∧ (T.routes ex_route_a).nconn = 1 ∧
      (T.hosts ex_host_a).nconn =
        ((T.routes_tree.filter (fun k => decide (k.2 = ex_host_a))).map
          (fun k => (T.routes k).nconn)).sum ∧
      (T.sources none).nconn =
        ((T.routes_tree.filter (fun k => decide (k.1 = none))).map
          (fun k => (T.routes k).nconn)).sum := by
  have hr0 : mta_reachable (ex_state_backup ex_host) := by
    refine mta_reachable.other (mta_reachable.init (fun _ => some ex_limits))
      ⟨rfl, rfl, fun k => ⟨rfl, rfl, rfl, rfl⟩, fun h => ?_, fun s => rfl⟩
    by_cases e : h = ex_host_a
    · subst e; rfl
    · simp [ex_state_backup, ex_state_mx, mta_init, Function.update_noteq e, ex_host,
        calloc_host]
  cases hT : mta_connect 5 1000 (ex_state_backup ex_host) ex_conn with
  | none =>
    have hs : (mta_connect 5 1000 (ex_state_backup ex_host) ex_conn).isSome = true := by decide
    rw [hT] at hs
    cases hs
  | some T =>
    have h1 : (mta_connect 5 1000 (ex_state_backup ex_host) ex_conn).map
        (fun T => ((T.hosts ex_host_a).nconn, (T.routes ex_route_a).nconn)) = some (1, 1) := by
      decide
    rw [hT] at h1
    simp only [Option.map_some', Option.some.injEq, Prod.mk.injEq] at h1
    obtain ⟨_, h2, h3⟩ := mta_nconn_consistency T
      (mta_reachable.event (graph_event.connect 5 1000 ex_conn) hr0 trivial hT)
    exact ⟨T, rfl, h1.1, h1.2, h2 ex_host_a, h3 none⟩

/-- C27: host error threshold.  From a host with `nerror = 0` and no flag, the
calls of `mta_route_error` for `n` routes to that host leave `nerror = n`, and
`HOST_IGNORE` is set if and only if `n >= 5`; the loop body of
`mta_find_route` skips an MX of the host with the verdict `ignored` when
`n >= 5`, and counts it as seen when `n < 5`.  A call of `mta_route_error`
never clears `HOST_IGNORE` of any host. -/
theorem mta_route_error_threshold (S : mta_state) (h : host_ptr) (ks : List route_ptr)
    (hks : ∀ k ∈ ks, k.2 = h) (h0 : (S.hosts h).nerror = 0) (hf : (S.hosts h).flags = 0) :
    ((mta_route_errors S ks).hosts h).nerror = ks.length ∧
      (has_flag ((mta_route_errors S ks).hosts h).flags HOST_IGNORE = true ↔ 5 ≤ ks.length) ∧
      (∀ (now : Int) (l : mta_limits) (c : connector_ptr) (mx : mta_mx) (v : find_route_vars),
        mx.host = h →
        (5 ≤ ks.length →
          mta_find_route_mx now l c mx v (mta_route_errors S ks) =
            (v, mta_route_errors S ks, mx_verdict.ignored)) ∧
        (ks.length < 5 →
          (mta_find_route_mx now l c mx v (mta_route_errors S ks)).2.2 ≠ mx_verdict.ignored ∧
          (mta_find_route_mx now l c mx v (mta_route_errors S ks)).1.seen = v.seen + 1)) ∧
      (∀ (S1 : mta_state) (k : route_ptr) (x : host_ptr),
        has_flag (S1.hosts x).flags HOST_IGNORE = true →
          has_flag ((mta_route_error S1 k).hosts x).flags HOST_IGNORE = true) := by
  obtain ⟨h1, h2⟩ := mta_route_errors_host h ks S 0 hks h0
    (by rw [hf]; simp [has_flag])
  rw [Nat.zero_add] at h1 h2
  refine ⟨h1, h2, ?_, ?_⟩
  · intro now l c mx v hmx
    subst hmx
    obtain ⟨g1, g2⟩ := mta_find_route_mx_ignored now l c mx v (mta_route_errors S ks)
    refine ⟨fun h5 => g1 (h2.2 h5), fun h5 => g2 ?_⟩
    cases hb : has_flag ((mta_route_errors S ks).hosts mx.host).flags HOST_IGNORE with
    | false => rfl
    | true => have := h2.1 hb; omega
  · intro S1 k x hx
    by_cases e : x = k.2
    · subst e
      exact (mta_route_error_host S1 k).2.2 (Or.inl hx)
    · rw [mta_route_error_other S1 k x e]
      exact hx

/-- After four errors on the routes from two sources to the host `a` the host
is not ignored, after the fifth it is. -/
theorem mta_route_error_threshold_witness :
    has_flag ((mta_route_errors (ex_state_errors 0)
        [(none, ex_host_a), (some ex_src1, ex_host_a), (none, ex_host_a),
          (none, ex_host_a)]).hosts ex_host_a).flags HOST_IGNORE = false ∧
      ((mta_route_errors (ex_state_errors 0)
        [(none, ex_host_a), (some ex_src1, ex_host_a), (none, ex_host_a), (none, ex_host_a),
          (some ex_src1, ex_host_a)]).hosts ex_host_a).nerror = 5 ∧
      (has_flag ((mta_route_errors (ex_state_errors 0)
        [(none, ex_host_a), (some ex_src1, ex_host_a), (none, ex_host_a), (none, ex_host_a),
          (some ex_src1, ex_host_a)]).hosts ex_host_a).flags HOST_IGNORE = true ↔ 5 ≤ 5) :=
  ⟨by decide,
    (mta_route_error_threshold (ex_state_errors 0) ex_host_a
      [(none, ex_host_a), (some ex_src1, ex_host_a), (none, ex_host_a), (none, ex_host_a),
        (some ex_src1, ex_host_a)] (by decide) (by decide) (by decide)).1,
    (mta_route_error_threshold (ex_state_errors 0) ex_host_a
      [(none, ex_host_a), (some ex_src1, ex_host_a), (none, ex_host_a), (none, ex_host_a),
        (some ex_src1, ex_host_a)] (by decide) (by decide) (by decide)).2.1⟩

/-- C30 fails on the code.  The relay 7 is drained at the time 50: it issues
the MX query of the domain and waits for it.  The relay 8 of the same domain
is drained at the time 60, while that query is outstanding: `mta_drain` skips
`mta_query_mx` because `lastmxquery` of the domain is not zero, so the relay 8
does not get `RELAY_WAIT_MX`, is not added to the waiters and takes no
reference; it goes on to the source query twice with the empty MX list, and
ends with the terminal failure `No MX found for destination`, its envelope
handed back to the queue as a temporary failure. -/
theorem mta_drain_shared_mx_query :
    (mta_drain 6 50 ex_state_two_relays 7).state.map (drain_view 7) =
        some ex_view_waiting ∧
      ((mta_drain 6 50 ex_state_two_relays 7).state.bind
        (fun T1 => (mta_drain 6 60 T1 8).state.map (drain_view 8))) =
        some ex_view_failed ∧
      ((mta_drain 6 50 ex_state_two_relays 7).state.bind
        (fun T1 => (mta_drain 6 60 T1 8).state.map (fun T2 =>
          T2.out.filter (fun e => e matches mta_event.queue_tempfail _ _ _)))) =
        some [mta_event.queue_tempfail 4294967297 0 "No MX found for destination"] ∧
      ((mta_drain 6 50 ex_state_two_relays 7).state.bind
        (fun T1 => (mta_drain 6 60 T1 8).state.map (fun T2 =>
          T2.out.filter (fun e => e matches mta_event.dns_query_mx _ _)))) =
        some [mta_event.dns_query_mx 1 "example.com"] := by
  refine ⟨by decide, by decide, by decide, by decide⟩

/-- C23: terminal failure drains the relay.  For a relay with a terminal
failure (temporary or permanent) and `ntask > 0`, `mta_drain` returns; it
appends to the output one queue outcome of that kind with the failure message
for every envelope of every task, tasks and envelopes in the order of their
queues, then the decrement of `mta.task` by the old `ntask` and of
`mta.envelope` by the number of envelopes, and nothing else; the relay is left
without task and with `ntask = 0`; no query is issued: the wait trees, the
relay run-queue, the status and the reference count of the relay are
unchanged. -/
theorem mta_drain_terminal_failure (fuel : Nat) (now : Int) (S : mta_state) (r : relay_ptr)
    (hfuel : 0 < fuel)
    (hf : (S.relays r).fail = IMSG_DELIVERY_TEMPFAIL ∨ (S.relays r).fail = IMSG_DELIVERY_PERMFAIL)
    (hn : 0 < (S.relays r).ntask) :
    ∃ T, mta_drain fuel now S r = mta_result.done T ∧
      T.out = S.out ++
        (relay_envelopes S r).map (flush_outcome (S.relays r).fail (S.relays r).failstr) ++
        [mta_event.stat_decrement "mta.task" (S.relays r).ntask,
          mta_event.stat_decrement "mta.envelope" (relay_envelopes S r).length] ∧
      (T.relays r).tasks = [] ∧ (T.relays r).ntask = 0 ∧
      (T.relays r).status = (S.relays r).status ∧
      (T.relays r).refcount = (S.relays r).refcount ∧
      T.wait_mx = S.wait_mx ∧ T.wait_secret = S.wait_secret ∧
      T.wait_preference = S.wait_preference ∧ T.wait_source = S.wait_source ∧
      T.runq_relay = S.runq_relay := by
  obtain ⟨n, rfl⟩ : ∃ n, fuel = n + 1 := ⟨fuel - 1, by omega⟩
  rw [mta_drain, mta_drain_with]
  rw [if_neg (by omega)]
  have hne : (S.relays r).fail ≠ 0 := by
    rcases hf with h | h <;> rw [h] <;> decide
  rw [if_pos hne]
  obtain ⟨T, h1, h2⟩ := mta_flush_spec S r _ (S.relays r).failstr hf
  refine ⟨T, h1, ?_⟩
  rw [h2]
  simp

/-- The relay 7 has the temporary failure `Network error on destination MXs`
and two tasks with the envelopes 11, 12 and 21: the drain hands the three
envelopes back in that order and decrements the two statistics by 2 and 3. -/
theorem mta_drain_terminal_failure_witness :
    ∃ T, mta_drain 1 1000 (ex_state_failing IMSG_DELIVERY_TEMPFAIL) 7 = mta_result.done T ∧
      T.out =
        [mta_event.queue_tempfail 11 0 "Network error on destination MXs",
          mta_event.queue_tempfail 12 0 "Network error on destination MXs",
          mta_event.queue_tempfail 21 0 "Network error on destination MXs",
          mta_event.stat_decrement "mta.task" 2, mta_event.stat_decrement "mta.envelope" 3] ∧
      (T.relays 7).tasks = [] ∧ (T.relays 7).ntask = 0 := by
  obtain ⟨T, h1, h2, h3, h4, _⟩ := mta_drain_terminal_failure 1 1000
    (ex_state_failing IMSG_DELIVERY_TEMPFAIL) 7 (by decide) (by decide) (by decide)
  refine ⟨T, h1, ?_, h3, h4⟩
  rw [h2]
  decide

/-- C25: host status caching on flush.  `mta_flush` with a temporary or
permanent failure returns.  With a temporary failure on a relay all of whose
connectors carry a bit of `CONNECTOR_ERROR_ROUTE`, every flushed envelope
whose destination has a domain part is, in the state returned, in the
deferred set of the host status entry of that domain (the entry under the
lower-case name, when the domain has one).  With a permanent failure, or when
some connector carries no bit of `CONNECTOR_ERROR_ROUTE`, the host status
cache is unchanged. -/
theorem mta_flush_hoststat (S : mta_state) (r : relay_ptr) (fail : Nat) (error : String)
    (hf : fail = IMSG_DELIVERY_TEMPFAIL ∨ fail = IMSG_DELIVERY_PERMFAIL) :
    ∃ T, mta_flush S r fail error = mta_result.done T ∧
      (fail = IMSG_DELIVERY_TEMPFAIL →
        (∀ s ∈ (S.relays r).connectors,
          has_flag (S.connectors (r, s)).flags CONNECTOR_ERROR_ROUTE = true) →
        ∀ e ∈ relay_envelopes S r, ∀ domain buf hs, dest_domain e.dest = some domain →
          lowercase domain SMTPD_MAXHOSTNAMELEN = some buf →
          hoststat_get S.hoststat buf = some hs →
          ∃ hs1, hoststat_get T.hoststat buf = some hs1 ∧ e.id ∈ hs1.deferred) ∧
      (fail = IMSG_DELIVERY_PERMFAIL ∨
          (∃ s ∈ (S.relays r).connectors,
            has_flag (S.connectors (r, s)).flags CONNECTOR_ERROR_ROUTE = false) →
        T.hoststat = S.hoststat) := by
  unfold mta_flush
  have hc : ¬ (fail ≠ IMSG_DELIVERY_TEMPFAIL ∧ fail ≠ IMSG_DELIVERY_PERMFAIL) := by
    rcases hf with h | h <;> simp [h]
  rw [if_neg hc]
  dsimp only
  obtain ⟨S1, h1, e1, _, _, e4, e5⟩ := mta_flush_envelopes_hoststat r fail error hf
    ((S.relays r).tasks.map (fun t => t.envelopes)).flatten
    { S with relays := Function.update S.relays r { S.relays r with tasks := [] } }
  rw [h1, mta_result.bind]
  have hcong : relay_routes_failed
      { S with relays := Function.update S.relays r { S.relays r with tasks := [] } } r ↔
      relay_routes_failed S r := by
    unfold relay_routes_failed
    simp
  refine ⟨_, rfl, ?_, ?_⟩
  · intro ht hall e he domain buf hs d1 d2 d3
    exact e4 ht (hcong.2 hall) e he domain buf hs d1 d2 d3
  · intro h
    dsimp only
    apply e5
    rcases h with h | ⟨s, hs, hflag⟩
    · exact Or.inl h
    · right
      intro hall
      have := hcong.1 hall s hs
      rw [hflag] at this
      cases this

/-- The relay 7 is flushed with a temporary failure while both its connectors
have a route error: the envelopes 11, 12 and 21 join the envelope 5 in the
deferred set of `example.com`.  Flushed with a permanent failure, or with a
connector without route error, the host status cache is unchanged. -/
theorem mta_flush_hoststat_witness :
    (∃ T, mta_flush (ex_state_flush IMSG_DELIVERY_TEMPFAIL CONNECTOR_ERROR_ROUTE_NET
          CONNECTOR_ERROR_ROUTE_SMTP) 7 IMSG_DELIVERY_TEMPFAIL "Network error" =
        mta_result.done T ∧
        ∃ hs1, hoststat_get T.hoststat "example.com" = some hs1 ∧ 21 ∈ hs1.deferred) ∧
      (mta_flush (ex_state_flush IMSG_DELIVERY_TEMPFAIL CONNECTOR_ERROR_ROUTE_NET
          CONNECTOR_ERROR_ROUTE_SMTP) 7 IMSG_DELIVERY_TEMPFAIL "Network error").state.map
        (fun T => T.hoststat) =
        some [("example.com",
          { tm := 500, error := "Connection refused", deferred := [5, 11, 12, 21] })] ∧
      (mta_flush (ex_state_flush IMSG_DELIVERY_PERMFAIL CONNECTOR_ERROR_ROUTE_NET
          CONNECTOR_ERROR_ROUTE_SMTP) 7 IMSG_DELIVERY_PERMFAIL "Network error").state.map
        (fun T => T.hoststat) =
        some [("example.com", { tm := 500, error := "Connection refused", deferred := [5] })] ∧
      (mta_flush (ex_state_flush IMSG_DELIVERY_TEMPFAIL CONNECTOR_ERROR_ROUTE_NET
          CONNECTOR_ERROR_MX) 7 IMSG_DELIVERY_TEMPFAIL "Network error").state.map
        (fun T => T.hoststat) =
        some [("example.com", { tm := 500, error := "Connection refused", deferred := [5] })] := by
  refine ⟨?_, by decide, by decide, by decide⟩
  obtain ⟨T, h1, h2, _⟩ := mta_flush_hoststat
    (ex_state_flush IMSG_DELIVERY_TEMPFAIL CONNECTOR_ERROR_ROUTE_NET CONNECTOR_ERROR_ROUTE_SMTP)
    7 IMSG_DELIVERY_TEMPFAIL "Network error" (Or.inl rfl)
  refine ⟨T, h1, ?_⟩
  exact h2 rfl (by decide)
    { id := 21, creation := 901, dest := "w@example.com", rcpt := none, session := 0 }
    (by decide) "example.com" "example.com"
    { tm := 500, error := "Connection refused", deferred := [5] } (by decide) (by decide)
    (by decide)

/-- C26: host status replay.  For a host whose lower-case name has a host
status entry, `mta_hoststat_reschedule` appends to the output one `SCHEDULE`
message for each envelope id of the deferred set of the entry, each id once
and nothing else, and leaves the entry with an empty deferred set and with
its error text and time unchanged, and the other entries as they were; a
second call emits nothing.  Host names differing only in letter case address
the same entry. -/
theorem mta_hoststat_reschedule_replay (S : mta_state) (host buf : String) (hs : hoststat)
    (hl : lowercase host SMTPD_MAXHOSTNAMELEN = some buf)
    (hg : hoststat_get S.hoststat buf = some hs) (hnd : hs.deferred.Nodup) :
    (∃ sched : List mta_event,
        (mta_hoststat_reschedule S host).out = S.out ++ sched ∧ sched.Nodup ∧
        ∀ ev, ev ∈ sched ↔ ∃ id ∈ hs.deferred, ev = mta_event.queue_schedule id) ∧
      hoststat_get (mta_hoststat_reschedule S host).hoststat buf =
        some { tm := hs.tm, error := hs.error, deferred := [] } ∧
      (∀ other, other ≠ buf →
        hoststat_get (mta_hoststat_reschedule S host).hoststat other =
          hoststat_get S.hoststat other) ∧
      (mta_hoststat_reschedule (mta_hoststat_reschedule S host) host).out =
        (mta_hoststat_reschedule S host).out ∧
      (∀ host2 : String, host2.data.map Char.toLower = host.data.map Char.toLower →
        mta_hoststat_reschedule S host2 = mta_hoststat_reschedule S host ∧
        ∀ evpid, mta_hoststat_cache S host2 evpid = mta_hoststat_cache S host evpid) := by
  have h1 := mta_hoststat_reschedule_entry S host buf hs hl hg
  have hget : hoststat_get (mta_hoststat_reschedule S host).hoststat buf =
      some { tm := hs.tm, error := hs.error, deferred := [] } := by
    rw [h1]
    exact hoststat_get_set_same _ _ _
  refine ⟨⟨hs.deferred.map mta_event.queue_schedule, by rw [h1], ?_, ?_⟩, hget, ?_, ?_, ?_⟩
  · exact hnd.map (fun a b h => by injection h)
  · intro ev
    simp only [List.mem_map]
    constructor
    · rintro ⟨id, hid, rfl⟩; exact ⟨id, hid, rfl⟩
    · rintro ⟨id, hid, rfl⟩; exact ⟨id, hid, rfl⟩
  · intro other ho
    rw [h1]
    exact hoststat_get_set_other _ _ _ _ ho
  · rw [mta_hoststat_reschedule_entry (mta_hoststat_reschedule S host) host buf _ hl hget]
    simp
  · intro host2 h2
    have e := lowercase_congr host2 host SMTPD_MAXHOSTNAMELEN h2
    constructor
    · unfold mta_hoststat_reschedule
      rw [e]
    · intro evpid
      unfold mta_hoststat_cache
      rw [e]

/-- The deferred envelopes 5, 11 and 12 of `example.com` are replayed through
the name `Example.COM`, the entry keeps its error and its time, and a second
replay emits nothing. -/
theorem mta_hoststat_reschedule_replay_witness :
    (mta_hoststat_reschedule ex_state_hoststat "Example.COM").out =
        [mta_event.queue_schedule 5, mta_event.queue_schedule 11,
          mta_event.queue_schedule 12] ∧
      hoststat_get (mta_hoststat_reschedule ex_state_hoststat "Example.COM").hoststat
          "example.com" = some { tm := 500, error := "Connection refused", deferred := [] } ∧
      (mta_hoststat_reschedule (mta_hoststat_reschedule ex_state_hoststat "Example.COM")
          "Example.COM").out =
        (mta_hoststat_reschedule ex_state_hoststat "Example.COM").out :=
  ⟨by decide,
    (mta_hoststat_reschedule_replay ex_state_hoststat "Example.COM" "example.com"
      { tm := 500, error := "Connection refused", deferred := [5, 11, 12] }
      (by decide) (by decide) (by decide)).2.1,
    (mta_hoststat_reschedule_replay ex_state_hoststat "Example.COM" "example.com"
      { tm := 500, error := "Connection refused", deferred := [5, 11, 12] }
      (by decide) (by decide) (by decide)).2.2.2.1⟩

/-- C32: `mta_drain` is idempotent on a relay that waits.  When the five wait
bits (MX, preference, secret, source, connector) of the relay are set and its
failure code is zero or one of the two delivery failures, `mta_drain` returns
a state, and `mta_drain` on that state, at any later time, returns the same
state: the second run emits nothing, schedules nothing and takes no
reference. -/
theorem mta_drain_idempotent_waiting (fuel : Nat) (now later : Int) (S : mta_state)
    (r : relay_ptr) (hw : relay_waits_all S r)
    (hf : (S.relays r).fail = 0 ∨ (S.relays r).fail = IMSG_DELIVERY_TEMPFAIL ∨
      (S.relays r).fail = IMSG_DELIVERY_PERMFAIL) :
    ∃ T, mta_drain (fuel + 1) now S r = mta_result.done T ∧
      mta_drain (fuel + 1) later T r = mta_result.done T := by
  by_cases hn : (S.relays r).ntask = 0
  · refine ⟨S, ?_, ?_⟩
    · rw [mta_drain]; unfold mta_drain_with; rw [if_pos hn]
    · rw [mta_drain]; unfold mta_drain_with; rw [if_pos hn]
  by_cases h0 : (S.relays r).fail = 0
  · have e := mta_drain_waiting fuel now S r hw hn h0
    by_cases hl : (S.relays r).limits = none
    · rw [if_pos hl] at e
      obtain ⟨a1, a2, a3, _⟩ := mta_query_limits_status S r
      have hw1 : relay_waits_all (mta_query_limits S r) r := by
        unfold relay_waits_all
        rw [a1]
        exact hw
      have e1 := mta_drain_waiting fuel later (mta_query_limits S r) r hw1 (by rw [a2]; exact hn)
        (by rw [a3]; exact h0)
      refine ⟨_, e, ?_⟩
      rw [e1, mta_query_limits_twice]
      simp
    · rw [if_neg hl] at e
      have e1 := mta_drain_waiting fuel later S r hw hn h0
      rw [if_neg hl] at e1
      exact ⟨S, e, e1⟩
  · have hf1 : (S.relays r).fail = IMSG_DELIVERY_TEMPFAIL ∨
        (S.relays r).fail = IMSG_DELIVERY_PERMFAIL := by
      rcases hf with h | h
      · exact absurd h h0
      · exact h
    obtain ⟨T, hT, _, _, hT0, _⟩ := mta_flush_done S r (S.relays r).fail (S.relays r).failstr hf1
    refine ⟨T, ?_, ?_⟩
    · rw [mta_drain]; unfold mta_drain_with; rw [if_neg hn, if_pos h0]; exact hT
    · rw [mta_drain]; unfold mta_drain_with; rw [if_pos hT0]

/-- C32 on a relay that waits for everything and whose limits are unknown: the
first run records the limits and a route connect delay of 30 seconds, the
second run returns that state. -/
theorem mta_drain_idempotent_waiting_witness :
    relay_waits_all ex_state_waiting 7 ∧
      ((ex_state_waiting.relays 7).fail = 0 ∨
        (ex_state_waiting.relays 7).fail = IMSG_DELIVERY_TEMPFAIL ∨
        (ex_state_waiting.relays 7).fail = IMSG_DELIVERY_PERMFAIL) ∧
      (mta_drain 1 100 ex_state_waiting 7).state.map
        (fun T => ((T.relays 7).limits.isSome, T.max_seen_conndelay_route)) = some (true, 30) ∧
      ∃ T, mta_drain 1 100 ex_state_waiting 7 = mta_result.done T ∧
        mta_drain 1 200 T 7 = mta_result.done T :=
  ⟨by unfold relay_waits_all; decide, Or.inl (by decide), by decide,
    mta_drain_idempotent_waiting 0 100 200 ex_state_waiting 7
      (by unfold relay_waits_all; decide) (Or.inl (by decide))⟩

/-- C36: the keep-alive delay of `mta_route_unref` and the suspension delay of
`mta_route_disable`.  For a penalty from 1 to 3276 the deadline computed by
`mta_route_unref` is the last penalty time plus the delay of
`mta_route_disable`, which is `min(14400, 200 * p^2)`.  At the penalty 3277
the `int` product `200 * 3277 * 3277` exceeds `2^31 - 1` and wraps to
`-2147221496`: `mta_route_disable` still computes 14400, while
`mta_route_unref` computes a deadline in the past and removes the route at
once, where a route of penalty 3276 is kept until the time 15400. -/
theorem mta_route_unref_delay_overflow :
    (∀ (now : Int) (S : mta_state) (r : struct_mta_route), 1 ≤ r.penalty → r.penalty ≤ 3276 →
      mta_route_unref_sched now S r = r.lastpenalty + mta_route_disable_delay r.penalty ∧
        mta_route_disable_delay r.penalty = min 14400 (200 * r.penalty ^ 2)) ∧
      mta_route_disable_delay 3277 = 14400 ∧
      mta_route_unref_sched 1000 (ex_state_penalty 3277) (ex_route_penalty 3277) =
        1000 - 2147221496 ∧
      (mta_route_unref 1000 (ex_state_penalty 3277) ex_route_a).routes_tree = [] ∧
      (mta_route_unref 1000 (ex_state_penalty 3276) ex_route_a).routes_tree = [ex_route_a] ∧
      (mta_route_unref 1000 (ex_state_penalty 3276) ex_route_a).runq_route =
        [(15400, ex_route_a)] :=
  ⟨fun now S r h1 h2 => mta_route_unref_sched_penalty now S r h1 h2, by decide, by decide,
    by decide, by decide, by decide⟩

/-- C37: the host status operations on an unknown host.  When the lower-cased
host name has no entry, `mta_hoststat_cache`, `mta_hoststat_uncache` and
`mta_hoststat_reschedule` return the state unchanged, so nothing is emitted;
none of the three ever creates or drops an entry, while
`mta_hoststat_update` leaves an entry with the time and the error under the
lower-cased name.  On any state `mta_hoststat_cache` is idempotent, and on an
existing entry `mta_hoststat_cache` followed by `mta_hoststat_uncache` of an
id that was not deferred gives the entry back as it was. -/
theorem mta_hoststat_unknown_host (now : Int) (S : mta_state) (host error : String)
    (evpid : Nat) :
    (hoststat_entry S host = none →
      mta_hoststat_cache S host evpid = S ∧ mta_hoststat_uncache S host evpid = S ∧
        mta_hoststat_reschedule S host = S) ∧
      (∀ name,
        (hoststat_get (mta_hoststat_cache S host evpid).hoststat name).isSome =
            (hoststat_get S.hoststat name).isSome ∧
          (hoststat_get (mta_hoststat_uncache S host evpid).hoststat name).isSome =
            (hoststat_get S.hoststat name).isSome ∧
          (hoststat_get (mta_hoststat_reschedule S host).hoststat name).isSome =
            (hoststat_get S.hoststat name).isSome) ∧
      (∀ buf, lowercase host SMTPD_MAXHOSTNAMELEN = some buf →
        hoststat_get (mta_hoststat_update now S host error).hoststat buf =
          some { tm := now, error := error,
                 deferred :=
                   ((hoststat_get S.hoststat buf).map (fun hs => hs.deferred)).getD [] }) ∧
      mta_hoststat_cache (mta_hoststat_cache S host evpid) host evpid =
        mta_hoststat_cache S host evpid ∧
      (∀ hs, hoststat_entry S host = some hs → evpid ∉ hs.deferred →
        hoststat_entry (mta_hoststat_uncache (mta_hoststat_cache S host evpid) host evpid)
          host = some hs) := by
  refine ⟨mta_hoststat_unknown S host evpid, fun name => mta_hoststat_names S host name evpid,
    fun buf hl => mta_hoststat_update_entry now S host error buf hl,
    mta_hoststat_cache_twice S host evpid, ?_⟩
  intro hs he hn
  unfold hoststat_entry at he ⊢
  cases hl : lowercase host SMTPD_MAXHOSTNAMELEN with
  | none => rw [hl] at he; simp at he
  | some buf =>
    rw [hl] at he
    simp only [Option.some_bind] at he ⊢
    exact mta_hoststat_cache_uncache S host buf evpid hs hl he hn

/-- C37 on the cache of `ex_state_hoststat`: `example.net` has no entry and the
three operations return the state, `mta_hoststat_update` creates the entry;
the envelope 9 is not deferred for `example.com`, and caching and uncaching
it gives the entry back. -/
theorem mta_hoststat_unknown_host_witness :
    hoststat_entry ex_state_hoststat "Example.NET" = none ∧
      (mta_hoststat_cache ex_state_hoststat "Example.NET" 9 = ex_state_hoststat ∧
        mta_hoststat_uncache ex_state_hoststat "Example.NET" 9 = ex_state_hoststat ∧
        mta_hoststat_reschedule ex_state_hoststat "Example.NET" = ex_state_hoststat) ∧
      hoststat_get (mta_hoststat_update 600 ex_state_hoststat "Example.NET" "Timeout").hoststat
        "example.net" = some { tm := 600, error := "Timeout", deferred := [] } ∧
      hoststat_entry (mta_hoststat_cache ex_state_hoststat "Example.COM" 9) "Example.COM" =
        some { tm := 500, error := "Connection refused", deferred := [5, 11, 12, 9] } ∧
      hoststat_entry (mta_hoststat_uncache (mta_hoststat_cache ex_state_hoststat "Example.COM" 9)
        "Example.COM" 9) "Example.COM" =
        some { tm := 500, error := "Connection refused", deferred := [5, 11, 12] } :=
  ⟨by decide,
    (mta_hoststat_unknown_host 600 ex_state_hoststat "Example.NET" "Timeout" 9).1 (by decide),
    by decide, by decide,
    (mta_hoststat_unknown_host 600 ex_state_hoststat "Example.COM" "Timeout" 9).2.2.2.2
      { tm := 500, error := "Connection refused", deferred := [5, 11, 12] } (by decide)
      (by decide)⟩

/-- C34: the greedy loop of `mta_connect` terminates.  A pass spawns a session
only when `relay.nconn <= 2` or `relay.nconn < ntask / 2`; the spawn adds one
to `relay.nconn` and leaves `ntask` and `nconn_ready`, so the count is at most
`max(3, ntask / 2)` afterwards.  With more than `max(3, ntask / 2)` passes of
fuel the call returns; `ntask` and `nconn_ready` are those of the start, the
sessions of the relay started by the call are as many as `relay.nconn` has
grown, at most `max(3, ntask / 2)`, and if any was started `relay.nconn` is at
most `max(3, ntask / 2)` at the end. -/
theorem mta_connect_spawn_bound (fuel : Nat) (now : Int) (S : mta_state) (c : connector_ptr)
    (hfuel : max 3 ((S.relays c.1).ntask / 2) < fuel) :
    (∀ k S1, mta_connect_select now S c = connect_select.route k S1 →
      ((S.relays c.1).nconn ≤ 2 ∨ (S.relays c.1).nconn < (S.relays c.1).ntask / 2) ∧
        ((mta_connect_spawn now S1 c k).relays c.1).nconn = (S.relays c.1).nconn + 1 ∧
        ((mta_connect_spawn now S1 c k).relays c.1).ntask = (S.relays c.1).ntask ∧
        ((mta_connect_spawn now S1 c k).relays c.1).nconn_ready = (S.relays c.1).nconn_ready ∧
        ((mta_connect_spawn now S1 c k).relays c.1).nconn ≤
          max 3 ((S.relays c.1).ntask / 2)) ∧
      ∃ T, mta_connect fuel now S c = some T ∧
        (T.relays c.1).ntask = (S.relays c.1).ntask ∧
        (T.relays c.1).nconn_ready = (S.relays c.1).nconn_ready ∧
        relay_sessions c.1 T + (S.relays c.1).nconn =
          relay_sessions c.1 S + (T.relays c.1).nconn ∧
        relay_sessions c.1 T ≤ relay_sessions c.1 S + max 3 ((S.relays c.1).ntask / 2) ∧
        ((T.relays c.1).nconn = (S.relays c.1).nconn ∨
          ((S.relays c.1).nconn < (T.relays c.1).nconn ∧
            (T.relays c.1).nconn ≤ max 3 ((S.relays c.1).ntask / 2))) := by
  constructor
  · intro k S1 hs
    obtain ⟨e1, _, _, _, _, _, _, _, _, _, _, _, _, _, hcap⟩ :=
      mta_connect_select_spec now S c k S1 hs
    obtain ⟨r1, r2, r3, _, _⟩ := mta_connect_spawn_relays now S1 c k
    rw [r1, r2, r3, e1]
    refine ⟨hcap, rfl, rfl, rfl, ?_⟩
    omega
  · obtain ⟨T, hT⟩ := mta_connect_terminates now c fuel S (by omega) (by omega)
    have hb := mta_connect_nconn_bound now c fuel S T hT
    obtain ⟨i1, i2, i3⟩ := mta_connect_invariant
      (relay_sessions_invariant now c.1 (S.relays c.1).nconn (relay_sessions c.1 S)
        (S.relays c.1).ntask (S.relays c.1).nconn_ready) c fuel S T
      ⟨Nat.add_comm _ _, rfl, rfl⟩ hT
    refine ⟨T, hT, i2, i3, ?_, ?_, hb⟩
    · omega
    · omega

/-- C34 on the backup MX scenario, where the relay has one task: four passes of
fuel are enough, and the call starts one session. -/
theorem mta_connect_spawn_bound_witness :
    max 3 (((ex_state_backup ex_host).relays ex_conn.1).ntask / 2) < 4 ∧
      (mta_connect 4 1000 (ex_state_backup ex_host) ex_conn).map
        (fun T => (relay_sessions 7 T, (T.relays 7).nconn)) = some (1, 1) ∧
      ∃ T, mta_connect 4 1000 (ex_state_backup ex_host) ex_conn = some T ∧
        (T.relays ex_conn.1).ntask = ((ex_state_backup ex_host).relays ex_conn.1).ntask ∧
        (T.relays ex_conn.1).nconn_ready =
          ((ex_state_backup ex_host).relays ex_conn.1).nconn_ready ∧
        relay_sessions ex_conn.1 T + ((ex_state_backup ex_host).relays ex_conn.1).nconn =
          relay_sessions ex_conn.1 (ex_state_backup ex_host) + (T.relays ex_conn.1).nconn ∧
        relay_sessions ex_conn.1 T ≤ relay_sessions ex_conn.1 (ex_state_backup ex_host) +
          max 3 (((ex_state_backup ex_host).relays ex_conn.1).ntask / 2) ∧
        ((T.relays ex_conn.1).nconn = ((ex_state_backup ex_host).relays ex_conn.1).nconn ∨
          (((ex_state_backup ex_host).relays ex_conn.1).nconn < (T.relays ex_conn.1).nconn ∧
            (T.relays ex_conn.1).nconn ≤
              max 3 (((ex_state_backup ex_host).relays ex_conn.1).ntask / 2))) :=
  ⟨by decide, by decide,
    (mta_connect_spawn_bound 4 1000 (ex_state_backup ex_host) ex_conn (by decide)).2⟩

/-- C33: the counters of a spawn and of the collect of its session.  The spawn
step of `mta_connect` on the connector `c` and the route `k` adds one to
exactly six connection counts (connector, relay, domain, route, source, host)
and one reference to the relay.  Let `X` be a later state with the connection
counts and the relay reference count of the state after the spawn, in which
the route is validated, the relay has no task left and the connector is
known: `mta_route_collect` returns, takes one off exactly the same six
counts, releases a reference of the relay and one of the route (which then
stays referenced, or is kept alive by its timer, or is freed), so the
connection counts and the relay reference count are those before the
spawn. -/
theorem mta_spawn_collect_round_trip (fuel : Nat) (now later : Int) (S X : mta_state)
    (c : connector_ptr) (k : route_ptr) (hk : k.1 = c.2)
    (hX : nconn_of X = nconn_of (mta_connect_spawn now S c k))
    (hXr : (X.relays c.1).refcount = ((mta_connect_spawn now S c k).relays c.1).refcount)
    (hXd : (X.relays c.1).domain = (S.relays c.1).domain)
    (hc : c.2 ∈ (X.relays c.1).connectors)
    (hv : has_flag (X.routes k).flags ROUTE_NEW = false) (hn : (X.relays c.1).ntask = 0)
    (href : (S.relays c.1).refcount ≠ 0) :
    nconn_of (mta_connect_spawn now S c k) = (nconn_of S).opened c (S.relays c.1).domain k ∧
      ((mta_connect_spawn now S c k).relays c.1).refcount = (S.relays c.1).refcount + 1 ∧
      ∃ T, mta_route_collect (fuel + 1) later X c.1 k = some T ∧
        nconn_of T = (nconn_of X).closed c.1 (X.relays c.1).domain k ∧
        (T.relays c.1).refcount = (X.relays c.1).refcount - 1 ∧
        ((T.routes k).refcount = (X.routes k).refcount - 1 ∨
          ((X.routes k).refcount = 1 ∧ (T.routes k).refcount = 1 ∧
            has_flag (T.routes k).flags ROUTE_RUNQ = true)) ∧
        nconn_of T = nconn_of S ∧ (T.relays c.1).refcount = (S.relays c.1).refcount := by
  have hs := nconn_of_spawn now S c k
  have hr : ((mta_connect_spawn now S c k).relays c.1).refcount =
      (S.relays c.1).refcount + 1 := by
    simp [mta_connect_spawn, mta_relay_ref]
  refine ⟨hs, hr, ?_⟩
  obtain ⟨T, t1, t2, t3, t4⟩ := mta_route_collect_counts fuel later X c.1 k (by rw [hk]; exact hc)
    hv hn (by rw [hXr, hr]; omega)
  refine ⟨T, t1, t2, t3, t4, ?_, ?_⟩
  · rw [t2, hX, hs, hXd]
    exact nconn_view.closed_opened _ c _ k hk
  · rw [t3, hXr, hr]
    omega

/-- C33 on the backup MX scenario: the session spawned at the time 1000 on the
validated route to `a` is collected at the time 1060, after it took the task
of the relay; the relay has one connection and two references in between,
and none and one afterwards, as before the spawn. -/
theorem mta_spawn_collect_round_trip_witness :
    ((ex_state_admitted.relays 7).nconn, (ex_state_admitted.relays 7).refcount) = (0, 1) ∧
      ((ex_state_collected.relays 7).nconn, (ex_state_collected.relays 7).refcount) = (1, 2) ∧
      (mta_route_collect 1 1060 ex_state_collected 7 ex_route_a).map
        (fun T => ((T.relays 7).nconn, (T.relays 7).refcount, (T.domains 1).nconn,
          (T.routes ex_route_a).nconn, (T.hosts ex_host_a).nconn)) = some (0, 1, 0, 0, 0) ∧
      ∃ T, mta_route_collect (0 + 1) 1060 ex_state_collected ex_conn.1 ex_route_a = some T ∧
        nconn_of T = (nconn_of ex_state_collected).closed ex_conn.1
          (ex_state_collected.relays ex_conn.1).domain ex_route_a ∧
        (T.relays ex_conn.1).refcount = (ex_state_collected.relays ex_conn.1).refcount - 1 ∧
        ((T.routes ex_route_a).refcount = (ex_state_collected.routes ex_route_a).refcount - 1 ∨
          ((ex_state_collected.routes ex_route_a).refcount = 1 ∧
            (T.routes ex_route_a).refcount = 1 ∧
            has_flag (T.routes ex_route_a).flags ROUTE_RUNQ = true)) ∧
        nconn_of T = nconn_of ex_state_admitted ∧
        (T.relays ex_conn.1).refcount = (ex_state_admitted.relays ex_conn.1).refcount :=
  ⟨by decide, by decide, by decide,
    (mta_spawn_collect_round_trip 0 1000 1060 ex_state_admitted ex_state_collected ex_conn
      ex_route_a rfl
      (by
        unfold nconn_of ex_state_collected
        simp only [nconn_view.mk.injEq, and_true]
        funext x
        by_cases e : x = 7
        · subst e; simp
        · simp [Function.update_noteq e])
      (by decide) (by decide) (by decide) (by decide) (by decide) (by decide)).2.2⟩

/-- C38 fails on the code in one direction.  The connector of the relay 7 waits
since the time 1000, with `CONNECTOR_WAIT` and its timer at 1020; at the time
1005 the tasks of the relay are flushed and `mta_connect` runs again on the
connector: it cancels the timer, finds no task and returns.  The connector
still has `CONNECTOR_WAIT`, and the connector run-queue is empty. -/
theorem mta_connect_wait_stale_counterexample :
    (has_flag (ex_state_scheduled.connectors ex_conn).flags CONNECTOR_WAIT = true ∧
        ex_state_scheduled.runq_connector = [(1020, ex_conn)]) ∧
      ex_state_stale.map
        (fun T => (has_flag (T.connectors ex_conn).flags CONNECTOR_WAIT, T.runq_connector)) =
        some (true, []) := by
  decide

/-- C38, amended: when every connector has at most one pending entry in the
connector run-queue and every connector with a pending entry has
`CONNECTOR_WAIT`, the same holds after `mta_connect` and after the connector
timer handler (which both return, given more than `max(3, ntask / 2)` passes
of fuel).  After `mta_connect` on a connector that was not waiting, and after
the timer handler, the connector handled has `CONNECTOR_WAIT` if and only if
it has a pending entry. -/
theorem mta_connect_wait_queue (fuel : Nat) (now : Int) (S : mta_state) (c : connector_ptr)
    (hI : connector_wait_acct S)
    (hfuel : max 3 ((S.relays c.1).ntask / 2) < fuel) :
    (∃ T, mta_connect fuel now S c = some T ∧ connector_wait_acct T ∧
        (has_flag (S.connectors c).flags CONNECTOR_WAIT = false → connector_wait_exact T c)) ∧
      ∀ tm, (tm, c) ∈ S.runq_connector →
        ∃ T, mta_on_timeout_connector fuel now (runq_connector_expire S (tm, c)) c = some T ∧
          connector_wait_acct T ∧ connector_wait_exact T c := by
  constructor
  · obtain ⟨T, hT⟩ := mta_connect_terminates now c fuel S (by omega) (by omega)
    exact ⟨T, hT, mta_connect_wait now c fuel S T hI hT⟩
  · intro tm he
    have hI1 := runq_connector_expire_acct S (tm, c) hI he
    unfold mta_on_timeout_connector
    dsimp only at hI1 ⊢
    obtain ⟨T, hT⟩ := mta_connect_terminates now c fuel
      { runq_connector_expire S (tm, c) with
        connectors := Function.update (runq_connector_expire S (tm, c)).connectors c
          (struct_mta_connector.mk
            (clr_flag ((runq_connector_expire S (tm, c)).connectors c).flags CONNECTOR_WAIT)
            ((runq_connector_expire S (tm, c)).connectors c).nconn
            ((runq_connector_expire S (tm, c)).connectors c).lastconn) }
      (by omega) (by
        show max 3 ((S.relays c.1).ntask / 2) < fuel + (S.relays c.1).nconn
        omega)
    obtain ⟨a1, a2⟩ := mta_connect_wait now c fuel _ T hI1 hT
    refine ⟨T, hT, a1, a2 ?_⟩
    simp only [Function.update_same]
    exact has_flag_clr_flag_self _ _

/-- C38, amended, on the connector of the relay 7 that waits with its timer at
1020: the timer fires at 1020, a session is started on the route to `a`, and
the connector waits again, with one entry at 1050, the end of the host delay. -/
theorem mta_connect_wait_queue_witness :
    connector_wait_acct ex_state_scheduled ∧
      max 3 ((ex_state_scheduled.relays ex_conn.1).ntask / 2) < 4 ∧
      ((mta_on_timeout_connector 4 1020
          (runq_connector_expire ex_state_scheduled (1020, ex_conn)) ex_conn).map
          (fun T => (has_flag (T.connectors ex_conn).flags CONNECTOR_WAIT, (T.relays 7).nconn)) =
          some (true, 1) ∧
        (mta_on_timeout_connector 4 1020
          (runq_connector_expire ex_state_scheduled (1020, ex_conn)) ex_conn).map
          (fun T => T.runq_connector) = some [(1050, ex_conn)]) ∧
      ∀ tm, (tm, ex_conn) ∈ ex_state_scheduled.runq_connector →
        ∃ T, mta_on_timeout_connector 4 1020
            (runq_connector_expire ex_state_scheduled (tm, ex_conn)) ex_conn = some T ∧
          connector_wait_acct T ∧ connector_wait_exact T ex_conn :=
  ⟨ex_state_scheduled_acct, by decide, ⟨by decide, by decide⟩,
    (mta_connect_wait_queue 4 1020 ex_state_scheduled ex_conn ex_state_scheduled_acct
      (by decide)).2⟩

/-- C35: the accounting of the tasks.  In every state reached through
`TRANSFER` messages, `mta_route_next_task` and `mta_flush` (and steps that
leave the task lists alone), `ntask` of every relay is the length of its task
list and the message ids of its tasks are pairwise distinct.  A `TRANSFER`
puts the message id of the envelope at the tail of the ids of the relay,
unless a task of the message is there already; `mta_route_next_task` hands
out the head of the list and leaves the tail, and on an empty list it returns
no task and leaves the state, with `ntask = 0`. -/
theorem mta_task_accounting (S : mta_state) (h : task_reachable S) :
    (∀ r, (S.relays r).ntask = (S.relays r).tasks.length ∧ (relay_msgids S r).Nodup) ∧
      (∀ evp,
        relay_msgids (mta_imsg_transfer_enqueue S evp).2 (mta_imsg_transfer_enqueue S evp).1 =
          if evpid_to_msgid evp.id ∈
              (if (mta_imsg_transfer_enqueue S evp).1 ∈ S.relays_tree then
                relay_msgids S (mta_imsg_transfer_enqueue S evp).1 else []) then
            relay_msgids S (mta_imsg_transfer_enqueue S evp).1
          else
            (if (mta_imsg_transfer_enqueue S evp).1 ∈ S.relays_tree then
                relay_msgids S (mta_imsg_transfer_enqueue S evp).1 else []) ++
              [evpid_to_msgid evp.id]) ∧
      (∀ r k, (mta_route_next_task S r k).1 = (S.relays r).tasks.head? ∧
        ((mta_route_next_task S r k).2.relays r).tasks = (S.relays r).tasks.tail ∧
        ((mta_route_next_task S r k).2.relays r).ntask = (S.relays r).ntask - 1) ∧
      ∀ r k, (S.relays r).tasks = [] →
        mta_route_next_task S r k = (none, S) ∧ (S.relays r).ntask = 0 := by
  have hS := task_reachable_acct h
  refine ⟨hS, ?_, ?_, ?_⟩
  · intro evp
    have hR : task_acct (mta_relay S evp).2 := by
      rcases mta_relay_tasks S evp with ⟨a, _⟩ | ⟨a, _⟩
      · exact task_acct_of_tasks a hS
      · exact task_acct_flush a hS
    obtain ⟨_, q2, _⟩ := mta_imsg_transfer_task_spec (mta_relay S evp).2 (mta_relay S evp).1 evp hR
    have e1 : (mta_imsg_transfer_enqueue S evp).1 = (mta_relay S evp).1 := rfl
    have e2 : (mta_imsg_transfer_enqueue S evp).2 =
        mta_imsg_transfer_task (mta_relay S evp).2 (mta_relay S evp).1 evp := rfl
    rw [e1, e2, q2]
    rcases mta_relay_tasks S evp with ⟨a, b⟩ | ⟨a, b⟩
    · have hm : relay_msgids (mta_relay S evp).2 (mta_relay S evp).1 =
          relay_msgids S (mta_relay S evp).1 := by
        have := congrFun a (mta_relay S evp).1
        unfold relay_tasks at this
        simp only [Prod.mk.injEq] at this
        unfold relay_msgids
        rw [this.2]
      rw [hm, if_pos b]
    · have hm : relay_msgids (mta_relay S evp).2 (mta_relay S evp).1 = [] := by
        have := congrFun a (mta_relay S evp).1
        unfold relay_tasks at this
        simp only [Function.update_same, Prod.mk.injEq] at this
        unfold relay_msgids
        rw [this.2]
        rfl
      rw [hm, if_neg b]
      simp
  · intro r k
    obtain ⟨n1, n2⟩ := mta_route_next_task_spec S r k
    have := congrFun n2 r
    unfold relay_tasks at this
    simp only [Function.update_same, Prod.mk.injEq] at this
    refine ⟨n1, this.2, ?_⟩
    rw [this.1]
    obtain ⟨a1, _⟩ := hS r
    cases ht : (S.relays r).tasks with
    | nil =>
      rw [ht] at a1
      simp [a1]
    | cons t ts =>
      rw [ht] at a1
      simp only [reduceCtorEq, if_false]
      rw [a1]
      simp [size_dec_succ]
  · intro r k ht
    obtain ⟨a1, _⟩ := hS r
    refine ⟨?_, by rw [a1, ht]; rfl⟩
    unfold mta_route_next_task
    rw [ht]

/-- C35 on the queue of `ex_state_queued`: the relay has the two tasks of the
messages 1 and 2, in the order of their first envelopes, and
`mta_route_next_task` hands out the task of the message 1 with its two
envelopes. -/
theorem mta_task_accounting_witness :
    (relay_msgids ex_state_queued 1 = [1, 2] ∧ (ex_state_queued.relays 1).ntask = 2 ∧
        (mta_route_next_task ex_state_queued 1 ex_route_a).1.map
          (fun t => (t.msgid, t.envelopes.map (fun e => e.id))) =
          some (1, [4294967297, 4294967298])) ∧
      (∀ r, (ex_state_queued.relays r).ntask = (ex_state_queued.relays r).tasks.length ∧
        (relay_msgids ex_state_queued r).Nodup) ∧
      (∀ evp,
        relay_msgids (mta_imsg_transfer_enqueue ex_state_queued evp).2
            (mta_imsg_transfer_enqueue ex_state_queued evp).1 =
          if evpid_to_msgid evp.id ∈
              (if (mta_imsg_transfer_enqueue ex_state_queued evp).1 ∈
                  ex_state_queued.relays_tree then
                relay_msgids ex_state_queued (mta_imsg_transfer_enqueue ex_state_queued evp).1
              else []) then
            relay_msgids ex_state_queued (mta_imsg_transfer_enqueue ex_state_queued evp).1
          else
            (if (mta_imsg_transfer_enqueue ex_state_queued evp).1 ∈
                  ex_state_queued.relays_tree then
                relay_msgids ex_state_queued (mta_imsg_transfer_enqueue ex_state_queued evp).1
              else []) ++
              [evpid_to_msgid evp.id]) ∧
      (∀ r k, (mta_route_next_task ex_state_queued r k).1 =
          (ex_state_queued.relays r).tasks.head? ∧
        ((mta_route_next_task ex_state_queued r k).2.relays r).tasks =
          (ex_state_queued.relays r).tasks.tail ∧
        ((mta_route_next_task ex_state_queued r k).2.relays r).ntask =
          (ex_state_queued.relays r).ntask - 1) ∧
      ∀ r k, (ex_state_queued.relays r).tasks = [] →
        mta_route_next_task ex_state_queued r k = (none, ex_state_queued) ∧
          (ex_state_queued.relays r).ntask = 0 :=
  ⟨⟨by decide, by decide, by decide⟩,
    mta_task_accounting ex_state_queued ex_state_queued_reachable⟩

/-- C29: the classification of a search without route.  When `mta_find_route`
returns no route (at a time `now >= 0`), the statements after the loop apply
exactly the outcome that the specification gives for the entries that the
loop examined, the first that matches: `ERROR_MX` on the connector if every
examined entry was ignored (none was seen); else `LIMIT_ROUTE` in `limits` if
a route was blocked by an open probe or the route cap; else `LIMIT_HOST` if a
host was at its cap; else `nextconn` is raised to the earliest deadline of the
delayed hosts and routes if that is later; else `ERROR_FAMILY` if an entry
had the wrong address family; else `ERROR_ROUTE_NET` and `ERROR_ROUTE_SMTP`
according to the disable bits of the suspended routes.  One of the six
always matches. -/
theorem mta_find_route_no_route_outcome (S : mta_state) (c : connector_ptr) (now : Int)
    (limits : Nat) (nextconn : Int) (h0 : 0 ≤ now)
    (hr : (mta_find_route S c now limits nextconn).route = none) :
    (find_route_examined now S c).map (fun e => (e.mx, e.verdict)) =
        (mta_find_route S c now limits nextconn).log ∧
      ∃ o, no_route_classify (deref_limits (S.relays c.1).limits) c
            (find_route_examined now S c) = some o ∧
        ((mta_find_route S c now limits nextconn).state,
            (mta_find_route S c now limits nextconn).limits,
            (mta_find_route S c now limits nextconn).nextconn) =
          o.apply (find_route_exit_state now S c) c limits nextconn := by
  obtain ⟨e1, e2, e3⟩ := mta_find_route_loop_exams now (deref_limits (S.relays c.1).limits) c
    (S.domains (S.relays c.1).domain).mxs find_route_vars_init S
  have hb := mta_find_route_result_best S c now limits nextconn hr
  obtain ⟨_, hc⟩ := mta_find_route_loop_no_candidate now (deref_limits (S.relays c.1).limits) c
    (S.domains (S.relays c.1).domain).mxs find_route_vars_init S hb
  obtain ⟨n1, n2, n3⟩ := mta_find_route_no_route S c now limits nextconn hr
  refine ⟨?_, ?_⟩
  · rw [(mta_find_route_log S c now limits nextconn).1]
    exact e3
  · obtain ⟨o, o1, o2⟩ := mta_find_route_none_classify now (deref_limits (S.relays c.1).limits) c
      (find_route_exit_state now S c) (find_route_exit now S c) (find_route_examined now S c)
      limits nextconn h0 e1 e2 hc
    refine ⟨o, o1, ?_⟩
    rw [← o2, n1, n2, n3]
    rfl

/-- C29 on an IPv6 source with a single IPv4 MX: the search returns no route,
the connector ends with `CONNECTOR_ERROR_FAMILY` only, and `limits` and
`nextconn` are as before. -/
theorem mta_find_route_no_route_outcome_witness :
    (0 : Int) ≤ 1000 ∧
      (mta_find_route ex_state_family (7, some ex_src_v6) 1000 0 1000).route = none ∧
      (((mta_find_route ex_state_family (7, some ex_src_v6) 1000 0 1000).state.connectors
            (7, some ex_src_v6)).flags = CONNECTOR_ERROR_FAMILY ∧
        (mta_find_route ex_state_family (7, some ex_src_v6) 1000 0 1000).limits = 0 ∧
        (mta_find_route ex_state_family (7, some ex_src_v6) 1000 0 1000).nextconn = 1000 ∧
        no_route_classify (deref_limits (ex_state_family.relays 7).limits) (7, some ex_src_v6)
          (find_route_examined 1000 ex_state_family (7, some ex_src_v6)) =
          some no_route_outcome.error_family) ∧
      (find_route_examined 1000 ex_state_family (7, some ex_src_v6)).map
          (fun e => (e.mx, e.verdict)) =
        (mta_find_route ex_state_family (7, some ex_src_v6) 1000 0 1000).log ∧
      ∃ o, no_route_classify
            (deref_limits (ex_state_family.relays (7, some ex_src_v6).1).limits)
            (7, some ex_src_v6) (find_route_examined 1000 ex_state_family (7, some ex_src_v6)) =
          some o ∧
        ((mta_find_route ex_state_family (7, some ex_src_v6) 1000 0 1000).state,
            (mta_find_route ex_state_family (7, some ex_src_v6) 1000 0 1000).limits,
            (mta_find_route ex_state_family (7, some ex_src_v6) 1000 0 1000).nextconn) =
          o.apply (find_route_exit_state 1000 ex_state_family (7, some ex_src_v6))
            (7, some ex_src_v6) 0 1000 :=
  ⟨by decide, by decide, ⟨by decide, by decide, by decide, by decide⟩,
    mta_find_route_no_route_outcome ex_state_family (7, some ex_src_v6) 1000 0 1000 (by decide)
      (by decide)⟩

/-- C28: least-loaded selection with first-wins ties.  In a state where every
route of the tree has a reference, with the MX list in the order of the
preferences and no preference below -1, the route that `mta_find_route`
returns is the route to the host of an examined entry `e` that was selected.
The candidates among the examined entries are exactly the entries that pass
every admission check; the examined entries are the entries of the MX list up
to the preference of `e`, and every candidate has the preference of `e`, so
no lower level has a candidate.  The `nconn` of the route of `e` is smaller
than that of every candidate examined before `e` and at most that of every
candidate examined after `e`: it is minimal, and `e` is the first entry with
the minimum.  The route has this `nconn` in the state that is returned. -/
theorem mta_find_route_least_loaded (S : mta_state) (c : connector_ptr) (now : Int) (limits : Nat)
    (nextconn : Int) (k : route_ptr) (hS : routes_referenced S)
    (hsorted : (S.domains (S.relays c.1).domain).mxs.Pairwise
      (fun a b => a.preference ≤ b.preference))
    (hpref : ∀ m ∈ (S.domains (S.relays c.1).domain).mxs, -1 ≤ m.preference)
    (hr : (mta_find_route S c now limits nextconn).route = some k) :
    ∃ E1 e E2, find_route_examined now S c = E1 ++ e :: E2 ∧
      e.verdict = mx_verdict.selected ∧ k = (c.2, e.mx.host) ∧
      (∀ x ∈ find_route_examined now S c,
        x.candidate = true ↔
          find_route_exam.admitted now (deref_limits (S.relays c.1).limits) c x) ∧
      (find_route_examined now S c).map (fun x => x.mx) =
        (S.domains (S.relays c.1).domain).mxs.takeWhile
          (fun m => decide (m.preference ≤ e.mx.preference)) ∧
      (∀ x ∈ find_route_examined now S c, x.candidate = true →
        x.mx.preference = e.mx.preference) ∧
      (∀ x ∈ E1, x.candidate = true → (e.route c).nconn < (x.route c).nconn) ∧
      (∀ x ∈ E2, x.candidate = true → (e.route c).nconn ≤ (x.route c).nconn) ∧
      ((mta_find_route S c now limits nextconn).state.routes k).nconn = (e.route c).nconn := by
  have hbest : (mta_find_route_loop now (deref_limits (S.relays c.1).limits) c
      (S.domains (S.relays c.1).domain).mxs find_route_vars_init S).vars.best = some k ∧
      (mta_find_route S c now limits nextconn).state =
        (mta_find_route_loop now (deref_limits (S.relays c.1).limits) c
          (S.domains (S.relays c.1).domain).mxs find_route_vars_init S).state := by
    unfold mta_find_route at hr ⊢
    dsimp only at hr ⊢
    split at hr
    · rename_i b hb
      cases hr
      rw [hb]
      exact ⟨rfl, rfl⟩
    · cases hr
  obtain ⟨hb, hst⟩ := hbest
  have hv0 : best_held find_route_vars_init S := by
    intro b h
    cases h
  have hlev := mta_find_route_exams_level now (deref_limits (S.relays c.1).limits) c
    (S.domains (S.relays c.1).domain).mxs find_route_vars_init S hsorted hpref
  rcases mta_find_route_loop_select now (deref_limits (S.relays c.1).limits) c
      (S.domains (S.relays c.1).domain).mxs find_route_vars_init S hS hv0 k hb with
    ⟨h, _⟩ | ⟨E1, e, E2, i1, i2, i3, i4, i5, i6, _⟩
  · cases h
  · have he : e ∈ find_route_examined now S c := by
      unfold find_route_examined
      rw [i1]
      simp
    have hce : e.candidate = true := (find_route_exam.candidate_iff e).2 (Or.inr i2)
    have hpe := hlev e he hce
    refine ⟨E1, e, E2, i1, i2, i3, ?_, ?_, ?_, i5, i6, ?_⟩
    · exact mta_find_route_exams_admitted now _ c _ _ _
    · rw [hpe]
      exact mta_find_route_exams_upto now _ c _ _ _
    · intro x hx hc
      rw [hpe]
      exact hlev x hx hc
    · rw [hst]
      exact i4

/-- C28 on three MX of preference 10 whose routes carry 2, 1 and 1
connections, followed by an MX of preference 20: `a` is selected first, `b`
replaces it, `c` with as many connections as `b` is found worse, the entry of
preference 20 is not examined, and the route to `b` is returned. -/
theorem mta_find_route_least_loaded_witness :
    (routes_referenced ex_state_loaded ∧
      (ex_state_loaded.domains (ex_state_loaded.relays ex_conn.1).domain).mxs.Pairwise
        (fun a b => a.preference ≤ b.preference) ∧
      (∀ m ∈ (ex_state_loaded.domains (ex_state_loaded.relays ex_conn.1).domain).mxs,
        -1 ≤ m.preference) ∧
      (mta_find_route ex_state_loaded ex_conn 1000 0 1000).route = some (none, ex_host_b) ∧
      (mta_find_route ex_state_loaded ex_conn 1000 0 1000).log =
        [(mta_mx.mk ex_host_a 10, mx_verdict.selected),
          (mta_mx.mk ex_host_b 10, mx_verdict.selected),
          (mta_mx.mk ex_host_c 10, mx_verdict.worse)]) ∧
      ∃ E1 e E2, find_route_examined 1000 ex_state_loaded ex_conn = E1 ++ e :: E2 ∧
        e.verdict = mx_verdict.selected ∧ ((none, ex_host_b) : route_ptr) = (ex_conn.2, e.mx.host) ∧
        (∀ x ∈ find_route_examined 1000 ex_state_loaded ex_conn,
          x.candidate = true ↔
            find_route_exam.admitted 1000 (deref_limits (ex_state_loaded.relays ex_conn.1).limits)
              ex_conn x) ∧
        (find_route_examined 1000 ex_state_loaded ex_conn).map (fun x => x.mx) =
          (ex_state_loaded.domains (ex_state_loaded.relays ex_conn.1).domain).mxs.takeWhile
            (fun m => decide (m.preference ≤ e.mx.preference)) ∧
        (∀ x ∈ find_route_examined 1000 ex_state_loaded ex_conn, x.candidate = true →
          x.mx.preference = e.mx.preference) ∧
        (∀ x ∈ E1, x.candidate = true → (e.route ex_conn).nconn < (x.route ex_conn).nconn) ∧
        (∀ x ∈ E2, x.candidate = true → (e.route ex_conn).nconn ≤ (x.route ex_conn).nconn) ∧
        ((mta_find_route ex_state_loaded ex_conn 1000 0 1000).state.routes
          (none, ex_host_b)).nconn = (e.route ex_conn).nconn :=
  ⟨⟨⟨by decide, by decide⟩, by decide, by decide, by decide, by decide⟩,
    mta_find_route_least_loaded ex_state_loaded ex_conn 1000 0 1000 (none, ex_host_b)
      ⟨by decide, by decide⟩ (by decide) (by decide) (by decide)⟩

/-- C21 fails on the code.  After the `TRANSFER` of one envelope from the
initial state the relay 1 is in the tree and waits for the MX list of its
domain: it has one outstanding query, no session and no entry on the
run-queue, and its reference count is 1, the reference of the query, not
`1 + 1`: `mta_relay` takes a reference for the handler only, which the handler
releases before it returns. -/
theorem mta_relay_refcount_baseline_counterexample :
    refs_reachable ex_state_refs ∧ 1 ∈ ex_state_refs.relays_tree ∧
      relay_queries ex_state_refs 1 = 1 ∧ (ex_state_refs.relays 1).nconn = 0 ∧
      relay_on_runq ex_state_refs 1 = 0 ∧ (ex_state_refs.relays 1).refcount = 1 ∧
      ¬ (1 + (relay_queries ex_state_refs 1 : Int) + (ex_state_refs.relays 1).nconn +
          relay_on_runq ex_state_refs 1 ≤ (ex_state_refs.relays 1).refcount) := by
  have h := ex_state_refs_counts
  simp only [Prod.mk.injEq, decide_eq_true_eq] at h
  obtain ⟨h1, h2, h3, h4, h5⟩ := h
  refine ⟨ex_state_refs_reachable, h1, h2, h3, h4, h5, ?_⟩
  rw [h2, h3, h4, h5]
  decide

/-- C21, amended: in every state in which a handler has returned (the
`TRANSFER` of an envelope; the reply to a secret, preference, source or MX
query; the expiry of a relay, connector or route timer; the entry points of a
session `mta_route_ok`, `mta_route_down`, `mta_route_error`,
`mta_source_error`, `mta_route_next_task` and `mta_route_collect`;
`RESUME_ROUTE`; and every step that leaves the relays, the wait trees and the
run-queue of the relays alone), every relay of the relay tree has a reference,
and its reference count is at least the number of its outstanding queries
plus the number of its sessions plus one if it is on the run-queue of the
relays. -/
theorem mta_relay_refcount_covers (S : mta_state) (h : refs_reachable S) (r : relay_ptr)
    (hr : r ∈ S.relays_tree) :
    1 ≤ (S.relays r).refcount ∧
      (relay_queries S r : Int) + (S.relays r).nconn + relay_on_runq S r ≤
        (S.relays r).refcount := by
  have hI := refs_ok_reachable S h
  have h1 := hI.pos r hr
  have h2 := hI.refs r hr
  have h3 := relay_on_runq_le S r
  refine ⟨h1, ?_⟩
  have e1 : (relay_refs S).refcount r = (S.relays r).refcount := rfl
  have e2 : (relay_refs S).nconn r = (S.relays r).nconn := rfl
  rw [e1, e2] at h2
  unfold relay_queries
  push_cast at h2 ⊢
  omega

/-- C21, amended, on the state after the `TRANSFER` of one envelope: the relay
1 is in the tree, and its reference count 1 covers its one outstanding
query. -/
theorem mta_relay_refcount_covers_witness :
    (refs_reachable ex_state_refs ∧ 1 ∈ ex_state_refs.relays_tree) ∧
      (1 ≤ (ex_state_refs.relays 1).refcount ∧
        (relay_queries ex_state_refs 1 : Int) + (ex_state_refs.relays 1).nconn +
            relay_on_runq ex_state_refs 1 ≤ (ex_state_refs.relays 1).refcount) :=
  ⟨⟨ex_state_refs_reachable,
      of_decide_eq_true (congrArg (fun t => t.1) ex_state_refs_counts)⟩,
    mta_relay_refcount_covers ex_state_refs ex_state_refs_reachable 1
      (of_decide_eq_true (congrArg (fun t => t.1) ex_state_refs_counts))⟩

end Mta
